import Mathlib

/-!
# Front end of the Mila compiler: lexer and recursive-descent parser

A shallow embedding of `lexer/Position`, `lexer/Token`, `lexer/Lexer` and
`parser/Parser`, followed by the properties proved about them.

Conventions of the embedding:

* the input stream `is` is the list of characters not yet read; `is.peek()` is the
  head of the list (`EOF` for the empty list) and `is.get()` drops the head;
* every label of `Lexer::readNextToken` is one function of the same name; the local
  buffers are passed as arguments;
* `int` is a mathematical integer wrapped to 32 bits after every arithmetic step
  (`wrapInt`), `unsigned` is a natural number taken modulo `2^32`;
* the `double` buffer of a real literal is kept in exact rational arithmetic;
* an exception is the `error` case of `Except`; the recursive descent takes a fuel
  argument that bounds the call depth, `FrontError.outOfFuel` reporting that it ran out.
-/

namespace Mila

deriving instance DecidableEq for Except

/-! ## Position -/

/-- Modulus of the 32-bit machine words. -/
def wordSize : Nat := 4294967296

/-- Value of an `int` computation: the mathematical result wrapped to signed 32 bits. -/
def wrapInt (x : Int) : Int := (x + 2147483648) % 4294967296 - 2147483648

/-- Line and column of a place in the source text (`unsigned` fields, both starting at 1). -/
structure Position where
  line : Nat
  col : Nat
  deriving DecidableEq, Repr

/-- Default position `1:1`. -/
def Position.start : Position := ⟨1, 1⟩

/-- Code of `Position::advance`: `col++`. -/
def Position.advance (p : Position) : Position :=
  { p with col := (p.col + 1) % wordSize }

/-- Code of `Position::nextLine`: `line++; col = 1`. -/
def Position.nextLine (p : Position) : Position :=
  { line := (p.line + 1) % wordSize, col := 1 }

/-! ## Tokens -/

/-- The enumeration `TokenType`. -/
inductive TokenType where
  | EOI | IDENTIFIER | INTEGER_LITERAL | REAL_LITERAL
  | PLUS | MINUS | MULTIPLY | DIVIDE | EQUAL | LESS | GREATER
  | NOT_EQUAL | LESS_EQUAL | GREATER_EQUAL | ASSIGN
  | SEMICOLON | COLON | COMMA | DOT | DOUBLE_DOT
  | LEFT_PAREN | RIGHT_PAREN | LEFT_BRACKET | RIGHT_BRACKET
  | INTEGER | REAL | ARRAY | OF | PROGRAM | VAR | CONST | BEGIN | END
  | FUNCTION | PROCEDURE | FORWARD | IF | THEN | ELSE | WHILE | DO | FOR
  | TO | DOWNTO | EXIT | BREAK
  | OR | NOT | AND | MOD | DIV
  deriving DecidableEq, Repr

/-- The variant `TokenValue = std::variant<int, double, std::string>`. -/
inductive TokenValue where
  | int (i : Int)
  | real (q : ℚ)
  | str (s : String)
  deriving DecidableEq

/-- The class `Token`: type, start position and optional payload. -/
structure Token where
  type : TokenType
  position : Position
  value : Option TokenValue
  deriving DecidableEq

/-- Errors of the front end: `LexerException`, `ParserException`, and the exhaustion of
the fuel of the embedding. -/
inductive FrontError where
  | lexer (message : String) (position : Position)
  | parser (rule : String) (actual : Token) (expected : List TokenType)
  | outOfFuel
  deriving DecidableEq

/-! ## Character classes (`<cctype>` in the "C" locale) -/

/-- The function `std::isspace`: space, `\t`, `\n`, `\v`, `\f`, `\r`. -/
def isspace (c : Char) : Bool := c.toNat = 32 || (9 ≤ c.toNat && c.toNat ≤ 13)

/-- The function `std::isdigit`. -/
def isdigit (c : Char) : Bool := 48 ≤ c.toNat && c.toNat ≤ 57

/-- The function `std::isalpha`. -/
def isalpha (c : Char) : Bool :=
  (65 ≤ c.toNat && c.toNat ≤ 90) || (97 ≤ c.toNat && c.toNat ≤ 122)

/-- The newline character. -/
def newline : Char := Char.ofNat 10

/-! ## Lexer -/

/-- The table `keywords` of `Lexer.cpp`. -/
def keywords : List (String × TokenType) :=
  [("integer", .INTEGER), ("real", .REAL), ("program", .PROGRAM), ("var", .VAR),
   ("const", .CONST), ("begin", .BEGIN), ("end", .END), ("array", .ARRAY),
   ("function", .FUNCTION), ("procedure", .PROCEDURE), ("if", .IF), ("then", .THEN),
   ("else", .ELSE), ("while", .WHILE), ("for", .FOR), ("do", .DO), ("to", .TO),
   ("downto", .DOWNTO), ("exit", .EXIT), ("break", .BREAK), ("forward", .FORWARD),
   ("of", .OF), ("or", .OR), ("not", .NOT), ("and", .AND), ("mod", .MOD), ("div", .DIV)]

/-- The function `isKeyword`: lookup of the identifier in `keywords`. -/
def isKeyword (identifier : String) : Option TokenType :=
  keywords.lookup identifier

/-- The mutable part of a `Lexer` that `readNextToken` works on: the unread input and
the two positions. -/
structure Cursor where
  is : List Char
  curPos : Position
  tokenStartPos : Position
  deriving DecidableEq

/-- Result of one run of `readNextToken`. -/
abbrev Scan := Except FrontError (Token × Cursor)

/-- Label `qLess`. -/
def qLess (is : List Char) (curPos tokenStartPos : Position) : Scan :=
  match is with
  | [] => .ok (⟨.LESS, tokenStartPos, none⟩, ⟨[], curPos, tokenStartPos⟩)
  | c :: cs =>
    if c = '>' then .ok (⟨.NOT_EQUAL, tokenStartPos, none⟩, ⟨cs, curPos.advance, tokenStartPos⟩)
    else if c = '=' then
      .ok (⟨.LESS_EQUAL, tokenStartPos, none⟩, ⟨cs, curPos.advance, tokenStartPos⟩)
    else .ok (⟨.LESS, tokenStartPos, none⟩, ⟨c :: cs, curPos, tokenStartPos⟩)

/-- Label `qGreater`. -/
def qGreater (is : List Char) (curPos tokenStartPos : Position) : Scan :=
  match is with
  | [] => .ok (⟨.GREATER, tokenStartPos, none⟩, ⟨[], curPos, tokenStartPos⟩)
  | c :: cs =>
    if c = '=' then
      .ok (⟨.GREATER_EQUAL, tokenStartPos, none⟩, ⟨cs, curPos.advance, tokenStartPos⟩)
    else .ok (⟨.GREATER, tokenStartPos, none⟩, ⟨c :: cs, curPos, tokenStartPos⟩)

/-- Label `qColon`. -/
def qColon (is : List Char) (curPos tokenStartPos : Position) : Scan :=
  match is with
  | [] => .ok (⟨.COLON, tokenStartPos, none⟩, ⟨[], curPos, tokenStartPos⟩)
  | c :: cs =>
    if c = '=' then .ok (⟨.ASSIGN, tokenStartPos, none⟩, ⟨cs, curPos.advance, tokenStartPos⟩)
    else .ok (⟨.COLON, tokenStartPos, none⟩, ⟨c :: cs, curPos, tokenStartPos⟩)

/-- Label `qDot`. -/
def qDot (is : List Char) (curPos tokenStartPos : Position) : Scan :=
  match is with
  | [] => .ok (⟨.DOT, tokenStartPos, none⟩, ⟨[], curPos, tokenStartPos⟩)
  | c :: cs =>
    if c = '.' then
      .ok (⟨.DOUBLE_DOT, tokenStartPos, none⟩, ⟨cs, curPos.advance, tokenStartPos⟩)
    else .ok (⟨.DOT, tokenStartPos, none⟩, ⟨c :: cs, curPos, tokenStartPos⟩)

/-- The token returned at the end of label `qIdentifier`. -/
def identifierToken (identifierBuffer : String) (tokenStartPos : Position) : Token :=
  match isKeyword identifierBuffer with
  | some kw => ⟨kw, tokenStartPos, none⟩
  | none => ⟨.IDENTIFIER, tokenStartPos, some (.str identifierBuffer)⟩

/-- Label `qIdentifier`. -/
def qIdentifier : List Char → Position → Position → String → Scan
  | [], curPos, tokenStartPos, identifierBuffer =>
    .ok (identifierToken identifierBuffer tokenStartPos, ⟨[], curPos, tokenStartPos⟩)
  | c :: cs, curPos, tokenStartPos, identifierBuffer =>
    if isdigit c || isalpha c || c = '_' then
      qIdentifier cs curPos.advance tokenStartPos (identifierBuffer.push c)
    else
      .ok (identifierToken identifierBuffer tokenStartPos, ⟨c :: cs, curPos, tokenStartPos⟩)

/-- Label `qDouble`; `dividerBuffer` is an `int`, `doubleNumberBuffer` is exact. -/
def qDouble : List Char → Position → Position → ℚ → Int → Scan
  | [], curPos, tokenStartPos, doubleNumberBuffer, _ =>
    .ok (⟨.REAL_LITERAL, tokenStartPos, some (.real doubleNumberBuffer)⟩,
         ⟨[], curPos, tokenStartPos⟩)
  | c :: cs, curPos, tokenStartPos, doubleNumberBuffer, dividerBuffer =>
    if isdigit c then
      qDouble cs curPos.advance tokenStartPos
        (doubleNumberBuffer + ((c.toNat : ℚ) - 48) / (dividerBuffer : ℚ))
        (wrapInt (dividerBuffer * 10))
    else
      .ok (⟨.REAL_LITERAL, tokenStartPos, some (.real doubleNumberBuffer)⟩,
           ⟨c :: cs, curPos, tokenStartPos⟩)

/-- Label `qInt10`. -/
def qInt10 : List Char → Position → Position → Int → Scan
  | [], curPos, tokenStartPos, intNumberBuffer =>
    .ok (⟨.INTEGER_LITERAL, tokenStartPos, some (.int intNumberBuffer)⟩,
         ⟨[], curPos, tokenStartPos⟩)
  | c :: cs, curPos, tokenStartPos, intNumberBuffer =>
    if isdigit c then
      qInt10 cs curPos.advance tokenStartPos
        (wrapInt (wrapInt (wrapInt (intNumberBuffer * 10) + c.toNat) - 48))
    else if c = '.' then
      match cs with
      | [] => .error (.lexer "Expected a digit after the dot in a real number." curPos.advance)
      | d :: _ =>
        if isdigit d then qDouble cs curPos.advance tokenStartPos intNumberBuffer 10
        else .error (.lexer "Expected a digit after the dot in a real number." curPos.advance)
    else
      .ok (⟨.INTEGER_LITERAL, tokenStartPos, some (.int intNumberBuffer)⟩,
           ⟨c :: cs, curPos, tokenStartPos⟩)

/-- Label `qInt8`. -/
def qInt8 : List Char → Position → Position → Int → Scan
  | [], curPos, tokenStartPos, intNumberBuffer =>
    .ok (⟨.INTEGER_LITERAL, tokenStartPos, some (.int intNumberBuffer)⟩,
         ⟨[], curPos, tokenStartPos⟩)
  | c :: cs, curPos, tokenStartPos, intNumberBuffer =>
    if isdigit c then
      if c.toNat > 55 then .error (.lexer "Invalid octal digit." curPos)
      else
        qInt8 cs curPos.advance tokenStartPos
          (wrapInt (wrapInt (wrapInt (intNumberBuffer * 8) + c.toNat) - 48))
    else
      .ok (⟨.INTEGER_LITERAL, tokenStartPos, some (.int intNumberBuffer)⟩,
           ⟨c :: cs, curPos, tokenStartPos⟩)

/-- Label `qInt16`. -/
def qInt16 : List Char → Position → Position → Int → Scan
  | [], curPos, tokenStartPos, intNumberBuffer =>
    .ok (⟨.INTEGER_LITERAL, tokenStartPos, some (.int intNumberBuffer)⟩,
         ⟨[], curPos, tokenStartPos⟩)
  | c :: cs, curPos, tokenStartPos, intNumberBuffer =>
    if isdigit c || isalpha c then
      if isalpha c && !(97 ≤ c.toNat && c.toNat ≤ 102) then
        .error (.lexer ("Invalid hex digit: " ++ toString c.toNat) curPos)
      else
        let digit : Int :=
          if isalpha c then wrapInt (wrapInt ((c.toNat : Int) - 97) + 10)
          else wrapInt ((c.toNat : Int) - 48)
        qInt16 cs curPos.advance tokenStartPos (wrapInt (wrapInt (intNumberBuffer * 16) + digit))
    else
      .ok (⟨.INTEGER_LITERAL, tokenStartPos, some (.int intNumberBuffer)⟩,
           ⟨c :: cs, curPos, tokenStartPos⟩)

/-- A token without payload that starts at `curPos` and is one character long: the common
body of the single-character cases of the `switch` in `qStart`. -/
def single (t : TokenType) (cs : List Char) (curPos : Position) : Scan :=
  .ok (⟨t, curPos, none⟩, ⟨cs, curPos.advance, curPos⟩)

mutual
/-- Label `qStart`. -/
def qStart : List Char → Position → Position → Scan
  | [], curPos, tokenStartPos => .ok (⟨.EOI, curPos, none⟩, ⟨[], curPos, tokenStartPos⟩)
  | c :: cs, curPos, tokenStartPos =>
    if isspace c then
      qStart cs (if c = newline then curPos.nextLine else curPos.advance) tokenStartPos
    else if c = '{' then qComment cs curPos tokenStartPos
    else if c = '+' then single .PLUS cs curPos
    else if c = '-' then single .MINUS cs curPos
    else if c = '*' then single .MULTIPLY cs curPos
    else if c = '/' then single .DIVIDE cs curPos
    else if c = '=' then single .EQUAL cs curPos
    else if c = '<' then qLess cs curPos.advance curPos
    else if c = '>' then qGreater cs curPos.advance curPos
    else if c = ':' then qColon cs curPos.advance curPos
    else if c = ';' then single .SEMICOLON cs curPos
    else if c = ',' then single .COMMA cs curPos
    else if c = '.' then qDot cs curPos.advance curPos
    else if c = '(' then single .LEFT_PAREN cs curPos
    else if c = ')' then single .RIGHT_PAREN cs curPos
    else if c = '[' then single .LEFT_BRACKET cs curPos
    else if c = ']' then single .RIGHT_BRACKET cs curPos
    else if c = '&' then qInt8 cs curPos.advance curPos 0
    else if c = '$' then qInt16 cs curPos.advance curPos 0
    else if isalpha c || c = '_' then
      qIdentifier cs curPos.advance curPos (String.mk [c])
    else if isdigit c then
      qInt10 cs curPos.advance curPos (wrapInt ((c.toNat : Int) - 48))
    else .error (.lexer "Unable to lex next token." curPos)
/-- Label `qComment`. -/
def qComment : List Char → Position → Position → Scan
  | [], curPos, _ => .error (.lexer "Unexpected end of file in a comment." curPos)
  | c :: cs, curPos, tokenStartPos =>
    if c = '}' then qStart cs curPos tokenStartPos else qComment cs curPos tokenStartPos
end

/-- The method `Lexer::readNextToken`. -/
def readNextToken (s : Cursor) : Scan := qStart s.is s.curPos s.tokenStartPos

/-- The class `Lexer`: the cursor and the token of lookahead. -/
structure Lexer where
  cursor : Cursor
  nextToken : Token
  deriving DecidableEq

/-- The constructor `Lexer::Lexer(is)`: positions at `1:1`, first token read eagerly. -/
def Lexer.new (is : List Char) : Except FrontError Lexer :=
  match readNextToken ⟨is, Position.start, Position.start⟩ with
  | .ok (tok, s) => .ok ⟨s, tok⟩
  | .error e => .error e

/-- The method `Lexer::peek`. -/
def Lexer.peek (l : Lexer) : Token := l.nextToken

/-- The method `Lexer::match`: the matched token, if any, and the lexer afterwards. -/
def Lexer.matchToken (l : Lexer) (tokenType : TokenType) :
    Except FrontError (Option Token × Lexer) :=
  if l.peek.type = tokenType then
    match readNextToken l.cursor with
    | .ok (tok, s) => .ok (some l.nextToken, ⟨s, tok⟩)
    | .error e => .error e
  else .ok (none, l)

/-! ## Abstract syntax tree -/

/-- The enumeration `PrimitiveTypeASTNode::PrimitiveType`. -/
inductive PrimitiveType where
  | INTEGER | REAL
  deriving DecidableEq, Repr

/-- The class `ArrayTypeASTNode`. -/
structure ArrayType where
  elemTypeNode : PrimitiveType
  lowerBound : Int
  upperBound : Int
  deriving DecidableEq, Repr

/-- The class `TypeASTNode` with its two subclasses. -/
inductive TypeNode where
  | primitive (t : PrimitiveType)
  | array (a : ArrayType)
  deriving DecidableEq, Repr

/-- The subclasses of `ExprASTNode`. -/
inductive Expr where
  | BinOp (op : Token) (lhsExprNode rhsExprNode : Expr)
  | UnaryOp (op : Token) (exprNode : Expr)
  | Literal (value : TokenValue)
  | DeclVarRef (refName : String)
  | DeclArrayRef (refName : String) (indexNode : Expr)
  | FunCall (funName : String) (argNodes : List Expr)

/-- The class `VarDeclASTNode`; `global` is the flag of `DeclASTNode`, false when built. -/
structure VarDecl where
  declName : String
  global : Bool
  typeNode : PrimitiveType
  deriving DecidableEq, Repr

/-- The subclasses of `StatementASTNode`. A `BlockASTNode` is `Block`, its flag `main`
is false when built; the body of a procedure or function is always a `Block`, the
initialisation of a `For` always an `Assign`, the target of an `Assign` always a
`DeclVarRef` or a `DeclArrayRef`. -/
inductive Stmt where
  | Block (main : Bool) (statementNodes : List Stmt)
  | CompoundStmt (statementNodes : List Stmt)
  | VarDeclStmt (decl : VarDecl)
  | ArrayDecl (declName : String) (global : Bool) (typeNode : ArrayType)
  | ConstDef (declName : String) (global : Bool) (exprNode : Expr)
      (typeNode : Option PrimitiveType)
  | ProcDecl (declName : String) (global : Bool) (paramNodes : List VarDecl)
      (optBlockNode : Option Stmt)
  | FunDecl (declName : String) (global : Bool) (paramNodes : List VarDecl)
      (optBlockNode : Option Stmt) (retTypeNode : PrimitiveType)
  | Assign (varNode : Expr) (exprNode : Expr)
  | If (condNode : Expr) (bodyNode : Stmt) (optElseBodyNode : Option Stmt)
  | While (condNode : Expr) (bodyNode : Stmt)
  | For (initNode : Stmt) (toNode : Expr) (bodyNode : Stmt) (increasing : Bool)
  | ProcCall (procName : String) (argNodes : List Expr)
  | EmptyStmt
  | Break
  | Exit

/-- The class `ProgramASTNode`. -/
structure Program where
  programName : String
  blockNode : Stmt

/-- The method `TypeASTNode::createDeclNode` of both subclasses. -/
def TypeNode.createDeclNode (t : TypeNode) (ident : String) : Stmt :=
  match t with
  | .primitive p => .VarDeclStmt ⟨ident, false, p⟩
  | .array a => .ArrayDecl ident false ⟨a.elemTypeNode, a.lowerBound, a.upperBound⟩

/-- The expression `std::get<std::string>(token.getValue().value())`; the parser applies
it to `IDENTIFIER` tokens only, which the lexer always builds with a string. -/
def Token.getString (t : Token) : String :=
  match t.value with
  | some (.str s) => s
  | _ => ""

/-- The expression `std::get<int>(token.getValue().value())`, applied to `INTEGER_LITERAL`
tokens only. -/
def Token.getInt (t : Token) : Int :=
  match t.value with
  | some (.int i) => i
  | _ => 0

/-- The expression `token.getValue().value()`, applied to literal tokens only. -/
def Token.getValue (t : Token) : TokenValue :=
  match t.value with
  | some v => v
  | none => .int 0

/-! ## Parser -/

/-- The method `Parser::match(std::initializer_list<TokenType>, rule)`; `all` is the whole
list, reported when no type matches. -/
def matchTypes (lexer : Lexer) (all : List TokenType) (rule : String) :
    List TokenType → Except FrontError (Token × Lexer)
  | [] => .error (.parser rule lexer.peek all)
  | tokenType :: rest =>
    match lexer.matchToken tokenType with
    | .error e => .error e
    | .ok (some token, lexer1) => .ok (token, lexer1)
    | .ok (none, _) => matchTypes lexer all rule rest

/-- The method `Parser::match(TokenType, rule)`. -/
def matchType (lexer : Lexer) (tokenType : TokenType) (rule : String) : Except FrontError (Token × Lexer) :=
  matchTypes lexer [tokenType] rule [tokenType]

/-- The method `Parser::parseUnsignedNumber`. -/
def parseUnsignedNumber (lexer : Lexer) : Except FrontError (Token × Lexer) :=
  match lexer.peek.type with
  | .INTEGER_LITERAL => matchType lexer .INTEGER_LITERAL "UnsignedNumber"
  | .REAL_LITERAL => matchType lexer .REAL_LITERAL "UnsignedNumber"
  | _ => .error (.parser "UnsignedNumber" lexer.peek [.REAL_LITERAL, .INTEGER_LITERAL])

/-- The method `Parser::parsePrimitiveType`. -/
def parsePrimitiveType (lexer : Lexer) : Except FrontError (PrimitiveType × Lexer) :=
  match lexer.peek.type with
  | .REAL => do
    let (_, lexer) ← matchType lexer .REAL "PrimitiveType"
    pure (.REAL, lexer)
  | .INTEGER => do
    let (_, lexer) ← matchType lexer .INTEGER "PrimitiveType"
    pure (.INTEGER, lexer)
  | _ => .error (.parser "PrimitiveType" lexer.peek [.REAL, .INTEGER])

/-- The method `Parser::parseSignedInteger`; the negation is an `int` operation. -/
def parseSignedInteger (lexer : Lexer) : Except FrontError (Int × Lexer) :=
  match lexer.peek.type with
  | .INTEGER_LITERAL => do
    let (intToken, lexer) ← matchType lexer .INTEGER_LITERAL "SignedInteger"
    pure (intToken.getInt, lexer)
  | .MINUS => do
    let (_, lexer) ← matchType lexer .MINUS "SignedInteger"
    let (intToken, lexer) ← matchType lexer .INTEGER_LITERAL "SignedInteger"
    pure (wrapInt (-intToken.getInt), lexer)
  | _ => .error (.parser "SignedInteger" lexer.peek [.INTEGER_LITERAL, .MINUS])

/-- The method `Parser::parseArrayType`. -/
def parseArrayType (lexer : Lexer) : Except FrontError (ArrayType × Lexer) :=
  match lexer.peek.type with
  | .ARRAY => do
    let (_, lexer) ← matchType lexer .ARRAY "ArrayType"
    let (_, lexer) ← matchType lexer .LEFT_BRACKET "ArrayType"
    let (lowerBound, lexer) ← parseSignedInteger lexer
    let (_, lexer) ← matchType lexer .DOUBLE_DOT "ArrayType"
    let (upperBound, lexer) ← parseSignedInteger lexer
    let (_, lexer) ← matchType lexer .RIGHT_BRACKET "ArrayType"
    let (_, lexer) ← matchType lexer .OF "ArrayType"
    let (typeNode, lexer) ← parsePrimitiveType lexer
    pure (⟨typeNode, lowerBound, upperBound⟩, lexer)
  | _ => .error (.parser "ArrayType" lexer.peek [.ARRAY])

/-- The method `Parser::parseType`. -/
def parseType (lexer : Lexer) : Except FrontError (TypeNode × Lexer) :=
  match lexer.peek.type with
  | .INTEGER | .REAL => do
    let (p, lexer) ← parsePrimitiveType lexer
    pure (.primitive p, lexer)
  | .ARRAY => do
    let (a, lexer) ← parseArrayType lexer
    pure (.array a, lexer)
  | _ => .error (.parser "Type" lexer.peek [.REAL, .INTEGER, .ARRAY])

/-- The method `Parser::parseTo`. -/
def parseTo (lexer : Lexer) : Except FrontError (Token × Lexer) :=
  match lexer.peek.type with
  | .TO => matchType lexer .TO "To"
  | .DOWNTO => matchType lexer .DOWNTO "To"
  | _ => .error (.parser "To" lexer.peek [.TO, .DOWNTO])

/-- The method `Parser::parseEqualityOperator`. -/
def parseEqualityOperator (lexer : Lexer) : Except FrontError (Token × Lexer) :=
  match lexer.peek.type with
  | .EQUAL => matchType lexer .EQUAL "EqualityOperator"
  | .NOT_EQUAL => matchType lexer .NOT_EQUAL "EqualityOperator"
  | _ => .error (.parser "EqualityOperator" lexer.peek [.EQUAL, .NOT_EQUAL])

/-- The method `Parser::parseRelationalOperator`. -/
def parseRelationalOperator (lexer : Lexer) : Except FrontError (Token × Lexer) :=
  match lexer.peek.type with
  | .LESS => matchType lexer .LESS "RelationalOperator"
  | .LESS_EQUAL => matchType lexer .LESS_EQUAL "RelationalOperator"
  | .GREATER => matchType lexer .GREATER "RelationalOperator"
  | .GREATER_EQUAL => matchType lexer .GREATER_EQUAL "RelationalOperator"
  | _ => .error (.parser "RelationalOperator" lexer.peek
      [.LESS, .LESS_EQUAL, .GREATER, .GREATER_EQUAL])

/-- The method `Parser::parseAdditiveOperator`. -/
def parseAdditiveOperator (lexer : Lexer) : Except FrontError (Token × Lexer) :=
  match lexer.peek.type with
  | .PLUS => matchType lexer .PLUS "AdditiveOperator"
  | .MINUS => matchType lexer .MINUS "AdditiveOperator"
  | _ => .error (.parser "AdditiveOperator" lexer.peek [.PLUS, .MINUS])

/-- The method `Parser::parseMultiplicativeOperator`. -/
def parseMultiplicativeOperator (lexer : Lexer) : Except FrontError (Token × Lexer) :=
  match lexer.peek.type with
  | .MULTIPLY => matchType lexer .MULTIPLY "MultiplicativeOperator"
  | .DIVIDE => matchType lexer .DIVIDE "MultiplicativeOperator"
  | .MOD => matchType lexer .MOD "MultiplicativeOperator"
  | .DIV => matchType lexer .DIV "MultiplicativeOperator"
  | _ => .error (.parser "MultiplicativeOperator" lexer.peek [.MULTIPLY, .DIVIDE, .MOD, .DIV])

/-- The method `Parser::parseUnaryOperator`. -/
def parseUnaryOperator (lexer : Lexer) : Except FrontError (Token × Lexer) :=
  match lexer.peek.type with
  | .MINUS => matchType lexer .MINUS "UnaryOperator"
  | .NOT => matchType lexer .NOT "UnaryOperator"
  | _ => .error (.parser "UnaryOperator" lexer.peek [.MINUS, .NOT])

/-- The expected set reported by the rules that start an expression. -/
def expressionFirst : List TokenType :=
  [.MINUS, .NOT, .IDENTIFIER, .LEFT_PAREN, .INTEGER_LITERAL, .REAL_LITERAL]

mutual
/-- The method `Parser::parseExpression`. -/
def parseExpression : Nat → Lexer → Except FrontError (Expr × Lexer)
  | 0, _ => .error .outOfFuel
  | fuel + 1, lexer =>
    match lexer.peek.type with
    | .MINUS | .NOT | .IDENTIFIER | .LEFT_PAREN | .INTEGER_LITERAL | .REAL_LITERAL =>
      parseLogicalOrExpression fuel lexer
    | _ => .error (.parser "Expression" lexer.peek expressionFirst)
/-- The method `Parser::parseLogicalOrExpression`. -/
def parseLogicalOrExpression : Nat → Lexer → Except FrontError (Expr × Lexer)
  | 0, _ => .error .outOfFuel
  | fuel + 1, lexer =>
    match lexer.peek.type with
    | .MINUS | .NOT | .IDENTIFIER | .LEFT_PAREN | .INTEGER_LITERAL | .REAL_LITERAL => do
      let (lhsExprNode, lexer) ← parseLogicalAndExpression fuel lexer
      parseLogicalOrExpressionR fuel lhsExprNode lexer
    | _ => .error (.parser "LogicalOrExpression" lexer.peek expressionFirst)
/-- The method `Parser::parseLogicalOrExpressionR`. -/
def parseLogicalOrExpressionR : Nat → Expr → Lexer → Except FrontError (Expr × Lexer)
  | 0, _, _ => .error .outOfFuel
  | fuel + 1, lhsExprNode, lexer =>
    match lexer.peek.type with
    | .OR => do
      let (op, lexer) ← matchType lexer .OR "LogicalOrExpressionR"
      let (rhsExprNode, lexer) ← parseLogicalAndExpression fuel lexer
      parseLogicalOrExpressionR fuel (.BinOp op lhsExprNode rhsExprNode) lexer
    | .SEMICOLON | .RIGHT_BRACKET | .THEN | .DO | .TO | .DOWNTO | .RIGHT_PAREN | .COMMA
    | .END | .ELSE =>
      pure (lhsExprNode, lexer)
    | _ => .error (.parser "LogicalOrExpressionR" lexer.peek
        [.OR, .RIGHT_BRACKET, .THEN, .DO, .TO, .DOWNTO, .RIGHT_PAREN, .COMMA, .SEMICOLON, .END,
         .ELSE])
/-- The method `Parser::parseLogicalAndExpression`. -/
def parseLogicalAndExpression : Nat → Lexer → Except FrontError (Expr × Lexer)
  | 0, _ => .error .outOfFuel
  | fuel + 1, lexer =>
    match lexer.peek.type with
    | .MINUS | .NOT | .IDENTIFIER | .LEFT_PAREN | .INTEGER_LITERAL | .REAL_LITERAL => do
      let (lhsExprNode, lexer) ← parseEqualityExpression fuel lexer
      parseLogicalAndExpressionR fuel lhsExprNode lexer
    | _ => .error (.parser "LogicalAndExpression" lexer.peek expressionFirst)
/-- The method `Parser::parseLogicalAndExpressionR`. -/
def parseLogicalAndExpressionR : Nat → Expr → Lexer → Except FrontError (Expr × Lexer)
  | 0, _, _ => .error .outOfFuel
  | fuel + 1, lhsExprNode, lexer =>
    match lexer.peek.type with
    | .AND => do
      let (op, lexer) ← matchType lexer .AND "LogicalAndExpressionR"
      let (rhsExprNode, lexer) ← parseEqualityExpression fuel lexer
      parseLogicalAndExpressionR fuel (.BinOp op lhsExprNode rhsExprNode) lexer
    | .OR | .SEMICOLON | .RIGHT_BRACKET | .THEN | .DO | .TO | .DOWNTO | .RIGHT_PAREN | .COMMA
    | .END | .ELSE =>
      pure (lhsExprNode, lexer)
    | _ => .error (.parser "LogicalAndExpressionR" lexer.peek
        [.AND, .OR, .RIGHT_BRACKET, .THEN, .DO, .TO, .DOWNTO, .RIGHT_PAREN, .COMMA, .SEMICOLON,
         .END, .ELSE])
/-- The method `Parser::parseEqualityExpression`. -/
def parseEqualityExpression : Nat → Lexer → Except FrontError (Expr × Lexer)
  | 0, _ => .error .outOfFuel
  | fuel + 1, lexer =>
    match lexer.peek.type with
    | .MINUS | .NOT | .IDENTIFIER | .LEFT_PAREN | .INTEGER_LITERAL | .REAL_LITERAL => do
      let (lhsExprNode, lexer) ← parseRelationalExpression fuel lexer
      parseEqualityExpressionR fuel lhsExprNode lexer
    | _ => .error (.parser "EqualityExpression" lexer.peek expressionFirst)
/-- The method `Parser::parseEqualityExpressionR`. -/
def parseEqualityExpressionR : Nat → Expr → Lexer → Except FrontError (Expr × Lexer)
  | 0, _, _ => .error .outOfFuel
  | fuel + 1, lhsExprNode, lexer =>
    match lexer.peek.type with
    | .EQUAL | .NOT_EQUAL => do
      let (op, lexer) ← parseEqualityOperator lexer
      let (rhsExprNode, lexer) ← parseRelationalExpression fuel lexer
      parseEqualityExpressionR fuel (.BinOp op lhsExprNode rhsExprNode) lexer
    | .AND | .OR | .SEMICOLON | .RIGHT_BRACKET | .THEN | .DO | .TO | .DOWNTO | .RIGHT_PAREN | .COMMA
    | .END | .ELSE =>
      pure (lhsExprNode, lexer)
    | _ => .error (.parser "EqualityExpressionR" lexer.peek
        [.EQUAL, .NOT_EQUAL, .AND, .OR, .RIGHT_BRACKET, .THEN, .DO, .TO, .DOWNTO, .RIGHT_PAREN,
         .COMMA, .SEMICOLON, .END, .ELSE])
/-- The method `Parser::parseRelationalExpression`. -/
def parseRelationalExpression : Nat → Lexer → Except FrontError (Expr × Lexer)
  | 0, _ => .error .outOfFuel
  | fuel + 1, lexer =>
    match lexer.peek.type with
    | .MINUS | .NOT | .IDENTIFIER | .LEFT_PAREN | .INTEGER_LITERAL | .REAL_LITERAL => do
      let (lhsExprNode, lexer) ← parseAdditiveExpression fuel lexer
      parseRelationalExpressionR fuel lhsExprNode lexer
    | _ => .error (.parser "RelationalExpression" lexer.peek expressionFirst)
/-- The method `Parser::parseRelationalExpressionR`. -/
def parseRelationalExpressionR : Nat → Expr → Lexer → Except FrontError (Expr × Lexer)
  | 0, _, _ => .error .outOfFuel
  | fuel + 1, lhsExprNode, lexer =>
    match lexer.peek.type with
    | .LESS | .LESS_EQUAL | .GREATER | .GREATER_EQUAL => do
      let (op, lexer) ← parseRelationalOperator lexer
      let (rhsExprNode, lexer) ← parseAdditiveExpression fuel lexer
      parseRelationalExpressionR fuel (.BinOp op lhsExprNode rhsExprNode) lexer
    | .EQUAL | .NOT_EQUAL | .AND | .OR | .SEMICOLON | .RIGHT_BRACKET | .THEN | .DO | .TO | .DOWNTO | .RIGHT_PAREN | .COMMA
    | .END | .ELSE =>
      pure (lhsExprNode, lexer)
    | _ => .error (.parser "RelationalExpressionR" lexer.peek
        [.LESS, .LESS_EQUAL, .GREATER, .GREATER_EQUAL, .EQUAL, .NOT_EQUAL, .AND, .OR,
         .RIGHT_BRACKET, .THEN, .DO, .TO, .DOWNTO, .RIGHT_PAREN, .COMMA, .SEMICOLON, .END,
         .ELSE])
/-- The method `Parser::parseAdditiveExpression`. -/
def parseAdditiveExpression : Nat → Lexer → Except FrontError (Expr × Lexer)
  | 0, _ => .error .outOfFuel
  | fuel + 1, lexer =>
    match lexer.peek.type with
    | .MINUS | .NOT | .IDENTIFIER | .LEFT_PAREN | .INTEGER_LITERAL | .REAL_LITERAL => do
      let (lhsExprNode, lexer) ← parseMultiplicativeExpression fuel lexer
      parseAdditiveExpressionR fuel lhsExprNode lexer
    | _ => .error (.parser "AdditiveExpression" lexer.peek expressionFirst)
/-- The method `Parser::parseAdditiveExpressionR`. -/
def parseAdditiveExpressionR : Nat → Expr → Lexer → Except FrontError (Expr × Lexer)
  | 0, _, _ => .error .outOfFuel
  | fuel + 1, lhsExprNode, lexer =>
    match lexer.peek.type with
    | .PLUS | .MINUS => do
      let (op, lexer) ← parseAdditiveOperator lexer
      let (rhsExprNode, lexer) ← parseMultiplicativeExpression fuel lexer
      parseAdditiveExpressionR fuel (.BinOp op lhsExprNode rhsExprNode) lexer
    | .LESS | .LESS_EQUAL | .GREATER | .GREATER_EQUAL | .EQUAL | .NOT_EQUAL | .AND | .OR
    | .SEMICOLON | .RIGHT_BRACKET | .THEN | .DO | .TO | .DOWNTO | .RIGHT_PAREN | .COMMA
    | .END | .ELSE =>
      pure (lhsExprNode, lexer)
    | _ => .error (.parser "AdditiveExpressionR" lexer.peek
        [.PLUS, .MINUS, .LESS, .LESS_EQUAL, .GREATER, .GREATER_EQUAL, .EQUAL, .NOT_EQUAL, .AND,
         .OR, .RIGHT_BRACKET, .THEN, .DO, .TO, .DOWNTO, .RIGHT_PAREN, .COMMA, .SEMICOLON,
         .END, .ELSE])
/-- The method `Parser::parseMultiplicativeExpression`. -/
def parseMultiplicativeExpression : Nat → Lexer → Except FrontError (Expr × Lexer)
  | 0, _ => .error .outOfFuel
  | fuel + 1, lexer =>
    match lexer.peek.type with
    | .MINUS | .NOT | .IDENTIFIER | .LEFT_PAREN | .INTEGER_LITERAL | .REAL_LITERAL => do
      let (lhsExprNode, lexer) ← parseUnaryExpression fuel lexer
      parseMultiplicativeExpressionR fuel lhsExprNode lexer
    | _ => .error (.parser "MultiplicativeExpression" lexer.peek expressionFirst)
/-- The method `Parser::parseMultiplicativeExpressionR`. -/
def parseMultiplicativeExpressionR : Nat → Expr → Lexer → Except FrontError (Expr × Lexer)
  | 0, _, _ => .error .outOfFuel
  | fuel + 1, lhsExprNode, lexer =>
    match lexer.peek.type with
    | .MULTIPLY | .DIVIDE | .MOD | .DIV => do
      let (op, lexer) ← parseMultiplicativeOperator lexer
      let (rhsExprNode, lexer) ← parseUnaryExpression fuel lexer
      parseMultiplicativeExpressionR fuel (.BinOp op lhsExprNode rhsExprNode) lexer
    | .PLUS | .MINUS | .LESS | .LESS_EQUAL | .GREATER | .GREATER_EQUAL | .EQUAL | .NOT_EQUAL
    | .AND | .OR | .SEMICOLON | .RIGHT_BRACKET | .THEN | .DO | .TO | .DOWNTO | .RIGHT_PAREN | .COMMA
    | .END | .ELSE =>
      pure (lhsExprNode, lexer)
    | _ => .error (.parser "MultiplicativeExpressionR" lexer.peek
        [.MULTIPLY, .DIVIDE, .MOD, .DIV, .PLUS, .MINUS, .LESS, .LESS_EQUAL, .GREATER,
         .GREATER_EQUAL, .EQUAL, .NOT_EQUAL, .AND, .OR, .RIGHT_BRACKET, .THEN, .DO, .TO,
         .DOWNTO, .RIGHT_PAREN, .COMMA, .SEMICOLON, .END, .ELSE])
/-- The method `Parser::parseUnaryExpression`. -/
def parseUnaryExpression : Nat → Lexer → Except FrontError (Expr × Lexer)
  | 0, _ => .error .outOfFuel
  | fuel + 1, lexer =>
    match lexer.peek.type with
    | .MINUS | .NOT => do
      let (op, lexer) ← parseUnaryOperator lexer
      let (exprNode, lexer) ← parseUnaryExpression fuel lexer
      pure (.UnaryOp op exprNode, lexer)
    | .IDENTIFIER | .LEFT_PAREN | .INTEGER_LITERAL | .REAL_LITERAL =>
      parsePrimaryExpression fuel lexer
    | _ => .error (.parser "UnaryExpression" lexer.peek expressionFirst)
/-- The method `Parser::parsePrimaryExpression`. -/
def parsePrimaryExpression : Nat → Lexer → Except FrontError (Expr × Lexer)
  | 0, _ => .error .outOfFuel
  | fuel + 1, lexer =>
    match lexer.peek.type with
    | .IDENTIFIER => do
      let (identifierToken, lexer) ← matchType lexer .IDENTIFIER "PrimaryExpression"
      parsePrimaryExpressionIdentifierContinuation fuel identifierToken.getString lexer
    | .LEFT_PAREN => do
      let (_, lexer) ← matchType lexer .LEFT_PAREN "PrimaryExpression"
      let (exprNode, lexer) ← parseExpression fuel lexer
      let (_, lexer) ← matchType lexer .RIGHT_PAREN "PrimaryExpression"
      pure (exprNode, lexer)
    | .INTEGER_LITERAL | .REAL_LITERAL => do
      let (numToken, lexer) ← parseUnsignedNumber lexer
      pure (.Literal numToken.getValue, lexer)
    | _ => .error (.parser "PrimaryExpression" lexer.peek
        [.IDENTIFIER, .LEFT_PAREN, .INTEGER_LITERAL, .REAL_LITERAL])
/-- The method `Parser::parsePrimaryExpressionIdentifierContinuation`. -/
def parsePrimaryExpressionIdentifierContinuation :
    Nat → String → Lexer → Except FrontError (Expr × Lexer)
  | 0, _, _ => .error .outOfFuel
  | fuel + 1, identifier, lexer =>
    match lexer.peek.type with
    | .LEFT_PAREN => do
      let (argNodes, lexer) ← parseFunctionArgs fuel lexer
      pure (.FunCall identifier argNodes, lexer)
    | .LEFT_BRACKET => parseArrayAccess fuel identifier lexer
    | .MULTIPLY | .DIVIDE | .MOD | .DIV | .PLUS | .MINUS | .LESS | .LESS_EQUAL | .GREATER
    | .GREATER_EQUAL | .EQUAL | .NOT_EQUAL | .AND | .OR | .SEMICOLON | .RIGHT_BRACKET | .THEN
    | .DO | .TO | .DOWNTO | .RIGHT_PAREN | .COMMA | .END | .ELSE =>
      pure (.DeclVarRef identifier, lexer)
    | _ => .error (.parser "PrimaryExpressionIdentifierContinuation" lexer.peek
        [.LEFT_PAREN, .LEFT_BRACKET, .MULTIPLY, .DIVIDE, .MOD, .DIV, .PLUS, .MINUS, .LESS,
         .LESS_EQUAL, .GREATER, .GREATER_EQUAL, .EQUAL, .NOT_EQUAL, .AND, .OR, .SEMICOLON,
         .RIGHT_BRACKET, .THEN, .DO, .TO, .DOWNTO, .RIGHT_PAREN, .COMMA, .END, .ELSE])
/-- The method `Parser::parseArrayAccess`. -/
def parseArrayAccess : Nat → String → Lexer → Except FrontError (Expr × Lexer)
  | 0, _, _ => .error .outOfFuel
  | fuel + 1, identifier, lexer =>
    match lexer.peek.type with
    | .LEFT_BRACKET => do
      let (_, lexer) ← matchType lexer .LEFT_BRACKET "ArrayAccess"
      let (indexNode, lexer) ← parseExpression fuel lexer
      let (_, lexer) ← matchType lexer .RIGHT_BRACKET "ArrayAccess"
      pure (.DeclArrayRef identifier indexNode, lexer)
    | _ => .error (.parser "ArrayAccess" lexer.peek [.LEFT_BRACKET])
/-- The method `Parser::parseFunctionArgs`. -/
def parseFunctionArgs : Nat → Lexer → Except FrontError (List Expr × Lexer)
  | 0, _ => .error .outOfFuel
  | fuel + 1, lexer =>
    match lexer.peek.type with
    | .LEFT_PAREN => do
      let (_, lexer) ← matchType lexer .LEFT_PAREN "FunctionArgs"
      let (paramNodes, lexer) ← parseArgumentList fuel lexer
      let (_, lexer) ← matchType lexer .RIGHT_PAREN "FunctionArgs"
      pure (paramNodes, lexer)
    | _ => .error (.parser "FunctionArgs" lexer.peek [.LEFT_PAREN])
/-- The method `Parser::parseArgumentList`. -/
def parseArgumentList : Nat → Lexer → Except FrontError (List Expr × Lexer)
  | 0, _ => .error .outOfFuel
  | fuel + 1, lexer =>
    match lexer.peek.type with
    | .MINUS | .NOT | .IDENTIFIER | .LEFT_PAREN | .REAL_LITERAL | .INTEGER_LITERAL => do
      let (argNode, lexer) ← parseExpression fuel lexer
      parseArgumentListR fuel [argNode] lexer
    | .RIGHT_PAREN => pure ([], lexer)
    | _ => .error (.parser "ArgumentList" lexer.peek
        [.MINUS, .NOT, .IDENTIFIER, .LEFT_PAREN, .REAL_LITERAL, .INTEGER_LITERAL, .RIGHT_PAREN])
/-- The method `Parser::parseArgumentListR`; the vector `argNodes` is passed in and
returned. -/
def parseArgumentListR : Nat → List Expr → Lexer → Except FrontError (List Expr × Lexer)
  | 0, _, _ => .error .outOfFuel
  | fuel + 1, argNodes, lexer =>
    match lexer.peek.type with
    | .COMMA => do
      let (_, lexer) ← matchType lexer .COMMA "ArgumentListR"
      let (argNode, lexer) ← parseExpression fuel lexer
      parseArgumentListR fuel (argNodes ++ [argNode]) lexer
    | .RIGHT_PAREN => pure (argNodes, lexer)
    | _ => .error (.parser "ArgumentListR" lexer.peek [.COMMA, .RIGHT_PAREN])
end

/-- The method `Parser::parseOptionalArrayAccess`; `none` is the null pointer. -/
def parseOptionalArrayAccess (fuel : Nat) (identifier : String) (lexer : Lexer) :
    Except FrontError (Option Expr × Lexer) :=
  match lexer.peek.type with
  | .LEFT_BRACKET => do
    let (arrayRefNode, lexer) ← parseArrayAccess fuel identifier lexer
    pure (some arrayRefNode, lexer)
  | .ASSIGN => pure (none, lexer)
  | _ => .error (.parser "ArrayAccess" lexer.peek [.LEFT_BRACKET, .ASSIGN])

/-- The method `Parser::parseSimpleStatementIdentifierContinuation`. -/
def parseSimpleStatementIdentifierContinuation (fuel : Nat) (identifier : String)
    (lexer : Lexer) : Except FrontError (Stmt × Lexer) :=
  match lexer.peek.type with
  | .LEFT_PAREN => do
    let (argNodes, lexer) ← parseFunctionArgs fuel lexer
    pure (.ProcCall identifier argNodes, lexer)
  | .LEFT_BRACKET | .ASSIGN => do
    let (arrayRefNode, lexer) ← parseOptionalArrayAccess fuel identifier lexer
    let (_, lexer) ← matchType lexer .ASSIGN "SimpleStatementIdentifierContinuation"
    let (exprNode, lexer) ← parseExpression fuel lexer
    match arrayRefNode with
    | some node => pure (.Assign node exprNode, lexer)
    | none => pure (.Assign (.DeclVarRef identifier) exprNode, lexer)
  | _ => .error (.parser "SimpleStatementIdentifierContinuation" lexer.peek
      [.ASSIGN, .LEFT_BRACKET, .LEFT_PAREN])

/-- The method `Parser::parseEmptyStatement`. -/
def parseEmptyStatement (lexer : Lexer) : Except FrontError (Stmt × Lexer) :=
  match lexer.peek.type with
  | .ELSE | .END | .SEMICOLON => pure (.EmptyStmt, lexer)
  | _ => .error (.parser "EmptyStatement" lexer.peek [.ELSE, .SEMICOLON, .END])

/-- The method `Parser::parseSimpleStatement`. -/
def parseSimpleStatement (fuel : Nat) (lexer : Lexer) : Except FrontError (Stmt × Lexer) :=
  match lexer.peek.type with
  | .ELSE | .END | .SEMICOLON => parseEmptyStatement lexer
  | .EXIT => do
    let (_, lexer) ← matchType lexer .EXIT "SimpleStatement"
    pure (.Exit, lexer)
  | .BREAK => do
    let (_, lexer) ← matchType lexer .BREAK "SimpleStatement"
    pure (.Break, lexer)
  | .IDENTIFIER => do
    let (identifierToken, lexer) ← matchType lexer .IDENTIFIER "SimpleStatement"
    parseSimpleStatementIdentifierContinuation fuel identifierToken.getString lexer
  | _ => .error (.parser "SimpleStatement" lexer.peek
      [.ELSE, .END, .BREAK, .SEMICOLON, .EXIT, .IDENTIFIER])

mutual
/-- The method `Parser::parseStatement`. -/
def parseStatement : Nat → Lexer → Except FrontError (Stmt × Lexer)
  | 0, _ => .error .outOfFuel
  | fuel + 1, lexer =>
    match lexer.peek.type with
    | .EXIT | .BREAK | .IDENTIFIER | .SEMICOLON | .END | .ELSE =>
      parseSimpleStatement fuel lexer
    | .BEGIN | .IF | .WHILE | .FOR => parseComplexStatement fuel lexer
    | _ => .error (.parser "Statement" lexer.peek
        [.ELSE, .BREAK, .SEMICOLON, .EXIT, .IDENTIFIER, .BEGIN, .IF, .FOR, .WHILE, .END])
/-- The method `Parser::parseComplexStatement`. -/
def parseComplexStatement : Nat → Lexer → Except FrontError (Stmt × Lexer)
  | 0, _ => .error .outOfFuel
  | fuel + 1, lexer =>
    match lexer.peek.type with
    | .BEGIN => parseCompoundStatement fuel lexer
    | .IF => parseIfStatement fuel lexer
    | .WHILE => parseWhileStatement fuel lexer
    | .FOR => parseForStatement fuel lexer
    | _ => .error (.parser "ComplexStatement" lexer.peek [.BEGIN, .IF, .FOR, .WHILE])
/-- The method `Parser::parseCompoundStatement`. -/
def parseCompoundStatement : Nat → Lexer → Except FrontError (Stmt × Lexer)
  | 0, _ => .error .outOfFuel
  | fuel + 1, lexer =>
    match lexer.peek.type with
    | .BEGIN => do
      let (_, lexer) ← matchType lexer .BEGIN "CompoundStatement"
      let (statementNode, lexer) ← parseStatement fuel lexer
      let (statementNodes, lexer) ← parseCompoundStatementR fuel [statementNode] lexer
      let (_, lexer) ← matchType lexer .END "CompoundStatement"
      pure (.CompoundStmt statementNodes, lexer)
    | _ => .error (.parser "CompoundStatement" lexer.peek [.BEGIN])
/-- The method `Parser::parseCompoundStatementR`; the vector `statementNodes` is passed in
and returned. -/
def parseCompoundStatementR : Nat → List Stmt → Lexer → Except FrontError (List Stmt × Lexer)
  | 0, _, _ => .error .outOfFuel
  | fuel + 1, statementNodes, lexer =>
    match lexer.peek.type with
    | .SEMICOLON => do
      let (_, lexer) ← matchType lexer .SEMICOLON "CompoundStatementR"
      let (statementNode, lexer) ← parseStatement fuel lexer
      parseCompoundStatementR fuel (statementNodes ++ [statementNode]) lexer
    | .END => pure (statementNodes, lexer)
    | _ => .error (.parser "CompoundStatementR" lexer.peek [.SEMICOLON, .END])
/-- The method `Parser::parseIfStatement`. -/
def parseIfStatement : Nat → Lexer → Except FrontError (Stmt × Lexer)
  | 0, _ => .error .outOfFuel
  | fuel + 1, lexer =>
    match lexer.peek.type with
    | .IF => do
      let (_, lexer) ← matchType lexer .IF "IfStatement"
      let (condNode, lexer) ← parseExpression fuel lexer
      let (_, lexer) ← matchType lexer .THEN "IfStatement"
      let (bodyNode, lexer) ← parseStatement fuel lexer
      let (elseBodyNode, lexer) ← parseElseStatement fuel lexer
      pure (.If condNode bodyNode elseBodyNode, lexer)
    | _ => .error (.parser "IfStatement" lexer.peek [.IF])
/-- The method `Parser::parseElseStatement`. -/
def parseElseStatement : Nat → Lexer → Except FrontError (Option Stmt × Lexer)
  | 0, _ => .error .outOfFuel
  | fuel + 1, lexer =>
    match lexer.peek.type with
    | .ELSE => do
      let (_, lexer) ← matchType lexer .ELSE "ElseStatement"
      let (statementNode, lexer) ← parseStatement fuel lexer
      pure (some statementNode, lexer)
    | .END | .SEMICOLON => pure (none, lexer)
    | _ => .error (.parser "ElseStatement" lexer.peek [.ELSE, .END, .SEMICOLON])
/-- The method `Parser::parseWhileStatement`. -/
def parseWhileStatement : Nat → Lexer → Except FrontError (Stmt × Lexer)
  | 0, _ => .error .outOfFuel
  | fuel + 1, lexer =>
    match lexer.peek.type with
    | .WHILE => do
      let (_, lexer) ← matchType lexer .WHILE "WhileStatement"
      let (condNode, lexer) ← parseExpression fuel lexer
      let (_, lexer) ← matchType lexer .DO "WhileStatement"
      let (bodyNode, lexer) ← parseStatement fuel lexer
      pure (.While condNode bodyNode, lexer)
    | _ => .error (.parser "WhileStatement" lexer.peek [.WHILE])
/-- The method `Parser::parseForStatement`. -/
def parseForStatement : Nat → Lexer → Except FrontError (Stmt × Lexer)
  | 0, _ => .error .outOfFuel
  | fuel + 1, lexer =>
    match lexer.peek.type with
    | .FOR => do
      let (_, lexer) ← matchType lexer .FOR "ForStatement"
      let (identToken, lexer) ← matchType lexer .IDENTIFIER "ForStatement"
      let (_, lexer) ← matchType lexer .ASSIGN "ForStatement"
      let (initExprNode, lexer) ← parseExpression fuel lexer
      let (toToken, lexer) ← parseTo lexer
      let (toNode, lexer) ← parseExpression fuel lexer
      let (_, lexer) ← matchType lexer .DO "ForStatement"
      let (statementNode, lexer) ← parseStatement fuel lexer
      pure (.For (.Assign (.DeclVarRef identToken.getString) initExprNode) toNode statementNode
        (toToken.type = .TO), lexer)
    | _ => .error (.parser "ForStatement" lexer.peek [.FOR])
end

/-- The method `Parser::parseConstantDefinition`; the vector `statementNodes` is passed in
and returned, here and in the declaration rules below. -/
def parseConstantDefinition (fuel : Nat) (statementNodes : List Stmt) (lexer : Lexer) :
    Except FrontError (List Stmt × Lexer) :=
  match lexer.peek.type with
  | .IDENTIFIER => do
    let (identToken, lexer) ← matchType lexer .IDENTIFIER "ConstantDefinition"
    let (_, lexer) ← matchType lexer .EQUAL "ConstantDefinition"
    let (exprNode, lexer) ← parseExpression fuel lexer
    let (_, lexer) ← matchType lexer .SEMICOLON "ConstantDefinition"
    pure (statementNodes ++ [.ConstDef identToken.getString false exprNode none], lexer)
  | _ => .error (.parser "ConstantDefinition" lexer.peek [.IDENTIFIER])

/-- The method `Parser::parseConstantDefinitionListR`. -/
def parseConstantDefinitionListR :
    Nat → List Stmt → Lexer → Except FrontError (List Stmt × Lexer)
  | 0, _, _ => .error .outOfFuel
  | fuel + 1, statementNodes, lexer =>
    match lexer.peek.type with
    | .IDENTIFIER => do
      let (statementNodes, lexer) ← parseConstantDefinition fuel statementNodes lexer
      parseConstantDefinitionListR fuel statementNodes lexer
    | .CONST | .VAR | .PROCEDURE | .FUNCTION | .BEGIN => pure (statementNodes, lexer)
    | _ => .error (.parser "ConstantDefinitionListR" lexer.peek
        [.IDENTIFIER, .CONST, .VAR, .PROCEDURE, .FUNCTION, .BEGIN])

/-- The method `Parser::parseConstantDefinitionList`. -/
def parseConstantDefinitionList (fuel : Nat) (statementNodes : List Stmt) (lexer : Lexer) :
    Except FrontError (List Stmt × Lexer) :=
  match lexer.peek.type with
  | .CONST => do
    let (_, lexer) ← matchType lexer .CONST "ConstantDefinitionList"
    let (statementNodes, lexer) ← parseConstantDefinition fuel statementNodes lexer
    parseConstantDefinitionListR fuel statementNodes lexer
  | _ => .error (.parser "ConstantDefinitionList" lexer.peek [.CONST])

/-- The method `Parser::parseIdentifierListR`; the vector `identifiers` is passed in and
returned. -/
def parseIdentifierListR : Nat → List String → Lexer → Except FrontError (List String × Lexer)
  | 0, _, _ => .error .outOfFuel
  | fuel + 1, identifiers, lexer =>
    match lexer.peek.type with
    | .COMMA => do
      let (_, lexer) ← matchType lexer .COMMA "IdentifierListR"
      let (identToken, lexer) ← matchType lexer .IDENTIFIER "IdentifierListR"
      parseIdentifierListR fuel (identifiers ++ [identToken.getString]) lexer
    | .COLON => pure (identifiers, lexer)
    | _ => .error (.parser "IdentifierListR" lexer.peek [.COMMA, .COLON])

/-- The method `Parser::parseIdentifierList`. -/
def parseIdentifierList (fuel : Nat) (lexer : Lexer) :
    Except FrontError (List String × Lexer) :=
  match lexer.peek.type with
  | .IDENTIFIER => do
    let (identToken, lexer) ← matchType lexer .IDENTIFIER "IdentifierList"
    parseIdentifierListR fuel [identToken.getString] lexer
  | _ => .error (.parser "IdentifierList" lexer.peek [.IDENTIFIER])

/-- The method `Parser::parseVariableDeclarationGroup`. -/
def parseVariableDeclarationGroup (fuel : Nat) (statementNodes : List Stmt) (lexer : Lexer) :
    Except FrontError (List Stmt × Lexer) :=
  match lexer.peek.type with
  | .IDENTIFIER => do
    let (idents, lexer) ← parseIdentifierList fuel lexer
    let (_, lexer) ← matchType lexer .COLON "VariableDeclarationGroup"
    let (commonTypeNode, lexer) ← parseType lexer
    let statementNodes := statementNodes ++ idents.map commonTypeNode.createDeclNode
    let (_, lexer) ← matchType lexer .SEMICOLON "VariableDeclarationGroup"
    pure (statementNodes, lexer)
  | _ => .error (.parser "VariableDeclarationGroup" lexer.peek [.IDENTIFIER])

/-- The method `Parser::parseVariableDeclarationListR`. -/
def parseVariableDeclarationListR :
    Nat → List Stmt → Lexer → Except FrontError (List Stmt × Lexer)
  | 0, _, _ => .error .outOfFuel
  | fuel + 1, statementNodes, lexer =>
    match lexer.peek.type with
    | .IDENTIFIER => do
      let (statementNodes, lexer) ← parseVariableDeclarationGroup fuel statementNodes lexer
      parseVariableDeclarationListR fuel statementNodes lexer
    | .CONST | .VAR | .PROCEDURE | .FUNCTION | .BEGIN => pure (statementNodes, lexer)
    | _ => .error (.parser "VariableDeclarationListR" lexer.peek
        [.IDENTIFIER, .CONST, .VAR, .PROCEDURE, .FUNCTION, .BEGIN])

/-- The method `Parser::parseVariableDeclarationList`. -/
def parseVariableDeclarationList (fuel : Nat) (statementNodes : List Stmt) (lexer : Lexer) :
    Except FrontError (List Stmt × Lexer) :=
  match lexer.peek.type with
  | .VAR => do
    let (_, lexer) ← matchType lexer .VAR "VariableDeclarationList"
    let (statementNodes, lexer) ← parseVariableDeclarationGroup fuel statementNodes lexer
    parseVariableDeclarationListR fuel statementNodes lexer
  | _ => .error (.parser "VariableDeclarationList" lexer.peek [.VAR])

/-- The method `Parser::parseParameterGroup`; the vector `parameterNodes` is passed in and
returned. -/
def parseParameterGroup (fuel : Nat) (parameterNodes : List VarDecl) (lexer : Lexer) :
    Except FrontError (List VarDecl × Lexer) :=
  match lexer.peek.type with
  | .IDENTIFIER => do
    let (idents, lexer) ← parseIdentifierList fuel lexer
    let (_, lexer) ← matchType lexer .COLON "ParameterGroup"
    let (commonTypeNode, lexer) ← parsePrimitiveType lexer
    pure (parameterNodes ++ idents.map (fun ident => ⟨ident, false, commonTypeNode⟩), lexer)
  | _ => .error (.parser "ParameterGroup" lexer.peek [.IDENTIFIER])

/-- The method `Parser::parseFormalParameterListR`. -/
def parseFormalParameterListR :
    Nat → List VarDecl → Lexer → Except FrontError (List VarDecl × Lexer)
  | 0, _, _ => .error .outOfFuel
  | fuel + 1, parameterNodes, lexer =>
    match lexer.peek.type with
    | .SEMICOLON => do
      let (_, lexer) ← matchType lexer .SEMICOLON "FormalParameterListR"
      let (parameterNodes, lexer) ← parseParameterGroup fuel parameterNodes lexer
      parseFormalParameterListR fuel parameterNodes lexer
    | .RIGHT_PAREN => pure (parameterNodes, lexer)
    | _ => .error (.parser "FormalParameterListR" lexer.peek [.SEMICOLON, .RIGHT_PAREN])

/-- The method `Parser::parseFormalParameterList`. -/
def parseFormalParameterList (fuel : Nat) (lexer : Lexer) :
    Except FrontError (List VarDecl × Lexer) :=
  match lexer.peek.type with
  | .IDENTIFIER => do
    let (paramNodes, lexer) ← parseParameterGroup fuel [] lexer
    parseFormalParameterListR fuel paramNodes lexer
  | .RIGHT_PAREN => pure ([], lexer)
  | _ => .error (.parser "FormalParameterList" lexer.peek [.IDENTIFIER, .RIGHT_PAREN])

/-- The method `Parser::parseFunctionParameters`. -/
def parseFunctionParameters (fuel : Nat) (lexer : Lexer) :
    Except FrontError (List VarDecl × Lexer) :=
  match lexer.peek.type with
  | .LEFT_PAREN => do
    let (_, lexer) ← matchType lexer .LEFT_PAREN "FunctionDeclaration"
    let (paramNodes, lexer) ← parseFormalParameterList fuel lexer
    let (_, lexer) ← matchType lexer .RIGHT_PAREN "FunctionDeclaration"
    pure (paramNodes, lexer)
  | _ => .error (.parser "FunctionParameters" lexer.peek [.LEFT_PAREN])

/-- The method `Parser::parseBodyDecl`. -/
def parseBodyDecl : Nat → List Stmt → Lexer → Except FrontError (List Stmt × Lexer)
  | 0, _, _ => .error .outOfFuel
  | fuel + 1, statementNodes, lexer =>
    match lexer.peek.type with
    | .CONST => do
      let (statementNodes, lexer) ← parseConstantDefinitionList fuel statementNodes lexer
      parseBodyDecl fuel statementNodes lexer
    | .VAR => do
      let (statementNodes, lexer) ← parseVariableDeclarationList fuel statementNodes lexer
      parseBodyDecl fuel statementNodes lexer
    | .BEGIN => pure (statementNodes, lexer)
    | _ => .error (.parser "BodyDecl" lexer.peek [.CONST, .VAR, .BEGIN])

/-- The method `Parser::parseBody`. -/
def parseBody (fuel : Nat) (lexer : Lexer) : Except FrontError (Stmt × Lexer) :=
  match lexer.peek.type with
  | .CONST | .VAR | .BEGIN => do
    let (statementNodes, lexer) ← parseBodyDecl fuel [] lexer
    let (compoundNode, lexer) ← parseCompoundStatement fuel lexer
    pure (.Block false (statementNodes ++ [compoundNode]), lexer)
  | _ => .error (.parser "Body" lexer.peek [.BEGIN, .CONST, .VAR])

/-- The method `Parser::parseBodyOrForward`. -/
def parseBodyOrForward (fuel : Nat) (lexer : Lexer) :
    Except FrontError (Option Stmt × Lexer) :=
  match lexer.peek.type with
  | .FORWARD => do
    let (_, lexer) ← matchType lexer .FORWARD "BodyOrForward"
    pure (none, lexer)
  | .BEGIN | .CONST | .VAR => do
    let (blockNode, lexer) ← parseBody fuel lexer
    pure (some blockNode, lexer)
  | _ => .error (.parser "BodyOrForward" lexer.peek [.FORWARD, .BEGIN, .CONST, .VAR])

/-- The method `Parser::parseProcedureDeclaration`. -/
def parseProcedureDeclaration (fuel : Nat) (statementNodes : List Stmt) (lexer : Lexer) :
    Except FrontError (List Stmt × Lexer) :=
  match lexer.peek.type with
  | .PROCEDURE => do
    let (_, lexer) ← matchType lexer .PROCEDURE "ProcedureDeclaration"
    let (identToken, lexer) ← matchType lexer .IDENTIFIER "ProcedureDeclaration"
    let (paramNodes, lexer) ← parseFunctionParameters fuel lexer
    let (_, lexer) ← matchType lexer .SEMICOLON "ProcedureDeclaration"
    let (optBlockNode, lexer) ← parseBodyOrForward fuel lexer
    let statementNodes :=
      statementNodes ++ [.ProcDecl identToken.getString false paramNodes optBlockNode]
    let (_, lexer) ← matchType lexer .SEMICOLON "ProcedureDeclaration"
    pure (statementNodes, lexer)
  | _ => .error (.parser "ProcedureDeclaration" lexer.peek [.PROCEDURE])

/-- The method `Parser::parseFunctionDeclaration`. -/
def parseFunctionDeclaration (fuel : Nat) (statementNodes : List Stmt) (lexer : Lexer) :
    Except FrontError (List Stmt × Lexer) :=
  match lexer.peek.type with
  | .FUNCTION => do
    let (_, lexer) ← matchType lexer .FUNCTION "FunctionDeclaration"
    let (identToken, lexer) ← matchType lexer .IDENTIFIER "FunctionDeclaration"
    let (paramNodes, lexer) ← parseFunctionParameters fuel lexer
    let (_, lexer) ← matchType lexer .COLON "FunctionDeclaration"
    let (retPrimitiveTypeNode, lexer) ← parsePrimitiveType lexer
    let (_, lexer) ← matchType lexer .SEMICOLON "FunctionDeclaration"
    let (optBlockNode, lexer) ← parseBodyOrForward fuel lexer
    let statementNodes := statementNodes ++
      [.FunDecl identToken.getString false paramNodes optBlockNode retPrimitiveTypeNode]
    let (_, lexer) ← matchType lexer .SEMICOLON "FunctionDeclaration"
    pure (statementNodes, lexer)
  | _ => .error (.parser "FunctionDeclaration" lexer.peek [.FUNCTION])

/-- The method `Parser::parseBlockDecl`. -/
def parseBlockDecl : Nat → List Stmt → Lexer → Except FrontError (List Stmt × Lexer)
  | 0, _, _ => .error .outOfFuel
  | fuel + 1, statementNodes, lexer =>
    match lexer.peek.type with
    | .CONST => do
      let (statementNodes, lexer) ← parseConstantDefinitionList fuel statementNodes lexer
      parseBlockDecl fuel statementNodes lexer
    | .VAR => do
      let (statementNodes, lexer) ← parseVariableDeclarationList fuel statementNodes lexer
      parseBlockDecl fuel statementNodes lexer
    | .PROCEDURE => do
      let (statementNodes, lexer) ← parseProcedureDeclaration fuel statementNodes lexer
      parseBlockDecl fuel statementNodes lexer
    | .FUNCTION => do
      let (statementNodes, lexer) ← parseFunctionDeclaration fuel statementNodes lexer
      parseBlockDecl fuel statementNodes lexer
    | .BEGIN => pure (statementNodes, lexer)
    | _ => .error (.parser "BlockDecl" lexer.peek [.CONST, .VAR, .PROCEDURE, .FUNCTION, .BEGIN])

/-- The method `Parser::parseBlock`. -/
def parseBlock (fuel : Nat) (lexer : Lexer) : Except FrontError (Stmt × Lexer) :=
  match lexer.peek.type with
  | .CONST | .VAR | .PROCEDURE | .FUNCTION | .BEGIN => do
    let (statementNodes, lexer) ← parseBlockDecl fuel [] lexer
    let (compoundNode, lexer) ← parseCompoundStatement fuel lexer
    pure (.Block false (statementNodes ++ [compoundNode]), lexer)
  | _ => .error (.parser "Block" lexer.peek [.CONST, .VAR, .PROCEDURE, .FUNCTION, .BEGIN])

/-- The method `Parser::parseProgram`. -/
def parseProgram (fuel : Nat) (lexer : Lexer) : Except FrontError (Program × Lexer) :=
  match lexer.peek.type with
  | .PROGRAM => do
    let (_, lexer) ← matchType lexer .PROGRAM "Program"
    let (identToken, lexer) ← matchType lexer .IDENTIFIER "Program"
    let (_, lexer) ← matchType lexer .SEMICOLON "Program"
    let (blockNode, lexer) ← parseBlock fuel lexer
    let (_, lexer) ← matchType lexer .DOT "Program"
    pure (⟨identToken.getString, blockNode⟩, lexer)
  | _ => .error (.parser "Program" lexer.peek [.PROGRAM])

/-- Lexing and parsing of a whole source text: `Lexer lexer(is); Parser(lexer).parseProgram()`. -/
def parseSource (fuel : Nat) (source : List Char) : Except FrontError Program :=
  match Lexer.new source with
  | .error e => .error e
  | .ok lexer =>
    match parseProgram fuel lexer with
    | .error e => .error e
    | .ok (program, _) => .ok program


/-! ## The LLVM objects that the code generator builds

The code generator drives the LLVM library through `llvm::IRBuilder`, `llvm::Module`,
`llvm::Function` and `llvm::BasicBlock`. The definitions of this section record what the
generator asks of the library: every instruction that the builder inserts is one
`Instruction`, appended to the block of the insertion point. Two behaviours of the library are part of the
record because the generator relies on them: a cast to the type that the operand already has
is no instruction but the operand itself, and a name already taken in the module (or, for an
argument, in its function) is made unique by a number appended to it. The constant folder of
the builder (`llvm::ConstantFolder`, the default of `llvm::IRBuilder<>`) is part of the
record as well: where all operands of an arithmetic or logical operation, a comparison, a
cast or a `getelementptr` are constants, the builder inserts no instruction and hands back
the constant that the folder computes. The record keeps such a constant as the operation
folded and its operands; `Value.constantValue` gives the number that it stands for. -/

/-- The types `llvm::Type` that the generator uses. -/
inductive LType where
  | void
  | integer (bitWidth : Nat)
  | double
  | pointer (elementType : LType)
  | array (elementType : LType) (numElements : Nat)
  deriving DecidableEq, Repr

/-- The method `Type::isIntegerTy`. -/
def LType.isIntegerTy : LType → Bool
  | .integer _ => true
  | _ => false

/-- The method `Type::isDoubleTy`. -/
def LType.isDoubleTy : LType → Bool
  | .double => true
  | _ => false

/-- The method `Type::isPointerTy`. -/
def LType.isPointerTy : LType → Bool
  | .pointer _ => true
  | _ => false

/-- The predicates of the comparisons `icmp` and `fcmp` that the generator requests. -/
inductive Predicate where
  | EQ | NE | SLT | SLE | SGT | SGE
  | OEQ | ONE | OLT | OLE | OGT | OGE
  deriving DecidableEq, Repr

/-- The instructions that the generator requests; a branch holds the indices of its target
blocks, a call the index of the called function. -/
inductive Opcode where
  | add | sub | mul | sdiv | srem
  | fadd | fsub | fmul | fdiv | frem | fneg
  | or | and | xor
  | icmp (predicate : Predicate)
  | fcmp (predicate : Predicate)
  | sitofp | fptosi
  | alloca (allocatedType : LType)
  | load | store
  | getelementptr (sourceElementType : LType)
  | call (callee : Nat)
  | br (dest : Nat)
  | condBr (ifTrue ifFalse : Nat)
  | ret | retVoid | unreachable
  deriving DecidableEq, Repr

/-- The values `llvm::Value` that the generator handles: constants, results of
instructions, global variables, arguments of functions and pointers to string constants.
An instruction is named by its number, a global variable by its index in the module, an
argument by the index of its function and its own. The last three are the constants that
the constant folder of the builder hands back in place of an instruction: a binary operation
or comparison, a cast or negation, and a `getelementptr` with two indices, each on constant
operands. -/
inductive Value where
  | constantInt (type : LType) (value : Int)
  | constantFP (value : ℚ)
  | constantAggregateZero (type : LType)
  | instruction (id : Nat) (type : LType)
  | globalVariable (index : Nat) (valueType : LType)
  | argument (function : Nat) (argNo : Nat) (type : LType)
  | globalStringPtr (index : Nat)
  | folded (opcode : Opcode) (lhs rhs : Value) (type : LType)
  | foldedUnary (opcode : Opcode) (operand : Value) (type : LType)
  | foldedGEP (sourceElementType : LType) (ptr idx0 idx1 : Value) (type : LType)
  deriving DecidableEq, Repr

/-- The method `Value::getType`. -/
def Value.getType : Value → LType
  | .constantInt type _ => type
  | .constantFP _ => .double
  | .constantAggregateZero type => type
  | .instruction _ type => type
  | .globalVariable _ valueType => .pointer valueType
  | .argument _ _ type => type
  | .globalStringPtr _ => .pointer (.integer 8)
  | .folded _ _ _ type => type
  | .foldedUnary _ _ type => type
  | .foldedGEP _ _ _ _ type => type

/-- The test `llvm::isa<llvm::Constant>(value)`: everything but the result of an instruction
and an argument of a function; global variables are constants, their addresses. -/
def Value.isConstant : Value → Bool
  | .instruction _ _ => false
  | .argument _ _ _ => false
  | _ => true

/-- An instruction: its number, what it does, its operands, the type of its result and the
name requested for it. -/
structure Instruction where
  id : Nat
  opcode : Opcode
  operands : List Value
  type : LType
  name : String
  deriving DecidableEq, Repr

/-- The method `Instruction::isTerminator`. -/
def Instruction.isTerminator (i : Instruction) : Bool :=
  match i.opcode with
  | .br _ | .condBr _ _ | .ret | .retVoid | .unreachable => true
  | _ => false

/-- A basic block: the name requested for it and the function it was created in. -/
structure BasicBlock where
  name : String
  parent : Option Nat
  deriving DecidableEq, Repr

/-- A function of the module: its name, its type and the names of its arguments (empty
until `setName`). -/
structure Function where
  name : String
  returnType : LType
  paramTypes : List LType
  isVarArg : Bool
  argNames : List String
  deriving DecidableEq, Repr

/-- What a global variable is initialised with. -/
inductive Initializer where
  | value (v : Value)
  | text (s : String)
  deriving DecidableEq, Repr

/-- A global variable of the module. -/
structure GlobalVariable where
  name : String
  valueType : LType
  initializer : Initializer
  deriving DecidableEq, Repr

/-! ## The state of the code generator -/

/-- The member `memPtr` of `Symbol`, a `std::variant` of a stack slot and a global
variable. -/
inductive MemPtr where
  | allocaInst (ptr : Value)
  | globalVariable (ptr : Value)
  deriving DecidableEq, Repr

/-- The structure `Symbol`; the pointer `type` to a type node is the node itself. -/
structure Symbol where
  name : String
  type : TypeNode
  memPtr : MemPtr
  immutable : Bool
  deriving DecidableEq, Repr

/-- The method `Symbol::isGlobal`. -/
def Symbol.isGlobal (s : Symbol) : Bool :=
  match s.memPtr with
  | .globalVariable _ => true
  | .allocaInst _ => false

/-- The class `SymbolTable`: the entries of its `std::map`, the latest first. -/
abbrev SymbolTable := List (String × Symbol)

/-- The method `SymbolTable::contains`. -/
def SymbolTable.contains (table : SymbolTable) (name : String) : Bool :=
  (table.lookup name).isSome

/-- The structure `GenContext`: the module (its functions and global variables, the
counter of its table of names, the blocks created so far with their name and function, the
instructions requested so far, each with the block it was appended to), the insertion point
of the builder and the symbol table. The instructions of a block are those of `code` with
its index, in this order; the blocks of a function are those of `blocks` with its index. -/
structure GenContext where
  functions : List Function
  globals : List GlobalVariable
  lastUnique : Nat
  blocks : List BasicBlock
  code : List (Option Nat × Instruction)
  insertBlock : Option Nat
  symbolTable : SymbolTable
  deriving DecidableEq, Repr

/-- The instructions of a block, in order. -/
def GenContext.instructionsOf (g : GenContext) (block : Nat) : List Instruction :=
  (g.code.filter fun p => p.1 = some block).map Prod.snd

/-- The blocks of a function, in order. -/
def GenContext.blocksOf (g : GenContext) (function : Nat) : List Nat :=
  (List.range g.blocks.length).filter fun b =>
    match g.blocks[b]? with
    | some block => block.parent = some function
    | none => false

/-- What ends a run of the generator early: a `CodeGenException`, a `std::runtime_error`,
or an operation without defined behaviour (a null pointer dereferenced, an assertion of the
library failed). -/
inductive GenError where
  | codeGen (message : String)
  | runtimeError (message : String)
  | undefinedBehaviour (what : String)
  deriving DecidableEq, Repr

/-- A step of the generator: from a state to a result or an error, and the state then; the
state that an exception leaves behind is kept. -/
def GenM (α : Type) : Type := GenContext → Except GenError α × GenContext

instance : Monad GenM where
  pure a := fun g => (.ok a, g)
  bind m f := fun g =>
    match m g with
    | (.ok a, g1) => f a g1
    | (.error e, g1) => (.error e, g1)

/-- Runs a step on a state. -/
def GenM.run {α : Type} (m : GenM α) (g : GenContext) : Except GenError α × GenContext := m g

/-- The statement `throw`. -/
def GenM.throw {α : Type} (e : GenError) : GenM α := fun g => (.error e, g)

/-- Reads the state. -/
def GenM.get : GenM GenContext := fun g => (.ok g, g)

/-- The state with another symbol table. -/
def GenContext.setSymbolTable (g : GenContext) (table : SymbolTable) : GenContext :=
  { g with symbolTable := table }

/-- The assignment `gen.symbolTable = table`. -/
def setSymbolTable (table : SymbolTable) : GenM Unit := fun g => (.ok (), g.setSymbolTable table)

/-- The method `SymbolTable::addSymbol` on `gen.symbolTable`. -/
def addSymbol (name : String) (symbol : Symbol) : GenM Unit := fun g =>
  if g.symbolTable.contains name then
    (.error (.codeGen ("Failed to add new symbol - symbol already exists: " ++ name)), g)
  else (.ok (), g.setSymbolTable ((name, symbol) :: g.symbolTable))

/-- The method `SymbolTable::getSymbol` on `gen.symbolTable`. -/
def getSymbol (name : String) : GenM Symbol := do
  let g ← GenM.get
  match g.symbolTable.lookup name with
  | some symbol => pure symbol
  | none => GenM.throw (.codeGen ("Failed to get symbol - symbol not found: " ++ name))

/-- The methods `Symbol::getGlobalMemPtr` and `Symbol::getLocalMemPtr`, as the sources call
them: the first on a global symbol, the second on a local one. -/
def Symbol.getMemPtr (s : Symbol) : Value :=
  match s.memPtr with
  | .globalVariable ptr => ptr
  | .allocaInst ptr => ptr

/-! ## The module and the builder -/

/-- The method `ValueSymbolTable::makeUniqueName` of the library: the counter of the table
is increased and appended to the name, after the separator, until the name is free. Among
`taken.length + 1` candidates one is free, which bounds the search. -/
def makeUniqueName (taken : List String) (base separator : String) : Nat → Nat → String × Nat
  | 0, lastUnique => (base ++ separator ++ toString (lastUnique + 1), lastUnique + 1)
  | fuel + 1, lastUnique =>
    if base ++ separator ++ toString (lastUnique + 1) ∈ taken then
      makeUniqueName taken base separator fuel (lastUnique + 1)
    else (base ++ separator ++ toString (lastUnique + 1), lastUnique + 1)

/-- The method `ValueSymbolTable::createValueName` of the library: the name itself when it
is free, a unique variant otherwise; the result comes with the counter of the table. -/
def createValueName (taken : List String) (separator name : String) (lastUnique : Nat) :
    String × Nat :=
  if name ∈ taken then makeUniqueName taken name separator taken.length lastUnique
  else (name, lastUnique)

/-- The names in the table of the module: those of its functions and of its named global
variables. -/
def GenContext.namedValues (g : GenContext) : List String :=
  g.functions.map Function.name ++ (g.globals.map GlobalVariable.name).filter (· ≠ "")

/-- The state after a function has been added to the module under a name made unique. -/
def GenContext.addFunction (g : GenContext) (returnType : LType) (paramTypes : List LType)
    (isVarArg : Bool) (name : String) : GenContext :=
  { g with
    functions := g.functions ++
      [⟨(createValueName g.namedValues "." name g.lastUnique).1, returnType, paramTypes,
        isVarArg, paramTypes.map fun _ => ""⟩]
    lastUnique := (createValueName g.namedValues "." name g.lastUnique).2 }

/-- The call `llvm::Function::Create(type, ExternalLinkage, name, gen.module)`; the result is
the index of the new function. -/
def Function.Create (returnType : LType) (paramTypes : List LType) (isVarArg : Bool)
    (name : String) : GenM Nat := fun g =>
  (.ok g.functions.length, g.addFunction returnType paramTypes isVarArg name)

/-- The state after a global variable has been added to the module under a name made
unique. -/
def GenContext.addGlobalVariable (g : GenContext) (type : LType) (initializer : Value)
    (name : String) : GenContext :=
  { g with
    globals := g.globals ++
      [⟨(createValueName g.namedValues "." name g.lastUnique).1, type, .value initializer⟩]
    lastUnique := (createValueName g.namedValues "." name g.lastUnique).2 }

/-- The call `new llvm::GlobalVariable(gen.module, type, false, ExternalLinkage, init,
name)`. -/
def newGlobalVariable (type : LType) (initializer : Value) (name : String) : GenM Value :=
  fun g => (.ok (.globalVariable g.globals.length type), g.addGlobalVariable type initializer name)

/-- The method `Module::getFunction`: the function of this name, if the name is that of a
function. -/
def getFunction (name : String) : GenM (Option Nat) := fun g =>
  (.ok (if name = "" then none else g.functions.findIdx? fun f => f.name = name), g)

/-- The function with a given index. -/
def functionAt (func : Nat) : GenM Function := fun g =>
  match g.functions[func]? with
  | some f => (.ok f, g)
  | none => (.error (.undefinedBehaviour "no such function"), g)

/-- The method `Function::empty`: the function has no block. -/
def functionEmpty (func : Nat) : GenM Bool := fun g => (.ok (g.blocksOf func).isEmpty, g)

/-- The state after a block has been created in a function. -/
def GenContext.addBlock (g : GenContext) (name : String) (func : Option Nat) : GenContext :=
  { g with blocks := g.blocks ++ [⟨name, func⟩] }

/-- The call `llvm::BasicBlock::Create(gen.ctx, name, func)`; the result is the index of the
new block, which is the last block of `func`. -/
def BasicBlock.Create (name : String) (func : Option Nat) : GenM Nat := fun g =>
  (.ok g.blocks.length, g.addBlock name func)

/-- The state after the insertion point has been set to the end of a block. -/
def GenContext.setInsertBlock (g : GenContext) (block : Nat) : GenContext :=
  { g with insertBlock := some block }

/-- The method `IRBuilder::SetInsertPoint(BasicBlock*)`: the end of the block. -/
def SetInsertPoint (block : Option Nat) : GenM Unit := fun g =>
  match block with
  | some b => (.ok (), g.setInsertBlock b)
  | none => (.error (.undefinedBehaviour "SetInsertPoint on a null block"), g)

/-- The method `IRBuilder::GetInsertBlock`. -/
def GetInsertBlock : GenM (Option Nat) := fun g => (.ok g.insertBlock, g)

/-- The expression `gen.builder.GetInsertBlock()->getParent()`. -/
def GetInsertBlockParent : GenM (Option Nat) := fun g =>
  match g.insertBlock with
  | none => (.error (.undefinedBehaviour "GetInsertBlock() is null"), g)
  | some b =>
    match g.blocks[b]? with
    | some block => (.ok block.parent, g)
    | none => (.error (.undefinedBehaviour "no such block"), g)

/-- The state after an instruction has been numbered and appended to the block of the
insertion point. -/
def GenContext.emit (g : GenContext) (opcode : Opcode) (operands : List Value) (type : LType)
    (name : String) : GenContext :=
  { g with code := g.code ++ [(g.insertBlock, ⟨g.code.length, opcode, operands, type, name⟩)] }

/-- The method `IRBuilder::Insert`: the instruction is numbered and appended to the block of
the insertion point; its value is returned. -/
def insert (opcode : Opcode) (operands : List Value) (type : LType) (name : String) :
    GenM Value := fun g =>
  (.ok (.instruction g.code.length type), g.emit opcode operands type name)

/-- The binary operators of the builder (`CreateAdd`, `CreateFAdd`, `CreateOr`, ...): on two
constants the folder answers and no instruction is inserted; the result has the type of the
left operand. -/
def CreateBinOp (opcode : Opcode) (lhs rhs : Value) (name : String) : GenM Value :=
  if lhs.isConstant && rhs.isConstant then pure (.folded opcode lhs rhs lhs.getType)
  else insert opcode [lhs, rhs] lhs.getType name

/-- The methods `CreateICmp...` of the builder: on two constants the folder answers; the
result has one bit. -/
def CreateICmp (predicate : Predicate) (lhs rhs : Value) (name : String) : GenM Value :=
  if lhs.isConstant && rhs.isConstant then pure (.folded (.icmp predicate) lhs rhs (.integer 1))
  else insert (.icmp predicate) [lhs, rhs] (.integer 1) name

/-- The methods `CreateFCmp...` of the builder: on two constants the folder answers; the
result has one bit. -/
def CreateFCmp (predicate : Predicate) (lhs rhs : Value) (name : String) : GenM Value :=
  if lhs.isConstant && rhs.isConstant then pure (.folded (.fcmp predicate) lhs rhs (.integer 1))
  else insert (.fcmp predicate) [lhs, rhs] (.integer 1) name

/-- The method `IRBuilder::CreateCast` of the library, behind `CreateSIToFP` and
`CreateFPToSI`: a value that already has the type is returned as it is, and on a constant
the folder answers. -/
def CreateCast (opcode : Opcode) (v : Value) (destTy : LType) : GenM Value :=
  if v.getType = destTy then pure v
  else if v.isConstant then pure (.foldedUnary opcode v destTy)
  else insert opcode [v] destTy ""

/-- The method `IRBuilder::CreateSIToFP`. -/
def CreateSIToFP (v : Value) (destTy : LType) : GenM Value := CreateCast .sitofp v destTy

/-- The method `IRBuilder::CreateFPToSI`. -/
def CreateFPToSI (v : Value) (destTy : LType) : GenM Value := CreateCast .fptosi v destTy

/-- The method `IRBuilder::CreateNeg`: the subtraction from zero. -/
def CreateNeg (v : Value) (name : String) : GenM Value :=
  CreateBinOp .sub (.constantInt v.getType 0) v name

/-- The method `IRBuilder::CreateFNeg`: on a constant the folder answers. -/
def CreateFNeg (v : Value) (name : String) : GenM Value :=
  if v.isConstant then pure (.foldedUnary .fneg v v.getType)
  else insert .fneg [v] v.getType name

/-- The method `IRBuilder::CreateAlloca(type, nullptr, name)`. -/
def CreateAlloca (type : LType) (name : String) : GenM Value :=
  insert (.alloca type) [] (.pointer type) name

/-- The method `IRBuilder::CreateLoad(type, ptr, name)`. -/
def CreateLoad (type : LType) (ptr : Value) (name : String) : GenM Value :=
  insert .load [ptr] type name

/-- The method `IRBuilder::CreateStore(val, ptr)`. -/
def CreateStore (val ptr : Value) : GenM Value := insert .store [val, ptr] .void ""

/-- The method `IRBuilder::CreateGEP(type, ptr, {zero, index}, name)` on an array type: the
result points to an element; on a constant pointer, the address of a global variable, with
constant indices the folder answers. -/
def CreateGEP (type : LType) (ptr : Value) (idxList : List Value) (name : String) :
    GenM Value :=
  match type, idxList with
  | .array elementType _, [idx0, idx1] =>
    if ptr.isConstant && idx0.isConstant && idx1.isConstant then
      pure (.foldedGEP type ptr idx0 idx1 (.pointer elementType))
    else insert (.getelementptr type) (ptr :: idxList) (.pointer elementType) name
  | _, _ => GenM.throw (.undefinedBehaviour "getelementptr: the indices do not fit the type")

/-- The method `IRBuilder::CreateCall(func, args)`; `func` is what `getFunction` returned. -/
def CreateCall (func : Option Nat) (args : List Value) : GenM Value := do
  match func with
  | none => GenM.throw (.undefinedBehaviour "call of a null function")
  | some f =>
    let callee ← functionAt f
    insert (.call f) args callee.returnType ""

/-- The method `IRBuilder::CreateBr`. -/
def CreateBr (dest : Nat) : GenM Value := insert (.br dest) [] .void ""

/-- The method `IRBuilder::CreateCondBr`. -/
def CreateCondBr (cond : Value) (ifTrue ifFalse : Nat) : GenM Value :=
  insert (.condBr ifTrue ifFalse) [cond] .void ""

/-- The method `IRBuilder::CreateRet`. -/
def CreateRet (v : Value) : GenM Value := insert .ret [v] .void ""

/-- The method `IRBuilder::CreateRetVoid`. -/
def CreateRetVoid : GenM Value := insert .retVoid [] .void ""

/-- The method `IRBuilder::CreateUnreachable`. -/
def CreateUnreachable : GenM Value := insert .unreachable [] .void ""

/-- The state after an unnamed global variable with a text has been added to the module. -/
def GenContext.addString (g : GenContext) (text : String) : GenContext :=
  { g with
    globals := g.globals ++ [⟨"", .array (.integer 8) (text.utf8ByteSize + 1), .text text⟩] }

/-- The method `IRBuilder::CreateGlobalStringPtr(text)`: an unnamed global variable holds the
text and a zero byte; the result points to its first character. -/
def CreateGlobalStringPtr (text : String) : GenM Value := fun g =>
  (.ok (.globalStringPtr g.globals.length), g.addString text)

/-! ## Types, defaults and the bounds check -/

/-- The method `GenTypeVisitor::visit(PrimitiveTypeASTNode&)`. -/
def genPrimitiveType : PrimitiveType → LType
  | .REAL => .double
  | .INTEGER => .integer 32

/-- The method `GenTypeVisitor::visit(ArrayTypeASTNode&)`: the size is computed in `int` and
converted to `uint64_t`. -/
def genArrayType (node : ArrayType) : LType :=
  .array (genPrimitiveType node.elemTypeNode)
    ((wrapInt (wrapInt (node.upperBound - node.lowerBound) + 1)) % 18446744073709551616).toNat

/-- The test `type->getType() == TypeASTNode::Type::ARRAY`. -/
def TypeNode.isArray : TypeNode → Bool
  | .array _ => true
  | .primitive _ => false

/-- The class `GenTypeVisitor` applied to a type node. -/
def genType : TypeNode → LType
  | .primitive t => genPrimitiveType t
  | .array a => genArrayType a

/-- The method `Type::getArrayElementType`. -/
def getArrayElementType (type : LType) : GenM LType :=
  match type with
  | .array elementType _ => pure elementType
  | _ => GenM.throw (.undefinedBehaviour "getArrayElementType on a type that is no array")

/-- The method `Type::getPointerElementType`. -/
def getPointerElementType (type : LType) : GenM LType :=
  match type with
  | .pointer elementType => pure elementType
  | _ => GenM.throw (.undefinedBehaviour "getPointerElementType on a type that is no pointer")

/-- The function `getDefaultValueForType` of `CodeGenVisitor.cpp`. -/
def getDefaultValueForType (type : LType) : GenM Value :=
  match type with
  | .integer _ => pure (.constantInt type 0)
  | .double => pure (.constantFP 0)
  | _ => GenM.throw (.codeGen "Unsupported element type for variable initialization")

/-- The text that the error block of a bounds check passes to `error`. -/
def outOfBoundsMessage (arrayName : String) : String :=
  "Runtime error: Array '" ++ arrayName ++ "' - the index is out of bounds.\n"

/-- The function `Utils::LLVM::generateIndexOutOfBoundsCheck`; of the two comparisons, whose
order C++ leaves open, the left one is requested first. -/
def generateIndexOutOfBoundsCheck (arrayName : String) (indexV lowerBoundV upperBoundV : Value) :
    GenM Unit := do
  let below ← CreateICmp .SLT indexV lowerBoundV ""
  let above ← CreateICmp .SGT indexV upperBoundV ""
  let indexOutOfBounds ← CreateBinOp .or below above "indexOutOfBounds"
  let func ← GetInsertBlockParent
  if func.isNone then
    GenM.throw (.codeGen "generateIndexOutOfBoundsCheck(): Parent function is not found")
  else do
    let CheckBlock ← BasicBlock.Create "check" func
    let ExceptionBlock ← BasicBlock.Create "throw_exception" func
    let ContinueBlock ← BasicBlock.Create "continue" func
    let _ ← CreateBr CheckBlock
    SetInsertPoint (some CheckBlock)
    let _ ← CreateCondBr indexOutOfBounds ExceptionBlock ContinueBlock
    SetInsertPoint (some ExceptionBlock)
    let errMsg ← CreateGlobalStringPtr (outOfBoundsMessage arrayName)
    let declared ← getFunction "error"
    let errorFunc ← match declared with
      | some f => pure f
      | none => Function.Create (.integer 32) [.pointer (.integer 8)] true "error"
    let _ ← CreateCall (some errorFunc) [errMsg]
    let _ ← CreateUnreachable
    SetInsertPoint (some ContinueBlock)

/-! ## Expressions -/

/-- The method `DeclRefASTNode::getRefName`, of the two nodes that are declaration
references. -/
def Expr.getRefName : Expr → String
  | .DeclVarRef refName => refName
  | .DeclArrayRef refName _ => refName
  | _ => ""

/-- The closure `maybeSIToFP` of `CodeGenVisitor::visit(BinOpASTNode&)`. -/
def maybeSIToFP (val : Value) : GenM Value :=
  if !val.getType.isDoubleTy then CreateSIToFP val .double else pure val

/-- A case of the `switch` of `CodeGenVisitor::visit(BinOpASTNode&)` with an arithmetic
instruction in both branches; of the two conversions, whose order C++ leaves open, the left
one is requested first. -/
def arithmetic (dblArith : Bool) (real : Opcode) (realName : String) (int : Opcode)
    (intName : String) (lhsV rhsV : Value) : GenM (Option Value) :=
  if dblArith then do
    let l ← maybeSIToFP lhsV
    let r ← maybeSIToFP rhsV
    let v ← CreateBinOp real l r realName
    pure (some v)
  else do
    let v ← CreateBinOp int lhsV rhsV intName
    pure (some v)

/-- A case of the `switch` of `CodeGenVisitor::visit(BinOpASTNode&)` with a comparison in
both branches. -/
def comparison (dblArith : Bool) (real : Predicate) (realName : String) (int : Predicate)
    (intName : String) (lhsV rhsV : Value) : GenM (Option Value) :=
  if dblArith then do
    let l ← maybeSIToFP lhsV
    let r ← maybeSIToFP rhsV
    let v ← CreateFCmp real l r realName
    pure (some v)
  else do
    let v ← CreateICmp int lhsV rhsV intName
    pure (some v)

/-- The method `CodeGenVisitor::visit(BinOpASTNode&)` after its operands have been visited
and found: the `switch` over the operator. -/
def visitBinOp (op : TokenType) (lhsV rhsV : Value) : GenM (Option Value) :=
  let dblArith := lhsV.getType.isDoubleTy || rhsV.getType.isDoubleTy
  match op with
  | .PLUS => arithmetic dblArith .fadd "fadd" .add "add" lhsV rhsV
  | .MINUS => arithmetic dblArith .fsub "fsub" .sub "sub" lhsV rhsV
  | .MULTIPLY => arithmetic dblArith .fmul "fmul" .mul "mul" lhsV rhsV
  | .DIV | .DIVIDE => arithmetic dblArith .fdiv "fdiv" .sdiv "div" lhsV rhsV
  | .EQUAL => comparison dblArith .OEQ "feq" .EQ "eq" lhsV rhsV
  | .LESS => comparison dblArith .OLT "flt" .SLT "lt" lhsV rhsV
  | .GREATER => comparison dblArith .OGT "fgt" .SGT "gt" lhsV rhsV
  | .NOT_EQUAL => comparison dblArith .ONE "fneq" .NE "neq" lhsV rhsV
  | .LESS_EQUAL => comparison dblArith .OLE "fle" .SLE "le" lhsV rhsV
  | .GREATER_EQUAL => comparison dblArith .OGE "fge" .SGE "ge" lhsV rhsV
  | .OR =>
    if dblArith then GenM.throw (.codeGen "Unsupported logical OR operation for real type")
    else do
      let v ← CreateBinOp .or lhsV rhsV "or"
      pure (some v)
  | .AND =>
    if dblArith then GenM.throw (.codeGen "Unsupported logical AND operation for real type")
    else do
      let v ← CreateBinOp .and lhsV rhsV "and"
      pure (some v)
  | .MOD => arithmetic dblArith .frem "fmod" .srem "mod" lhsV rhsV
  | _ => GenM.throw (.codeGen "Unknown binary operator")

/-- The method `CodeGenVisitor::visit(UnaryOpASTNode&)` after its operand has been visited
and found. -/
def visitUnaryOp (op : TokenType) (exprV : Value) : GenM (Option Value) :=
  match op with
  | .MINUS =>
    if exprV.getType.isDoubleTy then do
      let v ← CreateFNeg exprV "fneg"
      pure (some v)
    else do
      let v ← CreateNeg exprV "neg"
      pure (some v)
  | .NOT =>
    if exprV.getType.isDoubleTy then
      GenM.throw (.codeGen "Unsupported NOT operation for real type")
    else do
      let v ← CreateBinOp .xor exprV (.constantInt (.integer 1) 1) "not"
      pure (some v)
  | _ => GenM.throw (.codeGen "Unknown unary operator")

/-- The method `CodeGenVisitor::visit(LiteralASTNode&)`. -/
def visitLiteral (tokenValue : TokenValue) : GenM (Option Value) :=
  match tokenValue with
  | .int i => pure (some (.constantInt (.integer 32) i))
  | .real d => pure (some (.constantFP d))
  | .str _ => GenM.throw (.codeGen "Unknown literal type")

/-- The method `CodeGenVisitor::visit(DeclVarRefASTNode&)`. -/
def visitDeclVarRef (refName : String) : GenM (Option Value) := do
  let g ← GenM.get
  if !g.symbolTable.contains refName then
    GenM.throw (.codeGen ("Variable/Constant not found: " ++ refName))
  else do
    let symbol ← getSymbol refName
    let varType := genType symbol.type
    let loadedValue ← CreateLoad varType symbol.getMemPtr refName
    pure (some loadedValue)

/-- The method `StoreVisitor::visit(DeclVarRefASTNode&)`. -/
def storeDeclVarRef (refName : String) : GenM (Option Value) := do
  let g ← GenM.get
  if !g.symbolTable.contains refName then
    GenM.throw (.codeGen ("Variable/Constant not found: " ++ refName))
  else do
    let symbol ← getSymbol refName
    pure (some symbol.getMemPtr)

/-- The end of `WriteFuncHandler::handle` and `WritelnFuncHandler::handle`, after the
argument has been visited; `procedure` is `write` or `writeln`. -/
def handleWrite (procedure : String) (argV : Option Value) : GenM (Option Value) :=
  match argV with
  | none =>
    GenM.throw (.codeGen ("Failed to get argument value of '" ++ procedure ++ "' procedure"))
  | some argV =>
    if argV.getType.isDoubleTy then do
      let func ← getFunction (procedure ++ "_double")
      let call ← CreateCall func [argV]
      pure (some call)
    else if argV.getType.isIntegerTy then do
      let func ← getFunction (procedure ++ "_int")
      let call ← CreateCall func [argV]
      pure (some call)
    else
      GenM.throw (.codeGen ("Unsupported argument type for '" ++ procedure ++ "' procedure"))

/-- The end of `ReadlnFuncHandler::handle`, after the store of the argument has been
found. -/
def handleReadln (argStore : Option Value) : GenM (Option Value) :=
  match argStore with
  | none =>
    GenM.throw
      (.codeGen "'readln' procedure failed, argument store (memory location) not found")
  | some argStore =>
    match argStore.getType with
    | .pointer valType =>
      if valType.isDoubleTy then do
        let func ← getFunction "readln_double"
        let call ← CreateCall func [argStore]
        pure (some call)
      else if valType.isIntegerTy then do
        let func ← getFunction "readln_int"
        let call ← CreateCall func [argStore]
        pure (some call)
      else GenM.throw (.codeGen "Unsupported argument type for 'readln' procedure")
    | _ => GenM.throw (.codeGen "'readln' procedure failed, store is not a pointer")

/-- The end of `ToIntegerFuncHandler::handle`, after the argument has been visited. -/
def handleToInteger (argV : Option Value) : GenM (Option Value) :=
  match argV with
  | none => GenM.throw (.codeGen "Failed to get argument value of 'to_integer' function")
  | some argV =>
    if argV.getType.isDoubleTy then do
      let v ← CreateFPToSI argV (.integer 32)
      pure (some v)
    else if argV.getType.isIntegerTy then pure (some argV)
    else GenM.throw (.codeGen "Unsupported argument type for 'to_integer' function")

/-- The end of `ToRealFuncHandler::handle`, after the argument has been visited. -/
def handleToReal (argV : Option Value) : GenM (Option Value) :=
  match argV with
  | none => GenM.throw (.codeGen "Failed to get argument value of 'to_real' function")
  | some argV =>
    if argV.getType.isIntegerTy then do
      let v ← CreateSIToFP argV .double
      pure (some v)
    else if argV.getType.isDoubleTy then pure (some argV)
    else GenM.throw (.codeGen "Unsupported argument type for 'to_real' function")

/-- The method `UserFuncHandler::validateCall`; the result is the function found. -/
def validateUserCall (funName : String) (argCount : Nat) : GenM Nat := do
  let func ← getFunction funName
  match func with
  | none => GenM.throw (.codeGen ("Function/Procedure not found: " ++ funName))
  | some f =>
    let callee ← functionAt f
    if callee.paramTypes.length ≠ argCount then
      GenM.throw (.codeGen ("Function/Procedure " ++ funName ++ " expects " ++
        toString callee.paramTypes.length ++ " arguments, but " ++ toString argCount ++
        " were provided"))
    else pure f

/-- The message of the `validateCall` of a predefined handler for a wrong number of
arguments. -/
def argumentCountMessage (name kind : String) (argCount : Nat) : String :=
  "'" ++ name ++ "' " ++ kind ++ " expects 1 argument, but " ++ toString argCount ++
    " were provided"

/-- The part of the two array accesses (`CodeGenVisitor::visit(DeclArrayRefASTNode&)` and
`StoreVisitor::visit(DeclArrayRefASTNode&)`) that both share word for word, from the checks
of the index value to the adjusted index: the result is the adjusted index. -/
def checkedIndex (refName : String) (symbol : Symbol) (indexV : Option Value) :
    GenM Value :=
  match indexV with
  | none => GenM.throw (.codeGen ("Array index value is not found: " ++ refName))
  | some indexV =>
    if !indexV.getType.isIntegerTy then
      GenM.throw (.codeGen ("Array index value is not an integer: " ++ refName))
    else
      match symbol.type with
      | .primitive _ =>
        GenM.throw (.undefinedBehaviour "the null result of dynamic_cast is dereferenced")
      | .array arrType => do
        let lowerBoundV := Value.constantInt (.integer 32) arrType.lowerBound
        let upperBoundV := Value.constantInt (.integer 32) arrType.upperBound
        generateIndexOutOfBoundsCheck refName indexV lowerBoundV upperBoundV
        CreateBinOp .sub indexV lowerBoundV "adjustedIndex"

mutual
/-- The methods `visit` of `CodeGenVisitor` on the expression nodes; the result is the
member `value` after the visit. The visit of a call is `gen.funcHandler->handle`, the chain
of the methods `handle` from `WriteFuncHandler` to `UserFuncHandler`, each with its
`validateCall`; the chain is written out in the case of `FunCall`. -/
def visitExpr : Expr → GenM (Option Value)
  | .BinOp op lhsExprNode rhsExprNode => do
    let lhsV ← visitExpr lhsExprNode
    let rhsV ← visitExpr rhsExprNode
    match lhsV with
    | none => GenM.throw (.codeGen "Left-hand side value of binary operator is not found")
    | some lhsV =>
      match rhsV with
      | none => GenM.throw (.codeGen "Right-hand side value of binary operator is not found")
      | some rhsV => visitBinOp op.type lhsV rhsV
  | .UnaryOp op exprNode => do
    let exprV ← visitExpr exprNode
    match exprV with
    | none => GenM.throw (.codeGen "Expression value is not found")
    | some exprV => visitUnaryOp op.type exprV
  | .Literal value => visitLiteral value
  | .DeclVarRef refName => visitDeclVarRef refName
  | .DeclArrayRef refName indexNode => do
    let g ← GenM.get
    if !g.symbolTable.contains refName then
      GenM.throw (.codeGen ("Array identifier not found: " ++ refName))
    else do
      let symbol ← getSymbol refName
      if !symbol.type.isArray then
        GenM.throw (.codeGen ("Identifier is not an array: " ++ refName))
      else do
        let indexV ← visitExpr indexNode
        let adjustedIndexV ← checkedIndex refName symbol indexV
        let llvmArrayType := genType symbol.type
        let llvmElementType ← getArrayElementType llvmArrayType
        let elementPtr ← CreateGEP llvmArrayType symbol.getMemPtr
          [.constantInt (.integer 32) 0, adjustedIndexV] (refName ++ "_idx")
        let loadedValue ← CreateLoad llvmElementType elementPtr (refName ++ "_elem")
        pure (some loadedValue)
  | .FunCall funName argNodes =>
    if funName = "write" ∨ funName = "writeln" then
      match argNodes with
      | [argNode] => do
        let argV ← visitExpr argNode
        handleWrite funName argV
      | _ => GenM.throw (.codeGen (argumentCountMessage funName "procedure" argNodes.length))
    else if funName = "readln" then
      match argNodes with
      | [argNode] =>
        match argNode with
        | .DeclVarRef _ | .DeclArrayRef _ _ => do
          let argStore ← storeVisit argNode
          handleReadln argStore
        | _ => GenM.throw (.codeGen "'readln' procedure failed, argument is not a variable")
      | _ => GenM.throw (.codeGen (argumentCountMessage funName "procedure" argNodes.length))
    else if funName = "to_integer" then
      match argNodes with
      | [argNode] => do
        let argV ← visitExpr argNode
        handleToInteger argV
      | _ => GenM.throw (.codeGen (argumentCountMessage funName "function" argNodes.length))
    else if funName = "to_real" then
      match argNodes with
      | [argNode] => do
        let argV ← visitExpr argNode
        handleToReal argV
      | _ => GenM.throw (.codeGen (argumentCountMessage funName "function" argNodes.length))
    else do
      let func ← validateUserCall funName argNodes.length
      let argsV ← visitArgs funName argNodes
      let call ← CreateCall (some func) argsV
      pure (some call)
/-- The methods `visit` of `StoreVisitor`; the result is the member `store` after the
visit. On the nodes that are no declaration reference the visitor is the `DefaultVisitor`,
which throws. -/
def storeVisit : Expr → GenM (Option Value)
  | .DeclVarRef refName => storeDeclVarRef refName
  | .DeclArrayRef refName indexNode => do
    let g ← GenM.get
    if !g.symbolTable.contains refName then
      GenM.throw (.codeGen ("Array not found: " ++ refName))
    else do
      let symbol ← getSymbol refName
      let indexV ← visitExpr indexNode
      let adjustedIndexV ← checkedIndex refName symbol indexV
      let llvmArrayType := genType symbol.type
      let elementV ← CreateGEP llvmArrayType symbol.getMemPtr
        [.constantInt (.integer 32) 0, adjustedIndexV] (refName ++ "_idx")
      pure (some elementV)
  | _ => GenM.throw (.runtimeError "DefaultVisitor: Method not implemented")
/-- The loop of `UserFuncHandler::handle` over the arguments. -/
def visitArgs : String → List Expr → GenM (List Value)
  | _, [] => pure []
  | funName, argNode :: rest => do
    let argV ← visitExpr argNode
    match argV with
    | none =>
      GenM.throw
        (.codeGen ("Failed to get argument value of " ++ funName ++ " function/procedure"))
    | some argV => do
      let argsV ← visitArgs funName rest
      pure (argV :: argsV)
end

/-- The call `gen.funcHandler->handle(funName, argNodes)`. -/
def handle (funName : String) (argNodes : List Expr) : GenM (Option Value) :=
  visitExpr (.FunCall funName argNodes)

/-! ## Declarations and simple statements -/

/-- The methods `setGlobal` and `isGlobal` of a declaration node: `setGlobal` tells whether
`setGlobal(true)` has been called on the node, `global` is the flag the node was built
with. -/
def isGlobal (setGlobal global : Bool) : Bool := setGlobal || global

/-- The method `CodeGenVisitor::visit(VarDeclASTNode&)`. -/
def visitVarDecl (setGlobal : Bool) (node : VarDecl) : GenM Unit := do
  let g ← GenM.get
  if g.symbolTable.contains node.declName then
    GenM.throw (.codeGen ("Variable is already declared: " ++ node.declName))
  else do
    let type := genPrimitiveType node.typeNode
    let defaultV ← getDefaultValueForType type
    if isGlobal setGlobal node.global then do
      let gVar ← newGlobalVariable type defaultV node.declName
      addSymbol node.declName
        ⟨node.declName, .primitive node.typeNode, .globalVariable gVar, false⟩
    else do
      let memPtr ← CreateAlloca type node.declName
      let _ ← CreateStore defaultV memPtr
      addSymbol node.declName ⟨node.declName, .primitive node.typeNode, .allocaInst memPtr, false⟩

/-- The loop of `CodeGenVisitor::visit(ArrayDeclASTNode&)` that initialises a local array:
the steps from `i` on, `count` of them. -/
def initArray (arrayType : LType) (store zeroIndex defaultV : Value) :
    Nat → Nat → GenM Unit
  | 0, _ => pure ()
  | count + 1, i => do
    let index := Value.constantInt (.integer 32) i
    let ptrToElem ← CreateGEP arrayType store [zeroIndex, index] ""
    let _ ← CreateStore defaultV ptrToElem
    initArray arrayType store zeroIndex defaultV count (i + 1)

/-- The method `CodeGenVisitor::visit(ArrayDeclASTNode&)`; the bounds are `int`, and so is
their difference. -/
def visitArrayDecl (setGlobal : Bool) (declName : String) (global : Bool)
    (typeNode : ArrayType) : GenM Unit := do
  let g ← GenM.get
  if g.symbolTable.contains declName then
    GenM.throw (.codeGen ("Array is already declared: " ++ declName))
  else if typeNode.lowerBound > typeNode.upperBound then
    GenM.throw (.codeGen ("Array lower bound is greater than upper bound: " ++ declName))
  else if wrapInt (typeNode.upperBound - typeNode.lowerBound) > 1000 then
    GenM.throw (.codeGen ("Array size is too large: " ++ declName))
  else if typeNode.upperBound = typeNode.lowerBound then
    GenM.throw (.codeGen ("Array size should be at least 2: " ++ declName))
  else do
    let arrayType := genArrayType typeNode
    if isGlobal setGlobal global then do
      let gVar ← newGlobalVariable arrayType (.constantAggregateZero arrayType) declName
      addSymbol declName ⟨declName, .array typeNode, .globalVariable gVar, false⟩
    else do
      let store ← CreateAlloca arrayType declName
      let zeroIndex := Value.constantInt (.integer 32) 0
      let elementType ← getArrayElementType arrayType
      let defaultV ← getDefaultValueForType elementType
      let arraySize :=
        ((wrapInt (wrapInt (typeNode.upperBound - typeNode.lowerBound) + 1)) % 4294967296).toNat
      initArray arrayType store zeroIndex defaultV arraySize 0
      addSymbol declName ⟨declName, .array typeNode, .allocaInst store, false⟩

/-- The method `CodeGenVisitor::visit(ConstDefASTNode&)`; the type node that the method
stores in the node is the one of the symbol. -/
def visitConstDef (setGlobal : Bool) (declName : String) (global : Bool) (exprNode : Expr) :
    GenM Unit := do
  let g ← GenM.get
  if g.symbolTable.contains declName then
    GenM.throw (.codeGen ("Constant is already defined: " ++ declName))
  else do
    let exprV ← visitExpr exprNode
    match exprV with
    | none => GenM.throw (.codeGen ("Constant expression value is not found: " ++ declName))
    | some exprV =>
      let typeNode ←
        if exprV.getType.isDoubleTy then pure PrimitiveType.REAL
        else if exprV.getType.isIntegerTy then pure PrimitiveType.INTEGER
        else GenM.throw (.codeGen ("Unsupported constant type: " ++ declName))
      if isGlobal setGlobal global then do
        let defaultV ← getDefaultValueForType exprV.getType
        let gConst ← newGlobalVariable defaultV.getType defaultV declName
        let _ ← CreateStore exprV gConst
        addSymbol declName ⟨declName, .primitive typeNode, .globalVariable gConst, true⟩
      else do
        let store ← CreateAlloca exprV.getType declName
        let _ ← CreateStore exprV store
        addSymbol declName ⟨declName, .primitive typeNode, .allocaInst store, true⟩

/-- The use of a pointer to a value where the sources do not test it for null. -/
def expectValue (v : Option Value) : GenM Value :=
  match v with
  | some v => pure v
  | none => GenM.throw (.undefinedBehaviour "a null value is dereferenced")

/-- The method `AssignASTNode::getVarNode`, on the initialisation of a `For`, which is an
`Assign`. -/
def Stmt.getVarNode : Stmt → Expr
  | .Assign varNode _ => varNode
  | _ => .DeclVarRef ""

/-- The part of `CodeGenVisitor::visit(AssignASTNode&)` that follows the visit of the store
visitor: `store` is the memory location found for the variable `refName`. -/
def assignTo (refName : String) (store : Option Value) (exprNode : Expr) : GenM Unit := do
  let exprVal ← visitExpr exprNode
  match exprVal with
  | none => GenM.throw (.codeGen "Assignment failed - expression value is not found")
  | some exprVal =>
    match store with
    | none => GenM.throw (.undefinedBehaviour "the null store is dereferenced")
    | some store => do
      let target ← getPointerElementType store.getType
      if exprVal.getType.isDoubleTy && target.isIntegerTy then
        GenM.throw (.codeGen
          ("Assignment failed - cannot assign real value to an integer variable: " ++ refName))
      else do
        let exprVal ←
          if target.isDoubleTy then CreateSIToFP exprVal .double else pure exprVal
        let _ ← CreateStore exprVal store
        pure ()

/-- The method `CodeGenVisitor::visit(AssignASTNode&)`. -/
def visitAssign (varNode exprNode : Expr) : GenM Unit := do
  let refName := varNode.getRefName
  let g ← GenM.get
  if !g.symbolTable.contains refName then
    GenM.throw (.codeGen ("Variable not found: " ++ refName))
  else do
    let symbol ← getSymbol refName
    if symbol.immutable then
      GenM.throw (.codeGen ("Cannot assign to a constant: " ++ refName))
    else do
      let store ← storeVisit varNode
      assignTo refName store exprNode

/-! ## Statements -/

/-- The member `retV` of `ExitASTNode`: nothing, a value, or the closure `loadReturnV` of
`CodeGenVisitor::visit(FunDeclASTNode&)` with what it captures. -/
inductive RetV where
  | monostate
  | value (v : Value)
  | loadReturnV (retType : LType) (retValStore : Value) (declName : String)
  deriving DecidableEq, Repr

/-- What the passes of `CollectorVisitor` have stored in the `Break` and `Exit` nodes of the
subtree that is visited next. A pass assigns one value to every such node of a subtree, and
a node is visited after the passes of all constructs around it, so at the visit of a subtree
all its `Break` nodes hold one `breakBlock` and all its `Exit` nodes one `retV`: the visitor
carries the two along instead of a copy in each node. A node no pass has reached holds what
it was built with, no block and `monostate`. -/
structure Wiring where
  breakBlock : Option Nat
  retV : RetV
  deriving DecidableEq, Repr

/-- The wiring of the nodes as the parser builds them. -/
def Wiring.initial : Wiring := ⟨none, .monostate⟩

/-- The method `CodeGenVisitor::visit(BreakASTNode&)`. -/
def visitBreak (w : Wiring) : GenM Unit :=
  match w.breakBlock with
  | none => pure ()
  | some breakBlock => do
    let _ ← CreateBr breakBlock
    let func ← GetInsertBlockParent
    let afterBreakBlock ← BasicBlock.Create "afterBreak" func
    SetInsertPoint (some afterBreakBlock)

/-- The method `CodeGenVisitor::visit(ExitASTNode&)`. -/
def visitExit (w : Wiring) : GenM Unit := do
  match w.retV with
  | .monostate => do
    let _ ← CreateRetVoid
  | .value v => do
    let _ ← CreateRet v
  | .loadReturnV retType retValStore declName => do
    let loadedReturnV ← CreateLoad retType retValStore declName
    let _ ← CreateRet loadedReturnV
  let func ← GetInsertBlockParent
  let afterExitBlock ← BasicBlock.Create "afterExit" func
  SetInsertPoint (some afterExitBlock)

/-- The names that the arguments of a function get from `arg.setName` in the loop over the
parameters, in the table of names of the function: `taken` are the names in the table (at
first the one of the block `entry`), `lastUnique` is its counter. Each argument is followed
in the table by its stack slot, for which the name of the argument is requested. -/
def argumentNames : List String → Nat → List String → List String
  | _, _, [] => []
  | taken, lastUnique, declName :: rest =>
    let arg := createValueName taken "" declName lastUnique
    let slot := createValueName (arg.1 :: taken) "" arg.1 arg.2
    arg.1 :: argumentNames (slot.1 :: arg.1 :: taken) slot.2 rest

/-- The loop over the arguments of `CodeGenVisitor::visit(ProcDeclASTNode&)` and
`CodeGenVisitor::visit(FunDeclASTNode&)`: `i` counts the arguments, `names` are the names
they got from `setName`. -/
def storeArguments (func : Nat) : Nat → List LType → List String → List VarDecl → GenM Unit
  | i, type :: types, name :: names, param :: paramNodes => do
    let store ← CreateAlloca type name
    let _ ← CreateStore (.argument func i type) store
    addSymbol name ⟨name, .primitive param.typeNode, .allocaInst store, false⟩
    storeArguments func (i + 1) types names paramNodes
  | _, _, _, _ => pure ()

/-- The state after the arguments of a function have got their names. -/
def GenContext.setArgumentNames (g : GenContext) (func : Nat) (names : List String) :
    GenContext :=
  { g with functions := g.functions.modify (fun f => { f with argNames := names }) func }

/-- The calls `arg.setName` on the arguments of a function. -/
def setArgumentNames (func : Nat) (names : List String) : GenM Unit := fun g =>
  (.ok (), g.setArgumentNames func names)

/-- The start of the body of a procedure or function: the block `entry`, the names of the
arguments and their stack slots. -/
def enterFunction (func : Nat) (paramNodes : List VarDecl) : GenM Unit := do
  let BB ← BasicBlock.Create "entry" (some func)
  SetInsertPoint (some BB)
  let callee ← functionAt func
  let names := argumentNames ["entry"] 0 (paramNodes.map VarDecl.declName)
  setArgumentNames func names
  storeArguments func 0 callee.paramTypes names paramNodes

/-- The part of `CodeGenVisitor::visit(FunDeclASTNode&)` that creates the variable of the
return value, named like the function; the result is its stack slot. -/
def createReturnSlot (declName : String) (retTypeNode : PrimitiveType) : GenM Value := do
  let retType := genPrimitiveType retTypeNode
  let retValStore ← CreateAlloca retType declName
  let defaultV ← getDefaultValueForType retType
  let _ ← CreateStore defaultV retValStore
  addSymbol declName ⟨declName, .primitive retTypeNode, .allocaInst retValStore, false⟩
  pure retValStore

/-- The loop of the two declaration visits that compares the types of the arguments of the
declared function with those of the parameters of the definition; `what` is `Procedure` or
`Function`. -/
def checkArgumentTypes (what declName : String) : Nat → List LType → List VarDecl → GenM Unit
  | argNo, type :: types, param :: paramNodes =>
    if type ≠ genPrimitiveType param.typeNode then
      GenM.throw (.codeGen (what ++ " '" ++ declName ++ "' expects argument $" ++
        toString argNo ++ " to be of type provided in the declaration"))
    else checkArgumentTypes what declName (argNo + 1) types paramNodes
  | _, _, _ => pure ()

/-- The first part of `CodeGenVisitor::visit(ProcDeclASTNode&)` and of
`CodeGenVisitor::visit(FunDeclASTNode&)`, up to the point where the body starts: the checks
against an earlier declaration, or the declaration itself. `retType` is the type of the
result of a function, nothing for a procedure; the result is the function whose body is to
be emitted, nothing after a forward declaration. -/
def declareFunction (what : String) (declName : String) (paramNodes : List VarDecl)
    (hasBlock : Bool) (retType : Option PrimitiveType) : GenM (Option Nat) := do
  let declared ← getFunction declName
  match declared with
  | some func =>
    if !hasBlock then
      GenM.throw (.codeGen ("Redeclaration of " ++ what.decapitalize ++ " '" ++ declName ++ "'"))
    else do
      let empty ← functionEmpty func
      if !empty then
        GenM.throw
          (.codeGen ("Redefinition of " ++ what.decapitalize ++ " '" ++ declName ++ "'"))
      else do
        let callee ← functionAt func
        if callee.paramTypes.length ≠ paramNodes.length then
          GenM.throw (.codeGen (what ++ " '" ++ declName ++ "' expects " ++
            toString callee.paramTypes.length ++ " arguments in declaration, but " ++
            toString paramNodes.length ++ " were provided in definition"))
        else do
          checkArgumentTypes what declName 0 callee.paramTypes paramNodes
          pure (some func)
  | none =>
    if retType.isSome ∧ ∃ p ∈ paramNodes, p.declName = declName then
      GenM.throw (.codeGen
        ("Function parameter has the same name as the function itself: '" ++ declName ++ "'"))
    else do
      let paramTypes := paramNodes.map fun p => genPrimitiveType p.typeNode
      let resultType :=
        match retType with
        | some t => genPrimitiveType t
        | none => LType.void
      let func ← Function.Create resultType paramTypes false declName
      if !hasBlock then pure none else pure (some func)

mutual
/-- The methods `visit` of `CodeGenVisitor` on the statement nodes. `w` is what the
collector passes have stored in the `Break` and `Exit` nodes below, `setGlobal` tells
whether `setGlobal(true)` has been called on the node. -/
def visitStmt (w : Wiring) (setGlobal : Bool) : Stmt → GenM Unit
  | .Block main statementNodes =>
    if main then do
      let funcMain ← Function.Create (.integer 32) [] false "main"
      let EntryBlock ← BasicBlock.Create "entry" (some funcMain)
      SetInsertPoint (some EntryBlock)
      let retV := Value.constantInt (.integer 32) 0
      visitStmts { w with retV := .value retV } true statementNodes
      let _ ← CreateRet (.constantInt (.integer 32) 0)
    else do
      let func ← GetInsertBlockParent
      if func.isNone then GenM.throw (.codeGen "Parent function is not found")
      else do
        let BB ← BasicBlock.Create "block" func
        let _ ← CreateBr BB
        SetInsertPoint (some BB)
        let symbolTableCopy := (← GenM.get).symbolTable
        visitStmts w false statementNodes
        setSymbolTable symbolTableCopy
  | .CompoundStmt statementNodes => do
    let func ← GetInsertBlockParent
    if func.isNone then GenM.throw (.codeGen "Parent function is not found")
    else visitStmts w false statementNodes
  | .VarDeclStmt decl => visitVarDecl setGlobal decl
  | .ArrayDecl declName global typeNode => visitArrayDecl setGlobal declName global typeNode
  | .ConstDef declName global exprNode _ => visitConstDef setGlobal declName global exprNode
  | .ProcDecl declName _ paramNodes optBlockNode => do
    let proc ← declareFunction "Procedure" declName paramNodes optBlockNode.isSome none
    match proc, optBlockNode with
    | some proc, some blockNode => do
      let prevBB ← GetInsertBlock
      let symbolTableCopy := (← GenM.get).symbolTable
      enterFunction proc paramNodes
      visitStmt { w with retV := .monostate } false blockNode
      let _ ← CreateRetVoid
      SetInsertPoint prevBB
      setSymbolTable symbolTableCopy
    | _, _ => pure ()
  | .FunDecl declName _ paramNodes optBlockNode retTypeNode => do
    let func ← declareFunction "Function" declName paramNodes optBlockNode.isSome
      (some retTypeNode)
    match func, optBlockNode with
    | some func, some blockNode => do
      let prevBB ← GetInsertBlock
      let symbolTableCopy := (← GenM.get).symbolTable
      enterFunction func paramNodes
      let retType := genPrimitiveType retTypeNode
      let retValStore ← createReturnSlot declName retTypeNode
      visitStmt { w with retV := .loadReturnV retType retValStore declName } false blockNode
      let loadedReturnV ← CreateLoad retType retValStore declName
      let _ ← CreateRet loadedReturnV
      SetInsertPoint prevBB
      setSymbolTable symbolTableCopy
    | _, _ => pure ()
  | .Assign varNode exprNode => visitAssign varNode exprNode
  | .If condNode bodyNode optElseBodyNode => do
    let func ← GetInsertBlockParent
    if func.isNone then GenM.throw (.codeGen "Parent function is not found")
    else do
      let BBbody ← BasicBlock.Create "body" func
      let BBelseBody ← BasicBlock.Create "elseBody" func
      let BBafter ← BasicBlock.Create "after" func
      let condVal ← visitExpr condNode
      let _ ← CreateCondBr (← expectValue condVal) BBbody BBelseBody
      SetInsertPoint (some BBbody)
      visitStmt w false bodyNode
      let _ ← CreateBr BBafter
      SetInsertPoint (some BBelseBody)
      match optElseBodyNode with
      | some elseBodyNode => visitStmt w false elseBodyNode
      | none => pure ()
      let _ ← CreateBr BBafter
      SetInsertPoint (some BBafter)
  | .While condNode bodyNode => do
    let func ← GetInsertBlockParent
    if func.isNone then GenM.throw (.codeGen "Parent function is not found")
    else do
      let BBcond ← BasicBlock.Create "cond" func
      let BBbody ← BasicBlock.Create "body" func
      let BBafter ← BasicBlock.Create "after" func
      let _ ← CreateBr BBcond
      SetInsertPoint (some BBcond)
      let condVal ← visitExpr condNode
      let _ ← CreateCondBr (← expectValue condVal) BBbody BBafter
      SetInsertPoint (some BBbody)
      visitStmt { w with breakBlock := some BBafter } false bodyNode
      let _ ← CreateBr BBcond
      SetInsertPoint (some BBafter)
  | .For initNode toNode bodyNode increasing => do
    let func ← GetInsertBlockParent
    if func.isNone then GenM.throw (.codeGen "Parent function is not found")
    else do
      let BBinit ← BasicBlock.Create "init" func
      let BBcond ← BasicBlock.Create "cond" func
      let BBbody ← BasicBlock.Create "body" func
      let BBafter ← BasicBlock.Create "after" func
      let _ ← CreateBr BBinit
      SetInsertPoint (some BBinit)
      visitStmt w false initNode
      let _ ← CreateBr BBcond
      SetInsertPoint (some BBcond)
      let fromStore ← storeVisit initNode.getVarNode
      let toVal ← visitExpr toNode
      let fromVal ← visitExpr initNode.getVarNode
      let condVal ←
        if increasing then CreateICmp .SLE (← expectValue fromVal) (← expectValue toVal) "le"
        else CreateICmp .SGE (← expectValue fromVal) (← expectValue toVal) "ge"
      let _ ← CreateCondBr condVal BBbody BBafter
      SetInsertPoint (some BBbody)
      visitStmt { w with breakBlock := some BBafter } false bodyNode
      let fromVal ← visitExpr initNode.getVarNode
      let incrementedVal ← CreateBinOp .add (← expectValue fromVal)
        (.constantInt (.integer 32) (if increasing then 1 else -1)) ""
      let _ ← CreateStore incrementedVal (← expectValue fromStore)
      let _ ← CreateBr BBcond
      SetInsertPoint (some BBafter)
  | .ProcCall procName argNodes => do
    let _ ← handle procName argNodes
  | .EmptyStmt => pure ()
  | .Break => visitBreak w
  | .Exit => visitExit w
/-- The loops `for (const auto& s : node.getStatementNodes()) s->accept(*this)`. -/
def visitStmts (w : Wiring) (setGlobal : Bool) : List Stmt → GenM Unit
  | [] => pure ()
  | s :: rest => do
    visitStmt w setGlobal s
    visitStmts w setGlobal rest
end

/-- The constructor `GenContext::GenContext`: an empty module and symbol table, no insertion
point, and the functions that the constructors of the handlers declare. -/
def GenContext.new : GenContext :=
  (do
    let _ ← Function.Create .void [.integer 32] false "write_int"
    let _ ← Function.Create .void [.double] false "write_double"
    let _ ← Function.Create .void [.integer 32] false "writeln_int"
    let _ ← Function.Create .void [.double] false "writeln_double"
    let _ ← Function.Create .void [.pointer (.integer 32)] false "readln_int"
    let _ ← Function.Create .void [.pointer .double] false "readln_double"
    : GenM Unit).run ⟨[], [], 0, [], [], none, []⟩ |>.2

/-- The method `CodeGenVisitor::visit(ProgramASTNode&)`: `setMain(true)` on the block, then
its visit. -/
def visitProgram (node : Program) : GenM Unit :=
  match node.blockNode with
  | .Block _ statementNodes => visitStmt Wiring.initial false (.Block true statementNodes)
  | other => visitStmt Wiring.initial false other

/-- The method `CodeGenerator::generate` up to the printing of the module: how the visit of
the program ends and the state it leaves. -/
def generate (program : Program) : Except GenError Unit × GenContext :=
  (visitProgram program).run GenContext.new
/-! ## Notions used to state the properties -/

/-- The position after `n` calls of `advance`. -/
def Position.advanceBy (n : Nat) (p : Position) : Position := Nat.iterate Position.advance n p

/-- Value of a digit character: `0`..`9` for decimal digits, `10`..`15` for `a`..`f`. -/
def digitValue (c : Char) : Int :=
  if isalpha c then (c.toNat : Int) - 97 + 10 else (c.toNat : Int) - 48

/-- Positional value of a digit string in the given base. -/
def positionalValue (base : Int) (digits : List Char) : Int :=
  digits.foldl (fun acc c => acc * base + digitValue c) 0

/-- Octal digit `0`..`7`. -/
def isOctalDigit (c : Char) : Bool := 48 ≤ c.toNat && c.toNat ≤ 55

/-- Hexadecimal digit `0`..`9`, `a`..`f`. -/
def isHexDigit (c : Char) : Bool := isdigit c || (97 ≤ c.toNat && c.toNat ≤ 102)

/-- Character of a word: letter, digit or underscore. -/
def isWordChar (c : Char) : Bool := isdigit c || isalpha c || c = '_'

/-- First character of a word: letter or underscore. -/
def isWordStart (c : Char) : Bool := isalpha c || c = '_'

/-- The parsing function `p`, started on the lexer `l`, returns `a` and leaves the lexer
`l'`, whatever fuel above some bound it is given. -/
def Returns {α : Type} (p : Nat → Lexer → Except FrontError (α × Lexer)) (l : Lexer) (a : α)
    (l' : Lexer) : Prop :=
  ∃ n0, ∀ n, n0 ≤ n → p n l = .ok (a, l')

/-- The lexer `l'` is `l` after its lookahead token has been matched and consumed. -/
def Consumes (l l' : Lexer) : Prop := l.matchToken l.peek.type = .ok (some l.peek, l')

/-- The tokens that may follow an expression. -/
def expressionFollow : List TokenType :=
  [.SEMICOLON, .RIGHT_BRACKET, .THEN, .DO, .TO, .DOWNTO, .RIGHT_PAREN, .COMMA, .END, .ELSE]

/-- The binary operators of each precedence level, from the loosest (rank 0) to the
tightest (rank 5). -/
def precedenceOps : Nat → List TokenType
  | 0 => [.OR]
  | 1 => [.AND]
  | 2 => [.EQUAL, .NOT_EQUAL]
  | 3 => [.LESS, .LESS_EQUAL, .GREATER, .GREATER_EQUAL]
  | 4 => [.PLUS, .MINUS]
  | 5 => [.MULTIPLY, .DIVIDE, .MOD, .DIV]
  | _ => []

/-- The parsing function of each precedence level; rank 6 is the level of the unary
operators, whose expressions are the operands of rank 5. -/
def levelParser : Nat → Nat → Lexer → Except FrontError (Expr × Lexer)
  | 0 => parseLogicalOrExpression
  | 1 => parseLogicalAndExpression
  | 2 => parseEqualityExpression
  | 3 => parseRelationalExpression
  | 4 => parseAdditiveExpression
  | 5 => parseMultiplicativeExpression
  | _ => parseUnaryExpression

/-- The folding function of each precedence level. -/
def levelParserR : Nat → Nat → Expr → Lexer → Except FrontError (Expr × Lexer)
  | 0 => parseLogicalOrExpressionR
  | 1 => parseLogicalAndExpressionR
  | 2 => parseEqualityExpressionR
  | 3 => parseRelationalExpressionR
  | 4 => parseAdditiveExpressionR
  | _ => parseMultiplicativeExpressionR

/-- The binary operators of the levels looser than rank `r`. -/
def looserOps : Nat → List TokenType
  | 0 => []
  | r + 1 => looserOps r ++ precedenceOps r

/-- The tokens at which the folding of level `r` stops. -/
def levelStop (r : Nat) : List TokenType := expressionFollow ++ looserOps r

/-- The unread input continues with operators of `ops`, each followed by an operand that
`next` parses: `items` lists the operator tokens with their operands, `l'` is the lexer
after the last operand. -/
inductive OperandChain (ops : List TokenType)
    (next : Nat → Lexer → Except FrontError (Expr × Lexer)) :
    Lexer → List (Token × Expr) → Lexer → Prop where
  | nil (l : Lexer) : OperandChain ops next l [] l
  | cons {l l1 l2 l' : Lexer} {rhs : Expr} {rest : List (Token × Expr)} :
      l.peek.type ∈ ops → Consumes l l1 → Returns next l1 rhs l2 →
      OperandChain ops next l2 rest l' → OperandChain ops next l ((l.peek, rhs) :: rest) l'

/-- The left-nested tree `BinOp(opn, BinOp(..., BinOp(op1, e0, e1) ...), en)`. -/
def leftNested (e0 : Expr) (items : List (Token × Expr)) : Expr :=
  items.foldl (fun acc item => .BinOp item.1 acc item.2) e0

/-- What the proofs use of a precedence level: how its two functions unfold. -/
structure LevelFacts (p : Nat → Lexer → Except FrontError (Expr × Lexer))
    (pR : Nat → Expr → Lexer → Except FrontError (Expr × Lexer))
    (next : Nat → Lexer → Except FrontError (Expr × Lexer))
    (ops stop : List TokenType) : Prop where
  first : ∀ n l e l', l.peek.type ∈ expressionFirst → next n l = .ok (e, l') →
    p (n + 1) l = pR n e l'
  op : ∀ n lhs rhs l l1 l2, l.peek.type ∈ ops → Consumes l l1 → next n l1 = .ok (rhs, l2) →
    pR (n + 1) lhs l = pR n (.BinOp l.peek lhs rhs) l2
  stop : ∀ n lhs l, l.peek.type ∈ stop → pR (n + 1) lhs l = .ok (lhs, l)

/-- The lexer built on a source text (an exhausted lexer when the first token cannot be
read). -/
def Lexer.ofString (s : String) : Lexer :=
  match Lexer.new s.toList with
  | .ok l => l
  | .error _ => ⟨⟨[], Position.start, Position.start⟩, ⟨.EOI, Position.start, none⟩⟩

/-- The lexer after `n` further tokens have been consumed. -/
def Lexer.skip : Nat → Lexer → Lexer
  | 0, l => l
  | n + 1, l =>
    match l.matchToken l.peek.type with
    | .ok (_, l1) => Lexer.skip n l1
    | .error _ => l

/-- The arrays declared directly in the block of a program: name, lower and upper bound. -/
def Program.arrayBounds (p : Program) : List (String × Int × Int) :=
  match p.blockNode with
  | .Block _ statementNodes =>
    statementNodes.filterMap fun s =>
      match s with
      | .ArrayDecl declName _ typeNode => some (declName, typeNode.lowerBound, typeNode.upperBound)
      | _ => none
  | _ => []

/-- How the reading of a sequence of tokens ended: the requested number of tokens was
delivered, the end of the input was reached, or the lexer raised an error. -/
inductive LexEnd where
  | more
  | eoi
  | failed (message : String)
  deriving DecidableEq

/-- The kinds and payloads of the first `n` tokens that `readNextToken` delivers from a
cursor on, and how the reading ended. -/
def firstTokens : Nat → Cursor → List (TokenType × Option TokenValue) × LexEnd
  | 0, _ => ([], .more)
  | n + 1, s =>
    match readNextToken s with
    | .error (.lexer message _) => ([], .failed message)
    | .error _ => ([], .failed "")
    | .ok (tok, s1) =>
      if tok.type = .EOI then ([], .eoi)
      else ((tok.type, tok.value) :: (firstTokens n s1).1, (firstTokens n s1).2)

/-- The first `n` tokens of a source text. -/
def lexTokens (n : Nat) (source : List Char) : List (TokenType × Option TokenValue) × LexEnd :=
  firstTokens n ⟨source, Position.start, Position.start⟩

/-- Whether a text, read from outside (`inside = false`) or inside a comment, ends
outside every comment: `{` opens a comment, the first following `}` closes it. -/
def commentClosed : Bool → List Char → Bool
  | inside, [] => !inside
  | false, c :: cs => commentClosed (c = '{') cs
  | true, c :: cs => commentClosed (c ≠ '}') cs

/-- Type, payload and unread input of a scan: what is left when positions are dropped. -/
def Scan.content (r : Scan) : Except String (TokenType × Option TokenValue × List Char) :=
  match r with
  | .ok (tok, s) => .ok (tok.type, tok.value, s.is)
  | .error (.lexer message _) => .error message
  | .error _ => .error ""

/-- What a label of the lexer does on a text `x` that is followed by a character ending
every token (`{` or a blank): it fails, it returns a token and leaves the part `x1` of
`x` unread, or it reaches the end of `x` at the label `qStart`. -/
inductive Outcome where
  | failed (e : FrontError)
  | token (tok : Token) (x1 : List Char) (curPos tokenStartPos : Position)
  | reached (curPos tokenStartPos : Position)

/-- The scan that an outcome stands for when the text is followed by `tail`. -/
def Outcome.resume (o : Outcome) (tail : List Char) : Scan :=
  match o with
  | .failed e => .error e
  | .token tok x1 curPos tokenStartPos => .ok (tok, ⟨x1 ++ tail, curPos, tokenStartPos⟩)
  | .reached curPos tokenStartPos => qStart tail curPos tokenStartPos

/-- A character that ends every token and starts none: the opening brace and the blank. -/
def isNeutral (c : Char) : Bool := c = '{' || c = ' '

/-- The unread part `x1` of an outcome on `x` is a tail of `x` that is reached without
crossing an opening brace; a token is never `EOI`; the end of `x` is not reached. -/
def Outcome.Good (x : List Char) (o : Outcome) : Prop :=
  match o with
  | .token tok x1 _ _ => tok.type ≠ .EOI ∧ ∃ p, x = p ++ x1 ∧ ∀ c ∈ p, c ≠ '{'
  | .failed _ => True
  | .reached _ _ => False

/-- The branch that label `qStart` takes on a first character. -/
inductive StartKind where
  | space | comment | single (t : TokenType) | less | greater | colon | dot
  | int8 | int16 | identifier | int10 | bad

/-- The tests of label `qStart` in their order. -/
def startKind (c : Char) : StartKind :=
  if isspace c then .space
  else if c = '{' then .comment
  else if c = '+' then .single .PLUS
  else if c = '-' then .single .MINUS
  else if c = '*' then .single .MULTIPLY
  else if c = '/' then .single .DIVIDE
  else if c = '=' then .single .EQUAL
  else if c = '<' then .less
  else if c = '>' then .greater
  else if c = ':' then .colon
  else if c = ';' then .single .SEMICOLON
  else if c = ',' then .single .COMMA
  else if c = '.' then .dot
  else if c = '(' then .single .LEFT_PAREN
  else if c = ')' then .single .RIGHT_PAREN
  else if c = '[' then .single .LEFT_BRACKET
  else if c = ']' then .single .RIGHT_BRACKET
  else if c = '&' then .int8
  else if c = '$' then .int16
  else if isalpha c || c = '_' then .identifier
  else if isdigit c then .int10
  else .bad

/-- The unread part `x1` of an outcome of `qStart` or `qComment` on `x` is shorter than `x`
and ends outside every comment; a token is never `EOI`. -/
def Outcome.GoodStart (x : List Char) (o : Outcome) : Prop :=
  match o with
  | .token tok x1 _ _ =>
    tok.type ≠ .EOI ∧ commentClosed false x1 = true ∧ x1.length < x.length
  | _ => True


/-! ## Notions used to state the properties of real literals and statement lists -/

/-- The sum `d1/10^i + d2/10^(i+1) + ...` over the digits of a fraction, `i` being the
place of the first digit. -/
def fractionFrom : Nat → List Char → ℚ
  | _, [] => 0
  | i, d :: ds => (digitValue d : ℚ) / 10 ^ i + fractionFrom (i + 1) ds

/-- The value `d1/10 + d2/100 + ... + dk/10^k` of the fractional digits `d1 ... dk`. -/
def fractionValue (digits : List Char) : ℚ := fractionFrom 1 digits

/-- The unread input continues with statements that each follow a `;`: `stmts` lists what
`parseStatement` returns for them, in source order, `l'` is the lexer after the last one. -/
inductive StatementChain : Lexer → List Stmt → Lexer → Prop where
  | nil (l : Lexer) : StatementChain l [] l
  | cons {l l1 l2 l' : Lexer} {s : Stmt} {rest : List Stmt} :
      l.peek.type = .SEMICOLON → Consumes l l1 → Returns parseStatement l1 s l2 →
      StatementChain l2 rest l' → StatementChain l (s :: rest) l'

/-! ## Notions used to state the properties of the generator -/

/-- The relation `R` holds between the state before a step and the state after it, however
the step ends. -/
structure GenM.Keeps {α : Type} (R : GenContext → GenContext → Prop) (m : GenM α) : Prop where
  after : ∀ g, R g (m.run g).2

/-- A relation between states that the lowering of expressions keeps: it is a preorder that
holds across every change of the state that the lowering of an expression makes (an
instruction other than a store is appended, a block or a function is created, the insertion
point is moved, a text is added to the module). -/
structure ExprStable (R : GenContext → GenContext → Prop) : Prop where
  refl : ∀ g, R g g
  trans : ∀ g1 g2 g3, R g1 g2 → R g2 g3 → R g1 g3
  emit : ∀ g opcode operands type name, opcode ≠ .store → R g (g.emit opcode operands type name)
  addBlock : ∀ g name func, R g (g.addBlock name func)
  setInsertBlock : ∀ g block, R g (g.setInsertBlock block)
  addString : ∀ g text, R g (g.addString text)
  addFunction : ∀ g returnType paramTypes isVarArg name,
    R g (g.addFunction returnType paramTypes isVarArg name)

/-- Between the state `g` and the state `g'` instructions have been appended, none of them a
store. -/
def NoStoreSince (g g' : GenContext) : Prop :=
  ∃ new, g'.code = g.code ++ new ∧ ∀ p ∈ new, p.2.opcode ≠ Opcode.store

/-- The state `g'` has the symbol table of the state `g`. -/
def SameSymbols (g g' : GenContext) : Prop := g'.symbolTable = g.symbolTable

/-- The tree of the program `program t; var i: integer; r: real; X: array [-5 .. 5] of
integer; const c = 1; begin end.`, for the examples. -/
def sampleProgram : Program :=
  ⟨"t", .Block false
    [.VarDeclStmt ⟨"i", false, .INTEGER⟩, .VarDeclStmt ⟨"r", false, .REAL⟩,
      .ArrayDecl "X" false ⟨.INTEGER, -5, 5⟩, .ConstDef "c" false (.Literal (.int 1)) none,
      .CompoundStmt [.EmptyStmt]]⟩

/-- The state after the lowering of `sampleProgram`: the globals `i`, `r`, `X` and `c`, the
insertion point in the block `entry` of `main`. -/
def sampleContext : GenContext := (generate sampleProgram).2

/-- Every state that the step `m` leaves when it returns satisfies `P`. -/
structure GenM.Ensures {α : Type} (P : GenContext → Prop) (m : GenM α) : Prop where
  after : ∀ g a g', m.run g = (.ok a, g') → P g'

/-- Every immutable symbol of the state `g'` is a symbol of the state `g`. -/
def NoNewConstants (g g' : GenContext) : Prop :=
  ∀ name symbol, g'.symbolTable.lookup name = some symbol → symbol.immutable = true →
    g.symbolTable.lookup name = some symbol

/-! ## The run-time meaning of a bounds check

What the LLVM language reference says of the instructions that a bounds check consists of:
the signed comparisons, `or` and the two branches. Integers are read as signed numbers,
apart from a one-bit result, which is 1 for true and 0 for false. -/

/-- The registers at run time: the integer value of an executed instruction, by the number
of the instruction. -/
abbrev Registers := Nat → Option Int

/-- The registers after the instruction `id` has produced a value. -/
def Registers.set (regs : Registers) (id : Nat) (v : Option Int) : Registers :=
  fun j => if j = id then v else regs j

/-- The integer comparisons of `icmp` on signed numbers. -/
def Predicate.holds : Predicate → Int → Int → Option Bool
  | .EQ, a, b => some (decide (a = b))
  | .NE, a, b => some (decide (a ≠ b))
  | .SLT, a, b => some (decide (a < b))
  | .SLE, a, b => some (decide (a ≤ b))
  | .SGT, a, b => some (decide (a > b))
  | .SGE, a, b => some (decide (a ≥ b))
  | _, _, _ => none

/-- The value that an integer comparison, an `or` or an addition, subtraction or
multiplication of 32-bit integers produces on two numbers. -/
def Opcode.apply (opcode : Opcode) (x y : Int) : Option Int :=
  match opcode with
  | .icmp predicate => (predicate.holds x y).map fun r => if r then 1 else 0
  | .or => some (Int.lor x y)
  | .add => some (wrapInt (x + y))
  | .sub => some (wrapInt (x - y))
  | .mul => some (wrapInt (x * y))
  | _ => none

/-- The number that an integer constant stands for: that of a `ConstantInt`, and that of a
constant folded from a comparison, an `or` or an arithmetic operation on two such
constants. -/
def Value.constantValue : Value → Option Int
  | .constantInt _ value => some value
  | .folded opcode lhs rhs _ =>
    match lhs.constantValue, rhs.constantValue with
    | some x, some y => opcode.apply x y
    | _, _ => none
  | _ => none

/-- The run-time value of an integer operand: a constant is its value, an instruction the
value in its register. -/
def Value.eval (regs : Registers) : Value → Option Int
  | .instruction id _ => regs id
  | v => v.constantValue

/-- The value that an instruction with two integer operands produces. -/
def Instruction.eval (regs : Registers) (i : Instruction) : Option Int :=
  match i.operands with
  | [a, b] =>
    match a.eval regs, b.eval regs with
    | some x, some y => i.opcode.apply x y
    | _, _ => none
  | _ => none

/-- The run of the instructions of a block up to a branch: the registers then and the block
that the branch continues in. -/
def runBlock (regs : Registers) : List Instruction → Option (Registers × Nat)
  | [] => none
  | i :: rest =>
    match i.opcode with
    | .br dest => some (regs, dest)
    | .condBr ifTrue ifFalse =>
      match i.operands with
      | [cond] => (cond.eval regs).map fun c => (regs, if c ≠ 0 then ifTrue else ifFalse)
      | _ => none
    | .ret | .retVoid | .unreachable => none
    | _ => runBlock (regs.set i.id (i.eval regs)) rest

/-- Every instruction of the module is in a block that exists. -/
def GenContext.codeInBlocks (g : GenContext) : Bool :=
  g.code.all fun p =>
    match p.1 with
    | some block => decide (block < g.blocks.length)
    | none => true

/-- The state after the lowering of `sampleProgram` and of
`function f(): integer; begin f := 4 end`. -/
def sampleWithFunction : GenContext :=
  ((visitStmt Wiring.initial true
    (.FunDecl "f" false []
      (some (.Block false [.CompoundStmt [.Assign (.DeclVarRef "f") (.Literal (.int 4))]]))
      .INTEGER)).run sampleContext).2

/-! ## The members of the nodes that the visits assign

`CodeGenVisitor` stores in the nodes of the tree while it walks through it: `setGlobal` on
the declarations of the main block, `setRetV` on the `Exit` nodes that a `CollectorVisitor`
finds below a block, procedure or function, `setBreakBlock` on the `Break` nodes below the
body of a loop. Here the members are kept in a table by the place of the node, and the
visit passes the table along. -/

/-- The place of a statement node in the tree of the program: the numbers of the children
on the way from the block of the program. The statements of a block are numbered from 0;
the block of a declaration is child 0; the body of an `If` is child 0, the other branch
child 1; the body of a `While` is child 0; the initialisation of a `For` is child 0, its
body child 1. -/
abbrev NodePath := List Nat

/-- The test `dynamic_cast<DeclASTNode*>`: the classes derived from `DeclASTNode`. -/
def Stmt.isDeclNode : Stmt → Bool
  | .VarDeclStmt _ => true
  | .ArrayDecl _ _ _ => true
  | .ConstDef _ _ _ _ => true
  | .ProcDecl _ _ _ _ => true
  | .FunDecl _ _ _ _ _ => true
  | _ => false

/-- The test for the class `BreakASTNode`. -/
def Stmt.isBreakNode : Stmt → Bool
  | .Break => true
  | _ => false

/-- The test for the class `ExitASTNode`. -/
def Stmt.isExitNode : Stmt → Bool
  | .Exit => true
  | _ => false

/-- The method `CollectorVisitor<T>::tryAddNode`; `test` tells whether the node is of the
class `T`. -/
def tryAddNode (test : Stmt → Bool) (p : NodePath) (node : Stmt) : List NodePath :=
  if test node then [p] else []

mutual
/-- The methods `visit` of `CollectorVisitor<T>` on the statement nodes, for a class `T` of
statement nodes: the places of the nodes of class `T` in the tree of the node at the place
`p`, in the order in which the visitor appends them to `collectedNodes`. The visitor also
walks through the expressions, types and parameters, where no statement node is. -/
def collect (test : Stmt → Bool) : NodePath → Stmt → List NodePath
  | p, .Block main statementNodes =>
    tryAddNode test p (.Block main statementNodes) ++ collectList test p 0 statementNodes
  | p, .CompoundStmt statementNodes =>
    tryAddNode test p (.CompoundStmt statementNodes) ++ collectList test p 0 statementNodes
  | p, .VarDeclStmt decl => tryAddNode test p (.VarDeclStmt decl)
  | p, .ArrayDecl declName global typeNode =>
    tryAddNode test p (.ArrayDecl declName global typeNode)
  | p, .ConstDef declName global exprNode typeNode =>
    tryAddNode test p (.ConstDef declName global exprNode typeNode)
  | p, .ProcDecl declName global paramNodes optBlockNode =>
    tryAddNode test p (.ProcDecl declName global paramNodes optBlockNode) ++
      match optBlockNode with
      | some blockNode => collect test (p ++ [0]) blockNode
      | none => []
  | p, .FunDecl declName global paramNodes optBlockNode retTypeNode =>
    tryAddNode test p (.FunDecl declName global paramNodes optBlockNode retTypeNode) ++
      match optBlockNode with
      | some blockNode => collect test (p ++ [0]) blockNode
      | none => []
  | p, .Assign varNode exprNode => tryAddNode test p (.Assign varNode exprNode)
  | p, .If condNode bodyNode optElseBodyNode =>
    tryAddNode test p (.If condNode bodyNode optElseBodyNode) ++
      (collect test (p ++ [0]) bodyNode ++
        match optElseBodyNode with
        | some elseBodyNode => collect test (p ++ [1]) elseBodyNode
        | none => [])
  | p, .While condNode bodyNode =>
    tryAddNode test p (.While condNode bodyNode) ++ collect test (p ++ [0]) bodyNode
  | p, .For initNode toNode bodyNode increasing =>
    tryAddNode test p (.For initNode toNode bodyNode increasing) ++
      (collect test (p ++ [1]) bodyNode ++ collect test (p ++ [0]) initNode)
  | p, .ProcCall procName argNodes => tryAddNode test p (.ProcCall procName argNodes)
  | p, .EmptyStmt => tryAddNode test p .EmptyStmt
  | p, .Break => tryAddNode test p .Break
  | p, .Exit => tryAddNode test p .Exit
/-- The loops `for (auto& arg : node.getStatementNodes()) arg->accept(*this)` of
`CollectorVisitor<T>`; `i` is the number of the first statement of the list. -/
def collectList (test : Stmt → Bool) : NodePath → Nat → List Stmt → List NodePath
  | _, _, [] => []
  | p, i, s :: rest => collect test (p ++ [i]) s ++ collectList test p (i + 1) rest
end

/-- The places of the statements that the loop of the main block calls `setGlobal(true)`
on: those statements of the block that are declarations; `i` is the number of the first
statement of the list. -/
def declNodes (p : NodePath) : Nat → List Stmt → List NodePath
  | _, [] => []
  | i, s :: rest => (if s.isDeclNode then [p ++ [i]] else []) ++ declNodes p (i + 1) rest

/-- The members of the nodes that the visits assign, by the place of the node: whether
`setGlobal(true)` has been called on the declaration node, the member `breakBlock` of the
`Break` node, the member `retV` of the `Exit` node. -/
structure NodeFields where
  global : NodePath → Bool
  breakBlock : NodePath → Option Nat
  retV : NodePath → RetV

/-- The members of the nodes as the parser builds them: `setGlobal` not called, no
`breakBlock`, `retV` is `monostate`. -/
def NodeFields.built : NodeFields := ⟨fun _ => false, fun _ => none, fun _ => .monostate⟩

/-- The calls `declNode->setGlobal(true)` on the nodes at the places `nodes`. -/
def NodeFields.setGlobal (fields : NodeFields) (nodes : List NodePath) : NodeFields :=
  ⟨fun q => if q ∈ nodes then true else fields.global q, fields.breakBlock, fields.retV⟩

/-- The loops `for (auto breakNode : collectedNodes) breakNode->setBreakBlock(BB)`. -/
def NodeFields.setBreakBlock (fields : NodeFields) (nodes : List NodePath) (BB : Nat) :
    NodeFields :=
  ⟨fields.global, fun q => if q ∈ nodes then some BB else fields.breakBlock q, fields.retV⟩

/-- The loops `for (auto exitNode : collectedNodes) exitNode->setRetV(retV)`. -/
def NodeFields.setRetV (fields : NodeFields) (nodes : List NodePath) (retV : RetV) :
    NodeFields :=
  ⟨fields.global, fields.breakBlock, fun q => if q ∈ nodes then retV else fields.retV q⟩

/-- The method `CodeGenVisitor::visit(BreakASTNode&)`, on the member `breakBlock` of the
node. -/
def visitBreakNode (breakBlock : Option Nat) : GenM Unit :=
  match breakBlock with
  | none => pure ()
  | some breakBlock => do
    let _ ← CreateBr breakBlock
    let func ← GetInsertBlockParent
    let afterBreakBlock ← BasicBlock.Create "afterBreak" func
    SetInsertPoint (some afterBreakBlock)

/-- The method `CodeGenVisitor::visit(ExitASTNode&)`, on the member `retV` of the node. -/
def visitExitNode (retV : RetV) : GenM Unit := do
  match retV with
  | .monostate => do
    let _ ← CreateRetVoid
  | .value v => do
    let _ ← CreateRet v
  | .loadReturnV retType retValStore declName => do
    let loadedReturnV ← CreateLoad retType retValStore declName
    let _ ← CreateRet loadedReturnV
  let func ← GetInsertBlockParent
  let afterExitBlock ← BasicBlock.Create "afterExit" func
  SetInsertPoint (some afterExitBlock)

mutual
/-- The methods `visit` of `CodeGenVisitor` on the statement nodes, with the members that
the visits store in the nodes: `p` is the place of the node, `fields` are the members of
all nodes before the visit, the result are the members after it. -/
def visitE : NodePath → Stmt → NodeFields → GenM NodeFields
  | p, .Block main statementNodes, fields =>
    if main then do
      let funcMain ← Function.Create (.integer 32) [] false "main"
      let EntryBlock ← BasicBlock.Create "entry" (some funcMain)
      SetInsertPoint (some EntryBlock)
      let fields := fields.setGlobal (declNodes p 0 statementNodes)
      let retV := Value.constantInt (.integer 32) 0
      let fields :=
        fields.setRetV (collect Stmt.isExitNode p (.Block main statementNodes)) (.value retV)
      let fields ← visitEs p 0 statementNodes fields
      let _ ← CreateRet (.constantInt (.integer 32) 0)
      pure fields
    else do
      let func ← GetInsertBlockParent
      if func.isNone then GenM.throw (.codeGen "Parent function is not found")
      else do
        let BB ← BasicBlock.Create "block" func
        let _ ← CreateBr BB
        SetInsertPoint (some BB)
        let symbolTableCopy := (← GenM.get).symbolTable
        let fields ← visitEs p 0 statementNodes fields
        setSymbolTable symbolTableCopy
        pure fields
  | p, .CompoundStmt statementNodes, fields => do
    let func ← GetInsertBlockParent
    if func.isNone then GenM.throw (.codeGen "Parent function is not found")
    else visitEs p 0 statementNodes fields
  | p, .VarDeclStmt decl, fields => do
    visitVarDecl (fields.global p) decl
    pure fields
  | p, .ArrayDecl declName global typeNode, fields => do
    visitArrayDecl (fields.global p) declName global typeNode
    pure fields
  | p, .ConstDef declName global exprNode _, fields => do
    visitConstDef (fields.global p) declName global exprNode
    pure fields
  | p, .ProcDecl declName global paramNodes optBlockNode, fields => do
    let proc ← declareFunction "Procedure" declName paramNodes optBlockNode.isSome none
    match proc, optBlockNode with
    | some proc, some blockNode => do
      let prevBB ← GetInsertBlock
      let symbolTableCopy := (← GenM.get).symbolTable
      enterFunction proc paramNodes
      let fields :=
        fields.setRetV
          (collect Stmt.isExitNode p (.ProcDecl declName global paramNodes (some blockNode)))
          .monostate
      let fields ← visitE (p ++ [0]) blockNode fields
      let _ ← CreateRetVoid
      SetInsertPoint prevBB
      setSymbolTable symbolTableCopy
      pure fields
    | _, _ => pure fields
  | p, .FunDecl declName _ paramNodes optBlockNode retTypeNode, fields => do
    let func ← declareFunction "Function" declName paramNodes optBlockNode.isSome
      (some retTypeNode)
    match func, optBlockNode with
    | some func, some blockNode => do
      let prevBB ← GetInsertBlock
      let symbolTableCopy := (← GenM.get).symbolTable
      enterFunction func paramNodes
      let retType := genPrimitiveType retTypeNode
      let retValStore ← createReturnSlot declName retTypeNode
      let fields :=
        fields.setRetV (collect Stmt.isExitNode (p ++ [0]) blockNode)
          (.loadReturnV retType retValStore declName)
      let fields ← visitE (p ++ [0]) blockNode fields
      let loadedReturnV ← CreateLoad retType retValStore declName
      let _ ← CreateRet loadedReturnV
      SetInsertPoint prevBB
      setSymbolTable symbolTableCopy
      pure fields
    | _, _ => pure fields
  | _, .Assign varNode exprNode, fields => do
    visitAssign varNode exprNode
    pure fields
  | p, .If condNode bodyNode optElseBodyNode, fields => do
    let func ← GetInsertBlockParent
    if func.isNone then GenM.throw (.codeGen "Parent function is not found")
    else do
      let BBbody ← BasicBlock.Create "body" func
      let BBelseBody ← BasicBlock.Create "elseBody" func
      let BBafter ← BasicBlock.Create "after" func
      let condVal ← visitExpr condNode
      let _ ← CreateCondBr (← expectValue condVal) BBbody BBelseBody
      SetInsertPoint (some BBbody)
      let fields ← visitE (p ++ [0]) bodyNode fields
      let _ ← CreateBr BBafter
      SetInsertPoint (some BBelseBody)
      let fields ←
        match optElseBodyNode with
        | some elseBodyNode => visitE (p ++ [1]) elseBodyNode fields
        | none => pure fields
      let _ ← CreateBr BBafter
      SetInsertPoint (some BBafter)
      pure fields
  | p, .While condNode bodyNode, fields => do
    let func ← GetInsertBlockParent
    if func.isNone then GenM.throw (.codeGen "Parent function is not found")
    else do
      let BBcond ← BasicBlock.Create "cond" func
      let BBbody ← BasicBlock.Create "body" func
      let BBafter ← BasicBlock.Create "after" func
      let _ ← CreateBr BBcond
      SetInsertPoint (some BBcond)
      let condVal ← visitExpr condNode
      let _ ← CreateCondBr (← expectValue condVal) BBbody BBafter
      SetInsertPoint (some BBbody)
      let fields := fields.setBreakBlock (collect Stmt.isBreakNode (p ++ [0]) bodyNode) BBafter
      let fields ← visitE (p ++ [0]) bodyNode fields
      let _ ← CreateBr BBcond
      SetInsertPoint (some BBafter)
      pure fields
  | p, .For initNode toNode bodyNode increasing, fields => do
    let func ← GetInsertBlockParent
    if func.isNone then GenM.throw (.codeGen "Parent function is not found")
    else do
      let BBinit ← BasicBlock.Create "init" func
      let BBcond ← BasicBlock.Create "cond" func
      let BBbody ← BasicBlock.Create "body" func
      let BBafter ← BasicBlock.Create "after" func
      let _ ← CreateBr BBinit
      SetInsertPoint (some BBinit)
      let fields ← visitE (p ++ [0]) initNode fields
      let _ ← CreateBr BBcond
      SetInsertPoint (some BBcond)
      let fromStore ← storeVisit initNode.getVarNode
      let toVal ← visitExpr toNode
      let fromVal ← visitExpr initNode.getVarNode
      let condVal ←
        if increasing then CreateICmp .SLE (← expectValue fromVal) (← expectValue toVal) "le"
        else CreateICmp .SGE (← expectValue fromVal) (← expectValue toVal) "ge"
      let _ ← CreateCondBr condVal BBbody BBafter
      SetInsertPoint (some BBbody)
      let fields := fields.setBreakBlock (collect Stmt.isBreakNode (p ++ [1]) bodyNode) BBafter
      let fields ← visitE (p ++ [1]) bodyNode fields
      let fromVal ← visitExpr initNode.getVarNode
      let incrementedVal ← CreateBinOp .add (← expectValue fromVal)
        (.constantInt (.integer 32) (if increasing then 1 else -1)) ""
      let _ ← CreateStore incrementedVal (← expectValue fromStore)
      let _ ← CreateBr BBcond
      SetInsertPoint (some BBafter)
      pure fields
  | _, .ProcCall procName argNodes, fields => do
    let _ ← handle procName argNodes
    pure fields
  | _, .EmptyStmt, fields => pure fields
  | p, .Break, fields => do
    visitBreakNode (fields.breakBlock p)
    pure fields
  | p, .Exit, fields => do
    visitExitNode (fields.retV p)
    pure fields
/-- The loops `for (const auto& s : node.getStatementNodes()) s->accept(*this)`, with the
members of the nodes; `i` is the number of the first statement of the list. -/
def visitEs : NodePath → Nat → List Stmt → NodeFields → GenM NodeFields
  | _, _, [], fields => pure fields
  | p, i, s :: rest, fields => do
    let fields ← visitE (p ++ [i]) s fields
    visitEs p (i + 1) rest fields
end

/-- The method `CodeGenVisitor::visit(ProgramASTNode&)`, with the members of the nodes:
`setMain(true)` on the block, then its visit, on the nodes as the parser has built them. -/
def visitProgramE (node : Program) : GenM NodeFields :=
  match node.blockNode with
  | .Block _ statementNodes => visitE [] (.Block true statementNodes) NodeFields.built
  | other => visitE [] other NodeFields.built

/-- The method `CodeGenerator::generate` up to the printing of the module, with the members
of the nodes: how the visit of the program ends and the state it leaves. -/
def generateE (program : Program) : Except GenError NodeFields × GenContext :=
  (visitProgramE program).run GenContext.new

/-! ## The visit with the members of the nodes, and the visit that carries them along -/

/-- The members `fields'` are those of `fields` at every place that is not in the tree of
the node at the place `p`. -/
def SameOutside (p : NodePath) (fields fields' : NodeFields) : Prop :=
  ∀ q, ¬ p <+: q → fields'.global q = fields.global q ∧
    fields'.breakBlock q = fields.breakBlock q ∧ fields'.retV q = fields.retV q

/-- Every `Break` node in the tree of the statement `s` at the place `p` holds the block
`breakBlock`. -/
def BreaksWired (fields : NodeFields) (p : NodePath) (s : Stmt) (breakBlock : Option Nat) :
    Prop :=
  ∀ q ∈ collect Stmt.isBreakNode p s, fields.breakBlock q = breakBlock

/-- Every `Exit` node in the tree of the statement `s` at the place `p` holds `retV`. -/
def ExitsWired (fields : NodeFields) (p : NodePath) (s : Stmt) (retV : RetV) : Prop :=
  ∀ q ∈ collect Stmt.isExitNode p s, fields.retV q = retV

/-- In the tree of the statement `s` at the place `p`, `setGlobal(true)` has been called
on no declaration below `s`, and on `s` itself, if it is a declaration, exactly if
`setGlobal` says so. -/
def GlobalsWired (fields : NodeFields) (p : NodePath) (s : Stmt) (setGlobal : Bool) : Prop :=
  ∀ q ∈ collect Stmt.isDeclNode p s, fields.global q = (decide (q = p) && setGlobal)

/-- The nodes in the tree of the statement `s` at the place `p` hold what the visit
`visitStmt w setGlobal` carries along. -/
structure Wired (fields : NodeFields) (p : NodePath) (s : Stmt) (w : Wiring)
    (setGlobal : Bool) : Prop where
  breaks : BreaksWired fields p s w.breakBlock
  exits : ExitsWired fields p s w.retV
  globals : GlobalsWired fields p s setGlobal

/-- The run `r` of a visit with the members of the nodes ends like the run `r'` of a visit
that carries them along: both without error or both with the same error, in the same state;
the members that are left satisfy `F`. -/
def SameResult (F : NodeFields → Prop) :
    Except GenError NodeFields × GenContext → Except GenError Unit × GenContext → Prop
  | (.ok fields, g), (.ok (), g') => g = g' ∧ F fields
  | (.error e, g), (.error e', g') => e = e' ∧ g = g'
  | _, _ => False

/-- From every state the visit `m` with the members of the nodes runs like the visit `n`,
and leaves members that satisfy `F`. -/
structure Simulates (m : GenM NodeFields) (n : GenM Unit) (F : NodeFields → Prop) : Prop where
  run : ∀ g, SameResult F (m.run g) (n.run g)

mutual
/-- The statement `s` without the `Break` statements that are in no loop of `s`: such a
statement is taken out of a list of statements, and is replaced by the empty statement
where it is the branch of an `If` or the like. The loops stay as they are. -/
def Stmt.dropBreaks : Stmt → Stmt
  | .Block main statementNodes => .Block main (dropBreaksList statementNodes)
  | .CompoundStmt statementNodes => .CompoundStmt (dropBreaksList statementNodes)
  | .ProcDecl declName global paramNodes optBlockNode =>
    .ProcDecl declName global paramNodes
      (match optBlockNode with
      | some blockNode => some blockNode.dropBreaks
      | none => none)
  | .FunDecl declName global paramNodes optBlockNode retTypeNode =>
    .FunDecl declName global paramNodes
      (match optBlockNode with
      | some blockNode => some blockNode.dropBreaks
      | none => none) retTypeNode
  | .If condNode bodyNode optElseBodyNode =>
    .If condNode bodyNode.dropBreaks
      (match optElseBodyNode with
      | some elseBodyNode => some elseBodyNode.dropBreaks
      | none => none)
  | .Break => .EmptyStmt
  | other => other
/-- The list of statements without the `Break` statements that are in no loop. -/
def dropBreaksList : List Stmt → List Stmt
  | [] => []
  | .Break :: rest => dropBreaksList rest
  | s :: rest => s.dropBreaks :: dropBreaksList rest
end

/-- For the statement `s`, the visit with the members of the nodes runs like the visit that
carries them along, wherever the nodes in the tree of `s` hold what is carried along, and
it leaves the members of the nodes outside the tree of `s` as they are. -/
def Agrees (s : Stmt) : Prop :=
  ∀ p fields w setGlobal, Wired fields p s w setGlobal →
    Simulates (visitE p s fields) (visitStmt w setGlobal s) (SameOutside p fields)

/-! ## The operators, as the specification puts them -/

/-- The promotion of an operand to real ("promoted to real via signed-int→FP"): a real
operand stays as it is; for any other operand the conversion `sitofp` to `double` is
requested from the builder, which inserts the instruction for an operand that is no
constant and folds the conversion of a constant, inserting nothing. The result is the
operand to use and the state after the request. -/
def promote (v : Value) (g : GenContext) : Value × GenContext :=
  if v.getType.isDoubleTy then (v, g)
  else if v.isConstant then (.foldedUnary .sitofp v .double, g)
  else (.instruction g.code.length .double, g.emit .sitofp [v] .double "")

/-- The arithmetic operators of the table of the specification: the token, the
floating-point instruction with the name of its result, the signed integer instruction
with the name of its result. -/
def arithmeticOperators : List (TokenType × Opcode × String × Opcode × String) :=
  [(.PLUS, .fadd, "fadd", .add, "add"), (.MINUS, .fsub, "fsub", .sub, "sub"),
    (.MULTIPLY, .fmul, "fmul", .mul, "mul"), (.DIVIDE, .fdiv, "fdiv", .sdiv, "div"),
    (.DIV, .fdiv, "fdiv", .sdiv, "div"), (.MOD, .frem, "fmod", .srem, "mod")]

/-- The comparisons of the table of the specification: the token, the ordered
floating-point predicate with the name of the result, the signed integer predicate with
the name of the result. -/
def comparisonOperators : List (TokenType × Predicate × String × Predicate × String) :=
  [(.EQUAL, .OEQ, "feq", .EQ, "eq"), (.NOT_EQUAL, .ONE, "fneq", .NE, "neq"),
    (.LESS, .OLT, "flt", .SLT, "lt"), (.LESS_EQUAL, .OLE, "fle", .SLE, "le"),
    (.GREATER, .OGT, "fgt", .SGT, "gt"), (.GREATER_EQUAL, .OGE, "fge", .SGE, "ge")]
/-! ## The stack slots of the parameters, as the specification puts them -/

/-- The instructions that the specification describes for the parameters of a function
("stack allocations ... immediately followed by stores of parameter values"): for each
parameter a stack allocation under its name and the store of the argument into it, all in
the block `block`; `i` is the number of the first argument and `base` the number of the
first instruction. -/
def parameterSlots (block : Option Nat) (func : Nat) :
    Nat → Nat → List LType → List String → List VarDecl → List (Option Nat × Instruction)
  | i, base, type :: types, name :: names, _ :: paramNodes =>
    (block, ⟨base, .alloca type, [], .pointer type, name⟩) ::
      (block, ⟨base + 1, .store, [.argument func i type, .instruction base (.pointer type)],
        .void, ""⟩) ::
      parameterSlots block func (i + 1) (base + 2) types names paramNodes
  | _, _, _, _, _ => []
/-! ## Trees as the parser builds them -/

mutual
/-- No flag is set in the tree of the statement: no `Block` is marked as the main block and
no declaration as global. The parser builds the nodes so; `setMain` and `setGlobal` are
called by the visitor only. -/
def Stmt.unflagged : Stmt → Bool
  | .Block main statementNodes => !main && unflaggedList statementNodes
  | .CompoundStmt statementNodes => unflaggedList statementNodes
  | .VarDeclStmt decl => !decl.global
  | .ArrayDecl _ global _ => !global
  | .ConstDef _ global _ _ => !global
  | .ProcDecl _ global _ optBlockNode =>
    !global &&
      (match optBlockNode with
      | some blockNode => blockNode.unflagged
      | none => true)
  | .FunDecl _ global _ optBlockNode _ =>
    !global &&
      (match optBlockNode with
      | some blockNode => blockNode.unflagged
      | none => true)
  | .If _ bodyNode optElseBodyNode =>
    bodyNode.unflagged &&
      (match optElseBodyNode with
      | some elseBodyNode => elseBodyNode.unflagged
      | none => true)
  | .While _ bodyNode => bodyNode.unflagged
  | .For initNode _ bodyNode _ => initNode.unflagged && bodyNode.unflagged
  | _ => true
/-- No flag is set in the trees of the statements of a list. -/
def unflaggedList : List Stmt → Bool
  | [] => true
  | s :: rest => s.unflagged && unflaggedList rest
end

/-- The test for the classes `VarDeclASTNode`, `ArrayDeclASTNode` and `ConstDefASTNode`, the
declarations that bind a symbol to a memory location. -/
def Stmt.isStorageDecl : Stmt → Bool
  | .VarDeclStmt _ => true
  | .ArrayDecl _ _ _ => true
  | .ConstDef _ _ _ _ => true
  | _ => false

/-- Between the state `g` and the state `g'` no global variable has been added to the
module apart from the unnamed ones that hold a text. -/
def NoVariableSince (g g' : GenContext) : Prop :=
  ∃ new, g'.globals = g.globals ++ new ∧
    ∀ v ∈ new, ∃ text, v.initializer = Initializer.text text

/-- Every symbol with global storage that the state `g'` binds is bound in the state `g`. -/
def NoNewGlobalSymbols (g g' : GenContext) : Prop :=
  ∀ name symbol, g'.symbolTable.lookup name = some symbol → symbol.isGlobal = true →
    g.symbolTable.lookup name = some symbol

/-- A relation between states that the lowering of statements keeps as long as no global
variable is created: it is kept by the lowering of expressions, by a store and by the
changes of the symbol table and of the names of the arguments. -/
structure StmtStable (R : GenContext → GenContext → Prop) extends ExprStable R : Prop where
  store : ∀ g operands type name, R g (g.emit .store operands type name)
  setSymbolTable : ∀ g table, R g (g.setSymbolTable table)
  setArgumentNames : ∀ g func names, R g (g.setArgumentNames func names)
/-! ## The shape of the emitted functions -/

/-- The method `Instruction::isTerminator`, told from the opcode. -/
def Opcode.isTerminator (opcode : Opcode) : Bool :=
  Instruction.isTerminator ⟨0, opcode, [], .void, ""⟩

/-- The blocks that an instruction passes control to (`Instruction::getSuccessor`). -/
def Instruction.successors (i : Instruction) : List Nat :=
  match i.opcode with
  | .br dest => [dest]
  | .condBr ifTrue ifFalse => [ifTrue, ifFalse]
  | _ => []

/-- No instruction of the list is a terminator: a block that is still to be ended. -/
def blockOpen (is : List Instruction) : Bool := is.all fun i => !i.isTerminator

/-- A well-formed basic block: its last instruction is a terminator and no other one is. -/
def blockWellFormed (is : List Instruction) : Bool :=
  match is.getLast? with
  | some last => last.isTerminator && blockOpen is.dropLast
  | none => false

/-- From a state that satisfies `I`, the step `m` leaves a state that satisfies `I` when it
returns. -/
structure GenM.Preserves {α : Type} (I : GenContext → Prop) (m : GenM α) : Prop where
  after : ∀ g a g', I g → m.run g = (.ok a, g') → I g'

/-- A property of states that the lowering of expressions and of declarations preserves: it
holds on when an instruction that is no terminator is appended, when the state changes
apart from the instructions, the blocks and the insertion point (no function is ever
removed), and across a bounds check. -/
structure Tame (I : GenContext → Prop) : Prop where
  emit : ∀ g opcode operands type name, opcode.isTerminator = false → I g →
    I (g.emit opcode operands type name)
  frame : ∀ g g', g'.code = g.code → g'.blocks = g.blocks →
    g'.insertBlock = g.insertBlock → g.functions.length ≤ g'.functions.length → I g → I g'
  check : ∀ arrayName indexV lowerBoundV upperBoundV,
    GenM.Preserves I (generateIndexOutOfBoundsCheck arrayName indexV lowerBoundV upperBoundV)

/-- The blocks of the module while a statement is lowered. The insertion point is in a
block of a function, the current block. The blocks of `P` are pending: created, still
without a terminator, and to be filled later by the statements around. Every other block is
well formed. The current block is still without a terminator, unless `terminated` holds:
then its terminator has just been appended and it is well formed too. Every instruction is
in a block, the function of every block exists, and the block of a function that is named
`entry` is the one created first. -/
structure Shape (terminated : Bool) (P : Set Nat) (g : GenContext) : Prop where
  current : ∃ (c : Nat) (block : BasicBlock) (f : Nat), g.insertBlock = some c ∧ g.blocks[c]? = some block ∧
    block.parent = some f ∧ c ∉ P
  opened : terminated = false → ∀ c, g.insertBlock = some c →
    blockOpen (g.instructionsOf c) = true
  pending : ∀ b ∈ P, (∃ (block : BasicBlock) (f : Nat), g.blocks[b]? = some block ∧ block.parent = some f) ∧
    blockOpen (g.instructionsOf b) = true
  finished : ∀ b, b < g.blocks.length → b ∉ P →
    (terminated = false → g.insertBlock ≠ some b) →
    blockWellFormed (g.instructionsOf b) = true
  tagged : ∀ p ∈ g.code, ∃ b, p.1 = some b ∧ b < g.blocks.length
  parents : ∀ (b : Nat) (block : BasicBlock) (f : Nat), g.blocks[b]? = some block → block.parent = some f →
    f < g.functions.length
  entries : ∀ (b : Nat) (block : BasicBlock) (f : Nat), g.blocks[b]? = some block → block.parent = some f →
    (block.name = "entry" ↔
      ∀ (b' : Nat) (block' : BasicBlock), b' < b → g.blocks[b']? = some block' →
        block'.parent ≠ some f)
/-! ## Where the branches go -/

/-- The instructions of the state `g` are those of `base` followed by instructions whose
branches go to blocks with an index from `n` on or to the block `allowed`; the state has
at least `n` blocks. With `n` the number of blocks and `base` the instructions of an
earlier state: the branches emitted since then stay among the blocks created since then,
apart from those to `allowed`. -/
def BranchesInside (n : Nat) (allowed : Option Nat) (base : List (Option Nat × Instruction))
    (g : GenContext) : Prop :=
  (∃ new, g.code = base ++ new ∧
    ∀ p ∈ new, ∀ t ∈ p.2.successors, n ≤ t ∨ some t = allowed) ∧
  n ≤ g.blocks.length

/-- Every branch of the module goes to a block that exists. -/
def GenContext.branchesExist (g : GenContext) : Bool :=
  g.code.all fun p => p.2.successors.all fun t => decide (t < g.blocks.length)
/-! ## Measure of a lexer and settled rules -/

/-- The size of what a lexer has not yet handed out: the characters not yet read, and the
token of lookahead unless it is the end of the input. -/
def Lexer.measure (l : Lexer) : Nat :=
  l.cursor.is.length + (if l.nextToken.type = .EOI then 0 else 1)

/-- The result `r` of a rule of the parser is not the exhaustion of the fuel, and the lexer
that it leaves, if any, satisfies `P`. -/
def Settles {α : Type} (P : Lexer → Prop) (r : Except FrontError (α × Lexer)) : Prop :=
  match r with
  | .ok x => P x.2
  | .error e => e ≠ .outOfFuel

/-- With the fuel `n` the rule `f` settles, and with more fuel it gives the same result. -/
def Done {α : Type} (n : Nat) (P : Lexer → Prop) (f : Nat → Except FrontError (α × Lexer)) :
    Prop :=
  (∀ j, n ≤ j → f j = f n) ∧ Settles P (f n)

/-- The value that a rule of the parser returns, if any, satisfies `Q`. -/
def Yields {α : Type} (Q : α → Prop) (r : Except FrontError (α × Lexer)) : Prop :=
  match r with
  | .ok x => Q x.1
  | .error _ => True
/-! ## Properties of the lexer -/

theorem char_ne_of_class {p : Char → Bool} {c : Char} (hc : p c = true) (k : Char)
    (hk : p k = false) : c ≠ k := by
  rintro rfl
  rw [hc] at hk
  cases hk

theorem isspace_false_of_isdigit {c : Char} (h : isdigit c = true) : isspace c = false := by
  simp only [isdigit, isspace, Bool.and_eq_true, Bool.or_eq_false_iff, decide_eq_true_eq,
    decide_eq_false_iff_not, Bool.and_eq_false_iff] at *
  omega

theorem isalpha_false_of_isdigit {c : Char} (h : isdigit c = true) : isalpha c = false := by
  simp only [isdigit, isalpha, Bool.and_eq_true, Bool.or_eq_false_iff, decide_eq_true_eq,
    decide_eq_false_iff_not, Bool.and_eq_false_iff] at *
  omega

theorem qStart_digit {c : Char} (h : isdigit c = true) (cs : List Char) (cur ts : Position) :
    qStart (c :: cs) cur ts = qInt10 cs cur.advance cur (wrapInt ((c.toNat : Int) - 48)) := by
  have hne : ∀ k : Char, isdigit k = false → c ≠ k := fun k hk => char_ne_of_class h k hk
  simp [qStart, h, isspace_false_of_isdigit h, isalpha_false_of_isdigit h,
    hne '{' (by decide), hne '+' (by decide), hne '-' (by decide), hne '*' (by decide),
    hne '/' (by decide), hne '=' (by decide), hne '<' (by decide), hne '>' (by decide),
    hne ':' (by decide), hne ';' (by decide), hne ',' (by decide), hne '.' (by decide),
    hne '(' (by decide), hne ')' (by decide), hne '[' (by decide), hne ']' (by decide),
    hne '&' (by decide), hne '$' (by decide), hne '_' (by decide)]

theorem qStart_word {c : Char} (h : isWordStart c = true) (cs : List Char)
    (cur ts : Position) :
    qStart (c :: cs) cur ts = qIdentifier cs cur.advance cur (String.mk [c]) := by
  have hne : ∀ k : Char, isWordStart k = false → c ≠ k := fun k hk => char_ne_of_class h k hk
  have hsp : isspace c = false := by
    cases hs : isspace c with
    | false => rfl
    | true =>
      exfalso
      simp only [isWordStart, isalpha, isspace, Bool.and_eq_true, Bool.or_eq_true,
        decide_eq_true_eq] at h hs
      rcases h with h | h
      · omega
      · subst h
        revert hs
        decide
  have h' : (isalpha c || decide (c = '_')) = true := h
  simp [qStart, hsp, h',
    hne '{' (by decide), hne '+' (by decide), hne '-' (by decide), hne '*' (by decide),
    hne '/' (by decide), hne '=' (by decide), hne '<' (by decide), hne '>' (by decide),
    hne ':' (by decide), hne ';' (by decide), hne ',' (by decide), hne '.' (by decide),
    hne '(' (by decide), hne ')' (by decide), hne '[' (by decide), hne ']' (by decide),
    hne '&' (by decide), hne '$' (by decide)]

theorem qIdentifier_run (cs rest : List Char) (hcs : ∀ c ∈ cs, isWordChar c = true)
    (hrest : ∀ c ∈ rest.head?, isWordChar c = false) (ts : Position) :
    ∀ (cur : Position) (buf : List Char), qIdentifier (cs ++ rest) cur ts (String.mk buf) =
      .ok (identifierToken (String.mk (buf ++ cs)) ts, ⟨rest, cur.advanceBy cs.length, ts⟩) := by
  induction cs with
  | nil =>
    intro cur buf
    cases rest with
    | nil => simp [qIdentifier, Position.advanceBy]
    | cons r rs =>
      have := hrest r (by simp)
      simp only [isWordChar] at this
      simp [qIdentifier, this, Position.advanceBy]
  | cons d ds ih =>
    intro cur buf
    have hd := hcs d (by simp)
    simp only [isWordChar] at hd
    have hp : (String.mk buf).push d = String.mk (buf ++ [d]) := rfl
    simp [qIdentifier, hd, hp, ih (fun c hc => hcs c (by simp [hc])), Position.advanceBy]

theorem lookup_of_mem {β : Type} (l : List (String × β)) (hnd : (l.map Prod.fst).Nodup)
    (w : String) (b : β) (h : (w, b) ∈ l) : l.lookup w = some b := by
  induction l with
  | nil => cases h
  | cons p l ih =>
    obtain ⟨k, v⟩ := p
    simp only [List.map_cons, List.nodup_cons] at hnd
    rcases List.mem_cons.1 h with h1 | h1
    · cases h1
      simp
    · have hk : (w == k) = false := by
        rw [beq_eq_false_iff_ne]
        rintro rfl
        exact hnd.1 (List.mem_map.2 ⟨(w, b), h1, rfl⟩)
      rw [List.lookup_cons, hk]
      exact ih hnd.2 h1

theorem lookup_of_not_mem {β : Type} (l : List (String × β)) (w : String)
    (h : w ∉ l.map Prod.fst) : l.lookup w = none := by
  rw [List.lookup_eq_none_iff]
  intro p hp
  simp only [bne_iff_ne, ne_eq]
  rintro rfl
  exact h (List.mem_map.2 ⟨p, hp, rfl⟩)

theorem qInt10_run (ds rest : List Char) (hds : ∀ c ∈ ds, isdigit c = true)
    (hrest : ∀ c ∈ rest.head?, isdigit c = false ∧ c ≠ '.') (ts : Position) :
    ∀ (cur : Position) (buf : Int), qInt10 (ds ++ rest) cur ts buf =
      .ok (⟨.INTEGER_LITERAL, ts, some (.int (ds.foldl
        (fun b c => wrapInt (wrapInt (wrapInt (b * 10) + c.toNat) - 48)) buf))⟩,
        ⟨rest, cur.advanceBy ds.length, ts⟩) := by
  induction ds with
  | nil =>
    intro cur buf
    cases rest with
    | nil => simp [qInt10, Position.advanceBy]
    | cons r rs =>
      have := hrest r (by simp)
      simp [qInt10, this.1, this.2, Position.advanceBy]
  | cons d ds ih =>
    intro cur buf
    have hd : isdigit d = true := hds d (by simp)
    simp [qInt10, hd, ih (fun c hc => hds c (by simp [hc])), Position.advanceBy]

theorem qInt8_run (ds rest : List Char) (hds : ∀ c ∈ ds, isOctalDigit c = true)
    (hrest : ∀ c ∈ rest.head?, isdigit c = false) (ts : Position) :
    ∀ (cur : Position) (buf : Int), qInt8 (ds ++ rest) cur ts buf =
      .ok (⟨.INTEGER_LITERAL, ts, some (.int (ds.foldl
        (fun b c => wrapInt (wrapInt (wrapInt (b * 8) + c.toNat) - 48)) buf))⟩,
        ⟨rest, cur.advanceBy ds.length, ts⟩) := by
  induction ds with
  | nil =>
    intro cur buf
    cases rest with
    | nil => simp [qInt8, Position.advanceBy]
    | cons r rs =>
      have := hrest r (by simp)
      simp [qInt8, this, Position.advanceBy]
  | cons d ds ih =>
    intro cur buf
    have hd := hds d (by simp)
    have hd1 : isdigit d = true := by
      simp only [isOctalDigit, isdigit, Bool.and_eq_true, decide_eq_true_eq] at *
      omega
    have hd2 : ¬ (55 < d.toNat) := by
      simp only [isOctalDigit, Bool.and_eq_true, decide_eq_true_eq] at hd
      omega
    simp [qInt8, hd1, hd2, ih (fun c hc => hds c (by simp [hc])), Position.advanceBy]

theorem qInt16_run (ds rest : List Char) (hds : ∀ c ∈ ds, isHexDigit c = true)
    (hrest : ∀ c ∈ rest.head?, isdigit c = false ∧ isalpha c = false) (ts : Position) :
    ∀ (cur : Position) (buf : Int), qInt16 (ds ++ rest) cur ts buf =
      .ok (⟨.INTEGER_LITERAL, ts, some (.int (ds.foldl
        (fun b c => wrapInt (wrapInt (b * 16) +
          (if isalpha c then wrapInt (wrapInt ((c.toNat : Int) - 97) + 10)
           else wrapInt ((c.toNat : Int) - 48)))) buf))⟩,
        ⟨rest, cur.advanceBy ds.length, ts⟩) := by
  induction ds with
  | nil =>
    intro cur buf
    cases rest with
    | nil => simp [qInt16, Position.advanceBy]
    | cons r rs =>
      have := hrest r (by simp)
      simp [qInt16, this.1, this.2, Position.advanceBy]
  | cons d ds ih =>
    intro cur buf
    have hd := hds d (by simp)
    have hd1 : (isdigit d || isalpha d) = true := by
      simp only [isHexDigit, isdigit, isalpha, Bool.and_eq_true, Bool.or_eq_true,
        decide_eq_true_eq] at *
      omega
    have hd2 : (isalpha d && !(decide (97 ≤ d.toNat) && decide (d.toNat ≤ 102))) = false := by
      simp only [isHexDigit, isdigit, isalpha, Bool.and_eq_true, Bool.or_eq_true,
        decide_eq_true_eq, Bool.and_eq_false_iff, Bool.not_eq_false', Bool.or_eq_false_iff,
        decide_eq_false_iff_not] at *
      omega
    rw [List.cons_append, qInt16]
    simp only [hd1, hd2, if_true, Bool.false_eq_true, if_false, List.foldl_cons, List.length_cons]
    rw [ih (fun c hc => hds c (by simp [hc]))]
    simp [Position.advanceBy]

/-- Folding the wrapped step of the code and the exact step of the positional value gives
congruent numbers, and the wrapped one stays a 32-bit value. -/
theorem foldl_wrapped (ds : List Char) (f g : Int → Char → Int)
    (hfg : ∀ a b c, c ∈ ds → (a - b) % 4294967296 = 0 →
      (f a c - g b c) % 4294967296 = 0 ∧ wrapInt (f a c) = f a c) :
    ∀ a b, (a - b) % 4294967296 = 0 → wrapInt a = a →
      (ds.foldl f a - ds.foldl g b) % 4294967296 = 0 ∧ wrapInt (ds.foldl f a) = ds.foldl f a := by
  induction ds with
  | nil => intro a b h1 h2; exact ⟨h1, h2⟩
  | cons d ds ih =>
    intro a b h1 _
    have := hfg a b d (by simp) h1
    exact ih (fun a b c hc => hfg a b c (by simp [hc])) _ _ this.1 this.2

theorem eq_of_wrapped {a b : Int} (h : (a - b) % 4294967296 = 0) (ha : wrapInt a = a)
    (hb0 : 0 ≤ b) (hb : b < 2147483648) : a = b := by
  unfold wrapInt at ha; omega

theorem digitValue_of_isdigit {c : Char} (h : isdigit c = true) :
    digitValue c = (c.toNat : Int) - 48 := by
  simp [digitValue, isalpha_false_of_isdigit h]

theorem positional_nonneg (base : Int) (ds : List Char) (hb : 0 ≤ base)
    (hx : ∀ c ∈ ds, 0 ≤ digitValue c) (a : Int) (ha : 0 ≤ a) :
    0 ≤ ds.foldl (fun acc c => acc * base + digitValue c) a := by
  induction ds generalizing a with
  | nil => exact ha
  | cons x xs ih =>
    exact ih (fun c hc => hx c (by simp [hc])) _
      (Int.add_nonneg (Int.mul_nonneg ha hb) (hx x (by simp)))

theorem readNextToken_decimal (d rest : List Char) (cur ts : Position) (hd : d ≠ [])
    (hds : ∀ c ∈ d, isdigit c = true) (hval : positionalValue 10 d < 2147483648)
    (hrest : ∀ c ∈ rest.head?, isdigit c = false ∧ c ≠ '.') :
    readNextToken ⟨d ++ rest, cur, ts⟩ =
      .ok (⟨.INTEGER_LITERAL, cur, some (.int (positionalValue 10 d))⟩,
        ⟨rest, cur.advanceBy d.length, cur⟩) := by
  cases d with
  | nil => exact absurd rfl hd
  | cons d0 ds =>
    have hd0 : isdigit d0 = true := hds d0 (by simp)
    have hds' : ∀ c ∈ ds, isdigit c = true := fun c hc => hds c (by simp [hc])
    simp only [readNextToken, List.cons_append]
    rw [qStart_digit hd0, qInt10_run ds rest hds' hrest]
    have hw := foldl_wrapped ds
      (fun b c => wrapInt (wrapInt (wrapInt (b * 10) + c.toNat) - 48))
      (fun acc c => acc * 10 + digitValue c)
      (fun a b c hc hab => by
        dsimp only
        rw [digitValue_of_isdigit (hds' c hc)]
        simp only [wrapInt]
        omega)
      (wrapInt ((d0.toNat : Int) - 48)) (0 * 10 + digitValue d0)
      (by rw [digitValue_of_isdigit hd0]; simp only [wrapInt]; omega)
      (by simp only [wrapInt]; omega)
    have hv : positionalValue 10 (d0 :: ds) =
        ds.foldl (fun acc c => acc * 10 + digitValue c) (0 * 10 + digitValue d0) := rfl
    have h0 : 0 ≤ positionalValue 10 (d0 :: ds) :=
      positional_nonneg 10 (d0 :: ds) (by decide)
        (fun c hc => by
          have := hds c hc
          rw [digitValue_of_isdigit this]
          simp only [isdigit, Bool.and_eq_true, decide_eq_true_eq] at this
          omega) 0 (le_refl 0)
    rw [hv] at hval h0 ⊢
    rw [eq_of_wrapped hw.1 hw.2 h0 hval]
    simp [Position.advanceBy]

/-- C4. A non-empty digit string `d` whose positional value fits in a signed 32-bit integer
is lexed, when written plainly (decimal digits), after `&` (digits `0`..`7`) or after `$`
(digits `0`..`9`, `a`..`f`), and not continued by a further character of the literal, as
one `INTEGER_LITERAL` token whose payload is the value of `d` in base 10, 8 and 16. -/
theorem C4_integer_literal_value (d rest : List Char) (cur ts : Position) (hd : d ≠ []) :
    ((∀ c ∈ d, isdigit c = true) → positionalValue 10 d < 2147483648 →
        (∀ c ∈ rest.head?, isdigit c = false ∧ c ≠ '.') →
        readNextToken ⟨d ++ rest, cur, ts⟩ =
          .ok (⟨.INTEGER_LITERAL, cur, some (.int (positionalValue 10 d))⟩,
            ⟨rest, cur.advanceBy d.length, cur⟩)) ∧
      ((∀ c ∈ d, isOctalDigit c = true) → positionalValue 8 d < 2147483648 →
        (∀ c ∈ rest.head?, isdigit c = false) →
        readNextToken ⟨'&' :: d ++ rest, cur, ts⟩ =
          .ok (⟨.INTEGER_LITERAL, cur, some (.int (positionalValue 8 d))⟩,
            ⟨rest, cur.advanceBy (d.length + 1), cur⟩)) ∧
      ((∀ c ∈ d, isHexDigit c = true) → positionalValue 16 d < 2147483648 →
        (∀ c ∈ rest.head?, isdigit c = false ∧ isalpha c = false) →
        readNextToken ⟨'$' :: d ++ rest, cur, ts⟩ =
          .ok (⟨.INTEGER_LITERAL, cur, some (.int (positionalValue 16 d))⟩,
            ⟨rest, cur.advanceBy (d.length + 1), cur⟩)) := by
  refine ⟨?_, ?_, ?_⟩
  · intro hds hval hrest
    exact readNextToken_decimal d rest cur ts hd hds hval hrest
  · intro hds hval hrest
    have hq : qStart ('&' :: (d ++ rest)) cur ts = qInt8 (d ++ rest) cur.advance cur 0 := by
      simp [qStart, isspace, isalpha, isdigit]
    simp only [readNextToken, List.cons_append]
    rw [hq, qInt8_run d rest hds hrest]
    have hdig : ∀ c ∈ d, isdigit c = true := fun c hc => by
      have := hds c hc
      simp only [isOctalDigit, isdigit, Bool.and_eq_true, decide_eq_true_eq] at *
      omega
    have hw := foldl_wrapped d
      (fun b c => wrapInt (wrapInt (wrapInt (b * 8) + c.toNat) - 48))
      (fun acc c => acc * 8 + digitValue c)
      (fun a b c hc hab => by
        dsimp only
        rw [digitValue_of_isdigit (hdig c hc)]
        simp only [wrapInt]
        omega)
      0 0 (by decide) (by decide)
    have h0 : 0 ≤ positionalValue 8 d :=
      positional_nonneg 8 d (by decide)
        (fun c hc => by
          have := hdig c hc
          rw [digitValue_of_isdigit this]
          simp only [isdigit, Bool.and_eq_true, decide_eq_true_eq] at this
          omega) 0 (le_refl 0)
    unfold positionalValue at hval h0 ⊢
    rw [eq_of_wrapped hw.1 hw.2 h0 hval]
    simp [Position.advanceBy]
  · intro hds hval hrest
    have hq : qStart ('$' :: (d ++ rest)) cur ts = qInt16 (d ++ rest) cur.advance cur 0 := by
      simp [qStart, isspace, isalpha, isdigit]
    simp only [readNextToken, List.cons_append]
    rw [hq, qInt16_run d rest hds hrest]
    have hrange : ∀ c ∈ d, 0 ≤ digitValue c ∧ digitValue c < 16 := fun c hc => by
      have := hds c hc
      simp only [isHexDigit, isdigit, Bool.and_eq_true, Bool.or_eq_true,
        decide_eq_true_eq] at this
      unfold digitValue
      split
      · rename_i ha
        simp only [isalpha, Bool.and_eq_true, Bool.or_eq_true, decide_eq_true_eq] at ha
        omega
      · rename_i ha
        simp only [isalpha, Bool.and_eq_true, Bool.or_eq_true, decide_eq_true_eq] at ha
        omega
    have hw := foldl_wrapped d
      (fun b c => wrapInt (wrapInt (b * 16) +
          (if isalpha c then wrapInt (wrapInt ((c.toNat : Int) - 97) + 10)
           else wrapInt ((c.toNat : Int) - 48))))
      (fun acc c => acc * 16 + digitValue c)
      (fun a b c _ hab => by
        dsimp only
        unfold digitValue
        split <;> (simp only [wrapInt]; omega))
      0 0 (by decide) (by decide)
    have h0 : 0 ≤ positionalValue 16 d :=
      positional_nonneg 16 d (by decide) (fun c hc => (hrange c hc).1) 0 (le_refl 0)
    unfold positionalValue at hval h0 ⊢
    rw [eq_of_wrapped hw.1 hw.2 h0 hval]
    simp [Position.advanceBy]

/-- Witness of C4: `0099` is 99, `&1234` is 668 and `$a9f8e` is 696206. -/
theorem C4_integer_literal_value_witness :
    readNextToken ⟨"0099".toList, ⟨1, 1⟩, ⟨1, 1⟩⟩ =
        .ok (⟨.INTEGER_LITERAL, ⟨1, 1⟩, some (.int 99)⟩, ⟨[], ⟨1, 5⟩, ⟨1, 1⟩⟩) ∧
      readNextToken ⟨"&1234".toList, ⟨1, 1⟩, ⟨1, 1⟩⟩ =
        .ok (⟨.INTEGER_LITERAL, ⟨1, 1⟩, some (.int 668)⟩, ⟨[], ⟨1, 6⟩, ⟨1, 1⟩⟩) ∧
      readNextToken ⟨"$a9f8e".toList, ⟨1, 1⟩, ⟨1, 1⟩⟩ =
        .ok (⟨.INTEGER_LITERAL, ⟨1, 1⟩, some (.int 696206)⟩, ⟨[], ⟨1, 7⟩, ⟨1, 1⟩⟩) :=
  ⟨(C4_integer_literal_value "0099".toList [] ⟨1, 1⟩ ⟨1, 1⟩ (by decide)).1
      (by decide) (by decide) (by decide),
   (C4_integer_literal_value "1234".toList [] ⟨1, 1⟩ ⟨1, 1⟩ (by decide)).2.1
      (by decide) (by decide) (by decide),
   (C4_integer_literal_value "a9f8e".toList [] ⟨1, 1⟩ ⟨1, 1⟩ (by decide)).2.2
      (by decide) (by decide) (by decide)⟩

/-- C5. A maximal word `w` (a letter or underscore followed by letters, digits and
underscores, not continued by such a character) at the start of the unread input is
lexed as the keyword token of `w`, without payload, when `w` is in the keyword table, and
as an `IDENTIFIER` with payload `w` otherwise. The table has 27 entries with distinct
lowercase keys, none of type `IDENTIFIER`; `Begin` and `BEGIN` are not among them. -/
theorem C5_keyword_or_identifier (c : Char) (cs rest : List Char) (cur ts : Position)
    (hc : isWordStart c = true) (hcs : ∀ x ∈ cs, isWordChar x = true)
    (hrest : ∀ x ∈ rest.head?, isWordChar x = false) :
    (∀ kw, (String.mk (c :: cs), kw) ∈ keywords →
        readNextToken ⟨c :: cs ++ rest, cur, ts⟩ =
          .ok (⟨kw, cur, none⟩, ⟨rest, cur.advanceBy (cs.length + 1), cur⟩)) ∧
      (String.mk (c :: cs) ∉ keywords.map Prod.fst →
        readNextToken ⟨c :: cs ++ rest, cur, ts⟩ =
          .ok (⟨.IDENTIFIER, cur, some (.str (String.mk (c :: cs)))⟩,
            ⟨rest, cur.advanceBy (cs.length + 1), cur⟩)) ∧
      keywords.length = 27 ∧ (keywords.map Prod.fst).Nodup ∧
      (∀ k ∈ keywords, k.2 ≠ .IDENTIFIER ∧ ∀ x ∈ k.1.data, 97 ≤ x.toNat ∧ x.toNat ≤ 122) ∧
      "Begin" ∉ keywords.map Prod.fst ∧ "BEGIN" ∉ keywords.map Prod.fst := by
  have hrun : readNextToken ⟨c :: cs ++ rest, cur, ts⟩ =
      .ok (identifierToken (String.mk (c :: cs)) cur,
        ⟨rest, cur.advanceBy (cs.length + 1), cur⟩) := by
    simp only [readNextToken, List.cons_append]
    rw [qStart_word hc, qIdentifier_run cs rest hcs hrest]
    simp [Position.advanceBy]
  have hnd : (keywords.map Prod.fst).Nodup := by decide
  refine ⟨?_, ?_, by decide, hnd, by decide, by decide, by decide⟩
  · intro kw hkw
    rw [hrun, identifierToken, isKeyword, lookup_of_mem keywords hnd _ _ hkw]
  · intro hw
    rw [hrun, identifierToken, isKeyword, lookup_of_not_mem keywords _ hw]

theorem C5_keyword_or_identifier_witness :
    readNextToken ⟨"begin x".toList, ⟨1, 1⟩, ⟨1, 1⟩⟩ =
        .ok (⟨.BEGIN, ⟨1, 1⟩, none⟩, ⟨" x".toList, ⟨1, 6⟩, ⟨1, 1⟩⟩) ∧
      readNextToken ⟨"Begin x".toList, ⟨1, 1⟩, ⟨1, 1⟩⟩ =
        .ok (⟨.IDENTIFIER, ⟨1, 1⟩, some (.str "Begin")⟩, ⟨" x".toList, ⟨1, 6⟩, ⟨1, 1⟩⟩) :=
  ⟨(C5_keyword_or_identifier 'b' "egin".toList " x".toList ⟨1, 1⟩ ⟨1, 1⟩ (by decide)
      (by decide) (by decide)).1 .BEGIN (by decide),
   (C5_keyword_or_identifier 'B' "egin".toList " x".toList ⟨1, 1⟩ ⟨1, 1⟩ (by decide)
      (by decide) (by decide)).2.1 (by decide)⟩

/-- C6, the code at the failing inputs: the characters of a comment do not move `curPos`,
so `x` after the comment `{c}` is recorded at column 1 instead of column 4, and `x` after
a comment that holds a newline is recorded at line 1, column 1 instead of line 2,
column 2. -/
theorem C6_position_after_comment :
    readNextToken ⟨"{c}x".toList, ⟨1, 1⟩, ⟨1, 1⟩⟩ =
        .ok (⟨.IDENTIFIER, ⟨1, 1⟩, some (.str "x")⟩, ⟨[], ⟨1, 2⟩, ⟨1, 1⟩⟩) ∧
      readNextToken ⟨['{', newline, '}', 'x'], ⟨1, 1⟩, ⟨1, 1⟩⟩ =
        .ok (⟨.IDENTIFIER, ⟨1, 1⟩, some (.str "x")⟩, ⟨[], ⟨1, 2⟩, ⟨1, 1⟩⟩) := by
  decide

/-- C8, the code at the failing inputs: a `&` or a `$` that no digit follows is lexed as the
integer literal 0. -/
theorem C8_bare_radix_mark :
    readNextToken ⟨"&".toList, ⟨1, 1⟩, ⟨1, 1⟩⟩ =
        .ok (⟨.INTEGER_LITERAL, ⟨1, 1⟩, some (.int 0)⟩, ⟨[], ⟨1, 2⟩, ⟨1, 1⟩⟩) ∧
      readNextToken ⟨"$;".toList, ⟨1, 1⟩, ⟨1, 1⟩⟩ =
        .ok (⟨.INTEGER_LITERAL, ⟨1, 1⟩, some (.int 0)⟩, ⟨[';'], ⟨1, 2⟩, ⟨1, 1⟩⟩) := by
  decide

theorem qInt8_invalid (ds rest : List Char) (hds : ∀ c ∈ ds, isdigit c = true)
    (hbad : ∃ c ∈ ds, c = '8' ∨ c = '9') (ts : Position) :
    ∀ (cur : Position) (buf : Int), ∃ pos,
      qInt8 (ds ++ rest) cur ts buf = .error (.lexer "Invalid octal digit." pos) := by
  induction ds with
  | nil =>
    obtain ⟨c, hc, _⟩ := hbad
    cases hc
  | cons d ds ih =>
    intro cur buf
    have hd : isdigit d = true := hds d (by simp)
    by_cases h7 : 55 < d.toNat
    · exact ⟨cur, by simp [qInt8, hd, h7]⟩
    · have hbad' : ∃ c ∈ ds, c = '8' ∨ c = '9' := by
        obtain ⟨c, hc, hc89⟩ := hbad
        rcases List.mem_cons.1 hc with rfl | hc
        · exfalso
          rcases hc89 with rfl | rfl <;> exact h7 (by decide)
        · exact ⟨c, hc, hc89⟩
      obtain ⟨pos, hpos⟩ := ih (fun c hc => hds c (by simp [hc])) hbad' cur.advance
        (wrapInt (wrapInt (wrapInt (buf * 8) + d.toNat) - 48))
      exact ⟨pos, by simp [qInt8, hd, h7, hpos]⟩

theorem qInt16_invalid (ds rest : List Char)
    (hds : ∀ c ∈ ds, (isdigit c || isalpha c) = true)
    (hbad : ∃ c ∈ ds, isalpha c = true ∧ isHexDigit c = false) (ts : Position) :
    ∀ (cur : Position) (buf : Int), ∃ k ∈ ds, ∃ pos,
      qInt16 (ds ++ rest) cur ts buf =
        .error (.lexer ("Invalid hex digit: " ++ toString k.toNat) pos) := by
  induction ds with
  | nil =>
    obtain ⟨c, hc, _⟩ := hbad
    cases hc
  | cons d ds ih =>
    intro cur buf
    have hd := hds d (by simp)
    by_cases hx : (isalpha d && !(decide (97 ≤ d.toNat) && decide (d.toNat ≤ 102))) = true
    · exact ⟨d, by simp, cur, by rw [List.cons_append, qInt16]; simp only [hd, hx, if_true]⟩
    · have hbad' : ∃ c ∈ ds, isalpha c = true ∧ isHexDigit c = false := by
        obtain ⟨c, hc, hca, hch⟩ := hbad
        rcases List.mem_cons.1 hc with rfl | hc
        · exfalso
          apply hx
          simp only [isHexDigit, Bool.or_eq_false_iff] at hch
          simp [hca, hch.2]
        · exact ⟨c, hc, hca, hch⟩
      obtain ⟨k, hk, pos, hpos⟩ := ih (fun c hc => hds c (by simp [hc])) hbad' cur.advance
        (wrapInt (wrapInt (buf * 16) +
          (if isalpha d then wrapInt (wrapInt ((d.toNat : Int) - 97) + 10)
           else wrapInt ((d.toNat : Int) - 48))))
      refine ⟨k, by simp [hk], pos, ?_⟩
      rw [List.cons_append, qInt16]
      simp only [hd, hx, if_true, Bool.false_eq_true, if_false]
      exact hpos

theorem char_eq_of_toNat {c k : Char} (h : c.toNat = k.toNat) : c = k := by
  rw [← Char.ofNat_toNat c, ← Char.ofNat_toNat k, h]

/-- C9. After `&`, a run of decimal digits that contains an 8 or a 9 raises the lexer error
"Invalid octal digit.", and a run without them is lexed as an integer literal; after `$`,
a run of letters and digits that contains a letter outside `a`..`f` (an uppercase letter
included) raises the lexer error "Invalid hex digit", and a run of hexadecimal digits
only is lexed as an integer literal. -/
theorem C9_invalid_radix_digits (ds rest : List Char) (cur ts : Position) :
    ((∀ c ∈ ds, isdigit c = true) → (∀ c ∈ rest.head?, isdigit c = false) →
        ((∃ c ∈ ds, c = '8' ∨ c = '9') → ∃ pos,
          readNextToken ⟨'&' :: ds ++ rest, cur, ts⟩ =
            .error (.lexer "Invalid octal digit." pos)) ∧
        ((∀ c ∈ ds, c ≠ '8' ∧ c ≠ '9') → ∃ v,
          readNextToken ⟨'&' :: ds ++ rest, cur, ts⟩ =
            .ok (⟨.INTEGER_LITERAL, cur, some (.int v)⟩,
              ⟨rest, cur.advanceBy (ds.length + 1), cur⟩))) ∧
      ((∀ c ∈ ds, (isdigit c || isalpha c) = true) →
        (∀ c ∈ rest.head?, isdigit c = false ∧ isalpha c = false) →
        ((∃ c ∈ ds, isalpha c = true ∧ isHexDigit c = false) → ∃ k ∈ ds, ∃ pos,
          readNextToken ⟨'$' :: ds ++ rest, cur, ts⟩ =
            .error (.lexer ("Invalid hex digit: " ++ toString k.toNat) pos)) ∧
        ((∀ c ∈ ds, isHexDigit c = true) → ∃ v,
          readNextToken ⟨'$' :: ds ++ rest, cur, ts⟩ =
            .ok (⟨.INTEGER_LITERAL, cur, some (.int v)⟩,
              ⟨rest, cur.advanceBy (ds.length + 1), cur⟩))) ∧
      isalpha 'A' = true ∧ isHexDigit 'A' = false ∧ isalpha 'F' = true ∧
      isHexDigit 'F' = false := by
  have hq8 : qStart ('&' :: (ds ++ rest)) cur ts = qInt8 (ds ++ rest) cur.advance cur 0 := by
    simp [qStart, isspace, isalpha, isdigit]
  have hq16 : qStart ('$' :: (ds ++ rest)) cur ts = qInt16 (ds ++ rest) cur.advance cur 0 := by
    simp [qStart, isspace, isalpha, isdigit]
  refine ⟨fun hds hrest => ⟨fun hbad => ?_, fun hok => ?_⟩,
    fun hds hrest => ⟨fun hbad => ?_, fun hok => ?_⟩, by decide, by decide, by decide,
    by decide⟩
  · simp only [readNextToken, List.cons_append]
    rw [hq8]
    exact qInt8_invalid ds rest hds hbad cur cur.advance 0
  · have hoct : ∀ c ∈ ds, isOctalDigit c = true := fun c hc => by
      have h1 := hds c hc
      have h2 := hok c hc
      have h8 : c.toNat ≠ 56 := fun h => h2.1 (char_eq_of_toNat h)
      have h9 : c.toNat ≠ 57 := fun h => h2.2 (char_eq_of_toNat h)
      simp only [isOctalDigit, isdigit, Bool.and_eq_true, decide_eq_true_eq] at *
      omega
    simp only [readNextToken, List.cons_append]
    rw [hq8, qInt8_run ds rest hoct hrest]
    exact ⟨_, rfl⟩
  · simp only [readNextToken, List.cons_append]
    rw [hq16]
    exact qInt16_invalid ds rest hds hbad cur cur.advance 0
  · simp only [readNextToken, List.cons_append]
    rw [hq16, qInt16_run ds rest hok hrest]
    exact ⟨_, rfl⟩

/-- Witness of C9: `&128` and `$1F` are rejected, `&127` and `$1f` are integer literals. -/
theorem C9_invalid_radix_digits_witness :
    (∃ pos, readNextToken ⟨"&128".toList, ⟨1, 1⟩, ⟨1, 1⟩⟩ =
        .error (.lexer "Invalid octal digit." pos)) ∧
      (∃ v, readNextToken ⟨"&127".toList, ⟨1, 1⟩, ⟨1, 1⟩⟩ =
        .ok (⟨.INTEGER_LITERAL, ⟨1, 1⟩, some (.int v)⟩, ⟨[], ⟨1, 5⟩, ⟨1, 1⟩⟩)) ∧
      (∃ k ∈ "1F".toList, ∃ pos, readNextToken ⟨"$1F".toList, ⟨1, 1⟩, ⟨1, 1⟩⟩ =
        .error (.lexer ("Invalid hex digit: " ++ toString k.toNat) pos)) ∧
      (∃ v, readNextToken ⟨"$1f".toList, ⟨1, 1⟩, ⟨1, 1⟩⟩ =
        .ok (⟨.INTEGER_LITERAL, ⟨1, 1⟩, some (.int v)⟩, ⟨[], ⟨1, 4⟩, ⟨1, 1⟩⟩)) :=
  ⟨((C9_invalid_radix_digits "128".toList [] ⟨1, 1⟩ ⟨1, 1⟩).1 (by decide) (by decide)).1
      (by decide),
   ((C9_invalid_radix_digits "127".toList [] ⟨1, 1⟩ ⟨1, 1⟩).1 (by decide) (by decide)).2
      (by decide),
   ((C9_invalid_radix_digits "1F".toList [] ⟨1, 1⟩ ⟨1, 1⟩).2.1 (by decide) (by decide)).1
      (by decide),
   ((C9_invalid_radix_digits "1f".toList [] ⟨1, 1⟩ ⟨1, 1⟩).2.1 (by decide) (by decide)).2
      (by decide)⟩

/-! ## Properties of the expression parser -/

theorem matchType_hit {l l' : Lexer} {t : TokenType} (ht : l.peek.type = t)
    (h : Consumes l l') (rule : String) : matchType l t rule = .ok (l.peek, l') := by
  unfold Consumes at h
  rw [ht] at h
  simp [matchType, matchTypes, h]

theorem Returns.of_add {α : Type} {p : Nat → Lexer → Except FrontError (α × Lexer)}
    {l l' : Lexer} {a : α} (k0 : Nat) (h : ∀ k, p (k + k0) l = .ok (a, l')) :
    Returns p l a l' :=
  ⟨k0, fun n hn => by
    obtain ⟨k, rfl⟩ := Nat.exists_eq_add_of_le' hn
    exact h k⟩

theorem levelFacts_0 : LevelFacts parseLogicalOrExpression parseLogicalOrExpressionR parseLogicalAndExpression
    (precedenceOps 0) (levelStop 0) where
  first := by
    intro n l e l' hf hn
    simp only [expressionFirst, List.mem_cons, List.mem_singleton, List.not_mem_nil,
      or_false] at hf
    rcases hf with h | h | h | h | h | h <;>
      simp [parseLogicalOrExpression, h, hn, bind, Except.bind]
  op := by
    intro n lhs rhs l l1 l2 hop hc hn
    simp only [precedenceOps, List.mem_cons, List.mem_singleton, List.not_mem_nil,
      or_false] at hop
    have h := hop
    simp [parseLogicalOrExpressionR, h, matchType_hit h hc, hn, bind, Except.bind]
  stop := by
    intro n lhs l hs
    rw [parseLogicalOrExpressionR]
    generalize l.peek.type = t at hs
    cases t <;> first | rfl | exact absurd hs (by decide)

theorem levelFacts_1 : LevelFacts parseLogicalAndExpression parseLogicalAndExpressionR parseEqualityExpression
    (precedenceOps 1) (levelStop 1) where
  first := by
    intro n l e l' hf hn
    simp only [expressionFirst, List.mem_cons, List.mem_singleton, List.not_mem_nil,
      or_false] at hf
    rcases hf with h | h | h | h | h | h <;>
      simp [parseLogicalAndExpression, h, hn, bind, Except.bind]
  op := by
    intro n lhs rhs l l1 l2 hop hc hn
    simp only [precedenceOps, List.mem_cons, List.mem_singleton, List.not_mem_nil,
      or_false] at hop
    have h := hop
    simp [parseLogicalAndExpressionR, h, matchType_hit h hc, hn, bind, Except.bind]
  stop := by
    intro n lhs l hs
    rw [parseLogicalAndExpressionR]
    generalize l.peek.type = t at hs
    cases t <;> first | rfl | exact absurd hs (by decide)

theorem levelFacts_2 : LevelFacts parseEqualityExpression parseEqualityExpressionR parseRelationalExpression
    (precedenceOps 2) (levelStop 2) where
  first := by
    intro n l e l' hf hn
    simp only [expressionFirst, List.mem_cons, List.mem_singleton, List.not_mem_nil,
      or_false] at hf
    rcases hf with h | h | h | h | h | h <;>
      simp [parseEqualityExpression, h, hn, bind, Except.bind]
  op := by
    intro n lhs rhs l l1 l2 hop hc hn
    simp only [precedenceOps, List.mem_cons, List.mem_singleton, List.not_mem_nil,
      or_false] at hop
    rcases hop with h | h <;>
      simp [parseEqualityExpressionR, parseEqualityOperator, h, matchType_hit h hc, hn, bind, Except.bind]
  stop := by
    intro n lhs l hs
    rw [parseEqualityExpressionR]
    generalize l.peek.type = t at hs
    cases t <;> first | rfl | exact absurd hs (by decide)

theorem levelFacts_3 : LevelFacts parseRelationalExpression parseRelationalExpressionR parseAdditiveExpression
    (precedenceOps 3) (levelStop 3) where
  first := by
    intro n l e l' hf hn
    simp only [expressionFirst, List.mem_cons, List.mem_singleton, List.not_mem_nil,
      or_false] at hf
    rcases hf with h | h | h | h | h | h <;>
      simp [parseRelationalExpression, h, hn, bind, Except.bind]
  op := by
    intro n lhs rhs l l1 l2 hop hc hn
    simp only [precedenceOps, List.mem_cons, List.mem_singleton, List.not_mem_nil,
      or_false] at hop
    rcases hop with h | h | h | h <;>
      simp [parseRelationalExpressionR, parseRelationalOperator, h, matchType_hit h hc, hn, bind, Except.bind]
  stop := by
    intro n lhs l hs
    rw [parseRelationalExpressionR]
    generalize l.peek.type = t at hs
    cases t <;> first | rfl | exact absurd hs (by decide)

theorem levelFacts_4 : LevelFacts parseAdditiveExpression parseAdditiveExpressionR parseMultiplicativeExpression
    (precedenceOps 4) (levelStop 4) where
  first := by
    intro n l e l' hf hn
    simp only [expressionFirst, List.mem_cons, List.mem_singleton, List.not_mem_nil,
      or_false] at hf
    rcases hf with h | h | h | h | h | h <;>
      simp [parseAdditiveExpression, h, hn, bind, Except.bind]
  op := by
    intro n lhs rhs l l1 l2 hop hc hn
    simp only [precedenceOps, List.mem_cons, List.mem_singleton, List.not_mem_nil,
      or_false] at hop
    rcases hop with h | h <;>
      simp [parseAdditiveExpressionR, parseAdditiveOperator, h, matchType_hit h hc, hn, bind, Except.bind]
  stop := by
    intro n lhs l hs
    rw [parseAdditiveExpressionR]
    generalize l.peek.type = t at hs
    cases t <;> first | rfl | exact absurd hs (by decide)

theorem levelFacts_5 : LevelFacts parseMultiplicativeExpression parseMultiplicativeExpressionR parseUnaryExpression
    (precedenceOps 5) (levelStop 5) where
  first := by
    intro n l e l' hf hn
    simp only [expressionFirst, List.mem_cons, List.mem_singleton, List.not_mem_nil,
      or_false] at hf
    rcases hf with h | h | h | h | h | h <;>
      simp [parseMultiplicativeExpression, h, hn, bind, Except.bind]
  op := by
    intro n lhs rhs l l1 l2 hop hc hn
    simp only [precedenceOps, List.mem_cons, List.mem_singleton, List.not_mem_nil,
      or_false] at hop
    rcases hop with h | h | h | h <;>
      simp [parseMultiplicativeExpressionR, parseMultiplicativeOperator, h, matchType_hit h hc, hn, bind, Except.bind]
  stop := by
    intro n lhs l hs
    rw [parseMultiplicativeExpressionR]
    generalize l.peek.type = t at hs
    cases t <;> first | rfl | exact absurd hs (by decide)

theorem levelFacts (r : Nat) (hr : r < 6) :
    LevelFacts (levelParser r) (levelParserR r) (levelParser (r + 1)) (precedenceOps r)
      (levelStop r) := by
  interval_cases r
  · exact levelFacts_0
  · exact levelFacts_1
  · exact levelFacts_2
  · exact levelFacts_3
  · exact levelFacts_4
  · exact levelFacts_5

theorem first_of_ok_0 (n : Nat) (l : Lexer) (x : Expr × Lexer)
    (h : parseLogicalOrExpression n l = .ok x) : l.peek.type ∈ expressionFirst := by
  cases n with
  | zero => simp [parseLogicalOrExpression] at h
  | succ n =>
    rw [parseLogicalOrExpression] at h
    generalize l.peek.type = t at h ⊢
    cases t <;> first | decide | exact absurd h (by simp)

theorem first_of_ok_1 (n : Nat) (l : Lexer) (x : Expr × Lexer)
    (h : parseLogicalAndExpression n l = .ok x) : l.peek.type ∈ expressionFirst := by
  cases n with
  | zero => simp [parseLogicalAndExpression] at h
  | succ n =>
    rw [parseLogicalAndExpression] at h
    generalize l.peek.type = t at h ⊢
    cases t <;> first | decide | exact absurd h (by simp)

theorem first_of_ok_2 (n : Nat) (l : Lexer) (x : Expr × Lexer)
    (h : parseEqualityExpression n l = .ok x) : l.peek.type ∈ expressionFirst := by
  cases n with
  | zero => simp [parseEqualityExpression] at h
  | succ n =>
    rw [parseEqualityExpression] at h
    generalize l.peek.type = t at h ⊢
    cases t <;> first | decide | exact absurd h (by simp)

theorem first_of_ok_3 (n : Nat) (l : Lexer) (x : Expr × Lexer)
    (h : parseRelationalExpression n l = .ok x) : l.peek.type ∈ expressionFirst := by
  cases n with
  | zero => simp [parseRelationalExpression] at h
  | succ n =>
    rw [parseRelationalExpression] at h
    generalize l.peek.type = t at h ⊢
    cases t <;> first | decide | exact absurd h (by simp)

theorem first_of_ok_4 (n : Nat) (l : Lexer) (x : Expr × Lexer)
    (h : parseAdditiveExpression n l = .ok x) : l.peek.type ∈ expressionFirst := by
  cases n with
  | zero => simp [parseAdditiveExpression] at h
  | succ n =>
    rw [parseAdditiveExpression] at h
    generalize l.peek.type = t at h ⊢
    cases t <;> first | decide | exact absurd h (by simp)

theorem first_of_ok_5 (n : Nat) (l : Lexer) (x : Expr × Lexer)
    (h : parseMultiplicativeExpression n l = .ok x) : l.peek.type ∈ expressionFirst := by
  cases n with
  | zero => simp [parseMultiplicativeExpression] at h
  | succ n =>
    rw [parseMultiplicativeExpression] at h
    generalize l.peek.type = t at h ⊢
    cases t <;> first | decide | exact absurd h (by simp)

theorem first_of_ok_6 (n : Nat) (l : Lexer) (x : Expr × Lexer)
    (h : parseUnaryExpression n l = .ok x) : l.peek.type ∈ expressionFirst := by
  cases n with
  | zero => simp [parseUnaryExpression] at h
  | succ n =>
    rw [parseUnaryExpression] at h
    generalize l.peek.type = t at h ⊢
    cases t <;> first | decide | exact absurd h (by simp)

theorem levelParser_first (r n : Nat) (l : Lexer) (x : Expr × Lexer)
    (h : levelParser r n l = .ok x) : l.peek.type ∈ expressionFirst := by
  match r, h with
  | 0, h => exact first_of_ok_0 n l x h
  | 1, h => exact first_of_ok_1 n l x h
  | 2, h => exact first_of_ok_2 n l x h
  | 3, h => exact first_of_ok_3 n l x h
  | 4, h => exact first_of_ok_4 n l x h
  | 5, h => exact first_of_ok_5 n l x h
  | _ + 6, h => exact first_of_ok_6 n l x h

theorem foldR_returns {p : Nat → Lexer → Except FrontError (Expr × Lexer)}
    {pR : Nat → Expr → Lexer → Except FrontError (Expr × Lexer)}
    {next : Nat → Lexer → Except FrontError (Expr × Lexer)} {ops stop : List TokenType}
    (F : LevelFacts p pR next ops stop) {l l' : Lexer} {items : List (Token × Expr)}
    (hchain : OperandChain ops next l items l') (hstop : l'.peek.type ∈ stop) :
    ∀ lhs, ∃ n0, ∀ n, n0 ≤ n → pR n lhs l = .ok (leftNested lhs items, l') := by
  induction hchain with
  | nil l =>
    intro lhs
    refine ⟨1, fun n hn => ?_⟩
    obtain ⟨k, rfl⟩ := Nat.exists_eq_add_of_le' hn
    exact F.stop k lhs l hstop
  | @cons l l1 l2 l' rhs rest hop hc hrhs _ ih =>
    intro lhs
    obtain ⟨n1, h1⟩ := hrhs
    obtain ⟨n2, h2⟩ := ih hstop (.BinOp l.peek lhs rhs)
    refine ⟨n1 + n2 + 1, fun n hn => ?_⟩
    obtain ⟨k, rfl⟩ : ∃ k, n = k + 1 := ⟨n - 1, by omega⟩
    have hk1 : n1 ≤ k := by omega
    have hk2 : n2 ≤ k := by omega
    rw [F.op k lhs rhs l l1 l2 hop hc (h1 k hk1), h2 k hk2]
    rfl

theorem level_returns {p : Nat → Lexer → Except FrontError (Expr × Lexer)}
    {pR : Nat → Expr → Lexer → Except FrontError (Expr × Lexer)}
    {next : Nat → Lexer → Except FrontError (Expr × Lexer)} {ops stop : List TokenType}
    (F : LevelFacts p pR next ops stop)
    (hfirst : ∀ n l x, next n l = .ok x → l.peek.type ∈ expressionFirst)
    {l0 l1 l' : Lexer} {e0 : Expr} {items : List (Token × Expr)}
    (h0 : Returns next l0 e0 l1) (hchain : OperandChain ops next l1 items l')
    (hstop : l'.peek.type ∈ stop) : Returns p l0 (leftNested e0 items) l' := by
  obtain ⟨n1, h1⟩ := h0
  obtain ⟨n2, h2⟩ := foldR_returns F hchain hstop e0
  refine ⟨n1 + n2 + 1, fun n hn => ?_⟩
  obtain ⟨k, rfl⟩ : ∃ k, n = k + 1 := ⟨n - 1, by omega⟩
  have hk1 : n1 ≤ k := by omega
  have hk2 : n2 ≤ k := by omega
  rw [F.first k l0 e0 l1 (hfirst k l0 _ (h1 k hk1)) (h1 k hk1), h2 k hk2]

theorem levelStop_succ {r : Nat} {t : TokenType} (h : t ∈ levelStop r) :
    t ∈ levelStop (r + 1) := by
  simp only [levelStop, looserOps, List.mem_append] at h ⊢
  rcases h with h | h
  · exact Or.inl h
  · exact Or.inr (Or.inl h)

theorem levelStop_add {r : Nat} {t : TokenType} (h : t ∈ levelStop r) (d : Nat) :
    t ∈ levelStop (r + d) := by
  induction d with
  | zero => exact h
  | succ d ih => exact levelStop_succ ih

theorem levelStop_of_follow {t : TokenType} (h : t ∈ expressionFollow) (r : Nat) :
    t ∈ levelStop r := by
  simp only [levelStop, List.mem_append]
  exact Or.inl h

theorem levelStop_of_looser {r1 r2 : Nat} (h12 : r1 < r2) {t : TokenType}
    (h : t ∈ precedenceOps r1) : t ∈ levelStop r2 := by
  obtain ⟨d, rfl⟩ := Nat.exists_eq_add_of_lt h12
  have : t ∈ levelStop (r1 + 1) := by
    simp only [levelStop, looserOps, List.mem_append]
    exact Or.inr (Or.inr h)
  have := levelStop_add this d
  rwa [show r1 + 1 + d = r1 + d + 1 by omega] at this

/-- An expression of a tighter level that ends at a token stopping level `r` is an
expression of level `r`. -/
theorem level_lift (d r : Nat) (hr : r + d ≤ 6) {l l' : Lexer} {e : Expr}
    (h : Returns (levelParser (r + d)) l e l') (hstop : l'.peek.type ∈ levelStop r) :
    Returns (levelParser r) l e l' := by
  induction d with
  | zero => exact h
  | succ d ih =>
    apply ih (by omega)
    have F := levelFacts (r + d) (by omega)
    exact level_returns F (levelParser_first (r + d + 1)) h (OperandChain.nil l')
      (levelStop_add hstop d)

theorem expression_of_level {r : Nat} (hr : r ≤ 6) {l l' : Lexer} {e : Expr}
    (h : Returns (levelParser r) l e l') (hfollow : l'.peek.type ∈ expressionFollow) :
    Returns parseExpression l e l' := by
  have h0 : Returns (levelParser 0) l e l' :=
    level_lift r 0 (by omega) (by rwa [Nat.zero_add]) (levelStop_of_follow hfollow 0)
  obtain ⟨n0, h0⟩ := h0
  refine ⟨n0 + 1, fun n hn => ?_⟩
  obtain ⟨k, rfl⟩ : ∃ k, n = k + 1 := ⟨n - 1, by omega⟩
  have hk := h0 k (by omega)
  have hf := levelParser_first 0 k l _ hk
  simp only [expressionFirst, List.mem_cons, List.mem_singleton, List.not_mem_nil,
    or_false] at hf
  simp only [levelParser] at hk
  rcases hf with h | h | h | h | h | h <;> simp [parseExpression, h, hk]

theorem unary_to_level {r : Nat} (hr : r ≤ 6) {l l' : Lexer} {e : Expr}
    (h : Returns parseUnaryExpression l e l') (hstop : l'.peek.type ∈ levelStop r) :
    Returns (levelParser r) l e l' := by
  obtain ⟨d, hd⟩ := Nat.exists_eq_add_of_le hr
  refine level_lift d r (by omega) ?_ hstop
  rw [← hd]
  exact h

theorem level_to_level {r r' : Nat} (hrr : r ≤ r') (hr : r' ≤ 6) {l l' : Lexer} {e : Expr}
    (h : Returns (levelParser r') l e l') (hstop : l'.peek.type ∈ levelStop r) :
    Returns (levelParser r) l e l' := by
  obtain ⟨d, hd⟩ := Nat.exists_eq_add_of_le hrr
  refine level_lift d r (by omega) ?_ hstop
  rw [← hd]
  exact h

theorem unary_returns {l l0 l1 : Lexer} {a : Expr}
    (hop : l.peek.type ∈ [TokenType.MINUS, TokenType.NOT]) (hc : Consumes l l0)
    (ha : Returns parseUnaryExpression l0 a l1) :
    Returns parseUnaryExpression l (.UnaryOp l.peek a) l1 := by
  obtain ⟨n0, h0⟩ := ha
  refine ⟨n0 + 1, fun n hn => ?_⟩
  obtain ⟨k, rfl⟩ : ∃ k, n = k + 1 := ⟨n - 1, by omega⟩
  have hk := h0 k (by omega)
  simp only [List.mem_cons, List.mem_singleton, List.not_mem_nil, or_false] at hop
  rcases hop with h | h <;>
    simp [parseUnaryExpression, parseUnaryOperator, h, matchType_hit h hc, hk, bind,
      Except.bind, pure, Except.pure]

/-- C1. Let `a`, `b`, `c` be operands (unary expressions) separated by two binary operators,
the whole followed by a token that may follow an expression. If the first operator is of a
looser level than the second, `parseExpression` returns `BinOp(op1, a, BinOp(op2, b, c))`;
if it is of a tighter level, `BinOp(op2, BinOp(op1, a, b), c)`: the operator of the tighter
level ends up below the other one. A unary operator in front of an operand makes an
operand. The levels are those of `precedenceOps`; `-` is of rank 4 and `*` of rank 5. -/
theorem C1_operator_precedence (r1 r2 : Nat) (h12 : r1 < r2) (hr2 : r2 < 6)
    (l0 l1 l2 l3 l4 l5 : Lexer) (a b c : Expr)
    (ha : Returns parseUnaryExpression l0 a l1) (h1 : Consumes l1 l2)
    (hb : Returns parseUnaryExpression l2 b l3) (h3 : Consumes l3 l4)
    (hc : Returns parseUnaryExpression l4 c l5)
    (hfollow : l5.peek.type ∈ expressionFollow) :
    (l1.peek.type ∈ precedenceOps r1 → l3.peek.type ∈ precedenceOps r2 →
        Returns parseExpression l0 (.BinOp l1.peek a (.BinOp l3.peek b c)) l5) ∧
      (l1.peek.type ∈ precedenceOps r2 → l3.peek.type ∈ precedenceOps r1 →
        Returns parseExpression l0 (.BinOp l3.peek (.BinOp l1.peek a b) c) l5) ∧
      (∀ l, l.peek.type ∈ [TokenType.MINUS, TokenType.NOT] → Consumes l l0 →
        Returns parseUnaryExpression l (.UnaryOp l.peek a) l1) ∧
      TokenType.MINUS ∈ precedenceOps 4 ∧ TokenType.MULTIPLY ∈ precedenceOps 5 := by
  refine ⟨fun hop1 hop3 => ?_, fun hop1 hop3 => ?_, fun l hop hl => unary_returns hop hl ha,
    by decide, by decide⟩
  · have a_up : Returns (levelParser (r1 + 1)) l0 a l1 :=
      unary_to_level (by omega) ha (levelStop_of_looser (Nat.lt_succ_self r1) hop1)
    have b_up : Returns (levelParser (r2 + 1)) l2 b l3 :=
      unary_to_level (by omega) hb (levelStop_of_looser (Nat.lt_succ_self r2) hop3)
    have c_up : Returns (levelParser (r2 + 1)) l4 c l5 :=
      unary_to_level (by omega) hc (levelStop_of_follow hfollow _)
    have bc : Returns (levelParser r2) l2 (.BinOp l3.peek b c) l5 :=
      level_returns (levelFacts r2 hr2) (levelParser_first (r2 + 1)) b_up
        (OperandChain.cons hop3 h3 c_up (OperandChain.nil l5)) (levelStop_of_follow hfollow _)
    have bc_up : Returns (levelParser (r1 + 1)) l2 (.BinOp l3.peek b c) l5 :=
      level_to_level (by omega) (by omega) bc (levelStop_of_follow hfollow _)
    exact expression_of_level (by omega)
      (level_returns (levelFacts r1 (by omega)) (levelParser_first (r1 + 1)) a_up
        (OperandChain.cons hop1 h1 bc_up (OperandChain.nil l5))
        (levelStop_of_follow hfollow _)) hfollow
  · have a_up : Returns (levelParser (r2 + 1)) l0 a l1 :=
      unary_to_level (by omega) ha (levelStop_of_looser (Nat.lt_succ_self r2) hop1)
    have b_up : Returns (levelParser (r2 + 1)) l2 b l3 :=
      unary_to_level (by omega) hb (levelStop_of_looser (by omega) hop3)
    have ab : Returns (levelParser r2) l0 (.BinOp l1.peek a b) l3 :=
      level_returns (levelFacts r2 hr2) (levelParser_first (r2 + 1)) a_up
        (OperandChain.cons hop1 h1 b_up (OperandChain.nil l3)) (levelStop_of_looser h12 hop3)
    have ab_up : Returns (levelParser (r1 + 1)) l0 (.BinOp l1.peek a b) l3 :=
      level_to_level (by omega) (by omega) ab (levelStop_of_looser (Nat.lt_succ_self r1) hop3)
    have c_up : Returns (levelParser (r1 + 1)) l4 c l5 :=
      unary_to_level (by omega) hc (levelStop_of_follow hfollow _)
    exact expression_of_level (by omega)
      (level_returns (levelFacts r1 (by omega)) (levelParser_first (r1 + 1)) ab_up
        (OperandChain.cons hop3 h3 c_up (OperandChain.nil l5))
        (levelStop_of_follow hfollow _)) hfollow

/-- Witness of C1: `1 - 2 * 3` is parsed as `1 - (2 * 3)` and `1 * 2 - 3` as
`(1 * 2) - 3`. -/
theorem C1_operator_precedence_witness :
    Returns parseExpression (Lexer.ofString "1 - 2 * 3;")
        (.BinOp ⟨.MINUS, ⟨1, 3⟩, none⟩ (.Literal (.int 1))
          (.BinOp ⟨.MULTIPLY, ⟨1, 7⟩, none⟩ (.Literal (.int 2)) (.Literal (.int 3))))
        (Lexer.skip 5 (Lexer.ofString "1 - 2 * 3;")) ∧
      Returns parseExpression (Lexer.ofString "1 * 2 - 3;")
        (.BinOp ⟨.MINUS, ⟨1, 7⟩, none⟩
          (.BinOp ⟨.MULTIPLY, ⟨1, 3⟩, none⟩ (.Literal (.int 1)) (.Literal (.int 2)))
          (.Literal (.int 3)))
        (Lexer.skip 5 (Lexer.ofString "1 * 2 - 3;")) :=
  ⟨(C1_operator_precedence 4 5 (by decide) (by decide) (Lexer.ofString "1 - 2 * 3;")
      (Lexer.skip 1 (Lexer.ofString "1 - 2 * 3;")) (Lexer.skip 2 (Lexer.ofString "1 - 2 * 3;"))
      (Lexer.skip 3 (Lexer.ofString "1 - 2 * 3;")) (Lexer.skip 4 (Lexer.ofString "1 - 2 * 3;"))
      (Lexer.skip 5 (Lexer.ofString "1 - 2 * 3;"))
      (.Literal (.int 1)) (.Literal (.int 2)) (.Literal (.int 3))
      (Returns.of_add 2 fun _ => rfl) rfl (Returns.of_add 2 fun _ => rfl) rfl
      (Returns.of_add 2 fun _ => rfl) (by decide)).1 (by decide) (by decide),
   (C1_operator_precedence 4 5 (by decide) (by decide) (Lexer.ofString "1 * 2 - 3;")
      (Lexer.skip 1 (Lexer.ofString "1 * 2 - 3;")) (Lexer.skip 2 (Lexer.ofString "1 * 2 - 3;"))
      (Lexer.skip 3 (Lexer.ofString "1 * 2 - 3;")) (Lexer.skip 4 (Lexer.ofString "1 * 2 - 3;"))
      (Lexer.skip 5 (Lexer.ofString "1 * 2 - 3;"))
      (.Literal (.int 1)) (.Literal (.int 2)) (.Literal (.int 3))
      (Returns.of_add 2 fun _ => rfl) rfl (Returns.of_add 2 fun _ => rfl) rfl
      (Returns.of_add 2 fun _ => rfl) (by decide)).2.1 (by decide) (by decide)⟩

/-- C2. At every precedence level, an operand followed by any number of pairs of an
operator of that level and an operand (the operands being expressions of the next tighter
level), and then by a token that may follow an expression, is parsed by `parseExpression`
into the left-nested tree: `e0 op1 e1 op2 e2` gives `BinOp(op2, BinOp(op1, e0, e1), e2)`. -/
theorem C2_left_associativity (r : Nat) (hr : r < 6) (l0 l1 l' : Lexer) (e0 : Expr)
    (items : List (Token × Expr))
    (h0 : Returns (levelParser (r + 1)) l0 e0 l1)
    (hchain : OperandChain (precedenceOps r) (levelParser (r + 1)) l1 items l')
    (hfollow : l'.peek.type ∈ expressionFollow) :
    Returns parseExpression l0 (leftNested e0 items) l' ∧
      ∀ op1 e1 op2 e2,
        leftNested e0 [(op1, e1), (op2, e2)] = .BinOp op2 (.BinOp op1 e0 e1) e2 := by
  refine ⟨?_, fun _ _ _ _ => rfl⟩
  exact expression_of_level (Nat.le_of_lt hr)
    (level_returns (levelFacts r hr) (levelParser_first (r + 1)) h0 hchain
      (levelStop_of_follow hfollow r)) hfollow

/-- Witness of C2: `1 - 2 - 3` is parsed as `(1 - 2) - 3`. -/
theorem C2_left_associativity_witness :
    Returns parseExpression (Lexer.ofString "1 - 2 - 3;")
      (.BinOp ⟨.MINUS, ⟨1, 7⟩, none⟩
        (.BinOp ⟨.MINUS, ⟨1, 3⟩, none⟩ (.Literal (.int 1)) (.Literal (.int 2)))
        (.Literal (.int 3)))
      (Lexer.skip 5 (Lexer.ofString "1 - 2 - 3;")) :=
  (C2_left_associativity 4 (by decide) (Lexer.ofString "1 - 2 - 3;")
    (Lexer.skip 1 (Lexer.ofString "1 - 2 - 3;")) (Lexer.skip 5 (Lexer.ofString "1 - 2 - 3;"))
    (.Literal (.int 1))
    [(⟨.MINUS, ⟨1, 3⟩, none⟩, .Literal (.int 2)), (⟨.MINUS, ⟨1, 7⟩, none⟩, .Literal (.int 3))]
    (Returns.of_add 4 fun _ => rfl)
    (@OperandChain.cons _ _ (Lexer.skip 1 (Lexer.ofString "1 - 2 - 3;"))
      (Lexer.skip 2 (Lexer.ofString "1 - 2 - 3;"))
      (Lexer.skip 3 (Lexer.ofString "1 - 2 - 3;")) _ _ _ (by decide) rfl
      (Returns.of_add 4 fun _ => rfl)
      (@OperandChain.cons _ _ (Lexer.skip 3 (Lexer.ofString "1 - 2 - 3;"))
        (Lexer.skip 4 (Lexer.ofString "1 - 2 - 3;"))
        (Lexer.skip 5 (Lexer.ofString "1 - 2 - 3;")) _ _ _ (by decide) rfl
        (Returns.of_add 4 fun _ => rfl) (OperandChain.nil _)))
    (by decide)).1

/-! ## Properties of the statement parser -/

theorem elseStatement_none {l : Lexer}
    (h : l.peek.type = .END ∨ l.peek.type = .SEMICOLON) :
    Returns parseElseStatement l none l := by
  refine ⟨1, fun n hn => ?_⟩
  obtain ⟨k, rfl⟩ : ∃ k, n = k + 1 := ⟨n - 1, by omega⟩
  rcases h with h | h <;> simp [parseElseStatement, h, pure, Except.pure]

theorem elseStatement_some {l l1 l2 : Lexer} {s : Stmt} (h : l.peek.type = .ELSE)
    (hc : Consumes l l1) (hs : Returns parseStatement l1 s l2) :
    Returns parseElseStatement l (some s) l2 := by
  obtain ⟨n0, h0⟩ := hs
  refine ⟨n0 + 1, fun n hn => ?_⟩
  obtain ⟨k, rfl⟩ : ∃ k, n = k + 1 := ⟨n - 1, by omega⟩
  simp [parseElseStatement, h, matchType_hit h hc, h0 k (by omega), bind, Except.bind, pure,
    Except.pure]

theorem ifStatement_returns {l0 l1 l2 l3 l4 l5 : Lexer} {c : Expr} {s : Stmt}
    {e : Option Stmt} (hif : l0.peek.type = .IF) (h0 : Consumes l0 l1)
    (hc : Returns parseExpression l1 c l2) (hthen : l2.peek.type = .THEN)
    (h2 : Consumes l2 l3) (hs : Returns parseStatement l3 s l4)
    (he : Returns parseElseStatement l4 e l5) :
    Returns parseStatement l0 (.If c s e) l5 := by
  obtain ⟨n1, h1⟩ := hc
  obtain ⟨n2, hs⟩ := hs
  obtain ⟨n3, he⟩ := he
  refine ⟨n1 + n2 + n3 + 3, fun n hn => ?_⟩
  obtain ⟨k, rfl⟩ : ∃ k, n = k + 3 := ⟨n - 3, by omega⟩
  simp [parseStatement, parseComplexStatement, parseIfStatement, hif, matchType_hit hif h0,
    h1 k (by omega), matchType_hit hthen h2, hs k (by omega), he k (by omega), bind,
    Except.bind, pure, Except.pure]

/-- C3. In `if c1 then if c2 then s1 else s2`, where `s1` is the statement that
`parseStatement` returns in front of the `ELSE` and the whole is followed by `;` or `END`,
`parseStatement` returns `If(c1, If(c2, s1, else = s2), else = none)`: the `ELSE` belongs to
the innermost `IF`, the outer `IF` has no else branch. -/
theorem C3_dangling_else (l0 l1 l2 l3 l4 l5 l6 l7 l8 l9 : Lexer) (c1 c2 : Expr)
    (s1 s2 : Stmt)
    (hif1 : l0.peek.type = .IF) (h0 : Consumes l0 l1)
    (hc1 : Returns parseExpression l1 c1 l2)
    (hthen1 : l2.peek.type = .THEN) (h2 : Consumes l2 l3)
    (hif2 : l3.peek.type = .IF) (h3 : Consumes l3 l4)
    (hc2 : Returns parseExpression l4 c2 l5)
    (hthen2 : l5.peek.type = .THEN) (h5 : Consumes l5 l6)
    (hs1 : Returns parseStatement l6 s1 l7)
    (helse : l7.peek.type = .ELSE) (h7 : Consumes l7 l8)
    (hs2 : Returns parseStatement l8 s2 l9)
    (hend : l9.peek.type = .END ∨ l9.peek.type = .SEMICOLON) :
    Returns parseStatement l0 (.If c1 (.If c2 s1 (some s2)) none) l9 :=
  ifStatement_returns hif1 h0 hc1 hthen1 h2
    (ifStatement_returns hif2 h3 hc2 hthen2 h5 hs1 (elseStatement_some helse h7 hs2))
    (elseStatement_none hend)

/-- Witness of C3: `if a then if b then x := 1 else y := 2`. -/
theorem C3_dangling_else_witness :
    Returns parseStatement (Lexer.ofString "if a then if b then x := 1 else y := 2;")
      (.If (.DeclVarRef "a")
        (.If (.DeclVarRef "b") (.Assign (.DeclVarRef "x") (.Literal (.int 1)))
          (some (.Assign (.DeclVarRef "y") (.Literal (.int 2)))))
        none)
      (Lexer.skip 13 (Lexer.ofString "if a then if b then x := 1 else y := 2;")) :=
  C3_dangling_else (Lexer.ofString "if a then if b then x := 1 else y := 2;")
    (Lexer.skip 1 (Lexer.ofString "if a then if b then x := 1 else y := 2;"))
    (Lexer.skip 2 (Lexer.ofString "if a then if b then x := 1 else y := 2;"))
    (Lexer.skip 3 (Lexer.ofString "if a then if b then x := 1 else y := 2;"))
    (Lexer.skip 4 (Lexer.ofString "if a then if b then x := 1 else y := 2;"))
    (Lexer.skip 5 (Lexer.ofString "if a then if b then x := 1 else y := 2;"))
    (Lexer.skip 6 (Lexer.ofString "if a then if b then x := 1 else y := 2;"))
    (Lexer.skip 9 (Lexer.ofString "if a then if b then x := 1 else y := 2;"))
    (Lexer.skip 10 (Lexer.ofString "if a then if b then x := 1 else y := 2;"))
    (Lexer.skip 13 (Lexer.ofString "if a then if b then x := 1 else y := 2;"))
    (.DeclVarRef "a") (.DeclVarRef "b") (.Assign (.DeclVarRef "x") (.Literal (.int 1)))
    (.Assign (.DeclVarRef "y") (.Literal (.int 2)))
    (by decide) rfl (Returns.of_add 10 fun _ => rfl) (by decide) rfl
    (by decide) rfl (Returns.of_add 10 fun _ => rfl) (by decide) rfl
    (Returns.of_add 11 fun _ => rfl) (by decide) rfl
    (Returns.of_add 11 fun _ => rfl) (Or.inr (by decide))

/-! ## Integer literals in front of `..` -/

theorem qInt10_digits (ds tail : List Char) (hds : ∀ c ∈ ds, isdigit c = true)
    (ts : Position) :
    ∀ (cur : Position) (buf : Int), qInt10 (ds ++ tail) cur ts buf =
      qInt10 tail (cur.advanceBy ds.length) ts (ds.foldl
        (fun b c => wrapInt (wrapInt (wrapInt (b * 10) + c.toNat) - 48)) buf) := by
  induction ds with
  | nil => intro cur buf; rfl
  | cons d ds ih =>
    intro cur buf
    have hd : isdigit d = true := hds d (by simp)
    simp [qInt10, hd, ih (fun c hc => hds c (by simp [hc])), Position.advanceBy]

/-- C7, the claim at the source of scenario 3: the lexer raises an exception at `50..50`,
as it does on every integer literal that `..` follows immediately. -/
theorem C7_counterexample :
    (parseSource 100
        "program t; var X: array[-50..50] of integer; begin write(X[-51]) end.".toList).map
        Program.arrayBounds =
      .error (.lexer "Expected a digit after the dot in a real number." ⟨1, 29⟩) ∧
    readNextToken ⟨"50..50".toList, ⟨1, 1⟩, ⟨1, 1⟩⟩ =
      .error (.lexer "Expected a digit after the dot in a real number." ⟨1, 4⟩) := by
  decide!

/-- C7 as amended. With a blank in front of `..` the source of scenario 3 is lexed and
parsed into a program whose array `X` has the bounds -50 and 50; a decimal literal
followed by a blank and `..` is lexed as `INTEGER_LITERAL` and then `DOUBLE_DOT`, and a
decimal literal that `..` follows immediately raises the lexer error of a real literal
without fraction digits. A literal in base 8 (`&` and digits `0`..`7`) or in base 16 (`$`
and digits `0`..`9`, `a`..`f`) that `..` follows immediately is lexed as `INTEGER_LITERAL`,
and the `..` after it as `DOUBLE_DOT`. -/
theorem C7_array_bounds_with_blanks (d rest : List Char) (cur ts : Position) (hd : d ≠ [])
    (hds : ∀ c ∈ d, isdigit c = true) (hval : positionalValue 10 d < 2147483648) :
    (parseSource 100
        "program t; var X: array[-50 .. 50] of integer; begin write(X[-51]) end.".toList).map
        Program.arrayBounds = .ok [("X", -50, 50)] ∧
      readNextToken ⟨d ++ ' ' :: '.' :: '.' :: rest, cur, ts⟩ =
        .ok (⟨.INTEGER_LITERAL, cur, some (.int (positionalValue 10 d))⟩,
          ⟨' ' :: '.' :: '.' :: rest, cur.advanceBy d.length, cur⟩) ∧
      readNextToken ⟨' ' :: '.' :: '.' :: rest, cur.advanceBy d.length, cur⟩ =
        .ok (⟨.DOUBLE_DOT, (cur.advanceBy d.length).advance, none⟩,
          ⟨rest, (cur.advanceBy d.length).advance.advance.advance,
            (cur.advanceBy d.length).advance⟩) ∧
      readNextToken ⟨d ++ '.' :: '.' :: rest, cur, ts⟩ =
        .error (.lexer "Expected a digit after the dot in a real number."
          (cur.advanceBy (d.length + 1))) ∧
      (∀ o : List Char, (∀ c ∈ o, isOctalDigit c = true) →
        ∃ value, readNextToken ⟨'&' :: o ++ '.' :: '.' :: rest, cur, ts⟩ =
          .ok (⟨.INTEGER_LITERAL, cur, some (.int value)⟩,
            ⟨'.' :: '.' :: rest, cur.advance.advanceBy o.length, cur⟩)) ∧
      (∀ x : List Char, (∀ c ∈ x, isHexDigit c = true) →
        ∃ value, readNextToken ⟨'$' :: x ++ '.' :: '.' :: rest, cur, ts⟩ =
          .ok (⟨.INTEGER_LITERAL, cur, some (.int value)⟩,
            ⟨'.' :: '.' :: rest, cur.advance.advanceBy x.length, cur⟩)) ∧
      (∀ pos start : Position, readNextToken ⟨'.' :: '.' :: rest, pos, start⟩ =
        .ok (⟨.DOUBLE_DOT, pos, none⟩, ⟨rest, pos.advance.advance, pos⟩)) := by
  refine ⟨by decide!, ?_, ?_, ?_, fun o ho => ?_, fun x hx => ?_, fun pos start => ?_⟩
  · exact readNextToken_decimal d (' ' :: '.' :: '.' :: rest) cur ts hd hds hval (by simp [isdigit])
  · simp [readNextToken, qStart, isspace, newline, qDot]
  · cases d with
    | nil => exact absurd rfl hd
    | cons d0 ds =>
      have hd0 : isdigit d0 = true := hds d0 (by simp)
      have hds' : ∀ c ∈ ds, isdigit c = true := fun c hc => hds c (by simp [hc])
      simp only [readNextToken, List.cons_append]
      rw [qStart_digit hd0, qInt10_digits ds _ hds']
      simp only [qInt10, isdigit, Position.advanceBy, List.length_cons]
      simp [← Function.iterate_succ_apply', Function.iterate_succ_apply]
  · have hq : qStart ('&' :: (o ++ '.' :: '.' :: rest)) cur ts =
        qInt8 (o ++ '.' :: '.' :: rest) cur.advance cur 0 := by
      simp [qStart, isspace, isalpha, isdigit]
    refine ⟨o.foldl (fun b c => wrapInt (wrapInt (wrapInt (b * 8) + c.toNat) - 48)) 0, ?_⟩
    simp only [readNextToken, List.cons_append]
    rw [hq, qInt8_run o ('.' :: '.' :: rest) ho (by simp [isdigit])]
  · have hq : qStart ('$' :: (x ++ '.' :: '.' :: rest)) cur ts =
        qInt16 (x ++ '.' :: '.' :: rest) cur.advance cur 0 := by
      simp [qStart, isspace, isalpha, isdigit]
    refine ⟨x.foldl (fun b c => wrapInt (wrapInt (b * 16) +
      (if isalpha c then wrapInt (wrapInt ((c.toNat : Int) - 97) + 10)
       else wrapInt ((c.toNat : Int) - 48)))) 0, ?_⟩
    simp only [readNextToken, List.cons_append]
    rw [hq, qInt16_run x ('.' :: '.' :: rest) hx (by simp [isdigit, isalpha])]
  · simp [readNextToken, qStart, isspace, newline, qDot]

/-- Witness of C7 as amended, at the literal `50`, and at the literals `&7` and `$f` with
`..5` right after them. -/
theorem C7_array_bounds_with_blanks_witness :
    readNextToken ⟨"50 ..50".toList, ⟨1, 1⟩, ⟨1, 1⟩⟩ =
        .ok (⟨.INTEGER_LITERAL, ⟨1, 1⟩, some (.int 50)⟩, ⟨" ..50".toList, ⟨1, 3⟩, ⟨1, 1⟩⟩) ∧
      readNextToken ⟨" ..50".toList, ⟨1, 3⟩, ⟨1, 1⟩⟩ =
        .ok (⟨.DOUBLE_DOT, ⟨1, 4⟩, none⟩, ⟨"50".toList, ⟨1, 6⟩, ⟨1, 4⟩⟩) ∧
      readNextToken ⟨"50..50".toList, ⟨1, 1⟩, ⟨1, 1⟩⟩ =
        .error (.lexer "Expected a digit after the dot in a real number." ⟨1, 4⟩) ∧
      (∃ value, readNextToken ⟨"&7..50".toList, ⟨1, 1⟩, ⟨1, 1⟩⟩ =
        .ok (⟨.INTEGER_LITERAL, ⟨1, 1⟩, some (.int value)⟩,
          ⟨"..50".toList, ⟨1, 3⟩, ⟨1, 1⟩⟩)) ∧
      (∃ value, readNextToken ⟨"$f..50".toList, ⟨1, 1⟩, ⟨1, 1⟩⟩ =
        .ok (⟨.INTEGER_LITERAL, ⟨1, 1⟩, some (.int value)⟩,
          ⟨"..50".toList, ⟨1, 3⟩, ⟨1, 1⟩⟩)) ∧
      readNextToken ⟨"..50".toList, ⟨1, 3⟩, ⟨1, 1⟩⟩ =
        .ok (⟨.DOUBLE_DOT, ⟨1, 3⟩, none⟩, ⟨"50".toList, ⟨1, 5⟩, ⟨1, 3⟩⟩) :=
  have h := (C7_array_bounds_with_blanks "50".toList "50".toList ⟨1, 1⟩ ⟨1, 1⟩ (by decide)
    (by decide) (by decide)).2
  ⟨h.1, h.2.1, h.2.2.1, h.2.2.2.1 "7".toList (by decide), h.2.2.2.2.1 "f".toList (by decide),
    h.2.2.2.2.2 ⟨1, 3⟩ ⟨1, 1⟩⟩
/-! ## Comments -/

theorem qStart_kind (c : Char) (cs : List Char) (curPos tokenStartPos : Position) :
    qStart (c :: cs) curPos tokenStartPos =
      match startKind c with
      | .space =>
        qStart cs (if c = newline then curPos.nextLine else curPos.advance) tokenStartPos
      | .comment => qComment cs curPos tokenStartPos
      | .single t => single t cs curPos
      | .less => qLess cs curPos.advance curPos
      | .greater => qGreater cs curPos.advance curPos
      | .colon => qColon cs curPos.advance curPos
      | .dot => qDot cs curPos.advance curPos
      | .int8 => qInt8 cs curPos.advance curPos 0
      | .int16 => qInt16 cs curPos.advance curPos 0
      | .identifier => qIdentifier cs curPos.advance curPos (String.mk [c])
      | .int10 => qInt10 cs curPos.advance curPos (wrapInt ((c.toNat : Int) - 48))
      | .bad => .error (.lexer "Unable to lex next token." curPos) := by
  rw [qStart]
  unfold startKind
  by_cases h0 : isspace c = true
  · rw [if_pos h0, if_pos h0]
  rw [if_neg h0, if_neg h0]
  by_cases h1 : c = '{'
  · rw [if_pos h1, if_pos h1]
  rw [if_neg h1, if_neg h1]
  by_cases h2 : c = '+'
  · rw [if_pos h2, if_pos h2]
  rw [if_neg h2, if_neg h2]
  by_cases h3 : c = '-'
  · rw [if_pos h3, if_pos h3]
  rw [if_neg h3, if_neg h3]
  by_cases h4 : c = '*'
  · rw [if_pos h4, if_pos h4]
  rw [if_neg h4, if_neg h4]
  by_cases h5 : c = '/'
  · rw [if_pos h5, if_pos h5]
  rw [if_neg h5, if_neg h5]
  by_cases h6 : c = '='
  · rw [if_pos h6, if_pos h6]
  rw [if_neg h6, if_neg h6]
  by_cases h7 : c = '<'
  · rw [if_pos h7, if_pos h7]
  rw [if_neg h7, if_neg h7]
  by_cases h8 : c = '>'
  · rw [if_pos h8, if_pos h8]
  rw [if_neg h8, if_neg h8]
  by_cases h9 : c = ':'
  · rw [if_pos h9, if_pos h9]
  rw [if_neg h9, if_neg h9]
  by_cases h10 : c = ';'
  · rw [if_pos h10, if_pos h10]
  rw [if_neg h10, if_neg h10]
  by_cases h11 : c = ','
  · rw [if_pos h11, if_pos h11]
  rw [if_neg h11, if_neg h11]
  by_cases h12 : c = '.'
  · rw [if_pos h12, if_pos h12]
  rw [if_neg h12, if_neg h12]
  by_cases h13 : c = '('
  · rw [if_pos h13, if_pos h13]
  rw [if_neg h13, if_neg h13]
  by_cases h14 : c = ')'
  · rw [if_pos h14, if_pos h14]
  rw [if_neg h14, if_neg h14]
  by_cases h15 : c = '['
  · rw [if_pos h15, if_pos h15]
  rw [if_neg h15, if_neg h15]
  by_cases h16 : c = ']'
  · rw [if_pos h16, if_pos h16]
  rw [if_neg h16, if_neg h16]
  by_cases h17 : c = '&'
  · rw [if_pos h17, if_pos h17]
  rw [if_neg h17, if_neg h17]
  by_cases h18 : c = '$'
  · rw [if_pos h18, if_pos h18]
  rw [if_neg h18, if_neg h18]
  by_cases h19 : (isalpha c || decide (c = '_')) = true
  · rw [if_pos h19, if_pos h19]
  rw [if_neg h19, if_neg h19]
  by_cases h20 : isdigit c = true
  · rw [if_pos h20, if_pos h20]
  rw [if_neg h20, if_neg h20]

theorem identifierToken_type (buf : String) (ts ts' : Position) :
    (identifierToken buf ts).type = (identifierToken buf ts').type ∧
      (identifierToken buf ts).value = (identifierToken buf ts').value := by
  unfold identifierToken
  cases isKeyword buf <;> exact ⟨rfl, rfl⟩

theorem qLess_content (is : List Char) (cur ts cur' ts' : Position) :
    (qLess is cur ts).content = (qLess is cur' ts').content := by
  unfold qLess
  cases is with
  | nil => rfl
  | cons c cs => dsimp only; split_ifs <;> rfl

theorem qGreater_content (is : List Char) (cur ts cur' ts' : Position) :
    (qGreater is cur ts).content = (qGreater is cur' ts').content := by
  unfold qGreater
  cases is with
  | nil => rfl
  | cons c cs => dsimp only; split_ifs <;> rfl

theorem qColon_content (is : List Char) (cur ts cur' ts' : Position) :
    (qColon is cur ts).content = (qColon is cur' ts').content := by
  unfold qColon
  cases is with
  | nil => rfl
  | cons c cs => dsimp only; split_ifs <;> rfl

theorem qDot_content (is : List Char) (cur ts cur' ts' : Position) :
    (qDot is cur ts).content = (qDot is cur' ts').content := by
  unfold qDot
  cases is with
  | nil => rfl
  | cons c cs => dsimp only; split_ifs <;> rfl

theorem qIdentifier_content (is : List Char) :
    ∀ (cur ts cur' ts' : Position) (buf : String),
      (qIdentifier is cur ts buf).content = (qIdentifier is cur' ts' buf).content := by
  induction is with
  | nil =>
    intro cur ts cur' ts' buf
    simp [qIdentifier, Scan.content, (identifierToken_type buf ts ts').1,
      (identifierToken_type buf ts ts').2]
  | cons c cs ih =>
    intro cur ts cur' ts' buf
    rw [qIdentifier, qIdentifier]
    split_ifs
    · exact ih _ _ _ _ _
    · simp [Scan.content, (identifierToken_type buf ts ts').1,
        (identifierToken_type buf ts ts').2]

theorem qDouble_content (is : List Char) :
    ∀ (cur ts cur' ts' : Position) (buf : ℚ) (dv : Int),
      (qDouble is cur ts buf dv).content = (qDouble is cur' ts' buf dv).content := by
  induction is with
  | nil => intro cur ts cur' ts' buf dv; rfl
  | cons c cs ih =>
    intro cur ts cur' ts' buf dv
    rw [qDouble, qDouble]
    split_ifs
    · exact ih _ _ _ _ _ _
    · rfl

theorem qInt10_content (is : List Char) :
    ∀ (cur ts cur' ts' : Position) (buf : Int),
      (qInt10 is cur ts buf).content = (qInt10 is cur' ts' buf).content := by
  induction is with
  | nil => intro cur ts cur' ts' buf; rfl
  | cons c cs ih =>
    intro cur ts cur' ts' buf
    simp only [qInt10]
    split_ifs
    · exact ih _ _ _ _ _
    · cases cs with
      | nil => rfl
      | cons d ds =>
        dsimp only
        split_ifs
        · exact qDouble_content _ _ _ _ _ _ _
        · rfl
    · rfl

theorem qInt8_content (is : List Char) :
    ∀ (cur ts cur' ts' : Position) (buf : Int),
      (qInt8 is cur ts buf).content = (qInt8 is cur' ts' buf).content := by
  induction is with
  | nil => intro cur ts cur' ts' buf; rfl
  | cons c cs ih =>
    intro cur ts cur' ts' buf
    rw [qInt8, qInt8]
    split_ifs
    · rfl
    · exact ih _ _ _ _ _
    · rfl

theorem qInt16_content (is : List Char) :
    ∀ (cur ts cur' ts' : Position) (buf : Int),
      (qInt16 is cur ts buf).content = (qInt16 is cur' ts' buf).content := by
  induction is with
  | nil => intro cur ts cur' ts' buf; rfl
  | cons c cs ih =>
    intro cur ts cur' ts' buf
    rw [qInt16, qInt16]
    split_ifs <;> first | rfl | exact ih _ _ _ _ _

theorem qStart_qComment_content (is : List Char) :
    (∀ (cur ts cur' ts' : Position),
      (qStart is cur ts).content = (qStart is cur' ts').content) ∧
    (∀ (cur ts cur' ts' : Position),
      (qComment is cur ts).content = (qComment is cur' ts').content) := by
  induction is with
  | nil => exact ⟨fun _ _ _ _ => rfl, fun _ _ _ _ => rfl⟩
  | cons c cs ih =>
    refine ⟨fun cur ts cur' ts' => ?_, fun cur ts cur' ts' => ?_⟩
    · rw [qStart_kind, qStart_kind]
      cases startKind c <;> dsimp only <;>
        first
        | rfl
        | exact ih.1 _ _ _ _
        | exact ih.2 _ _ _ _
        | exact qLess_content _ _ _ _ _
        | exact qGreater_content _ _ _ _ _
        | exact qColon_content _ _ _ _ _
        | exact qDot_content _ _ _ _ _
        | exact qInt8_content _ _ _ _ _ _
        | exact qInt16_content _ _ _ _ _ _
        | exact qInt10_content _ _ _ _ _ _
        | exact qIdentifier_content _ _ _ _ _ _
    · rw [qComment, qComment]
      split_ifs
      · exact ih.1 _ _ _ _
      · exact ih.2 _ _ _ _

theorem firstTokens_content (n : Nat) :
    ∀ (is : List Char) (cur ts cur' ts' : Position),
      firstTokens n ⟨is, cur, ts⟩ = firstTokens n ⟨is, cur', ts'⟩ := by
  induction n with
  | zero => intro is cur ts cur' ts'; rfl
  | succ n ih =>
    intro is cur ts cur' ts'
    have h := (qStart_qComment_content is).1 cur ts cur' ts'
    simp only [firstTokens, readNextToken]
    cases h1 : qStart is cur ts with
    | error e1 =>
      cases h2 : qStart is cur' ts' with
      | error e2 =>
        rw [h1, h2] at h
        cases e1 <;> cases e2 <;> simp_all [Scan.content]
      | ok r2 =>
        rw [h1, h2] at h
        cases e1 <;> simp [Scan.content] at h
    | ok r1 =>
      cases h2 : qStart is cur' ts' with
      | error e2 =>
        rw [h1, h2] at h
        cases e2 <;> simp [Scan.content] at h
      | ok r2 =>
        rw [h1, h2] at h
        obtain ⟨tok1, ⟨is1, c1, t1⟩⟩ := r1
        obtain ⟨tok2, ⟨is2, c2, t2⟩⟩ := r2
        simp only [Scan.content, Except.ok.injEq, Prod.mk.injEq] at h
        obtain ⟨ht, hv, his⟩ := h
        subst his
        simp only [ht, hv]
        rw [ih is1 c1 t1 c2 t2]

theorem neutral_facts {a : Char} (h : isNeutral a = true) :
    isdigit a = false ∧ isalpha a = false ∧ a ≠ '_' ∧ a ≠ '.' ∧ a ≠ '=' ∧ a ≠ '>' ∧
      a ≠ '}' := by
  simp only [isNeutral, Bool.or_eq_true, decide_eq_true_eq] at h
  rcases h with rfl | rfl <;> decide

theorem lookup_mem {β : Type} (l : List (String × β)) (w : String) (b : β)
    (h : l.lookup w = some b) : (w, b) ∈ l := by
  induction l with
  | nil => cases h
  | cons p l ih =>
    obtain ⟨k, v⟩ := p
    rw [List.lookup_cons] at h
    cases hk : (w == k) with
    | true =>
      rw [hk] at h
      cases h
      rw [beq_iff_eq] at hk
      subst hk
      exact List.mem_cons_self _ _
    | false =>
      rw [hk] at h
      exact List.mem_cons_of_mem _ (ih h)

theorem identifierToken_ne_eoi (buf : String) (ts : Position) :
    (identifierToken buf ts).type ≠ .EOI := by
  unfold identifierToken
  cases h : isKeyword buf with
  | none => simp
  | some kw =>
    have hmem := lookup_mem keywords buf kw h
    have hall : ∀ p ∈ keywords, p.2 ≠ TokenType.EOI := by decide
    exact hall _ hmem

theorem good_cons {c : Char} {x : List Char} {o : Outcome} (hc : c ≠ '{')
    (h : o.Good x) : o.Good (c :: x) := by
  cases o with
  | failed e => trivial
  | reached _ _ => exact h
  | token tok x1 cur ts =>
    obtain ⟨h1, p, hp, hb⟩ := h
    refine ⟨h1, c :: p, by rw [hp]; rfl, ?_⟩
    intro d hd
    rcases List.mem_cons.1 hd with rfl | hd
    · exact hc
    · exact hb d hd

theorem good_here (tok : Token) (x : List Char) (cur ts : Position) (h : tok.type ≠ .EOI) :
    (Outcome.token tok x cur ts).Good x :=
  ⟨h, [], rfl, fun _ hc => by cases hc⟩

theorem qIdentifier_outcome (x : List Char) :
    ∀ (cur ts : Position) (buf : String), ∃ out : Outcome, out.Good x ∧
      ∀ a r, isNeutral a = true → qIdentifier (x ++ a :: r) cur ts buf = out.resume (a :: r) := by
  induction x with
  | nil =>
    intro cur ts buf
    refine ⟨.token (identifierToken buf ts) [] cur ts,
      good_here _ _ _ _ (identifierToken_ne_eoi buf ts), fun a r ha => ?_⟩
    have hn := neutral_facts ha
    simp [qIdentifier, Outcome.resume, hn.1, hn.2.1, hn.2.2.1]
  | cons c x ih =>
    intro cur ts buf
    by_cases hc : (isdigit c || isalpha c || decide (c = '_')) = true
    · obtain ⟨out, hg, ho⟩ := ih cur.advance ts (buf.push c)
      refine ⟨out, good_cons (char_ne_of_class (p := isWordChar) hc '{' (by decide)) hg,
        fun a r ha => ?_⟩
      rw [List.cons_append, qIdentifier, if_pos hc]
      exact ho a r ha
    · refine ⟨.token (identifierToken buf ts) (c :: x) cur ts,
        good_here _ _ _ _ (identifierToken_ne_eoi buf ts), fun a r ha => ?_⟩
      rw [List.cons_append, qIdentifier, if_neg hc]
      rfl

theorem qDouble_outcome (x : List Char) :
    ∀ (cur ts : Position) (buf : ℚ) (dv : Int), ∃ out : Outcome, out.Good x ∧
      ∀ a r, isNeutral a = true → qDouble (x ++ a :: r) cur ts buf dv = out.resume (a :: r) := by
  induction x with
  | nil =>
    intro cur ts buf dv
    refine ⟨.token ⟨.REAL_LITERAL, ts, some (.real buf)⟩ [] cur ts,
      good_here _ _ _ _ (by simp), fun a r ha => ?_⟩
    have hn := neutral_facts ha
    simp [qDouble, Outcome.resume, hn.1]
  | cons c x ih =>
    intro cur ts buf dv
    by_cases hc : isdigit c = true
    · obtain ⟨out, hg, ho⟩ := ih cur.advance ts
        (buf + ((c.toNat : ℚ) - 48) / (dv : ℚ)) (wrapInt (dv * 10))
      refine ⟨out, good_cons (char_ne_of_class hc '{' (by decide)) hg, fun a r ha => ?_⟩
      rw [List.cons_append, qDouble, if_pos hc]
      exact ho a r ha
    · refine ⟨.token ⟨.REAL_LITERAL, ts, some (.real buf)⟩ (c :: x) cur ts,
        good_here _ _ _ _ (by simp), fun a r ha => ?_⟩
      rw [List.cons_append, qDouble, if_neg hc]
      rfl

theorem qInt10_outcome (x : List Char) :
    ∀ (cur ts : Position) (buf : Int), ∃ out : Outcome, out.Good x ∧
      ∀ a r, isNeutral a = true → qInt10 (x ++ a :: r) cur ts buf = out.resume (a :: r) := by
  induction x with
  | nil =>
    intro cur ts buf
    refine ⟨.token ⟨.INTEGER_LITERAL, ts, some (.int buf)⟩ [] cur ts,
      good_here _ _ _ _ (by simp), fun a r ha => ?_⟩
    have hn := neutral_facts ha
    simp [qInt10, Outcome.resume, hn.1, hn.2.2.2.1]
  | cons c x ih =>
    intro cur ts buf
    by_cases hc : isdigit c = true
    · obtain ⟨out, hg, ho⟩ := ih cur.advance ts
        (wrapInt (wrapInt (wrapInt (buf * 10) + c.toNat) - 48))
      refine ⟨out, good_cons (char_ne_of_class hc '{' (by decide)) hg, fun a r ha => ?_⟩
      simp only [List.cons_append, qInt10, if_pos hc]
      exact ho a r ha
    · by_cases hdot : c = '.'
      · subst hdot
        cases x with
        | nil =>
          refine ⟨.failed (.lexer "Expected a digit after the dot in a real number."
            cur.advance), trivial, fun a r ha => ?_⟩
          have hn := neutral_facts ha
          have h1 : isdigit '.' = false := by decide
          show qInt10 ('.' :: a :: r) cur ts buf = _
          simp only [qInt10, h1, hn.1, Bool.false_eq_true, if_false, if_true, Outcome.resume]
        | cons d x =>
          by_cases hd : isdigit d = true
          · obtain ⟨out, hg, ho⟩ := qDouble_outcome (d :: x) cur.advance ts buf 10
            refine ⟨out, good_cons (by decide) hg, fun a r ha => ?_⟩
            have h1 : isdigit '.' = false := by decide
            have := ho a r ha
            simp only [List.cons_append] at this
            show qInt10 ('.' :: d :: (x ++ a :: r)) cur ts buf = _
            simp only [qInt10, h1, hd, Bool.false_eq_true, if_false, if_true]
            exact this
          · refine ⟨.failed (.lexer "Expected a digit after the dot in a real number."
              cur.advance), trivial, fun a r ha => ?_⟩
            have h1 : isdigit '.' = false := by decide
            show qInt10 ('.' :: d :: (x ++ a :: r)) cur ts buf = _
            simp only [qInt10, h1, hd, Bool.false_eq_true, if_false, if_true, Outcome.resume]
      · refine ⟨.token ⟨.INTEGER_LITERAL, ts, some (.int buf)⟩ (c :: x) cur ts,
          good_here _ _ _ _ (by simp), fun a r ha => ?_⟩
        simp only [List.cons_append, qInt10, if_neg hc, if_neg hdot]
        rfl

theorem qInt8_outcome (x : List Char) :
    ∀ (cur ts : Position) (buf : Int), ∃ out : Outcome, out.Good x ∧
      ∀ a r, isNeutral a = true → qInt8 (x ++ a :: r) cur ts buf = out.resume (a :: r) := by
  induction x with
  | nil =>
    intro cur ts buf
    refine ⟨.token ⟨.INTEGER_LITERAL, ts, some (.int buf)⟩ [] cur ts,
      good_here _ _ _ _ (by simp), fun a r ha => ?_⟩
    have hn := neutral_facts ha
    simp [qInt8, Outcome.resume, hn.1]
  | cons c x ih =>
    intro cur ts buf
    by_cases hc : isdigit c = true
    · by_cases h7 : c.toNat > 55
      · refine ⟨.failed (.lexer "Invalid octal digit." cur), trivial, fun a r ha => ?_⟩
        rw [List.cons_append, qInt8, if_pos hc, if_pos h7]
        rfl
      · obtain ⟨out, hg, ho⟩ := ih cur.advance ts
          (wrapInt (wrapInt (wrapInt (buf * 8) + c.toNat) - 48))
        refine ⟨out, good_cons (char_ne_of_class hc '{' (by decide)) hg, fun a r ha => ?_⟩
        rw [List.cons_append, qInt8, if_pos hc, if_neg h7]
        exact ho a r ha
    · refine ⟨.token ⟨.INTEGER_LITERAL, ts, some (.int buf)⟩ (c :: x) cur ts,
        good_here _ _ _ _ (by simp), fun a r ha => ?_⟩
      rw [List.cons_append, qInt8, if_neg hc]
      rfl

theorem qInt16_outcome (x : List Char) :
    ∀ (cur ts : Position) (buf : Int), ∃ out : Outcome, out.Good x ∧
      ∀ a r, isNeutral a = true → qInt16 (x ++ a :: r) cur ts buf = out.resume (a :: r) := by
  induction x with
  | nil =>
    intro cur ts buf
    refine ⟨.token ⟨.INTEGER_LITERAL, ts, some (.int buf)⟩ [] cur ts,
      good_here _ _ _ _ (by simp), fun a r ha => ?_⟩
    have hn := neutral_facts ha
    simp [qInt16, Outcome.resume, hn.1, hn.2.1]
  | cons c x ih =>
    intro cur ts buf
    by_cases hc : (isdigit c || isalpha c) = true
    · by_cases hx : (isalpha c && !(decide (97 ≤ c.toNat) && decide (c.toNat ≤ 102))) = true
      · refine ⟨.failed (.lexer ("Invalid hex digit: " ++ toString c.toNat) cur), trivial,
          fun a r ha => ?_⟩
        rw [List.cons_append, qInt16, if_pos hc, if_pos hx]
        rfl
      · obtain ⟨out, hg, ho⟩ := ih cur.advance ts
          (wrapInt (wrapInt (buf * 16) +
            (if isalpha c then wrapInt (wrapInt ((c.toNat : Int) - 97) + 10)
             else wrapInt ((c.toNat : Int) - 48))))
        refine ⟨out, good_cons (char_ne_of_class (p := fun k => isdigit k || isalpha k) hc '{'
          (by decide)) hg, fun a r ha => ?_⟩
        rw [List.cons_append, qInt16, if_pos hc, if_neg hx]
        exact ho a r ha
    · refine ⟨.token ⟨.INTEGER_LITERAL, ts, some (.int buf)⟩ (c :: x) cur ts,
        good_here _ _ _ _ (by simp), fun a r ha => ?_⟩
      rw [List.cons_append, qInt16, if_neg hc]
      rfl

theorem qLess_outcome (x : List Char) (cur ts : Position) :
    ∃ out : Outcome, out.Good x ∧
      ∀ a r, isNeutral a = true → qLess (x ++ a :: r) cur ts = out.resume (a :: r) := by
  cases x with
  | nil =>
    refine ⟨.token ⟨.LESS, ts, none⟩ [] cur ts, good_here _ _ _ _ (by simp),
      fun a r ha => ?_⟩
    have hn := neutral_facts ha
    simp [qLess, Outcome.resume, hn.2.2.2.2.1, hn.2.2.2.2.2.1]
  | cons c x =>
    by_cases h1 : c = '>'
    · refine ⟨.token ⟨.NOT_EQUAL, ts, none⟩ x cur.advance ts,
        ⟨by simp, [c], rfl, by subst h1; decide⟩, fun a r ha => ?_⟩
      simp [qLess, h1, Outcome.resume]
    · by_cases h2 : c = '='
      · refine ⟨.token ⟨.LESS_EQUAL, ts, none⟩ x cur.advance ts,
          ⟨by simp, [c], rfl, by subst h2; decide⟩, fun a r ha => ?_⟩
        simp [qLess, h2, Outcome.resume]
      · refine ⟨.token ⟨.LESS, ts, none⟩ (c :: x) cur ts, good_here _ _ _ _ (by simp),
          fun a r ha => ?_⟩
        simp [qLess, h1, h2, Outcome.resume]

theorem qGreater_outcome (x : List Char) (cur ts : Position) :
    ∃ out : Outcome, out.Good x ∧
      ∀ a r, isNeutral a = true → qGreater (x ++ a :: r) cur ts = out.resume (a :: r) := by
  cases x with
  | nil =>
    refine ⟨.token ⟨.GREATER, ts, none⟩ [] cur ts, good_here _ _ _ _ (by simp),
      fun a r ha => ?_⟩
    have hn := neutral_facts ha
    simp [qGreater, Outcome.resume, hn.2.2.2.2.1]
  | cons c x =>
    by_cases h2 : c = '='
    · refine ⟨.token ⟨.GREATER_EQUAL, ts, none⟩ x cur.advance ts,
        ⟨by simp, [c], rfl, by subst h2; decide⟩, fun a r ha => ?_⟩
      simp [qGreater, h2, Outcome.resume]
    · refine ⟨.token ⟨.GREATER, ts, none⟩ (c :: x) cur ts, good_here _ _ _ _ (by simp),
        fun a r ha => ?_⟩
      simp [qGreater, h2, Outcome.resume]

theorem qColon_outcome (x : List Char) (cur ts : Position) :
    ∃ out : Outcome, out.Good x ∧
      ∀ a r, isNeutral a = true → qColon (x ++ a :: r) cur ts = out.resume (a :: r) := by
  cases x with
  | nil =>
    refine ⟨.token ⟨.COLON, ts, none⟩ [] cur ts, good_here _ _ _ _ (by simp),
      fun a r ha => ?_⟩
    have hn := neutral_facts ha
    simp [qColon, Outcome.resume, hn.2.2.2.2.1]
  | cons c x =>
    by_cases h2 : c = '='
    · refine ⟨.token ⟨.ASSIGN, ts, none⟩ x cur.advance ts,
        ⟨by simp, [c], rfl, by subst h2; decide⟩, fun a r ha => ?_⟩
      simp [qColon, h2, Outcome.resume]
    · refine ⟨.token ⟨.COLON, ts, none⟩ (c :: x) cur ts, good_here _ _ _ _ (by simp),
        fun a r ha => ?_⟩
      simp [qColon, h2, Outcome.resume]

theorem qDot_outcome (x : List Char) (cur ts : Position) :
    ∃ out : Outcome, out.Good x ∧
      ∀ a r, isNeutral a = true → qDot (x ++ a :: r) cur ts = out.resume (a :: r) := by
  cases x with
  | nil =>
    refine ⟨.token ⟨.DOT, ts, none⟩ [] cur ts, good_here _ _ _ _ (by simp),
      fun a r ha => ?_⟩
    have hn := neutral_facts ha
    simp [qDot, Outcome.resume, hn.2.2.2.1]
  | cons c x =>
    by_cases h2 : c = '.'
    · refine ⟨.token ⟨.DOUBLE_DOT, ts, none⟩ x cur.advance ts,
        ⟨by simp, [c], rfl, by subst h2; decide⟩, fun a r ha => ?_⟩
      simp [qDot, h2, Outcome.resume]
    · refine ⟨.token ⟨.DOT, ts, none⟩ (c :: x) cur ts, good_here _ _ _ _ (by simp),
        fun a r ha => ?_⟩
      simp [qDot, h2, Outcome.resume]

theorem startKind_comment {c : Char} : startKind c = .comment → c = '{' := by
  unfold startKind
  by_cases h0 : isspace c = true
  · rw [if_pos h0]; intro h; cases h
  rw [if_neg h0]
  by_cases h1 : c = '{'
  · rw [if_pos h1]; intro _; exact h1
  rw [if_neg h1]
  by_cases h2 : c = '+'
  · rw [if_pos h2]; intro h; cases h
  rw [if_neg h2]
  by_cases h3 : c = '-'
  · rw [if_pos h3]; intro h; cases h
  rw [if_neg h3]
  by_cases h4 : c = '*'
  · rw [if_pos h4]; intro h; cases h
  rw [if_neg h4]
  by_cases h5 : c = '/'
  · rw [if_pos h5]; intro h; cases h
  rw [if_neg h5]
  by_cases h6 : c = '='
  · rw [if_pos h6]; intro h; cases h
  rw [if_neg h6]
  by_cases h7 : c = '<'
  · rw [if_pos h7]; intro h; cases h
  rw [if_neg h7]
  by_cases h8 : c = '>'
  · rw [if_pos h8]; intro h; cases h
  rw [if_neg h8]
  by_cases h9 : c = ':'
  · rw [if_pos h9]; intro h; cases h
  rw [if_neg h9]
  by_cases h10 : c = ';'
  · rw [if_pos h10]; intro h; cases h
  rw [if_neg h10]
  by_cases h11 : c = ','
  · rw [if_pos h11]; intro h; cases h
  rw [if_neg h11]
  by_cases h12 : c = '.'
  · rw [if_pos h12]; intro h; cases h
  rw [if_neg h12]
  by_cases h13 : c = '('
  · rw [if_pos h13]; intro h; cases h
  rw [if_neg h13]
  by_cases h14 : c = ')'
  · rw [if_pos h14]; intro h; cases h
  rw [if_neg h14]
  by_cases h15 : c = '['
  · rw [if_pos h15]; intro h; cases h
  rw [if_neg h15]
  by_cases h16 : c = ']'
  · rw [if_pos h16]; intro h; cases h
  rw [if_neg h16]
  by_cases h17 : c = '&'
  · rw [if_pos h17]; intro h; cases h
  rw [if_neg h17]
  by_cases h18 : c = '$'
  · rw [if_pos h18]; intro h; cases h
  rw [if_neg h18]
  by_cases h19 : (isalpha c || decide (c = '_')) = true
  · rw [if_pos h19]; intro h; cases h
  rw [if_neg h19]
  by_cases h20 : isdigit c = true
  · rw [if_pos h20]; intro h; cases h
  rw [if_neg h20]
  intro h; cases h

theorem startKind_single {c : Char} {t : TokenType} : startKind c = .single t → t ≠ .EOI := by
  unfold startKind
  by_cases h0 : isspace c = true
  · rw [if_pos h0]; intro h; cases h
  rw [if_neg h0]
  by_cases h1 : c = '{'
  · rw [if_pos h1]; intro h; cases h
  rw [if_neg h1]
  by_cases h2 : c = '+'
  · rw [if_pos h2]; intro h; cases h; decide
  rw [if_neg h2]
  by_cases h3 : c = '-'
  · rw [if_pos h3]; intro h; cases h; decide
  rw [if_neg h3]
  by_cases h4 : c = '*'
  · rw [if_pos h4]; intro h; cases h; decide
  rw [if_neg h4]
  by_cases h5 : c = '/'
  · rw [if_pos h5]; intro h; cases h; decide
  rw [if_neg h5]
  by_cases h6 : c = '='
  · rw [if_pos h6]; intro h; cases h; decide
  rw [if_neg h6]
  by_cases h7 : c = '<'
  · rw [if_pos h7]; intro h; cases h
  rw [if_neg h7]
  by_cases h8 : c = '>'
  · rw [if_pos h8]; intro h; cases h
  rw [if_neg h8]
  by_cases h9 : c = ':'
  · rw [if_pos h9]; intro h; cases h
  rw [if_neg h9]
  by_cases h10 : c = ';'
  · rw [if_pos h10]; intro h; cases h; decide
  rw [if_neg h10]
  by_cases h11 : c = ','
  · rw [if_pos h11]; intro h; cases h; decide
  rw [if_neg h11]
  by_cases h12 : c = '.'
  · rw [if_pos h12]; intro h; cases h
  rw [if_neg h12]
  by_cases h13 : c = '('
  · rw [if_pos h13]; intro h; cases h; decide
  rw [if_neg h13]
  by_cases h14 : c = ')'
  · rw [if_pos h14]; intro h; cases h; decide
  rw [if_neg h14]
  by_cases h15 : c = '['
  · rw [if_pos h15]; intro h; cases h; decide
  rw [if_neg h15]
  by_cases h16 : c = ']'
  · rw [if_pos h16]; intro h; cases h; decide
  rw [if_neg h16]
  by_cases h17 : c = '&'
  · rw [if_pos h17]; intro h; cases h
  rw [if_neg h17]
  by_cases h18 : c = '$'
  · rw [if_pos h18]; intro h; cases h
  rw [if_neg h18]
  by_cases h19 : (isalpha c || decide (c = '_')) = true
  · rw [if_pos h19]; intro h; cases h
  rw [if_neg h19]
  by_cases h20 : isdigit c = true
  · rw [if_pos h20]; intro h; cases h
  rw [if_neg h20]
  intro h; cases h

theorem startKind_brace : startKind '{' = .comment := rfl

theorem closed_append (p x1 : List Char) (hp : ∀ c ∈ p, c ≠ '{') :
    commentClosed false (p ++ x1) = commentClosed false x1 := by
  induction p with
  | nil => rfl
  | cons c p ih =>
    have hc : c ≠ '{' := hp c (by simp)
    rw [List.cons_append, commentClosed]
    simp only [hc, decide_False]
    exact ih (fun d hd => hp d (by simp [hd]))

theorem closed_cons {c : Char} {x : List Char} (hc : c ≠ '{')
    (h : commentClosed false (c :: x) = true) : commentClosed false x = true := by
  rw [commentClosed] at h
  simpa [hc] using h

theorem goodStart_of_good {c : Char} {x : List Char} {o : Outcome} (hc : c ≠ '{')
    (hx : commentClosed false (c :: x) = true) (h : o.Good x) : o.GoodStart (c :: x) := by
  cases o with
  | failed e => trivial
  | reached _ _ => exact h.elim
  | token tok x1 cur ts =>
    obtain ⟨h1, p, hp, hb⟩ := h
    refine ⟨h1, ?_, ?_⟩
    · have := closed_cons hc hx
      rw [hp, closed_append p x1 hb] at this
      exact this
    · rw [hp]
      simp only [List.length_cons, List.length_append]
      omega

theorem goodStart_cons {c : Char} {x : List Char} {o : Outcome} (h : o.GoodStart x) :
    o.GoodStart (c :: x) := by
  cases o with
  | failed e => trivial
  | reached _ _ => trivial
  | token tok x1 cur ts =>
    obtain ⟨h1, h2, h3⟩ := h
    exact ⟨h1, h2, by simp only [List.length_cons]; omega⟩

theorem qStart_qComment_outcome (x : List Char) :
    (commentClosed false x = true → ∀ cur ts : Position, ∃ out : Outcome, out.GoodStart x ∧
      ∀ a r, isNeutral a = true → qStart (x ++ a :: r) cur ts = out.resume (a :: r)) ∧
    (commentClosed true x = true → ∀ cur ts : Position, ∃ out : Outcome, out.GoodStart x ∧
      ∀ a r, isNeutral a = true → qComment (x ++ a :: r) cur ts = out.resume (a :: r)) := by
  induction x with
  | nil =>
    refine ⟨fun _ cur ts => ⟨.reached cur ts, trivial, fun a r _ => rfl⟩, fun h => ?_⟩
    simp [commentClosed] at h
  | cons c x ih =>
    refine ⟨fun hx cur ts => ?_, fun hx cur ts => ?_⟩
    · have hnb : ∀ k : StartKind, k ≠ .comment → startKind c = k → c ≠ '{' := by
        intro k hk hc h
        subst h
        rw [startKind_brace] at hc
        exact hk hc.symm
      have lift : ∀ (g : List Char → Scan), startKind c ≠ .comment →
          (∃ out : Outcome, out.Good x ∧
            ∀ a r, isNeutral a = true → g (x ++ a :: r) = out.resume (a :: r)) →
          ∃ out : Outcome, out.GoodStart (c :: x) ∧
            ∀ a r, isNeutral a = true → g (x ++ a :: r) = out.resume (a :: r) := by
        intro g hk ⟨out, hg, ho⟩
        exact ⟨out, goodStart_of_good (hnb _ hk rfl) hx hg, ho⟩
      simp only [List.cons_append, qStart_kind]
      cases hk : startKind c with
      | space =>
        obtain ⟨out, hg, ho⟩ := ih.1 (closed_cons (hnb _ (by simp) hk) hx)
          (if c = newline then cur.nextLine else cur.advance) ts
        exact ⟨out, goodStart_cons hg, ho⟩
      | comment =>
        have hc := startKind_comment hk
        subst hc
        obtain ⟨out, hg, ho⟩ := ih.2 (by simpa [commentClosed] using hx) cur ts
        exact ⟨out, goodStart_cons hg, ho⟩
      | single t =>
        refine ⟨.token ⟨t, cur, none⟩ x cur.advance cur,
          ⟨startKind_single hk, closed_cons (hnb _ (by simp) hk) hx, by simp⟩,
          fun a r _ => rfl⟩
      | less =>
        exact lift (fun is => qLess is cur.advance cur) (by simp [hk]) (qLess_outcome x cur.advance cur)
      | greater =>
        exact lift (fun is => qGreater is cur.advance cur) (by simp [hk])
          (qGreater_outcome x cur.advance cur)
      | colon =>
        exact lift (fun is => qColon is cur.advance cur) (by simp [hk])
          (qColon_outcome x cur.advance cur)
      | dot =>
        exact lift (fun is => qDot is cur.advance cur) (by simp [hk]) (qDot_outcome x cur.advance cur)
      | int8 =>
        exact lift (fun is => qInt8 is cur.advance cur 0) (by simp [hk])
          (qInt8_outcome x cur.advance cur 0)
      | int16 =>
        exact lift (fun is => qInt16 is cur.advance cur 0) (by simp [hk])
          (qInt16_outcome x cur.advance cur 0)
      | identifier =>
        exact lift (fun is => qIdentifier is cur.advance cur (String.mk [c])) (by simp [hk])
          (qIdentifier_outcome x cur.advance cur (String.mk [c]))
      | int10 =>
        exact lift (fun is => qInt10 is cur.advance cur (wrapInt ((c.toNat : Int) - 48)))
          (by simp [hk]) (qInt10_outcome x cur.advance cur (wrapInt ((c.toNat : Int) - 48)))
      | bad =>
        exact ⟨.failed (.lexer "Unable to lex next token." cur), trivial, fun a r _ => rfl⟩
    · simp only [List.cons_append]
      by_cases hc : c = '}'
      · obtain ⟨out, hg, ho⟩ := ih.1 (by simpa [commentClosed, hc] using hx) cur ts
        refine ⟨out, goodStart_cons hg, fun a r ha => ?_⟩
        rw [qComment, if_pos hc]
        exact ho a r ha
      · obtain ⟨out, hg, ho⟩ := ih.2 (by simpa [commentClosed, hc] using hx) cur ts
        refine ⟨out, goodStart_cons hg, fun a r ha => ?_⟩
        rw [qComment, if_neg hc]
        exact ho a r ha

theorem qComment_skip (c y : List Char) (hc : '}' ∉ c) (cur ts : Position) :
    qComment (c ++ '}' :: y) cur ts = qStart y cur ts := by
  induction c with
  | nil => simp [qComment]
  | cons d c ih =>
    have hd : d ≠ '}' := fun h => hc (by simp [h])
    rw [List.cons_append, qComment, if_neg hd]
    exact ih (fun h => hc (by simp [h]))

theorem qComment_unterminated (c : List Char) (hc : '}' ∉ c) (cur ts : Position) :
    qComment c cur ts = .error (.lexer "Unexpected end of file in a comment." cur) := by
  induction c with
  | nil => rfl
  | cons d c ih =>
    have hd : d ≠ '}' := fun h => hc (by simp [h])
    rw [qComment, if_neg hd]
    exact ih (fun h => hc (by simp [h]))

theorem firstTokens_congr (n : Nat) (s s' : Cursor)
    (h : readNextToken s = readNextToken s') :
    firstTokens (n + 1) s = firstTokens (n + 1) s' := by
  simp only [firstTokens, h]

theorem comments_simulation (c y : List Char) (hc : '}' ∉ c) :
    ∀ (n : Nat) (x : List Char) (cur ts : Position), commentClosed false x = true →
      firstTokens n ⟨x ++ '{' :: (c ++ '}' :: y), cur, ts⟩ =
        firstTokens n ⟨x ++ ' ' :: y, cur, ts⟩ := by
  intro n
  induction n with
  | zero => intro x cur ts _; rfl
  | succ n ih =>
    intro x cur ts hx
    obtain ⟨out, hg, ho⟩ := (qStart_qComment_outcome x).1 hx cur ts
    have hA := ho '{' (c ++ '}' :: y) (by decide)
    have hB := ho ' ' y (by decide)
    cases out with
    | failed e =>
      simp only [firstTokens, readNextToken, hA, hB, Outcome.resume]
    | token tok x1 cur1 ts1 =>
      simp only [firstTokens, readNextToken, hA, hB, Outcome.resume]
      rw [ih x1 cur1 ts1 hg.2.1]
    | reached cur1 ts1 =>
      have hA' : readNextToken ⟨x ++ '{' :: (c ++ '}' :: y), cur, ts⟩ =
          readNextToken ⟨y, cur1, ts1⟩ := by
        simp only [readNextToken, hA, Outcome.resume]
        rw [qStart_kind, startKind_brace]
        exact qComment_skip c y hc cur1 ts1
      have hB' : readNextToken ⟨x ++ ' ' :: y, cur, ts⟩ =
          readNextToken ⟨y, cur1.advance, ts1⟩ := by
        simp only [readNextToken, hB, Outcome.resume]
        rw [qStart_kind]
        rfl
      rw [firstTokens_congr n _ _ hA', firstTokens_congr n _ _ hB']
      exact firstTokens_content (n + 1) y _ _ _ _

theorem comments_unterminated (c : List Char) (hc : '}' ∉ c) :
    ∀ (m : Nat) (x : List Char) (cur ts : Position), x.length < m →
      commentClosed false x = true →
      ∃ n toks message, firstTokens n ⟨x ++ '{' :: c, cur, ts⟩ = (toks, .failed message) := by
  intro m
  induction m with
  | zero => intro x cur ts h; omega
  | succ m ih =>
    intro x cur ts hlen hx
    obtain ⟨out, hg, ho⟩ := (qStart_qComment_outcome x).1 hx cur ts
    have hA := ho '{' c (by decide)
    cases out with
    | failed e =>
      cases e with
      | lexer msg pos =>
        exact ⟨1, [], msg, by simp only [firstTokens, readNextToken, hA, Outcome.resume]⟩
      | parser rule actual expected =>
        exact ⟨1, [], "", by simp only [firstTokens, readNextToken, hA, Outcome.resume]⟩
      | outOfFuel =>
        exact ⟨1, [], "", by simp only [firstTokens, readNextToken, hA, Outcome.resume]⟩
    | token tok x1 cur1 ts1 =>
      obtain ⟨n, toks, msg, hn⟩ := ih x1 cur1 ts1 (by have := hg.2.2; omega) hg.2.1
      refine ⟨n + 1, (tok.type, tok.value) :: toks, msg, ?_⟩
      simp only [firstTokens, readNextToken, hA, Outcome.resume, if_neg hg.1, hn]
    | reached cur1 ts1 =>
      refine ⟨1, [], "Unexpected end of file in a comment.", ?_⟩
      have : qStart ('{' :: c) cur1 ts1 =
          .error (.lexer "Unexpected end of file in a comment." cur1) := by
        rw [qStart_kind, startKind_brace]
        exact qComment_unterminated c hc cur1 ts1
      simp only [firstTokens, readNextToken, hA, Outcome.resume, this]

/-- C10. When the text `x` in front of it ends outside every comment, a block `{c}` whose
body `c` holds no `}` produces no token: the lexer delivers from `x{c}y` the same kinds and
payloads of tokens as from `x y`, and ends in the same way (end of input, or an error with
the same message). When no `}` follows the `{`, reading the tokens ends with a lexer
error. -/
theorem C10_comments (x c y : List Char) (hc : '}' ∉ c)
    (hx : commentClosed false x = true) :
    (∀ n, lexTokens n (x ++ '{' :: (c ++ '}' :: y)) = lexTokens n (x ++ ' ' :: y)) ∧
      ∃ n toks message, lexTokens n (x ++ '{' :: c) = (toks, .failed message) :=
  ⟨fun n => comments_simulation c y hc n x _ _ hx,
    comments_unterminated c hc (x.length + 1) x _ _ (Nat.lt_succ_self _) hx⟩

/-- Witness of C10: the text of the test `HandlesComments`. -/
theorem C10_comments_witness :
    lexTokens 4 ("my_var ".toList ++ '{' :: (" this is a comment ".toList ++ '}' :: "=123".toList)) =
        lexTokens 4 ("my_var ".toList ++ ' ' :: "=123".toList) ∧
      lexTokens 4 ("my_var ".toList ++ ' ' :: "=123".toList) =
        ([(.IDENTIFIER, some (.str "my_var")), (.EQUAL, none),
          (.INTEGER_LITERAL, some (.int 123))], .eoi) :=
  ⟨(C10_comments "my_var ".toList " this is a comment ".toList "=123".toList (by decide)
      (by decide)).1 4, by decide⟩


/-! ## The lookahead of the lexer -/

/-- C11. `match` and `peek`: when the lookahead token has the requested type and the next
token of the input is `tok` (read by `readNextToken`, leaving the cursor `s`), `match`
returns exactly the token that `peek` returned, and afterwards `peek` is `tok` and the unread
input is that of `s`; a lexical error in the next token is raised by `match`; when the
lookahead token has another type, `match` returns nothing and the lexer (lookahead token and
unread input) is unchanged. -/
theorem C11_match_and_peek (l : Lexer) (t : TokenType) :
    (l.peek.type = t → ∀ tok s, readNextToken l.cursor = .ok (tok, s) →
      ∃ l1, l.matchToken t = .ok (some l.peek, l1) ∧ l1.peek = tok ∧ l1.cursor = s) ∧
    (l.peek.type = t → ∀ e, readNextToken l.cursor = .error e → l.matchToken t = .error e) ∧
    (l.peek.type ≠ t → l.matchToken t = .ok (none, l)) := by
  refine ⟨fun h tok s hr => ⟨⟨s, tok⟩, ?_, rfl, rfl⟩, fun h e hr => ?_, fun h => ?_⟩
  · rw [Lexer.matchToken, if_pos h, hr]; rfl
  · rw [Lexer.matchToken, if_pos h, hr]
  · rw [Lexer.matchToken, if_neg h]

/-- Witness of C11 on the text `a b`: `match(IDENTIFIER)` returns the token `a` and leaves
`b` as lookahead; `match(SEMICOLON)` returns nothing and changes nothing. -/
theorem C11_match_and_peek_witness :
    (∃ l1, (Lexer.ofString "a b").matchToken .IDENTIFIER =
        .ok (some (Lexer.ofString "a b").peek, l1) ∧
      l1.peek = ⟨.IDENTIFIER, ⟨1, 3⟩, some (.str "b")⟩ ∧
      l1.cursor = ⟨[], ⟨1, 4⟩, ⟨1, 3⟩⟩) ∧
    (Lexer.ofString "a b").matchToken .SEMICOLON = .ok (none, Lexer.ofString "a b") :=
  ⟨(C11_match_and_peek (Lexer.ofString "a b") .IDENTIFIER).1 (by decide) _ _ (by decide),
   (C11_match_and_peek (Lexer.ofString "a b") .SEMICOLON).2.2 (by decide)⟩

/-! ## Real literals -/

theorem wrapInt_pow10 {i : Nat} (h : i ≤ 9) : wrapInt ((10 : Int) ^ i) = 10 ^ i := by
  interval_cases i <;> decide

theorem qDouble_run (fr rest : List Char) (hfr : ∀ c ∈ fr, isdigit c = true)
    (hrest : ∀ c ∈ rest.head?, isdigit c = false) (ts : Position) :
    ∀ (i : Nat) (cur : Position) (buf : ℚ) (dv : Int),
      (fr ≠ [] → dv = 10 ^ i ∧ i + fr.length ≤ 10) →
      qDouble (fr ++ rest) cur ts buf dv =
        .ok (⟨.REAL_LITERAL, ts, some (.real (buf + fractionFrom i fr))⟩,
          ⟨rest, cur.advanceBy fr.length, ts⟩) := by
  induction fr with
  | nil =>
    intro i cur buf dv _
    cases rest with
    | nil => simp [qDouble, Position.advanceBy, fractionFrom]
    | cons r rs =>
      have := hrest r (by simp)
      simp [qDouble, this, Position.advanceBy, fractionFrom]
  | cons d ds ih =>
    intro i cur buf dv h
    have hd : isdigit d = true := hfr d (by simp)
    obtain ⟨hdv, hlen⟩ := h (by simp)
    have hstep := ih (fun c hc => hfr c (by simp [hc])) (i + 1) cur.advance
      (buf + ((d.toNat : ℚ) - 48) / (dv : ℚ)) (wrapInt (dv * 10)) (fun hne => by
        have : 1 ≤ ds.length := List.length_pos.2 hne
        simp only [List.length_cons] at hlen
        refine ⟨?_, by omega⟩
        rw [hdv, ← pow_succ, wrapInt_pow10 (by omega)])
    have hunf : qDouble (d :: ds ++ rest) cur ts buf dv =
        qDouble (ds ++ rest) cur.advance ts (buf + ((d.toNat : ℚ) - 48) / (dv : ℚ))
          (wrapInt (dv * 10)) := by
      simp only [List.cons_append, qDouble, hd, if_true]
      rfl
    rw [hunf, hstep]
    simp only [fractionFrom, digitValue_of_isdigit hd, hdv, Position.advanceBy,
      List.length_cons, Function.iterate_succ_apply]
    push_cast
    rw [add_assoc]

/-- The value of a real literal with at most nine fractional digits: the integer part
`ip`, a dot and the fraction `fr`, not followed by a further digit, are read as the
`REAL_LITERAL` whose payload is the value of `ip` plus `d1/10 + ... + dk/10^k`. -/
theorem readNextToken_real (ip fr rest : List Char) (cur ts : Position) (hip : ip ≠ [])
    (hips : ∀ c ∈ ip, isdigit c = true) (hval : positionalValue 10 ip < 2147483648)
    (hfr : fr ≠ []) (hfrs : ∀ c ∈ fr, isdigit c = true) (hlen : fr.length ≤ 9)
    (hrest : ∀ c ∈ rest.head?, isdigit c = false) :
    readNextToken ⟨ip ++ '.' :: (fr ++ rest), cur, ts⟩ =
      .ok (⟨.REAL_LITERAL, cur, some (.real ((positionalValue 10 ip : ℚ) + fractionValue fr))⟩,
        ⟨rest, cur.advanceBy (ip.length + 1 + fr.length), cur⟩) := by
  have hint := readNextToken_decimal ip [' '] cur ts hip hips hval (by simp; decide)
  cases ip with
  | nil => exact absurd rfl hip
  | cons d0 ds =>
    have hd0 : isdigit d0 = true := hips d0 (by simp)
    have hds : ∀ c ∈ ds, isdigit c = true := fun c hc => hips c (by simp [hc])
    simp only [readNextToken, List.cons_append] at hint ⊢
    rw [qStart_digit hd0, qInt10_digits ds _ hds] at hint ⊢
    have hsp : ∀ (p : Position) (b : Int), qInt10 [' '] p cur b =
        .ok (⟨.INTEGER_LITERAL, cur, some (.int b)⟩, ⟨[' '], p, cur⟩) := fun _ _ => rfl
    have hbuf : ds.foldl (fun b c => wrapInt (wrapInt (wrapInt (b * 10) + c.toNat) - 48))
        (wrapInt ((d0.toNat : Int) - 48)) = positionalValue 10 (d0 :: ds) := by
      rw [hsp] at hint
      injection hint with hint
      injection hint with hint _
      injection hint with _ _ hint
      injection hint with hint
      injection hint
    rw [hbuf]
    cases fr with
    | nil => exact absurd rfl hfr
    | cons f0 fs =>
      have hf0 : isdigit f0 = true := hfrs f0 (by simp)
      simp only [qInt10, List.cons_append, hf0, if_true]
      have hdot : isdigit '.' = false := by decide
      simp only [hdot, Bool.false_eq_true, if_false]
      have := qDouble_run (f0 :: fs) rest hfrs hrest cur 1
        ((cur.advance.advanceBy ds.length).advance) (positionalValue 10 (d0 :: ds) : ℚ) 10
        (fun _ => ⟨by norm_num, by simp at hlen ⊢; omega⟩)
      simp only [List.cons_append] at this
      rw [this]
      simp [fractionValue, Position.advanceBy, ← Function.iterate_succ_apply',
        Function.iterate_succ_apply, ← Function.iterate_add_apply]
      rw [show ds.length + 1 + 1 + (fs.length + 1) = fs.length + ds.length + 3 by omega,
        Function.iterate_add_apply Position.advance (fs.length + ds.length) 3 cur]
      rfl

/-- C12, at a literal with ten fractional digits. `dividerBuffer` is an `int`: after the
ninth digit its product with 10 no longer fits (with two's complement wrapping, `10^10`
becomes 1410065408), so the tenth digit of `0.0000000001` is divided by 1410065408 and the
payload is `1/1410065408`, where the digits denote `1/10^10`. -/
theorem C12_real_literal_long_fraction :
    readNextToken ⟨"0.0000000001".toList, Position.start, Position.start⟩ =
      .ok (⟨.REAL_LITERAL, ⟨1, 1⟩, some (.real (1 / 1410065408))⟩, ⟨[], ⟨1, 13⟩, ⟨1, 1⟩⟩) ∧
    (positionalValue 10 "0".toList : ℚ) + fractionValue "0000000001".toList =
      1 / 10000000000 := by
  constructor
  · decide!
  · decide!

/-! ## Compound statements -/

theorem compoundR_returns {l l' : Lexer} {stmts : List Stmt}
    (hchain : StatementChain l stmts l') (hend : l'.peek.type = .END) :
    ∀ acc, ∃ n0, ∀ n, n0 ≤ n → parseCompoundStatementR n acc l = .ok (acc ++ stmts, l') := by
  induction hchain with
  | nil l =>
    intro acc
    refine ⟨1, fun n hn => ?_⟩
    obtain ⟨k, rfl⟩ : ∃ k, n = k + 1 := ⟨n - 1, by omega⟩
    simp [parseCompoundStatementR, hend, pure, Except.pure]
  | @cons l l1 l2 l' s rest hsemi hc hs _ ih =>
    intro acc
    obtain ⟨n1, h1⟩ := hs
    obtain ⟨n2, h2⟩ := ih hend (acc ++ [s])
    refine ⟨n1 + n2 + 1, fun n hn => ?_⟩
    obtain ⟨k, rfl⟩ : ∃ k, n = k + 1 := ⟨n - 1, by omega⟩
    simp [parseCompoundStatementR, hsemi, matchType_hit hsemi hc, h1 k (by omega),
      h2 k (by omega), bind, Except.bind]

theorem statement_empty {l : Lexer}
    (h : l.peek.type = .SEMICOLON ∨ l.peek.type = .END) :
    Returns parseStatement l .EmptyStmt l := by
  refine ⟨1, fun n hn => ?_⟩
  obtain ⟨k, rfl⟩ : ∃ k, n = k + 1 := ⟨n - 1, by omega⟩
  rcases h with h | h <;>
    simp [parseStatement, parseSimpleStatement, parseEmptyStatement, h, pure, Except.pure]

/-- C13. Statement order: on `begin s1 ; s2 ; ... ; sn end`, where `s1` and the members of
`rest` are what `parseStatement` returns for the statements between the separators,
`parseCompoundStatement` returns the compound node whose children are exactly
`s1, s2, ..., sn` in source order; at a position that holds no statement (the next token is
`;` or `end`) `parseStatement` returns the empty statement and consumes nothing. -/
theorem C13_statement_order (l0 l1 l2 l3 l4 : Lexer) (s1 : Stmt) (rest : List Stmt)
    (hbegin : l0.peek.type = .BEGIN) (h0 : Consumes l0 l1)
    (hs1 : Returns parseStatement l1 s1 l2) (hrest : StatementChain l2 rest l3)
    (hend : l3.peek.type = .END) (h3 : Consumes l3 l4) :
    Returns parseCompoundStatement l0 (.CompoundStmt (s1 :: rest)) l4 ∧
    ∀ l : Lexer, l.peek.type = .SEMICOLON ∨ l.peek.type = .END →
      Returns parseStatement l .EmptyStmt l := by
  refine ⟨?_, fun l h => statement_empty h⟩
  obtain ⟨n1, h1⟩ := hs1
  obtain ⟨n2, h2⟩ := compoundR_returns hrest hend [s1]
  refine ⟨n1 + n2 + 1, fun n hn => ?_⟩
  obtain ⟨k, rfl⟩ : ∃ k, n = k + 1 := ⟨n - 1, by omega⟩
  simp [parseCompoundStatement, hbegin, matchType_hit hbegin h0, h1 k (by omega),
    h2 k (by omega), matchType_hit hend h3, bind, Except.bind, pure, Except.pure]

/-- Witness of C13: `begin x := 1; ; y := 2 end` has the three children `x := 1`, the empty
statement and `y := 2`. -/
theorem C13_statement_order_witness :
    Returns parseCompoundStatement (Lexer.ofString "begin x := 1; ; y := 2 end")
      (.CompoundStmt [.Assign (.DeclVarRef "x") (.Literal (.int 1)), .EmptyStmt,
        .Assign (.DeclVarRef "y") (.Literal (.int 2))])
      (Lexer.skip 10 (Lexer.ofString "begin x := 1; ; y := 2 end")) :=
  (C13_statement_order (Lexer.ofString "begin x := 1; ; y := 2 end")
    (Lexer.skip 1 (Lexer.ofString "begin x := 1; ; y := 2 end"))
    (Lexer.skip 4 (Lexer.ofString "begin x := 1; ; y := 2 end"))
    (Lexer.skip 9 (Lexer.ofString "begin x := 1; ; y := 2 end"))
    (Lexer.skip 10 (Lexer.ofString "begin x := 1; ; y := 2 end"))
    (.Assign (.DeclVarRef "x") (.Literal (.int 1)))
    [.EmptyStmt, .Assign (.DeclVarRef "y") (.Literal (.int 2))]
    (by decide) rfl (Returns.of_add 11 fun _ => rfl)
    (@StatementChain.cons (Lexer.skip 4 (Lexer.ofString "begin x := 1; ; y := 2 end"))
      (Lexer.skip 5 (Lexer.ofString "begin x := 1; ; y := 2 end"))
      (Lexer.skip 5 (Lexer.ofString "begin x := 1; ; y := 2 end")) _ _ _
      (by decide) rfl (Returns.of_add 3 fun _ => rfl)
      (@StatementChain.cons (Lexer.skip 5 (Lexer.ofString "begin x := 1; ; y := 2 end"))
        (Lexer.skip 6 (Lexer.ofString "begin x := 1; ; y := 2 end"))
        (Lexer.skip 9 (Lexer.ofString "begin x := 1; ; y := 2 end")) _ _ _
        (by decide) rfl (Returns.of_add 11 fun _ => rfl) (StatementChain.nil _)))
    (by decide) rfl).1

/-! ## How the steps of the generator change the state -/

@[simp] theorem emit_functions (g : GenContext) (opcode : Opcode) (operands : List Value) (type : LType) (name : String) :
    (g.emit opcode operands type name).functions =
      g.functions := rfl

@[simp] theorem emit_globals (g : GenContext) (opcode : Opcode) (operands : List Value) (type : LType) (name : String) :
    (g.emit opcode operands type name).globals =
      g.globals := rfl

@[simp] theorem emit_lastUnique (g : GenContext) (opcode : Opcode) (operands : List Value) (type : LType) (name : String) :
    (g.emit opcode operands type name).lastUnique =
      g.lastUnique := rfl

@[simp] theorem emit_blocks (g : GenContext) (opcode : Opcode) (operands : List Value) (type : LType) (name : String) :
    (g.emit opcode operands type name).blocks =
      g.blocks := rfl

@[simp] theorem emit_code (g : GenContext) (opcode : Opcode) (operands : List Value) (type : LType) (name : String) :
    (g.emit opcode operands type name).code =
      g.code ++ [(g.insertBlock, ⟨g.code.length, opcode, operands, type, name⟩)] := rfl

@[simp] theorem emit_insertBlock (g : GenContext) (opcode : Opcode) (operands : List Value) (type : LType) (name : String) :
    (g.emit opcode operands type name).insertBlock =
      g.insertBlock := rfl

@[simp] theorem emit_symbolTable (g : GenContext) (opcode : Opcode) (operands : List Value) (type : LType) (name : String) :
    (g.emit opcode operands type name).symbolTable =
      g.symbolTable := rfl

@[simp] theorem addBlock_functions (g : GenContext) (name : String) (func : Option Nat) :
    (g.addBlock name func).functions =
      g.functions := rfl

@[simp] theorem addBlock_globals (g : GenContext) (name : String) (func : Option Nat) :
    (g.addBlock name func).globals =
      g.globals := rfl

@[simp] theorem addBlock_lastUnique (g : GenContext) (name : String) (func : Option Nat) :
    (g.addBlock name func).lastUnique =
      g.lastUnique := rfl

@[simp] theorem addBlock_blocks (g : GenContext) (name : String) (func : Option Nat) :
    (g.addBlock name func).blocks =
      g.blocks ++ [⟨name, func⟩] := rfl

@[simp] theorem addBlock_code (g : GenContext) (name : String) (func : Option Nat) :
    (g.addBlock name func).code =
      g.code := rfl

@[simp] theorem addBlock_insertBlock (g : GenContext) (name : String) (func : Option Nat) :
    (g.addBlock name func).insertBlock =
      g.insertBlock := rfl

@[simp] theorem addBlock_symbolTable (g : GenContext) (name : String) (func : Option Nat) :
    (g.addBlock name func).symbolTable =
      g.symbolTable := rfl

@[simp] theorem setInsertBlock_functions (g : GenContext) (block : Nat) :
    (g.setInsertBlock block).functions =
      g.functions := rfl

@[simp] theorem setInsertBlock_globals (g : GenContext) (block : Nat) :
    (g.setInsertBlock block).globals =
      g.globals := rfl

@[simp] theorem setInsertBlock_lastUnique (g : GenContext) (block : Nat) :
    (g.setInsertBlock block).lastUnique =
      g.lastUnique := rfl

@[simp] theorem setInsertBlock_blocks (g : GenContext) (block : Nat) :
    (g.setInsertBlock block).blocks =
      g.blocks := rfl

@[simp] theorem setInsertBlock_code (g : GenContext) (block : Nat) :
    (g.setInsertBlock block).code =
      g.code := rfl

@[simp] theorem setInsertBlock_insertBlock (g : GenContext) (block : Nat) :
    (g.setInsertBlock block).insertBlock =
      some block := rfl

@[simp] theorem setInsertBlock_symbolTable (g : GenContext) (block : Nat) :
    (g.setInsertBlock block).symbolTable =
      g.symbolTable := rfl

@[simp] theorem setSymbolTable_functions (g : GenContext) (table : SymbolTable) :
    (g.setSymbolTable table).functions =
      g.functions := rfl

@[simp] theorem setSymbolTable_globals (g : GenContext) (table : SymbolTable) :
    (g.setSymbolTable table).globals =
      g.globals := rfl

@[simp] theorem setSymbolTable_lastUnique (g : GenContext) (table : SymbolTable) :
    (g.setSymbolTable table).lastUnique =
      g.lastUnique := rfl

@[simp] theorem setSymbolTable_blocks (g : GenContext) (table : SymbolTable) :
    (g.setSymbolTable table).blocks =
      g.blocks := rfl

@[simp] theorem setSymbolTable_code (g : GenContext) (table : SymbolTable) :
    (g.setSymbolTable table).code =
      g.code := rfl

@[simp] theorem setSymbolTable_insertBlock (g : GenContext) (table : SymbolTable) :
    (g.setSymbolTable table).insertBlock =
      g.insertBlock := rfl

@[simp] theorem setSymbolTable_symbolTable (g : GenContext) (table : SymbolTable) :
    (g.setSymbolTable table).symbolTable =
      table := rfl

@[simp] theorem addString_functions (g : GenContext) (text : String) :
    (g.addString text).functions =
      g.functions := rfl

@[simp] theorem addString_globals (g : GenContext) (text : String) :
    (g.addString text).globals =
      g.globals ++ [⟨"", .array (.integer 8) (text.utf8ByteSize + 1), .text text⟩] := rfl

@[simp] theorem addString_lastUnique (g : GenContext) (text : String) :
    (g.addString text).lastUnique =
      g.lastUnique := rfl

@[simp] theorem addString_blocks (g : GenContext) (text : String) :
    (g.addString text).blocks =
      g.blocks := rfl

@[simp] theorem addString_code (g : GenContext) (text : String) :
    (g.addString text).code =
      g.code := rfl

@[simp] theorem addString_insertBlock (g : GenContext) (text : String) :
    (g.addString text).insertBlock =
      g.insertBlock := rfl

@[simp] theorem addString_symbolTable (g : GenContext) (text : String) :
    (g.addString text).symbolTable =
      g.symbolTable := rfl

@[simp] theorem addFunction_functions (g : GenContext) (returnType : LType) (paramTypes : List LType) (isVarArg : Bool) (name : String) :
    (g.addFunction returnType paramTypes isVarArg name).functions =
      g.functions ++
        [⟨(createValueName g.namedValues "." name g.lastUnique).1, returnType, paramTypes, isVarArg,
          paramTypes.map fun _ => ""⟩] := rfl

@[simp] theorem addFunction_globals (g : GenContext) (returnType : LType) (paramTypes : List LType) (isVarArg : Bool) (name : String) :
    (g.addFunction returnType paramTypes isVarArg name).globals =
      g.globals := rfl

@[simp] theorem addFunction_lastUnique (g : GenContext) (returnType : LType) (paramTypes : List LType) (isVarArg : Bool) (name : String) :
    (g.addFunction returnType paramTypes isVarArg name).lastUnique =
      (createValueName g.namedValues "." name g.lastUnique).2 := rfl

@[simp] theorem addFunction_blocks (g : GenContext) (returnType : LType) (paramTypes : List LType) (isVarArg : Bool) (name : String) :
    (g.addFunction returnType paramTypes isVarArg name).blocks =
      g.blocks := rfl

@[simp] theorem addFunction_code (g : GenContext) (returnType : LType) (paramTypes : List LType) (isVarArg : Bool) (name : String) :
    (g.addFunction returnType paramTypes isVarArg name).code =
      g.code := rfl

@[simp] theorem addFunction_insertBlock (g : GenContext) (returnType : LType) (paramTypes : List LType) (isVarArg : Bool) (name : String) :
    (g.addFunction returnType paramTypes isVarArg name).insertBlock =
      g.insertBlock := rfl

@[simp] theorem addFunction_symbolTable (g : GenContext) (returnType : LType) (paramTypes : List LType) (isVarArg : Bool) (name : String) :
    (g.addFunction returnType paramTypes isVarArg name).symbolTable =
      g.symbolTable := rfl

@[simp] theorem addGlobalVariable_functions (g : GenContext) (type : LType) (initializer : Value) (name : String) :
    (g.addGlobalVariable type initializer name).functions =
      g.functions := rfl

@[simp] theorem addGlobalVariable_globals (g : GenContext) (type : LType) (initializer : Value) (name : String) :
    (g.addGlobalVariable type initializer name).globals =
      g.globals ++
        [⟨(createValueName g.namedValues "." name g.lastUnique).1, type, .value initializer⟩] := rfl

@[simp] theorem addGlobalVariable_lastUnique (g : GenContext) (type : LType) (initializer : Value) (name : String) :
    (g.addGlobalVariable type initializer name).lastUnique =
      (createValueName g.namedValues "." name g.lastUnique).2 := rfl

@[simp] theorem addGlobalVariable_blocks (g : GenContext) (type : LType) (initializer : Value) (name : String) :
    (g.addGlobalVariable type initializer name).blocks =
      g.blocks := rfl

@[simp] theorem addGlobalVariable_code (g : GenContext) (type : LType) (initializer : Value) (name : String) :
    (g.addGlobalVariable type initializer name).code =
      g.code := rfl

@[simp] theorem addGlobalVariable_insertBlock (g : GenContext) (type : LType) (initializer : Value) (name : String) :
    (g.addGlobalVariable type initializer name).insertBlock =
      g.insertBlock := rfl

@[simp] theorem addGlobalVariable_symbolTable (g : GenContext) (type : LType) (initializer : Value) (name : String) :
    (g.addGlobalVariable type initializer name).symbolTable =
      g.symbolTable := rfl

@[simp] theorem setArgumentNames_functions (g : GenContext) (func : Nat) (names : List String) :
    (g.setArgumentNames func names).functions =
      g.functions.modify (fun f => { f with argNames := names }) func := rfl

@[simp] theorem setArgumentNames_globals (g : GenContext) (func : Nat) (names : List String) :
    (g.setArgumentNames func names).globals =
      g.globals := rfl

@[simp] theorem setArgumentNames_lastUnique (g : GenContext) (func : Nat) (names : List String) :
    (g.setArgumentNames func names).lastUnique =
      g.lastUnique := rfl

@[simp] theorem setArgumentNames_blocks (g : GenContext) (func : Nat) (names : List String) :
    (g.setArgumentNames func names).blocks =
      g.blocks := rfl

@[simp] theorem setArgumentNames_code (g : GenContext) (func : Nat) (names : List String) :
    (g.setArgumentNames func names).code =
      g.code := rfl

@[simp] theorem setArgumentNames_insertBlock (g : GenContext) (func : Nat) (names : List String) :
    (g.setArgumentNames func names).insertBlock =
      g.insertBlock := rfl

@[simp] theorem setArgumentNames_symbolTable (g : GenContext) (func : Nat) (names : List String) :
    (g.setArgumentNames func names).symbolTable =
      g.symbolTable := rfl

/-! ## How the steps of the generator run -/

theorem GenM.bind_run {α β : Type} (m : GenM α) (f : α → GenM β) (g : GenContext) :
    (m >>= f).run g =
      match m.run g with
      | (.ok a, g1) => (f a).run g1
      | (.error e, g1) => (.error e, g1) := rfl

theorem GenM.bind_ok {α β : Type} {m : GenM α} {f : α → GenM β} {g g1 : GenContext} {a : α}
    (h : m.run g = (.ok a, g1)) : (m >>= f).run g = (f a).run g1 := by
  rw [GenM.bind_run, h]

theorem GenM.bind_error {α β : Type} {m : GenM α} {f : α → GenM β} {g g1 : GenContext}
    {e : GenError} (h : m.run g = (.error e, g1)) : (m >>= f).run g = (.error e, g1) := by
  rw [GenM.bind_run, h]

theorem GenM.pure_run {α : Type} (a : α) (g : GenContext) :
    (pure a : GenM α).run g = (.ok a, g) := rfl

theorem GenM.throw_run {α : Type} (e : GenError) (g : GenContext) :
    (GenM.throw e : GenM α).run g = (.error e, g) := rfl

theorem GenM.get_run (g : GenContext) : GenM.get.run g = (.ok g, g) := rfl

theorem insert_run (opcode : Opcode) (operands : List Value) (type : LType) (name : String)
    (g : GenContext) :
    (insert opcode operands type name).run g =
      (.ok (.instruction g.code.length type), g.emit opcode operands type name) := rfl

/-! Which values are constants of the library. -/

@[simp] theorem isConstant_constantInt (type : LType) (value : Int) :
    (Value.constantInt type value).isConstant = true := rfl

@[simp] theorem isConstant_constantFP (value : ℚ) :
    (Value.constantFP value).isConstant = true := rfl

@[simp] theorem isConstant_constantAggregateZero (type : LType) :
    (Value.constantAggregateZero type).isConstant = true := rfl

@[simp] theorem isConstant_instruction (id : Nat) (type : LType) :
    (Value.instruction id type).isConstant = false := rfl

@[simp] theorem isConstant_globalVariable (index : Nat) (valueType : LType) :
    (Value.globalVariable index valueType).isConstant = true := rfl

@[simp] theorem isConstant_argument (function argNo : Nat) (type : LType) :
    (Value.argument function argNo type).isConstant = false := rfl

@[simp] theorem isConstant_globalStringPtr (index : Nat) :
    (Value.globalStringPtr index).isConstant = true := rfl

@[simp] theorem isConstant_folded (opcode : Opcode) (lhs rhs : Value) (type : LType) :
    (Value.folded opcode lhs rhs type).isConstant = true := rfl

@[simp] theorem isConstant_foldedUnary (opcode : Opcode) (operand : Value) (type : LType) :
    (Value.foldedUnary opcode operand type).isConstant = true := rfl

@[simp] theorem isConstant_foldedGEP (sourceElementType : LType) (ptr idx0 idx1 : Value)
    (type : LType) :
    (Value.foldedGEP sourceElementType ptr idx0 idx1 type).isConstant = true := rfl

/-! The requests that the folder of the builder may answer: with constants for operands
the folded constant is the result and the state stays; otherwise the instruction is
inserted. -/

theorem createBinOp_folded (opcode : Opcode) {lhs rhs : Value} (name : String)
    (g : GenContext) (hl : lhs.isConstant = true) (hr : rhs.isConstant = true) :
    (CreateBinOp opcode lhs rhs name).run g =
      (.ok (.folded opcode lhs rhs lhs.getType), g) := by
  simp [CreateBinOp, hl, hr, GenM.pure_run]

theorem createBinOp_inserted (opcode : Opcode) {lhs rhs : Value} (name : String)
    (g : GenContext) (h : (lhs.isConstant && rhs.isConstant) = false) :
    (CreateBinOp opcode lhs rhs name).run g =
      (.ok (.instruction g.code.length lhs.getType),
        g.emit opcode [lhs, rhs] lhs.getType name) := by
  simp [CreateBinOp, h, insert_run]

theorem createICmp_folded (predicate : Predicate) {lhs rhs : Value} (name : String)
    (g : GenContext) (hl : lhs.isConstant = true) (hr : rhs.isConstant = true) :
    (CreateICmp predicate lhs rhs name).run g =
      (.ok (.folded (.icmp predicate) lhs rhs (.integer 1)), g) := by
  simp [CreateICmp, hl, hr, GenM.pure_run]

theorem createICmp_inserted (predicate : Predicate) {lhs rhs : Value} (name : String)
    (g : GenContext) (h : (lhs.isConstant && rhs.isConstant) = false) :
    (CreateICmp predicate lhs rhs name).run g =
      (.ok (.instruction g.code.length (.integer 1)),
        g.emit (.icmp predicate) [lhs, rhs] (.integer 1) name) := by
  simp [CreateICmp, h, insert_run]

theorem createFCmp_folded (predicate : Predicate) {lhs rhs : Value} (name : String)
    (g : GenContext) (hl : lhs.isConstant = true) (hr : rhs.isConstant = true) :
    (CreateFCmp predicate lhs rhs name).run g =
      (.ok (.folded (.fcmp predicate) lhs rhs (.integer 1)), g) := by
  simp [CreateFCmp, hl, hr, GenM.pure_run]

theorem createFCmp_inserted (predicate : Predicate) {lhs rhs : Value} (name : String)
    (g : GenContext) (h : (lhs.isConstant && rhs.isConstant) = false) :
    (CreateFCmp predicate lhs rhs name).run g =
      (.ok (.instruction g.code.length (.integer 1)),
        g.emit (.fcmp predicate) [lhs, rhs] (.integer 1) name) := by
  simp [CreateFCmp, h, insert_run]

theorem createCast_same (opcode : Opcode) {v : Value} {destTy : LType} (g : GenContext)
    (h : v.getType = destTy) : (CreateCast opcode v destTy).run g = (.ok v, g) := by
  simp [CreateCast, h, GenM.pure_run]

theorem createCast_folded (opcode : Opcode) {v : Value} {destTy : LType} (g : GenContext)
    (h : v.getType ≠ destTy) (hc : v.isConstant = true) :
    (CreateCast opcode v destTy).run g = (.ok (.foldedUnary opcode v destTy), g) := by
  simp [CreateCast, h, hc, GenM.pure_run]

theorem createCast_inserted (opcode : Opcode) {v : Value} {destTy : LType} (g : GenContext)
    (h : v.getType ≠ destTy) (hc : v.isConstant = false) :
    (CreateCast opcode v destTy).run g =
      (.ok (.instruction g.code.length destTy), g.emit opcode [v] destTy "") := by
  simp [CreateCast, h, hc, insert_run]

theorem createBlock_run (name : String) (func : Option Nat) (g : GenContext) :
    (BasicBlock.Create name func).run g = (.ok g.blocks.length, g.addBlock name func) := rfl

theorem createFunction_run (returnType : LType) (paramTypes : List LType) (isVarArg : Bool)
    (name : String) (g : GenContext) :
    (Function.Create returnType paramTypes isVarArg name).run g =
      (.ok g.functions.length, g.addFunction returnType paramTypes isVarArg name) := rfl

theorem newGlobalVariable_run (type : LType) (initializer : Value) (name : String)
    (g : GenContext) :
    (newGlobalVariable type initializer name).run g =
      (.ok (.globalVariable g.globals.length type),
        g.addGlobalVariable type initializer name) := rfl

theorem setInsertPoint_run (b : Nat) (g : GenContext) :
    (SetInsertPoint (some b)).run g = (.ok (), g.setInsertBlock b) := rfl

theorem setSymbolTable_run (table : SymbolTable) (g : GenContext) :
    (setSymbolTable table).run g = (.ok (), g.setSymbolTable table) := rfl

theorem getInsertBlock_run (g : GenContext) : GetInsertBlock.run g = (.ok g.insertBlock, g) :=
  rfl

theorem getInsertBlockParent_run {g : GenContext} {b : Nat} {block : BasicBlock}
    (hb : g.insertBlock = some b) (hf : g.blocks[b]? = some block) :
    GetInsertBlockParent.run g = (.ok block.parent, g) := by
  simp only [GetInsertBlockParent, GenM.run, hb, hf]

theorem getFunction_run (name : String) (g : GenContext) :
    (getFunction name).run g =
      (.ok (if name = "" then none else g.functions.findIdx? fun f => f.name = name), g) := rfl

theorem functionAt_run {g : GenContext} {func : Nat} {f : Function}
    (h : g.functions[func]? = some f) : (functionAt func).run g = (.ok f, g) := by
  simp only [functionAt, GenM.run, h]

theorem globalString_run (text : String) (g : GenContext) :
    (CreateGlobalStringPtr text).run g =
      (.ok (.globalStringPtr g.globals.length), g.addString text) := rfl

theorem addSymbol_run {g : GenContext} {name : String} (symbol : Symbol)
    (h : g.symbolTable.contains name = false) :
    (addSymbol name symbol).run g =
      (.ok (), g.setSymbolTable ((name, symbol) :: g.symbolTable)) := by
  simp only [addSymbol, GenM.run, h, Bool.false_eq_true, if_false]

theorem getSymbol_run {g : GenContext} {name : String} {symbol : Symbol}
    (h : g.symbolTable.lookup name = some symbol) :
    (getSymbol name).run g = (.ok symbol, g) := by
  simp only [getSymbol, GenM.bind_run, GenM.get_run, h, GenM.pure_run]

theorem contains_of_lookup {table : SymbolTable} {name : String} {symbol : Symbol}
    (h : table.lookup name = some symbol) : table.contains name = true := by
  simp [SymbolTable.contains, h]

set_option linter.unusedTactic false
set_option linter.unreachableTactic false

/-! ## What the lowering of an expression leaves unchanged -/

section Keeps
variable {R : GenContext → GenContext → Prop}

theorem GenM.Keeps.pure {α : Type} (S : ExprStable R) (a : α) :
    GenM.Keeps R (Pure.pure a : GenM α) := ⟨fun g => S.refl g⟩

theorem GenM.Keeps.throw {α : Type} (S : ExprStable R) (e : GenError) :
    GenM.Keeps R (GenM.throw e : GenM α) := ⟨fun g => S.refl g⟩

theorem GenM.Keeps.bind {α β : Type} (S : ExprStable R) {m : GenM α} {f : α → GenM β}
    (hm : GenM.Keeps R m) (hf : ∀ a, GenM.Keeps R (f a)) : GenM.Keeps R (m >>= f) := by
  refine ⟨fun g => ?_⟩
  rw [GenM.bind_run]
  have h1 := hm.after g
  rcases h : m.run g with ⟨r, g1⟩
  rw [h] at h1
  cases r with
  | ok a => exact S.trans _ _ _ h1 ((hf a).after g1)
  | error e => exact h1

theorem keeps_get (S : ExprStable R) : GenM.Keeps R GenM.get := ⟨fun g => S.refl g⟩

theorem keeps_getSymbol (S : ExprStable R) (name : String) : GenM.Keeps R (getSymbol name) := by
  unfold getSymbol
  refine GenM.Keeps.bind S (keeps_get S) fun g => ?_
  split
  · exact GenM.Keeps.pure S _
  · exact GenM.Keeps.throw S _

theorem keeps_insert (S : ExprStable R) (opcode : Opcode) (operands : List Value)
    (type : LType) (name : String) (h : opcode ≠ .store) :
    GenM.Keeps R (insert opcode operands type name) := ⟨fun g => S.emit g _ _ _ _ h⟩

theorem keeps_createBlock (S : ExprStable R) (name : String) (func : Option Nat) :
    GenM.Keeps R (BasicBlock.Create name func) := ⟨fun g => S.addBlock g _ _⟩

theorem keeps_createFunction (S : ExprStable R) (returnType : LType) (paramTypes : List LType)
    (isVarArg : Bool) (name : String) :
    GenM.Keeps R (Function.Create returnType paramTypes isVarArg name) :=
  ⟨fun g => S.addFunction g _ _ _ _⟩

theorem keeps_setInsertPoint (S : ExprStable R) (b : Option Nat) :
    GenM.Keeps R (SetInsertPoint b) := by
  refine ⟨fun g => ?_⟩
  cases b with
  | none => exact S.refl g
  | some b => exact S.setInsertBlock g b

theorem keeps_getInsertBlockParent (S : ExprStable R) : GenM.Keeps R GetInsertBlockParent := by
  refine ⟨fun g => ?_⟩
  unfold GetInsertBlockParent GenM.run
  dsimp only
  split
  · exact S.refl g
  · split <;> exact S.refl g

theorem keeps_getFunction (S : ExprStable R) (name : String) :
    GenM.Keeps R (getFunction name) := ⟨fun g => S.refl g⟩

theorem keeps_functionAt (S : ExprStable R) (func : Nat) : GenM.Keeps R (functionAt func) := by
  refine ⟨fun g => ?_⟩
  unfold functionAt GenM.run
  dsimp only
  split <;> exact S.refl g

theorem keeps_globalString (S : ExprStable R) (text : String) :
    GenM.Keeps R (CreateGlobalStringPtr text) := ⟨fun g => S.addString g _⟩

theorem keeps_createCall (S : ExprStable R) (func : Option Nat) (args : List Value) :
    GenM.Keeps R (CreateCall func args) := by
  unfold CreateCall
  split
  · exact GenM.Keeps.throw S _
  · exact GenM.Keeps.bind S (keeps_functionAt S _) fun _ => keeps_insert S _ _ _ _ (by simp)

theorem keeps_createCast (S : ExprStable R) (opcode : Opcode) (v : Value) (destTy : LType)
    (h : opcode ≠ .store) : GenM.Keeps R (CreateCast opcode v destTy) := by
  unfold CreateCast
  split
  · exact GenM.Keeps.pure S _
  · split
    · exact GenM.Keeps.pure S _
    · exact keeps_insert S _ _ _ _ h

theorem keeps_createBinOp (S : ExprStable R) (opcode : Opcode) (lhs rhs : Value) (name : String)
    (h : opcode ≠ .store) :
    GenM.Keeps R (CreateBinOp opcode lhs rhs name) := by
  unfold CreateBinOp
  split
  · exact GenM.Keeps.pure S _
  · exact keeps_insert S _ _ _ _ h

theorem keeps_createICmp (S : ExprStable R) (p : Predicate) (lhs rhs : Value) (name : String) :
    GenM.Keeps R (CreateICmp p lhs rhs name) := by
  unfold CreateICmp
  split
  · exact GenM.Keeps.pure S _
  · exact keeps_insert S _ _ _ _ (by simp)

theorem keeps_createFCmp (S : ExprStable R) (p : Predicate) (lhs rhs : Value) (name : String) :
    GenM.Keeps R (CreateFCmp p lhs rhs name) := by
  unfold CreateFCmp
  split
  · exact GenM.Keeps.pure S _
  · exact keeps_insert S _ _ _ _ (by simp)

theorem keeps_createSIToFP (S : ExprStable R) (v : Value) (destTy : LType) :
    GenM.Keeps R (CreateSIToFP v destTy) := by
  unfold CreateSIToFP
  exact keeps_createCast S _ _ _ (by simp)

theorem keeps_createFPToSI (S : ExprStable R) (v : Value) (destTy : LType) :
    GenM.Keeps R (CreateFPToSI v destTy) := by
  unfold CreateFPToSI
  exact keeps_createCast S _ _ _ (by simp)

theorem keeps_createNeg (S : ExprStable R) (v : Value) (name : String) :
    GenM.Keeps R (CreateNeg v name) := by
  unfold CreateNeg
  exact keeps_createBinOp S _ _ _ _ (by simp)

theorem keeps_createFNeg (S : ExprStable R) (v : Value) (name : String) :
    GenM.Keeps R (CreateFNeg v name) := by
  unfold CreateFNeg
  split
  · exact GenM.Keeps.pure S _
  · exact keeps_insert S _ _ _ _ (by simp)

theorem keeps_createLoad (S : ExprStable R) (type : LType) (ptr : Value) (name : String) :
    GenM.Keeps R (CreateLoad type ptr name) := by
  unfold CreateLoad
  exact keeps_insert S _ _ _ _ (by simp)

theorem keeps_createAlloca (S : ExprStable R) (type : LType) (name : String) :
    GenM.Keeps R (CreateAlloca type name) := by
  unfold CreateAlloca
  exact keeps_insert S _ _ _ _ (by simp)

theorem keeps_createBr (S : ExprStable R) (dest : Nat) :
    GenM.Keeps R (CreateBr dest) := by
  unfold CreateBr
  exact keeps_insert S _ _ _ _ (by simp)

theorem keeps_createCondBr (S : ExprStable R) (cond : Value) (ifTrue ifFalse : Nat) :
    GenM.Keeps R (CreateCondBr cond ifTrue ifFalse) := by
  unfold CreateCondBr
  exact keeps_insert S _ _ _ _ (by simp)

theorem keeps_createRet (S : ExprStable R) (v : Value) :
    GenM.Keeps R (CreateRet v) := by
  unfold CreateRet
  exact keeps_insert S _ _ _ _ (by simp)

theorem keeps_createRetVoid (S : ExprStable R) :
    GenM.Keeps R (CreateRetVoid) := by
  unfold CreateRetVoid
  exact keeps_insert S _ _ _ _ (by simp)

theorem keeps_createUnreachable (S : ExprStable R) :
    GenM.Keeps R (CreateUnreachable) := by
  unfold CreateUnreachable
  exact keeps_insert S _ _ _ _ (by simp)

theorem keeps_createGEP (S : ExprStable R) (type : LType) (ptr : Value) (idxList : List Value)
    (name : String) :
    GenM.Keeps R (CreateGEP type ptr idxList name) := by
  unfold CreateGEP
  split
  · split
    · exact GenM.Keeps.pure S _
    · exact keeps_insert S _ _ _ _ (by simp)
  · exact GenM.Keeps.throw S _

theorem keeps_getArrayElementType (S : ExprStable R) (type : LType) :
    GenM.Keeps R (getArrayElementType type) := by
  unfold getArrayElementType
  split
  · exact GenM.Keeps.pure S _
  · exact GenM.Keeps.throw S _

theorem keeps_getPointerElementType (S : ExprStable R) (type : LType) :
    GenM.Keeps R (getPointerElementType type) := by
  unfold getPointerElementType
  split
  · exact GenM.Keeps.pure S _
  · exact GenM.Keeps.throw S _

theorem keeps_getDefaultValueForType (S : ExprStable R) (type : LType) :
    GenM.Keeps R (getDefaultValueForType type) := by
  unfold getDefaultValueForType
  split
  · exact GenM.Keeps.pure S _
  · exact GenM.Keeps.pure S _
  · exact GenM.Keeps.throw S _

theorem keeps_expectValue (S : ExprStable R) (v : Option Value) :
    GenM.Keeps R (expectValue v) := by
  unfold expectValue
  split
  · exact GenM.Keeps.pure S _
  · exact GenM.Keeps.throw S _

theorem keeps_boundsCheck (S : ExprStable R) (arrayName : String) (indexV lo hi : Value) :
    GenM.Keeps R (generateIndexOutOfBoundsCheck arrayName indexV lo hi) := by
  unfold generateIndexOutOfBoundsCheck
  repeat' first
    | with_reducible exact keeps_createBinOp S _ _ _ _ (by simp)
    | with_reducible exact keeps_createICmp S _ _ _ _
    | with_reducible exact keeps_createBr S _
    | with_reducible exact keeps_createCondBr S _ _ _
    | with_reducible exact keeps_createUnreachable S
    | with_reducible exact GenM.Keeps.pure S _
    | with_reducible exact GenM.Keeps.throw S _
    | with_reducible exact keeps_get S
    | with_reducible exact keeps_getSymbol S _
    | with_reducible exact keeps_getFunction S _
    | with_reducible exact keeps_functionAt S _
    | with_reducible exact keeps_getInsertBlockParent S
    | with_reducible exact keeps_createBlock S _ _
    | with_reducible exact keeps_createFunction S _ _ _ _
    | with_reducible exact keeps_setInsertPoint S _
    | with_reducible exact keeps_globalString S _
    | with_reducible exact keeps_createCall S _ _
    | with_reducible apply GenM.Keeps.bind S
    | intro _
    | dsimp only
    | split

theorem keeps_maybeSIToFP (S : ExprStable R) (val : Value) :
    GenM.Keeps R (maybeSIToFP val) := by
  unfold maybeSIToFP
  repeat' first
    | with_reducible exact keeps_createSIToFP S _ _
    | with_reducible exact GenM.Keeps.pure S _
    | with_reducible exact GenM.Keeps.throw S _
    | with_reducible exact keeps_get S
    | with_reducible exact keeps_getSymbol S _
    | with_reducible exact keeps_getFunction S _
    | with_reducible exact keeps_functionAt S _
    | with_reducible exact keeps_getInsertBlockParent S
    | with_reducible exact keeps_createBlock S _ _
    | with_reducible exact keeps_createFunction S _ _ _ _
    | with_reducible exact keeps_setInsertPoint S _
    | with_reducible exact keeps_globalString S _
    | with_reducible exact keeps_createCall S _ _
    | with_reducible apply GenM.Keeps.bind S
    | intro _
    | dsimp only
    | split

theorem keeps_arithmetic (S : ExprStable R) (dblArith : Bool) (real : Opcode) (realName : String)
    (int : Opcode) (intName : String) (lhsV rhsV : Value) (h1 : real ≠ .store)
    (h2 : int ≠ .store) :
    GenM.Keeps R (arithmetic dblArith real realName int intName lhsV rhsV) := by
  unfold arithmetic
  repeat' first
    | with_reducible exact keeps_createBinOp S _ _ _ _ h1
    | with_reducible exact keeps_createBinOp S _ _ _ _ h2
    | with_reducible exact keeps_maybeSIToFP S _
    | with_reducible exact GenM.Keeps.pure S _
    | with_reducible exact GenM.Keeps.throw S _
    | with_reducible exact keeps_get S
    | with_reducible exact keeps_getSymbol S _
    | with_reducible exact keeps_getFunction S _
    | with_reducible exact keeps_functionAt S _
    | with_reducible exact keeps_getInsertBlockParent S
    | with_reducible exact keeps_createBlock S _ _
    | with_reducible exact keeps_createFunction S _ _ _ _
    | with_reducible exact keeps_setInsertPoint S _
    | with_reducible exact keeps_globalString S _
    | with_reducible exact keeps_createCall S _ _
    | with_reducible apply GenM.Keeps.bind S
    | intro _
    | dsimp only
    | split

theorem keeps_comparison (S : ExprStable R) (dblArith : Bool) (real : Predicate) (realName : String)
    (int : Predicate) (intName : String) (lhsV rhsV : Value) :
    GenM.Keeps R (comparison dblArith real realName int intName lhsV rhsV) := by
  unfold comparison
  repeat' first
    | with_reducible exact keeps_createICmp S _ _ _ _
    | with_reducible exact keeps_createFCmp S _ _ _ _
    | with_reducible exact keeps_maybeSIToFP S _
    | with_reducible exact GenM.Keeps.pure S _
    | with_reducible exact GenM.Keeps.throw S _
    | with_reducible exact keeps_get S
    | with_reducible exact keeps_getSymbol S _
    | with_reducible exact keeps_getFunction S _
    | with_reducible exact keeps_functionAt S _
    | with_reducible exact keeps_getInsertBlockParent S
    | with_reducible exact keeps_createBlock S _ _
    | with_reducible exact keeps_createFunction S _ _ _ _
    | with_reducible exact keeps_setInsertPoint S _
    | with_reducible exact keeps_globalString S _
    | with_reducible exact keeps_createCall S _ _
    | with_reducible apply GenM.Keeps.bind S
    | intro _
    | dsimp only
    | split

theorem keeps_visitBinOp (S : ExprStable R) (op : TokenType) (lhsV rhsV : Value) :
    GenM.Keeps R (visitBinOp op lhsV rhsV) := by
  unfold visitBinOp
  repeat' first
    | with_reducible exact keeps_createBinOp S _ _ _ _ (by simp)
    | with_reducible exact keeps_arithmetic S _ _ _ _ _ _ _ (by simp) (by simp)
    | with_reducible exact keeps_comparison S _ _ _ _ _ _ _
    | with_reducible exact GenM.Keeps.pure S _
    | with_reducible exact GenM.Keeps.throw S _
    | with_reducible exact keeps_get S
    | with_reducible exact keeps_getSymbol S _
    | with_reducible exact keeps_getFunction S _
    | with_reducible exact keeps_functionAt S _
    | with_reducible exact keeps_getInsertBlockParent S
    | with_reducible exact keeps_createBlock S _ _
    | with_reducible exact keeps_createFunction S _ _ _ _
    | with_reducible exact keeps_setInsertPoint S _
    | with_reducible exact keeps_globalString S _
    | with_reducible exact keeps_createCall S _ _
    | with_reducible apply GenM.Keeps.bind S
    | intro _
    | dsimp only
    | split

theorem keeps_visitUnaryOp (S : ExprStable R) (op : TokenType) (exprV : Value) :
    GenM.Keeps R (visitUnaryOp op exprV) := by
  unfold visitUnaryOp
  repeat' first
    | with_reducible exact keeps_createBinOp S _ _ _ _ (by simp)
    | with_reducible exact keeps_createNeg S _ _
    | with_reducible exact keeps_createFNeg S _ _
    | with_reducible exact GenM.Keeps.pure S _
    | with_reducible exact GenM.Keeps.throw S _
    | with_reducible exact keeps_get S
    | with_reducible exact keeps_getSymbol S _
    | with_reducible exact keeps_getFunction S _
    | with_reducible exact keeps_functionAt S _
    | with_reducible exact keeps_getInsertBlockParent S
    | with_reducible exact keeps_createBlock S _ _
    | with_reducible exact keeps_createFunction S _ _ _ _
    | with_reducible exact keeps_setInsertPoint S _
    | with_reducible exact keeps_globalString S _
    | with_reducible exact keeps_createCall S _ _
    | with_reducible apply GenM.Keeps.bind S
    | intro _
    | dsimp only
    | split

theorem keeps_visitLiteral (S : ExprStable R) (tokenValue : TokenValue) :
    GenM.Keeps R (visitLiteral tokenValue) := by
  unfold visitLiteral
  repeat' first
    | with_reducible exact GenM.Keeps.pure S _
    | with_reducible exact GenM.Keeps.throw S _
    | with_reducible exact keeps_get S
    | with_reducible exact keeps_getSymbol S _
    | with_reducible exact keeps_getFunction S _
    | with_reducible exact keeps_functionAt S _
    | with_reducible exact keeps_getInsertBlockParent S
    | with_reducible exact keeps_createBlock S _ _
    | with_reducible exact keeps_createFunction S _ _ _ _
    | with_reducible exact keeps_setInsertPoint S _
    | with_reducible exact keeps_globalString S _
    | with_reducible exact keeps_createCall S _ _
    | with_reducible apply GenM.Keeps.bind S
    | intro _
    | dsimp only
    | split

theorem keeps_visitDeclVarRef (S : ExprStable R) (refName : String) :
    GenM.Keeps R (visitDeclVarRef refName) := by
  unfold visitDeclVarRef
  repeat' first
    | with_reducible exact keeps_createLoad S _ _ _
    | with_reducible exact GenM.Keeps.pure S _
    | with_reducible exact GenM.Keeps.throw S _
    | with_reducible exact keeps_get S
    | with_reducible exact keeps_getSymbol S _
    | with_reducible exact keeps_getFunction S _
    | with_reducible exact keeps_functionAt S _
    | with_reducible exact keeps_getInsertBlockParent S
    | with_reducible exact keeps_createBlock S _ _
    | with_reducible exact keeps_createFunction S _ _ _ _
    | with_reducible exact keeps_setInsertPoint S _
    | with_reducible exact keeps_globalString S _
    | with_reducible exact keeps_createCall S _ _
    | with_reducible apply GenM.Keeps.bind S
    | intro _
    | dsimp only
    | split

theorem keeps_storeDeclVarRef (S : ExprStable R) (refName : String) :
    GenM.Keeps R (storeDeclVarRef refName) := by
  unfold storeDeclVarRef
  repeat' first
    | with_reducible exact GenM.Keeps.pure S _
    | with_reducible exact GenM.Keeps.throw S _
    | with_reducible exact keeps_get S
    | with_reducible exact keeps_getSymbol S _
    | with_reducible exact keeps_getFunction S _
    | with_reducible exact keeps_functionAt S _
    | with_reducible exact keeps_getInsertBlockParent S
    | with_reducible exact keeps_createBlock S _ _
    | with_reducible exact keeps_createFunction S _ _ _ _
    | with_reducible exact keeps_setInsertPoint S _
    | with_reducible exact keeps_globalString S _
    | with_reducible exact keeps_createCall S _ _
    | with_reducible apply GenM.Keeps.bind S
    | intro _
    | dsimp only
    | split

theorem keeps_handleWrite (S : ExprStable R) (procedure : String) (argV : Option Value) :
    GenM.Keeps R (handleWrite procedure argV) := by
  unfold handleWrite
  repeat' first
    | with_reducible exact GenM.Keeps.pure S _
    | with_reducible exact GenM.Keeps.throw S _
    | with_reducible exact keeps_get S
    | with_reducible exact keeps_getSymbol S _
    | with_reducible exact keeps_getFunction S _
    | with_reducible exact keeps_functionAt S _
    | with_reducible exact keeps_getInsertBlockParent S
    | with_reducible exact keeps_createBlock S _ _
    | with_reducible exact keeps_createFunction S _ _ _ _
    | with_reducible exact keeps_setInsertPoint S _
    | with_reducible exact keeps_globalString S _
    | with_reducible exact keeps_createCall S _ _
    | with_reducible apply GenM.Keeps.bind S
    | intro _
    | dsimp only
    | split

theorem keeps_handleReadln (S : ExprStable R) (argStore : Option Value) :
    GenM.Keeps R (handleReadln argStore) := by
  unfold handleReadln
  repeat' first
    | with_reducible exact GenM.Keeps.pure S _
    | with_reducible exact GenM.Keeps.throw S _
    | with_reducible exact keeps_get S
    | with_reducible exact keeps_getSymbol S _
    | with_reducible exact keeps_getFunction S _
    | with_reducible exact keeps_functionAt S _
    | with_reducible exact keeps_getInsertBlockParent S
    | with_reducible exact keeps_createBlock S _ _
    | with_reducible exact keeps_createFunction S _ _ _ _
    | with_reducible exact keeps_setInsertPoint S _
    | with_reducible exact keeps_globalString S _
    | with_reducible exact keeps_createCall S _ _
    | with_reducible apply GenM.Keeps.bind S
    | intro _
    | dsimp only
    | split

theorem keeps_handleToInteger (S : ExprStable R) (argV : Option Value) :
    GenM.Keeps R (handleToInteger argV) := by
  unfold handleToInteger
  repeat' first
    | with_reducible exact keeps_createFPToSI S _ _
    | with_reducible exact GenM.Keeps.pure S _
    | with_reducible exact GenM.Keeps.throw S _
    | with_reducible exact keeps_get S
    | with_reducible exact keeps_getSymbol S _
    | with_reducible exact keeps_getFunction S _
    | with_reducible exact keeps_functionAt S _
    | with_reducible exact keeps_getInsertBlockParent S
    | with_reducible exact keeps_createBlock S _ _
    | with_reducible exact keeps_createFunction S _ _ _ _
    | with_reducible exact keeps_setInsertPoint S _
    | with_reducible exact keeps_globalString S _
    | with_reducible exact keeps_createCall S _ _
    | with_reducible apply GenM.Keeps.bind S
    | intro _
    | dsimp only
    | split

theorem keeps_handleToReal (S : ExprStable R) (argV : Option Value) :
    GenM.Keeps R (handleToReal argV) := by
  unfold handleToReal
  repeat' first
    | with_reducible exact keeps_createSIToFP S _ _
    | with_reducible exact GenM.Keeps.pure S _
    | with_reducible exact GenM.Keeps.throw S _
    | with_reducible exact keeps_get S
    | with_reducible exact keeps_getSymbol S _
    | with_reducible exact keeps_getFunction S _
    | with_reducible exact keeps_functionAt S _
    | with_reducible exact keeps_getInsertBlockParent S
    | with_reducible exact keeps_createBlock S _ _
    | with_reducible exact keeps_createFunction S _ _ _ _
    | with_reducible exact keeps_setInsertPoint S _
    | with_reducible exact keeps_globalString S _
    | with_reducible exact keeps_createCall S _ _
    | with_reducible apply GenM.Keeps.bind S
    | intro _
    | dsimp only
    | split

theorem keeps_validateUserCall (S : ExprStable R) (funName : String) (argCount : Nat) :
    GenM.Keeps R (validateUserCall funName argCount) := by
  unfold validateUserCall
  repeat' first
    | with_reducible exact GenM.Keeps.pure S _
    | with_reducible exact GenM.Keeps.throw S _
    | with_reducible exact keeps_get S
    | with_reducible exact keeps_getSymbol S _
    | with_reducible exact keeps_getFunction S _
    | with_reducible exact keeps_functionAt S _
    | with_reducible exact keeps_getInsertBlockParent S
    | with_reducible exact keeps_createBlock S _ _
    | with_reducible exact keeps_createFunction S _ _ _ _
    | with_reducible exact keeps_setInsertPoint S _
    | with_reducible exact keeps_globalString S _
    | with_reducible exact keeps_createCall S _ _
    | with_reducible apply GenM.Keeps.bind S
    | intro _
    | dsimp only
    | split

theorem keeps_checkedIndex (S : ExprStable R) (refName : String) (symbol : Symbol)
    (indexV : Option Value) :
    GenM.Keeps R (checkedIndex refName symbol indexV) := by
  unfold checkedIndex
  repeat' first
    | with_reducible exact keeps_createBinOp S _ _ _ _ (by simp)
    | with_reducible exact keeps_boundsCheck S _ _ _ _
    | with_reducible exact GenM.Keeps.pure S _
    | with_reducible exact GenM.Keeps.throw S _
    | with_reducible exact keeps_get S
    | with_reducible exact keeps_getSymbol S _
    | with_reducible exact keeps_getFunction S _
    | with_reducible exact keeps_functionAt S _
    | with_reducible exact keeps_getInsertBlockParent S
    | with_reducible exact keeps_createBlock S _ _
    | with_reducible exact keeps_createFunction S _ _ _ _
    | with_reducible exact keeps_setInsertPoint S _
    | with_reducible exact keeps_globalString S _
    | with_reducible exact keeps_createCall S _ _
    | with_reducible apply GenM.Keeps.bind S
    | intro _
    | dsimp only
    | split

mutual
theorem keeps_visitExpr (S : ExprStable R) : ∀ e : Expr, GenM.Keeps R (visitExpr e)
  | .BinOp op lhs rhs => by
    have h1 := keeps_visitExpr S lhs
    have h2 := keeps_visitExpr S rhs
    unfold visitExpr
    repeat' first
      | with_reducible exact h1
      | with_reducible exact h2
      | with_reducible exact keeps_visitBinOp S _ _ _
      | with_reducible exact GenM.Keeps.pure S _
      | with_reducible exact GenM.Keeps.throw S _
      | with_reducible exact keeps_get S
      | with_reducible exact keeps_getSymbol S _
      | with_reducible exact keeps_getFunction S _
      | with_reducible exact keeps_functionAt S _
      | with_reducible exact keeps_getInsertBlockParent S
      | with_reducible exact keeps_createBlock S _ _
      | with_reducible exact keeps_createFunction S _ _ _ _
      | with_reducible exact keeps_setInsertPoint S _
      | with_reducible exact keeps_globalString S _
      | with_reducible exact keeps_createCall S _ _
      | with_reducible apply GenM.Keeps.bind S
      | intro _
      | dsimp only
      | split
  | .UnaryOp op e => by
    have h1 := keeps_visitExpr S e
    unfold visitExpr
    repeat' first
      | with_reducible exact h1
      | with_reducible exact keeps_visitUnaryOp S _ _
      | with_reducible exact GenM.Keeps.pure S _
      | with_reducible exact GenM.Keeps.throw S _
      | with_reducible exact keeps_get S
      | with_reducible exact keeps_getSymbol S _
      | with_reducible exact keeps_getFunction S _
      | with_reducible exact keeps_functionAt S _
      | with_reducible exact keeps_getInsertBlockParent S
      | with_reducible exact keeps_createBlock S _ _
      | with_reducible exact keeps_createFunction S _ _ _ _
      | with_reducible exact keeps_setInsertPoint S _
      | with_reducible exact keeps_globalString S _
      | with_reducible exact keeps_createCall S _ _
      | with_reducible apply GenM.Keeps.bind S
      | intro _
      | dsimp only
      | split
  | .Literal v => by
    unfold visitExpr
    exact keeps_visitLiteral S _
  | .DeclVarRef n => by
    unfold visitExpr
    exact keeps_visitDeclVarRef S _
  | .DeclArrayRef n idx => by
    have h1 := keeps_visitExpr S idx
    unfold visitExpr
    repeat' first
      | with_reducible exact h1
      | with_reducible exact keeps_checkedIndex S _ _ _
      | with_reducible exact keeps_getArrayElementType S _
      | with_reducible exact keeps_createGEP S _ _ _ _
      | with_reducible exact keeps_createLoad S _ _ _
      | with_reducible exact GenM.Keeps.pure S _
      | with_reducible exact GenM.Keeps.throw S _
      | with_reducible exact keeps_get S
      | with_reducible exact keeps_getSymbol S _
      | with_reducible exact keeps_getFunction S _
      | with_reducible exact keeps_functionAt S _
      | with_reducible exact keeps_getInsertBlockParent S
      | with_reducible exact keeps_createBlock S _ _
      | with_reducible exact keeps_createFunction S _ _ _ _
      | with_reducible exact keeps_setInsertPoint S _
      | with_reducible exact keeps_globalString S _
      | with_reducible exact keeps_createCall S _ _
      | with_reducible apply GenM.Keeps.bind S
      | intro _
      | dsimp only
      | split
  | .FunCall f [] => by
    have h1 := keeps_visitArgs S f []
    unfold visitExpr
    repeat' first
      | with_reducible exact h1
      | with_reducible exact keeps_visitBinOp S _ _ _
      | with_reducible exact keeps_visitUnaryOp S _ _
      | with_reducible exact keeps_visitLiteral S _
      | with_reducible exact keeps_visitDeclVarRef S _
      | with_reducible exact keeps_storeDeclVarRef S _
      | with_reducible exact keeps_handleWrite S _ _
      | with_reducible exact keeps_handleReadln S _
      | with_reducible exact keeps_handleToInteger S _
      | with_reducible exact keeps_handleToReal S _
      | with_reducible exact keeps_validateUserCall S _ _
      | with_reducible exact keeps_checkedIndex S _ _ _
      | with_reducible exact GenM.Keeps.pure S _
      | with_reducible exact GenM.Keeps.throw S _
      | with_reducible exact keeps_get S
      | with_reducible exact keeps_getSymbol S _
      | with_reducible exact keeps_getFunction S _
      | with_reducible exact keeps_functionAt S _
      | with_reducible exact keeps_getInsertBlockParent S
      | with_reducible exact keeps_createBlock S _ _
      | with_reducible exact keeps_createFunction S _ _ _ _
      | with_reducible exact keeps_setInsertPoint S _
      | with_reducible exact keeps_globalString S _
      | with_reducible exact keeps_createCall S _ _
      | with_reducible apply GenM.Keeps.bind S
      | intro _
      | dsimp only
      | split
  | .FunCall f [.DeclArrayRef n idx] => by
    have h1 := keeps_visitArgs S f [.DeclArrayRef n idx]
    have h2 := keeps_visitExpr S (.DeclArrayRef n idx)
    have h3 := keeps_storeVisit S (.DeclArrayRef n idx)
    have h4 := keeps_visitExpr S idx
    unfold visitExpr
    repeat' first
      | with_reducible exact h1
      | with_reducible exact h2
      | with_reducible exact h3
      | with_reducible exact h4
      | with_reducible exact keeps_createGEP S _ _ _ _
      | with_reducible exact keeps_visitBinOp S _ _ _
      | with_reducible exact keeps_visitUnaryOp S _ _
      | with_reducible exact keeps_visitLiteral S _
      | with_reducible exact keeps_visitDeclVarRef S _
      | with_reducible exact keeps_storeDeclVarRef S _
      | with_reducible exact keeps_handleWrite S _ _
      | with_reducible exact keeps_handleReadln S _
      | with_reducible exact keeps_handleToInteger S _
      | with_reducible exact keeps_handleToReal S _
      | with_reducible exact keeps_validateUserCall S _ _
      | with_reducible exact keeps_checkedIndex S _ _ _
      | with_reducible exact GenM.Keeps.pure S _
      | with_reducible exact GenM.Keeps.throw S _
      | with_reducible exact keeps_get S
      | with_reducible exact keeps_getSymbol S _
      | with_reducible exact keeps_getFunction S _
      | with_reducible exact keeps_functionAt S _
      | with_reducible exact keeps_getInsertBlockParent S
      | with_reducible exact keeps_createBlock S _ _
      | with_reducible exact keeps_createFunction S _ _ _ _
      | with_reducible exact keeps_setInsertPoint S _
      | with_reducible exact keeps_globalString S _
      | with_reducible exact keeps_createCall S _ _
      | with_reducible apply GenM.Keeps.bind S
      | intro _
      | dsimp only
      | split
  | .FunCall f [.DeclVarRef n] => by
    have h1 := keeps_visitArgs S f [.DeclVarRef n]
    have h2 := keeps_visitExpr S (.DeclVarRef n)
    have h3 := keeps_storeVisit S (.DeclVarRef n)
    unfold visitExpr
    repeat' first
      | with_reducible exact h1
      | with_reducible exact h2
      | with_reducible exact h3
      | with_reducible exact keeps_visitBinOp S _ _ _
      | with_reducible exact keeps_visitUnaryOp S _ _
      | with_reducible exact keeps_visitLiteral S _
      | with_reducible exact keeps_visitDeclVarRef S _
      | with_reducible exact keeps_storeDeclVarRef S _
      | with_reducible exact keeps_handleWrite S _ _
      | with_reducible exact keeps_handleReadln S _
      | with_reducible exact keeps_handleToInteger S _
      | with_reducible exact keeps_handleToReal S _
      | with_reducible exact keeps_validateUserCall S _ _
      | with_reducible exact keeps_checkedIndex S _ _ _
      | with_reducible exact GenM.Keeps.pure S _
      | with_reducible exact GenM.Keeps.throw S _
      | with_reducible exact keeps_get S
      | with_reducible exact keeps_getSymbol S _
      | with_reducible exact keeps_getFunction S _
      | with_reducible exact keeps_functionAt S _
      | with_reducible exact keeps_getInsertBlockParent S
      | with_reducible exact keeps_createBlock S _ _
      | with_reducible exact keeps_createFunction S _ _ _ _
      | with_reducible exact keeps_setInsertPoint S _
      | with_reducible exact keeps_globalString S _
      | with_reducible exact keeps_createCall S _ _
      | with_reducible apply GenM.Keeps.bind S
      | intro _
      | dsimp only
      | split
  | .FunCall f [.BinOp op l r] => by
    have h1 := keeps_visitArgs S f [.BinOp op l r]
    have h2 := keeps_visitExpr S (.BinOp op l r)
    have h3 := keeps_storeVisit S (.BinOp op l r)
    unfold visitExpr
    repeat' first
      | with_reducible exact h1
      | with_reducible exact h2
      | with_reducible exact h3
      | with_reducible exact keeps_visitBinOp S _ _ _
      | with_reducible exact keeps_visitUnaryOp S _ _
      | with_reducible exact keeps_visitLiteral S _
      | with_reducible exact keeps_visitDeclVarRef S _
      | with_reducible exact keeps_storeDeclVarRef S _
      | with_reducible exact keeps_handleWrite S _ _
      | with_reducible exact keeps_handleReadln S _
      | with_reducible exact keeps_handleToInteger S _
      | with_reducible exact keeps_handleToReal S _
      | with_reducible exact keeps_validateUserCall S _ _
      | with_reducible exact keeps_checkedIndex S _ _ _
      | with_reducible exact GenM.Keeps.pure S _
      | with_reducible exact GenM.Keeps.throw S _
      | with_reducible exact keeps_get S
      | with_reducible exact keeps_getSymbol S _
      | with_reducible exact keeps_getFunction S _
      | with_reducible exact keeps_functionAt S _
      | with_reducible exact keeps_getInsertBlockParent S
      | with_reducible exact keeps_createBlock S _ _
      | with_reducible exact keeps_createFunction S _ _ _ _
      | with_reducible exact keeps_setInsertPoint S _
      | with_reducible exact keeps_globalString S _
      | with_reducible exact keeps_createCall S _ _
      | with_reducible apply GenM.Keeps.bind S
      | intro _
      | dsimp only
      | split
  | .FunCall f [.UnaryOp op e] => by
    have h1 := keeps_visitArgs S f [.UnaryOp op e]
    have h2 := keeps_visitExpr S (.UnaryOp op e)
    have h3 := keeps_storeVisit S (.UnaryOp op e)
    unfold visitExpr
    repeat' first
      | with_reducible exact h1
      | with_reducible exact h2
      | with_reducible exact h3
      | with_reducible exact keeps_visitBinOp S _ _ _
      | with_reducible exact keeps_visitUnaryOp S _ _
      | with_reducible exact keeps_visitLiteral S _
      | with_reducible exact keeps_visitDeclVarRef S _
      | with_reducible exact keeps_storeDeclVarRef S _
      | with_reducible exact keeps_handleWrite S _ _
      | with_reducible exact keeps_handleReadln S _
      | with_reducible exact keeps_handleToInteger S _
      | with_reducible exact keeps_handleToReal S _
      | with_reducible exact keeps_validateUserCall S _ _
      | with_reducible exact keeps_checkedIndex S _ _ _
      | with_reducible exact GenM.Keeps.pure S _
      | with_reducible exact GenM.Keeps.throw S _
      | with_reducible exact keeps_get S
      | with_reducible exact keeps_getSymbol S _
      | with_reducible exact keeps_getFunction S _
      | with_reducible exact keeps_functionAt S _
      | with_reducible exact keeps_getInsertBlockParent S
      | with_reducible exact keeps_createBlock S _ _
      | with_reducible exact keeps_createFunction S _ _ _ _
      | with_reducible exact keeps_setInsertPoint S _
      | with_reducible exact keeps_globalString S _
      | with_reducible exact keeps_createCall S _ _
      | with_reducible apply GenM.Keeps.bind S
      | intro _
      | dsimp only
      | split
  | .FunCall f [.Literal v] => by
    have h1 := keeps_visitArgs S f [.Literal v]
    have h2 := keeps_visitExpr S (.Literal v)
    have h3 := keeps_storeVisit S (.Literal v)
    unfold visitExpr
    repeat' first
      | with_reducible exact h1
      | with_reducible exact h2
      | with_reducible exact h3
      | with_reducible exact keeps_visitBinOp S _ _ _
      | with_reducible exact keeps_visitUnaryOp S _ _
      | with_reducible exact keeps_visitLiteral S _
      | with_reducible exact keeps_visitDeclVarRef S _
      | with_reducible exact keeps_storeDeclVarRef S _
      | with_reducible exact keeps_handleWrite S _ _
      | with_reducible exact keeps_handleReadln S _
      | with_reducible exact keeps_handleToInteger S _
      | with_reducible exact keeps_handleToReal S _
      | with_reducible exact keeps_validateUserCall S _ _
      | with_reducible exact keeps_checkedIndex S _ _ _
      | with_reducible exact GenM.Keeps.pure S _
      | with_reducible exact GenM.Keeps.throw S _
      | with_reducible exact keeps_get S
      | with_reducible exact keeps_getSymbol S _
      | with_reducible exact keeps_getFunction S _
      | with_reducible exact keeps_functionAt S _
      | with_reducible exact keeps_getInsertBlockParent S
      | with_reducible exact keeps_createBlock S _ _
      | with_reducible exact keeps_createFunction S _ _ _ _
      | with_reducible exact keeps_setInsertPoint S _
      | with_reducible exact keeps_globalString S _
      | with_reducible exact keeps_createCall S _ _
      | with_reducible apply GenM.Keeps.bind S
      | intro _
      | dsimp only
      | split
  | .FunCall f [.FunCall f2 args2] => by
    have h1 := keeps_visitArgs S f [.FunCall f2 args2]
    have h2 := keeps_visitExpr S (.FunCall f2 args2)
    have h3 := keeps_storeVisit S (.FunCall f2 args2)
    unfold visitExpr
    repeat' first
      | with_reducible exact h1
      | with_reducible exact h2
      | with_reducible exact h3
      | with_reducible exact keeps_visitBinOp S _ _ _
      | with_reducible exact keeps_visitUnaryOp S _ _
      | with_reducible exact keeps_visitLiteral S _
      | with_reducible exact keeps_visitDeclVarRef S _
      | with_reducible exact keeps_storeDeclVarRef S _
      | with_reducible exact keeps_handleWrite S _ _
      | with_reducible exact keeps_handleReadln S _
      | with_reducible exact keeps_handleToInteger S _
      | with_reducible exact keeps_handleToReal S _
      | with_reducible exact keeps_validateUserCall S _ _
      | with_reducible exact keeps_checkedIndex S _ _ _
      | with_reducible exact GenM.Keeps.pure S _
      | with_reducible exact GenM.Keeps.throw S _
      | with_reducible exact keeps_get S
      | with_reducible exact keeps_getSymbol S _
      | with_reducible exact keeps_getFunction S _
      | with_reducible exact keeps_functionAt S _
      | with_reducible exact keeps_getInsertBlockParent S
      | with_reducible exact keeps_createBlock S _ _
      | with_reducible exact keeps_createFunction S _ _ _ _
      | with_reducible exact keeps_setInsertPoint S _
      | with_reducible exact keeps_globalString S _
      | with_reducible exact keeps_createCall S _ _
      | with_reducible apply GenM.Keeps.bind S
      | intro _
      | dsimp only
      | split
  | .FunCall f (a :: b :: rest) => by
    have h1 := keeps_visitArgs S f (a :: b :: rest)
    unfold visitExpr
    repeat' first
      | with_reducible exact h1
      | with_reducible exact keeps_visitBinOp S _ _ _
      | with_reducible exact keeps_visitUnaryOp S _ _
      | with_reducible exact keeps_visitLiteral S _
      | with_reducible exact keeps_visitDeclVarRef S _
      | with_reducible exact keeps_storeDeclVarRef S _
      | with_reducible exact keeps_handleWrite S _ _
      | with_reducible exact keeps_handleReadln S _
      | with_reducible exact keeps_handleToInteger S _
      | with_reducible exact keeps_handleToReal S _
      | with_reducible exact keeps_validateUserCall S _ _
      | with_reducible exact keeps_checkedIndex S _ _ _
      | with_reducible exact GenM.Keeps.pure S _
      | with_reducible exact GenM.Keeps.throw S _
      | with_reducible exact keeps_get S
      | with_reducible exact keeps_getSymbol S _
      | with_reducible exact keeps_getFunction S _
      | with_reducible exact keeps_functionAt S _
      | with_reducible exact keeps_getInsertBlockParent S
      | with_reducible exact keeps_createBlock S _ _
      | with_reducible exact keeps_createFunction S _ _ _ _
      | with_reducible exact keeps_setInsertPoint S _
      | with_reducible exact keeps_globalString S _
      | with_reducible exact keeps_createCall S _ _
      | with_reducible apply GenM.Keeps.bind S
      | intro _
      | dsimp only
      | split
theorem keeps_storeVisit (S : ExprStable R) : ∀ e : Expr, GenM.Keeps R (storeVisit e)
  | .DeclVarRef n => by
    unfold storeVisit
    exact keeps_storeDeclVarRef S _
  | .DeclArrayRef n idx => by
    have h1 := keeps_visitExpr S idx
    unfold storeVisit
    repeat' first
      | with_reducible exact h1
      | with_reducible exact keeps_checkedIndex S _ _ _
      | with_reducible exact keeps_createGEP S _ _ _ _
      | with_reducible exact GenM.Keeps.pure S _
      | with_reducible exact GenM.Keeps.throw S _
      | with_reducible exact keeps_get S
      | with_reducible exact keeps_getSymbol S _
      | with_reducible exact keeps_getFunction S _
      | with_reducible exact keeps_functionAt S _
      | with_reducible exact keeps_getInsertBlockParent S
      | with_reducible exact keeps_createBlock S _ _
      | with_reducible exact keeps_createFunction S _ _ _ _
      | with_reducible exact keeps_setInsertPoint S _
      | with_reducible exact keeps_globalString S _
      | with_reducible exact keeps_createCall S _ _
      | with_reducible apply GenM.Keeps.bind S
      | intro _
      | dsimp only
      | split
  | .BinOp _ _ _ | .UnaryOp _ _ | .Literal _ | .FunCall _ _ => by
    unfold storeVisit
    exact GenM.Keeps.throw S _
theorem keeps_visitArgs (S : ExprStable R) (funName : String) :
    ∀ args : List Expr, GenM.Keeps R (visitArgs funName args)
  | [] => by
    unfold visitArgs
    exact GenM.Keeps.pure S _
  | a :: rest => by
    have h1 := keeps_visitExpr S a
    have h2 := keeps_visitArgs S funName rest
    unfold visitArgs
    repeat' first
      | with_reducible exact h1
      | with_reducible exact h2
      | with_reducible exact GenM.Keeps.pure S _
      | with_reducible exact GenM.Keeps.throw S _
      | with_reducible exact keeps_get S
      | with_reducible exact keeps_getSymbol S _
      | with_reducible exact keeps_getFunction S _
      | with_reducible exact keeps_functionAt S _
      | with_reducible exact keeps_getInsertBlockParent S
      | with_reducible exact keeps_createBlock S _ _
      | with_reducible exact keeps_createFunction S _ _ _ _
      | with_reducible exact keeps_setInsertPoint S _
      | with_reducible exact keeps_globalString S _
      | with_reducible exact keeps_createCall S _ _
      | with_reducible apply GenM.Keeps.bind S
      | intro _
      | dsimp only
      | split
end

end Keeps

theorem noStoreSince_stable : ExprStable NoStoreSince where
  refl g := ⟨[], by simp, by simp⟩
  trans g1 g2 g3 := by
    rintro ⟨n1, h1, k1⟩ ⟨n2, h2, k2⟩
    refine ⟨n1 ++ n2, by rw [h2, h1, List.append_assoc], fun p hp => ?_⟩
    rcases List.mem_append.1 hp with h | h
    · exact k1 p h
    · exact k2 p h
  emit g opcode operands type name h := ⟨_, rfl, by simpa using h⟩
  addBlock g name func := ⟨[], by simp, by simp⟩
  setInsertBlock g block := ⟨[], by simp, by simp⟩
  addString g text := ⟨[], by simp, by simp⟩
  addFunction g returnType paramTypes isVarArg name := ⟨[], by simp, by simp⟩

theorem sameSymbols_stable : ExprStable SameSymbols where
  refl _ := rfl
  trans g1 g2 g3 h1 h2 := by unfold SameSymbols at *; rw [h2, h1]
  emit _ _ _ _ _ _ := rfl
  addBlock _ _ _ := rfl
  setInsertBlock _ _ := rfl
  addString _ _ := rfl
  addFunction _ _ _ _ _ := rfl

theorem assignTo_run {refName : String} {store v : Value} {exprNode : Expr}
    {g1 g2 : GenContext} {target : LType}
    (hexpr : (visitExpr exprNode).run g1 = (.ok (some v), g2))
    (hstore : store.getType = .pointer target) :
    (assignTo refName (some store) exprNode).run g1 =
      if v.getType.isDoubleTy && target.isIntegerTy then
        (.error (.codeGen
          ("Assignment failed - cannot assign real value to an integer variable: " ++ refName)),
          g2)
      else if target.isDoubleTy ∧ v.getType ≠ .double then
        if v.isConstant then
          (.ok (), g2.emit .store [.foldedUnary .sitofp v .double, store] .void "")
        else
          (.ok (), (g2.emit .sitofp [v] .double "").emit .store
            [.instruction g2.code.length .double, store] .void "")
      else (.ok (), g2.emit .store [v, store] .void "") := by
  unfold assignTo
  rw [GenM.bind_ok hexpr]
  simp only [hstore, getPointerElementType, GenM.bind_run, GenM.pure_run]
  by_cases h1 : (v.getType.isDoubleTy && target.isIntegerTy) = true
  · simp only [h1, if_true, GenM.throw_run]
  · simp only [h1, if_false, Bool.false_eq_true]
    by_cases h2 : target.isDoubleTy = true
    · by_cases h3 : v.getType = .double
      · simp [h2, h3, CreateSIToFP, CreateCast, CreateStore, GenM.pure_run, insert_run,
          GenM.bind_run]
      · by_cases h4 : v.isConstant = true
        · simp [h2, h3, h4, CreateSIToFP, CreateCast, CreateStore, GenM.pure_run, insert_run,
            GenM.bind_run]
        · simp [h2, h3, h4, CreateSIToFP, CreateCast, CreateStore, GenM.pure_run, insert_run,
            GenM.bind_run]
    · simp [h2, CreateStore, GenM.pure_run, insert_run, GenM.bind_run]

theorem visitAssign_mutable {g : GenContext} {varNode : Expr} {symbol : Symbol}
    (hsym : g.symbolTable.lookup varNode.getRefName = some symbol)
    (hmut : symbol.immutable = false) (exprNode : Expr) :
    (visitAssign varNode exprNode).run g =
      (storeVisit varNode >>= fun store => assignTo varNode.getRefName store exprNode).run g := by
  unfold visitAssign
  simp only [GenM.bind_run, GenM.get_run, contains_of_lookup hsym, getSymbol_run hsym, hmut,
    Bool.not_true, Bool.false_eq_true, if_false]

/-- C18. Real to integer assignment is rejected. In `lhs := rhs` with a target that is not
a constant, let the store visitor find the memory location `store` of the target, a pointer
to an integer, and let the right-hand side lower to the value `v`. If `v` is real, the
lowering of the assignment raises `CodeGenException` and no store has been requested since
the lowering started; if `v` is an integer, the assignment is accepted and ends with the
store of `v` to `store`. -/
theorem C18_real_to_integer_assignment (g g1 g2 : GenContext) (varNode exprNode : Expr)
    (symbol : Symbol) (store v : Value) (bits : Nat)
    (hsym : g.symbolTable.lookup varNode.getRefName = some symbol)
    (hmut : symbol.immutable = false)
    (hstore : (storeVisit varNode).run g = (.ok (some store), g1))
    (htarget : store.getType = .pointer (.integer bits))
    (hexpr : (visitExpr exprNode).run g1 = (.ok (some v), g2)) :
    (v.getType = .double →
      (visitAssign varNode exprNode).run g =
        (.error (.codeGen
          ("Assignment failed - cannot assign real value to an integer variable: " ++
            varNode.getRefName)), g2) ∧
      NoStoreSince g g2) ∧
    (v.getType.isIntegerTy = true →
      (visitAssign varNode exprNode).run g = (.ok (), g2.emit .store [v, store] .void "")) := by
  have hrun := visitAssign_mutable hsym hmut exprNode
  rw [GenM.bind_ok hstore, assignTo_run hexpr htarget] at hrun
  refine ⟨fun hv => ⟨?_, ?_⟩, fun hv => ?_⟩
  · rw [hrun]
    simp [hv, LType.isDoubleTy, LType.isIntegerTy]
  · have h1 := (keeps_storeVisit noStoreSince_stable varNode).after g
    have h2 := (keeps_visitExpr noStoreSince_stable exprNode).after g1
    rw [hstore] at h1
    rw [hexpr] at h2
    exact noStoreSince_stable.trans _ _ _ h1 h2
  · rw [hrun]
    have hd : v.getType.isDoubleTy = false := by
      cases hty : v.getType <;> simp_all [LType.isDoubleTy, LType.isIntegerTy]
    simp only [hd, Bool.false_and, Bool.false_eq_true, if_false]
    simp [LType.isDoubleTy]

/-- Witness of C18 in the state after `var i: integer; r: real; X: array [-5 .. 5] of
integer`: `i := 1.5` and `X[2] := r` are rejected, `i := 7` ends with a store. -/
theorem C18_real_to_integer_assignment_witness :
    (visitAssign (.DeclVarRef "i") (.Literal (.real (3 / 2)))).run sampleContext =
      (.error (.codeGen
        "Assignment failed - cannot assign real value to an integer variable: i"),
        sampleContext) ∧
    ((visitAssign (.DeclArrayRef "X" (.Literal (.int 2))) (.DeclVarRef "r")).run
        sampleContext).1 =
      .error (.codeGen
        "Assignment failed - cannot assign real value to an integer variable: X") ∧
    (visitAssign (.DeclVarRef "i") (.Literal (.int 7))).run sampleContext =
      (.ok (), sampleContext.emit .store
        [.constantInt (.integer 32) 7, .globalVariable 0 (.integer 32)] .void "") :=
  ⟨((C18_real_to_integer_assignment sampleContext sampleContext sampleContext
      (.DeclVarRef "i") (.Literal (.real (3 / 2))) _ _ _ 32 rfl rfl rfl rfl rfl).1 rfl).1,
   congrArg Prod.fst ((C18_real_to_integer_assignment sampleContext _ _
      (.DeclArrayRef "X" (.Literal (.int 2))) (.DeclVarRef "r") _ _ _ 32 rfl rfl rfl rfl
      rfl).1 rfl).1,
   (C18_real_to_integer_assignment sampleContext sampleContext sampleContext
      (.DeclVarRef "i") (.Literal (.int 7)) _ _ _ 32 rfl rfl rfl rfl rfl).2 rfl⟩

/-- C19, counterexample. In the lowering of `r := 1`, after the declarations of
`sampleProgram`, where `r` is a real variable, no conversion is inserted: the only
instruction requested is the store of the constant that the folder of the builder hands
back for the conversion of the constant 1. -/
theorem C19_counterexample :
    (visitAssign (.DeclVarRef "r") (.Literal (.int 1))).run sampleContext =
      (.ok (), sampleContext.emit .store
        [.foldedUnary .sitofp (.constantInt (.integer 32) 1) .double,
          .globalVariable 1 .double] .void "") ∧
    (((visitAssign (.DeclVarRef "r") (.Literal (.int 1))).run sampleContext).2.code.filter
      fun p => p.2.opcode = .sitofp) = [] := by
  decide!

/-- C19, amended. Implicit conversion on assignment. In `lhs := rhs` with a target that is
not a constant, let the store visitor find the memory location `store` of the target, a
pointer to `target`, and let the right-hand side lower to the value `v`. When the target is
real and `v` is an integer, the signed-int-to-FP conversion of `v` is requested from the
builder and its result is stored: if `v` is no constant, the instruction `sitofp` is
inserted and then the store of its result; if `v` is a constant, the builder folds the
conversion, and the store of the folded constant is the only instruction inserted. When the
target is real and `v` is real, and when the target is an integer and `v` is an integer,
`v` itself is stored and nothing else is requested. -/
theorem C19_implicit_conversion (g g1 g2 : GenContext) (varNode exprNode : Expr)
    (symbol : Symbol) (store v : Value) (target : LType)
    (hsym : g.symbolTable.lookup varNode.getRefName = some symbol)
    (hmut : symbol.immutable = false)
    (hstore : (storeVisit varNode).run g = (.ok (some store), g1))
    (htarget : store.getType = .pointer target)
    (hexpr : (visitExpr exprNode).run g1 = (.ok (some v), g2)) :
    (target = .double → v.getType.isIntegerTy = true → v.isConstant = false →
      (visitAssign varNode exprNode).run g =
        (.ok (), (g2.emit .sitofp [v] .double "").emit .store
          [.instruction g2.code.length .double, store] .void "")) ∧
    (target = .double → v.getType.isIntegerTy = true → v.isConstant = true →
      (visitAssign varNode exprNode).run g =
        (.ok (), g2.emit .store [.foldedUnary .sitofp v .double, store] .void "")) ∧
    (target = .double → v.getType = .double →
      (visitAssign varNode exprNode).run g = (.ok (), g2.emit .store [v, store] .void "")) ∧
    (target.isIntegerTy = true → v.getType.isIntegerTy = true →
      (visitAssign varNode exprNode).run g = (.ok (), g2.emit .store [v, store] .void "")) := by
  have hrun := visitAssign_mutable hsym hmut exprNode
  rw [GenM.bind_ok hstore, assignTo_run hexpr htarget] at hrun
  rw [hrun]
  have hint : v.getType.isIntegerTy = true →
      v.getType ≠ .double ∧ v.getType.isDoubleTy = false := fun hv => by
    cases hty : v.getType <;> simp_all [LType.isDoubleTy, LType.isIntegerTy]
  refine ⟨fun ht hv hc => ?_, fun ht hv hc => ?_, fun ht hv => ?_, fun ht hv => ?_⟩
  · subst ht
    obtain ⟨hd, hd2⟩ := hint hv
    simp only [hd2, Bool.false_and, Bool.false_eq_true, if_false]
    simp [LType.isDoubleTy, hd, hc]
  · subst ht
    obtain ⟨hd, hd2⟩ := hint hv
    simp only [hd2, Bool.false_and, Bool.false_eq_true, if_false]
    simp [LType.isDoubleTy, hd, hc]
  · subst ht
    simp [hv, LType.isDoubleTy, LType.isIntegerTy]
  · obtain ⟨hd, hd2⟩ := hint hv
    have hd3 : target.isDoubleTy = false := by
      cases target <;> simp_all [LType.isDoubleTy, LType.isIntegerTy]
    simp only [hd2, hd3, Bool.false_and, Bool.false_eq_true, if_false, false_and]

/-- Witness of C19 in the state after `var i: integer; r: real`: `r := i` converts the
loaded value and stores the result, `r := 7` stores the folded conversion of the constant,
`r := 1.5` and `i := 7` store the value as it is. -/
theorem C19_implicit_conversion_witness :
    (visitAssign (.DeclVarRef "r") (.DeclVarRef "i")).run sampleContext =
      (.ok (), (((visitExpr (.DeclVarRef "i")).run sampleContext).2.emit .sitofp
        [.instruction 2 (.integer 32)] .double "").emit
        .store [.instruction 3 .double, .globalVariable 1 .double] .void "") ∧
    (visitAssign (.DeclVarRef "r") (.Literal (.int 7))).run sampleContext =
      (.ok (), sampleContext.emit .store
        [.foldedUnary .sitofp (.constantInt (.integer 32) 7) .double,
          .globalVariable 1 .double] .void "") ∧
    (visitAssign (.DeclVarRef "r") (.Literal (.real (3 / 2)))).run sampleContext =
      (.ok (), sampleContext.emit .store [.constantFP (3 / 2), .globalVariable 1 .double]
        .void "") ∧
    (visitAssign (.DeclVarRef "i") (.Literal (.int 7))).run sampleContext =
      (.ok (), sampleContext.emit .store
        [.constantInt (.integer 32) 7, .globalVariable 0 (.integer 32)] .void "") :=
  ⟨(C19_implicit_conversion sampleContext sampleContext _
      (.DeclVarRef "r") (.DeclVarRef "i") _ _ _ .double rfl rfl rfl rfl rfl).1 rfl rfl rfl,
   (C19_implicit_conversion sampleContext sampleContext sampleContext
      (.DeclVarRef "r") (.Literal (.int 7)) _ _ _ .double rfl rfl rfl rfl rfl).2.1 rfl rfl
      rfl,
   (C19_implicit_conversion sampleContext sampleContext sampleContext
      (.DeclVarRef "r") (.Literal (.real (3 / 2))) _ _ _ .double rfl rfl rfl rfl
      rfl).2.2.1 rfl rfl,
   (C19_implicit_conversion sampleContext sampleContext sampleContext
      (.DeclVarRef "i") (.Literal (.int 7)) _ _ _ (.integer 32) rfl rfl rfl rfl
      rfl).2.2.2 rfl rfl⟩

/-! ## Which symbols are immutable -/

theorem ensures_throw {α : Type} (P : GenContext → Prop) (e : GenError) :
    GenM.Ensures P (GenM.throw e : GenM α) :=
  ⟨fun g a g' h => by simp [GenM.throw_run] at h⟩

theorem ensures_bind {α β : Type} {P : GenContext → Prop} {m : GenM α}
    {f : α → GenM β} (hf : ∀ a, GenM.Ensures P (f a)) : GenM.Ensures P (m >>= f) := by
  refine ⟨fun g b g' h => ?_⟩
  rw [GenM.bind_run] at h
  rcases h1 : m.run g with ⟨r, g1⟩
  rw [h1] at h
  cases r with
  | ok a => exact (hf a).after g1 b g' h
  | error e => simp at h

theorem GenM.bind_ok_inv {α β : Type} {m : GenM α} {f : α → GenM β} {g g' : GenContext}
    {b : β} (h : (m >>= f).run g = (.ok b, g')) :
    ∃ a g1, m.run g = (.ok a, g1) ∧ (f a).run g1 = (.ok b, g') := by
  rw [GenM.bind_run] at h
  rcases h1 : m.run g with ⟨r, g1⟩
  rw [h1] at h
  cases r with
  | ok a => exact ⟨a, g1, rfl, h⟩
  | error e => simp at h

theorem ensures_addSymbol (name : String) (symbol : Symbol) :
    GenM.Ensures (fun g' => g'.symbolTable.lookup name = some symbol)
      (addSymbol name symbol) := by
  refine ⟨fun g a g' h => ?_⟩
  by_cases hc : g.symbolTable.contains name = true
  · simp [addSymbol, GenM.run, hc] at h
  · rw [addSymbol_run symbol (by simpa using hc)] at h
    simp only [Prod.mk.injEq] at h
    rw [← h.2]
    simp [List.lookup]

theorem ensures_visitConstDef (setGlobal : Bool) (declName : String) (global : Bool)
    (exprNode : Expr) :
    GenM.Ensures (fun g' => ∃ s, g'.symbolTable.lookup declName = some s ∧ s.immutable = true)
      (visitConstDef setGlobal declName global exprNode) := by
  unfold visitConstDef
  repeat' first
    | with_reducible exact ensures_throw _ _
    | exact ⟨fun g a g' h => ⟨_, (ensures_addSymbol _ _).after g a g' h, rfl⟩⟩
    | with_reducible apply ensures_bind
    | intro _
    | dsimp only
    | split

theorem ensures_visitVarDecl (setGlobal : Bool) (node : VarDecl) :
    GenM.Ensures
      (fun g' => ∃ s, g'.symbolTable.lookup node.declName = some s ∧ s.immutable = false)
      (visitVarDecl setGlobal node) := by
  unfold visitVarDecl
  repeat' first
    | with_reducible exact ensures_throw _ _
    | exact ⟨fun g a g' h => ⟨_, (ensures_addSymbol _ _).after g a g' h, rfl⟩⟩
    | with_reducible apply ensures_bind
    | intro _
    | dsimp only
    | split

theorem ensures_visitArrayDecl (setGlobal : Bool) (declName : String) (global : Bool)
    (typeNode : ArrayType) :
    GenM.Ensures (fun g' => ∃ s, g'.symbolTable.lookup declName = some s ∧ s.immutable = false)
      (visitArrayDecl setGlobal declName global typeNode) := by
  unfold visitArrayDecl
  repeat' first
    | with_reducible exact ensures_throw _ _
    | exact ⟨fun g a g' h => ⟨_, (ensures_addSymbol _ _).after g a g' h, rfl⟩⟩
    | with_reducible apply ensures_bind
    | intro _
    | dsimp only
    | split

theorem ensures_createReturnSlot (declName : String) (retTypeNode : PrimitiveType) :
    GenM.Ensures (fun g' => ∃ s, g'.symbolTable.lookup declName = some s ∧ s.immutable = false)
      (createReturnSlot declName retTypeNode) := by
  unfold createReturnSlot
  repeat' first
    | with_reducible exact ensures_throw _ _
    | exact ⟨fun g a g' h => by
        obtain ⟨u, g1, h1, h2⟩ := GenM.bind_ok_inv h
        cases h2
        exact ⟨_, (ensures_addSymbol _ _).after g u _ h1, rfl⟩⟩
    | with_reducible apply ensures_bind
    | intro _
    | dsimp only
    | split

theorem noNewConstants_refl (g : GenContext) : NoNewConstants g g := fun _ _ h _ => h

theorem noNewConstants_trans {g1 g2 g3 : GenContext} (h1 : NoNewConstants g1 g2)
    (h2 : NoNewConstants g2 g3) : NoNewConstants g1 g3 :=
  fun n s h hs => h1 n s (h2 n s h hs) hs

theorem noNewConstants_of_table {g g' : GenContext} (h : g'.symbolTable = g.symbolTable) :
    NoNewConstants g g' := by
  intro n s hl _
  rw [h] at hl
  exact hl

theorem noNewConstants_addSymbol (g : GenContext) (name : String) (symbol : Symbol)
    (h : symbol.immutable = false) : NoNewConstants g ((addSymbol name symbol).run g).2 := by
  by_cases hc : g.symbolTable.contains name = true
  · simp only [addSymbol, GenM.run, hc, if_true]
    exact noNewConstants_refl g
  · rw [addSymbol_run symbol (by simpa using hc)]
    intro n s hl hs
    simp only [setSymbolTable_symbolTable, List.lookup] at hl
    split at hl
    · simp only [Option.some.injEq] at hl
      rw [← hl, h] at hs
      exact absurd hs (by decide)
    · exact hl

theorem keeps_storeArguments (func : Nat) :
    ∀ (types : List LType) (i : Nat) (names : List String) (paramNodes : List VarDecl),
      GenM.Keeps NoNewConstants (storeArguments func i types names paramNodes) := by
  intro types
  induction types with
  | nil =>
    intro i names paramNodes
    refine ⟨fun g => ?_⟩
    unfold storeArguments
    exact noNewConstants_refl g
  | cons type types ih =>
    intro i names paramNodes
    refine ⟨fun g => ?_⟩
    cases names with
    | nil => unfold storeArguments; exact noNewConstants_refl g
    | cons name names =>
      cases paramNodes with
      | nil => unfold storeArguments; exact noNewConstants_refl g
      | cons param paramNodes =>
        unfold storeArguments
        simp only [CreateAlloca, CreateStore, GenM.bind_run, insert_run]
        have h1 := noNewConstants_addSymbol
          ((g.emit (.alloca type) [] (.pointer type) name).emit .store
            [.argument func i type, .instruction g.code.length (.pointer type)] .void "")
          name ⟨name, .primitive param.typeNode,
            .allocaInst (.instruction g.code.length (.pointer type)), false⟩ rfl
        rcases h2 : (addSymbol name ⟨name, .primitive param.typeNode,
            .allocaInst (.instruction g.code.length (.pointer type)), false⟩).run
          ((g.emit (.alloca type) [] (.pointer type) name).emit .store
            [.argument func i type, .instruction g.code.length (.pointer type)] .void "")
          with ⟨r, g1⟩
        rw [h2] at h1
        have h0 : NoNewConstants g g1 := fun n s hl hs => h1 n s hl hs
        cases r with
        | error e => exact h0
        | ok u => exact noNewConstants_trans h0 ((ih (i + 1) names paramNodes).after g1)

/-- C17. Constants are immutable. An assignment whose target name resolves to an immutable
symbol raises `CodeGenException` and leaves the state as it was. A constant definition that
is lowered, global or local, binds its name to an immutable symbol; a variable declaration,
an array declaration and the return slot of a function bind their name to a symbol that is
not immutable, and the stack slots of the parameters add no immutable symbol. For a target
that is not immutable the assignment goes on to the store visitor and the store. -/
theorem C17_constants_immutable :
    (∀ (g : GenContext) (varNode exprNode : Expr) (symbol : Symbol),
      g.symbolTable.lookup varNode.getRefName = some symbol → symbol.immutable = true →
      (visitAssign varNode exprNode).run g =
        (.error (.codeGen ("Cannot assign to a constant: " ++ varNode.getRefName)), g)) ∧
    (∀ (g g' : GenContext) (setGlobal : Bool) (declName : String) (global : Bool)
      (exprNode : Expr),
      (visitConstDef setGlobal declName global exprNode).run g = (.ok (), g') →
      ∃ s, g'.symbolTable.lookup declName = some s ∧ s.immutable = true) ∧
    (∀ (g g' : GenContext) (setGlobal : Bool) (node : VarDecl),
      (visitVarDecl setGlobal node).run g = (.ok (), g') →
      ∃ s, g'.symbolTable.lookup node.declName = some s ∧ s.immutable = false) ∧
    (∀ (g g' : GenContext) (setGlobal : Bool) (declName : String) (global : Bool)
      (typeNode : ArrayType),
      (visitArrayDecl setGlobal declName global typeNode).run g = (.ok (), g') →
      ∃ s, g'.symbolTable.lookup declName = some s ∧ s.immutable = false) ∧
    (∀ (g : GenContext) (func i : Nat) (types : List LType) (names : List String)
      (paramNodes : List VarDecl),
      NoNewConstants g ((storeArguments func i types names paramNodes).run g).2) ∧
    (∀ (g g' : GenContext) (declName : String) (retTypeNode : PrimitiveType) (slot : Value),
      (createReturnSlot declName retTypeNode).run g = (.ok slot, g') →
      ∃ s, g'.symbolTable.lookup declName = some s ∧ s.immutable = false) ∧
    (∀ (g : GenContext) (varNode exprNode : Expr) (symbol : Symbol),
      g.symbolTable.lookup varNode.getRefName = some symbol → symbol.immutable = false →
      (visitAssign varNode exprNode).run g =
        (storeVisit varNode >>= fun store =>
          assignTo varNode.getRefName store exprNode).run g) := by
  refine ⟨fun g varNode exprNode symbol hsym himm => ?_,
    fun g g' sg n gl e h => (ensures_visitConstDef sg n gl e).after g () g' h,
    fun g g' sg node h => (ensures_visitVarDecl sg node).after g () g' h,
    fun g g' sg n gl t h => (ensures_visitArrayDecl sg n gl t).after g () g' h,
    fun g func i types names params => (keeps_storeArguments func types i names params).after g,
    fun g g' n t slot h => (ensures_createReturnSlot n t).after g slot g' h,
    fun g varNode exprNode symbol hsym hmut => visitAssign_mutable hsym hmut exprNode⟩
  unfold visitAssign
  simp only [GenM.bind_run, GenM.get_run, contains_of_lookup hsym, getSymbol_run hsym, himm,
    Bool.not_true, Bool.false_eq_true, if_false, if_true, GenM.throw_run]

/-- Witness of C17 in the state after `var i: integer; const c = 1`: `c := 5` is rejected,
`i := 5` goes on to the store. -/
theorem C17_constants_immutable_witness :
    (visitAssign (.DeclVarRef "c") (.Literal (.int 5))).run sampleContext =
      (.error (.codeGen "Cannot assign to a constant: c"), sampleContext) ∧
    (visitAssign (.DeclVarRef "i") (.Literal (.int 5))).run sampleContext =
      (storeVisit (.DeclVarRef "i") >>= fun store =>
        assignTo "i" store (.Literal (.int 5))).run sampleContext :=
  ⟨C17_constants_immutable.1 sampleContext (.DeclVarRef "c") (.Literal (.int 5)) _ rfl rfl,
   C17_constants_immutable.2.2.2.2.2.2 sampleContext (.DeclVarRef "i") (.Literal (.int 5)) _
     rfl rfl⟩

/-- C20. Redeclaration is rejected. In a state whose symbol table holds the name, whether
the symbol was declared in the same scope or in an enclosing one, the lowering of a variable
declaration, of an array declaration and of a constant definition with this name raises
`CodeGenException` and leaves the state, the symbol table included, as it was. In
particular the lowering of `program test; var y : integer; procedure proc(); const y = 5;
begin end; begin end.` ends with this exception at `const y`. -/
theorem C20_redeclaration (g : GenContext) (declName : String)
    (h : g.symbolTable.contains declName = true) :
    (∀ setGlobal (node : VarDecl), node.declName = declName →
      (visitVarDecl setGlobal node).run g =
        (.error (.codeGen ("Variable is already declared: " ++ declName)), g)) ∧
    (∀ setGlobal global typeNode,
      (visitArrayDecl setGlobal declName global typeNode).run g =
        (.error (.codeGen ("Array is already declared: " ++ declName)), g)) ∧
    (∀ setGlobal global exprNode,
      (visitConstDef setGlobal declName global exprNode).run g =
        (.error (.codeGen ("Constant is already defined: " ++ declName)), g)) ∧
    ((parseSource 100 ("program test; var y : integer; procedure proc(); const y = 5; " ++
        "begin end; begin end.").toList).map fun p => (generate p).1) =
      .ok (.error (.codeGen "Constant is already defined: y")) := by
  refine ⟨fun sg node hn => ?_, fun sg gl t => ?_, fun sg gl e => ?_, by decide!⟩
  · subst hn
    simp only [visitVarDecl, GenM.bind_run, GenM.get_run, h, if_true, GenM.throw_run]
  · simp only [visitArrayDecl, GenM.bind_run, GenM.get_run, h, if_true, GenM.throw_run]
  · simp only [visitConstDef, GenM.bind_run, GenM.get_run, h, if_true, GenM.throw_run]

/-- Witness of C20 in the state after `var i: integer; ... const c = 1`. -/
theorem C20_redeclaration_witness :
    (visitVarDecl false ⟨"c", false, .REAL⟩).run sampleContext =
      (.error (.codeGen "Variable is already declared: c"), sampleContext) ∧
    (visitArrayDecl false "i" false ⟨.INTEGER, 0, 9⟩).run sampleContext =
      (.error (.codeGen "Array is already declared: i"), sampleContext) ∧
    (visitConstDef true "X" false (.Literal (.int 0))).run sampleContext =
      (.error (.codeGen "Constant is already defined: X"), sampleContext) :=
  ⟨(C20_redeclaration sampleContext "c" rfl).1 false ⟨"c", false, .REAL⟩ rfl,
   (C20_redeclaration sampleContext "i" rfl).2.1 false false ⟨.INTEGER, 0, 9⟩,
   (C20_redeclaration sampleContext "X" rfl).2.2.1 true false (.Literal (.int 0))⟩

/-! ## Array declarations -/

theorem initArray_run {arrayType elementType : LType} {n : Nat}
    (harr : arrayType = .array elementType n) (store zeroIndex defaultV : Value) :
    ∀ (count i : Nat) (g : GenContext), ∃ g',
      (initArray arrayType store zeroIndex defaultV count i).run g = (.ok (), g') ∧
      g'.symbolTable = g.symbolTable := by
  subst harr
  intro count
  induction count with
  | zero => intro i g; exact ⟨g, rfl, rfl⟩
  | succ count ih =>
    intro i g
    unfold initArray
    simp only [CreateGEP, CreateStore, GenM.bind_run]
    by_cases hc : (store.isConstant && zeroIndex.isConstant &&
        (Value.constantInt (.integer 32) i).isConstant) = true
    · simp only [hc, if_true, GenM.pure_run, insert_run]
      obtain ⟨g', h1, h2⟩ := ih (i + 1)
        (g.emit .store [defaultV, .foldedGEP (.array elementType n) store zeroIndex
          (.constantInt (.integer 32) i) (.pointer elementType)] .void "")
      exact ⟨g', h1, by rw [h2]; rfl⟩
    · simp only [hc, if_false, Bool.false_eq_true, insert_run]
      obtain ⟨g', h1, h2⟩ := ih (i + 1)
        ((g.emit (.getelementptr (.array elementType n))
            [store, zeroIndex, .constantInt (.integer 32) i] (.pointer elementType) "").emit
          .store [defaultV, .instruction g.code.length (.pointer elementType)] .void "")
      exact ⟨g', h1, by rw [h2]; rfl⟩

theorem wrapInt_of_range {x : Int} (h1 : -2147483648 ≤ x) (h2 : x < 2147483648) :
    wrapInt x = x := by
  unfold wrapInt
  omega

/-- The limits of an array declaration whose bounds are at most `2^31 - 1` apart: with a
fresh name it is lowered if and only if `lo < hi` and `hi - lo <= 1000`, and it raises
`CodeGenException` otherwise. -/
theorem visitArrayDecl_limits (g : GenContext) (setGlobal : Bool) (declName : String)
    (global : Bool) (typeNode : ArrayType)
    (hfresh : g.symbolTable.contains declName = false)
    (hsize : typeNode.upperBound - typeNode.lowerBound < 2147483648) :
    (((visitArrayDecl setGlobal declName global typeNode).run g).1 = .ok () ↔
      typeNode.lowerBound < typeNode.upperBound ∧
        typeNode.upperBound - typeNode.lowerBound ≤ 1000) ∧
    (¬(typeNode.lowerBound < typeNode.upperBound ∧
        typeNode.upperBound - typeNode.lowerBound ≤ 1000) →
      ∃ message,
        ((visitArrayDecl setGlobal declName global typeNode).run g).1 =
          .error (.codeGen message)) := by
  unfold visitArrayDecl
  simp only [GenM.bind_run, GenM.get_run, hfresh, Bool.false_eq_true, if_false]
  by_cases h1 : typeNode.lowerBound > typeNode.upperBound
  · simp only [h1, if_true, GenM.throw_run]
    refine ⟨⟨fun h => by simp at h, fun h => by omega⟩, fun _ => ⟨_, rfl⟩⟩
  · have hw : wrapInt (typeNode.upperBound - typeNode.lowerBound) =
        typeNode.upperBound - typeNode.lowerBound := wrapInt_of_range (by omega) hsize
    simp only [h1, if_false, hw]
    by_cases h2 : typeNode.upperBound - typeNode.lowerBound > 1000
    · simp only [h2, if_true, GenM.throw_run]
      refine ⟨⟨fun h => by simp at h, fun h => by omega⟩, fun _ => ⟨_, rfl⟩⟩
    · simp only [h2, if_false]
      by_cases h3 : typeNode.upperBound = typeNode.lowerBound
      · simp only [h3, if_true, GenM.throw_run]
        refine ⟨⟨fun h => by simp at h, fun h => by omega⟩, fun _ => ⟨_, rfl⟩⟩
      · simp only [h3, if_false]
        have hgood : typeNode.lowerBound < typeNode.upperBound ∧
            typeNode.upperBound - typeNode.lowerBound ≤ 1000 := by omega
        refine ⟨⟨fun _ => hgood, fun _ => ?_⟩, fun h => absurd hgood h⟩
        by_cases hg : isGlobal setGlobal global = true
        · simp only [hg, if_true, GenM.bind_run, newGlobalVariable_run]
          rw [addSymbol_run _ (by simpa using hfresh)]
        · have he : ∀ g, (getArrayElementType (genArrayType typeNode)).run g =
              (.ok (genPrimitiveType typeNode.elemTypeNode), g) := fun _ => rfl
          have hd : ∃ d, ∀ g, (getDefaultValueForType
              (genPrimitiveType typeNode.elemTypeNode)).run g = (.ok d, g) := by
            cases typeNode.elemTypeNode
            · exact ⟨_, fun _ => rfl⟩
            · exact ⟨_, fun _ => rfl⟩
          obtain ⟨d, hd⟩ := hd
          simp only [hg, Bool.false_eq_true, if_false, GenM.bind_run, CreateAlloca, insert_run,
            he, hd]
          obtain ⟨g', hi1, hi2⟩ := @initArray_run (genArrayType typeNode) _ _ rfl
            (.instruction g.code.length (.pointer (genArrayType typeNode)))
            (.constantInt (.integer 32) 0) d
            ((wrapInt (typeNode.upperBound - typeNode.lowerBound + 1)) % 4294967296).toNat 0
            (g.emit (.alloca (genArrayType typeNode)) [] (.pointer (genArrayType typeNode))
              declName)
          rw [hi1]
          dsimp only
          rw [addSymbol_run _ (by rw [hi2]; simpa using hfresh)]

/-- C14, at bounds that are more than `2^31 - 1` apart. The difference of the bounds is
an `int`; for `array [-2000000000 .. 2000000000]` it does not fit (with two's complement
wrapping it is -294967296), none of the three tests fires, and the declaration, which has
4000000001 elements, is lowered: to a global array whose size, the `int` -294967295 read
as `uint64_t`, is 18446744073414584321. -/
theorem C14_array_limits_overflow :
    ((visitArrayDecl true "X" false ⟨.INTEGER, -2000000000, 2000000000⟩).run
      GenContext.new).1 = .ok () ∧
    genArrayType ⟨.INTEGER, -2000000000, 2000000000⟩ =
      .array (.integer 32) 18446744073414584321 ∧
    ((parseSource 100 ("program t; var X: array [-2000000000 .. 2000000000] of integer; " ++
        "begin end.").toList).map fun p => (generate p).1) = .ok (.ok ()) := by
  refine ⟨by decide!, by decide!, by decide!⟩

/-! ## The bounds check -/

theorem createValueName_free {taken : List String} {name : String} (separator : String)
    (lastUnique : Nat) (h : name ∉ taken) :
    createValueName taken separator name lastUnique = (name, lastUnique) := by
  simp only [createValueName, h, if_false]

theorem functionAt_created (g : GenContext) (returnType : LType) (paramTypes : List LType)
    (isVarArg : Bool) (name : String) {n : Nat} (h : n = g.functions.length) :
    (functionAt n).run (g.addFunction returnType paramTypes isVarArg name) =
      (.ok ⟨(createValueName g.namedValues "." name g.lastUnique).1, returnType, paramTypes,
        isVarArg, paramTypes.map fun _ => ""⟩,
        g.addFunction returnType paramTypes isVarArg name) := by
  subst h
  exact functionAt_run (by simp)

/-- The state that a bounds check leaves once the test of the index has been requested,
with the result `cond` and at an insertion point in a block of a function: a branch at the
insertion point, the block `check` with the conditional branch on `cond`, the block
`throw_exception` with the call and `unreachable`, the empty block `continue` as the new
insertion point, and the text among the global variables. The called function is the found
one or the declared one. -/
theorem generateIndexOutOfBoundsCheck_after (arrayName : String)
    {indexV lowerBoundV upperBoundV below above cond : Value} {g0 g1 g2 g : GenContext}
    {b f : Nat} {block : BasicBlock}
    (hbelow : (CreateICmp .SLT indexV lowerBoundV "").run g0 = (.ok below, g1))
    (habove : (CreateICmp .SGT indexV upperBoundV "").run g1 = (.ok above, g2))
    (hcond : (CreateBinOp .or below above "indexOutOfBounds").run g2 = (.ok cond, g))
    (hb : g.insertBlock = some b) (hblock : g.blocks[b]? = some block)
    (hf : block.parent = some f) :
    ∃ (g4 : GenContext) (errorFunc : Nat) (callee : Function),
      (generateIndexOutOfBoundsCheck arrayName indexV lowerBoundV upperBoundV).run g0 =
        (.ok (), g4) ∧
      g4.code = g.code ++
        [(some b, ⟨g.code.length, .br g.blocks.length, [], .void, ""⟩),
         (some g.blocks.length, ⟨g.code.length + 1,
            .condBr (g.blocks.length + 1) (g.blocks.length + 2), [cond], .void, ""⟩),
         (some (g.blocks.length + 1), ⟨g.code.length + 2, .call errorFunc,
            [.globalStringPtr g.globals.length], callee.returnType, ""⟩),
         (some (g.blocks.length + 1), ⟨g.code.length + 3, .unreachable, [], .void, ""⟩)] ∧
      g4.blocks = g.blocks ++
        [⟨"check", some f⟩, ⟨"throw_exception", some f⟩, ⟨"continue", some f⟩] ∧
      g4.insertBlock = some (g.blocks.length + 2) ∧
      g4.globals = g.globals ++
        [⟨"", .array (.integer 8) ((outOfBoundsMessage arrayName).utf8ByteSize + 1),
          .text (outOfBoundsMessage arrayName)⟩] ∧
      g4.symbolTable = g.symbolTable ∧
      g4.functions[errorFunc]? = some callee ∧
      ("error" ∉ g.globals.map GlobalVariable.name → callee.name = "error") ∧
      (g4.functions = g.functions ∨ g4.functions = g.functions ++ [callee]) := by
  have hp : ∀ g1 : GenContext, g1.insertBlock = some b → g1.blocks[b]? = some block →
      GetInsertBlockParent.run g1 = (.ok (some f), g1) := fun g1 h1 h2 => by
    rw [getInsertBlockParent_run h1 h2, hf]
  unfold generateIndexOutOfBoundsCheck
  rw [GenM.bind_ok hbelow, GenM.bind_ok habove, GenM.bind_ok hcond]
  simp only [GenM.bind_run, insert_run, CreateBr, CreateCondBr,
    CreateUnreachable, createBlock_run, setInsertPoint_run, globalString_run, getFunction_run]
  rw [hp _ hb hblock]
  simp only [Option.isNone_some, Bool.false_eq_true, if_false, GenM.bind_run, createBlock_run,
    insert_run, setInsertPoint_run, globalString_run, getFunction_run]
  have hne : ¬("error" = "") := by decide
  rw [if_neg hne]
  simp only [emit_functions, addBlock_functions, setInsertBlock_functions,
    addString_functions]
  cases hfind : g.functions.findIdx? (fun f => f.name = "error") with
  | some e =>
    obtain ⟨he, hname, -⟩ := List.findIdx?_eq_some_iff_getElem.1 hfind
    have hget : g.functions[e]? = some g.functions[e] := List.getElem?_eq_getElem he
    simp only [GenM.pure_run, CreateCall, GenM.bind_run]
    rw [functionAt_run (f := g.functions[e]) (by simp)]
    simp only [insert_run]
    refine ⟨_, e, g.functions[e], rfl, ?_, ?_, ?_, ?_, ?_, ?_, ?_, ?_⟩
    · simp [hb, Value.getType]
    · simp
    · simp
    · simp
    · simp
    · simp
    · intro _; simpa using hname
    · left; simp
  | none =>
    have hfree : ∀ f ∈ g.functions, f.name ≠ "error" := by
      intro f hf
      have := List.findIdx?_eq_none_iff.1 hfind f hf
      simpa using this
    have hnames : ∀ text, ((g.globals ++
        [(⟨"", .array (.integer 8) (String.utf8ByteSize text + 1), .text text⟩ :
          GlobalVariable)]).map GlobalVariable.name).filter (· ≠ "") =
        (g.globals.map GlobalVariable.name).filter (· ≠ "") := by
      intro text
      simp [List.filter_append]
    simp only [GenM.pure_run, CreateCall, GenM.bind_run, createFunction_run]
    rw [functionAt_created _ _ _ _ _ (by simp)]
    simp only [insert_run, setInsertPoint_run, GenContext.namedValues, emit_functions,
      addBlock_functions, setInsertBlock_functions, addString_functions, emit_globals,
      addBlock_globals, setInsertBlock_globals, addString_globals, emit_lastUnique,
      addBlock_lastUnique, setInsertBlock_lastUnique, addString_lastUnique, hnames]
    refine ⟨_, g.functions.length,
      ⟨(createValueName g.namedValues "." "error" g.lastUnique).1, .integer 32,
        [.pointer (.integer 8)], true, [""]⟩, rfl, ?_, ?_, ?_, ?_, ?_, ?_, ?_, ?_⟩
    · simp [hb, Value.getType]
    · simp
    · simp
    · simp
    · simp
    · simp [GenContext.namedValues, hnames]
    · intro hglob
      rw [createValueName_free]
      simp only [GenContext.namedValues, List.mem_append, List.mem_map, List.mem_filter, not_or]
      exact ⟨fun ⟨f, hf, hn⟩ => hfree f hf hn, fun ⟨⟨v, hv, hn⟩, _⟩ =>
        hglob (List.mem_map.2 ⟨v, hv, hn⟩)⟩
    · right; simp [GenContext.namedValues, hnames]

/-- The state that a bounds check against two constants leaves, at an insertion point in a
block of a function. The test of an index that is no constant is three instructions at the
insertion point, two comparisons and their `or`; the test of a constant index is folded by
the builder, and no instruction stands for it. Then come the branch at the insertion point,
the block `check` with the conditional branch on the result of the test, the block
`throw_exception` with the call and `unreachable`, and the empty block `continue` as the
new insertion point. -/
theorem generateIndexOutOfBoundsCheck_run (g : GenContext) (arrayName : String)
    (indexV lowerBoundV upperBoundV : Value) {b f : Nat} {block : BasicBlock}
    (hlower : lowerBoundV.isConstant = true) (hupper : upperBoundV.isConstant = true)
    (hb : g.insertBlock = some b) (hblock : g.blocks[b]? = some block)
    (hf : block.parent = some f) :
    ∃ (g2 : GenContext) (errorFunc : Nat) (callee : Function) (tests : List Instruction)
        (cond : Value),
      (generateIndexOutOfBoundsCheck arrayName indexV lowerBoundV upperBoundV).run g =
        (.ok (), g2) ∧
      (indexV.isConstant = false →
        tests =
          [⟨g.code.length, .icmp .SLT, [indexV, lowerBoundV], .integer 1, ""⟩,
           ⟨g.code.length + 1, .icmp .SGT, [indexV, upperBoundV], .integer 1, ""⟩,
           ⟨g.code.length + 2, .or,
              [.instruction g.code.length (.integer 1),
               .instruction (g.code.length + 1) (.integer 1)], .integer 1,
              "indexOutOfBounds"⟩] ∧
        cond = .instruction (g.code.length + 2) (.integer 1)) ∧
      (indexV.isConstant = true →
        tests = [] ∧
        cond = .folded .or (.folded (.icmp .SLT) indexV lowerBoundV (.integer 1))
          (.folded (.icmp .SGT) indexV upperBoundV (.integer 1)) (.integer 1)) ∧
      g2.code = g.code ++ tests.map (fun i => (some b, i)) ++
        [(some b, ⟨g.code.length + tests.length, .br g.blocks.length, [], .void, ""⟩),
         (some g.blocks.length, ⟨g.code.length + tests.length + 1,
            .condBr (g.blocks.length + 1) (g.blocks.length + 2), [cond], .void, ""⟩),
         (some (g.blocks.length + 1), ⟨g.code.length + tests.length + 2, .call errorFunc,
            [.globalStringPtr g.globals.length], callee.returnType, ""⟩),
         (some (g.blocks.length + 1), ⟨g.code.length + tests.length + 3, .unreachable, [],
            .void, ""⟩)] ∧
      g2.blocks = g.blocks ++
        [⟨"check", some f⟩, ⟨"throw_exception", some f⟩, ⟨"continue", some f⟩] ∧
      g2.insertBlock = some (g.blocks.length + 2) ∧
      g2.globals = g.globals ++
        [⟨"", .array (.integer 8) ((outOfBoundsMessage arrayName).utf8ByteSize + 1),
          .text (outOfBoundsMessage arrayName)⟩] ∧
      g2.symbolTable = g.symbolTable ∧
      g2.functions[errorFunc]? = some callee ∧
      ("error" ∉ g.globals.map GlobalVariable.name → callee.name = "error") ∧
      (g2.functions = g.functions ∨ g2.functions = g.functions ++ [callee]) := by
  by_cases hc : indexV.isConstant = true
  · obtain ⟨g4, errorFunc, callee, hrun, hcode, hblocks, hins, hglob, hsym, hfun, hname,
      hfuns⟩ := generateIndexOutOfBoundsCheck_after arrayName
        (createICmp_folded .SLT "" g hc hlower) (createICmp_folded .SGT "" g hc hupper)
        (createBinOp_folded .or "indexOutOfBounds" g rfl rfl) hb hblock hf
    refine ⟨g4, errorFunc, callee, [], _, hrun, fun h => ?_, fun _ => ⟨rfl, rfl⟩, ?_, hblocks,
      hins, hglob, hsym, hfun, hname, hfuns⟩
    · rw [hc] at h; cases h
    · simpa using hcode
  · have hc2 : indexV.isConstant = false := by simpa using hc
    have hleft : (indexV.isConstant && lowerBoundV.isConstant) = false := by simp [hc2]
    have hright : (indexV.isConstant && upperBoundV.isConstant) = false := by simp [hc2]
    obtain ⟨g4, errorFunc, callee, hrun, hcode, hblocks, hins, hglob, hsym, hfun, hname,
      hfuns⟩ := generateIndexOutOfBoundsCheck_after arrayName
        (createICmp_inserted .SLT "" g hleft) (createICmp_inserted .SGT "" _ hright)
        (createBinOp_inserted .or "indexOutOfBounds" _ rfl)
        (by simpa using hb) (by simpa using hblock) hf
    refine ⟨g4, errorFunc, callee, _, _, hrun, fun _ => ⟨rfl, rfl⟩, fun h => ?_, ?_, ?_, ?_, ?_,
      hsym, hfun, ?_, ?_⟩
    · rw [hc2] at h; cases h
    · simpa [hb, Value.getType, Nat.add_assoc] using hcode
    · simpa using hblocks
    · simpa using hins
    · simpa using hglob
    · simpa using hname
    · simpa using hfuns

theorem instructionsOf_append (g g2 : GenContext) (added : List (Option Nat × Instruction))
    (h : g2.code = g.code ++ added) (c : Nat) :
    g2.instructionsOf c =
      g.instructionsOf c ++ (added.filter fun p => p.1 = some c).map Prod.snd := by
  simp [GenContext.instructionsOf, h]

theorem instructionsOf_fresh {g : GenContext} (hwf : g.codeInBlocks = true) {c : Nat}
    (hc : g.blocks.length ≤ c) : g.instructionsOf c = [] := by
  simp only [GenContext.instructionsOf, List.map_eq_nil_iff, List.filter_eq_nil_iff]
  intro p hp
  have := List.all_eq_true.1 hwf p hp
  intro h
  rw [of_decide_eq_true h] at this
  simp at this
  omega

theorem eval_constantInt (regs : Registers) (type : LType) (value : Int) :
    (Value.constantInt type value).eval regs = some value := rfl

theorem eval_instruction (regs : Registers) (id : Nat) (type : LType) :
    (Value.instruction id type).eval regs = regs id := rfl

theorem Registers.set_apply (regs : Registers) (id : Nat) (v : Option Int) (j : Nat) :
    (regs.set id v) j = if j = id then v else regs j := rfl

theorem eval_set_of_lt (regs : Registers) (v : Value) (n id : Nat) (x : Option Int)
    (h : ∀ id type, v = .instruction id type → id < n) (hn : n ≤ id) :
    v.eval (regs.set id x) = v.eval regs := by
  cases v with
  | instruction j type =>
    have := h j type rfl
    rw [eval_instruction, eval_instruction, Registers.set_apply, if_neg (by omega)]
  | _ => rfl

theorem or_bits (p q : Prop) [Decidable p] [Decidable q] :
    Int.lor (if p then 1 else 0) (if q then 1 else 0) ≠ 0 ↔ p ∨ q := by
  by_cases hp : p <;> by_cases hq : q <;> simp only [hp, hq, if_true, if_false] <;> decide

theorem eval_of_constant (regs : Registers) {v : Value} (h : v.isConstant = true) :
    v.eval regs = v.constantValue := by
  cases v <;> first | rfl | cases h

/-- C16. Bounds check predicate. For an array `N` with the bounds `lo` and `hi` and an index
value computed before the check, at an insertion point in a block `b` of a function, whose
code is in blocks that exist: the check is emitted; it appends to `b` instructions whose run,
with any index `i`, continues in the block `check`, and the run of `check` continues in the
block `throw_exception` if and only if `i < lo` or `i > hi` as signed numbers, and in the
block `continue`, the empty block of the new insertion point, otherwise;
`throw_exception` consists of a call with the text
"Runtime error: Array 'N' - the index is out of bounds.\n" as its argument and of
`unreachable`, the instruction after the call; the callee is named `error` unless a global
variable has that name. What the check appends to `b` are four instructions for an index
that is no constant, the test and the branch, and the branch alone for a constant index,
whose test the builder folds. -/
theorem C16_bounds_check_predicate (g : GenContext) (N : String) (indexV : Value)
    (lo hi : Int) (b f : Nat) (block : BasicBlock)
    (hb : g.insertBlock = some b) (hblock : g.blocks[b]? = some block)
    (hf : block.parent = some f) (hwf : g.codeInBlocks = true)
    (hindex : ∀ id type, indexV = .instruction id type → id < g.code.length) :
    ∃ (g2 : GenContext) (errorFunc : Nat) (callee : Function) (appended : List Instruction)
        (call : Instruction),
      (generateIndexOutOfBoundsCheck N indexV (.constantInt (.integer 32) lo)
        (.constantInt (.integer 32) hi)).run g = (.ok (), g2) ∧
      g2.instructionsOf b = g.instructionsOf b ++ appended ∧
      g2.blocks = g.blocks ++
        [⟨"check", some f⟩, ⟨"throw_exception", some f⟩, ⟨"continue", some f⟩] ∧
      g2.insertBlock = some (g.blocks.length + 2) ∧
      g2.instructionsOf (g.blocks.length + 2) = [] ∧
      (∀ (regs : Registers) (i : Int), indexV.eval regs = some i →
        ∃ regs1 regs2,
          runBlock regs appended = some (regs1, g.blocks.length) ∧
          runBlock regs1 (g2.instructionsOf g.blocks.length) =
            some (regs2,
              if i < lo ∨ i > hi then g.blocks.length + 1 else g.blocks.length + 2)) ∧
      g2.instructionsOf (g.blocks.length + 1) =
        [call, ⟨call.id + 1, .unreachable, [], .void, ""⟩] ∧
      call.id = g.code.length + appended.length + 1 ∧
      (indexV.isConstant = false → appended.length = 4) ∧
      (indexV.isConstant = true → appended.length = 1) ∧
      call.opcode = .call errorFunc ∧
      call.operands = [.globalStringPtr g.globals.length] ∧
      (g2.globals[g.globals.length]?).map GlobalVariable.initializer =
        some (.text ("Runtime error: Array '" ++ N ++ "' - the index is out of bounds.\n")) ∧
      g2.functions[errorFunc]? = some callee ∧
      ("error" ∉ g.globals.map GlobalVariable.name → callee.name = "error") := by
  obtain ⟨g2, errorFunc, callee, tests, cond, hrun, hvar, hconst, hcode, hblocks, hins, hglob,
    -, hfun, hname, -⟩ :=
    generateIndexOutOfBoundsCheck_run g N indexV (.constantInt (.integer 32) lo)
      (.constantInt (.integer 32) hi) rfl rfl hb hblock hf
  have hlt : b < g.blocks.length := by
    by_contra h
    rw [List.getElem?_eq_none (by omega)] at hblock
    cases hblock
  have h0 : g.instructionsOf g.blocks.length = [] := instructionsOf_fresh hwf (by omega)
  have h1 : g.instructionsOf (g.blocks.length + 1) = [] := instructionsOf_fresh hwf (by omega)
  have h2 : g.instructionsOf (g.blocks.length + 2) = [] := instructionsOf_fresh hwf (by omega)
  have e0 : ¬(b = g.blocks.length) := by omega
  have e1 : ¬(b = g.blocks.length + 1) := by omega
  have e2 : ¬(b = g.blocks.length + 2) := by omega
  have e3 : ¬(g.blocks.length = b) := by omega
  have e4 : ¬(g.blocks.length + 1 = b) := by omega
  have e5 : ¬(g.blocks.length + 2 = b) := by omega
  rw [List.append_assoc] at hcode
  have hmsg : (g2.globals[g.globals.length]?).map GlobalVariable.initializer =
      some (.text ("Runtime error: Array '" ++ N ++ "' - the index is out of bounds.\n")) := by
    rw [hglob]
    simp [outOfBoundsMessage]
  by_cases hc : indexV.isConstant = true
  · obtain ⟨rfl, rfl⟩ := hconst hc
    refine ⟨g2, errorFunc, callee,
      [⟨g.code.length, .br g.blocks.length, [], .void, ""⟩],
      ⟨g.code.length + 2, .call errorFunc, [.globalStringPtr g.globals.length],
        callee.returnType, ""⟩,
      hrun, ?_, hblocks, hins, ?_, ?_, ?_, rfl, fun h => absurd h (by simp [hc]),
      fun _ => rfl, rfl, rfl, hmsg, hfun, hname⟩
    · rw [instructionsOf_append g g2 _ hcode b]
      simp [List.filter_cons, e0, e1, e2, e3, e4, e5]
    · rw [instructionsOf_append g g2 _ hcode, h2]
      simp [List.filter_cons, e0, e1, e2, e3, e4, e5]
    · intro regs i hidx
      rw [instructionsOf_append g g2 _ hcode, h0]
      simp only [List.map_nil, List.nil_append, List.length_nil, Nat.add_zero,
        List.filter_cons, decide_eq_true_eq, Option.some.injEq, e0, e3, if_false,
        if_true, List.filter_nil, List.map_cons,
        show ¬(g.blocks.length = g.blocks.length + 1) by omega,
        show ¬(g.blocks.length + 1 = g.blocks.length) by omega]
      rw [eval_of_constant regs hc] at hidx
      refine ⟨regs, regs, rfl, ?_⟩
      simp only [runBlock, Value.eval, Value.constantValue, hidx, Opcode.apply,
        Predicate.holds, Option.map_some', decide_eq_true_eq]
      by_cases h : i < lo ∨ i > hi
      · rw [if_pos ((or_bits _ _).2 h), if_pos h]
      · rw [if_neg (fun h3 => h ((or_bits _ _).1 h3)), if_neg h]
    · rw [instructionsOf_append g g2 _ hcode, h1]
      simp [List.filter_cons, e0, e1, e2, e3, e4, e5]
  · obtain ⟨rfl, rfl⟩ := hvar (by simpa using hc)
    refine ⟨g2, errorFunc, callee,
      [⟨g.code.length, .icmp .SLT, [indexV, .constantInt (.integer 32) lo], .integer 1, ""⟩,
       ⟨g.code.length + 1, .icmp .SGT, [indexV, .constantInt (.integer 32) hi], .integer 1,
          ""⟩,
       ⟨g.code.length + 2, .or, [.instruction g.code.length (.integer 1),
          .instruction (g.code.length + 1) (.integer 1)], .integer 1, "indexOutOfBounds"⟩,
       ⟨g.code.length + 3, .br g.blocks.length, [], .void, ""⟩],
      ⟨g.code.length + 5, .call errorFunc, [.globalStringPtr g.globals.length],
        callee.returnType, ""⟩,
      hrun, ?_, hblocks, hins, ?_, ?_, ?_, rfl, fun _ => rfl, fun h => absurd h hc,
      rfl, rfl, hmsg, hfun, hname⟩
    · rw [instructionsOf_append g g2 _ hcode b]
      simp [List.filter_cons, e0, e1, e2, e3, e4, e5]
    · rw [instructionsOf_append g g2 _ hcode, h2]
      simp [List.filter_cons, e0, e1, e2, e3, e4, e5]
    · intro regs i hidx
      rw [instructionsOf_append g g2 _ hcode, h0]
      simp only [List.map_cons, List.map_nil, List.cons_append, List.nil_append,
        List.length_cons, List.length_nil,
        List.filter_cons, decide_eq_true_eq, Option.some.injEq, e0, e3, if_false,
        if_true, List.filter_nil,
        show ¬(g.blocks.length = g.blocks.length + 1) by omega,
        show ¬(g.blocks.length + 1 = g.blocks.length) by omega]
      have hidx1 : ∀ x, indexV.eval (regs.set g.code.length x) = some i := fun x => by
        rw [eval_set_of_lt regs indexV g.code.length g.code.length x hindex (le_refl _), hidx]
      obtain ⟨after, hafter⟩ : ∃ after : Registers, after =
          ((regs.set g.code.length (some (if i < lo then 1 else 0))).set (g.code.length + 1)
            (some (if i > hi then 1 else 0))).set (g.code.length + 2)
            (some (Int.lor (if i < lo then 1 else 0) (if i > hi then 1 else 0))) := ⟨_, rfl⟩
      refine ⟨after, after, ?_, ?_⟩ <;> subst hafter
      · simp only [runBlock, Instruction.eval, hidx, hidx1, eval_constantInt,
          eval_instruction, Opcode.apply,
          Predicate.holds, Option.map_some', decide_eq_true_eq, Registers.set_apply, if_true,
          show ¬(g.code.length = g.code.length + 1) by omega, if_false]
      · simp only [runBlock, eval_instruction, Registers.set_apply, if_true,
          Option.map_some']
        by_cases h : i < lo ∨ i > hi
        · rw [if_pos ((or_bits _ _).2 h), if_pos h]
        · rw [if_neg (fun h3 => h ((or_bits _ _).1 h3)), if_neg h]
    · rw [instructionsOf_append g g2 _ hcode, h1]
      simp [List.filter_cons, e0, e1, e2, e3, e4, e5]


/-- C16 on the check of the index `i` (the load of `i`, instruction 2) of the array `X` with
the bounds -5 and 5: it is emitted into the block `entry`, and with the value 7 in the
register of the load its run reaches the block `throw_exception`. -/
theorem C16_bounds_check_predicate_witness :
    ∃ (g2 : GenContext) (appended : List Instruction),
      (generateIndexOutOfBoundsCheck "X" (.instruction 2 (.integer 32))
        (.constantInt (.integer 32) (-5)) (.constantInt (.integer 32) 5)).run
          ((visitExpr (.DeclVarRef "i")).run sampleContext).2 = (.ok (), g2) ∧
      g2.instructionsOf 0 =
        ((visitExpr (.DeclVarRef "i")).run sampleContext).2.instructionsOf 0 ++ appended ∧
      ∃ regs1 regs2,
        runBlock (fun j => if j = 2 then some 7 else none) appended = some (regs1, 1) ∧
        runBlock regs1 (g2.instructionsOf 1) = some (regs2, 2) := by
  obtain ⟨g2, -, -, appended, -, h1, h2, -, -, -, h6, -⟩ :=
    C16_bounds_check_predicate ((visitExpr (.DeclVarRef "i")).run sampleContext).2 "X"
      (.instruction 2 (.integer 32)) (-5) 5 0 6 ⟨"entry", some 6⟩ rfl rfl rfl rfl
      (fun _ _ h => by cases h; decide)
  exact ⟨g2, appended, h1, h2, h6 (fun j => if j = 2 then some 7 else none) 7 rfl⟩

/-! ## Array accesses -/

theorem checkedIndex_run {refName : String} {symbol : Symbol} {a : ArrayType}
    {indexV : Value} {g1 g2 : GenContext} (harr : symbol.type = .array a)
    (hint : indexV.getType.isIntegerTy = true)
    (hcheck : (generateIndexOutOfBoundsCheck refName indexV
      (.constantInt (.integer 32) a.lowerBound) (.constantInt (.integer 32) a.upperBound)).run
        g1 = (.ok (), g2)) :
    (checkedIndex refName symbol (some indexV)).run g1 =
      (CreateBinOp .sub indexV (.constantInt (.integer 32) a.lowerBound) "adjustedIndex").run
        g2 := by
  simp only [checkedIndex, hint, Bool.not_true, Bool.false_eq_true, if_false, harr]
  rw [GenM.bind_ok hcheck]

/-- The lowerings of an element reference, from the adjusted index and the element address
that the builder hands back for it. -/
theorem arrayAccess_run {g g1 g2 g3 : GenContext} {refName : String} {indexNode : Expr}
    (exprNode : Expr) {symbol : Symbol} {a : ArrayType} {indexV adjusted elementPtr : Value}
    (hsym : g.symbolTable.lookup refName = some symbol)
    (harr : symbol.type = .array a)
    (hidx : (visitExpr indexNode).run g = (.ok (some indexV), g1))
    (hadjusted : (checkedIndex refName symbol (some indexV)).run g1 = (.ok adjusted, g2))
    (hptr : (CreateGEP (genArrayType a) symbol.getMemPtr
      [.constantInt (.integer 32) 0, adjusted] (refName ++ "_idx")).run g2 =
        (.ok elementPtr, g3)) :
    (visitExpr (.DeclArrayRef refName indexNode)).run g =
      (.ok (some (.instruction g3.code.length (genPrimitiveType a.elemTypeNode))),
        g3.emit .load [elementPtr] (genPrimitiveType a.elemTypeNode) (refName ++ "_elem")) ∧
    (storeVisit (.DeclArrayRef refName indexNode)).run g = (.ok (some elementPtr), g3) ∧
    (symbol.immutable = false →
      (visitAssign (.DeclArrayRef refName indexNode) exprNode).run g =
        (assignTo refName (some elementPtr) exprNode).run g3) ∧
    (visitExpr (.FunCall "readln" [.DeclArrayRef refName indexNode])).run g =
      (handleReadln (some elementPtr)).run g3 := by
  have helem : getArrayElementType (genArrayType a) =
      pure (genPrimitiveType a.elemTypeNode) := rfl
  have hstore : (storeVisit (.DeclArrayRef refName indexNode)).run g =
      (.ok (some elementPtr), g3) := by
    simp only [storeVisit, GenM.bind_run, GenM.get_run, contains_of_lookup hsym,
      getSymbol_run hsym, Bool.not_true, Bool.false_eq_true, if_false, hidx, hadjusted, harr,
      genType, hptr, GenM.pure_run]
  refine ⟨?_, hstore, fun hmut => ?_, ?_⟩
  · simp only [visitExpr, GenM.bind_run, GenM.get_run, contains_of_lookup hsym,
      getSymbol_run hsym, Bool.not_true, Bool.false_eq_true, if_false, hidx, hadjusted, harr,
      genType, helem, hptr, GenM.pure_run, TypeNode.isArray, CreateLoad, insert_run]
  · rw [@visitAssign_mutable g (.DeclArrayRef refName indexNode) symbol hsym hmut exprNode,
      GenM.bind_ok hstore]
    rfl
  · have hw : ¬("readln" = "write" ∨ "readln" = "writeln") := by decide
    simp only [visitExpr, hw, if_false, if_true]
    rw [GenM.bind_ok hstore]

/-- C15. Every array access is checked. Let `refName` be an array with the declared bounds
`lo` and `hi`, and let the index expression lower to the integer value `indexV`, leaving the
insertion point in a block `b` of a function. Then the bounds check of `indexV` against `lo`
and `hi` is emitted: the test whether `indexV < lo` or `indexV > hi` as signed numbers, which
is three instructions in `b` for an index that is no constant and a constant that the
builder folds for a constant index; the branch from `b` to a new block `check`; in `check`
the conditional branch on the test to the new blocks `throw_exception` and `continue`; in
`throw_exception` the call with the text of the error and `unreachable`; and `continue` is
the insertion point afterwards. Each lowering of the element reference is that check
followed by what it requests afterwards: the subtraction of `lo` and the element address of
the result, both instructions for an index that is no constant, the subtraction folded for
a constant index and the address folded with it for a global array; then as an r-value the
load from that address, while an assignment goes on with its right-hand side and `readln`
with its call, both on that address. -/
theorem C15_array_access_checked (g g1 : GenContext) (refName : String)
    (indexNode exprNode : Expr) (symbol : Symbol) (a : ArrayType) (indexV : Value)
    (b f : Nat) (block : BasicBlock)
    (hsym : g.symbolTable.lookup refName = some symbol)
    (harr : symbol.type = .array a)
    (hidx : (visitExpr indexNode).run g = (.ok (some indexV), g1))
    (hint : indexV.getType.isIntegerTy = true)
    (hb : g1.insertBlock = some b) (hblock : g1.blocks[b]? = some block)
    (hf : block.parent = some f) :
    ∃ (g2 g3 : GenContext) (errorFunc : Nat) (callee : Function) (tests : List Instruction)
        (outOfBounds adjusted elementPtr : Value),
      (generateIndexOutOfBoundsCheck refName indexV (.constantInt (.integer 32) a.lowerBound)
        (.constantInt (.integer 32) a.upperBound)).run g1 = (.ok (), g2) ∧
      (indexV.isConstant = false →
        tests =
          [⟨g1.code.length, .icmp .SLT, [indexV, .constantInt (.integer 32) a.lowerBound],
              .integer 1, ""⟩,
           ⟨g1.code.length + 1, .icmp .SGT, [indexV, .constantInt (.integer 32) a.upperBound],
              .integer 1, ""⟩,
           ⟨g1.code.length + 2, .or,
              [.instruction g1.code.length (.integer 1),
               .instruction (g1.code.length + 1) (.integer 1)], .integer 1,
              "indexOutOfBounds"⟩] ∧
        outOfBounds = .instruction (g1.code.length + 2) (.integer 1)) ∧
      (indexV.isConstant = true →
        tests = [] ∧
        outOfBounds = .folded .or
          (.folded (.icmp .SLT) indexV (.constantInt (.integer 32) a.lowerBound) (.integer 1))
          (.folded (.icmp .SGT) indexV (.constantInt (.integer 32) a.upperBound) (.integer 1))
          (.integer 1)) ∧
      g2.code = g1.code ++ tests.map (fun i => (some b, i)) ++
        [(some b, ⟨g1.code.length + tests.length, .br g1.blocks.length, [], .void, ""⟩),
         (some g1.blocks.length, ⟨g1.code.length + tests.length + 1,
            .condBr (g1.blocks.length + 1) (g1.blocks.length + 2), [outOfBounds], .void, ""⟩),
         (some (g1.blocks.length + 1), ⟨g1.code.length + tests.length + 2, .call errorFunc,
            [.globalStringPtr g1.globals.length], callee.returnType, ""⟩),
         (some (g1.blocks.length + 1), ⟨g1.code.length + tests.length + 3, .unreachable, [],
            .void, ""⟩)] ∧
      g2.blocks = g1.blocks ++
        [⟨"check", some f⟩, ⟨"throw_exception", some f⟩, ⟨"continue", some f⟩] ∧
      g2.insertBlock = some (g1.blocks.length + 2) ∧
      (g2.globals[g1.globals.length]?).map GlobalVariable.initializer =
        some (.text ("Runtime error: Array '" ++ refName ++
          "' - the index is out of bounds.\n")) ∧
      g2.functions[errorFunc]? = some callee ∧
      ("error" ∉ g1.globals.map GlobalVariable.name → callee.name = "error") ∧
      (indexV.isConstant = false →
        adjusted = .instruction g2.code.length indexV.getType ∧
        elementPtr = .instruction (g2.code.length + 1)
          (.pointer (genPrimitiveType a.elemTypeNode)) ∧
        g3 = (g2.emit .sub [indexV, .constantInt (.integer 32) a.lowerBound] indexV.getType
          "adjustedIndex").emit (.getelementptr (genArrayType a))
          [symbol.getMemPtr, .constantInt (.integer 32) 0, adjusted]
          (.pointer (genPrimitiveType a.elemTypeNode)) (refName ++ "_idx")) ∧
      (indexV.isConstant = true →
        adjusted = .folded .sub indexV (.constantInt (.integer 32) a.lowerBound)
          indexV.getType ∧
        (symbol.getMemPtr.isConstant = false →
          elementPtr = .instruction g2.code.length
            (.pointer (genPrimitiveType a.elemTypeNode)) ∧
          g3 = g2.emit (.getelementptr (genArrayType a))
            [symbol.getMemPtr, .constantInt (.integer 32) 0, adjusted]
            (.pointer (genPrimitiveType a.elemTypeNode)) (refName ++ "_idx")) ∧
        (symbol.getMemPtr.isConstant = true →
          elementPtr = .foldedGEP (genArrayType a) symbol.getMemPtr
            (.constantInt (.integer 32) 0) adjusted
            (.pointer (genPrimitiveType a.elemTypeNode)) ∧
          g3 = g2)) ∧
      (visitExpr (.DeclArrayRef refName indexNode)).run g =
        (.ok (some (.instruction g3.code.length (genPrimitiveType a.elemTypeNode))),
          g3.emit .load [elementPtr] (genPrimitiveType a.elemTypeNode) (refName ++ "_elem")) ∧
      (storeVisit (.DeclArrayRef refName indexNode)).run g = (.ok (some elementPtr), g3) ∧
      (symbol.immutable = false →
        (visitAssign (.DeclArrayRef refName indexNode) exprNode).run g =
          (assignTo refName (some elementPtr) exprNode).run g3) ∧
      (visitExpr (.FunCall "readln" [.DeclArrayRef refName indexNode])).run g =
        (handleReadln (some elementPtr)).run g3 := by
  obtain ⟨g2, errorFunc, callee, tests, cond, hcheck, hvar, hconst, hcode, hblocks, hins,
    hglob, -, hfun, hname, -⟩ := generateIndexOutOfBoundsCheck_run g1 refName indexV
    (.constantInt (.integer 32) a.lowerBound) (.constantInt (.integer 32) a.upperBound)
    rfl rfl hb hblock hf
  have hmsg : (g2.globals[g1.globals.length]?).map GlobalVariable.initializer =
      some (.text ("Runtime error: Array '" ++ refName ++
        "' - the index is out of bounds.\n")) := by
    rw [hglob]
    simp [outOfBoundsMessage]
  have hci := checkedIndex_run harr hint hcheck
  by_cases hc : indexV.isConstant = true
  · have hno : ¬(indexV.isConstant = false) := by simp [hc]
    rw [createBinOp_folded .sub "adjustedIndex" g2 hc (isConstant_constantInt _ _)] at hci
    by_cases hm : symbol.getMemPtr.isConstant = true
    · have hno2 : ¬(symbol.getMemPtr.isConstant = false) := by simp [hm]
      have hptr : (CreateGEP (genArrayType a) symbol.getMemPtr
          [.constantInt (.integer 32) 0,
            .folded .sub indexV (.constantInt (.integer 32) a.lowerBound) indexV.getType]
          (refName ++ "_idx")).run g2 =
          (.ok (.foldedGEP (genArrayType a) symbol.getMemPtr (.constantInt (.integer 32) 0)
            (.folded .sub indexV (.constantInt (.integer 32) a.lowerBound) indexV.getType)
            (.pointer (genPrimitiveType a.elemTypeNode))), g2) := by
        simp [CreateGEP, genArrayType, hm, GenM.pure_run]
      exact ⟨g2, _, errorFunc, callee, tests, cond, _, _, hcheck, hvar, hconst, hcode, hblocks,
        hins, hmsg, hfun, hname, fun h => absurd h hno,
        fun _ => ⟨rfl, fun h => absurd h hno2, fun _ => ⟨rfl, rfl⟩⟩,
        arrayAccess_run exprNode hsym harr hidx hci hptr⟩
    · have hm2 : symbol.getMemPtr.isConstant = false := by simpa using hm
      have hptr : (CreateGEP (genArrayType a) symbol.getMemPtr
          [.constantInt (.integer 32) 0,
            .folded .sub indexV (.constantInt (.integer 32) a.lowerBound) indexV.getType]
          (refName ++ "_idx")).run g2 =
          (.ok (.instruction g2.code.length (.pointer (genPrimitiveType a.elemTypeNode))),
            g2.emit (.getelementptr (genArrayType a))
              [symbol.getMemPtr, .constantInt (.integer 32) 0,
                .folded .sub indexV (.constantInt (.integer 32) a.lowerBound) indexV.getType]
              (.pointer (genPrimitiveType a.elemTypeNode)) (refName ++ "_idx")) := by
        simp [CreateGEP, genArrayType, hm2, insert_run]
      exact ⟨g2, _, errorFunc, callee, tests, cond, _, _, hcheck, hvar, hconst, hcode, hblocks,
        hins, hmsg, hfun, hname, fun h => absurd h hno,
        fun _ => ⟨rfl, fun _ => ⟨rfl, rfl⟩, fun h => absurd h hm⟩,
        arrayAccess_run exprNode hsym harr hidx hci hptr⟩
  · have hc2 : indexV.isConstant = false := by simpa using hc
    rw [createBinOp_inserted .sub "adjustedIndex" g2 (by simp [hc2])] at hci
    have hptr : (CreateGEP (genArrayType a) symbol.getMemPtr
        [.constantInt (.integer 32) 0, .instruction g2.code.length indexV.getType]
        (refName ++ "_idx")).run
          (g2.emit .sub [indexV, .constantInt (.integer 32) a.lowerBound] indexV.getType
            "adjustedIndex") =
        (.ok (.instruction (g2.code.length + 1) (.pointer (genPrimitiveType a.elemTypeNode))),
          (g2.emit .sub [indexV, .constantInt (.integer 32) a.lowerBound] indexV.getType
            "adjustedIndex").emit (.getelementptr (genArrayType a))
            [symbol.getMemPtr, .constantInt (.integer 32) 0,
              .instruction g2.code.length indexV.getType]
            (.pointer (genPrimitiveType a.elemTypeNode)) (refName ++ "_idx")) := by
      simp [CreateGEP, genArrayType, insert_run]
    exact ⟨g2, _, errorFunc, callee, tests, cond, _, _, hcheck, hvar, hconst, hcode, hblocks,
      hins, hmsg, hfun, hname, fun _ => ⟨rfl, rfl, rfl⟩, fun h => absurd h hc,
      arrayAccess_run exprNode hsym harr hidx hci hptr⟩

/-- C15 on the elements `X[i]` and `X[3]` of the global `array [-5 .. 5] of integer`, in the
state after the lowering of `sampleProgram`. The index `i` is a load, instruction 2: its
check is the three instructions of the test, the branches, the call and `unreachable`, and
the subtraction, the address and the load follow in the block `continue`. The index 3 is a
constant: its check is the branches, on the folded test, the call and `unreachable`, and
the load from the folded address is the only instruction that follows. -/
theorem C15_array_access_checked_witness :
    (∃ (g2 : GenContext) (errorFunc : Nat) (callee : Function),
      (generateIndexOutOfBoundsCheck "X" (.instruction 2 (.integer 32))
        (.constantInt (.integer 32) (-5)) (.constantInt (.integer 32) 5)).run
          ((visitExpr (.DeclVarRef "i")).run sampleContext).2 = (.ok (), g2) ∧
      g2.code = ((visitExpr (.DeclVarRef "i")).run sampleContext).2.code ++
        [(some 0, ⟨3, .icmp .SLT,
            [.instruction 2 (.integer 32), .constantInt (.integer 32) (-5)], .integer 1, ""⟩),
         (some 0, ⟨3 + 1, .icmp .SGT,
            [.instruction 2 (.integer 32), .constantInt (.integer 32) 5], .integer 1, ""⟩),
         (some 0, ⟨3 + 2, .or, [.instruction 3 (.integer 1), .instruction (3 + 1) (.integer 1)],
            .integer 1, "indexOutOfBounds"⟩),
         (some 0, ⟨3 + 3, .br 1, [], .void, ""⟩),
         (some 1, ⟨3 + 3 + 1, .condBr (1 + 1) (1 + 2), [.instruction (3 + 2) (.integer 1)],
            .void, ""⟩),
         (some (1 + 1), ⟨3 + 3 + 2, .call errorFunc, [.globalStringPtr 4], callee.returnType,
            ""⟩),
         (some (1 + 1), ⟨3 + 3 + 3, .unreachable, [], .void, ""⟩)] ∧
      (visitExpr (.DeclArrayRef "X" (.DeclVarRef "i"))).run sampleContext =
        (.ok (some (.instruction (g2.code.length + 2) (.integer 32))),
          ((g2.emit .sub [.instruction 2 (.integer 32), .constantInt (.integer 32) (-5)]
            (.integer 32) "adjustedIndex").emit
            (.getelementptr (.array (.integer 32) 11))
            [.globalVariable 2 (.array (.integer 32) 11), .constantInt (.integer 32) 0,
              .instruction g2.code.length (.integer 32)] (.pointer (.integer 32)) "X_idx").emit
            .load [.instruction (g2.code.length + 1) (.pointer (.integer 32))] (.integer 32)
            "X_elem")) ∧
    (∃ (g2 : GenContext) (errorFunc : Nat) (callee : Function),
      (generateIndexOutOfBoundsCheck "X" (.constantInt (.integer 32) 3)
        (.constantInt (.integer 32) (-5)) (.constantInt (.integer 32) 5)).run
          sampleContext = (.ok (), g2) ∧
      g2.code = sampleContext.code ++
        [(some 0, ⟨2 + 0, .br 1, [], .void, ""⟩),
         (some 1, ⟨2 + 0 + 1, .condBr (1 + 1) (1 + 2),
            [.folded .or
              (.folded (.icmp .SLT) (.constantInt (.integer 32) 3)
                (.constantInt (.integer 32) (-5)) (.integer 1))
              (.folded (.icmp .SGT) (.constantInt (.integer 32) 3)
                (.constantInt (.integer 32) 5) (.integer 1)) (.integer 1)], .void, ""⟩),
         (some (1 + 1), ⟨2 + 0 + 2, .call errorFunc, [.globalStringPtr 4], callee.returnType,
            ""⟩),
         (some (1 + 1), ⟨2 + 0 + 3, .unreachable, [], .void, ""⟩)] ∧
      (visitExpr (.DeclArrayRef "X" (.Literal (.int 3)))).run sampleContext =
        (.ok (some (.instruction g2.code.length (.integer 32))),
          g2.emit .load
            [.foldedGEP (.array (.integer 32) 11) (.globalVariable 2 (.array (.integer 32) 11))
              (.constantInt (.integer 32) 0)
              (.folded .sub (.constantInt (.integer 32) 3) (.constantInt (.integer 32) (-5))
                (.integer 32)) (.pointer (.integer 32))] (.integer 32) "X_elem")) := by
  have hX : sampleContext.symbolTable.lookup "X" =
      some ⟨"X", .array ⟨.INTEGER, -5, 5⟩,
        .globalVariable (.globalVariable 2 (.array (.integer 32) 11)), false⟩ := by decide
  have hty : genArrayType ⟨.INTEGER, -5, 5⟩ = .array (.integer 32) 11 := by decide
  constructor
  · obtain ⟨g2, g3, errorFunc, callee, tests, cond, adjusted, elementPtr, h1, hvar, -, hcode,
      -, -, -, -, -, haccess, -, hload, -⟩ :=
      C15_array_access_checked sampleContext
        ((visitExpr (.DeclVarRef "i")).run sampleContext).2
        "X" (.DeclVarRef "i") (.Literal (.int 7)) _ ⟨.INTEGER, -5, 5⟩
        (.instruction 2 (.integer 32)) 0 6 ⟨"entry", some 6⟩ hX rfl rfl rfl rfl rfl rfl
    obtain ⟨rfl, rfl⟩ := hvar rfl
    obtain ⟨rfl, rfl, rfl⟩ := haccess rfl
    refine ⟨g2, errorFunc, callee, h1, hcode, ?_⟩
    rw [hload]
    simp [hty, Symbol.getMemPtr, genPrimitiveType, Value.getType, Nat.add_assoc]
  · obtain ⟨g2, g3, errorFunc, callee, tests, cond, adjusted, elementPtr, h1, -, hconst, hcode,
      -, -, -, -, -, -, haccess, hload, -⟩ :=
      C15_array_access_checked sampleContext sampleContext
        "X" (.Literal (.int 3)) (.Literal (.int 7)) _ ⟨.INTEGER, -5, 5⟩
        (.constantInt (.integer 32) 3) 0 6 ⟨"entry", some 6⟩ hX rfl rfl rfl rfl rfl rfl
    obtain ⟨rfl, rfl⟩ := hconst rfl
    obtain ⟨rfl, -, hglobal⟩ := haccess rfl
    obtain ⟨rfl, hsame⟩ := hglobal rfl
    subst hsame
    refine ⟨_, errorFunc, callee, h1, hcode, ?_⟩
    rw [hload]
    simp [hty, Symbol.getMemPtr, genPrimitiveType, Value.getType]

/-! ## The cases of the visit of a statement -/

theorem visitStmt_Block (w : Wiring) (setGlobal : Bool) (main : Bool) (statementNodes : List Stmt) :
    visitStmt w setGlobal (.Block main statementNodes) =
      (if main then do
         let funcMain ← Function.Create (.integer 32) [] false "main"
         let EntryBlock ← BasicBlock.Create "entry" (some funcMain)
         SetInsertPoint (some EntryBlock)
         let retV := Value.constantInt (.integer 32) 0
         visitStmts { w with retV := .value retV } true statementNodes
         let _ ← CreateRet (.constantInt (.integer 32) 0)
       else do
         let func ← GetInsertBlockParent
         if func.isNone then GenM.throw (.codeGen "Parent function is not found")
         else do
           let BB ← BasicBlock.Create "block" func
           let _ ← CreateBr BB
           SetInsertPoint (some BB)
           let symbolTableCopy := (← GenM.get).symbolTable
           visitStmts w false statementNodes
           setSymbolTable symbolTableCopy) := rfl

theorem visitStmt_CompoundStmt (w : Wiring) (setGlobal : Bool) (statementNodes : List Stmt) :
    visitStmt w setGlobal (.CompoundStmt statementNodes) =
      (do
       let func ← GetInsertBlockParent
       if func.isNone then GenM.throw (.codeGen "Parent function is not found")
       else visitStmts w false statementNodes) := rfl

theorem visitStmt_VarDeclStmt (w : Wiring) (setGlobal : Bool) (decl : VarDecl) :
    visitStmt w setGlobal (.VarDeclStmt decl) =
      visitVarDecl setGlobal decl := rfl

theorem visitStmt_ArrayDecl (w : Wiring) (setGlobal : Bool)
    (declName : String) (global : Bool) (typeNode : ArrayType) :
    visitStmt w setGlobal (.ArrayDecl declName global typeNode) =
      visitArrayDecl setGlobal declName global typeNode := rfl

theorem visitStmt_ConstDef (w : Wiring) (setGlobal : Bool)
    (declName : String) (global : Bool) (exprNode : Expr) (typeNode : Option PrimitiveType) :
    visitStmt w setGlobal (.ConstDef declName global exprNode typeNode) =
      visitConstDef setGlobal declName global exprNode := rfl

theorem visitStmt_ProcDecl (w : Wiring) (setGlobal : Bool)
    (declName : String) (global : Bool) (paramNodes : List VarDecl) (optBlockNode : Option Stmt) :
    visitStmt w setGlobal (.ProcDecl declName global paramNodes optBlockNode) =
      (do
       let proc ← declareFunction "Procedure" declName paramNodes optBlockNode.isSome none
       match proc, optBlockNode with
       | some proc, some blockNode => do
         let prevBB ← GetInsertBlock
         let symbolTableCopy := (← GenM.get).symbolTable
         enterFunction proc paramNodes
         visitStmt { w with retV := .monostate } false blockNode
         let _ ← CreateRetVoid
         SetInsertPoint prevBB
         setSymbolTable symbolTableCopy
       | _, _ => pure ()) := by
  cases optBlockNode <;>
  · funext g
    delta visitStmt
    conv_lhs => whnf
    conv_rhs => whnf
    generalize declareFunction "Procedure" declName paramNodes _ none g = x
    rcases x with ⟨r, g1⟩
    cases r with
    | error e => rfl
    | ok proc => cases proc <;> rfl

theorem visitStmt_FunDecl (w : Wiring) (setGlobal : Bool)
    (declName : String) (global : Bool) (paramNodes : List VarDecl)
    (optBlockNode : Option Stmt) (retTypeNode : PrimitiveType) :
    visitStmt w setGlobal (.FunDecl declName global paramNodes optBlockNode retTypeNode) =
      (do
       let func ← declareFunction "Function" declName paramNodes optBlockNode.isSome
         (some retTypeNode)
       match func, optBlockNode with
       | some func, some blockNode => do
         let prevBB ← GetInsertBlock
         let symbolTableCopy := (← GenM.get).symbolTable
         enterFunction func paramNodes
         let retType := genPrimitiveType retTypeNode
         let retValStore ← createReturnSlot declName retTypeNode
         visitStmt { w with retV := .loadReturnV retType retValStore declName } false blockNode
         let loadedReturnV ← CreateLoad retType retValStore declName
         let _ ← CreateRet loadedReturnV
         SetInsertPoint prevBB
         setSymbolTable symbolTableCopy
       | _, _ => pure ()) := by
  cases optBlockNode <;>
  · funext g
    delta visitStmt
    conv_lhs => whnf
    conv_rhs => whnf
    generalize declareFunction "Function" declName paramNodes _ _ g = x
    rcases x with ⟨r, g1⟩
    cases r with
    | error e => rfl
    | ok proc => cases proc <;> rfl

theorem visitStmt_Assign (w : Wiring) (setGlobal : Bool) (varNode exprNode : Expr) :
    visitStmt w setGlobal (.Assign varNode exprNode) =
      visitAssign varNode exprNode := rfl

theorem visitStmt_If (w : Wiring) (setGlobal : Bool)
    (condNode : Expr) (bodyNode : Stmt) (optElseBodyNode : Option Stmt) :
    visitStmt w setGlobal (.If condNode bodyNode optElseBodyNode) =
      (do
       let func ← GetInsertBlockParent
       if func.isNone then GenM.throw (.codeGen "Parent function is not found")
       else do
         let BBbody ← BasicBlock.Create "body" func
         let BBelseBody ← BasicBlock.Create "elseBody" func
         let BBafter ← BasicBlock.Create "after" func
         let condVal ← visitExpr condNode
         let _ ← CreateCondBr (← expectValue condVal) BBbody BBelseBody
         SetInsertPoint (some BBbody)
         visitStmt w false bodyNode
         let _ ← CreateBr BBafter
         SetInsertPoint (some BBelseBody)
         match optElseBodyNode with
         | some elseBodyNode => visitStmt w false elseBodyNode
         | none => pure ()
         let _ ← CreateBr BBafter
         SetInsertPoint (some BBafter)) := by
  cases optElseBodyNode <;> rfl

theorem visitStmt_While (w : Wiring) (setGlobal : Bool) (condNode : Expr) (bodyNode : Stmt) :
    visitStmt w setGlobal (.While condNode bodyNode) =
      (do
       let func ← GetInsertBlockParent
       if func.isNone then GenM.throw (.codeGen "Parent function is not found")
       else do
         let BBcond ← BasicBlock.Create "cond" func
         let BBbody ← BasicBlock.Create "body" func
         let BBafter ← BasicBlock.Create "after" func
         let _ ← CreateBr BBcond
         SetInsertPoint (some BBcond)
         let condVal ← visitExpr condNode
         let _ ← CreateCondBr (← expectValue condVal) BBbody BBafter
         SetInsertPoint (some BBbody)
         visitStmt { w with breakBlock := some BBafter } false bodyNode
         let _ ← CreateBr BBcond
         SetInsertPoint (some BBafter)) := rfl

theorem visitStmt_For (w : Wiring) (setGlobal : Bool)
    (initNode : Stmt) (toNode : Expr) (bodyNode : Stmt) (increasing : Bool) :
    visitStmt w setGlobal (.For initNode toNode bodyNode increasing) =
      (do
       let func ← GetInsertBlockParent
       if func.isNone then GenM.throw (.codeGen "Parent function is not found")
       else do
         let BBinit ← BasicBlock.Create "init" func
         let BBcond ← BasicBlock.Create "cond" func
         let BBbody ← BasicBlock.Create "body" func
         let BBafter ← BasicBlock.Create "after" func
         let _ ← CreateBr BBinit
         SetInsertPoint (some BBinit)
         visitStmt w false initNode
         let _ ← CreateBr BBcond
         SetInsertPoint (some BBcond)
         let fromStore ← storeVisit initNode.getVarNode
         let toVal ← visitExpr toNode
         let fromVal ← visitExpr initNode.getVarNode
         let condVal ←
           if increasing then CreateICmp .SLE (← expectValue fromVal) (← expectValue toVal) "le"
           else CreateICmp .SGE (← expectValue fromVal) (← expectValue toVal) "ge"
         let _ ← CreateCondBr condVal BBbody BBafter
         SetInsertPoint (some BBbody)
         visitStmt { w with breakBlock := some BBafter } false bodyNode
         let fromVal ← visitExpr initNode.getVarNode
         let incrementedVal ← CreateBinOp .add (← expectValue fromVal)
           (.constantInt (.integer 32) (if increasing then 1 else -1)) ""
         let _ ← CreateStore incrementedVal (← expectValue fromStore)
         let _ ← CreateBr BBcond
         SetInsertPoint (some BBafter)) := rfl

theorem visitStmt_ProcCall (w : Wiring) (setGlobal : Bool)
    (procName : String) (argNodes : List Expr) :
    visitStmt w setGlobal (.ProcCall procName argNodes) =
      (do
       let _ ← handle procName argNodes) := rfl

theorem visitStmt_EmptyStmt (w : Wiring) (setGlobal : Bool) :
    visitStmt w setGlobal (.EmptyStmt) =
      pure () := rfl

theorem visitStmt_Break (w : Wiring) (setGlobal : Bool) :
    visitStmt w setGlobal (.Break) =
      visitBreak w := rfl

theorem visitStmt_Exit (w : Wiring) (setGlobal : Bool) :
    visitStmt w setGlobal (.Exit) =
      visitExit w := rfl

theorem visitStmts_nil (w : Wiring) (setGlobal : Bool) :
    visitStmts w setGlobal [] = pure () := rfl

theorem visitStmts_cons (w : Wiring) (setGlobal : Bool) (s : Stmt) (rest : List Stmt) :
    visitStmts w setGlobal (s :: rest) =
      (do
        visitStmt w setGlobal s
        visitStmts w setGlobal rest) := rfl

/-! ## Declarations of procedures and functions -/

section KeepsDeclarations
variable {R : GenContext → GenContext → Prop}

theorem keeps_functionEmpty (S : ExprStable R) (func : Nat) :
    GenM.Keeps R (functionEmpty func) := ⟨fun g => S.refl g⟩

theorem keeps_checkArgumentTypes (S : ExprStable R) (what declName : String) :
    ∀ (types : List LType) (argNo : Nat) (paramNodes : List VarDecl),
      GenM.Keeps R (checkArgumentTypes what declName argNo types paramNodes) := by
  intro types
  induction types with
  | nil => intro argNo paramNodes; unfold checkArgumentTypes; exact GenM.Keeps.pure S _
  | cons type types ih =>
    intro argNo paramNodes
    cases paramNodes with
    | nil => unfold checkArgumentTypes; exact GenM.Keeps.pure S _
    | cons param paramNodes =>
      unfold checkArgumentTypes
      split
      · exact GenM.Keeps.throw S _
      · exact ih _ _

theorem keeps_declareFunction (S : ExprStable R) (what declName : String)
    (paramNodes : List VarDecl) (hasBlock : Bool) (retType : Option PrimitiveType) :
    GenM.Keeps R (declareFunction what declName paramNodes hasBlock retType) := by
  unfold declareFunction
  repeat' first
    | with_reducible exact keeps_functionEmpty S _
    | with_reducible exact keeps_checkArgumentTypes S _ _ _ _ _
    | with_reducible exact GenM.Keeps.pure S _
    | with_reducible exact GenM.Keeps.throw S _
    | with_reducible exact keeps_getFunction S _
    | with_reducible exact keeps_functionAt S _
    | with_reducible exact keeps_createFunction S _ _ _ _
    | with_reducible apply GenM.Keeps.bind S
    | intro _
    | dsimp only
    | split

end KeepsDeclarations

theorem ensures_setSymbolTable (table : SymbolTable) :
    GenM.Ensures (fun g' => g'.symbolTable = table) (setSymbolTable table) :=
  ⟨fun g a g' h => by cases h; rfl⟩

theorem declareFunction_symbols {what declName : String} {paramNodes : List VarDecl}
    {hasBlock : Bool} {retType : Option PrimitiveType} {g g1 : GenContext} {r : Option Nat}
    (h : (declareFunction what declName paramNodes hasBlock retType).run g = (.ok r, g1)) :
    g1.symbolTable = g.symbolTable := by
  have := (keeps_declareFunction sameSymbols_stable what declName paramNodes hasBlock
    retType).after g
  rw [h] at this
  exact this

/-- C21. Scope restore. When the lowering of a procedure declaration, of a function
declaration (with a body or without) or of a block that is not the main block completes
without error, the symbol table after it is the symbol table before it: the parameters, the
return slot and what the body declares are no longer bound. The lowering of
`program test; procedure proc(); const y = 5; begin end; begin write(y); end.` fails at
`write(y)`, because `y` is not bound after the procedure. -/
theorem C21_scope_restore (w : Wiring) (setGlobal : Bool) (g g' : GenContext) :
    (∀ declName global paramNodes optBlockNode,
      (visitStmt w setGlobal (.ProcDecl declName global paramNodes optBlockNode)).run g =
        (.ok (), g') → g'.symbolTable = g.symbolTable) ∧
    (∀ declName global paramNodes optBlockNode retTypeNode,
      (visitStmt w setGlobal
        (.FunDecl declName global paramNodes optBlockNode retTypeNode)).run g =
        (.ok (), g') → g'.symbolTable = g.symbolTable) ∧
    (∀ statementNodes,
      (visitStmt w setGlobal (.Block false statementNodes)).run g = (.ok (), g') →
        g'.symbolTable = g.symbolTable) ∧
    ((parseSource 100 ("program test; procedure proc(); const y = 5; begin end; " ++
        "begin write(y); end.").toList).map fun p => (generate p).1) =
      .ok (.error (.codeGen "Variable/Constant not found: y")) := by
  refine ⟨fun declName global paramNodes optBlockNode h => ?_,
    fun declName global paramNodes optBlockNode retTypeNode h => ?_,
    fun statementNodes h => ?_, by decide!⟩
  · rw [visitStmt_ProcDecl] at h
    obtain ⟨proc, g1, h1, h2⟩ := GenM.bind_ok_inv h
    have hs := declareFunction_symbols h1
    cases proc with
    | none => cases h2; exact hs
    | some proc =>
      cases optBlockNode with
      | none => cases h2; exact hs
      | some blockNode =>
        dsimp only at h2
        rw [GenM.bind_ok (getInsertBlock_run g1), GenM.bind_ok (GenM.get_run g1)] at h2
        have key : g'.symbolTable = g1.symbolTable := by
          refine GenM.Ensures.after (P := fun g' => g'.symbolTable = g1.symbolTable) ?_ g1 ()
            g' h2
          repeat' first
            | exact ensures_setSymbolTable _
            | apply ensures_bind
            | intro _
        rw [key, hs]
  · rw [visitStmt_FunDecl] at h
    obtain ⟨proc, g1, h1, h2⟩ := GenM.bind_ok_inv h
    have hs := declareFunction_symbols h1
    cases proc with
    | none => cases h2; exact hs
    | some proc =>
      cases optBlockNode with
      | none => cases h2; exact hs
      | some blockNode =>
        dsimp only at h2
        rw [GenM.bind_ok (getInsertBlock_run g1), GenM.bind_ok (GenM.get_run g1)] at h2
        have key : g'.symbolTable = g1.symbolTable := by
          refine GenM.Ensures.after (P := fun g' => g'.symbolTable = g1.symbolTable) ?_ g1 ()
            g' h2
          repeat' first
            | exact ensures_setSymbolTable _
            | apply ensures_bind
            | intro _
        rw [key, hs]
  · rw [visitStmt_Block] at h
    simp only [Bool.false_eq_true, if_false] at h
    obtain ⟨func, g1, h1, h2⟩ := GenM.bind_ok_inv h
    have hs : g1.symbolTable = g.symbolTable := by
      have := (keeps_getInsertBlockParent sameSymbols_stable).after g
      rw [h1] at this
      exact this
    split at h2
    · cases h2
    · obtain ⟨BB, g2, h3, h4⟩ := GenM.bind_ok_inv h2
      obtain ⟨x, g3, h5, h6⟩ := GenM.bind_ok_inv h4
      obtain ⟨u, g4, h7, h8⟩ := GenM.bind_ok_inv h6
      cases h3
      cases h5
      cases h7
      rw [GenM.bind_ok (GenM.get_run _)] at h8
      have key : g'.symbolTable = g1.symbolTable := by
        refine GenM.Ensures.after (P := fun g' => g'.symbolTable = g1.symbolTable) ?_ _ ()
          g' h8
        repeat' first
          | exact ensures_setSymbolTable _
          | apply ensures_bind
          | intro _
      rw [key, hs]

/-- Witness of C21: after the lowering of `procedure p(a: integer); var b: real; begin end`
in the state after `sampleProgram` neither `a` nor `b` is bound. -/
theorem C21_scope_restore_witness :
    ((visitStmt Wiring.initial true (.ProcDecl "p" false [⟨"a", false, .INTEGER⟩]
      (some (.Block false [.VarDeclStmt ⟨"b", false, .REAL⟩,
        .CompoundStmt [.EmptyStmt]])))).run sampleContext).1 = .ok () ∧
    ((visitStmt Wiring.initial true (.ProcDecl "p" false [⟨"a", false, .INTEGER⟩]
      (some (.Block false [.VarDeclStmt ⟨"b", false, .REAL⟩,
        .CompoundStmt [.EmptyStmt]])))).run sampleContext).2.symbolTable =
      sampleContext.symbolTable :=
  ⟨by decide!, (C21_scope_restore Wiring.initial true sampleContext _).1 "p" false
    [⟨"a", false, .INTEGER⟩]
    (some (.Block false [.VarDeclStmt ⟨"b", false, .REAL⟩, .CompoundStmt [.EmptyStmt]]))
    (Prod.ext (by decide!) rfl)⟩

/-! ## Declarations against an earlier declaration -/

theorem getFunction_found {declName : String} {g : GenContext} {func : Nat}
    (h : (getFunction declName).run g = (.ok (some func), g)) :
    ∃ callee, g.functions[func]? = some callee ∧ callee.name = declName := by
  rw [getFunction_run] at h
  simp only [Prod.mk.injEq, Except.ok.injEq, and_true] at h
  split at h
  · cases h
  · obtain ⟨hlt, hname, -⟩ := List.findIdx?_eq_some_iff_getElem.1 h
    exact ⟨g.functions[func], List.getElem?_eq_getElem hlt, by simpa using hname⟩

theorem genPrimitiveType_injective : Function.Injective genPrimitiveType := by
  intro a b h
  cases a <;> cases b <;> first | rfl | cases h

theorem checkArgumentTypes_run (what declName : String) :
    ∀ (types : List LType) (argNo : Nat) (paramNodes : List VarDecl) (g : GenContext),
      types.length = paramNodes.length →
      (types = paramNodes.map (fun p => genPrimitiveType p.typeNode) →
        (checkArgumentTypes what declName argNo types paramNodes).run g = (.ok (), g)) ∧
      (types ≠ paramNodes.map (fun p => genPrimitiveType p.typeNode) →
        ∃ k : Nat, (checkArgumentTypes what declName argNo types paramNodes).run g =
          (.error (.codeGen (what ++ " '" ++ declName ++ "' expects argument $" ++
            toString k ++ " to be of type provided in the declaration")), g)) := by
  intro types
  induction types with
  | nil =>
    intro argNo paramNodes g hlen
    cases paramNodes with
    | nil => exact ⟨fun _ => rfl, fun h => absurd rfl h⟩
    | cons p ps => cases hlen
  | cons type types ih =>
    intro argNo paramNodes g hlen
    cases paramNodes with
    | nil => cases hlen
    | cons p ps =>
      have hlen' : types.length = ps.length := by simpa using hlen
      unfold checkArgumentTypes
      by_cases h : type = genPrimitiveType p.typeNode
      · simp only [h, ne_eq, not_true_eq_false, if_false, List.map_cons, List.cons.injEq,
          true_and]
        exact ih (argNo + 1) ps g hlen'
      · simp only [ne_eq, h, not_false_eq_true, if_true, List.map_cons, List.cons.injEq,
          false_and, false_implies, true_and]
        exact fun _ => ⟨argNo, rfl⟩

/-- What `declareFunction` does when the module already holds a function of the name. -/
theorem declareFunction_found {what declName : String} {paramNodes : List VarDecl}
    {hasBlock : Bool} {retType : Option PrimitiveType} {g : GenContext} {func : Nat}
    {callee : Function}
    (hfound : (getFunction declName).run g = (.ok (some func), g))
    (hcallee : g.functions[func]? = some callee) :
    (declareFunction what declName paramNodes hasBlock retType).run g =
      if hasBlock = false then
        (.error (.codeGen ("Redeclaration of " ++ what.decapitalize ++ " '" ++ declName ++
          "'")), g)
      else if (g.blocksOf func).isEmpty = false then
        (.error (.codeGen ("Redefinition of " ++ what.decapitalize ++ " '" ++ declName ++
          "'")), g)
      else if callee.paramTypes.length ≠ paramNodes.length then
        (.error (.codeGen (what ++ " '" ++ declName ++ "' expects " ++
          toString callee.paramTypes.length ++ " arguments in declaration, but " ++
          toString paramNodes.length ++ " were provided in definition")), g)
      else
        match (checkArgumentTypes what declName 0 callee.paramTypes paramNodes).run g with
        | (.ok _, g1) => (.ok (some func), g1)
        | (.error e, g1) => (.error e, g1) := by
  unfold declareFunction
  rw [GenM.bind_ok hfound]
  cases hasBlock with
  | false => rfl
  | true =>
    simp only [Bool.not_true, Bool.false_eq_true, if_false, Bool.true_eq_false]
    rw [GenM.bind_ok (show (functionEmpty func).run g = (.ok (g.blocksOf func).isEmpty, g)
      from rfl)]
    cases hempty : (g.blocksOf func).isEmpty with
    | false => rfl
    | true =>
      simp only [Bool.not_true, Bool.false_eq_true, if_false]
      rw [GenM.bind_ok (functionAt_run hcallee)]
      by_cases hlen : callee.paramTypes.length = paramNodes.length
      · simp only [hlen, ne_eq, not_true_eq_false, if_false, GenM.bind_run, GenM.pure_run,
          Bool.true_eq_false]
        rcases (checkArgumentTypes what declName 0 callee.paramTypes paramNodes).run g with
          ⟨r, g1⟩
        cases r <;> rfl
      · simp only [ne_eq, hlen, not_false_eq_true, if_true, GenM.throw_run, Bool.true_eq_false,
          if_false]

/-- C22. Double declaration or definition fails. When the module already holds a function
of the name, the lowering of a forward declaration of a procedure or function of that name
raises `CodeGenException` (`Redeclaration of ...`), whether the function has a body or not,
and so does the lowering of a definition when the function has a body (`Redefinition of
...`); the state is left as it was. The checks pass only for a definition after a function
without a body. -/
theorem C22_double_declaration (g : GenContext) (declName : String) (func : Nat)
    (hfound : (getFunction declName).run g = (.ok (some func), g)) :
    (∀ w setGlobal global paramNodes,
      (visitStmt w setGlobal (.ProcDecl declName global paramNodes none)).run g =
        (.error (.codeGen ("Redeclaration of procedure '" ++ declName ++ "'")), g)) ∧
    (∀ w setGlobal global paramNodes retTypeNode,
      (visitStmt w setGlobal (.FunDecl declName global paramNodes none retTypeNode)).run g =
        (.error (.codeGen ("Redeclaration of function '" ++ declName ++ "'")), g)) ∧
    ((g.blocksOf func).isEmpty = false → ∀ w setGlobal global paramNodes blockNode,
      (visitStmt w setGlobal (.ProcDecl declName global paramNodes (some blockNode))).run g =
        (.error (.codeGen ("Redefinition of procedure '" ++ declName ++ "'")), g)) ∧
    ((g.blocksOf func).isEmpty = false →
      ∀ w setGlobal global paramNodes blockNode retTypeNode,
      (visitStmt w setGlobal
        (.FunDecl declName global paramNodes (some blockNode) retTypeNode)).run g =
        (.error (.codeGen ("Redefinition of function '" ++ declName ++ "'")), g)) ∧
    (∀ what paramNodes hasBlock retType r g',
      (declareFunction what declName paramNodes hasBlock retType).run g = (.ok r, g') →
        hasBlock = true ∧ (g.blocksOf func).isEmpty = true) ∧
    ((parseSource 100 ("program test; procedure x(); forward; procedure x(); forward; " ++
        "begin end.").toList).map fun p => (generate p).1) =
      .ok (.error (.codeGen "Redeclaration of procedure 'x'")) ∧
    ((parseSource 100 ("program test; procedure x(); begin end; procedure x(); forward; " ++
        "begin end.").toList).map fun p => (generate p).1) =
      .ok (.error (.codeGen "Redeclaration of procedure 'x'")) ∧
    ((parseSource 100 ("program test; procedure x(); begin end; procedure x(); begin end; " ++
        "begin end.").toList).map fun p => (generate p).1) =
      .ok (.error (.codeGen "Redefinition of procedure 'x'")) := by
  obtain ⟨callee, hcallee, -⟩ := getFunction_found hfound
  have hp : "Procedure".decapitalize = "procedure" := by decide
  have hq : "Function".decapitalize = "function" := by decide
  have e1 : "Redeclaration of " ++ "procedure" ++ " '" = "Redeclaration of procedure '" := by
    decide
  have e2 : "Redeclaration of " ++ "function" ++ " '" = "Redeclaration of function '" := by
    decide
  have e3 : "Redefinition of " ++ "procedure" ++ " '" = "Redefinition of procedure '" := by
    decide
  have e4 : "Redefinition of " ++ "function" ++ " '" = "Redefinition of function '" := by
    decide
  refine ⟨fun w sg gl ps => ?_, fun w sg gl ps rt => ?_, fun he w sg gl ps b => ?_,
    fun he w sg gl ps b rt => ?_, fun what ps hb rt r g' h => ?_, by decide!, by decide!,
    by decide!⟩
  · have h := @declareFunction_found "Procedure" declName ps false none g func callee hfound
      hcallee
    rw [if_pos rfl, hp, e1] at h
    rw [visitStmt_ProcDecl]
    exact GenM.bind_error h
  · have h := @declareFunction_found "Function" declName ps false (some rt) g func callee
      hfound hcallee
    rw [if_pos rfl, hq, e2] at h
    rw [visitStmt_FunDecl]
    exact GenM.bind_error h
  · have h := @declareFunction_found "Procedure" declName ps true none g func callee hfound
      hcallee
    rw [if_neg (by decide), if_pos he, hp, e3] at h
    rw [visitStmt_ProcDecl]
    exact GenM.bind_error h
  · have h := @declareFunction_found "Function" declName ps true (some rt) g func callee
      hfound hcallee
    rw [if_neg (by decide), if_pos he, hq, e4] at h
    rw [visitStmt_FunDecl]
    exact GenM.bind_error h
  · rw [declareFunction_found hfound hcallee] at h
    cases hb with
    | false => simp at h
    | true =>
      cases he : (g.blocksOf func).isEmpty with
      | false => simp [he] at h
      | true => exact ⟨rfl, rfl⟩

/-- Witness of C22 in the state after `sampleProgram` and `procedure x(); forward`: a second
forward declaration of `x` and a forward declaration of the function `x` are rejected. -/
theorem C22_double_declaration_witness :
    (visitStmt Wiring.initial true (.ProcDecl "x" false [] none)).run
        ((visitStmt Wiring.initial true (.ProcDecl "x" false [] none)).run sampleContext).2 =
      (.error (.codeGen "Redeclaration of procedure 'x'"),
        ((visitStmt Wiring.initial true (.ProcDecl "x" false [] none)).run sampleContext).2) ∧
    (visitStmt Wiring.initial true (.FunDecl "x" false [] none .INTEGER)).run
        ((visitStmt Wiring.initial true (.ProcDecl "x" false [] none)).run sampleContext).2 =
      (.error (.codeGen "Redeclaration of function 'x'"),
        ((visitStmt Wiring.initial true (.ProcDecl "x" false [] none)).run sampleContext).2) :=
  ⟨(C22_double_declaration _ "x" 7 (by decide!)).1 Wiring.initial true false [],
   (C22_double_declaration _ "x" 7 (by decide!)).2.1 Wiring.initial true false [] .INTEGER⟩

/-- C23. Forward declaration and definition must agree on parameters. Let the module hold a
function of the name that has no body and was declared with the parameter list `declared`.
The checks of a definition with the parameter list `paramNodes` pass, and the lowering goes
on to the body, if the two lists have the same primitive types in the same order, whatever
the names; if the lengths or the types at some position differ, the lowering of the
definition raises `CodeGenException`. -/
theorem C23_parameters_agree (g : GenContext) (declName : String) (func : Nat)
    (callee : Function) (declared paramNodes : List VarDecl)
    (hfound : (getFunction declName).run g = (.ok (some func), g))
    (hcallee : g.functions[func]? = some callee)
    (hempty : (g.blocksOf func).isEmpty = true)
    (hdeclared : callee.paramTypes = declared.map fun p => genPrimitiveType p.typeNode) :
    (declared.map VarDecl.typeNode = paramNodes.map VarDecl.typeNode →
      ∀ what retType,
        (declareFunction what declName paramNodes true retType).run g =
          (.ok (some func), g)) ∧
    (declared.map VarDecl.typeNode ≠ paramNodes.map VarDecl.typeNode →
      (∀ what retType, ∃ message,
        (declareFunction what declName paramNodes true retType).run g =
          (.error (.codeGen message), g)) ∧
      (∀ w setGlobal global blockNode, ∃ message,
        (visitStmt w setGlobal (.ProcDecl declName global paramNodes (some blockNode))).run
          g = (.error (.codeGen message), g)) ∧
      (∀ w setGlobal global blockNode retTypeNode, ∃ message,
        (visitStmt w setGlobal
          (.FunDecl declName global paramNodes (some blockNode) retTypeNode)).run g =
          (.error (.codeGen message), g))) ∧
    ((parseSource 100 ("program test; procedure x(); forward; procedure x(a: integer); " ++
        "begin writeln(a) end; begin end.").toList).map fun p => (generate p).1) =
      .ok (.error (.codeGen
        "Procedure 'x' expects 0 arguments in declaration, but 1 were provided in definition")) ∧
    ((parseSource 100 ("program test; procedure x(a: integer); forward; " ++
        "procedure x(a: real); begin writeln(a) end; begin end.").toList).map
        fun p => (generate p).1) =
      .ok (.error (.codeGen
        "Procedure 'x' expects argument $0 to be of type provided in the declaration")) ∧
    ((parseSource 100 ("program test; procedure x(a: integer); forward; " ++
        "procedure x(b: integer); begin writeln(b) end; begin end.").toList).map
        fun p => (generate p).1) = .ok (.ok ()) := by
  have hiff : callee.paramTypes = paramNodes.map (fun p => genPrimitiveType p.typeNode) ↔
      declared.map VarDecl.typeNode = paramNodes.map VarDecl.typeNode := by
    rw [hdeclared]
    constructor
    · intro h
      apply List.map_injective_iff.2 genPrimitiveType_injective
      simpa [List.map_map, Function.comp_def] using h
    · intro h
      have := congrArg (List.map genPrimitiveType) h
      simpa [List.map_map, Function.comp_def] using this
  have hrun : ∀ what retType,
      (declared.map VarDecl.typeNode = paramNodes.map VarDecl.typeNode →
        (declareFunction what declName paramNodes true retType).run g =
          (.ok (some func), g)) ∧
      (declared.map VarDecl.typeNode ≠ paramNodes.map VarDecl.typeNode → ∃ message,
        (declareFunction what declName paramNodes true retType).run g =
          (.error (.codeGen message), g)) := by
    intro what retType
    rw [declareFunction_found hfound hcallee, if_neg (by decide), hempty,
      if_neg (by decide)]
    by_cases hlen : callee.paramTypes.length = paramNodes.length
    · rw [if_neg (by simpa using hlen)]
      obtain ⟨h1, h2⟩ := checkArgumentTypes_run what declName callee.paramTypes 0 paramNodes g
        hlen
      refine ⟨fun h => ?_, fun h => ?_⟩
      · rw [h1 (hiff.2 h)]
      · obtain ⟨k, hk⟩ := h2 (fun h' => h (hiff.1 h'))
        rw [hk]
        exact ⟨_, rfl⟩
    · rw [if_pos hlen]
      refine ⟨fun h => ?_, fun _ => ⟨_, rfl⟩⟩
      exact absurd (by rw [hiff.2 h, List.length_map]) hlen
  refine ⟨fun h what retType => (hrun what retType).1 h, fun h => ⟨fun what retType =>
    (hrun what retType).2 h, fun w sg gl b => ?_, fun w sg gl b rt => ?_⟩, by decide!,
    by decide!, by decide!⟩
  · obtain ⟨message, hm⟩ := (hrun "Procedure" none).2 h
    rw [visitStmt_ProcDecl]
    exact ⟨message, GenM.bind_error hm⟩
  · obtain ⟨message, hm⟩ := (hrun "Function" (some rt)).2 h
    rw [visitStmt_FunDecl]
    exact ⟨message, GenM.bind_error hm⟩

/-- Witness of C23 in the state after `sampleProgram` and
`procedure x(a: integer); forward`: the checks of a definition `x(b: integer)` pass, those
of a definition `x(a: real)` raise the exception. -/
theorem C23_parameters_agree_witness :
    (declareFunction "Procedure" "x" [⟨"b", false, .INTEGER⟩] true none).run
        ((visitStmt Wiring.initial true
          (.ProcDecl "x" false [⟨"a", false, .INTEGER⟩] none)).run sampleContext).2 =
      (.ok (some 7), ((visitStmt Wiring.initial true
          (.ProcDecl "x" false [⟨"a", false, .INTEGER⟩] none)).run sampleContext).2) ∧
    ∃ message,
      (declareFunction "Procedure" "x" [⟨"a", false, .REAL⟩] true none).run
          ((visitStmt Wiring.initial true
            (.ProcDecl "x" false [⟨"a", false, .INTEGER⟩] none)).run sampleContext).2 =
        (.error (.codeGen message), ((visitStmt Wiring.initial true
            (.ProcDecl "x" false [⟨"a", false, .INTEGER⟩] none)).run sampleContext).2) :=
  ⟨(C23_parameters_agree _ "x" 7 ⟨"x", .void, [.integer 32], false, [""]⟩
      [⟨"a", false, .INTEGER⟩] [⟨"b", false, .INTEGER⟩] (by decide!) (by decide!)
      (by decide!) rfl).1 rfl "Procedure" none,
   ((C23_parameters_agree _ "x" 7 ⟨"x", .void, [.integer 32], false, [""]⟩
      [⟨"a", false, .INTEGER⟩] [⟨"a", false, .REAL⟩] (by decide!) (by decide!)
      (by decide!) rfl).2.1 (by decide)).1 "Procedure" none⟩

/-! ## What a definition after a forward declaration is not compared with -/

/-- C24. The result type of a definition is not compared with the forward declaration.
A function `f` declared `integer` and defined `real` is lowered without an exception: the
function of the module returns `i32`, and its body ends with the return of a `double`
value. So are a function defined after a forward declaration of a procedure of the same
name, which gives a function of type `void` that returns a value, and a procedure defined
after a forward declaration of a function, which gives a function of type `i32` that
returns nothing. -/
theorem C24_result_not_compared :
    ((parseSource 100 ("program t; function f(x: integer): integer; forward; " ++
        "function f(x: integer): real; begin f := 1.5 end; begin end.").toList).map
      fun p => ((generate p).1, ((generate p).2.functions[7]?).map Function.returnType,
        ((generate p).2.code[7]?).map fun q => (q.2.opcode, q.2.operands))) =
      .ok (.ok (), some (.integer 32), some (.ret, [.instruction 6 .double])) ∧
    ((parseSource 100 ("program t; procedure f(x: integer); forward; " ++
        "function f(x: integer): integer; begin f := 1 end; begin end.").toList).map
      fun p => ((generate p).1, ((generate p).2.functions[7]?).map Function.returnType,
        ((generate p).2.code[7]?).map fun q => (q.2.opcode, q.2.operands))) =
      .ok (.ok (), some .void, some (.ret, [.instruction 6 (.integer 32)])) ∧
    ((parseSource 100 ("program t; function f(x: integer): integer; forward; " ++
        "procedure f(x: integer); begin end; begin end.").toList).map
      fun p => ((generate p).1, ((generate p).2.functions[7]?).map Function.returnType,
        ((generate p).2.code[3]?).map fun q => (q.2.opcode, q.2.operands))) =
      .ok (.ok (), some (.integer 32), some (.retVoid, [])) := by
  refine ⟨by decide!, by decide!, by decide!⟩

/-- The first declaration of a function with a parameter of its own name raises
`CodeGenException`, with a body or without. -/
theorem declareFunction_parameter_name {what declName : String} {paramNodes : List VarDecl}
    {g : GenContext} (hasBlock : Bool) (retType : PrimitiveType)
    (hnone : (getFunction declName).run g = (.ok none, g))
    (hparam : ∃ p ∈ paramNodes, p.declName = declName) :
    (declareFunction what declName paramNodes hasBlock (some retType)).run g =
      (.error (.codeGen ("Function parameter has the same name as the function itself: '" ++
        declName ++ "'")), g) := by
  unfold declareFunction
  rw [GenM.bind_ok hnone]
  dsimp only
  rw [if_pos ⟨rfl, hparam⟩]
  rfl

/-- C25. A function parameter with the name of the function, in the definition that follows
a forward declaration. The test of the names is made only when the function is declared
for the first time; in a definition after a forward declaration the exception comes, if at
all, from the symbol table, when the return slot is bound to a name that a parameter has
taken. The argument of `function entry(entry: integer)` is renamed `entry1`, because the
block `entry` has the name in the function, so the return slot `entry` is bound without an
exception and the definition is lowered. -/
theorem C25_parameter_named_like_function :
    ((parseSource 100 ("program t; function entry(a: integer): integer; forward; " ++
        "function entry(entry: integer): integer; begin entry := 1 end; " ++
        "begin end.").toList).map
      fun p => ((generate p).1, ((generate p).2.functions[7]?).map Function.argNames)) =
      .ok (.ok (), some ["entry1"]) ∧
    ((parseSource 100 ("program t; function x(a: integer): integer; forward; " ++
        "function x(x: integer): integer; begin end; begin end.").toList).map
      fun p => (generate p).1) =
      .ok (.error (.codeGen "Failed to add new symbol - symbol already exists: x")) ∧
    ((parseSource 100 ("program test; function x(x: integer): integer; begin end; " ++
        "begin write(x(1)); end.").toList).map fun p => (generate p).1) =
      .ok (.error (.codeGen
        "Function parameter has the same name as the function itself: 'x'")) := by
  refine ⟨by decide!, by decide!, by decide!⟩

/-! ## A variable named like a function -/

theorem functions_stable :
    ExprStable (fun (g g' : GenContext) => ∀ (i : Nat) (fn : Function),
      g.functions[i]? = some fn → g'.functions[i]? = some fn) where
  refl _ _ _ h := h
  trans _ _ _ h1 h2 i fn h := h2 i fn (h1 i fn h)
  emit _ _ _ _ _ _ _ _ h := h
  addBlock _ _ _ _ _ h := h
  setInsertBlock _ _ _ _ h := h
  addString _ _ _ _ h := h
  addFunction g returnType paramTypes isVarArg name i fn h := by
    rw [addFunction_functions, List.getElem?_append_left]
    · exact h
    · by_contra hn
      rw [List.getElem?_eq_none (by omega)] at h
      cases h

/-- The visit of a call whose name is none of the predefined ones: the last handler of the
chain, `UserFuncHandler::handle`. -/
theorem visitExpr_userCall {f : String} (argNodes : List Expr)
    (huser : f ∉ ["write", "writeln", "readln", "to_integer", "to_real"]) :
    visitExpr (.FunCall f argNodes) =
      (do
        let func ← validateUserCall f argNodes.length
        let argsV ← visitArgs f argNodes
        let call ← CreateCall (some func) argsV
        pure (some call)) := by
  have h1 : ¬(f = "write" ∨ f = "writeln") := fun h => huser (by
    rcases h with h | h <;> simp [h])
  have h2 : ¬(f = "readln") := fun h => huser (by simp [h])
  have h3 : ¬(f = "to_integer") := fun h => huser (by simp [h])
  have h4 : ¬(f = "to_real") := fun h => huser (by simp [h])
  rcases argNodes with _ | ⟨a, _ | ⟨b, rest⟩⟩
  · unfold visitExpr
    simp only [h1, h2, h3, h4, if_false]
  · cases a <;>
    · unfold visitExpr
      simp only [h1, h2, h3, h4, if_false]
  · unfold visitExpr
    simp only [h1, h2, h3, h4, if_false]

/-- C26. A variable may reuse the name of a function. Let the module hold a function `f`,
none of the predefined procedures, and let no symbol `f` be bound. Then `var f` in the main
block is lowered without error to a global variable, and the functions of the module stay
as they were; afterwards a reference to `f` loads from that variable, the store visitor
finds that variable, and a call `f(...)` with as many arguments as `f` has parameters, in
an expression or as a statement, is lowered to a call of the function. -/
theorem C26_variable_named_like_function (w : Wiring) (g : GenContext) (f : String)
    (func : Nat) (callee : Function) (global : Bool) (typeNode : PrimitiveType)
    (hfun : (getFunction f).run g = (.ok (some func), g))
    (hcallee : g.functions[func]? = some callee)
    (hfree : g.symbolTable.contains f = false)
    (huser : f ∉ ["write", "writeln", "readln", "to_integer", "to_real"]) :
    ∃ g1,
      (visitStmt w true (.VarDeclStmt ⟨f, global, typeNode⟩)).run g = (.ok (), g1) ∧
      g1.functions = g.functions ∧
      g1.symbolTable.lookup f = some ⟨f, .primitive typeNode,
        .globalVariable (.globalVariable g.globals.length (genPrimitiveType typeNode)),
        false⟩ ∧
      (visitExpr (.DeclVarRef f)).run g1 =
        (.ok (some (.instruction g1.code.length (genPrimitiveType typeNode))),
          g1.emit .load [.globalVariable g.globals.length (genPrimitiveType typeNode)]
            (genPrimitiveType typeNode) f) ∧
      (storeVisit (.DeclVarRef f)).run g1 =
        (.ok (some (.globalVariable g.globals.length (genPrimitiveType typeNode))), g1) ∧
      (∀ argNodes argsV g2, argNodes.length = callee.paramTypes.length →
        (visitArgs f argNodes).run g1 = (.ok argsV, g2) →
        (visitExpr (.FunCall f argNodes)).run g1 =
          (.ok (some (.instruction g2.code.length callee.returnType)),
            g2.emit (.call func) argsV callee.returnType "") ∧
        ∀ setGlobal, (visitStmt w setGlobal (.ProcCall f argNodes)).run g1 =
          (.ok (), g2.emit (.call func) argsV callee.returnType "")) ∧
      ((parseSource 100 ("program test; procedure proc(); begin write(1) end; " ++
          "function func(): integer; begin func := 4; write(9) end; " ++
          "var proc, func: integer; begin proc(); func := func(); write(func); " ++
          "end.").toList).map fun p => (generate p).1) = .ok (.ok ()) := by
  obtain ⟨d, hd⟩ : ∃ d, ∀ g, (getDefaultValueForType (genPrimitiveType typeNode)).run g =
      (.ok d, g) := by
    cases typeNode
    · exact ⟨_, fun _ => rfl⟩
    · exact ⟨_, fun _ => rfl⟩
  obtain ⟨g1, hg1⟩ : ∃ g1 : GenContext, g1 =
      (g.addGlobalVariable (genPrimitiveType typeNode) d f).setSymbolTable
        ((f, ⟨f, .primitive typeNode,
          .globalVariable (.globalVariable g.globals.length (genPrimitiveType typeNode)),
          false⟩) :: g.symbolTable) := ⟨_, rfl⟩
  have hfn : g1.functions = g.functions := by rw [hg1]; rfl
  have hsym : g1.symbolTable.lookup f = some ⟨f, .primitive typeNode,
      .globalVariable (.globalVariable g.globals.length (genPrimitiveType typeNode)),
      false⟩ := by
    rw [hg1]
    simp [List.lookup]
  refine ⟨g1, ?_, hfn, hsym, ?_, ?_, ?_, by decide!⟩
  · rw [hg1, visitStmt_VarDeclStmt]
    unfold visitVarDecl
    simp only [GenM.bind_run, GenM.get_run, hfree, Bool.false_eq_true, if_false, hd, isGlobal,
      Bool.true_or, if_true, newGlobalVariable_run]
    rw [addSymbol_run _ (by simpa using hfree)]
    rfl
  · simp only [visitExpr, visitDeclVarRef, GenM.bind_run, GenM.get_run,
      contains_of_lookup hsym, getSymbol_run hsym, Bool.not_true,
      Bool.false_eq_true, if_false, CreateLoad, insert_run, GenM.pure_run]
    rfl
  · simp only [storeVisit, storeDeclVarRef, GenM.bind_run, GenM.get_run,
      contains_of_lookup hsym, getSymbol_run hsym, Bool.not_true,
      Bool.false_eq_true, if_false, GenM.pure_run]
    rfl
  · intro argNodes argsV g2 hlen hargs
    have hf1 : g1.functions[func]? = some callee := by rw [hfn]; exact hcallee
    have hf2 : g2.functions[func]? = some callee := by
      have := (keeps_visitArgs functions_stable f argNodes).after g1
      rw [hargs] at this
      exact this func callee hf1
    have hv : (validateUserCall f argNodes.length).run g1 = (.ok func, g1) := by
      unfold validateUserCall
      rw [GenM.bind_ok (show (getFunction f).run g1 = (.ok (some func), g1) from by
        rw [getFunction_run] at hfun ⊢
        simp only [Prod.mk.injEq, and_true] at hfun
        rw [hfn, Prod.mk.injEq]
        exact ⟨hfun, rfl⟩)]
      dsimp only
      rw [GenM.bind_ok (functionAt_run hf1)]
      rw [if_neg (by simp [hlen])]
      rfl
    have hcall : (visitExpr (.FunCall f argNodes)).run g1 =
        (.ok (some (.instruction g2.code.length callee.returnType)),
          g2.emit (.call func) argsV callee.returnType "") := by
      rw [visitExpr_userCall argNodes huser, GenM.bind_ok hv, GenM.bind_ok hargs]
      simp only [CreateCall, GenM.bind_run, functionAt_run hf2, insert_run, GenM.pure_run]
    refine ⟨hcall, fun sg => ?_⟩
    rw [visitStmt_ProcCall]
    show (handle f argNodes >>= fun _ => pure ()).run _ = _
    rw [GenM.bind_ok (show (handle f argNodes).run _ = _ from hcall)]
    rfl

/-- Witness of C26 in the state after `function f(): integer; begin f := 4 end`: `var f` is
lowered, the functions stay, and `f()` is lowered to a call of the function. -/
theorem C26_variable_named_like_function_witness :
    ∃ g1,
      (visitStmt Wiring.initial true (.VarDeclStmt ⟨"f", false, .INTEGER⟩)).run
        sampleWithFunction = (.ok (), g1) ∧
      g1.functions = sampleWithFunction.functions ∧
      (visitExpr (.FunCall "f" [])).run g1 =
        (.ok (some (.instruction g1.code.length (.integer 32))),
          g1.emit (.call 7) [] (.integer 32) "") := by
  obtain ⟨g1, h1, h2, -, -, -, h6, -⟩ :=
    C26_variable_named_like_function Wiring.initial sampleWithFunction "f" 7
      ⟨"f", .integer 32, [], false, []⟩ false .INTEGER (by decide!) (by decide!)
      (by decide!) (by decide)
  exact ⟨g1, h1, h2, (h6 [] [] g1 rfl rfl).1⟩

/-! ## The bound of a for loop -/

/-- C30, counterexample. In the lowering of
`program t; var i, n: integer; begin n := 3; for i := 0 to n do write(i) end.` the load of
`n`, which evaluates the bound, is instruction 4 of block 2, the block `cond`, and the body
(block 3) ends with the branch to block 2: the bound is evaluated again before every
iteration. -/
theorem C30_counterexample :
    ((parseSource 100 ("program t; var i, n: integer; begin n := 3; " ++
        "for i := 0 to n do write(i) end.").toList).map
      fun p => ((generate p).2.blocks[2]?).map BasicBlock.name) = .ok (some "cond") ∧
    ((parseSource 100 ("program t; var i, n: integer; begin n := 3; " ++
        "for i := 0 to n do write(i) end.").toList).map
      fun p => (generate p).2.instructionsOf 2) =
      .ok [⟨4, .load, [.globalVariable 1 (.integer 32)], .integer 32, "n"⟩,
        ⟨5, .load, [.globalVariable 0 (.integer 32)], .integer 32, "i"⟩,
        ⟨6, .icmp .SLE, [.instruction 5 (.integer 32), .instruction 4 (.integer 32)],
          .integer 1, "le"⟩,
        ⟨7, .condBr 3 4, [.instruction 6 (.integer 1)], .void, ""⟩] ∧
    ((parseSource 100 ("program t; var i, n: integer; begin n := 3; " ++
        "for i := 0 to n do write(i) end.").toList).map
      fun p => ((generate p).2.instructionsOf 3).getLast?) =
      .ok (some ⟨13, .br 2, [], .void, ""⟩) := by
  refine ⟨by decide!, by decide!, by decide!⟩

/-- C30, amended. In the lowering of `for v := a to b do s` and of
`for v := a downto b do s` with a simple variable `v`, at an insertion point in a block of
a function, the four blocks `init`, `cond`, `body` and `after` are created and the
initialisation is lowered into `init`; then the bound `b` is lowered at the insertion
point in `cond`, before the load of `v`, the comparison and the conditional branch to
`body` or `after`; the body is lowered into `body` and is followed by the increment, the
store and the branch back to `cond`. The instructions of the bound are part of the block
that the loop returns to after each iteration. -/
theorem C30_bound_lowered_in_cond (w : Wiring) (setGlobal : Bool) (g g1 : GenContext)
    (v : String) (fromNode toNode : Expr) (bodyNode : Stmt) (increasing : Bool)
    (b f : Nat) (block : BasicBlock) (symbol : Symbol)
    (hb : g.insertBlock = some b) (hblock : g.blocks[b]? = some block)
    (hf : block.parent = some f)
    (hinit : (visitStmt w false (.Assign (.DeclVarRef v) fromNode)).run
      ((((((g.addBlock "init" (some f)).addBlock "cond" (some f)).addBlock "body"
        (some f)).addBlock "after" (some f)).emit (.br g.blocks.length) [] .void
        "").setInsertBlock g.blocks.length) = (.ok (), g1))
    (hsym : g1.symbolTable.lookup v = some symbol) :
    ∃ gCond,
      gCond = (g1.emit (.br (g.blocks.length + 1)) [] .void "").setInsertBlock
        (g.blocks.length + 1) ∧
      gCond.insertBlock = some (g.blocks.length + 1) ∧
      (visitStmt w setGlobal
        (.For (.Assign (.DeclVarRef v) fromNode) toNode bodyNode increasing)).run g =
        (do
          let toVal ← visitExpr toNode
          let fromVal ← visitExpr (.DeclVarRef v)
          let condVal ←
            if increasing then
              CreateICmp .SLE (← expectValue fromVal) (← expectValue toVal) "le"
            else CreateICmp .SGE (← expectValue fromVal) (← expectValue toVal) "ge"
          let _ ← CreateCondBr condVal (g.blocks.length + 2) (g.blocks.length + 3)
          SetInsertPoint (some (g.blocks.length + 2))
          visitStmt { w with breakBlock := some (g.blocks.length + 3) } false bodyNode
          let fromVal ← visitExpr (.DeclVarRef v)
          let incrementedVal ← CreateBinOp .add (← expectValue fromVal)
            (.constantInt (.integer 32) (if increasing then 1 else -1)) ""
          let _ ← CreateStore incrementedVal symbol.getMemPtr
          let _ ← CreateBr (g.blocks.length + 1)
          SetInsertPoint (some (g.blocks.length + 3))).run gCond := by
  refine ⟨(g1.emit (.br (g.blocks.length + 1)) [] .void "").setInsertBlock
    (g.blocks.length + 1), rfl, rfl, ?_⟩
  rw [visitStmt_For]
  rw [GenM.bind_ok (getInsertBlockParent_run hb hblock), hf]
  simp only [Option.isNone_some, Bool.false_eq_true, if_false]
  rw [GenM.bind_ok (createBlock_run _ _ _)]
  rw [GenM.bind_ok (createBlock_run _ _ _)]
  rw [GenM.bind_ok (createBlock_run _ _ _)]
  rw [GenM.bind_ok (createBlock_run _ _ _)]
  have e1 : (g.addBlock "init" (some f)).blocks.length = g.blocks.length + 1 := by simp
  have e2 : ((g.addBlock "init" (some f)).addBlock "cond" (some f)).blocks.length =
      g.blocks.length + 2 := by simp
  have e3 : (((g.addBlock "init" (some f)).addBlock "cond" (some f)).addBlock "body"
      (some f)).blocks.length = g.blocks.length + 3 := by simp
  simp only [e1, e2, e3]
  simp only [CreateBr]
  rw [GenM.bind_ok (insert_run _ _ _ _ _)]
  rw [GenM.bind_ok (setInsertPoint_run _ _)]
  rw [GenM.bind_ok hinit]
  rw [GenM.bind_ok (insert_run _ _ _ _ _)]
  rw [GenM.bind_ok (setInsertPoint_run _ _)]
  have hstore : (storeVisit (Stmt.getVarNode (.Assign (.DeclVarRef v) fromNode))).run
      ((g1.emit (.br (g.blocks.length + 1)) [] .void "").setInsertBlock
        (g.blocks.length + 1)) = (.ok (some symbol.getMemPtr),
        (g1.emit (.br (g.blocks.length + 1)) [] .void "").setInsertBlock
          (g.blocks.length + 1)) := by
    simp only [Stmt.getVarNode, storeVisit, storeDeclVarRef, GenM.bind_run, GenM.get_run]
    have hs : ((g1.emit (.br (g.blocks.length + 1)) [] .void "").setInsertBlock
        (g.blocks.length + 1)).symbolTable.lookup v = some symbol := hsym
    simp only [contains_of_lookup hs, Bool.not_true, Bool.false_eq_true, if_false]
    rw [GenM.bind_ok (getSymbol_run hs)]
    rfl
  rw [GenM.bind_ok hstore]
  refine congrArg (fun m : GenM Unit => m.run _) ?_
  refine congrArg _ (funext fun toVal => ?_)
  refine congrArg _ (funext fun fromVal => ?_)
  cases increasing <;> rfl

/-- Witness of C30: `for i := 0 to c do ;` at the insertion point of the state after
`sampleProgram`, in the block `entry` (block 0) of `main` (function 6). The bound `c` is
lowered at the insertion point in block 2, the block `cond`. -/
theorem C30_bound_lowered_in_cond_witness :
    ∃ gCond, gCond.insertBlock = some (sampleContext.blocks.length + 1) ∧
      (visitStmt Wiring.initial false
        (.For (.Assign (.DeclVarRef "i") (.Literal (.int 0))) (.DeclVarRef "c") .EmptyStmt
          true)).run sampleContext =
        (do
          let toVal ← visitExpr (.DeclVarRef "c")
          let fromVal ← visitExpr (.DeclVarRef "i")
          let condVal ←
            if true then
              CreateICmp .SLE (← expectValue fromVal) (← expectValue toVal) "le"
            else CreateICmp .SGE (← expectValue fromVal) (← expectValue toVal) "ge"
          let _ ← CreateCondBr condVal (sampleContext.blocks.length + 2)
            (sampleContext.blocks.length + 3)
          SetInsertPoint (some (sampleContext.blocks.length + 2))
          visitStmt { Wiring.initial with breakBlock := some (sampleContext.blocks.length + 3) }
            false .EmptyStmt
          let fromVal ← visitExpr (.DeclVarRef "i")
          let incrementedVal ← CreateBinOp .add (← expectValue fromVal)
            (.constantInt (.integer 32) (if true then 1 else -1)) ""
          let _ ← CreateStore incrementedVal
            (Symbol.getMemPtr ⟨"i", .primitive .INTEGER,
              .globalVariable (.globalVariable 0 (.integer 32)), false⟩)
          let _ ← CreateBr (sampleContext.blocks.length + 1)
          SetInsertPoint (some (sampleContext.blocks.length + 3))).run gCond := by
  obtain ⟨gCond, _, h2, h3⟩ := C30_bound_lowered_in_cond Wiring.initial false sampleContext _
    "i" (.Literal (.int 0)) (.DeclVarRef "c") .EmptyStmt true 0 6 ⟨"entry", some 6⟩
    ⟨"i", .primitive .INTEGER, .globalVariable (.globalVariable 0 (.integer 32)), false⟩
    (by decide!) (by decide!) rfl (Prod.ext (by decide!) rfl) (by decide!)
  exact ⟨gCond, h2, h3⟩

/-! ## Induction over the statements -/

/-- Induction over the tree of a statement: a property holds of every statement if it holds
of each statement of whose children it holds. -/
theorem Stmt.induct {P : Stmt → Prop}
    (hBlock : ∀ main statementNodes, (∀ s ∈ statementNodes, P s) →
      P (.Block main statementNodes))
    (hCompoundStmt : ∀ statementNodes, (∀ s ∈ statementNodes, P s) →
      P (.CompoundStmt statementNodes))
    (hVarDeclStmt : ∀ decl, P (.VarDeclStmt decl))
    (hArrayDecl : ∀ declName global typeNode, P (.ArrayDecl declName global typeNode))
    (hConstDef : ∀ declName global exprNode typeNode,
      P (.ConstDef declName global exprNode typeNode))
    (hProcDecl : ∀ declName global paramNodes optBlockNode,
      (∀ blockNode, optBlockNode = some blockNode → P blockNode) →
      P (.ProcDecl declName global paramNodes optBlockNode))
    (hFunDecl : ∀ declName global paramNodes optBlockNode retTypeNode,
      (∀ blockNode, optBlockNode = some blockNode → P blockNode) →
      P (.FunDecl declName global paramNodes optBlockNode retTypeNode))
    (hAssign : ∀ varNode exprNode, P (.Assign varNode exprNode))
    (hIf : ∀ condNode bodyNode optElseBodyNode, P bodyNode →
      (∀ elseBodyNode, optElseBodyNode = some elseBodyNode → P elseBodyNode) →
      P (.If condNode bodyNode optElseBodyNode))
    (hWhile : ∀ condNode bodyNode, P bodyNode → P (.While condNode bodyNode))
    (hFor : ∀ initNode toNode bodyNode increasing, P initNode → P bodyNode →
      P (.For initNode toNode bodyNode increasing))
    (hProcCall : ∀ procName argNodes, P (.ProcCall procName argNodes))
    (hEmptyStmt : P .EmptyStmt) (hBreak : P .Break) (hExit : P .Exit) :
    ∀ s, P s :=
  @Stmt.rec P (fun statementNodes => ∀ s ∈ statementNodes, P s)
    (fun optNode => ∀ node, optNode = some node → P node)
    hBlock hCompoundStmt hVarDeclStmt hArrayDecl hConstDef hProcDecl hFunDecl hAssign
    (fun condNode bodyNode optElseBodyNode h1 h2 => hIf condNode bodyNode optElseBodyNode h1 h2)
    hWhile hFor hProcCall hEmptyStmt hBreak hExit
    (fun s h => by cases h)
    (fun head tail h1 h2 s hs => by
      rcases List.mem_cons.1 hs with rfl | h
      · exact h1
      · exact h2 s h)
    (fun node h => by cases h)
    (fun val h node hn => by
      cases hn
      exact h)

/-! ## The cases of the visit with the members of the nodes -/

theorem visitE_Block (p : NodePath) (fields : NodeFields)
    (main : Bool) (statementNodes : List Stmt) :
    visitE p (.Block main statementNodes) fields =
      (if main then do
         let funcMain ← Function.Create (.integer 32) [] false "main"
         let EntryBlock ← BasicBlock.Create "entry" (some funcMain)
         SetInsertPoint (some EntryBlock)
         let fields := fields.setGlobal (declNodes p 0 statementNodes)
         let retV := Value.constantInt (.integer 32) 0
         let fields :=
           fields.setRetV (collect Stmt.isExitNode p (.Block main statementNodes)) (.value retV)
         let fields ← visitEs p 0 statementNodes fields
         let _ ← CreateRet (.constantInt (.integer 32) 0)
         pure fields
       else do
         let func ← GetInsertBlockParent
         if func.isNone then GenM.throw (.codeGen "Parent function is not found")
         else do
           let BB ← BasicBlock.Create "block" func
           let _ ← CreateBr BB
           SetInsertPoint (some BB)
           let symbolTableCopy := (← GenM.get).symbolTable
           let fields ← visitEs p 0 statementNodes fields
           setSymbolTable symbolTableCopy
           pure fields) := rfl

theorem visitE_CompoundStmt (p : NodePath) (fields : NodeFields) (statementNodes : List Stmt) :
    visitE p (.CompoundStmt statementNodes) fields =
      (do
       let func ← GetInsertBlockParent
       if func.isNone then GenM.throw (.codeGen "Parent function is not found")
       else visitEs p 0 statementNodes fields) := rfl

theorem visitE_VarDeclStmt (p : NodePath) (fields : NodeFields) (decl : VarDecl) :
    visitE p (.VarDeclStmt decl) fields =
      (do
       visitVarDecl (fields.global p) decl
       pure fields) := rfl

theorem visitE_ArrayDecl (p : NodePath) (fields : NodeFields)
    (declName : String) (global : Bool) (typeNode : ArrayType) :
    visitE p (.ArrayDecl declName global typeNode) fields =
      (do
       visitArrayDecl (fields.global p) declName global typeNode
       pure fields) := rfl

theorem visitE_ConstDef (p : NodePath) (fields : NodeFields)
    (declName : String) (global : Bool) (exprNode : Expr) (typeNode : Option PrimitiveType) :
    visitE p (.ConstDef declName global exprNode typeNode) fields =
      (do
       visitConstDef (fields.global p) declName global exprNode
       pure fields) := rfl

theorem visitE_ProcDecl (p : NodePath) (fields : NodeFields)
    (declName : String) (global : Bool) (paramNodes : List VarDecl) (optBlockNode : Option Stmt) :
    visitE p (.ProcDecl declName global paramNodes optBlockNode) fields =
      (do
       let proc ← declareFunction "Procedure" declName paramNodes optBlockNode.isSome none
       match proc, optBlockNode with
       | some proc, some blockNode => do
         let prevBB ← GetInsertBlock
         let symbolTableCopy := (← GenM.get).symbolTable
         enterFunction proc paramNodes
         let fields :=
           fields.setRetV
             (collect Stmt.isExitNode p (.ProcDecl declName global paramNodes (some blockNode)))
             .monostate
         let fields ← visitE (p ++ [0]) blockNode fields
         let _ ← CreateRetVoid
         SetInsertPoint prevBB
         setSymbolTable symbolTableCopy
         pure fields
       | _, _ => pure fields) := by
  cases optBlockNode <;>
  · funext g
    delta visitE
    conv_lhs => whnf
    conv_rhs => whnf
    generalize declareFunction "Procedure" declName paramNodes _ none g = x
    rcases x with ⟨r, g1⟩
    cases r with
    | error e => rfl
    | ok proc => cases proc <;> rfl

theorem visitE_FunDecl (p : NodePath) (fields : NodeFields)
    (declName : String) (global : Bool) (paramNodes : List VarDecl)
    (optBlockNode : Option Stmt) (retTypeNode : PrimitiveType) :
    visitE p (.FunDecl declName global paramNodes optBlockNode retTypeNode) fields =
      (do
       let func ← declareFunction "Function" declName paramNodes optBlockNode.isSome
         (some retTypeNode)
       match func, optBlockNode with
       | some func, some blockNode => do
         let prevBB ← GetInsertBlock
         let symbolTableCopy := (← GenM.get).symbolTable
         enterFunction func paramNodes
         let retType := genPrimitiveType retTypeNode
         let retValStore ← createReturnSlot declName retTypeNode
         let fields :=
           fields.setRetV (collect Stmt.isExitNode (p ++ [0]) blockNode)
             (.loadReturnV retType retValStore declName)
         let fields ← visitE (p ++ [0]) blockNode fields
         let loadedReturnV ← CreateLoad retType retValStore declName
         let _ ← CreateRet loadedReturnV
         SetInsertPoint prevBB
         setSymbolTable symbolTableCopy
         pure fields
       | _, _ => pure fields) := by
  cases optBlockNode <;>
  · funext g
    delta visitE
    conv_lhs => whnf
    conv_rhs => whnf
    generalize declareFunction "Function" declName paramNodes _ _ g = x
    rcases x with ⟨r, g1⟩
    cases r with
    | error e => rfl
    | ok proc => cases proc <;> rfl

theorem visitE_Assign (p : NodePath) (fields : NodeFields) (varNode exprNode : Expr) :
    visitE p (.Assign varNode exprNode) fields =
      (do
       visitAssign varNode exprNode
       pure fields) := rfl

theorem visitE_If (p : NodePath) (fields : NodeFields)
    (condNode : Expr) (bodyNode : Stmt) (optElseBodyNode : Option Stmt) :
    visitE p (.If condNode bodyNode optElseBodyNode) fields =
      (do
       let func ← GetInsertBlockParent
       if func.isNone then GenM.throw (.codeGen "Parent function is not found")
       else do
         let BBbody ← BasicBlock.Create "body" func
         let BBelseBody ← BasicBlock.Create "elseBody" func
         let BBafter ← BasicBlock.Create "after" func
         let condVal ← visitExpr condNode
         let _ ← CreateCondBr (← expectValue condVal) BBbody BBelseBody
         SetInsertPoint (some BBbody)
         let fields ← visitE (p ++ [0]) bodyNode fields
         let _ ← CreateBr BBafter
         SetInsertPoint (some BBelseBody)
         let fields ←
           match optElseBodyNode with
           | some elseBodyNode => visitE (p ++ [1]) elseBodyNode fields
           | none => pure fields
         let _ ← CreateBr BBafter
         SetInsertPoint (some BBafter)
         pure fields) := by
  cases optElseBodyNode <;> rfl

theorem visitE_While (p : NodePath) (fields : NodeFields) (condNode : Expr) (bodyNode : Stmt) :
    visitE p (.While condNode bodyNode) fields =
      (do
       let func ← GetInsertBlockParent
       if func.isNone then GenM.throw (.codeGen "Parent function is not found")
       else do
         let BBcond ← BasicBlock.Create "cond" func
         let BBbody ← BasicBlock.Create "body" func
         let BBafter ← BasicBlock.Create "after" func
         let _ ← CreateBr BBcond
         SetInsertPoint (some BBcond)
         let condVal ← visitExpr condNode
         let _ ← CreateCondBr (← expectValue condVal) BBbody BBafter
         SetInsertPoint (some BBbody)
         let fields := fields.setBreakBlock (collect Stmt.isBreakNode (p ++ [0]) bodyNode) BBafter
         let fields ← visitE (p ++ [0]) bodyNode fields
         let _ ← CreateBr BBcond
         SetInsertPoint (some BBafter)
         pure fields) := rfl

theorem visitE_For (p : NodePath) (fields : NodeFields)
    (initNode : Stmt) (toNode : Expr) (bodyNode : Stmt) (increasing : Bool) :
    visitE p (.For initNode toNode bodyNode increasing) fields =
      (do
       let func ← GetInsertBlockParent
       if func.isNone then GenM.throw (.codeGen "Parent function is not found")
       else do
         let BBinit ← BasicBlock.Create "init" func
         let BBcond ← BasicBlock.Create "cond" func
         let BBbody ← BasicBlock.Create "body" func
         let BBafter ← BasicBlock.Create "after" func
         let _ ← CreateBr BBinit
         SetInsertPoint (some BBinit)
         let fields ← visitE (p ++ [0]) initNode fields
         let _ ← CreateBr BBcond
         SetInsertPoint (some BBcond)
         let fromStore ← storeVisit initNode.getVarNode
         let toVal ← visitExpr toNode
         let fromVal ← visitExpr initNode.getVarNode
         let condVal ←
           if increasing then CreateICmp .SLE (← expectValue fromVal) (← expectValue toVal) "le"
           else CreateICmp .SGE (← expectValue fromVal) (← expectValue toVal) "ge"
         let _ ← CreateCondBr condVal BBbody BBafter
         SetInsertPoint (some BBbody)
         let fields := fields.setBreakBlock (collect Stmt.isBreakNode (p ++ [1]) bodyNode) BBafter
         let fields ← visitE (p ++ [1]) bodyNode fields
         let fromVal ← visitExpr initNode.getVarNode
         let incrementedVal ← CreateBinOp .add (← expectValue fromVal)
           (.constantInt (.integer 32) (if increasing then 1 else -1)) ""
         let _ ← CreateStore incrementedVal (← expectValue fromStore)
         let _ ← CreateBr BBcond
         SetInsertPoint (some BBafter)
         pure fields) := rfl

theorem visitE_ProcCall (p : NodePath) (fields : NodeFields)
    (procName : String) (argNodes : List Expr) :
    visitE p (.ProcCall procName argNodes) fields =
      (do
       let _ ← handle procName argNodes
       pure fields) := rfl

theorem visitE_EmptyStmt (p : NodePath) (fields : NodeFields) :
    visitE p (.EmptyStmt) fields =
      pure fields := rfl

theorem visitE_Break (p : NodePath) (fields : NodeFields) :
    visitE p (.Break) fields =
      (do
       visitBreakNode (fields.breakBlock p)
       pure fields) := rfl

theorem visitE_Exit (p : NodePath) (fields : NodeFields) :
    visitE p (.Exit) fields =
      (do
       visitExitNode (fields.retV p)
       pure fields) := rfl

theorem visitEs_nil (p : NodePath) (i : Nat) (fields : NodeFields) :
    visitEs p i [] fields = pure fields := rfl

theorem visitEs_cons (p : NodePath) (i : Nat) (s : Stmt) (rest : List Stmt)
    (fields : NodeFields) :
    visitEs p i (s :: rest) fields =
      (do
        let fields ← visitE (p ++ [i]) s fields
        visitEs p (i + 1) rest fields) := rfl

/-! ## What the collector finds -/

theorem mem_collectList {test : Stmt → Bool} {p : NodePath} {q : NodePath} :
    ∀ (statementNodes : List Stmt) (i : Nat), q ∈ collectList test p i statementNodes ↔
      ∃ j s, statementNodes[j]? = some s ∧ q ∈ collect test (p ++ [i + j]) s
  | [], i => by simp [collectList]
  | s :: rest, i => by
    rw [collectList, List.mem_append, mem_collectList rest (i + 1)]
    constructor
    · rintro (h | ⟨j, s', h1, h2⟩)
      · exact ⟨0, s, List.getElem?_cons_zero, h⟩
      · refine ⟨j + 1, s', by rw [List.getElem?_cons_succ]; exact h1, ?_⟩
        rw [show i + (j + 1) = i + 1 + j by omega]
        exact h2
    · rintro ⟨j, s', h1, h2⟩
      cases j with
      | zero =>
        rw [List.getElem?_cons_zero] at h1
        cases h1
        exact Or.inl h2
      | succ j =>
        rw [List.getElem?_cons_succ] at h1
        refine Or.inr ⟨j, s', h1, ?_⟩
        rw [show i + 1 + j = i + (j + 1) by omega]
        exact h2

theorem mem_declNodes {p : NodePath} {q : NodePath} :
    ∀ (statementNodes : List Stmt) (i : Nat), q ∈ declNodes p i statementNodes ↔
      ∃ j s, statementNodes[j]? = some s ∧ s.isDeclNode = true ∧ q = p ++ [i + j]
  | [], i => by simp [declNodes]
  | s :: rest, i => by
    rw [declNodes, List.mem_append, mem_declNodes rest (i + 1)]
    constructor
    · rintro (h | ⟨j, s', h1, h2, h3⟩)
      · split at h
        · rename_i hs
          exact ⟨0, s, List.getElem?_cons_zero, hs, List.mem_singleton.1 h⟩
        · cases h
      · refine ⟨j + 1, s', by rw [List.getElem?_cons_succ]; exact h1, h2, ?_⟩
        rw [show i + (j + 1) = i + 1 + j by omega]
        exact h3
    · rintro ⟨j, s', h1, h2, h3⟩
      cases j with
      | zero =>
        rw [List.getElem?_cons_zero] at h1
        cases h1
        left
        rw [if_pos h2]
        exact List.mem_singleton.2 h3
      | succ j =>
        rw [List.getElem?_cons_succ] at h1
        refine Or.inr ⟨j, s', h1, h2, ?_⟩
        rw [show i + 1 + j = i + (j + 1) by omega]
        exact h3

theorem below_of_append {p q r : NodePath} (h : (p ++ r) <+: q) : p <+: q :=
  (List.prefix_append p r).trans h

theorem mem_tryAddNode {test : Stmt → Bool} {p q : NodePath} {s : Stmt} :
    q ∈ tryAddNode test p s ↔ test s = true ∧ q = p := by
  unfold tryAddNode
  split <;> simp [*]

theorem collect_ProcDecl (test : Stmt → Bool) (p : NodePath) (declName : String)
    (global : Bool) (paramNodes : List VarDecl) (optBlockNode : Option Stmt) :
    collect test p (.ProcDecl declName global paramNodes optBlockNode) =
      tryAddNode test p (.ProcDecl declName global paramNodes optBlockNode) ++
        match optBlockNode with
        | some blockNode => collect test (p ++ [0]) blockNode
        | none => [] := by
  cases optBlockNode <;> rfl

theorem collect_FunDecl (test : Stmt → Bool) (p : NodePath) (declName : String)
    (global : Bool) (paramNodes : List VarDecl) (optBlockNode : Option Stmt)
    (retTypeNode : PrimitiveType) :
    collect test p (.FunDecl declName global paramNodes optBlockNode retTypeNode) =
      tryAddNode test p (.FunDecl declName global paramNodes optBlockNode retTypeNode) ++
        match optBlockNode with
        | some blockNode => collect test (p ++ [0]) blockNode
        | none => [] := by
  cases optBlockNode <;> rfl

theorem collect_If (test : Stmt → Bool) (p : NodePath) (condNode : Expr) (bodyNode : Stmt)
    (optElseBodyNode : Option Stmt) :
    collect test p (.If condNode bodyNode optElseBodyNode) =
      tryAddNode test p (.If condNode bodyNode optElseBodyNode) ++
        (collect test (p ++ [0]) bodyNode ++
          match optElseBodyNode with
          | some elseBodyNode => collect test (p ++ [1]) elseBodyNode
          | none => []) := by
  cases optElseBodyNode <;> rfl

/-- The collector finds nodes in the tree of the node it starts at only. -/
theorem collect_below (test : Stmt → Bool) :
    ∀ (s : Stmt) (p q : NodePath), q ∈ collect test p s → p <+: q := by
  intro s
  induction s using Stmt.induct with
  | hBlock main statementNodes ih =>
    intro p q h
    rw [collect, List.mem_append, mem_collectList, mem_tryAddNode] at h
    rcases h with ⟨-, rfl⟩ | ⟨j, s, h1, h2⟩
    · exact List.prefix_refl _
    · exact below_of_append (ih s (List.getElem?_mem h1) _ _ h2)
  | hCompoundStmt statementNodes ih =>
    intro p q h
    rw [collect, List.mem_append, mem_collectList, mem_tryAddNode] at h
    rcases h with ⟨-, rfl⟩ | ⟨j, s, h1, h2⟩
    · exact List.prefix_refl _
    · exact below_of_append (ih s (List.getElem?_mem h1) _ _ h2)
  | hVarDeclStmt decl =>
    intro p q h
    rw [collect, mem_tryAddNode] at h
    rw [h.2]
  | hArrayDecl declName global typeNode =>
    intro p q h
    rw [collect, mem_tryAddNode] at h
    rw [h.2]
  | hConstDef declName global exprNode typeNode =>
    intro p q h
    rw [collect, mem_tryAddNode] at h
    rw [h.2]
  | hProcDecl declName global paramNodes optBlockNode ih =>
    intro p q h
    rw [collect_ProcDecl, List.mem_append, mem_tryAddNode] at h
    rcases h with ⟨-, rfl⟩ | h
    · exact List.prefix_refl _
    · cases optBlockNode with
      | none => cases h
      | some blockNode => exact below_of_append (ih blockNode rfl _ _ h)
  | hFunDecl declName global paramNodes optBlockNode retTypeNode ih =>
    intro p q h
    rw [collect_FunDecl, List.mem_append, mem_tryAddNode] at h
    rcases h with ⟨-, rfl⟩ | h
    · exact List.prefix_refl _
    · cases optBlockNode with
      | none => cases h
      | some blockNode => exact below_of_append (ih blockNode rfl _ _ h)
  | hAssign varNode exprNode =>
    intro p q h
    rw [collect, mem_tryAddNode] at h
    rw [h.2]
  | hIf condNode bodyNode optElseBodyNode ih1 ih2 =>
    intro p q h
    rw [collect_If, List.mem_append, List.mem_append, mem_tryAddNode] at h
    rcases h with ⟨-, rfl⟩ | h | h
    · exact List.prefix_refl _
    · exact below_of_append (ih1 _ _ h)
    · cases optElseBodyNode with
      | none => cases h
      | some elseBodyNode => exact below_of_append (ih2 elseBodyNode rfl _ _ h)
  | hWhile condNode bodyNode ih =>
    intro p q h
    rw [collect, List.mem_append, mem_tryAddNode] at h
    rcases h with ⟨-, rfl⟩ | h
    · exact List.prefix_refl _
    · exact below_of_append (ih _ _ h)
  | hFor initNode toNode bodyNode increasing ih1 ih2 =>
    intro p q h
    rw [collect, List.mem_append, List.mem_append, mem_tryAddNode] at h
    rcases h with ⟨-, rfl⟩ | h | h
    · exact List.prefix_refl _
    · exact below_of_append (ih2 _ _ h)
    · exact below_of_append (ih1 _ _ h)
  | hProcCall procName argNodes =>
    intro p q h
    rw [collect, mem_tryAddNode] at h
    rw [h.2]
  | hEmptyStmt =>
    intro p q h
    rw [collect, mem_tryAddNode] at h
    rw [h.2]
  | hBreak =>
    intro p q h
    rw [collect, mem_tryAddNode] at h
    rw [h.2]
  | hExit =>
    intro p q h
    rw [collect, mem_tryAddNode] at h
    rw [h.2]

/-! ## Runs that end alike -/

theorem simulates_same_bind {α : Type} {a : GenM α} {k : α → GenM NodeFields}
    {k' : α → GenM Unit} {F : NodeFields → Prop} (h : ∀ x, Simulates (k x) (k' x) F) :
    Simulates (a >>= k) (a >>= k') F := by
  constructor
  intro g
  rcases ha : a.run g with ⟨r, g1⟩
  cases r with
  | error e =>
    rw [GenM.bind_error ha, GenM.bind_error ha]
    exact ⟨rfl, rfl⟩
  | ok x =>
    rw [GenM.bind_ok ha, GenM.bind_ok ha]
    exact (h x).run g1

theorem simulates_visit_bind {m : GenM NodeFields} {n : GenM Unit}
    {k : NodeFields → GenM NodeFields} {k' : Unit → GenM Unit} {F1 F : NodeFields → Prop}
    (h1 : Simulates m n F1) (h2 : ∀ fields, F1 fields → Simulates (k fields) (k' ()) F) :
    Simulates (m >>= k) (n >>= k') F := by
  constructor
  intro g
  have h := h1.run g
  rcases hm : m.run g with ⟨r, g1⟩
  rcases hn : n.run g with ⟨r', g1'⟩
  rw [hm, hn] at h
  cases r with
  | error e =>
    cases r' with
    | error e' =>
      rw [GenM.bind_error hm, GenM.bind_error hn]
      exact h
    | ok x => exact h.elim
  | ok fields =>
    cases r' with
    | error e' => exact h.elim
    | ok x =>
      obtain ⟨rfl, hF⟩ := h
      rw [GenM.bind_ok hm, GenM.bind_ok hn]
      exact (h2 fields hF).run g1

theorem simulates_pure {F : NodeFields → Prop} {fields : NodeFields} (h : F fields) :
    Simulates (pure fields) (pure ()) F :=
  ⟨fun _ => ⟨rfl, h⟩⟩

theorem simulates_throw {F : NodeFields → Prop} (e : GenError) :
    Simulates (GenM.throw e) (GenM.throw e) F :=
  ⟨fun _ => ⟨rfl, rfl⟩⟩

theorem simulates_last {F : NodeFields → Prop} {fields : NodeFields} (a : GenM Unit)
    (h : F fields) : Simulates (a >>= fun _ => Pure.pure fields) a F := by
  constructor
  intro g
  rcases ha : a.run g with ⟨r, g1⟩
  cases r with
  | error e =>
    rw [GenM.bind_error ha]
    exact ⟨rfl, rfl⟩
  | ok x =>
    rw [GenM.bind_ok ha]
    exact ⟨rfl, h⟩

theorem simulates_mono {m : GenM NodeFields} {n : GenM Unit} {F F' : NodeFields → Prop}
    (h : Simulates m n F) (hF : ∀ fields, F fields → F' fields) : Simulates m n F' := by
  constructor
  intro g
  have h := h.run g
  rcases hm : m.run g with ⟨r, g1⟩
  rcases hn : n.run g with ⟨r', g1'⟩
  rw [hm, hn] at h
  cases r with
  | error e =>
    cases r' with
    | error e' => exact h
    | ok x => exact h.elim
  | ok fields =>
    cases r' with
    | error e' => exact h.elim
    | ok x => exact ⟨h.1, hF _ h.2⟩

/-- What `Simulates` says of a run: the same state and the same outcome. -/
theorem simulates_same_run {m : GenM NodeFields} {n : GenM Unit} {F : NodeFields → Prop}
    (h : Simulates m n F) (g : GenContext) :
    (m.run g).2 = (n.run g).2 ∧ ((m.run g).1.map fun _ => ()) = (n.run g).1 := by
  have h := h.run g
  rcases hm : m.run g with ⟨r, g1⟩
  rcases hn : n.run g with ⟨r', g1'⟩
  rw [hm, hn] at h
  cases r with
  | error e =>
    cases r' with
    | error e' =>
      obtain ⟨rfl, rfl⟩ := h
      exact ⟨rfl, rfl⟩
    | ok x => exact h.elim
  | ok fields =>
    cases r' with
    | error e' => exact h.elim
    | ok x =>
      obtain ⟨rfl, -⟩ := h
      exact ⟨rfl, rfl⟩


/-! ## Places -/

theorem prefix_sibling {p q : NodePath} {i j : Nat} (hi : (p ++ [i]) <+: q)
    (hj : (p ++ [j]) <+: q) : i = j := by
  rw [List.prefix_iff_eq_take] at hi hj
  have h : p ++ [i] = p ++ [j] := by
    rw [hi, hj]
    simp
  simpa using h

theorem ne_of_prefix_child {p q : NodePath} {i : Nat} (h : (p ++ [i]) <+: q) : q ≠ p := by
  rintro rfl
  have := h.length_le
  simp at this

theorem eq_of_prefix_of_length {p q : NodePath} (h : p <+: q) (hl : q.length = p.length) :
    q = p := by
  exact (h.eq_of_length hl.symm).symm

theorem sameOutside_rfl {p : NodePath} {fields : NodeFields} : SameOutside p fields fields :=
  fun _ _ => ⟨Eq.refl _, Eq.refl _, Eq.refl _⟩

theorem sameOutside_trans {p : NodePath} {fields fields' fields'' : NodeFields}
    (h1 : SameOutside p fields fields') (h2 : SameOutside p fields' fields'') :
    SameOutside p fields fields'' := fun q hq =>
  ⟨(h2 q hq).1.trans (h1 q hq).1, (h2 q hq).2.1.trans (h1 q hq).2.1,
    (h2 q hq).2.2.trans (h1 q hq).2.2⟩

theorem sameOutside_of_child {p : NodePath} {k : Nat} {fields fields' : NodeFields}
    (h : SameOutside (p ++ [k]) fields fields') : SameOutside p fields fields' :=
  fun q hq => h q fun hp => hq (below_of_append hp)

theorem sameOutside_setBreakBlock {p : NodePath} {fields : NodeFields}
    {nodes : List NodePath} (BB : Nat) (h : ∀ q ∈ nodes, p <+: q) :
    SameOutside p fields (fields.setBreakBlock nodes BB) := by
  intro q hq
  refine ⟨rfl, ?_, rfl⟩
  show (if q ∈ nodes then some BB else fields.breakBlock q) = _
  rw [if_neg fun hm => hq (h q hm)]

theorem sameOutside_setRetV {p : NodePath} {fields : NodeFields}
    {nodes : List NodePath} (retV : RetV) (h : ∀ q ∈ nodes, p <+: q) :
    SameOutside p fields (fields.setRetV nodes retV) := by
  intro q hq
  refine ⟨rfl, rfl, ?_⟩
  show (if q ∈ nodes then retV else fields.retV q) = _
  rw [if_neg fun hm => hq (h q hm)]

theorem sameOutside_setGlobal {p : NodePath} {fields : NodeFields}
    {nodes : List NodePath} (h : ∀ q ∈ nodes, p <+: q) :
    SameOutside p fields (fields.setGlobal nodes) := by
  intro q hq
  refine ⟨?_, rfl, rfl⟩
  show (if q ∈ nodes then true else fields.global q) = _
  rw [if_neg fun hm => hq (h q hm)]

/-- A node that the collector finds is the node it starts at, or is in the tree of a child
of that node. -/
theorem collect_self_or_child (test : Stmt → Bool) (p q : NodePath) :
    ∀ s : Stmt, q ∈ collect test p s →
      (test s = true ∧ q = p) ∨ ∃ k, (p ++ [k]) <+: q := by
  intro s
  induction s using Stmt.induct with
  | hBlock main statementNodes ih =>
    intro h
    rw [collect, List.mem_append, mem_collectList, mem_tryAddNode] at h
    rcases h with h | ⟨j, s, -, h2⟩
    · exact Or.inl h
    · exact Or.inr ⟨_, collect_below _ _ _ _ h2⟩
  | hCompoundStmt statementNodes ih =>
    intro h
    rw [collect, List.mem_append, mem_collectList, mem_tryAddNode] at h
    rcases h with h | ⟨j, s, -, h2⟩
    · exact Or.inl h
    · exact Or.inr ⟨_, collect_below _ _ _ _ h2⟩
  | hVarDeclStmt decl =>
    intro h
    rw [collect, mem_tryAddNode] at h
    exact Or.inl h
  | hArrayDecl declName global typeNode =>
    intro h
    rw [collect, mem_tryAddNode] at h
    exact Or.inl h
  | hConstDef declName global exprNode typeNode =>
    intro h
    rw [collect, mem_tryAddNode] at h
    exact Or.inl h
  | hProcDecl declName global paramNodes optBlockNode ih =>
    intro h
    rw [collect_ProcDecl, List.mem_append, mem_tryAddNode] at h
    rcases h with h | h
    · exact Or.inl h
    · cases optBlockNode with
      | none => cases h
      | some blockNode => exact Or.inr ⟨_, collect_below _ _ _ _ h⟩
  | hFunDecl declName global paramNodes optBlockNode retTypeNode ih =>
    intro h
    rw [collect_FunDecl, List.mem_append, mem_tryAddNode] at h
    rcases h with h | h
    · exact Or.inl h
    · cases optBlockNode with
      | none => cases h
      | some blockNode => exact Or.inr ⟨_, collect_below _ _ _ _ h⟩
  | hAssign varNode exprNode =>
    intro h
    rw [collect, mem_tryAddNode] at h
    exact Or.inl h
  | hIf condNode bodyNode optElseBodyNode ih1 ih2 =>
    intro h
    rw [collect_If, List.mem_append, List.mem_append, mem_tryAddNode] at h
    rcases h with h | h | h
    · exact Or.inl h
    · exact Or.inr ⟨_, collect_below _ _ _ _ h⟩
    · cases optElseBodyNode with
      | none => cases h
      | some elseBodyNode => exact Or.inr ⟨_, collect_below _ _ _ _ h⟩
  | hWhile condNode bodyNode ih =>
    intro h
    rw [collect, List.mem_append, mem_tryAddNode] at h
    rcases h with h | h
    · exact Or.inl h
    · exact Or.inr ⟨_, collect_below _ _ _ _ h⟩
  | hFor initNode toNode bodyNode increasing ih1 ih2 =>
    intro h
    rw [collect, List.mem_append, List.mem_append, mem_tryAddNode] at h
    rcases h with h | h | h
    · exact Or.inl h
    · exact Or.inr ⟨_, collect_below _ _ _ _ h⟩
    · exact Or.inr ⟨_, collect_below _ _ _ _ h⟩
  | hProcCall procName argNodes =>
    intro h
    rw [collect, mem_tryAddNode] at h
    exact Or.inl h
  | hEmptyStmt =>
    intro h
    rw [collect, mem_tryAddNode] at h
    exact Or.inl h
  | hBreak =>
    intro h
    rw [collect, mem_tryAddNode] at h
    exact Or.inl h
  | hExit =>
    intro h
    rw [collect, mem_tryAddNode] at h
    exact Or.inl h

/-- The collector finds the node it starts at only if the node is of the class. -/
theorem collect_self {test : Stmt → Bool} {p : NodePath} {s : Stmt}
    (h : p ∈ collect test p s) : test s = true := by
  rcases collect_self_or_child test p p s h with h | ⟨k, hk⟩
  · exact h.1
  · exact absurd rfl (ne_of_prefix_child hk)

/-! ## What the nodes of a child hold -/

theorem breaksWired_child {fields : NodeFields} {p : NodePath} {s c : Stmt} {k : Nat}
    {breakBlock : Option Nat} (h : BreaksWired fields p s breakBlock)
    (hsub : ∀ q, q ∈ collect Stmt.isBreakNode (p ++ [k]) c →
      q ∈ collect Stmt.isBreakNode p s) :
    BreaksWired fields (p ++ [k]) c breakBlock :=
  fun q hq => h q (hsub q hq)

theorem exitsWired_child {fields : NodeFields} {p : NodePath} {s c : Stmt} {k : Nat}
    {retV : RetV} (h : ExitsWired fields p s retV)
    (hsub : ∀ q, q ∈ collect Stmt.isExitNode (p ++ [k]) c →
      q ∈ collect Stmt.isExitNode p s) :
    ExitsWired fields (p ++ [k]) c retV :=
  fun q hq => h q (hsub q hq)

theorem globalsWired_child {fields : NodeFields} {p : NodePath} {s c : Stmt} {k : Nat}
    {setGlobal : Bool} (h : GlobalsWired fields p s setGlobal)
    (hsub : ∀ q, q ∈ collect Stmt.isDeclNode (p ++ [k]) c →
      q ∈ collect Stmt.isDeclNode p s) :
    GlobalsWired fields (p ++ [k]) c false := by
  intro q hq
  rw [h q (hsub q hq), Bool.and_false]
  have hne : q ≠ p := ne_of_prefix_child (collect_below _ _ _ _ hq)
  simp [hne]

theorem breaksWired_setBreakBlock (fields : NodeFields) (p : NodePath) (s : Stmt) (BB : Nat) :
    BreaksWired (fields.setBreakBlock (collect Stmt.isBreakNode p s) BB) p s (some BB) := by
  intro q hq
  show (if q ∈ collect Stmt.isBreakNode p s then some BB else fields.breakBlock q) = _
  rw [if_pos hq]

theorem exitsWired_setRetV (fields : NodeFields) (p : NodePath) (s : Stmt)
    (nodes : List NodePath) (retV : RetV)
    (hsub : ∀ q, q ∈ collect Stmt.isExitNode p s → q ∈ nodes) :
    ExitsWired (fields.setRetV nodes retV) p s retV := by
  intro q hq
  show (if q ∈ nodes then retV else fields.retV q) = _
  rw [if_pos (hsub q hq)]

/-! ## The cases of the agreement -/

theorem agrees_While {condNode : Expr} {bodyNode : Stmt} (ih : Agrees bodyNode)
    (p : NodePath) (fields : NodeFields) (w : Wiring) (setGlobal : Bool)
    (he : ExitsWired fields p (.While condNode bodyNode) w.retV)
    (hg : GlobalsWired fields p (.While condNode bodyNode) setGlobal) :
    Simulates (visitE p (.While condNode bodyNode) fields)
      (visitStmt w setGlobal (.While condNode bodyNode)) (SameOutside p fields) := by
  have hsub : ∀ test q, q ∈ collect test (p ++ [0]) bodyNode →
      q ∈ collect test p (.While condNode bodyNode) := by
    intro test q hq
    rw [collect]
    exact List.mem_append_right _ hq
  rw [visitE_While, visitStmt_While]
  refine simulates_same_bind fun func => ?_
  split
  · exact simulates_throw _
  refine simulates_same_bind fun BBcond => ?_
  refine simulates_same_bind fun BBbody => ?_
  refine simulates_same_bind fun BBafter => ?_
  refine simulates_same_bind fun _ => ?_
  refine simulates_same_bind fun _ => ?_
  refine simulates_same_bind fun condVal => ?_
  refine simulates_same_bind fun _ => ?_
  refine simulates_same_bind fun _ => ?_
  refine simulates_same_bind fun _ => ?_
  refine simulates_visit_bind (ih _ _ _ _
    ⟨breaksWired_setBreakBlock fields _ _ BBafter, exitsWired_child he (hsub _),
      globalsWired_child hg (hsub _)⟩)
    fun fields' hF => ?_
  refine simulates_same_bind fun _ => ?_
  refine simulates_last _ ?_
  exact (sameOutside_trans
    (sameOutside_setBreakBlock BBafter fun q hq =>
      below_of_append (collect_below _ _ _ _ hq))
    (sameOutside_of_child hF))

theorem wired_of_same {fields fields' : NodeFields} {p : NodePath} {s : Stmt} {w : Wiring}
    {setGlobal : Bool} (h : Wired fields p s w setGlobal)
    (hsame : ∀ q, p <+: q → fields'.global q = fields.global q ∧
      fields'.breakBlock q = fields.breakBlock q ∧ fields'.retV q = fields.retV q) :
    Wired fields' p s w setGlobal :=
  ⟨fun q hq => (hsame q (collect_below _ _ _ _ hq)).2.1.trans (h.breaks q hq),
    fun q hq => (hsame q (collect_below _ _ _ _ hq)).2.2.trans (h.exits q hq),
    fun q hq => (hsame q (collect_below _ _ _ _ hq)).1.trans (h.globals q hq)⟩

theorem wired_of_sibling {fields fields' : NodeFields} {p : NodePath} {i j : Nat} {s : Stmt}
    {w : Wiring} {setGlobal : Bool} (h : Wired fields (p ++ [j]) s w setGlobal)
    (hij : i ≠ j) (hsame : SameOutside (p ++ [i]) fields fields') :
    Wired fields' (p ++ [j]) s w setGlobal :=
  wired_of_same h fun q hq => hsame q fun hi => hij (prefix_sibling hi hq)

theorem agrees_statements {statementNodes : List Stmt}
    (ih : ∀ s ∈ statementNodes, Agrees s) (p : NodePath) (w : Wiring) (setGlobal : Bool) :
    ∀ (i : Nat) (fields : NodeFields),
      (∀ j s, statementNodes[j]? = some s → Wired fields (p ++ [i + j]) s w setGlobal) →
      Simulates (visitEs p i statementNodes fields) (visitStmts w setGlobal statementNodes)
        (SameOutside p fields) := by
  induction statementNodes with
  | nil =>
    intro i fields _
    rw [visitEs_nil, visitStmts_nil]
    exact simulates_pure sameOutside_rfl
  | cons s rest ihr =>
    intro i fields hw
    rw [visitEs_cons, visitStmts_cons]
    refine simulates_visit_bind
      (ih s (List.mem_cons_self _ _) _ _ _ _ (hw 0 s List.getElem?_cons_zero))
      fun fields' hF => ?_
    refine simulates_mono (ihr (fun s hs => ih s (List.mem_cons_of_mem _ hs)) (i + 1) fields' ?_)
      fun fields'' hF' => sameOutside_trans (sameOutside_of_child hF) hF'
    intro j s' hs'
    have h := hw (j + 1) s' (by rw [List.getElem?_cons_succ]; exact hs')
    rw [show i + (j + 1) = i + 1 + j by omega] at h
    exact wired_of_sibling h (by omega) hF

theorem collect_statement {test : Stmt → Bool} {p q : NodePath} {statementNodes : List Stmt}
    {j : Nat} {s : Stmt} (hs : statementNodes[j]? = some s)
    (hq : q ∈ collect test (p ++ [0 + j]) s) : q ∈ collectList test p 0 statementNodes :=
  (mem_collectList statementNodes 0).2 ⟨j, s, hs, hq⟩

theorem agrees_Block_inner {statementNodes : List Stmt}
    (ih : ∀ s ∈ statementNodes, Agrees s) : Agrees (.Block false statementNodes) := by
  intro p fields w setGlobal hw
  have hsub : ∀ test q j s, statementNodes[j]? = some s →
      q ∈ collect test (p ++ [0 + j]) s →
      q ∈ collect test p (.Block false statementNodes) := by
    intro test q j s hs hq
    rw [collect]
    exact List.mem_append_right _ (collect_statement hs hq)
  rw [visitE_Block, visitStmt_Block]
  simp only [Bool.false_eq_true, if_false]
  refine simulates_same_bind fun func => ?_
  split
  · exact simulates_throw _
  refine simulates_same_bind fun BB => ?_
  refine simulates_same_bind fun _ => ?_
  refine simulates_same_bind fun _ => ?_
  refine simulates_same_bind fun g => ?_
  refine simulates_visit_bind (agrees_statements ih p w false 0 fields fun j s hs =>
    ⟨breaksWired_child hw.breaks (hsub _ · j s hs), exitsWired_child hw.exits (hsub _ · j s hs),
      globalsWired_child hw.globals (hsub _ · j s hs)⟩) fun fields' hF => ?_
  exact simulates_last _ hF

theorem agrees_CompoundStmt {statementNodes : List Stmt}
    (ih : ∀ s ∈ statementNodes, Agrees s) : Agrees (.CompoundStmt statementNodes) := by
  intro p fields w setGlobal hw
  have hsub : ∀ test q j s, statementNodes[j]? = some s →
      q ∈ collect test (p ++ [0 + j]) s →
      q ∈ collect test p (.CompoundStmt statementNodes) := by
    intro test q j s hs hq
    rw [collect]
    exact List.mem_append_right _ (collect_statement hs hq)
  rw [visitE_CompoundStmt, visitStmt_CompoundStmt]
  refine simulates_same_bind fun func => ?_
  split
  · exact simulates_throw _
  exact agrees_statements ih p w false 0 fields fun j s hs =>
    ⟨breaksWired_child hw.breaks (hsub _ · j s hs), exitsWired_child hw.exits (hsub _ · j s hs),
      globalsWired_child hw.globals (hsub _ · j s hs)⟩

theorem agrees_Block_main {statementNodes : List Stmt}
    (ih : ∀ s ∈ statementNodes, Agrees s)
    (p : NodePath) (fields : NodeFields) (w : Wiring) (setGlobal : Bool)
    (hb : BreaksWired fields p (.Block true statementNodes) w.breakBlock)
    (hg : GlobalsWired fields p (.Block true statementNodes) setGlobal) :
    Simulates (visitE p (.Block true statementNodes) fields)
      (visitStmt w setGlobal (.Block true statementNodes)) (SameOutside p fields) := by
  have hsub : ∀ test q j s, statementNodes[j]? = some s →
      q ∈ collect test (p ++ [0 + j]) s →
      q ∈ collect test p (.Block true statementNodes) := by
    intro test q j s hs hq
    rw [collect]
    exact List.mem_append_right _ (collect_statement hs hq)
  rw [visitE_Block, visitStmt_Block]
  simp only [if_true]
  refine simulates_same_bind fun funcMain => ?_
  refine simulates_same_bind fun EntryBlock => ?_
  refine simulates_same_bind fun _ => ?_
  refine simulates_visit_bind (agrees_statements ih p _ true 0 _ fun j s hs =>
    ⟨breaksWired_child hb (hsub _ · j s hs),
      exitsWired_setRetV _ _ _ _ _ (hsub _ · j s hs), ?_⟩)
    fun fields' hF => ?_
  · intro q hq
    show (if q ∈ declNodes p 0 statementNodes then true else fields.global q) = _
    rw [Bool.and_true]
    by_cases hqp : q = p ++ [0 + j]
    · subst hqp
      rw [if_pos ((mem_declNodes statementNodes 0).2 ⟨j, s, hs, collect_self hq, rfl⟩)]
      simp
    · have hnot : q ∉ declNodes p 0 statementNodes := by
        intro hm
        obtain ⟨j', s', -, -, rfl⟩ := (mem_declNodes statementNodes 0).1 hm
        exact hqp (eq_of_prefix_of_length (collect_below _ _ _ _ hq) (by simp))
      rw [if_neg hnot, hg q (hsub _ q j s hs hq)]
      have hne : q ≠ p := ne_of_prefix_child (collect_below _ _ _ _ hq)
      rw [Nat.zero_add] at hqp
      simp [hne, hqp]
  · refine simulates_same_bind fun _ => ?_
    refine simulates_pure ?_
    refine sameOutside_trans ?_ hF
    refine sameOutside_trans
      (sameOutside_setGlobal fun q hq => ?_)
      (sameOutside_setRetV _ fun q hq => collect_below _ _ _ _ hq)
    obtain ⟨j, s, -, -, rfl⟩ := (mem_declNodes statementNodes 0).1 hq
    exact List.prefix_append _ _

theorem agrees_ProcDecl {declName : String} {global : Bool} {paramNodes : List VarDecl}
    {optBlockNode : Option Stmt}
    (ih : ∀ blockNode, optBlockNode = some blockNode → Agrees blockNode)
    (p : NodePath) (fields : NodeFields) (w : Wiring) (setGlobal : Bool)
    (hb : BreaksWired fields p (.ProcDecl declName global paramNodes optBlockNode)
      w.breakBlock)
    (hg : GlobalsWired fields p (.ProcDecl declName global paramNodes optBlockNode)
      setGlobal) :
    Simulates (visitE p (.ProcDecl declName global paramNodes optBlockNode) fields)
      (visitStmt w setGlobal (.ProcDecl declName global paramNodes optBlockNode))
      (SameOutside p fields) := by
  rw [visitE_ProcDecl, visitStmt_ProcDecl]
  refine simulates_same_bind fun proc => ?_
  cases optBlockNode with
  | none => cases proc <;> exact simulates_pure sameOutside_rfl
  | some blockNode =>
    have hsub : ∀ test q, q ∈ collect test (p ++ [0]) blockNode →
        q ∈ collect test p (.ProcDecl declName global paramNodes (some blockNode)) := by
      intro test q hq
      rw [collect_ProcDecl]
      exact List.mem_append_right _ hq
    cases proc with
    | none => exact simulates_pure sameOutside_rfl
    | some proc =>
      dsimp only
      refine simulates_same_bind fun prevBB => ?_
      refine simulates_same_bind fun g => ?_
      refine simulates_same_bind fun _ => ?_
      refine simulates_visit_bind (ih blockNode rfl _ _ _ _
        ⟨breaksWired_child hb (hsub _), exitsWired_setRetV _ _ _ _ _ (hsub _),
          globalsWired_child hg (hsub _)⟩)
        fun fields' hF => ?_
      refine simulates_same_bind fun _ => ?_
      refine simulates_same_bind fun _ => ?_
      refine simulates_last _ ?_
      exact (sameOutside_trans
        (sameOutside_setRetV _ fun q hq => collect_below _ _ _ _ hq) (sameOutside_of_child hF))

theorem agrees_FunDecl {declName : String} {global : Bool} {paramNodes : List VarDecl}
    {optBlockNode : Option Stmt} {retTypeNode : PrimitiveType}
    (ih : ∀ blockNode, optBlockNode = some blockNode → Agrees blockNode)
    (p : NodePath) (fields : NodeFields) (w : Wiring) (setGlobal : Bool)
    (hb : BreaksWired fields p (.FunDecl declName global paramNodes optBlockNode retTypeNode)
      w.breakBlock)
    (hg : GlobalsWired fields p (.FunDecl declName global paramNodes optBlockNode retTypeNode)
      setGlobal) :
    Simulates (visitE p (.FunDecl declName global paramNodes optBlockNode retTypeNode) fields)
      (visitStmt w setGlobal (.FunDecl declName global paramNodes optBlockNode retTypeNode))
      (SameOutside p fields) := by
  rw [visitE_FunDecl, visitStmt_FunDecl]
  refine simulates_same_bind fun func => ?_
  cases optBlockNode with
  | none => cases func <;> exact simulates_pure sameOutside_rfl
  | some blockNode =>
    have hsub : ∀ test q, q ∈ collect test (p ++ [0]) blockNode →
        q ∈ collect test p
          (.FunDecl declName global paramNodes (some blockNode) retTypeNode) := by
      intro test q hq
      rw [collect_FunDecl]
      exact List.mem_append_right _ hq
    cases func with
    | none => exact simulates_pure sameOutside_rfl
    | some func =>
      dsimp only
      refine simulates_same_bind fun prevBB => ?_
      refine simulates_same_bind fun g => ?_
      refine simulates_same_bind fun _ => ?_
      refine simulates_same_bind fun retValStore => ?_
      refine simulates_visit_bind (ih blockNode rfl _ _ _ _
        ⟨breaksWired_child hb (hsub _), exitsWired_setRetV _ _ _ _ _ fun q hq => hq,
          globalsWired_child hg (hsub _)⟩)
        fun fields' hF => ?_
      refine simulates_same_bind fun loadedReturnV => ?_
      refine simulates_same_bind fun _ => ?_
      refine simulates_same_bind fun _ => ?_
      refine simulates_last _ ?_
      exact (sameOutside_trans
        (sameOutside_setRetV _ fun q hq =>
          below_of_append (collect_below _ _ _ _ hq)) (sameOutside_of_child hF))

theorem agrees_If {condNode : Expr} {bodyNode : Stmt} {optElseBodyNode : Option Stmt}
    (ih1 : Agrees bodyNode)
    (ih2 : ∀ elseBodyNode, optElseBodyNode = some elseBodyNode → Agrees elseBodyNode) :
    Agrees (.If condNode bodyNode optElseBodyNode) := by
  intro p fields w setGlobal hw
  have hsub : ∀ test q, q ∈ collect test (p ++ [0]) bodyNode →
      q ∈ collect test p (.If condNode bodyNode optElseBodyNode) := by
    intro test q hq
    rw [collect_If]
    exact List.mem_append_right _ (List.mem_append_left _ hq)
  rw [visitE_If, visitStmt_If]
  refine simulates_same_bind fun func => ?_
  split
  · exact simulates_throw _
  refine simulates_same_bind fun BBbody => ?_
  refine simulates_same_bind fun BBelseBody => ?_
  refine simulates_same_bind fun BBafter => ?_
  refine simulates_same_bind fun condVal => ?_
  refine simulates_same_bind fun _ => ?_
  refine simulates_same_bind fun _ => ?_
  refine simulates_same_bind fun _ => ?_
  refine simulates_visit_bind (ih1 _ _ _ _
    ⟨breaksWired_child hw.breaks (hsub _), exitsWired_child hw.exits (hsub _),
      globalsWired_child hw.globals (hsub _)⟩)
    fun fields' hF => ?_
  refine simulates_same_bind fun _ => ?_
  refine simulates_same_bind fun _ => ?_
  cases optElseBodyNode with
  | none =>
    refine simulates_visit_bind (simulates_pure (sameOutside_of_child hF)) fun fields'' hF' => ?_
    refine simulates_same_bind fun _ => ?_
    exact simulates_last _ hF'
  | some elseBodyNode =>
    have hsub2 : ∀ test q, q ∈ collect test (p ++ [1]) elseBodyNode →
        q ∈ collect test p (.If condNode bodyNode (some elseBodyNode)) := by
      intro test q hq
      rw [collect_If]
      exact List.mem_append_right _ (List.mem_append_right _ hq)
    have hw2 : Wired fields (p ++ [1]) elseBodyNode w false :=
      ⟨breaksWired_child hw.breaks (hsub2 _), exitsWired_child hw.exits (hsub2 _),
        globalsWired_child hw.globals (hsub2 _)⟩
    refine simulates_visit_bind (ih2 elseBodyNode rfl _ _ _ _
      (wired_of_sibling hw2 (by decide) hF)) fun fields'' hF' => ?_
    refine simulates_same_bind fun _ => ?_
    exact simulates_last _ (sameOutside_trans (sameOutside_of_child hF) (sameOutside_of_child hF'))

theorem agrees_For {initNode : Stmt} {toNode : Expr} {bodyNode : Stmt} {increasing : Bool}
    (ih1 : Agrees initNode) (ih2 : Agrees bodyNode)
    (p : NodePath) (fields : NodeFields) (w : Wiring) (setGlobal : Bool)
    (hb : BreaksWired fields (p ++ [0]) initNode w.breakBlock)
    (he : ExitsWired fields p (.For initNode toNode bodyNode increasing) w.retV)
    (hg : GlobalsWired fields p (.For initNode toNode bodyNode increasing) setGlobal) :
    Simulates (visitE p (.For initNode toNode bodyNode increasing) fields)
      (visitStmt w setGlobal (.For initNode toNode bodyNode increasing))
      (SameOutside p fields) := by
  have hsub0 : ∀ test q, q ∈ collect test (p ++ [0]) initNode →
      q ∈ collect test p (.For initNode toNode bodyNode increasing) := by
    intro test q hq
    rw [collect]
    exact List.mem_append_right _ (List.mem_append_right _ hq)
  have hsub1 : ∀ test q, q ∈ collect test (p ++ [1]) bodyNode →
      q ∈ collect test p (.For initNode toNode bodyNode increasing) := by
    intro test q hq
    rw [collect]
    exact List.mem_append_right _ (List.mem_append_left _ hq)
  rw [visitE_For, visitStmt_For]
  refine simulates_same_bind fun func => ?_
  split
  · exact simulates_throw _
  refine simulates_same_bind fun BBinit => ?_
  refine simulates_same_bind fun BBcond => ?_
  refine simulates_same_bind fun BBbody => ?_
  refine simulates_same_bind fun BBafter => ?_
  refine simulates_same_bind fun _ => ?_
  refine simulates_same_bind fun _ => ?_
  refine simulates_visit_bind
    (ih1 _ _ _ _ ⟨hb, exitsWired_child he (hsub0 _), globalsWired_child hg (hsub0 _)⟩)
    fun fields' hF => ?_
  refine simulates_same_bind fun _ => ?_
  refine simulates_same_bind fun _ => ?_
  refine simulates_same_bind fun fromStore => ?_
  refine simulates_same_bind fun toVal => ?_
  refine simulates_same_bind fun fromVal => ?_
  have hsame : ∀ q, (p ++ [1]) <+: q → fields'.global q = fields.global q ∧
      fields'.breakBlock q = fields.breakBlock q ∧ fields'.retV q = fields.retV q :=
    fun q hq => hF q fun h0 => absurd (prefix_sibling h0 hq) (by decide)
  have hw : Wired (fields'.setBreakBlock (collect Stmt.isBreakNode (p ++ [1]) bodyNode)
      BBafter) (p ++ [1]) bodyNode { w with breakBlock := some BBafter } false :=
    ⟨breaksWired_setBreakBlock fields' _ _ BBafter,
      fun q hq => (hsame q (collect_below _ _ _ _ hq)).2.2.trans (he q (hsub1 _ q hq)),
      fun q hq => (hsame q (collect_below _ _ _ _ hq)).1.trans
        ((globalsWired_child hg (hsub1 _)) q hq)⟩
  split <;>
  · refine simulates_same_bind fun _ => ?_
    refine simulates_same_bind fun _ => ?_
    refine simulates_same_bind fun condVal => ?_
    refine simulates_same_bind fun _ => ?_
    refine simulates_same_bind fun _ => ?_
    refine simulates_visit_bind (ih2 _ _ _ _ hw) fun fields'' hF' => ?_
    refine simulates_same_bind fun fromVal => ?_
    refine simulates_same_bind fun _ => ?_
    refine simulates_same_bind fun incrementedVal => ?_
    refine simulates_same_bind fun _ => ?_
    refine simulates_same_bind fun _ => ?_
    refine simulates_same_bind fun _ => ?_
    refine simulates_last _ ?_
    exact sameOutside_trans (sameOutside_of_child hF) ((sameOutside_trans
      (sameOutside_setBreakBlock BBafter fun q hq =>
        below_of_append (collect_below _ _ _ _ hq)) (sameOutside_of_child hF')))

theorem globals_self {fields : NodeFields} {p : NodePath} {s : Stmt} {setGlobal : Bool}
    (h : GlobalsWired fields p s setGlobal) (hs : p ∈ collect Stmt.isDeclNode p s) :
    fields.global p = setGlobal := by
  rw [h p hs]
  simp

theorem agrees_VarDeclStmt (decl : VarDecl) : Agrees (.VarDeclStmt decl) := by
  intro p fields w setGlobal hw
  rw [visitE_VarDeclStmt, visitStmt_VarDeclStmt,
    globals_self hw.globals (by rw [collect]; exact mem_tryAddNode.2 ⟨rfl, rfl⟩)]
  exact simulates_last _ sameOutside_rfl

theorem agrees_ArrayDecl (declName : String) (global : Bool) (typeNode : ArrayType) :
    Agrees (.ArrayDecl declName global typeNode) := by
  intro p fields w setGlobal hw
  rw [visitE_ArrayDecl, visitStmt_ArrayDecl,
    globals_self hw.globals (by rw [collect]; exact mem_tryAddNode.2 ⟨rfl, rfl⟩)]
  exact simulates_last _ sameOutside_rfl

theorem agrees_ConstDef (declName : String) (global : Bool) (exprNode : Expr)
    (typeNode : Option PrimitiveType) : Agrees (.ConstDef declName global exprNode typeNode) := by
  intro p fields w setGlobal hw
  rw [visitE_ConstDef, visitStmt_ConstDef,
    globals_self hw.globals (by rw [collect]; exact mem_tryAddNode.2 ⟨rfl, rfl⟩)]
  exact simulates_last _ sameOutside_rfl

theorem agrees_Assign (varNode exprNode : Expr) : Agrees (.Assign varNode exprNode) := by
  intro p fields w setGlobal _
  rw [visitE_Assign, visitStmt_Assign]
  exact simulates_last _ sameOutside_rfl

theorem agrees_ProcCall (procName : String) (argNodes : List Expr) :
    Agrees (.ProcCall procName argNodes) := by
  intro p fields w setGlobal _
  rw [visitE_ProcCall, visitStmt_ProcCall]
  exact simulates_same_bind fun _ => simulates_pure sameOutside_rfl

theorem agrees_EmptyStmt : Agrees .EmptyStmt := by
  intro p fields w setGlobal _
  rw [visitE_EmptyStmt, visitStmt_EmptyStmt]
  exact simulates_pure sameOutside_rfl

theorem visitBreak_eq (w : Wiring) : visitBreak w = visitBreakNode w.breakBlock := rfl

theorem visitExit_eq (w : Wiring) : visitExit w = visitExitNode w.retV := rfl

theorem agrees_Break : Agrees .Break := by
  intro p fields w setGlobal hw
  rw [visitE_Break, visitStmt_Break, visitBreak_eq,
    hw.breaks p (by rw [collect]; exact mem_tryAddNode.2 ⟨rfl, rfl⟩)]
  exact simulates_last _ sameOutside_rfl

theorem agrees_Exit : Agrees .Exit := by
  intro p fields w setGlobal hw
  rw [visitE_Exit, visitStmt_Exit, visitExit_eq,
    hw.exits p (by rw [collect]; exact mem_tryAddNode.2 ⟨rfl, rfl⟩)]
  exact simulates_last _ sameOutside_rfl

/-- The visit with the members of the nodes runs like the visit that carries them along,
for every statement. -/
theorem visitE_agrees : ∀ s : Stmt, Agrees s := by
  intro s
  induction s using Stmt.induct with
  | hBlock main statementNodes ih =>
    cases main with
    | false => exact agrees_Block_inner ih
    | true =>
      exact fun p fields w setGlobal hw =>
        agrees_Block_main ih p fields w setGlobal hw.breaks hw.globals
  | hCompoundStmt statementNodes ih => exact agrees_CompoundStmt ih
  | hVarDeclStmt decl => exact agrees_VarDeclStmt decl
  | hArrayDecl declName global typeNode => exact agrees_ArrayDecl declName global typeNode
  | hConstDef declName global exprNode typeNode =>
    exact agrees_ConstDef declName global exprNode typeNode
  | hProcDecl declName global paramNodes optBlockNode ih =>
    exact fun p fields w setGlobal hw =>
      agrees_ProcDecl ih p fields w setGlobal hw.breaks hw.globals
  | hFunDecl declName global paramNodes optBlockNode retTypeNode ih =>
    exact fun p fields w setGlobal hw =>
      agrees_FunDecl ih p fields w setGlobal hw.breaks hw.globals
  | hAssign varNode exprNode => exact agrees_Assign varNode exprNode
  | hIf condNode bodyNode optElseBodyNode ih1 ih2 => exact agrees_If ih1 ih2
  | hWhile condNode bodyNode ih =>
    exact fun p fields w setGlobal hw =>
      agrees_While ih p fields w setGlobal hw.exits hw.globals
  | hFor initNode toNode bodyNode increasing ih1 ih2 =>
    exact fun p fields w setGlobal hw =>
      agrees_For ih1 ih2 p fields w setGlobal
        (breaksWired_child hw.breaks fun q hq => by
          rw [collect]
          exact List.mem_append_right _ (List.mem_append_right _ hq))
        hw.exits hw.globals
  | hProcCall procName argNodes => exact agrees_ProcCall procName argNodes
  | hEmptyStmt => exact agrees_EmptyStmt
  | hBreak => exact agrees_Break
  | hExit => exact agrees_Exit

/-- The nodes as the parser builds them hold what the visit of the program starts with. -/
theorem wired_built (p : NodePath) (s : Stmt) :
    Wired NodeFields.built p s Wiring.initial false :=
  ⟨fun _ _ => rfl, fun _ _ => rfl, fun _ _ => (Bool.and_false _).symm⟩

/-- The visit of a program with the members of the nodes runs like the visit that carries
them along. -/
theorem visitProgramE_agrees (program : Program) :
    Simulates (visitProgramE program) (visitProgram program) fun _ => True := by
  have key : ∀ s, Simulates (visitE [] s NodeFields.built)
      (visitStmt Wiring.initial false s) fun _ => True :=
    fun s => simulates_mono (visitE_agrees s [] _ _ _ (wired_built [] s)) fun _ _ => trivial
  unfold visitProgramE visitProgram
  split <;> exact key _

/-- The lowering of a program with the members of the nodes ends like the lowering that
carries them along: in the same state, with the same error or both without error. -/
theorem generateE_eq (program : Program) :
    (generateE program).2 = (generate program).2 ∧
      ((generateE program).1.map fun _ => ()) = (generate program).1 :=
  simulates_same_run (visitProgramE_agrees program) GenContext.new

/-! ## Exit and Break -/

theorem visitExitNode_value {g : GenContext} {b : Nat} {block : BasicBlock} (v : Value)
    (hb : g.insertBlock = some b) (hblock : g.blocks[b]? = some block) :
    (visitExitNode (.value v)).run g =
      (.ok (), (((g.emit .ret [v] .void "").addBlock "afterExit" block.parent).setInsertBlock
        g.blocks.length)) := by
  show (CreateRet v >>= fun _ => GetInsertBlockParent >>= fun func =>
    BasicBlock.Create "afterExit" func >>= fun afterExitBlock =>
      SetInsertPoint (some afterExitBlock)).run g = _
  simp only [CreateRet]
  rw [GenM.bind_ok (insert_run _ _ _ _ _),
    GenM.bind_ok (@getInsertBlockParent_run (g.emit .ret [v] .void "") b block hb hblock),
    GenM.bind_ok (createBlock_run _ _ _)]
  rfl

theorem visitExitNode_monostate {g : GenContext} {b : Nat} {block : BasicBlock}
    (hb : g.insertBlock = some b) (hblock : g.blocks[b]? = some block) :
    (visitExitNode .monostate).run g =
      (.ok (), (((g.emit .retVoid [] .void "").addBlock "afterExit"
        block.parent).setInsertBlock g.blocks.length)) := by
  show (CreateRetVoid >>= fun _ => GetInsertBlockParent >>= fun func =>
    BasicBlock.Create "afterExit" func >>= fun afterExitBlock =>
      SetInsertPoint (some afterExitBlock)).run g = _
  simp only [CreateRetVoid]
  rw [GenM.bind_ok (insert_run _ _ _ _ _),
    GenM.bind_ok (@getInsertBlockParent_run (g.emit .retVoid [] .void "") b block hb hblock),
    GenM.bind_ok (createBlock_run _ _ _)]
  rfl

theorem visitExitNode_loadReturnV {g : GenContext} {b : Nat} {block : BasicBlock}
    (retType : LType) (retValStore : Value) (declName : String)
    (hb : g.insertBlock = some b) (hblock : g.blocks[b]? = some block) :
    (visitExitNode (.loadReturnV retType retValStore declName)).run g =
      (.ok (), ((((g.emit .load [retValStore] retType declName).emit .ret
        [.instruction g.code.length retType] .void "").addBlock "afterExit"
        block.parent).setInsertBlock g.blocks.length)) := by
  show (CreateLoad retType retValStore declName >>= fun loadedReturnV =>
    CreateRet loadedReturnV >>= fun _ => GetInsertBlockParent >>= fun func =>
    BasicBlock.Create "afterExit" func >>= fun afterExitBlock =>
      SetInsertPoint (some afterExitBlock)).run g = _
  simp only [CreateRet, CreateLoad]
  rw [GenM.bind_ok (insert_run _ _ _ _ _), GenM.bind_ok (insert_run _ _ _ _ _),
    GenM.bind_ok (@getInsertBlockParent_run
      ((g.emit .load [retValStore] retType declName).emit .ret
        [.instruction g.code.length retType] .void "") b block hb hblock),
    GenM.bind_ok (createBlock_run _ _ _)]
  rfl

theorem visitBreakNode_some {g : GenContext} {b : Nat} {block : BasicBlock} (breakBlock : Nat)
    (hb : g.insertBlock = some b) (hblock : g.blocks[b]? = some block) :
    (visitBreakNode (some breakBlock)).run g =
      (.ok (), (((g.emit (.br breakBlock) [] .void "").addBlock "afterBreak"
        block.parent).setInsertBlock g.blocks.length)) := by
  unfold visitBreakNode
  simp only [CreateBr]
  rw [GenM.bind_ok (insert_run _ _ _ _ _),
    GenM.bind_ok (@getInsertBlockParent_run (g.emit (.br breakBlock) [] .void "") b block hb
      hblock), GenM.bind_ok (createBlock_run _ _ _)]
  rfl

theorem visitE_leaf_run {a : GenM Unit} {g g' : GenContext} (fields : NodeFields)
    (h : a.run g = (.ok (), g')) :
    (a >>= fun _ => (pure fields : GenM NodeFields)).run g = (.ok fields, g') := by
  rw [GenM.bind_ok h]
  rfl

/-- C27. An `Exit` returns through the sink of its own body. In `visitE` the visits store in
the nodes as in the sources: the main block, a procedure and a function store their sink in
every `Exit` node that the collector finds below them, and an `Exit` node emits what it
holds when it is visited. Whatever the `Exit` nodes hold before the visit of a main block,
of a procedure or of a function (for a procedure or function of a program that is what the
pass of the main block has stored), the visit runs like `visitStmt`, which hands each body
its own sink: the constant 0 to the statements of the main block, `monostate` to the block
of a procedure, the load of the return slot to the block of a function. So does the
lowering of every program. The sink that `visitStmt` hands to a body does not depend on
the sink around the declaration. An `Exit` node that holds the constant `v` emits `ret v`,
one that holds `monostate` emits `ret void`, one that holds the load of a return slot
emits the load and a `ret` of the loaded value; each then opens the block `afterExit`. In
the lowering of `program t; procedure x(); begin exit end; function f(): integer;
begin f := 1; exit end; begin exit end.` the `Exit` of `x` emits `ret void` (instruction
1), that of `f` a load of the slot of `f` and its `ret` (7 and 8), that of the main block
`ret i32 0` (11). -/
theorem C27_exit_own_sink (p : NodePath) (fields : NodeFields) (w : Wiring)
    (setGlobal : Bool) :
    (∀ statementNodes,
      BreaksWired fields p (.Block true statementNodes) w.breakBlock →
      GlobalsWired fields p (.Block true statementNodes) setGlobal →
      Simulates (visitE p (.Block true statementNodes) fields)
        (visitStmt w setGlobal (.Block true statementNodes)) (SameOutside p fields)) ∧
    (∀ declName global paramNodes optBlockNode,
      BreaksWired fields p (.ProcDecl declName global paramNodes optBlockNode) w.breakBlock →
      GlobalsWired fields p (.ProcDecl declName global paramNodes optBlockNode) setGlobal →
      Simulates (visitE p (.ProcDecl declName global paramNodes optBlockNode) fields)
        (visitStmt w setGlobal (.ProcDecl declName global paramNodes optBlockNode))
        (SameOutside p fields)) ∧
    (∀ declName global paramNodes optBlockNode retTypeNode,
      BreaksWired fields p (.FunDecl declName global paramNodes optBlockNode retTypeNode)
        w.breakBlock →
      GlobalsWired fields p (.FunDecl declName global paramNodes optBlockNode retTypeNode)
        setGlobal →
      Simulates (visitE p (.FunDecl declName global paramNodes optBlockNode retTypeNode) fields)
        (visitStmt w setGlobal (.FunDecl declName global paramNodes optBlockNode retTypeNode))
        (SameOutside p fields)) ∧
    (∀ program, (generateE program).2 = (generate program).2 ∧
      ((generateE program).1.map fun _ => ()) = (generate program).1) ∧
    (∀ retV statementNodes,
      visitStmt { w with retV := retV } setGlobal (.Block true statementNodes) =
        visitStmt w setGlobal (.Block true statementNodes)) ∧
    (∀ retV declName global paramNodes optBlockNode,
      visitStmt { w with retV := retV } setGlobal
          (.ProcDecl declName global paramNodes optBlockNode) =
        visitStmt w setGlobal (.ProcDecl declName global paramNodes optBlockNode)) ∧
    (∀ retV declName global paramNodes optBlockNode retTypeNode,
      visitStmt { w with retV := retV } setGlobal
          (.FunDecl declName global paramNodes optBlockNode retTypeNode) =
        visitStmt w setGlobal (.FunDecl declName global paramNodes optBlockNode retTypeNode)) ∧
    (∀ g b block, g.insertBlock = some b → g.blocks[b]? = some block →
      (∀ v, fields.retV p = .value v →
        (visitE p .Exit fields).run g =
          (.ok fields, (((g.emit .ret [v] .void "").addBlock "afterExit"
            block.parent).setInsertBlock g.blocks.length))) ∧
      (fields.retV p = .monostate →
        (visitE p .Exit fields).run g =
          (.ok fields, (((g.emit .retVoid [] .void "").addBlock "afterExit"
            block.parent).setInsertBlock g.blocks.length))) ∧
      (∀ retType retValStore declName,
        fields.retV p = .loadReturnV retType retValStore declName →
        (visitE p .Exit fields).run g =
          (.ok fields, ((((g.emit .load [retValStore] retType declName).emit .ret
            [.instruction g.code.length retType] .void "").addBlock "afterExit"
            block.parent).setInsertBlock g.blocks.length)))) ∧
    ((parseSource 100 ("program t; procedure x(); begin exit end; " ++
        "function f(): integer; begin f := 1; exit end; begin exit end.").toList).map
      fun program =>
        ((generateE program).2.code.map fun c => (c.1, c.2.opcode, c.2.operands)).filter
          fun c => c.2.1 = .ret ∨ c.2.1 = .retVoid ∨ c.2.1 = .load) =
      .ok [(some 2, .retVoid, []), (some 3, .retVoid, []),
        (some 5, .load, [.instruction 3 (.pointer (.integer 32))]),
        (some 5, .ret, [.instruction 7 (.integer 32)]),
        (some 6, .load, [.instruction 3 (.pointer (.integer 32))]),
        (some 6, .ret, [.instruction 9 (.integer 32)]),
        (some 0, .ret, [.constantInt (.integer 32) 0]),
        (some 7, .ret, [.constantInt (.integer 32) 0])] := by
  refine ⟨fun statementNodes hb hg =>
      agrees_Block_main (fun s _ => visitE_agrees s) p fields w setGlobal hb hg,
    fun declName global paramNodes optBlockNode hb hg =>
      agrees_ProcDecl (fun s _ => visitE_agrees s) p fields w setGlobal hb hg,
    fun declName global paramNodes optBlockNode retTypeNode hb hg =>
      agrees_FunDecl (fun s _ => visitE_agrees s) p fields w setGlobal hb hg,
    generateE_eq, ?_, ?_, ?_, ?_, by decide!⟩
  · intro retV statementNodes
    rw [visitStmt_Block, visitStmt_Block, if_pos rfl, if_pos rfl]
  · intro retV declName global paramNodes optBlockNode
    rw [visitStmt_ProcDecl, visitStmt_ProcDecl]
  · intro retV declName global paramNodes optBlockNode retTypeNode
    rw [visitStmt_FunDecl, visitStmt_FunDecl]
  · intro g b block hb hblock
    refine ⟨fun v hv => ?_, fun hv => ?_, fun retType retValStore declName hv => ?_⟩
    · rw [visitE_Exit, hv]
      exact visitE_leaf_run fields (visitExitNode_value v hb hblock)
    · rw [visitE_Exit, hv]
      exact visitE_leaf_run fields (visitExitNode_monostate hb hblock)
    · rw [visitE_Exit, hv]
      exact visitE_leaf_run fields
        (visitExitNode_loadReturnV retType retValStore declName hb hblock)

/-- Witness of C27: the procedure `procedure x(); begin exit end` at the place 0 of a main
block, with the `Exit` node holding the constant 0 that the pass of the main block has
stored in it. -/
theorem C27_exit_own_sink_witness :
    Simulates
      (visitE [0] (.ProcDecl "x" false [] (some (.Block false [.CompoundStmt [.Exit]])))
        (NodeFields.built.setRetV [[0, 0, 0, 0]] (.value (.constantInt (.integer 32) 0))))
      (visitStmt Wiring.initial false
        (.ProcDecl "x" false [] (some (.Block false [.CompoundStmt [.Exit]]))))
      (SameOutside [0]
        (NodeFields.built.setRetV [[0, 0, 0, 0]] (.value (.constantInt (.integer 32) 0)))) :=
  (C27_exit_own_sink [0]
    (NodeFields.built.setRetV [[0, 0, 0, 0]] (.value (.constantInt (.integer 32) 0)))
    Wiring.initial false).2.1 "x" false [] (some (.Block false [.CompoundStmt [.Exit]]))
    (fun _ _ => rfl) (fun _ _ => (Bool.and_false _).symm)

/-- C28. A `Break` leaves the innermost loop. In `visitE` the visits store in the nodes as
in the sources: a `While` and a `For` store their block `after` in every `Break` node that
the collector finds in their body, and a `Break` node emits a branch to the block it holds
when it is visited. Whatever the `Break` nodes of the body hold before the visit of the
loop (for a loop in the body of another loop that is the block `after` of the outer loop),
the visit runs like `visitStmt`, which hands the body of each loop the block `after` of
that loop; so does the lowering of every program. What `visitStmt` does with a loop does
not depend on the block around the loop. At an insertion point in a function, the block
handed to the body of a `While` is the third of the blocks that the loop creates, named
`after`, and for a `For` it is the fourth. A `Break` node that holds the block `BB` emits
`br BB`, opens the block `afterBreak` and goes on there. In the lowering of
`program t; var x: integer; begin while x < 10 do begin while x < 5 do break; break end
end.` the blocks are `entry`, `cond`, `body`, `after` (3), `cond`, `body`, `after` (6) and
two `afterBreak`; the inner `Break`, in block 5, branches to block 6, and the outer one, in
block 6, to block 3. -/
theorem C28_break_innermost_loop (p : NodePath) (fields : NodeFields) (w : Wiring)
    (setGlobal : Bool) :
    (∀ condNode bodyNode,
      ExitsWired fields p (.While condNode bodyNode) w.retV →
      GlobalsWired fields p (.While condNode bodyNode) setGlobal →
      Simulates (visitE p (.While condNode bodyNode) fields)
        (visitStmt w setGlobal (.While condNode bodyNode)) (SameOutside p fields)) ∧
    (∀ initNode toNode bodyNode increasing,
      BreaksWired fields (p ++ [0]) initNode w.breakBlock →
      ExitsWired fields p (.For initNode toNode bodyNode increasing) w.retV →
      GlobalsWired fields p (.For initNode toNode bodyNode increasing) setGlobal →
      Simulates (visitE p (.For initNode toNode bodyNode increasing) fields)
        (visitStmt w setGlobal (.For initNode toNode bodyNode increasing))
        (SameOutside p fields)) ∧
    (∀ program, (generateE program).2 = (generate program).2 ∧
      ((generateE program).1.map fun _ => ()) = (generate program).1) ∧
    (∀ breakBlock condNode bodyNode,
      visitStmt { w with breakBlock := breakBlock } setGlobal (.While condNode bodyNode) =
        visitStmt w setGlobal (.While condNode bodyNode)) ∧
    (∀ breakBlock varNode exprNode toNode bodyNode increasing,
      visitStmt { w with breakBlock := breakBlock } setGlobal
          (.For (.Assign varNode exprNode) toNode bodyNode increasing) =
        visitStmt w setGlobal (.For (.Assign varNode exprNode) toNode bodyNode increasing)) ∧
    (∀ g b f block condNode bodyNode, g.insertBlock = some b → g.blocks[b]? = some block →
      block.parent = some f →
      (visitStmt w setGlobal (.While condNode bodyNode)).run g =
        (do
          let condVal ← visitExpr condNode
          let _ ← CreateCondBr (← expectValue condVal) (g.blocks.length + 1)
            (g.blocks.length + 2)
          SetInsertPoint (some (g.blocks.length + 1))
          visitStmt { w with breakBlock := some (g.blocks.length + 2) } false bodyNode
          let _ ← CreateBr g.blocks.length
          SetInsertPoint (some (g.blocks.length + 2))).run
          (((((g.addBlock "cond" (some f)).addBlock "body" (some f)).addBlock "after"
            (some f)).emit (.br g.blocks.length) [] .void "").setInsertBlock g.blocks.length) ∧
      (((((g.addBlock "cond" (some f)).addBlock "body" (some f)).addBlock "after"
        (some f)).emit (.br g.blocks.length) [] .void "").setInsertBlock
        g.blocks.length).blocks[g.blocks.length + 2]? = some ⟨"after", some f⟩) ∧
    (∀ g g1 b f block initNode toNode bodyNode increasing, g.insertBlock = some b →
      g.blocks[b]? = some block → block.parent = some f →
      (visitStmt w false initNode).run
        ((((((g.addBlock "init" (some f)).addBlock "cond" (some f)).addBlock "body"
          (some f)).addBlock "after" (some f)).emit (.br g.blocks.length) [] .void
          "").setInsertBlock g.blocks.length) = (.ok (), g1) →
      (visitStmt w setGlobal (.For initNode toNode bodyNode increasing)).run g =
        (do
          let fromStore ← storeVisit initNode.getVarNode
          let toVal ← visitExpr toNode
          let fromVal ← visitExpr initNode.getVarNode
          let condVal ←
            if increasing then
              CreateICmp .SLE (← expectValue fromVal) (← expectValue toVal) "le"
            else CreateICmp .SGE (← expectValue fromVal) (← expectValue toVal) "ge"
          let _ ← CreateCondBr condVal (g.blocks.length + 2) (g.blocks.length + 3)
          SetInsertPoint (some (g.blocks.length + 2))
          visitStmt { w with breakBlock := some (g.blocks.length + 3) } false bodyNode
          let fromVal ← visitExpr initNode.getVarNode
          let incrementedVal ← CreateBinOp .add (← expectValue fromVal)
            (.constantInt (.integer 32) (if increasing then 1 else -1)) ""
          let _ ← CreateStore incrementedVal (← expectValue fromStore)
          let _ ← CreateBr (g.blocks.length + 1)
          SetInsertPoint (some (g.blocks.length + 3))).run
          ((g1.emit (.br (g.blocks.length + 1)) [] .void "").setInsertBlock
            (g.blocks.length + 1)) ∧
      ((((((g.addBlock "init" (some f)).addBlock "cond" (some f)).addBlock "body"
        (some f)).addBlock "after" (some f)).emit (.br g.blocks.length) [] .void
        "").setInsertBlock g.blocks.length).blocks[g.blocks.length + 3]? =
        some ⟨"after", some f⟩) ∧
    (∀ g b block BB, g.insertBlock = some b → g.blocks[b]? = some block →
      fields.breakBlock p = some BB →
      (visitE p .Break fields).run g =
        (.ok fields, (((g.emit (.br BB) [] .void "").addBlock "afterBreak"
          block.parent).setInsertBlock g.blocks.length))) ∧
    ((parseSource 100 ("program t; var x: integer; begin while x < 10 do begin " ++
        "while x < 5 do break; break end end.").toList).map
      fun program => ((generateE program).2.blocks.map BasicBlock.name,
        ((generateE program).2.code.map fun c => (c.1, c.2.opcode)).filter
          fun c => c.2 = .br 6 ∨ c.2 = .br 3)) =
      .ok (["entry", "cond", "body", "after", "cond", "body", "after", "afterBreak",
        "afterBreak"], [(some 5, .br 6), (some 6, .br 3)]) := by
  refine ⟨fun condNode bodyNode he hg =>
      agrees_While (visitE_agrees bodyNode) p fields w setGlobal he hg,
    fun initNode toNode bodyNode increasing hb he hg =>
      agrees_For (visitE_agrees initNode) (visitE_agrees bodyNode) p fields w setGlobal hb he
        hg,
    generateE_eq, ?_, ?_, ?_, ?_, ?_, by decide!⟩
  · intro breakBlock condNode bodyNode
    rw [visitStmt_While, visitStmt_While]
  · intro breakBlock varNode exprNode toNode bodyNode increasing
    rw [visitStmt_For, visitStmt_For, visitStmt_Assign, visitStmt_Assign]
  · intro g b f block condNode bodyNode hb hblock hf
    have e1 : (g.addBlock "cond" (some f)).blocks.length = g.blocks.length + 1 := by simp
    have e2 : ((g.addBlock "cond" (some f)).addBlock "body" (some f)).blocks.length =
        g.blocks.length + 2 := by simp
    refine ⟨?_, ?_⟩
    · rw [visitStmt_While]
      rw [GenM.bind_ok (getInsertBlockParent_run hb hblock), hf]
      simp only [Option.isNone_some, Bool.false_eq_true, if_false]
      rw [GenM.bind_ok (createBlock_run _ _ _)]
      rw [GenM.bind_ok (createBlock_run _ _ _)]
      rw [GenM.bind_ok (createBlock_run _ _ _)]
      simp only [e1, e2]
      simp only [CreateBr]
      rw [GenM.bind_ok (insert_run _ _ _ _ _)]
      rw [GenM.bind_ok (setInsertPoint_run _ _)]
    · simp [List.getElem_append_right]
  · intro g g1 b f block initNode toNode bodyNode increasing hb hblock hf hinit
    have e1 : (g.addBlock "init" (some f)).blocks.length = g.blocks.length + 1 := by simp
    have e2 : ((g.addBlock "init" (some f)).addBlock "cond" (some f)).blocks.length =
        g.blocks.length + 2 := by simp
    have e3 : (((g.addBlock "init" (some f)).addBlock "cond" (some f)).addBlock "body"
        (some f)).blocks.length = g.blocks.length + 3 := by simp
    refine ⟨?_, ?_⟩
    · rw [visitStmt_For]
      rw [GenM.bind_ok (getInsertBlockParent_run hb hblock), hf]
      simp only [Option.isNone_some, Bool.false_eq_true, if_false]
      rw [GenM.bind_ok (createBlock_run _ _ _)]
      rw [GenM.bind_ok (createBlock_run _ _ _)]
      rw [GenM.bind_ok (createBlock_run _ _ _)]
      rw [GenM.bind_ok (createBlock_run _ _ _)]
      simp only [e1, e2, e3]
      simp only [CreateBr]
      rw [GenM.bind_ok (insert_run _ _ _ _ _)]
      rw [GenM.bind_ok (setInsertPoint_run _ _)]
      rw [GenM.bind_ok hinit]
      rw [GenM.bind_ok (insert_run _ _ _ _ _)]
      rw [GenM.bind_ok (setInsertPoint_run _ _)]
    · simp [List.getElem_append_right]
  · intro g b block BB hb hblock hBB
    rw [visitE_Break, hBB]
    exact visitE_leaf_run fields (visitBreakNode_some BB hb hblock)

/-- Witness of C28: the loop `while 1 do break` at the place 0 of the body of another
loop, with the `Break` node holding the block 7 that the outer loop has stored in it. -/
theorem C28_break_innermost_loop_witness :
    Simulates
      (visitE [0] (.While (.Literal (.int 1)) .Break) (NodeFields.built.setBreakBlock [[0, 0]] 7))
      (visitStmt Wiring.initial false (.While (.Literal (.int 1)) .Break))
      (SameOutside [0] (NodeFields.built.setBreakBlock [[0, 0]] 7)) :=
  (C28_break_innermost_loop [0] (NodeFields.built.setBreakBlock [[0, 0]] 7) Wiring.initial
    false).1 (.Literal (.int 1)) .Break (fun _ _ => rfl) (fun _ _ => (Bool.and_false _).symm)

/-! ## A Break outside every loop -/

theorem pure_bind_unit (m : GenM Unit) : ((pure () : GenM Unit) >>= fun _ => m) = m := rfl

theorem dropBreaksList_cons (s : Stmt) (rest : List Stmt) :
    dropBreaksList (s :: rest) =
      if s.isBreakNode then dropBreaksList rest else s.dropBreaks :: dropBreaksList rest := by
  cases s <;> rfl

theorem visitStmt_Break_none {w : Wiring} (setGlobal : Bool) (h : w.breakBlock = none) :
    visitStmt w setGlobal .Break = pure () := by
  rw [visitStmt_Break]
  unfold visitBreak
  rw [h]

theorem visitStmts_dropBreaks {statementNodes : List Stmt}
    (ih : ∀ s ∈ statementNodes, ∀ (w : Wiring) (setGlobal : Bool), w.breakBlock = none →
      visitStmt w setGlobal s.dropBreaks = visitStmt w setGlobal s)
    (w : Wiring) (setGlobal : Bool) (hw : w.breakBlock = none) :
    visitStmts w setGlobal (dropBreaksList statementNodes) =
      visitStmts w setGlobal statementNodes := by
  induction statementNodes with
  | nil => rfl
  | cons s rest ihr =>
    have hrest := ihr fun s hs => ih s (List.mem_cons_of_mem _ hs)
    rw [dropBreaksList_cons, visitStmts_cons]
    split
    · rename_i hs
      have : s = .Break := by
        cases s <;> first | rfl | cases hs
      rw [this, visitStmt_Break_none setGlobal hw, pure_bind_unit, hrest]
    · rw [visitStmts_cons, hrest, ih s (List.mem_cons_self _ _) w setGlobal hw]

/-- The visit of a statement is the visit of the statement without the `Break` statements
that are in no loop of it, if no block for `Break` is carried along. -/
theorem visitStmt_dropBreaks : ∀ (s : Stmt) (w : Wiring) (setGlobal : Bool),
    w.breakBlock = none → visitStmt w setGlobal s.dropBreaks = visitStmt w setGlobal s := by
  intro s
  induction s using Stmt.induct with
  | hBlock main statementNodes ih =>
    intro w setGlobal hw
    have h1 := visitStmts_dropBreaks ih w false hw
    have h2 := visitStmts_dropBreaks ih
      { w with retV := .value (.constantInt (.integer 32) 0) } true hw
    rw [Stmt.dropBreaks, visitStmt_Block, visitStmt_Block]
    dsimp only
    rw [h1, h2]
  | hCompoundStmt statementNodes ih =>
    intro w setGlobal hw
    rw [Stmt.dropBreaks, visitStmt_CompoundStmt, visitStmt_CompoundStmt,
      visitStmts_dropBreaks ih w false hw]
  | hVarDeclStmt decl => exact fun _ _ _ => rfl
  | hArrayDecl declName global typeNode => exact fun _ _ _ => rfl
  | hConstDef declName global exprNode typeNode => exact fun _ _ _ => rfl
  | hProcDecl declName global paramNodes optBlockNode ih =>
    intro w setGlobal hw
    cases optBlockNode with
    | none => rfl
    | some blockNode =>
      have h := ih blockNode rfl { w with retV := .monostate } false hw
      have e : (Stmt.ProcDecl declName global paramNodes (some blockNode)).dropBreaks =
          .ProcDecl declName global paramNodes (some blockNode.dropBreaks) := rfl
      rw [e, visitStmt_ProcDecl, visitStmt_ProcDecl]
      refine congrArg _ (funext fun proc => ?_)
      cases proc with
      | none => rfl
      | some proc =>
        dsimp only
        rw [h]
  | hFunDecl declName global paramNodes optBlockNode retTypeNode ih =>
    intro w setGlobal hw
    cases optBlockNode with
    | none => rfl
    | some blockNode =>
      have e : (Stmt.FunDecl declName global paramNodes (some blockNode)
          retTypeNode).dropBreaks =
          .FunDecl declName global paramNodes (some blockNode.dropBreaks) retTypeNode := rfl
      rw [e, visitStmt_FunDecl, visitStmt_FunDecl]
      refine congrArg _ (funext fun func => ?_)
      cases func with
      | none => rfl
      | some func =>
        dsimp only
        refine congrArg _ (funext fun prevBB => ?_)
        refine congrArg _ (funext fun g => ?_)
        refine congrArg _ (funext fun _ => ?_)
        refine congrArg _ (funext fun retValStore => ?_)
        rw [ih blockNode rfl
          { w with retV := (.loadReturnV (genPrimitiveType retTypeNode) retValStore declName) }
          false hw]
  | hAssign varNode exprNode => exact fun _ _ _ => rfl
  | hIf condNode bodyNode optElseBodyNode ih1 ih2 =>
    intro w setGlobal hw
    cases optElseBodyNode with
    | none =>
      have e : (Stmt.If condNode bodyNode none).dropBreaks =
          .If condNode bodyNode.dropBreaks none := rfl
      rw [e, visitStmt_If, visitStmt_If, ih1 w false hw]
    | some elseBodyNode =>
      have e : (Stmt.If condNode bodyNode (some elseBodyNode)).dropBreaks =
          .If condNode bodyNode.dropBreaks (some elseBodyNode.dropBreaks) := rfl
      rw [e, visitStmt_If, visitStmt_If, ih1 w false hw]
      dsimp only
      rw [ih2 elseBodyNode rfl w false hw]
  | hWhile condNode bodyNode ih => exact fun _ _ _ => rfl
  | hFor initNode toNode bodyNode increasing ih1 ih2 => exact fun _ _ _ => rfl
  | hProcCall procName argNodes => exact fun _ _ _ => rfl
  | hEmptyStmt => exact fun _ _ _ => rfl
  | hBreak =>
    intro w setGlobal hw
    rw [visitStmt_Break_none setGlobal hw]
    rfl
  | hExit => exact fun _ _ _ => rfl

theorem visitProgram_dropBreaks (programName : String) (blockNode : Stmt) :
    visitProgram ⟨programName, blockNode.dropBreaks⟩ =
      visitProgram ⟨programName, blockNode⟩ := by
  cases blockNode with
  | Block main statementNodes =>
    exact visitStmt_dropBreaks (.Block true statementNodes) Wiring.initial false rfl
  | CompoundStmt statementNodes =>
    exact visitStmt_dropBreaks (.CompoundStmt statementNodes) Wiring.initial false rfl
  | ProcDecl declName global paramNodes optBlockNode =>
    cases optBlockNode with
    | none => rfl
    | some blockNode =>
      have e : (Stmt.ProcDecl declName global paramNodes (some blockNode)).dropBreaks =
          .ProcDecl declName global paramNodes (some blockNode.dropBreaks) := rfl
      have h := visitStmt_dropBreaks (.ProcDecl declName global paramNodes (some blockNode))
        Wiring.initial false rfl
      rw [e] at h ⊢
      exact h
  | FunDecl declName global paramNodes optBlockNode retTypeNode =>
    cases optBlockNode with
    | none => rfl
    | some blockNode =>
      have e : (Stmt.FunDecl declName global paramNodes (some blockNode)
          retTypeNode).dropBreaks =
          .FunDecl declName global paramNodes (some blockNode.dropBreaks) retTypeNode := rfl
      have h := visitStmt_dropBreaks
        (.FunDecl declName global paramNodes (some blockNode) retTypeNode)
        Wiring.initial false rfl
      rw [e] at h ⊢
      exact h
  | If condNode bodyNode optElseBodyNode =>
    cases optElseBodyNode with
    | none =>
      have e : (Stmt.If condNode bodyNode none).dropBreaks =
          .If condNode bodyNode.dropBreaks none := rfl
      have h := visitStmt_dropBreaks (.If condNode bodyNode none) Wiring.initial false rfl
      rw [e] at h ⊢
      exact h
    | some elseBodyNode =>
      have e : (Stmt.If condNode bodyNode (some elseBodyNode)).dropBreaks =
          .If condNode bodyNode.dropBreaks (some elseBodyNode.dropBreaks) := rfl
      have h := visitStmt_dropBreaks (.If condNode bodyNode (some elseBodyNode))
        Wiring.initial false rfl
      rw [e] at h ⊢
      exact h
  | Break => exact visitStmt_dropBreaks .Break Wiring.initial false rfl
  | _ => rfl

theorem generate_dropBreaks (programName : String) (blockNode : Stmt) :
    generate ⟨programName, blockNode.dropBreaks⟩ = generate ⟨programName, blockNode⟩ :=
  congrArg (fun m : GenM Unit => m.run GenContext.new)
    (visitProgram_dropBreaks programName blockNode)

/-- C29. A `Break` outside every loop does nothing. A `Break` node holds no block as the
parser builds it, and only the pass of a loop over its body stores one. The visit of a
`Break` node that holds no block emits nothing and leaves the state as it is, insertion
point included. Hence, where no block for `Break` is carried along, as at the start of a
program, the visit of a statement or of a list of statements is the visit without the
`Break` statements that are in no loop: `dropBreaks` takes them out of the lists of
statements, in the main block and in the bodies of procedures and functions, and leaves
the loops as they are. The lowering of a program ends alike with and without them, also
when the members are stored in the nodes as in the sources (`generateE`). The lowering of
`program t; var i: integer; begin for i := 0 to 5 do begin write(1); break; write(2) end;
break; write(3) end.` emits the instructions of the program without the `break` after the
loop, and that of `program t; function m(a: integer): integer; begin m := a; break; exit
end; begin write(m(2)) end.` those of the program without the `break`. -/
theorem C29_break_outside_loop (p : NodePath) (fields : NodeFields) (w : Wiring)
    (setGlobal : Bool) (g : GenContext) :
    (fields.breakBlock p = none → (visitE p .Break fields).run g = (.ok fields, g)) ∧
    (w.breakBlock = none → (visitStmt w setGlobal .Break).run g = (.ok (), g)) ∧
    (w.breakBlock = none →
      ∀ s, visitStmt w setGlobal s.dropBreaks = visitStmt w setGlobal s) ∧
    (w.breakBlock = none → ∀ statementNodes,
      visitStmts w setGlobal (dropBreaksList statementNodes) =
        visitStmts w setGlobal statementNodes) ∧
    (∀ programName blockNode,
      generate ⟨programName, blockNode.dropBreaks⟩ = generate ⟨programName, blockNode⟩) ∧
    (∀ programName blockNode,
      (generateE ⟨programName, blockNode.dropBreaks⟩).2 =
        (generateE ⟨programName, blockNode⟩).2 ∧
      ((generateE ⟨programName, blockNode.dropBreaks⟩).1.map fun _ => ()) =
        ((generateE ⟨programName, blockNode⟩).1.map fun _ => ())) ∧
    ((parseSource 100 ("program t; var i: integer; begin for i := 0 to 5 do begin " ++
        "write(1); break; write(2) end; break; write(3) end.").toList).map
      fun program => ((generateE program).1.map fun _ => (), (generateE program).2.code)) =
      ((parseSource 100 ("program t; var i: integer; begin for i := 0 to 5 do begin " ++
        "write(1); break; write(2) end; write(3) end.").toList).map
      fun program => ((generateE program).1.map fun _ => (), (generateE program).2.code)) ∧
    ((parseSource 100 ("program t; function m(a: integer): integer; begin m := a; " ++
        "break; exit end; begin write(m(2)) end.").toList).map
      fun program => ((generateE program).1.map fun _ => (), (generateE program).2.code)) =
      ((parseSource 100 ("program t; function m(a: integer): integer; begin m := a; " ++
        "exit end; begin write(m(2)) end.").toList).map
      fun program => ((generateE program).1.map fun _ => (), (generateE program).2.code)) := by
  refine ⟨fun h => ?_, fun h => ?_, fun h s => visitStmt_dropBreaks s w setGlobal h,
    fun h statementNodes =>
      visitStmts_dropBreaks (fun s _ => visitStmt_dropBreaks s) w setGlobal h,
    generate_dropBreaks, fun programName blockNode => ?_, by decide!, by decide!⟩
  · rw [visitE_Break, h]
    rfl
  · rw [visitStmt_Break_none setGlobal h]
    rfl
  · have h1 := generateE_eq ⟨programName, blockNode.dropBreaks⟩
    have h2 := generateE_eq ⟨programName, blockNode⟩
    rw [generate_dropBreaks] at h1
    exact ⟨h1.1.trans h2.1.symm, h1.2.trans h2.2.symm⟩

/-- Witness of C29: a `Break` node as the parser builds it, visited in the state after
`sampleProgram`. -/
theorem C29_break_outside_loop_witness :
    (visitE [0] .Break NodeFields.built).run sampleContext =
      (.ok NodeFields.built, sampleContext) :=
  (C29_break_outside_loop [0] NodeFields.built Wiring.initial false sampleContext).1 rfl

/-! ## Operators -/

theorem visitExpr_BinOp_run {g g1 g2 : GenContext} {lhsExprNode rhsExprNode : Expr}
    {lhsV rhsV : Value} (op : Token)
    (hl : (visitExpr lhsExprNode).run g = (.ok (some lhsV), g1))
    (hr : (visitExpr rhsExprNode).run g1 = (.ok (some rhsV), g2)) :
    (visitExpr (.BinOp op lhsExprNode rhsExprNode)).run g =
      (visitBinOp op.type lhsV rhsV).run g2 := by
  rw [visitExpr, GenM.bind_ok hl, GenM.bind_ok hr]

theorem visitExpr_UnaryOp_run {g g1 : GenContext} {exprNode : Expr} {exprV : Value}
    (op : Token) (h : (visitExpr exprNode).run g = (.ok (some exprV), g1)) :
    (visitExpr (.UnaryOp op exprNode)).run g = (visitUnaryOp op.type exprV).run g1 := by
  rw [visitExpr, GenM.bind_ok h]

theorem isDoubleTy_iff (type : LType) : type.isDoubleTy = true ↔ type = .double := by
  cases type <;> simp [LType.isDoubleTy]

theorem maybeSIToFP_run (v : Value) (g : GenContext) :
    (maybeSIToFP v).run g = (.ok (promote v g).1, (promote v g).2) := by
  unfold maybeSIToFP promote CreateSIToFP
  by_cases hd : v.getType.isDoubleTy = true
  · simp [hd, GenM.pure_run]
  · have hne : v.getType ≠ .double := fun h => hd ((isDoubleTy_iff _).2 h)
    by_cases hc : v.isConstant = true
    · simp [hd, hc, createCast_folded .sitofp g hne hc]
    · simp [hd, hc, createCast_inserted .sitofp g hne (by simpa using hc)]

theorem promote_type (v : Value) (g : GenContext) : (promote v g).1.getType = .double := by
  unfold promote
  by_cases h : v.getType.isDoubleTy = true
  · rw [if_pos h]
    exact (isDoubleTy_iff _).1 h
  · rw [if_neg h]
    split <;> rfl

theorem promote_isConstant (v : Value) (g : GenContext) :
    (promote v g).1.isConstant = v.isConstant := by
  unfold promote
  by_cases h : v.getType.isDoubleTy = true
  · rw [if_pos h]
  · rw [if_neg h]
    by_cases hc : v.isConstant = true
    · rw [if_pos hc, hc]
      rfl
    · rw [if_neg hc]
      simp only [isConstant_instruction]
      simpa using hc

theorem promote_constant {v : Value} (g : GenContext) (h : v.isConstant = true) :
    promote v g = ((promote v g).1, g) ∧ ∀ g1, (promote v g1).1 = (promote v g).1 := by
  unfold promote
  by_cases hd : v.getType.isDoubleTy = true
  · simp [hd]
  · simp [hd, h]

theorem createBinOp_run (opcode : Opcode) (lhs rhs : Value) (name : String)
    (g : GenContext) :
    (CreateBinOp opcode lhs rhs name).run g =
      if lhs.isConstant = true ∧ rhs.isConstant = true then
        (.ok (.folded opcode lhs rhs lhs.getType), g)
      else
        (.ok (.instruction g.code.length lhs.getType),
          g.emit opcode [lhs, rhs] lhs.getType name) := by
  by_cases h : lhs.isConstant = true ∧ rhs.isConstant = true
  · rw [if_pos h, createBinOp_folded opcode name g h.1 h.2]
  · rw [if_neg h, createBinOp_inserted opcode name g (by simpa using h)]

theorem createICmp_run (predicate : Predicate) (lhs rhs : Value) (name : String)
    (g : GenContext) :
    (CreateICmp predicate lhs rhs name).run g =
      if lhs.isConstant = true ∧ rhs.isConstant = true then
        (.ok (.folded (.icmp predicate) lhs rhs (.integer 1)), g)
      else
        (.ok (.instruction g.code.length (.integer 1)),
          g.emit (.icmp predicate) [lhs, rhs] (.integer 1) name) := by
  by_cases h : lhs.isConstant = true ∧ rhs.isConstant = true
  · rw [if_pos h, createICmp_folded predicate name g h.1 h.2]
  · rw [if_neg h, createICmp_inserted predicate name g (by simpa using h)]

theorem createFCmp_run (predicate : Predicate) (lhs rhs : Value) (name : String)
    (g : GenContext) :
    (CreateFCmp predicate lhs rhs name).run g =
      if lhs.isConstant = true ∧ rhs.isConstant = true then
        (.ok (.folded (.fcmp predicate) lhs rhs (.integer 1)), g)
      else
        (.ok (.instruction g.code.length (.integer 1)),
          g.emit (.fcmp predicate) [lhs, rhs] (.integer 1) name) := by
  by_cases h : lhs.isConstant = true ∧ rhs.isConstant = true
  · rw [if_pos h, createFCmp_folded predicate name g h.1 h.2]
  · rw [if_neg h, createFCmp_inserted predicate name g (by simpa using h)]

theorem arithmetic_run (dblArith : Bool) (real : Opcode) (realName : String) (int : Opcode)
    (intName : String) (lhsV rhsV : Value) (g : GenContext) :
    (arithmetic dblArith real realName int intName lhsV rhsV).run g =
      if dblArith then
        if lhsV.isConstant = true ∧ rhsV.isConstant = true then
          (.ok (some (.folded real (promote lhsV g).1 (promote rhsV g).1 .double)), g)
        else
          (.ok (some (.instruction (promote rhsV (promote lhsV g).2).2.code.length .double)),
            (promote rhsV (promote lhsV g).2).2.emit real
              [(promote lhsV g).1, (promote rhsV (promote lhsV g).2).1] .double realName)
      else
        if lhsV.isConstant = true ∧ rhsV.isConstant = true then
          (.ok (some (.folded int lhsV rhsV lhsV.getType)), g)
        else
          (.ok (some (.instruction g.code.length lhsV.getType)),
            g.emit int [lhsV, rhsV] lhsV.getType intName) := by
  unfold arithmetic
  cases dblArith
  · simp only [Bool.false_eq_true, if_false, GenM.bind_run, createBinOp_run]
    by_cases h : lhsV.isConstant = true ∧ rhsV.isConstant = true <;> simp [h, GenM.pure_run]
  · simp only [if_true]
    rw [GenM.bind_ok (maybeSIToFP_run _ _), GenM.bind_ok (maybeSIToFP_run _ _)]
    simp only [GenM.bind_run, createBinOp_run, promote_type, promote_isConstant]
    by_cases h : lhsV.isConstant = true ∧ rhsV.isConstant = true
    · simp only [if_pos h, GenM.pure_run]
      rw [(promote_constant g h.1).1]
      simp only
      rw [(promote_constant g h.2).1]
    · simp only [if_neg h, GenM.pure_run]

theorem comparison_run (dblArith : Bool) (real : Predicate) (realName : String)
    (int : Predicate) (intName : String) (lhsV rhsV : Value) (g : GenContext) :
    (comparison dblArith real realName int intName lhsV rhsV).run g =
      if dblArith then
        if lhsV.isConstant = true ∧ rhsV.isConstant = true then
          (.ok (some (.folded (.fcmp real) (promote lhsV g).1 (promote rhsV g).1
            (.integer 1))), g)
        else
          (.ok (some (.instruction (promote rhsV (promote lhsV g).2).2.code.length
              (.integer 1))),
            (promote rhsV (promote lhsV g).2).2.emit (.fcmp real)
              [(promote lhsV g).1, (promote rhsV (promote lhsV g).2).1] (.integer 1)
              realName)
      else
        if lhsV.isConstant = true ∧ rhsV.isConstant = true then
          (.ok (some (.folded (.icmp int) lhsV rhsV (.integer 1))), g)
        else
          (.ok (some (.instruction g.code.length (.integer 1))),
            g.emit (.icmp int) [lhsV, rhsV] (.integer 1) intName) := by
  unfold comparison
  cases dblArith
  · simp only [Bool.false_eq_true, if_false, GenM.bind_run, createICmp_run]
    by_cases h : lhsV.isConstant = true ∧ rhsV.isConstant = true <;> simp [h, GenM.pure_run]
  · simp only [if_true]
    rw [GenM.bind_ok (maybeSIToFP_run _ _), GenM.bind_ok (maybeSIToFP_run _ _)]
    simp only [GenM.bind_run, createFCmp_run, promote_isConstant]
    by_cases h : lhsV.isConstant = true ∧ rhsV.isConstant = true
    · simp only [if_pos h, GenM.pure_run]
      rw [(promote_constant g h.1).1]
      simp only
      rw [(promote_constant g h.2).1]
    · simp only [if_neg h, GenM.pure_run]

/-- The lowering of `AND` and of `OR` once the operands are lowered to `lhsV` and `rhsV`: the
error for a real operand, otherwise the request of the instruction, which the builder
inserts unless both operands are constants. -/
theorem logical_run {g g1 g2 : GenContext} {lhsExprNode rhsExprNode : Expr}
    {lhsV rhsV : Value} (op : Token) (opcode : Opcode) (name message : String)
    (hl : (visitExpr lhsExprNode).run g = (.ok (some lhsV), g1))
    (hr : (visitExpr rhsExprNode).run g1 = (.ok (some rhsV), g2))
    (hop : visitBinOp op.type lhsV rhsV =
      if lhsV.getType.isDoubleTy || rhsV.getType.isDoubleTy then
        GenM.throw (.codeGen message)
      else do
        let v ← CreateBinOp opcode lhsV rhsV name
        pure (some v)) :
    ((∃ message, (visitExpr (.BinOp op lhsExprNode rhsExprNode)).run g =
        (.error (.codeGen message), g2)) ↔
      (lhsV.getType = .double ∨ rhsV.getType = .double)) ∧
    ((lhsV.getType = .double ∨ rhsV.getType = .double) →
      (visitExpr (.BinOp op lhsExprNode rhsExprNode)).run g =
        (.error (.codeGen message), g2)) ∧
    (¬(lhsV.getType = .double ∨ rhsV.getType = .double) →
      ¬(lhsV.isConstant = true ∧ rhsV.isConstant = true) →
      (visitExpr (.BinOp op lhsExprNode rhsExprNode)).run g =
        (.ok (some (.instruction g2.code.length lhsV.getType)),
          g2.emit opcode [lhsV, rhsV] lhsV.getType name)) ∧
    (¬(lhsV.getType = .double ∨ rhsV.getType = .double) →
      lhsV.isConstant = true ∧ rhsV.isConstant = true →
      (visitExpr (.BinOp op lhsExprNode rhsExprNode)).run g =
        (.ok (some (.folded opcode lhsV rhsV lhsV.getType)), g2)) := by
  have hdbl : (lhsV.getType.isDoubleTy || rhsV.getType.isDoubleTy) = true ↔
      (lhsV.getType = .double ∨ rhsV.getType = .double) := by
    rw [Bool.or_eq_true, isDoubleTy_iff, isDoubleTy_iff]
  have hrun : (visitExpr (.BinOp op lhsExprNode rhsExprNode)).run g =
      if lhsV.getType = .double ∨ rhsV.getType = .double then (.error (.codeGen message), g2)
      else if lhsV.isConstant = true ∧ rhsV.isConstant = true then
        (.ok (some (.folded opcode lhsV rhsV lhsV.getType)), g2)
      else
        (.ok (some (.instruction g2.code.length lhsV.getType)),
          g2.emit opcode [lhsV, rhsV] lhsV.getType name) := by
    rw [visitExpr_BinOp_run op hl hr, hop]
    by_cases h : lhsV.getType = .double ∨ rhsV.getType = .double
    · rw [if_pos (hdbl.2 h), if_pos h]
      rfl
    · rw [if_neg (fun h2 => h (hdbl.1 h2)), if_neg h]
      simp only [GenM.bind_run, createBinOp_run]
      by_cases hc : lhsV.isConstant = true ∧ rhsV.isConstant = true <;>
        simp [hc, GenM.pure_run]
  refine ⟨⟨fun ⟨m, hm⟩ => ?_, fun h => ⟨message, by rw [hrun, if_pos h]⟩⟩,
    fun h => by rw [hrun, if_pos h], fun h hc => by rw [hrun, if_neg h, if_neg hc],
    fun h hc => by rw [hrun, if_neg h, if_pos hc]⟩
  by_contra h
  rw [hrun, if_neg h] at hm
  split at hm <;> cases hm

/-- C33, counterexample. In the lowering of `1 and 0`, of `1 or 0` and of `not 1`, in the
state after `sampleProgram`, no instruction is emitted: the operands are integer constants,
the builder folds them, and the state is the one before. -/
theorem C33_counterexample :
    (visitExpr (.BinOp ⟨.AND, ⟨1, 1⟩, none⟩ (.Literal (.int 1)) (.Literal (.int 0)))).run
        sampleContext =
      (.ok (some (.folded .and (.constantInt (.integer 32) 1) (.constantInt (.integer 32) 0)
        (.integer 32))), sampleContext) ∧
    (visitExpr (.BinOp ⟨.OR, ⟨1, 1⟩, none⟩ (.Literal (.int 1)) (.Literal (.int 0)))).run
        sampleContext =
      (.ok (some (.folded .or (.constantInt (.integer 32) 1) (.constantInt (.integer 32) 0)
        (.integer 32))), sampleContext) ∧
    (visitExpr (.UnaryOp ⟨.NOT, ⟨1, 1⟩, none⟩ (.Literal (.int 1)))).run sampleContext =
      (.ok (some (.folded .xor (.constantInt (.integer 32) 1) (.constantInt (.integer 1) 1)
        (.integer 32))), sampleContext) := by
  decide!

/-- C33, amended. The logical operators reject reals. Let the operands of a binary operator
be lowered to the values `lhsV` and `rhsV`. The lowering of `AND` and of `OR` raises
`CodeGenException` exactly if one of the two values is real; if none is, the instruction
`and`, resp. `or`, on the two values is requested from the builder under the name `and`,
resp. `or`, and its result is the value of the expression: the builder emits the
instruction unless both values are constants, and then it folds them into a constant and
emits nothing. Let the operand of `NOT` be lowered to the value `exprV`: the lowering
raises `CodeGenException` exactly if the value is real, and otherwise requests `xor` of the
value with the 1-bit constant 1 under the name `not`, which is emitted unless the value is a
constant and folded if it is. -/
theorem C33_logical_operators (g g1 g2 : GenContext) (op : Token)
    (lhsExprNode rhsExprNode : Expr) (lhsV rhsV : Value)
    (hl : (visitExpr lhsExprNode).run g = (.ok (some lhsV), g1))
    (hr : (visitExpr rhsExprNode).run g1 = (.ok (some rhsV), g2)) :
    (op.type = .AND →
      ((∃ message, (visitExpr (.BinOp op lhsExprNode rhsExprNode)).run g =
          (.error (.codeGen message), g2)) ↔
        (lhsV.getType = .double ∨ rhsV.getType = .double)) ∧
      ((lhsV.getType = .double ∨ rhsV.getType = .double) →
        (visitExpr (.BinOp op lhsExprNode rhsExprNode)).run g =
          (.error (.codeGen "Unsupported logical AND operation for real type"), g2)) ∧
      (¬(lhsV.getType = .double ∨ rhsV.getType = .double) →
        ¬(lhsV.isConstant = true ∧ rhsV.isConstant = true) →
        (visitExpr (.BinOp op lhsExprNode rhsExprNode)).run g =
          (.ok (some (.instruction g2.code.length lhsV.getType)),
            g2.emit .and [lhsV, rhsV] lhsV.getType "and")) ∧
      (¬(lhsV.getType = .double ∨ rhsV.getType = .double) →
        lhsV.isConstant = true ∧ rhsV.isConstant = true →
        (visitExpr (.BinOp op lhsExprNode rhsExprNode)).run g =
          (.ok (some (.folded .and lhsV rhsV lhsV.getType)), g2))) ∧
    (op.type = .OR →
      ((∃ message, (visitExpr (.BinOp op lhsExprNode rhsExprNode)).run g =
          (.error (.codeGen message), g2)) ↔
        (lhsV.getType = .double ∨ rhsV.getType = .double)) ∧
      ((lhsV.getType = .double ∨ rhsV.getType = .double) →
        (visitExpr (.BinOp op lhsExprNode rhsExprNode)).run g =
          (.error (.codeGen "Unsupported logical OR operation for real type"), g2)) ∧
      (¬(lhsV.getType = .double ∨ rhsV.getType = .double) →
        ¬(lhsV.isConstant = true ∧ rhsV.isConstant = true) →
        (visitExpr (.BinOp op lhsExprNode rhsExprNode)).run g =
          (.ok (some (.instruction g2.code.length lhsV.getType)),
            g2.emit .or [lhsV, rhsV] lhsV.getType "or")) ∧
      (¬(lhsV.getType = .double ∨ rhsV.getType = .double) →
        lhsV.isConstant = true ∧ rhsV.isConstant = true →
        (visitExpr (.BinOp op lhsExprNode rhsExprNode)).run g =
          (.ok (some (.folded .or lhsV rhsV lhsV.getType)), g2))) ∧
    (op.type = .NOT →
      ((∃ message, (visitExpr (.UnaryOp op lhsExprNode)).run g =
          (.error (.codeGen message), g1)) ↔ lhsV.getType = .double) ∧
      (lhsV.getType = .double →
        (visitExpr (.UnaryOp op lhsExprNode)).run g =
          (.error (.codeGen "Unsupported NOT operation for real type"), g1)) ∧
      (lhsV.getType ≠ .double → lhsV.isConstant = false →
        (visitExpr (.UnaryOp op lhsExprNode)).run g =
          (.ok (some (.instruction g1.code.length lhsV.getType)),
            g1.emit .xor [lhsV, .constantInt (.integer 1) 1] lhsV.getType "not")) ∧
      (lhsV.getType ≠ .double → lhsV.isConstant = true →
        (visitExpr (.UnaryOp op lhsExprNode)).run g =
          (.ok (some (.folded .xor lhsV (.constantInt (.integer 1) 1) lhsV.getType)),
            g1))) := by
  refine ⟨fun hop => ?_, fun hop => ?_, fun hop => ?_⟩
  · exact logical_run op .and "and" "Unsupported logical AND operation for real type" hl hr
      (by rw [hop]; rfl)
  · exact logical_run op .or "or" "Unsupported logical OR operation for real type" hl hr
      (by rw [hop]; rfl)
  · have hrun : (visitExpr (.UnaryOp op lhsExprNode)).run g =
        if lhsV.getType = .double then
          (.error (.codeGen "Unsupported NOT operation for real type"), g1)
        else if lhsV.isConstant = true then
          (.ok (some (.folded .xor lhsV (.constantInt (.integer 1) 1) lhsV.getType)), g1)
        else
          (.ok (some (.instruction g1.code.length lhsV.getType)),
            g1.emit .xor [lhsV, .constantInt (.integer 1) 1] lhsV.getType "not") := by
      rw [visitExpr_UnaryOp_run op hl, hop]
      by_cases h : lhsV.getType = .double
      · rw [if_pos h]
        simp only [visitUnaryOp, (isDoubleTy_iff _).2 h, if_true]
        rfl
      · rw [if_neg h]
        have h2 : lhsV.getType.isDoubleTy = false := by
          rw [← Bool.not_eq_true, isDoubleTy_iff]
          exact h
        simp only [visitUnaryOp, h2, Bool.false_eq_true, if_false, GenM.bind_run,
          createBinOp_run, isConstant_constantInt, and_true]
        by_cases hc : lhsV.isConstant = true <;> simp [hc, GenM.pure_run]
    refine ⟨⟨fun ⟨m, hm⟩ => ?_, fun h => ⟨_, by rw [hrun, if_pos h]⟩⟩,
      fun h => by rw [hrun, if_pos h],
      fun h hc => by rw [hrun, if_neg h, if_neg (by simp [hc])],
      fun h hc => by rw [hrun, if_neg h, if_pos hc]⟩
    by_contra h
    rw [hrun, if_neg h] at hm
    split at hm <;> cases hm

/-- Witness of C33, in the state after `sampleProgram`, where `i` is an integer and `r` a
real variable: `i and r` raises the error, and `i and 1` emits the instruction `and` on the
load of `i`, instruction 2, and the constant. -/
theorem C33_logical_operators_witness :
    (visitExpr (.BinOp ⟨.AND, ⟨1, 1⟩, none⟩ (.DeclVarRef "i") (.DeclVarRef "r"))).run
        sampleContext =
      (.error (.codeGen "Unsupported logical AND operation for real type"),
        ((visitExpr (.DeclVarRef "r")).run
          ((visitExpr (.DeclVarRef "i")).run sampleContext).2).2) ∧
    (visitExpr (.BinOp ⟨.AND, ⟨1, 1⟩, none⟩ (.DeclVarRef "i") (.Literal (.int 1)))).run
        sampleContext =
      (.ok (some (.instruction
          ((visitExpr (.DeclVarRef "i")).run sampleContext).2.code.length (.integer 32))),
        ((visitExpr (.DeclVarRef "i")).run sampleContext).2.emit .and
          [.instruction 2 (.integer 32), .constantInt (.integer 32) 1] (.integer 32) "and") :=
  ⟨((C33_logical_operators sampleContext ((visitExpr (.DeclVarRef "i")).run sampleContext).2
      ((visitExpr (.DeclVarRef "r")).run
        ((visitExpr (.DeclVarRef "i")).run sampleContext).2).2
      ⟨.AND, ⟨1, 1⟩, none⟩ (.DeclVarRef "i") (.DeclVarRef "r") (.instruction 2 (.integer 32))
      (.instruction 3 .double) (by decide!) (by decide!)).1 rfl).2.1 (Or.inr rfl),
   ((C33_logical_operators sampleContext ((visitExpr (.DeclVarRef "i")).run sampleContext).2
      ((visitExpr (.DeclVarRef "i")).run sampleContext).2
      ⟨.AND, ⟨1, 1⟩, none⟩ (.DeclVarRef "i") (.Literal (.int 1)) (.instruction 2 (.integer 32))
      (.constantInt (.integer 32) 1) (by decide!) (by decide!)).1 rfl).2.2.1
      (by decide) (by decide)⟩

/-- C34, counterexample. In the lowering of `2 * 3 - 1`, of `1 + 2.5` and of `1 < 2`, in the
state after `sampleProgram`, no instruction is emitted, neither a conversion nor an
arithmetic instruction nor a comparison: the operands are constants, the builder folds
them, and the state is the one before. -/
theorem C34_counterexample :
    (visitExpr (.BinOp ⟨.MINUS, ⟨1, 1⟩, none⟩
      (.BinOp ⟨.MULTIPLY, ⟨1, 1⟩, none⟩ (.Literal (.int 2)) (.Literal (.int 3)))
      (.Literal (.int 1)))).run sampleContext =
      (.ok (some (.folded .sub
        (.folded .mul (.constantInt (.integer 32) 2) (.constantInt (.integer 32) 3)
          (.integer 32))
        (.constantInt (.integer 32) 1) (.integer 32))), sampleContext) ∧
    (visitExpr (.BinOp ⟨.PLUS, ⟨1, 1⟩, none⟩ (.Literal (.int 1))
      (.Literal (.real (5 / 2))))).run sampleContext =
      (.ok (some (.folded .fadd (.foldedUnary .sitofp (.constantInt (.integer 32) 1) .double)
        (.constantFP (5 / 2)) .double)), sampleContext) ∧
    (visitExpr (.BinOp ⟨.LESS, ⟨1, 1⟩, none⟩ (.Literal (.int 1)) (.Literal (.int 2)))).run
        sampleContext =
      (.ok (some (.folded (.icmp .SLT) (.constantInt (.integer 32) 1)
        (.constantInt (.integer 32) 2) (.integer 1))), sampleContext) := by
  decide!

/-- C34, amended. Arithmetic promotion. Let the operands of a binary operator be lowered to
the values `lhsV` and `rhsV`. For each of `+ - * / div mod`: if none of the two values is
real, the signed integer instruction of the operator is requested from the builder on the
two values as they are, and its result has the type of the left value; if one is real, for
each value that is not real the conversion `sitofp` is requested (`promote`), the left one
first, and the floating-point instruction is requested on the two real values, with a real
result. The builder emits a requested instruction unless all its operands are constants,
and then it folds them into a constant and emits nothing: with two constants for `lhsV` and
`rhsV` the state stays as it is. For each of the six comparisons the same holds with the
signed integer comparison and the ordered floating-point comparison, and the result has one
bit in both cases. `div` is lowered like `/`. -/
theorem C34_arithmetic_promotion (g g1 g2 : GenContext) (op : Token)
    (lhsExprNode rhsExprNode : Expr) (lhsV rhsV : Value)
    (hl : (visitExpr lhsExprNode).run g = (.ok (some lhsV), g1))
    (hr : (visitExpr rhsExprNode).run g1 = (.ok (some rhsV), g2)) :
    (∀ real realName int intName, (op.type, real, realName, int, intName) ∈ arithmeticOperators →
      (¬(lhsV.getType = .double ∨ rhsV.getType = .double) →
        ¬(lhsV.isConstant = true ∧ rhsV.isConstant = true) →
        (visitExpr (.BinOp op lhsExprNode rhsExprNode)).run g =
          (.ok (some (.instruction g2.code.length lhsV.getType)),
            g2.emit int [lhsV, rhsV] lhsV.getType intName)) ∧
      (¬(lhsV.getType = .double ∨ rhsV.getType = .double) →
        lhsV.isConstant = true ∧ rhsV.isConstant = true →
        (visitExpr (.BinOp op lhsExprNode rhsExprNode)).run g =
          (.ok (some (.folded int lhsV rhsV lhsV.getType)), g2)) ∧
      ((lhsV.getType = .double ∨ rhsV.getType = .double) →
        ¬(lhsV.isConstant = true ∧ rhsV.isConstant = true) →
        (visitExpr (.BinOp op lhsExprNode rhsExprNode)).run g =
          (.ok (some (.instruction (promote rhsV (promote lhsV g2).2).2.code.length .double)),
            (promote rhsV (promote lhsV g2).2).2.emit real
              [(promote lhsV g2).1, (promote rhsV (promote lhsV g2).2).1] .double realName)) ∧
      ((lhsV.getType = .double ∨ rhsV.getType = .double) →
        lhsV.isConstant = true ∧ rhsV.isConstant = true →
        (visitExpr (.BinOp op lhsExprNode rhsExprNode)).run g =
          (.ok (some (.folded real (promote lhsV g2).1 (promote rhsV g2).1 .double)), g2))) ∧
    (∀ real realName int intName, (op.type, real, realName, int, intName) ∈ comparisonOperators →
      (¬(lhsV.getType = .double ∨ rhsV.getType = .double) →
        ¬(lhsV.isConstant = true ∧ rhsV.isConstant = true) →
        (visitExpr (.BinOp op lhsExprNode rhsExprNode)).run g =
          (.ok (some (.instruction g2.code.length (.integer 1))),
            g2.emit (.icmp int) [lhsV, rhsV] (.integer 1) intName)) ∧
      (¬(lhsV.getType = .double ∨ rhsV.getType = .double) →
        lhsV.isConstant = true ∧ rhsV.isConstant = true →
        (visitExpr (.BinOp op lhsExprNode rhsExprNode)).run g =
          (.ok (some (.folded (.icmp int) lhsV rhsV (.integer 1))), g2)) ∧
      ((lhsV.getType = .double ∨ rhsV.getType = .double) →
        ¬(lhsV.isConstant = true ∧ rhsV.isConstant = true) →
        (visitExpr (.BinOp op lhsExprNode rhsExprNode)).run g =
          (.ok (some (.instruction (promote rhsV (promote lhsV g2).2).2.code.length
              (.integer 1))),
            (promote rhsV (promote lhsV g2).2).2.emit (.fcmp real)
              [(promote lhsV g2).1, (promote rhsV (promote lhsV g2).2).1] (.integer 1)
              realName)) ∧
      ((lhsV.getType = .double ∨ rhsV.getType = .double) →
        lhsV.isConstant = true ∧ rhsV.isConstant = true →
        (visitExpr (.BinOp op lhsExprNode rhsExprNode)).run g =
          (.ok (some (.folded (.fcmp real) (promote lhsV g2).1 (promote rhsV g2).1
            (.integer 1))), g2))) ∧
    (op.type = .DIV → ∀ position value,
      (visitExpr (.BinOp op lhsExprNode rhsExprNode)).run g =
        (visitExpr (.BinOp ⟨.DIVIDE, position, value⟩ lhsExprNode rhsExprNode)).run g) ∧
    (∀ v g, (promote v g).1.getType = .double ∧
      (v.getType = .double → promote v g = (v, g)) ∧
      (v.getType ≠ .double → v.isConstant = false →
        promote v g = (.instruction g.code.length .double, g.emit .sitofp [v] .double "")) ∧
      (v.getType ≠ .double → v.isConstant = true →
        promote v g = (.foldedUnary .sitofp v .double, g))) := by
  have hdbl : (lhsV.getType.isDoubleTy || rhsV.getType.isDoubleTy) = true ↔
      (lhsV.getType = .double ∨ rhsV.getType = .double) := by
    rw [Bool.or_eq_true, isDoubleTy_iff, isDoubleTy_iff]
  have hno : ¬(lhsV.getType = .double ∨ rhsV.getType = .double) →
      (lhsV.getType.isDoubleTy || rhsV.getType.isDoubleTy) = false := by
    intro h
    rw [← Bool.not_eq_true, hdbl]
    exact h
  refine ⟨fun real realName int intName hmem => ?_, fun real realName int intName hmem => ?_,
    fun hop position value => ?_,
    fun v g => ⟨promote_type v g, fun h => ?_, fun h hc => ?_, fun h hc => ?_⟩⟩
  · have key : (visitExpr (.BinOp op lhsExprNode rhsExprNode)).run g =
        (arithmetic (lhsV.getType.isDoubleTy || rhsV.getType.isDoubleTy) real realName int
          intName lhsV rhsV).run g2 := by
      rw [visitExpr_BinOp_run op hl hr]
      simp only [arithmeticOperators, List.mem_cons, Prod.mk.injEq, List.mem_singleton,
        List.not_mem_nil, or_false] at hmem
      rcases hmem with h | h | h | h | h | h <;>
        obtain ⟨h1, rfl, rfl, rfl, rfl⟩ := h <;> rw [h1] <;> rfl
    rw [key, arithmetic_run]
    exact ⟨fun h hc => by simp only [hno h, Bool.false_eq_true, if_false, if_neg hc],
      fun h hc => by simp only [hno h, Bool.false_eq_true, if_false, if_pos hc],
      fun h hc => by simp only [hdbl.2 h, if_true, if_neg hc],
      fun h hc => by simp only [hdbl.2 h, if_true, if_pos hc]⟩
  · have key : (visitExpr (.BinOp op lhsExprNode rhsExprNode)).run g =
        (comparison (lhsV.getType.isDoubleTy || rhsV.getType.isDoubleTy) real realName int
          intName lhsV rhsV).run g2 := by
      rw [visitExpr_BinOp_run op hl hr]
      simp only [comparisonOperators, List.mem_cons, Prod.mk.injEq, List.mem_singleton,
        List.not_mem_nil, or_false] at hmem
      rcases hmem with h | h | h | h | h | h <;>
        obtain ⟨h1, rfl, rfl, rfl, rfl⟩ := h <;> rw [h1] <;> rfl
    rw [key, comparison_run]
    exact ⟨fun h hc => by simp only [hno h, Bool.false_eq_true, if_false, if_neg hc],
      fun h hc => by simp only [hno h, Bool.false_eq_true, if_false, if_pos hc],
      fun h hc => by simp only [hdbl.2 h, if_true, if_neg hc],
      fun h hc => by simp only [hdbl.2 h, if_true, if_pos hc]⟩
  · rw [visitExpr_BinOp_run op hl hr, visitExpr_BinOp_run ⟨.DIVIDE, position, value⟩ hl hr, hop]
    rfl
  · unfold promote
    rw [if_pos ((isDoubleTy_iff _).2 h)]
  · unfold promote
    rw [if_neg fun h2 => h ((isDoubleTy_iff _).1 h2), if_neg (by simp [hc])]
  · unfold promote
    rw [if_neg fun h2 => h ((isDoubleTy_iff _).1 h2), if_pos hc]

/-- Witness of C34: `i + r` in the state after `sampleProgram`, where `i` is an integer and
`r` a real variable: the load of `i` (instruction 2) is converted by instruction 4, and
instruction 5 is the `fadd` of the conversion and of the load of `r` (instruction 3). -/
theorem C34_arithmetic_promotion_witness :
    ((visitExpr (.BinOp ⟨.PLUS, ⟨1, 1⟩, none⟩ (.DeclVarRef "i") (.DeclVarRef "r"))).run
        sampleContext).1 = .ok (some (.instruction 5 .double)) ∧
    ((visitExpr (.BinOp ⟨.PLUS, ⟨1, 1⟩, none⟩ (.DeclVarRef "i") (.DeclVarRef "r"))).run
        sampleContext).2.code.drop 4 =
      [(some 0, ⟨4, .sitofp, [.instruction 2 (.integer 32)], .double, ""⟩),
        (some 0, ⟨5, .fadd, [.instruction 4 .double, .instruction 3 .double], .double,
          "fadd"⟩)] := by
  have h := ((C34_arithmetic_promotion sampleContext
    ((visitExpr (.DeclVarRef "i")).run sampleContext).2
    ((visitExpr (.DeclVarRef "r")).run ((visitExpr (.DeclVarRef "i")).run sampleContext).2).2
    ⟨.PLUS, ⟨1, 1⟩, none⟩ (.DeclVarRef "i") (.DeclVarRef "r") (.instruction 2 (.integer 32))
    (.instruction 3 .double) (by decide!) (by decide!)).1 .fadd "fadd" .add "add"
    (by decide)).2.2.1 (Or.inr rfl) (by decide)
  rw [h]
  exact ⟨by decide!, by decide!⟩

/-! ## Calls -/

theorem visitStmt_ProcCall_error {w : Wiring} {setGlobal : Bool} {f : String}
    {argNodes : List Expr} {g g' : GenContext} {e : GenError}
    (h : (visitExpr (.FunCall f argNodes)).run g = (.error e, g')) :
    (visitStmt w setGlobal (.ProcCall f argNodes)).run g = (.error e, g') := by
  rw [visitStmt_ProcCall]
  show (handle f argNodes >>= fun _ => pure ()).run _ = _
  exact GenM.bind_error (show (handle f argNodes).run _ = _ from h)

theorem visitStmt_ProcCall_ok {w : Wiring} {setGlobal : Bool} {f : String}
    {argNodes : List Expr} {g g' : GenContext} {v : Option Value}
    (h : (visitExpr (.FunCall f argNodes)).run g = (.ok v, g')) :
    (visitStmt w setGlobal (.ProcCall f argNodes)).run g = (.ok (), g') := by
  rw [visitStmt_ProcCall]
  show (handle f argNodes >>= fun _ => pure ()).run _ = _
  rw [GenM.bind_ok (show (handle f argNodes).run _ = _ from h)]
  rfl

/-- C35. Call validation. Let `f` be none of `write`, `writeln`, `readln`, `to_integer` and
`to_real`. If the module holds no function `f`, the call `f(...)`, in an expression or as a
statement, raises `CodeGenException` before any argument is lowered. If it holds one and
the number of arguments is not the number of its parameters, the call raises
`CodeGenException` before any argument is lowered. If the numbers agree and the arguments
are lowered to the values `argsV`, one `call` of the function on `argsV` is emitted after
them. The arguments are lowered from left to right: the first one, then the others from
the state that the first one leaves. The call `y(2)` of the cited test raises the
exception. -/
theorem C35_call_validation (w : Wiring) (setGlobal : Bool) (g : GenContext) (f : String)
    (argNodes : List Expr)
    (huser : f ∉ ["write", "writeln", "readln", "to_integer", "to_real"]) :
    ((getFunction f).run g = (.ok none, g) →
      (visitExpr (.FunCall f argNodes)).run g =
        (.error (.codeGen ("Function/Procedure not found: " ++ f)), g) ∧
      (visitStmt w setGlobal (.ProcCall f argNodes)).run g =
        (.error (.codeGen ("Function/Procedure not found: " ++ f)), g)) ∧
    (∀ func callee, (getFunction f).run g = (.ok (some func), g) →
      g.functions[func]? = some callee →
      (callee.paramTypes.length ≠ argNodes.length →
        (visitExpr (.FunCall f argNodes)).run g =
          (.error (.codeGen ("Function/Procedure " ++ f ++ " expects " ++
            toString callee.paramTypes.length ++ " arguments, but " ++
            toString argNodes.length ++ " were provided")), g) ∧
        (visitStmt w setGlobal (.ProcCall f argNodes)).run g =
          (.error (.codeGen ("Function/Procedure " ++ f ++ " expects " ++
            toString callee.paramTypes.length ++ " arguments, but " ++
            toString argNodes.length ++ " were provided")), g)) ∧
      (callee.paramTypes.length = argNodes.length → ∀ argsV g2,
        (visitArgs f argNodes).run g = (.ok argsV, g2) →
        (visitExpr (.FunCall f argNodes)).run g =
          (.ok (some (.instruction g2.code.length callee.returnType)),
            g2.emit (.call func) argsV callee.returnType "") ∧
        (visitStmt w setGlobal (.ProcCall f argNodes)).run g =
          (.ok (), g2.emit (.call func) argsV callee.returnType ""))) ∧
    ((visitArgs f []).run g = (.ok [], g)) ∧
    (∀ argNode rest argV g1 argsV g2, (visitExpr argNode).run g = (.ok (some argV), g1) →
      (visitArgs f rest).run g1 = (.ok argsV, g2) →
      (visitArgs f (argNode :: rest)).run g = (.ok (argV :: argsV), g2)) ∧
    ((parseSource 100 ("program test; procedure x(); begin writeln(1) end; " ++
        "begin y(2) end.").toList).map fun p => (generate p).1) =
      .ok (.error (.codeGen "Function/Procedure not found: y")) := by
  refine ⟨fun hnone => ?_, fun func callee hfun hcallee => ⟨fun hne => ?_, fun heq argsV g2
    hargs => ?_⟩, ?_, fun argNode rest argV g1 argsV g2 h1 h2 => ?_, by decide!⟩
  · have h : (visitExpr (.FunCall f argNodes)).run g =
        (.error (.codeGen ("Function/Procedure not found: " ++ f)), g) := by
      rw [visitExpr_userCall argNodes huser]
      refine GenM.bind_error ?_
      unfold validateUserCall
      rw [GenM.bind_ok hnone]
      rfl
    exact ⟨h, visitStmt_ProcCall_error h⟩
  · have h : (visitExpr (.FunCall f argNodes)).run g =
        (.error (.codeGen ("Function/Procedure " ++ f ++ " expects " ++
          toString callee.paramTypes.length ++ " arguments, but " ++
          toString argNodes.length ++ " were provided")), g) := by
      rw [visitExpr_userCall argNodes huser]
      refine GenM.bind_error ?_
      unfold validateUserCall
      rw [GenM.bind_ok hfun]
      dsimp only
      rw [GenM.bind_ok (functionAt_run hcallee), if_pos hne]
      rfl
    exact ⟨h, visitStmt_ProcCall_error h⟩
  · have hf2 : g2.functions[func]? = some callee := by
      have := (keeps_visitArgs functions_stable f argNodes).after g
      rw [hargs] at this
      exact this func callee hcallee
    have hv : (validateUserCall f argNodes.length).run g = (.ok func, g) := by
      unfold validateUserCall
      rw [GenM.bind_ok hfun]
      dsimp only
      rw [GenM.bind_ok (functionAt_run hcallee), if_neg (by simp [heq])]
      rfl
    have h : (visitExpr (.FunCall f argNodes)).run g =
        (.ok (some (.instruction g2.code.length callee.returnType)),
          g2.emit (.call func) argsV callee.returnType "") := by
      rw [visitExpr_userCall argNodes huser, GenM.bind_ok hv, GenM.bind_ok hargs]
      simp only [CreateCall, GenM.bind_run, functionAt_run hf2, insert_run, GenM.pure_run]
    exact ⟨h, visitStmt_ProcCall_ok h⟩
  · rw [visitArgs]
    rfl
  · rw [visitArgs, GenM.bind_ok h1]
    dsimp only
    rw [GenM.bind_ok h2]
    rfl

/-- Witness of C35: the call `f(i)` in the state after `sampleProgram` and
`function f(): integer; begin f := 4 end`, where `f` has no parameter. -/
theorem C35_call_validation_witness :
    (visitExpr (.FunCall "f" [.DeclVarRef "i"])).run sampleWithFunction =
      (.error (.codeGen "Function/Procedure f expects 0 arguments, but 1 were provided"),
        sampleWithFunction) :=
  ((((C35_call_validation Wiring.initial false sampleWithFunction "f" [.DeclVarRef "i"]
    (by decide)).2.1 7 ⟨"f", .integer 32, [], false, []⟩ (by decide!) (by decide!)).1
    (by decide)).1.trans (by decide!))

/-! ## An index on a name that is no array -/

/-- C38. An index on a symbol of primitive type. Let `x` be bound to a symbol of primitive
type and let the index be lowered to an integer value. Where `x[e]` is read,
`CodeGenVisitor::visit(DeclArrayRefASTNode&)` raises `CodeGenException` before the index is
lowered. Where `x[e]` is the target of an assignment or the argument of `readln`,
`StoreVisitor::visit(DeclArrayRefASTNode&)` has no such test: it lowers the index and then
reads the bounds through the result of `dynamic_cast<const ArrayTypeASTNode*>`, which is
null for a primitive type; the lowering ends in undefined behaviour, not in an exception.
So do the lowerings of `program t; var x: integer; begin x[1] := 5 end.` and of
`program t; var x: integer; begin readln(x[1]) end.`, while that of
`program t; var x: integer; begin write(x[1]) end.` raises the exception. -/
theorem C38_index_of_non_array (w : Wiring) (setGlobal : Bool) (g g1 : GenContext)
    (x : String) (indexNode : Expr) (symbol : Symbol) (t : PrimitiveType) (indexV : Value)
    (hsym : g.symbolTable.lookup x = some symbol) (htype : symbol.type = .primitive t)
    (hindex : (visitExpr indexNode).run g = (.ok (some indexV), g1))
    (hint : indexV.getType.isIntegerTy = true) :
    (visitExpr (.DeclArrayRef x indexNode)).run g =
      (.error (.codeGen ("Identifier is not an array: " ++ x)), g) ∧
    (storeVisit (.DeclArrayRef x indexNode)).run g =
      (.error (.undefinedBehaviour "the null result of dynamic_cast is dereferenced"), g1) ∧
    (symbol.immutable = false → ∀ exprNode,
      (visitStmt w setGlobal (.Assign (.DeclArrayRef x indexNode) exprNode)).run g =
        (.error (.undefinedBehaviour "the null result of dynamic_cast is dereferenced"),
          g1)) ∧
    (visitExpr (.FunCall "readln" [.DeclArrayRef x indexNode])).run g =
      (.error (.undefinedBehaviour "the null result of dynamic_cast is dereferenced"), g1) ∧
    ((parseSource 100 "program t; var x: integer; begin write(x[1]) end.".toList).map
      fun p => (generate p).1) = .ok (.error (.codeGen "Identifier is not an array: x")) ∧
    ((parseSource 100 "program t; var x: integer; begin x[1] := 5 end.".toList).map
      fun p => (generate p).1) =
      .ok (.error (.undefinedBehaviour "the null result of dynamic_cast is dereferenced")) ∧
    ((parseSource 100 "program t; var x: integer; begin readln(x[1]) end.".toList).map
      fun p => (generate p).1) =
      .ok (.error (.undefinedBehaviour "the null result of dynamic_cast is dereferenced")) := by
  have hcheck : (checkedIndex x symbol (some indexV)).run g1 =
      (.error (.undefinedBehaviour "the null result of dynamic_cast is dereferenced"),
        g1) := by
    unfold checkedIndex
    simp only [hint, Bool.not_true, Bool.false_eq_true, if_false, htype]
    rfl
  have hstore : (storeVisit (.DeclArrayRef x indexNode)).run g =
      (.error (.undefinedBehaviour "the null result of dynamic_cast is dereferenced"),
        g1) := by
    rw [storeVisit, GenM.bind_ok (GenM.get_run g)]
    simp only [contains_of_lookup hsym, Bool.not_true, Bool.false_eq_true, if_false]
    rw [GenM.bind_ok (getSymbol_run hsym), GenM.bind_ok hindex]
    exact GenM.bind_error hcheck
  refine ⟨?_, hstore, fun himm exprNode => ?_, ?_, by decide!, by decide!, by decide!⟩
  · rw [visitExpr, GenM.bind_ok (GenM.get_run g)]
    simp only [contains_of_lookup hsym, Bool.not_true, Bool.false_eq_true, if_false]
    rw [GenM.bind_ok (getSymbol_run hsym)]
    simp only [htype, TypeNode.isArray, Bool.not_false, if_true]
    rfl
  · rw [visitStmt_Assign]
    unfold visitAssign
    simp only [Expr.getRefName]
    rw [GenM.bind_ok (GenM.get_run g)]
    simp only [contains_of_lookup hsym, Bool.not_true, Bool.false_eq_true, if_false]
    rw [GenM.bind_ok (getSymbol_run hsym)]
    simp only [himm, Bool.false_eq_true, if_false]
    exact GenM.bind_error hstore
  · rw [visitExpr]
    simp only [show ¬("readln" = "write" ∨ "readln" = "writeln") from by decide, if_false,
      if_true]
    exact GenM.bind_error hstore

/-- Witness of C38: `i[i]` in the state after `sampleProgram`, where `i` is an integer
variable: the store visitor lowers the index and ends in undefined behaviour. -/
theorem C38_index_of_non_array_witness :
    (storeVisit (.DeclArrayRef "i" (.DeclVarRef "i"))).run sampleContext =
      (.error (.undefinedBehaviour "the null result of dynamic_cast is dereferenced"),
        ((visitExpr (.DeclVarRef "i")).run sampleContext).2) :=
  (C38_index_of_non_array Wiring.initial false sampleContext
    ((visitExpr (.DeclVarRef "i")).run sampleContext).2 "i" (.DeclVarRef "i")
    ⟨"i", .primitive .INTEGER, .globalVariable (.globalVariable 0 (.integer 32)), false⟩
    .INTEGER (.instruction 2 (.integer 32)) (by decide!) rfl (by decide!) rfl).2.1

/-! ## The adjusted index -/

/-- C39. The adjusted index, and where it leaves the aggregate. If an array declaration
with the bounds `lo` and `hi` is lowered and the bounds are less than `2^31` apart, the
aggregate has `hi - lo + 1` elements, at least 2 and at most 1001, and for every index `i`
with `lo <= i <= hi` the difference `i - lo`, computed in `int`, is the exact difference
and lies in `0 .. hi - lo`. The premise on the distance cannot be dropped: the difference
`hi - lo` of the tests of the declaration is itself computed in `int`, and
`array [-2000000000 .. 2000000000]` is lowered, with an aggregate of 18446744073414584321
elements; there the index 2000000000 passes the bounds check and its adjusted index is
-294967296. -/
theorem C39_adjusted_index (g : GenContext) (setGlobal : Bool) (declName : String)
    (global : Bool) (typeNode : ArrayType)
    (haccept : ((visitArrayDecl setGlobal declName global typeNode).run g).1 = .ok ())
    (hsize : typeNode.upperBound - typeNode.lowerBound < 2147483648) :
    2 ≤ typeNode.upperBound - typeNode.lowerBound + 1 ∧
    typeNode.upperBound - typeNode.lowerBound + 1 ≤ 1001 ∧
    genArrayType typeNode = .array (genPrimitiveType typeNode.elemTypeNode)
      (typeNode.upperBound - typeNode.lowerBound + 1).toNat ∧
    (∀ i : Int, typeNode.lowerBound ≤ i → i ≤ typeNode.upperBound →
      wrapInt (i - typeNode.lowerBound) = i - typeNode.lowerBound ∧
      0 ≤ i - typeNode.lowerBound ∧
      i - typeNode.lowerBound < typeNode.upperBound - typeNode.lowerBound + 1) ∧
    ((visitArrayDecl true "X" false ⟨.INTEGER, -2000000000, 2000000000⟩).run
      GenContext.new).1 = .ok () ∧
    genArrayType ⟨.INTEGER, -2000000000, 2000000000⟩ =
      .array (.integer 32) 18446744073414584321 ∧
    ((-2000000000 : Int) ≤ 2000000000 ∧ (2000000000 : Int) ≤ 2000000000 ∧
      wrapInt (2000000000 - -2000000000) = -294967296) := by
  have hfresh : g.symbolTable.contains declName = false := by
    by_contra h
    rw [Bool.not_eq_false] at h
    unfold visitArrayDecl at haccept
    simp only [GenM.bind_run, GenM.get_run, h, if_true, GenM.throw_run] at haccept
    cases haccept
  have hlim := ((visitArrayDecl_limits g setGlobal declName global typeNode hfresh hsize).1).1
    haccept
  have hw : wrapInt (typeNode.upperBound - typeNode.lowerBound) =
      typeNode.upperBound - typeNode.lowerBound := wrapInt_of_range (by omega) hsize
  have hw1 : wrapInt (typeNode.upperBound - typeNode.lowerBound + 1) =
      typeNode.upperBound - typeNode.lowerBound + 1 := wrapInt_of_range (by omega) (by omega)
  refine ⟨by omega, by omega, ?_, fun i h1 h2 => ⟨wrapInt_of_range (by omega) (by omega),
    by omega, by omega⟩, by decide!, by decide!, by decide, by decide, by decide⟩
  unfold genArrayType
  rw [hw, hw1]
  congr 1
  omega

/-- Witness of C39: the declaration `Y: array [-5 .. 5] of integer` in the state after
`sampleProgram`. -/
theorem C39_adjusted_index_witness :
    genArrayType ⟨.INTEGER, -5, 5⟩ = .array (.integer 32) 11 ∧
    ∀ i : Int, -5 ≤ i → i ≤ 5 → wrapInt (i - -5) = i - -5 ∧ 0 ≤ i - -5 ∧ i - -5 < 5 - -5 + 1 :=
  ⟨(C39_adjusted_index sampleContext true "Y" false ⟨.INTEGER, -5, 5⟩ (by decide!)
    (by decide)).2.2.1,
    (C39_adjusted_index sampleContext true "Y" false ⟨.INTEGER, -5, 5⟩ (by decide!)
      (by decide)).2.2.2.1⟩
/-! ## Where the locals are allocated -/

theorem storeArguments_code (func : Nat) :
    ∀ (types : List LType) (names : List String) (paramNodes : List VarDecl) (i : Nat)
      (g g' : GenContext),
      (storeArguments func i types names paramNodes).run g = (.ok (), g') →
      g'.code = g.code ++
        parameterSlots g.insertBlock func i g.code.length types names paramNodes ∧
      g'.insertBlock = g.insertBlock ∧ g'.blocks = g.blocks ∧
      g'.functions = g.functions := by
  intro types
  induction types with
  | nil =>
    intro names paramNodes i g g' h
    unfold storeArguments at h
    cases h
    simp [parameterSlots]
  | cons type types ih =>
    intro names paramNodes i g g' h
    cases names with
    | nil =>
      unfold storeArguments at h
      cases h
      simp [parameterSlots]
    | cons name names =>
      cases paramNodes with
      | nil =>
        unfold storeArguments at h
        cases h
        simp [parameterSlots]
      | cons param paramNodes =>
        unfold storeArguments at h
        simp only [CreateAlloca, CreateStore] at h
        rw [GenM.bind_ok (insert_run _ _ _ _ _), GenM.bind_ok (insert_run _ _ _ _ _)] at h
        obtain ⟨_, g1, h1, h2⟩ := GenM.bind_ok_inv h
        have hg1 : g1 = ((g.emit (.alloca type) [] (.pointer type) name).emit .store
            [.argument func i type, .instruction g.code.length (.pointer type)] .void
            "").setSymbolTable ((name, ⟨name, .primitive param.typeNode,
              .allocaInst (.instruction g.code.length (.pointer type)), false⟩) ::
              g.symbolTable) := by
          unfold addSymbol GenM.run at h1
          dsimp only at h1
          split at h1
          · cases h1
          · cases h1
            rfl
        obtain ⟨c1, c2, c3, c4⟩ := ih names paramNodes (i + 1) g1 g' h2
        subst hg1
        refine ⟨?_, c2, c3, c4⟩
        rw [c1]
        simp [parameterSlots]

theorem functionAt_inv {g g' : GenContext} {func : Nat} {f : Function}
    (h : (functionAt func).run g = (.ok f, g')) : g.functions[func]? = some f ∧ g' = g := by
  unfold functionAt GenM.run at h
  dsimp only at h
  split at h
  · rename_i f' hf
    cases h
    exact ⟨hf, rfl⟩
  · cases h

theorem enterFunction_inv {g g' : GenContext} {func : Nat} {paramNodes : List VarDecl}
    (h : (enterFunction func paramNodes).run g = (.ok (), g')) :
    ∃ callee, g.functions[func]? = some callee ∧
      g'.blocks = g.blocks ++ [⟨"entry", some func⟩] ∧
      g'.insertBlock = some g.blocks.length ∧
      g'.code = g.code ++ parameterSlots (some g.blocks.length) func 0 g.code.length
        callee.paramTypes (argumentNames ["entry"] 0 (paramNodes.map VarDecl.declName))
        paramNodes := by
  unfold enterFunction at h
  rw [GenM.bind_ok (createBlock_run _ _ _), GenM.bind_ok (setInsertPoint_run _ _)] at h
  obtain ⟨callee, g1, h1, h2⟩ := GenM.bind_ok_inv h
  obtain ⟨hf, rfl⟩ := functionAt_inv h1
  have h3 : (setArgumentNames func
      (argumentNames ["entry"] 0 (paramNodes.map VarDecl.declName))).run
      ((g.addBlock "entry" (some func)).setInsertBlock g.blocks.length) =
      (.ok (), ((g.addBlock "entry" (some func)).setInsertBlock
        g.blocks.length).setArgumentNames func
        (argumentNames ["entry"] 0 (paramNodes.map VarDecl.declName))) := rfl
  rw [GenM.bind_ok h3] at h2
  obtain ⟨c1, c2, c3, _⟩ := storeArguments_code func _ _ _ _ _ _ h2
  exact ⟨callee, hf, c3, c2, c1⟩

theorem createReturnSlot_inv {g g' : GenContext} {declName : String}
    {retTypeNode : PrimitiveType} {slot : Value}
    (h : (createReturnSlot declName retTypeNode).run g = (.ok slot, g')) :
    ∃ defaultV,
      (getDefaultValueForType (genPrimitiveType retTypeNode)).run g = (.ok defaultV, g) ∧
      slot = .instruction g.code.length (.pointer (genPrimitiveType retTypeNode)) ∧
      g' = ((g.emit (.alloca (genPrimitiveType retTypeNode)) []
        (.pointer (genPrimitiveType retTypeNode)) declName).emit .store
        [defaultV, slot] .void "").setSymbolTable
        ((declName, ⟨declName, .primitive retTypeNode, .allocaInst slot, false⟩) ::
          g.symbolTable) := by
  unfold createReturnSlot at h
  simp only [CreateAlloca, CreateStore] at h
  rw [GenM.bind_ok (insert_run _ _ _ _ _)] at h
  cases retTypeNode <;>
  · simp only [genPrimitiveType, getDefaultValueForType] at h ⊢
    rw [GenM.bind_ok (GenM.pure_run _ _), GenM.bind_ok (insert_run _ _ _ _ _)] at h
    obtain ⟨_, g1, h1, h2⟩ := GenM.bind_ok_inv h
    cases h2
    unfold addSymbol GenM.run at h1
    dsimp only at h1
    split at h1
    · cases h1
    · cases h1
      exact ⟨_, rfl, rfl, rfl⟩

theorem initArray_grows {arrayType elementType : LType} {n : Nat}
    (harr : arrayType = .array elementType n) (store zeroIndex defaultV : Value)
    (hstore : store.isConstant = false) :
    ∀ (count i : Nat) (g : GenContext), ∃ g' rest,
      (initArray arrayType store zeroIndex defaultV count i).run g = (.ok (), g') ∧
      g'.code = g.code ++ rest ∧ g'.symbolTable = g.symbolTable ∧
      g'.insertBlock = g.insertBlock ∧ g'.blocks = g.blocks ∧ g'.globals = g.globals := by
  subst harr
  intro count
  induction count with
  | zero => intro i g; exact ⟨g, [], rfl, by simp, rfl, rfl, rfl, rfl⟩
  | succ count ih =>
    intro i g
    obtain ⟨g', rest, h1, h2, h3, h4, h5, h6⟩ := ih (i + 1)
      ((g.emit (.getelementptr (.array elementType n))
          [store, zeroIndex, .constantInt (.integer 32) i] (.pointer elementType) "").emit
        .store [defaultV, .instruction g.code.length (.pointer elementType)] .void "")
    refine ⟨g', [(g.insertBlock, ⟨g.code.length, .getelementptr (.array elementType n),
        [store, zeroIndex, .constantInt (.integer 32) i], .pointer elementType, ""⟩),
      (g.insertBlock, ⟨g.code.length + 1, .store,
        [defaultV, .instruction g.code.length (.pointer elementType)], .void, ""⟩)] ++ rest,
      ?_, ?_, by rw [h3]; rfl, by rw [h4]; rfl, by rw [h5]; rfl, by rw [h6]; rfl⟩
    · unfold initArray
      simp only [CreateGEP, hstore, Bool.false_and, Bool.false_eq_true, if_false, CreateStore,
        GenM.bind_run, insert_run]
      exact h1
    · rw [h2]
      simp only [emit_code, List.append_assoc, List.cons_append, List.nil_append,
        emit_insertBlock, List.length_append, List.length_singleton]

theorem initArray_code {arrayType elementType : LType} {n : Nat}
    (harr : arrayType = .array elementType n) (store zeroIndex defaultV : Value)
    (hstore : store.isConstant = false) (count i : Nat) (g : GenContext) :
    ∃ g' rest,
      (initArray arrayType store zeroIndex defaultV (count + 1) i).run g = (.ok (), g') ∧
      g'.code = g.code ++
        (g.insertBlock, ⟨g.code.length, .getelementptr arrayType,
          [store, zeroIndex, .constantInt (.integer 32) i], .pointer elementType, ""⟩) ::
        (g.insertBlock, ⟨g.code.length + 1, .store,
          [defaultV, .instruction g.code.length (.pointer elementType)], .void, ""⟩) ::
        rest ∧
      g'.symbolTable = g.symbolTable ∧ g'.insertBlock = g.insertBlock ∧
      g'.blocks = g.blocks ∧ g'.globals = g.globals := by
  obtain ⟨g', rest, h1, h2, h3, h4, h5, h6⟩ := initArray_grows harr store zeroIndex defaultV
    hstore count (i + 1)
    ((g.emit (.getelementptr arrayType)
        [store, zeroIndex, .constantInt (.integer 32) i] (.pointer elementType) "").emit
      .store [defaultV, .instruction g.code.length (.pointer elementType)] .void "")
  subst harr
  refine ⟨g', rest, ?_, ?_, by rw [h3]; rfl, by rw [h4]; rfl, by rw [h5]; rfl,
    by rw [h6]; rfl⟩
  · unfold initArray
    simp only [CreateGEP, hstore, Bool.false_and, Bool.false_eq_true, if_false, CreateStore,
      GenM.bind_run, insert_run]
    exact h1
  · rw [h2]
    simp only [emit_code, List.append_assoc, List.cons_append, List.nil_append,
      emit_insertBlock, List.length_append, List.length_singleton]

theorem GenM.bind_assoc_run {α β γ : Type} (m : GenM α) (f : α → GenM β) (h : β → GenM γ)
    (g : GenContext) : ((m >>= f) >>= h).run g = (m >>= fun a => f a >>= h).run g := by
  simp only [GenM.bind_run]
  rcases m.run g with ⟨r, g1⟩
  cases r <;> rfl

theorem GenM.bind_congr_run {α β : Type} {m m' : GenM α} {f : α → GenM β} {g g' : GenContext}
    (h : m.run g = m'.run g') : (m >>= f).run g = (m' >>= f).run g' := by
  rw [GenM.bind_run, GenM.bind_run, h]

theorem visitStmt_Block_run (w : Wiring) (setGlobal : Bool) (statementNodes : List Stmt)
    {g : GenContext} {b f : Nat} {block : BasicBlock}
    (hb : g.insertBlock = some b) (hblock : g.blocks[b]? = some block)
    (hf : block.parent = some f) :
    (visitStmt w setGlobal (.Block false statementNodes)).run g =
      (visitStmts w false statementNodes >>= fun _ => setSymbolTable g.symbolTable).run
        (((g.addBlock "block" (some f)).emit (.br g.blocks.length) [] .void
          "").setInsertBlock g.blocks.length) := by
  rw [visitStmt_Block]
  simp only [Bool.false_eq_true, if_false]
  rw [GenM.bind_ok (getInsertBlockParent_run hb hblock), hf]
  simp only [Option.isNone_some, Bool.false_eq_true, if_false, CreateBr]
  rw [GenM.bind_ok (createBlock_run _ _ _), GenM.bind_ok (insert_run _ _ _ _ _),
    GenM.bind_ok (setInsertPoint_run _ _), GenM.bind_ok (GenM.get_run _)]
  rfl

/-- C37, counterexample. In the lowering of
`program t; function f(a: integer): integer; var b: integer; X: array [0 .. 1] of integer;
const c = 5; begin f := a + b end; begin end.` the function `f` has the blocks 1 (`entry`)
and 2 (`block`). The block `entry` holds the slots of the parameter `a` and of the result
and ends with the branch to `block`; the stack allocations of `b`, `X` and `c` are the
instructions 5, 7 and 12, all in `block`, and the allocation of `X` is followed by a
`getelementptr`, that of `c` by the store of 5. -/
theorem C37_counterexample :
    ((parseSource 100 ("program t; function f(a: integer): integer; var b: integer; " ++
        "X: array [0 .. 1] of integer; const c = 5; begin f := a + b end; " ++
        "begin end.").toList).map
      fun p => ((generate p).1, (generate p).2.blocksOf 7,
        (generate p).2.blocks.map BasicBlock.name)) =
      .ok (.ok (), [1, 2], ["entry", "entry", "block"]) ∧
    ((parseSource 100 ("program t; function f(a: integer): integer; var b: integer; " ++
        "X: array [0 .. 1] of integer; const c = 5; begin f := a + b end; " ++
        "begin end.").toList).map
      fun p => ((generate p).2.instructionsOf 1).map
        fun i => (i.id, i.opcode, i.name)) =
      .ok [(0, .alloca (.integer 32), "a"), (1, .store, ""), (2, .alloca (.integer 32), "f"),
        (3, .store, ""), (4, .br 2, "")] ∧
    ((parseSource 100 ("program t; function f(a: integer): integer; var b: integer; " ++
        "X: array [0 .. 1] of integer; const c = 5; begin f := a + b end; " ++
        "begin end.").toList).map
      fun p => (((generate p).2.instructionsOf 2).take 9).map
        fun i => (i.id, i.opcode, i.operands.head?, i.name)) =
      .ok [(5, .alloca (.integer 32), none, "b"),
        (6, .store, some (.constantInt (.integer 32) 0), ""),
        (7, .alloca (.array (.integer 32) 2), none, "X"),
        (8, .getelementptr (.array (.integer 32) 2),
          some (.instruction 7 (.pointer (.array (.integer 32) 2))), ""),
        (9, .store, some (.constantInt (.integer 32) 0), ""),
        (10, .getelementptr (.array (.integer 32) 2),
          some (.instruction 7 (.pointer (.array (.integer 32) 2))), ""),
        (11, .store, some (.constantInt (.integer 32) 0), ""),
        (12, .alloca (.integer 32), none, "c"),
        (13, .store, some (.constantInt (.integer 32) 5), "")] := by
  refine ⟨by decide!, by decide!, by decide!⟩

/-- C37, amended. The locals of a body are allocated behind the block `entry`. Let the
declaration of the function be accepted (`hdecl`), its entry be emitted (`henter`) and the
variable of its result be created (`hslot`). The block `entry` is created and takes, in
this order, for each parameter a stack allocation and the store of the argument, then the
stack allocation of the result and the store of the zero of its type. The body, a `Block`
node, is lowered like every block that is not the main block: a block `block` is created,
`entry` branches to it, and the statements of the body, its declarations among them, are
lowered at the insertion point in `block`. There a variable is lowered to a stack
allocation and the store of zero, a constant to a stack allocation and the store of its
value, an array to a stack allocation followed by a `getelementptr` and the store of zero
for each element, all at the insertion point. The same holds for a procedure, which has no
variable of the result. -/
theorem C37_locals_behind_entry (w : Wiring) (setGlobal : Bool) (g g0 g1 g2 : GenContext)
    (declName : String) (isForward : Bool) (paramNodes : List VarDecl)
    (statementNodes : List Stmt) (retTypeNode : PrimitiveType) (func : Nat) (slot : Value)
    (hdecl : (declareFunction "Function" declName paramNodes true (some retTypeNode)).run g =
      (.ok (some func), g0))
    (henter : (enterFunction func paramNodes).run g0 = (.ok (), g1))
    (hslot : (createReturnSlot declName retTypeNode).run g1 = (.ok slot, g2)) :
    (g1.blocks = g0.blocks ++ [⟨"entry", some func⟩] ∧
      g1.insertBlock = some g0.blocks.length ∧
      ∃ callee, g0.functions[func]? = some callee ∧
        g1.code = g0.code ++ parameterSlots (some g0.blocks.length) func 0 g0.code.length
          callee.paramTypes (argumentNames ["entry"] 0 (paramNodes.map VarDecl.declName))
          paramNodes) ∧
    (∃ defaultV,
      (getDefaultValueForType (genPrimitiveType retTypeNode)).run g1 = (.ok defaultV, g1) ∧
      slot = .instruction g1.code.length (.pointer (genPrimitiveType retTypeNode)) ∧
      g2.code = g1.code ++
        [(some g0.blocks.length, ⟨g1.code.length, .alloca (genPrimitiveType retTypeNode), [],
            .pointer (genPrimitiveType retTypeNode), declName⟩),
          (some g0.blocks.length, ⟨g1.code.length + 1, .store, [defaultV, slot], .void,
            ""⟩)] ∧
      g2.blocks = g1.blocks ∧ g2.insertBlock = g1.insertBlock) ∧
    (visitStmt w setGlobal (.FunDecl declName isForward paramNodes
        (some (.Block false statementNodes)) retTypeNode)).run g =
      (do
        visitStmts { w with retV := .loadReturnV (genPrimitiveType retTypeNode) slot declName }
          false statementNodes
        setSymbolTable g2.symbolTable
        let loadedReturnV ← CreateLoad (genPrimitiveType retTypeNode) slot declName
        let _ ← CreateRet loadedReturnV
        SetInsertPoint g0.insertBlock
        setSymbolTable g0.symbolTable).run
        (((g2.addBlock "block" (some func)).emit (.br (g0.blocks.length + 1)) [] .void
          "").setInsertBlock (g0.blocks.length + 1)) ∧
    (∀ gp0 gp1 proc,
      (declareFunction "Procedure" declName paramNodes true none).run g = (.ok (some proc), gp0) →
      (enterFunction proc paramNodes).run gp0 = (.ok (), gp1) →
      (visitStmt w setGlobal (.ProcDecl declName isForward paramNodes
          (some (.Block false statementNodes)))).run g =
        (do
          visitStmts { w with retV := .monostate } false statementNodes
          setSymbolTable gp1.symbolTable
          let _ ← CreateRetVoid
          SetInsertPoint gp0.insertBlock
          setSymbolTable gp0.symbolTable).run
          (((gp1.addBlock "block" (some proc)).emit (.br (gp0.blocks.length + 1)) [] .void
            "").setInsertBlock (gp0.blocks.length + 1))) ∧
    (∀ (gb : GenContext) (name : String) (typeNode : PrimitiveType),
      gb.symbolTable.contains name = false →
      ∃ defaultV,
        (getDefaultValueForType (genPrimitiveType typeNode)).run gb = (.ok defaultV, gb) ∧
        (visitStmt w false (.VarDeclStmt ⟨name, false, typeNode⟩)).run gb =
          (.ok (), ((gb.emit (.alloca (genPrimitiveType typeNode)) []
            (.pointer (genPrimitiveType typeNode)) name).emit .store
            [defaultV, .instruction gb.code.length (.pointer (genPrimitiveType typeNode))]
            .void "").setSymbolTable
            ((name, ⟨name, .primitive typeNode, .allocaInst
              (.instruction gb.code.length (.pointer (genPrimitiveType typeNode))), false⟩) ::
              gb.symbolTable))) ∧
    (∀ (gb gb1 : GenContext) (name : String) (exprNode : Expr) (exprV : Value)
      (typeNode : Option PrimitiveType),
      gb.symbolTable.contains name = false →
      (visitExpr exprNode).run gb = (.ok (some exprV), gb1) →
      (exprV.getType.isDoubleTy = true ∨ exprV.getType.isIntegerTy = true) →
      (visitStmt w false (.ConstDef name false exprNode typeNode)).run gb =
        (.ok (), ((gb1.emit (.alloca exprV.getType) [] (.pointer exprV.getType) name).emit
          .store [exprV, .instruction gb1.code.length (.pointer exprV.getType)] .void
          "").setSymbolTable
          ((name, ⟨name, .primitive (if exprV.getType.isDoubleTy then .REAL else .INTEGER),
            .allocaInst (.instruction gb1.code.length (.pointer exprV.getType)), true⟩) ::
            gb.symbolTable))) ∧
    (∀ (gb : GenContext) (name : String) (typeNode : ArrayType),
      gb.symbolTable.contains name = false →
      typeNode.lowerBound < typeNode.upperBound →
      typeNode.upperBound - typeNode.lowerBound ≤ 1000 →
      ∃ gb' defaultV rest,
        (visitStmt w false (.ArrayDecl name false typeNode)).run gb = (.ok (), gb') ∧
        (getDefaultValueForType (genPrimitiveType typeNode.elemTypeNode)).run gb =
          (.ok defaultV, gb) ∧
        gb'.code = gb.code ++
          (gb.insertBlock, ⟨gb.code.length, .alloca (genArrayType typeNode), [],
            .pointer (genArrayType typeNode), name⟩) ::
          (gb.insertBlock, ⟨gb.code.length + 1, .getelementptr (genArrayType typeNode),
            [.instruction gb.code.length (.pointer (genArrayType typeNode)),
              .constantInt (.integer 32) 0, .constantInt (.integer 32) 0],
            .pointer (genPrimitiveType typeNode.elemTypeNode), ""⟩) ::
          (gb.insertBlock, ⟨gb.code.length + 2, .store,
            [defaultV, .instruction (gb.code.length + 1)
              (.pointer (genPrimitiveType typeNode.elemTypeNode))], .void, ""⟩) :: rest) := by
  obtain ⟨callee, e1, e2, e3, e4⟩ := enterFunction_inv henter
  obtain ⟨defaultV, s1, s2, s3⟩ := createReturnSlot_inv hslot
  have hb2 : g2.insertBlock = some g0.blocks.length := by rw [s3]; exact e3
  have hk2 : g2.blocks[g0.blocks.length]? = some ⟨"entry", some func⟩ := by
    rw [s3]
    simp [e2]
  have hl2 : g2.blocks.length = g0.blocks.length + 1 := by
    rw [s3]
    simp [e2]
  refine ⟨⟨e2, e3, callee, e1, e4⟩, ⟨defaultV, s1, s2, ?_, ?_, ?_⟩, ?_, ?_, ?_, ?_, ?_⟩
  · rw [s3]
    simp [e3, s2]
  · rw [s3]; rfl
  · rw [s3]; rfl
  · rw [visitStmt_FunDecl]
    simp only [Option.isSome]
    rw [GenM.bind_ok hdecl]
    dsimp only
    rw [GenM.bind_ok (getInsertBlock_run _), GenM.bind_ok (GenM.get_run _),
      GenM.bind_ok henter, GenM.bind_ok hslot]
    rw [GenM.bind_congr_run (visitStmt_Block_run _ false statementNodes hb2 hk2 rfl)]
    rw [GenM.bind_assoc_run, hl2]
  · intro gp0 gp1 proc hpdecl hpenter
    obtain ⟨pcallee, p1, p2, p3, p4⟩ := enterFunction_inv hpenter
    have hkp : gp1.blocks[gp0.blocks.length]? = some ⟨"entry", some proc⟩ := by
      simp [p2]
    have hlp : gp1.blocks.length = gp0.blocks.length + 1 := by
      simp [p2]
    rw [visitStmt_ProcDecl]
    simp only [Option.isSome]
    rw [GenM.bind_ok hpdecl]
    dsimp only
    rw [GenM.bind_ok (getInsertBlock_run _), GenM.bind_ok (GenM.get_run _),
      GenM.bind_ok hpenter]
    rw [GenM.bind_congr_run (visitStmt_Block_run _ false statementNodes p3 hkp rfl)]
    rw [GenM.bind_assoc_run, hlp]
  · intro gb name typeNode hfree
    cases typeNode <;>
    · refine ⟨_, rfl, ?_⟩
      rw [visitStmt_VarDeclStmt]
      unfold visitVarDecl
      rw [GenM.bind_ok (GenM.get_run _)]
      simp only [hfree, Bool.false_eq_true, if_false, isGlobal, Bool.or_self, genPrimitiveType,
        getDefaultValueForType, CreateAlloca, CreateStore]
      rw [GenM.bind_ok (GenM.pure_run _ _), GenM.bind_ok (insert_run _ _ _ _ _),
        GenM.bind_ok (insert_run _ _ _ _ _)]
      exact addSymbol_run _ hfree
  · intro gb gb1 name exprNode exprV typeNode hfree hexpr htype
    have hsame : gb1.symbolTable = gb.symbolTable := by
      have := (keeps_visitExpr sameSymbols_stable exprNode).after gb
      rw [hexpr] at this
      exact this
    rw [visitStmt_ConstDef]
    unfold visitConstDef
    rw [GenM.bind_ok (GenM.get_run _)]
    simp only [hfree, Bool.false_eq_true, if_false]
    rw [GenM.bind_ok hexpr]
    simp only [isGlobal, Bool.or_self, Bool.false_eq_true, if_false, CreateAlloca, CreateStore]
    have hfree1 : gb1.symbolTable.contains name = false := by rw [hsame]; exact hfree
    by_cases hd : exprV.getType.isDoubleTy = true
    · simp only [hd, if_true]
      rw [GenM.bind_ok (GenM.pure_run _ _), GenM.bind_ok (insert_run _ _ _ _ _),
        GenM.bind_ok (insert_run _ _ _ _ _), ← hsame]
      exact addSymbol_run _ hfree1
    · have hi : exprV.getType.isIntegerTy = true := by
        rcases htype with h | h
        · exact absurd h hd
        · exact h
      simp only [hd, hi, if_true, if_false, Bool.false_eq_true]
      rw [GenM.bind_ok (GenM.pure_run _ _), GenM.bind_ok (insert_run _ _ _ _ _),
        GenM.bind_ok (insert_run _ _ _ _ _), ← hsame]
      exact addSymbol_run _ hfree1
  · intro gb name typeNode hfree hlo hhi
    have hw : wrapInt (typeNode.upperBound - typeNode.lowerBound) =
        typeNode.upperBound - typeNode.lowerBound := wrapInt_of_range (by omega) (by omega)
    have hw1 : wrapInt (typeNode.upperBound - typeNode.lowerBound + 1) =
        typeNode.upperBound - typeNode.lowerBound + 1 := wrapInt_of_range (by omega) (by omega)
    obtain ⟨count, hcount⟩ : ∃ count : Nat,
        ((typeNode.upperBound - typeNode.lowerBound + 1) % 4294967296).toNat = count + 1 :=
      ⟨((typeNode.upperBound - typeNode.lowerBound + 1) % 4294967296).toNat - 1, by omega⟩
    obtain ⟨defaultV, hdef⟩ : ∃ defaultV, ∀ g : GenContext,
        (getDefaultValueForType (genPrimitiveType typeNode.elemTypeNode)).run g =
          (.ok defaultV, g) := by
      cases typeNode.elemTypeNode
      · exact ⟨_, fun _ => rfl⟩
      · exact ⟨_, fun _ => rfl⟩
    obtain ⟨gb', rest, r1, r2, r3, r4, r5, r6⟩ := initArray_code
      (show genArrayType typeNode = .array (genPrimitiveType typeNode.elemTypeNode) _ from rfl)
      (.instruction gb.code.length (.pointer (genArrayType typeNode)))
      (.constantInt (.integer 32) 0) defaultV rfl count 0
      (gb.emit (.alloca (genArrayType typeNode)) [] (.pointer (genArrayType typeNode)) name)
    have hfree' : gb'.symbolTable.contains name = false := by rw [r3]; exact hfree
    refine ⟨gb'.setSymbolTable ((name, ⟨name, .array typeNode, .allocaInst
      (.instruction gb.code.length (.pointer (genArrayType typeNode))), false⟩) ::
      gb'.symbolTable), defaultV, rest, ?_, hdef gb, ?_⟩
    · rw [visitStmt_ArrayDecl]
      unfold visitArrayDecl
      rw [GenM.bind_ok (GenM.get_run _)]
      simp only [hfree, Bool.false_eq_true, if_false, hw, hw1, isGlobal, Bool.or_self,
        CreateAlloca, show ¬(typeNode.lowerBound > typeNode.upperBound) from by omega,
        show ¬(typeNode.upperBound - typeNode.lowerBound > 1000) from by omega,
        show ¬(typeNode.upperBound = typeNode.lowerBound) from by omega]
      rw [GenM.bind_ok (insert_run _ _ _ _ _)]
      have hel : (getArrayElementType (genArrayType typeNode)).run
          (gb.emit (.alloca (genArrayType typeNode)) [] (.pointer (genArrayType typeNode))
            name) = (.ok (genPrimitiveType typeNode.elemTypeNode), _) := rfl
      rw [GenM.bind_ok hel, GenM.bind_ok (hdef _), hcount, GenM.bind_ok r1]
      exact addSymbol_run _ hfree'
    · rw [setSymbolTable_code, r2]
      simp

/-- Witness of C37: the function `f(a: integer): integer` declared in the state after
`sampleProgram`: its block `entry` is block 1, where the slot of `a` and the slot of the
result are allocated; the body starts in block 2. -/
theorem C37_locals_behind_entry_witness :
    ((enterFunction 7 [⟨"a", false, .INTEGER⟩]).run
      ((declareFunction "Function" "f" [⟨"a", false, .INTEGER⟩] true
        (some .INTEGER)).run sampleContext).2).2.insertBlock = some 1 ∧
    (visitStmt Wiring.initial false (.FunDecl "f" false [⟨"a", false, .INTEGER⟩]
        (some (.Block false [.VarDeclStmt ⟨"b", false, .INTEGER⟩])) .INTEGER)).run
        sampleContext =
      (do
        visitStmts { Wiring.initial with
            retV := .loadReturnV (genPrimitiveType .INTEGER)
              (.instruction 4 (.pointer (.integer 32))) "f" }
          false [.VarDeclStmt ⟨"b", false, .INTEGER⟩]
        setSymbolTable ((createReturnSlot "f" .INTEGER).run
          ((enterFunction 7 [⟨"a", false, .INTEGER⟩]).run
            ((declareFunction "Function" "f" [⟨"a", false, .INTEGER⟩] true
              (some .INTEGER)).run sampleContext).2).2).2.symbolTable
        let loadedReturnV ← CreateLoad (genPrimitiveType .INTEGER)
          (.instruction 4 (.pointer (.integer 32))) "f"
        let _ ← CreateRet loadedReturnV
        SetInsertPoint ((declareFunction "Function" "f" [⟨"a", false, .INTEGER⟩] true
          (some .INTEGER)).run sampleContext).2.insertBlock
        setSymbolTable ((declareFunction "Function" "f" [⟨"a", false, .INTEGER⟩] true
          (some .INTEGER)).run sampleContext).2.symbolTable).run
        (((((createReturnSlot "f" .INTEGER).run
          ((enterFunction 7 [⟨"a", false, .INTEGER⟩]).run
            ((declareFunction "Function" "f" [⟨"a", false, .INTEGER⟩] true
              (some .INTEGER)).run sampleContext).2).2).2.addBlock "block" (some 7)).emit
          (.br (((declareFunction "Function" "f" [⟨"a", false, .INTEGER⟩] true
            (some .INTEGER)).run sampleContext).2.blocks.length + 1)) [] .void
          "").setInsertBlock (((declareFunction "Function" "f" [⟨"a", false, .INTEGER⟩] true
            (some .INTEGER)).run sampleContext).2.blocks.length + 1)) :=
  ⟨(C37_locals_behind_entry Wiring.initial false sampleContext _ _ _ "f" false
      [⟨"a", false, .INTEGER⟩] [.VarDeclStmt ⟨"b", false, .INTEGER⟩] .INTEGER 7
      (.instruction 4 (.pointer (.integer 32)))
      (Prod.ext (by decide!) rfl) (Prod.ext (by decide!) rfl)
      (Prod.ext (by decide!) rfl)).1.2.1.trans (by decide!),
    (C37_locals_behind_entry Wiring.initial false sampleContext _ _ _ "f" false
      [⟨"a", false, .INTEGER⟩] [.VarDeclStmt ⟨"b", false, .INTEGER⟩] .INTEGER 7
      (.instruction 4 (.pointer (.integer 32)))
      (Prod.ext (by decide!) rfl) (Prod.ext (by decide!) rfl)
      (Prod.ext (by decide!) rfl)).2.2.1⟩
/-! ## The trees that the parser builds -/

theorem Yields.next {α β : Type} {Q1 : α → Prop} {Q : β → Prop}
    {r : Except FrontError (α × Lexer)} {k : α × Lexer → Except FrontError (β × Lexer)}
    (h : Yields Q1 r) (hk : ∀ x, Q1 x.1 → Yields Q (k x)) : Yields Q (r >>= k) := by
  cases r with
  | error e => exact trivial
  | ok x => exact hk x h

theorem Yields.any {α : Type} (r : Except FrontError (α × Lexer)) :
    Yields (fun _ => True) r := by
  cases r with
  | error e => exact trivial
  | ok x => exact trivial

theorem Yields.value {α : Type} {Q : α → Prop} (a : α) (l : Lexer) (h : Q a) :
    Yields Q (pure (a, l) : Except FrontError (α × Lexer)) := h

theorem Yields.failed {α : Type} {Q : α → Prop} (e : FrontError) :
    Yields Q (.error e : Except FrontError (α × Lexer)) := trivial

theorem unflaggedList_append (a b : List Stmt) :
    unflaggedList (a ++ b) = (unflaggedList a && unflaggedList b) := by
  induction a with
  | nil => simp [unflaggedList]
  | cons s rest ih =>
    rw [List.cons_append, unflaggedList, unflaggedList, ih, Bool.and_assoc]

theorem unflaggedList_single {s : Stmt} (h : s.unflagged = true) :
    unflaggedList [s] = true := by
  rw [unflaggedList, unflaggedList, h]
  rfl

theorem unflaggedList_snoc {a : List Stmt} {s : Stmt} (ha : unflaggedList a = true)
    (h : s.unflagged = true) : unflaggedList (a ++ [s]) = true := by
  rw [unflaggedList_append, ha, unflaggedList_single h]
  rfl

theorem unflaggedList_decls {a : List Stmt} (ha : unflaggedList a = true) (t : TypeNode)
    (idents : List String) :
    unflaggedList (a ++ idents.map t.createDeclNode) = true := by
  rw [unflaggedList_append, ha, Bool.true_and]
  induction idents with
  | nil => rfl
  | cons i rest ih =>
    rw [List.map_cons, unflaggedList, ih, Bool.and_true]
    cases t <;> rfl

theorem unflagged_Block_intro {statementNodes : List Stmt}
    (h : unflaggedList statementNodes = true) :
    (Stmt.Block false statementNodes).unflagged = true := by
  have e : (Stmt.Block false statementNodes).unflagged =
      (!false && unflaggedList statementNodes) := rfl
  rw [e, h]
  rfl

theorem unflagged_If_intro {condNode : Expr} {bodyNode : Stmt} {optElseBodyNode : Option Stmt}
    (h : bodyNode.unflagged = true)
    (he : ∀ s, optElseBodyNode = some s → s.unflagged = true) :
    (Stmt.If condNode bodyNode optElseBodyNode).unflagged = true := by
  cases optElseBodyNode with
  | none =>
    have e : (Stmt.If condNode bodyNode none).unflagged = (bodyNode.unflagged && true) := rfl
    rw [e, h]
    rfl
  | some elseBodyNode =>
    have e : (Stmt.If condNode bodyNode (some elseBodyNode)).unflagged =
        (bodyNode.unflagged && elseBodyNode.unflagged) := rfl
    rw [e, h, he _ rfl]
    rfl

theorem unflagged_For_intro {initNode : Stmt} {toNode : Expr} {bodyNode : Stmt}
    {increasing : Bool} (hi : initNode.unflagged = true) (h : bodyNode.unflagged = true) :
    (Stmt.For initNode toNode bodyNode increasing).unflagged = true := by
  have e : (Stmt.For initNode toNode bodyNode increasing).unflagged =
      (initNode.unflagged && bodyNode.unflagged) := rfl
  rw [e, hi, h]
  rfl

theorem unflagged_ProcDecl_intro {declName : String} {paramNodes : List VarDecl}
    {optBlockNode : Option Stmt} (h : ∀ s, optBlockNode = some s → s.unflagged = true) :
    (Stmt.ProcDecl declName false paramNodes optBlockNode).unflagged = true := by
  cases optBlockNode with
  | none => rfl
  | some blockNode =>
    have e : (Stmt.ProcDecl declName false paramNodes (some blockNode)).unflagged =
        (!false && blockNode.unflagged) := rfl
    rw [e, h _ rfl]
    rfl

theorem unflagged_FunDecl_intro {declName : String} {paramNodes : List VarDecl}
    {optBlockNode : Option Stmt} {retTypeNode : PrimitiveType}
    (h : ∀ s, optBlockNode = some s → s.unflagged = true) :
    (Stmt.FunDecl declName false paramNodes optBlockNode retTypeNode).unflagged = true := by
  cases optBlockNode with
  | none => rfl
  | some blockNode =>
    have e : (Stmt.FunDecl declName false paramNodes (some blockNode) retTypeNode).unflagged =
        (!false && blockNode.unflagged) := rfl
    rw [e, h _ rfl]
    rfl

theorem built_parseEmptyStatement (l : Lexer) :
    Yields (fun s => s.unflagged = true) (parseEmptyStatement l) := by
  unfold parseEmptyStatement
  split <;> first
    | exact Yields.value _ _ rfl
    | exact Yields.failed _

theorem built_parseSimpleStatementIdentifierContinuation (n : Nat) :
    ∀ (identifier : String) (l : Lexer), Yields (fun s => s.unflagged = true)
        (parseSimpleStatementIdentifierContinuation n identifier l) := by
  intro identifier l
  unfold parseSimpleStatementIdentifierContinuation
  split
  · refine (Yields.any _).next fun x1 _ => ?_
    exact Yields.value _ _ rfl
  · refine (Yields.any _).next fun x1 _ => ?_
    refine (Yields.any _).next fun x2 _ => ?_
    refine (Yields.any _).next fun x3 _ => ?_
    rcases x1 with ⟨_ | node, l1⟩ <;> exact Yields.value _ _ rfl
  · refine (Yields.any _).next fun x1 _ => ?_
    refine (Yields.any _).next fun x2 _ => ?_
    refine (Yields.any _).next fun x3 _ => ?_
    rcases x1 with ⟨_ | node, l1⟩ <;> exact Yields.value _ _ rfl
  · exact Yields.failed _

theorem built_parseSimpleStatement (n : Nat) :
    ∀ (l : Lexer), Yields (fun s => s.unflagged = true) (parseSimpleStatement n l) := by
  intro l
  unfold parseSimpleStatement
  split
  · exact built_parseEmptyStatement _
  · exact built_parseEmptyStatement _
  · exact built_parseEmptyStatement _
  · refine (Yields.any _).next fun x1 _ => ?_
    exact Yields.value _ _ rfl
  · refine (Yields.any _).next fun x1 _ => ?_
    exact Yields.value _ _ rfl
  · refine (Yields.any _).next fun x1 _ => ?_
    exact built_parseSimpleStatementIdentifierContinuation n _ _
  · exact Yields.failed _

theorem built_statements (n : Nat) :
    (∀ (l : Lexer), Yields (fun s => s.unflagged = true) (parseStatement n l)) ∧
    (∀ (l : Lexer), Yields (fun s => s.unflagged = true) (parseComplexStatement n l)) ∧
    (∀ (l : Lexer), Yields (fun s => s.unflagged = true) (parseCompoundStatement n l)) ∧
    (∀ (statementNodes : List Stmt) (l : Lexer), unflaggedList statementNodes = true →
      Yields (fun ss => unflaggedList ss = true) (parseCompoundStatementR n statementNodes l)) ∧
    (∀ (l : Lexer), Yields (fun s => s.unflagged = true) (parseIfStatement n l)) ∧
    (∀ (l : Lexer), Yields (fun o => ∀ s, o = some s → s.unflagged = true) (parseElseStatement n
        l)) ∧
    (∀ (l : Lexer), Yields (fun s => s.unflagged = true) (parseWhileStatement n l)) ∧
    (∀ (l : Lexer), Yields (fun s => s.unflagged = true) (parseForStatement n l)) := by
  induction n with
  | zero =>
    refine ⟨?_, ?_, ?_, ?_, ?_, ?_, ?_, ?_⟩ <;> intros <;> exact Yields.failed _
  | succ n ih =>
    obtain ⟨ih_parseStatement, ih_parseComplexStatement, ih_parseCompoundStatement,
        ih_parseCompoundStatementR, ih_parseIfStatement, ih_parseElseStatement,
        ih_parseWhileStatement, ih_parseForStatement⟩ := ih
    refine ⟨?_, ?_, ?_, ?_, ?_, ?_, ?_, ?_⟩
    · intro l
      rw [parseStatement]
      split
      · exact built_parseSimpleStatement n _
      · exact built_parseSimpleStatement n _
      · exact built_parseSimpleStatement n _
      · exact built_parseSimpleStatement n _
      · exact built_parseSimpleStatement n _
      · exact built_parseSimpleStatement n _
      · exact ih_parseComplexStatement _
      · exact ih_parseComplexStatement _
      · exact ih_parseComplexStatement _
      · exact ih_parseComplexStatement _
      · exact Yields.failed _
    · intro l
      rw [parseComplexStatement]
      split
      · exact ih_parseCompoundStatement _
      · exact ih_parseIfStatement _
      · exact ih_parseWhileStatement _
      · exact ih_parseForStatement _
      · exact Yields.failed _
    · intro l
      rw [parseCompoundStatement]
      split
      · refine (Yields.any _).next fun x1 _ => ?_
        refine (ih_parseStatement _).next fun x2 h2 => ?_
        refine (ih_parseCompoundStatementR _ _ (unflaggedList_single h2)).next fun x3 h3 => ?_
        refine (Yields.any _).next fun x4 _ => ?_
        exact Yields.value _ _ h3
      · exact Yields.failed _
    · intro statementNodes l ha
      rw [parseCompoundStatementR]
      split
      · refine (Yields.any _).next fun x1 _ => ?_
        refine (ih_parseStatement _).next fun x2 h2 => ?_
        exact ih_parseCompoundStatementR _ _ (unflaggedList_snoc ha h2)
      · exact Yields.value _ _ ha
      · exact Yields.failed _
    · intro l
      rw [parseIfStatement]
      split
      · refine (Yields.any _).next fun x1 _ => ?_
        refine (Yields.any _).next fun x2 _ => ?_
        refine (Yields.any _).next fun x3 _ => ?_
        refine (ih_parseStatement _).next fun x4 h4 => ?_
        refine (ih_parseElseStatement _).next fun x5 h5 => ?_
        exact Yields.value _ _ (unflagged_If_intro h4 h5)
      · exact Yields.failed _
    · intro l
      rw [parseElseStatement]
      split
      · refine (Yields.any _).next fun x1 _ => ?_
        refine (ih_parseStatement _).next fun x2 h2 => ?_
        exact Yields.value _ _ (fun s hs => by cases hs; exact h2)
      · exact Yields.value _ _ (fun s hs => by cases hs)
      · exact Yields.value _ _ (fun s hs => by cases hs)
      · exact Yields.failed _
    · intro l
      rw [parseWhileStatement]
      split
      · refine (Yields.any _).next fun x1 _ => ?_
        refine (Yields.any _).next fun x2 _ => ?_
        refine (Yields.any _).next fun x3 _ => ?_
        refine (ih_parseStatement _).next fun x4 h4 => ?_
        exact Yields.value _ _ h4
      · exact Yields.failed _
    · intro l
      rw [parseForStatement]
      split
      · refine (Yields.any _).next fun x1 _ => ?_
        refine (Yields.any _).next fun x2 _ => ?_
        refine (Yields.any _).next fun x3 _ => ?_
        refine (Yields.any _).next fun x4 _ => ?_
        refine (Yields.any _).next fun x5 _ => ?_
        refine (Yields.any _).next fun x6 _ => ?_
        refine (Yields.any _).next fun x7 _ => ?_
        refine (ih_parseStatement _).next fun x8 h8 => ?_
        exact Yields.value _ _ (unflagged_For_intro rfl h8)
      · exact Yields.failed _

theorem built_parseStatement (n : Nat) :
    ∀ (l : Lexer), Yields (fun s => s.unflagged = true) (parseStatement n l) :=
  (built_statements n).1

theorem built_parseComplexStatement (n : Nat) :
    ∀ (l : Lexer), Yields (fun s => s.unflagged = true) (parseComplexStatement n l) :=
  (built_statements n).2.1

theorem built_parseCompoundStatement (n : Nat) :
    ∀ (l : Lexer), Yields (fun s => s.unflagged = true) (parseCompoundStatement n l) :=
  (built_statements n).2.2.1

theorem built_parseCompoundStatementR (n : Nat) :
    ∀ (statementNodes : List Stmt) (l : Lexer), unflaggedList statementNodes = true →
      Yields (fun ss => unflaggedList ss = true) (parseCompoundStatementR n statementNodes l) :=
  (built_statements n).2.2.2.1

theorem built_parseIfStatement (n : Nat) :
    ∀ (l : Lexer), Yields (fun s => s.unflagged = true) (parseIfStatement n l) :=
  (built_statements n).2.2.2.2.1

theorem built_parseElseStatement (n : Nat) :
    ∀ (l : Lexer), Yields (fun o => ∀ s, o = some s → s.unflagged = true) (parseElseStatement n l)
        :=
  (built_statements n).2.2.2.2.2.1

theorem built_parseWhileStatement (n : Nat) :
    ∀ (l : Lexer), Yields (fun s => s.unflagged = true) (parseWhileStatement n l) :=
  (built_statements n).2.2.2.2.2.2.1

theorem built_parseForStatement (n : Nat) :
    ∀ (l : Lexer), Yields (fun s => s.unflagged = true) (parseForStatement n l) :=
  (built_statements n).2.2.2.2.2.2.2

theorem built_parseConstantDefinition (n : Nat) :
    ∀ (statementNodes : List Stmt) (l : Lexer), unflaggedList statementNodes = true →
      Yields (fun ss => unflaggedList ss = true) (parseConstantDefinition n statementNodes l) := by
  intro statementNodes l ha
  unfold parseConstantDefinition
  split
  · refine (Yields.any _).next fun x1 _ => ?_
    refine (Yields.any _).next fun x2 _ => ?_
    refine (Yields.any _).next fun x3 _ => ?_
    refine (Yields.any _).next fun x4 _ => ?_
    exact Yields.value _ _ (unflaggedList_snoc ha rfl)
  · exact Yields.failed _

theorem built_parseConstantDefinitionListR (n : Nat) :
    ∀ (statementNodes : List Stmt) (l : Lexer), unflaggedList statementNodes = true →
      Yields (fun ss => unflaggedList ss = true) (parseConstantDefinitionListR n statementNodes l)
          := by
  induction n with
  | zero =>
    intro statementNodes l ha
    exact Yields.failed _
  | succ n ih_parseConstantDefinitionListR =>
    intro statementNodes l ha
    rw [parseConstantDefinitionListR]
    split
    · refine (built_parseConstantDefinition n _ _ ha).next fun x1 h1 => ?_
      exact ih_parseConstantDefinitionListR _ _ h1
    · exact Yields.value _ _ ha
    · exact Yields.value _ _ ha
    · exact Yields.value _ _ ha
    · exact Yields.value _ _ ha
    · exact Yields.value _ _ ha
    · exact Yields.failed _

theorem built_parseConstantDefinitionList (n : Nat) :
    ∀ (statementNodes : List Stmt) (l : Lexer), unflaggedList statementNodes = true →
      Yields (fun ss => unflaggedList ss = true) (parseConstantDefinitionList n statementNodes l)
          := by
  intro statementNodes l ha
  unfold parseConstantDefinitionList
  split
  · refine (Yields.any _).next fun x1 _ => ?_
    refine (built_parseConstantDefinition n _ _ ha).next fun x2 h2 => ?_
    exact built_parseConstantDefinitionListR n _ _ h2
  · exact Yields.failed _

theorem built_parseVariableDeclarationGroup (n : Nat) :
    ∀ (statementNodes : List Stmt) (l : Lexer), unflaggedList statementNodes = true →
      Yields (fun ss => unflaggedList ss = true) (parseVariableDeclarationGroup n statementNodes l)
          := by
  intro statementNodes l ha
  unfold parseVariableDeclarationGroup
  split
  · refine (Yields.any _).next fun x1 _ => ?_
    refine (Yields.any _).next fun x2 _ => ?_
    refine (Yields.any _).next fun x3 _ => ?_
    refine (Yields.any _).next fun x4 _ => ?_
    exact Yields.value _ _ (unflaggedList_decls ha _ _)
  · exact Yields.failed _

theorem built_parseVariableDeclarationListR (n : Nat) :
    ∀ (statementNodes : List Stmt) (l : Lexer), unflaggedList statementNodes = true →
      Yields (fun ss => unflaggedList ss = true) (parseVariableDeclarationListR n statementNodes l)
          := by
  induction n with
  | zero =>
    intro statementNodes l ha
    exact Yields.failed _
  | succ n ih_parseVariableDeclarationListR =>
    intro statementNodes l ha
    rw [parseVariableDeclarationListR]
    split
    · refine (built_parseVariableDeclarationGroup n _ _ ha).next fun x1 h1 => ?_
      exact ih_parseVariableDeclarationListR _ _ h1
    · exact Yields.value _ _ ha
    · exact Yields.value _ _ ha
    · exact Yields.value _ _ ha
    · exact Yields.value _ _ ha
    · exact Yields.value _ _ ha
    · exact Yields.failed _

theorem built_parseVariableDeclarationList (n : Nat) :
    ∀ (statementNodes : List Stmt) (l : Lexer), unflaggedList statementNodes = true →
      Yields (fun ss => unflaggedList ss = true) (parseVariableDeclarationList n statementNodes l)
          := by
  intro statementNodes l ha
  unfold parseVariableDeclarationList
  split
  · refine (Yields.any _).next fun x1 _ => ?_
    refine (built_parseVariableDeclarationGroup n _ _ ha).next fun x2 h2 => ?_
    exact built_parseVariableDeclarationListR n _ _ h2
  · exact Yields.failed _

theorem built_parseBodyDecl (n : Nat) :
    ∀ (statementNodes : List Stmt) (l : Lexer), unflaggedList statementNodes = true →
      Yields (fun ss => unflaggedList ss = true) (parseBodyDecl n statementNodes l) := by
  induction n with
  | zero =>
    intro statementNodes l ha
    exact Yields.failed _
  | succ n ih_parseBodyDecl =>
    intro statementNodes l ha
    rw [parseBodyDecl]
    split
    · refine (built_parseConstantDefinitionList n _ _ ha).next fun x1 h1 => ?_
      exact ih_parseBodyDecl _ _ h1
    · refine (built_parseVariableDeclarationList n _ _ ha).next fun x1 h1 => ?_
      exact ih_parseBodyDecl _ _ h1
    · exact Yields.value _ _ ha
    · exact Yields.failed _

theorem built_parseBody (n : Nat) :
    ∀ (l : Lexer), Yields (fun s => s.unflagged = true) (parseBody n l) := by
  intro l
  unfold parseBody
  split
  · refine (built_parseBodyDecl n _ _ (show unflaggedList [] = true from rfl)).next fun x1 h1 => ?_
    refine (built_parseCompoundStatement n _).next fun x2 h2 => ?_
    exact Yields.value _ _ (unflagged_Block_intro (unflaggedList_snoc h1 h2))
  · refine (built_parseBodyDecl n _ _ (show unflaggedList [] = true from rfl)).next fun x1 h1 => ?_
    refine (built_parseCompoundStatement n _).next fun x2 h2 => ?_
    exact Yields.value _ _ (unflagged_Block_intro (unflaggedList_snoc h1 h2))
  · refine (built_parseBodyDecl n _ _ (show unflaggedList [] = true from rfl)).next fun x1 h1 => ?_
    refine (built_parseCompoundStatement n _).next fun x2 h2 => ?_
    exact Yields.value _ _ (unflagged_Block_intro (unflaggedList_snoc h1 h2))
  · exact Yields.failed _

theorem built_parseBodyOrForward (n : Nat) :
    ∀ (l : Lexer), Yields (fun o => ∀ s, o = some s → s.unflagged = true) (parseBodyOrForward n l)
        := by
  intro l
  unfold parseBodyOrForward
  split
  · refine (Yields.any _).next fun x1 _ => ?_
    exact Yields.value _ _ (fun s hs => by cases hs)
  · refine (built_parseBody n _).next fun x1 h1 => ?_
    exact Yields.value _ _ (fun s hs => by cases hs; exact h1)
  · refine (built_parseBody n _).next fun x1 h1 => ?_
    exact Yields.value _ _ (fun s hs => by cases hs; exact h1)
  · refine (built_parseBody n _).next fun x1 h1 => ?_
    exact Yields.value _ _ (fun s hs => by cases hs; exact h1)
  · exact Yields.failed _

theorem built_parseProcedureDeclaration (n : Nat) :
    ∀ (statementNodes : List Stmt) (l : Lexer), unflaggedList statementNodes = true →
      Yields (fun ss => unflaggedList ss = true) (parseProcedureDeclaration n statementNodes l) :=
          by
  intro statementNodes l ha
  unfold parseProcedureDeclaration
  split
  · refine (Yields.any _).next fun x1 _ => ?_
    refine (Yields.any _).next fun x2 _ => ?_
    refine (Yields.any _).next fun x3 _ => ?_
    refine (Yields.any _).next fun x4 _ => ?_
    refine (built_parseBodyOrForward n _).next fun x5 h5 => ?_
    refine (Yields.any _).next fun x6 _ => ?_
    exact Yields.value _ _ (unflaggedList_snoc ha (unflagged_ProcDecl_intro h5))
  · exact Yields.failed _

theorem built_parseFunctionDeclaration (n : Nat) :
    ∀ (statementNodes : List Stmt) (l : Lexer), unflaggedList statementNodes = true →
      Yields (fun ss => unflaggedList ss = true) (parseFunctionDeclaration n statementNodes l) := by
  intro statementNodes l ha
  unfold parseFunctionDeclaration
  split
  · refine (Yields.any _).next fun x1 _ => ?_
    refine (Yields.any _).next fun x2 _ => ?_
    refine (Yields.any _).next fun x3 _ => ?_
    refine (Yields.any _).next fun x4 _ => ?_
    refine (Yields.any _).next fun x5 _ => ?_
    refine (Yields.any _).next fun x6 _ => ?_
    refine (built_parseBodyOrForward n _).next fun x7 h7 => ?_
    refine (Yields.any _).next fun x8 _ => ?_
    exact Yields.value _ _ (unflaggedList_snoc ha (unflagged_FunDecl_intro h7))
  · exact Yields.failed _

theorem built_parseBlockDecl (n : Nat) :
    ∀ (statementNodes : List Stmt) (l : Lexer), unflaggedList statementNodes = true →
      Yields (fun ss => unflaggedList ss = true) (parseBlockDecl n statementNodes l) := by
  induction n with
  | zero =>
    intro statementNodes l ha
    exact Yields.failed _
  | succ n ih_parseBlockDecl =>
    intro statementNodes l ha
    rw [parseBlockDecl]
    split
    · refine (built_parseConstantDefinitionList n _ _ ha).next fun x1 h1 => ?_
      exact ih_parseBlockDecl _ _ h1
    · refine (built_parseVariableDeclarationList n _ _ ha).next fun x1 h1 => ?_
      exact ih_parseBlockDecl _ _ h1
    · refine (built_parseProcedureDeclaration n _ _ ha).next fun x1 h1 => ?_
      exact ih_parseBlockDecl _ _ h1
    · refine (built_parseFunctionDeclaration n _ _ ha).next fun x1 h1 => ?_
      exact ih_parseBlockDecl _ _ h1
    · exact Yields.value _ _ ha
    · exact Yields.failed _

theorem built_parseBlock (n : Nat) :
    ∀ (l : Lexer), Yields (fun s => ∃ ss, s = .Block false ss ∧ unflaggedList ss = true)
        (parseBlock n l) := by
  intro l
  unfold parseBlock
  split
  · refine (built_parseBlockDecl n _ _ (show unflaggedList [] = true from rfl)).next fun x1 h1 => ?_
    refine (built_parseCompoundStatement n _).next fun x2 h2 => ?_
    exact Yields.value _ _ ⟨_, rfl, unflaggedList_snoc h1 h2⟩
  · refine (built_parseBlockDecl n _ _ (show unflaggedList [] = true from rfl)).next fun x1 h1 => ?_
    refine (built_parseCompoundStatement n _).next fun x2 h2 => ?_
    exact Yields.value _ _ ⟨_, rfl, unflaggedList_snoc h1 h2⟩
  · refine (built_parseBlockDecl n _ _ (show unflaggedList [] = true from rfl)).next fun x1 h1 => ?_
    refine (built_parseCompoundStatement n _).next fun x2 h2 => ?_
    exact Yields.value _ _ ⟨_, rfl, unflaggedList_snoc h1 h2⟩
  · refine (built_parseBlockDecl n _ _ (show unflaggedList [] = true from rfl)).next fun x1 h1 => ?_
    refine (built_parseCompoundStatement n _).next fun x2 h2 => ?_
    exact Yields.value _ _ ⟨_, rfl, unflaggedList_snoc h1 h2⟩
  · refine (built_parseBlockDecl n _ _ (show unflaggedList [] = true from rfl)).next fun x1 h1 => ?_
    refine (built_parseCompoundStatement n _).next fun x2 h2 => ?_
    exact Yields.value _ _ ⟨_, rfl, unflaggedList_snoc h1 h2⟩
  · exact Yields.failed _

theorem built_parseProgram (n : Nat) :
    ∀ (l : Lexer), Yields (fun p => ∃ ss, p.blockNode = .Block false ss ∧ unflaggedList ss = true)
        (parseProgram n l) := by
  intro l
  unfold parseProgram
  split
  · refine (Yields.any _).next fun x1 _ => ?_
    refine (Yields.any _).next fun x2 _ => ?_
    refine (Yields.any _).next fun x3 _ => ?_
    refine (built_parseBlock n _).next fun x4 h4 => ?_
    refine (Yields.any _).next fun x5 _ => ?_
    exact Yields.value _ _ h4
  · exact Yields.failed _


/-- The parser builds trees without flags: the block of a parsed program is a `Block` node
that is not marked as the main block, and below it no block is marked as main and no
declaration as global. -/
theorem parseSource_unflagged {fuel : Nat} {source : List Char} {program : Program}
    (h : parseSource fuel source = .ok program) :
    ∃ statementNodes, program.blockNode = .Block false statementNodes ∧
      unflaggedList statementNodes = true := by
  unfold parseSource at h
  split at h
  · cases h
  · rename_i lexer _
    have hb := built_parseProgram fuel lexer
    split at h
    · cases h
    · rename_i p l' hp
      cases h
      rw [hp] at hb
      exact hb
/-! ## Global and local storage -/

section KeepsStatements
variable {R : GenContext → GenContext → Prop}

theorem keeps_getInsertBlock (S : ExprStable R) : GenM.Keeps R GetInsertBlock :=
  ⟨fun g => S.refl g⟩

theorem keeps_createStore (S : StmtStable R) (val ptr : Value) :
    GenM.Keeps R (CreateStore val ptr) := ⟨fun g => S.store g _ _ _⟩

theorem keeps_setSymbolTable (S : StmtStable R) (table : SymbolTable) :
    GenM.Keeps R (setSymbolTable table) := ⟨fun g => S.setSymbolTable g _⟩

theorem keeps_setArgumentNames (S : StmtStable R) (func : Nat) (names : List String) :
    GenM.Keeps R (setArgumentNames func names) := ⟨fun g => S.setArgumentNames g _ _⟩

theorem keeps_addSymbol (S : StmtStable R) (name : String) (symbol : Symbol) :
    GenM.Keeps R (addSymbol name symbol) := by
  refine ⟨fun g => ?_⟩
  unfold addSymbol GenM.run
  dsimp only
  split
  · exact S.refl g
  · exact S.setSymbolTable g _

theorem keeps_assignTo (S : StmtStable R) (refName : String) (store : Option Value)
    (exprNode : Expr) : GenM.Keeps R (assignTo refName store exprNode) := by
  unfold assignTo
  repeat' first
    | with_reducible exact GenM.Keeps.pure S.toExprStable _
    | with_reducible exact GenM.Keeps.throw S.toExprStable _
    | with_reducible exact keeps_get S.toExprStable
    | with_reducible exact keeps_getSymbol S.toExprStable _
    | with_reducible exact keeps_getFunction S.toExprStable _
    | with_reducible exact keeps_functionAt S.toExprStable _
    | with_reducible exact keeps_getInsertBlock S.toExprStable
    | with_reducible exact keeps_getInsertBlockParent S.toExprStable
    | with_reducible exact keeps_createBlock S.toExprStable _ _
    | with_reducible exact keeps_createFunction S.toExprStable _ _ _ _
    | with_reducible exact keeps_setInsertPoint S.toExprStable _
    | with_reducible exact keeps_visitExpr S.toExprStable _
    | with_reducible exact keeps_storeVisit S.toExprStable _
    | with_reducible exact keeps_expectValue S.toExprStable _
    | with_reducible exact keeps_getDefaultValueForType S.toExprStable _
    | with_reducible exact keeps_getArrayElementType S.toExprStable _
    | with_reducible exact keeps_getPointerElementType S.toExprStable _
    | with_reducible exact keeps_createSIToFP S.toExprStable _ _
    | with_reducible exact keeps_createAlloca S.toExprStable _ _
    | with_reducible exact keeps_createLoad S.toExprStable _ _ _
    | with_reducible exact keeps_createGEP S.toExprStable _ _ _ _
    | with_reducible exact keeps_createICmp S.toExprStable _ _ _ _
    | with_reducible exact keeps_createBinOp S.toExprStable _ _ _ _ (by simp)
    | with_reducible exact keeps_createBr S.toExprStable _
    | with_reducible exact keeps_createCondBr S.toExprStable _ _ _
    | with_reducible exact keeps_createRet S.toExprStable _
    | with_reducible exact keeps_createRetVoid S.toExprStable
    | with_reducible exact keeps_declareFunction S.toExprStable _ _ _ _ _
    | with_reducible exact keeps_createStore S _ _
    | with_reducible exact keeps_addSymbol S _ _
    | with_reducible exact keeps_setSymbolTable S _
    | with_reducible exact keeps_setArgumentNames S _ _
    | with_reducible apply GenM.Keeps.bind S.toExprStable
    | intro _
    | dsimp only
    | split

theorem keeps_visitAssign (S : StmtStable R) (varNode exprNode : Expr) :
    GenM.Keeps R (visitAssign varNode exprNode) := by
  unfold visitAssign
  repeat' first
    | with_reducible exact keeps_assignTo S _ _ _
    | with_reducible exact GenM.Keeps.pure S.toExprStable _
    | with_reducible exact GenM.Keeps.throw S.toExprStable _
    | with_reducible exact keeps_get S.toExprStable
    | with_reducible exact keeps_getSymbol S.toExprStable _
    | with_reducible exact keeps_getFunction S.toExprStable _
    | with_reducible exact keeps_functionAt S.toExprStable _
    | with_reducible exact keeps_getInsertBlock S.toExprStable
    | with_reducible exact keeps_getInsertBlockParent S.toExprStable
    | with_reducible exact keeps_createBlock S.toExprStable _ _
    | with_reducible exact keeps_createFunction S.toExprStable _ _ _ _
    | with_reducible exact keeps_setInsertPoint S.toExprStable _
    | with_reducible exact keeps_visitExpr S.toExprStable _
    | with_reducible exact keeps_storeVisit S.toExprStable _
    | with_reducible exact keeps_expectValue S.toExprStable _
    | with_reducible exact keeps_getDefaultValueForType S.toExprStable _
    | with_reducible exact keeps_getArrayElementType S.toExprStable _
    | with_reducible exact keeps_getPointerElementType S.toExprStable _
    | with_reducible exact keeps_createSIToFP S.toExprStable _ _
    | with_reducible exact keeps_createAlloca S.toExprStable _ _
    | with_reducible exact keeps_createLoad S.toExprStable _ _ _
    | with_reducible exact keeps_createGEP S.toExprStable _ _ _ _
    | with_reducible exact keeps_createICmp S.toExprStable _ _ _ _
    | with_reducible exact keeps_createBinOp S.toExprStable _ _ _ _ (by simp)
    | with_reducible exact keeps_createBr S.toExprStable _
    | with_reducible exact keeps_createCondBr S.toExprStable _ _ _
    | with_reducible exact keeps_createRet S.toExprStable _
    | with_reducible exact keeps_createRetVoid S.toExprStable
    | with_reducible exact keeps_declareFunction S.toExprStable _ _ _ _ _
    | with_reducible exact keeps_createStore S _ _
    | with_reducible exact keeps_addSymbol S _ _
    | with_reducible exact keeps_setSymbolTable S _
    | with_reducible exact keeps_setArgumentNames S _ _
    | with_reducible apply GenM.Keeps.bind S.toExprStable
    | intro _
    | dsimp only
    | split

theorem keeps_handle (S : StmtStable R) (funName : String) (argNodes : List Expr) :
    GenM.Keeps R (handle funName argNodes) := by
  unfold handle
  exact keeps_visitExpr S.toExprStable _

theorem keeps_initArray (S : StmtStable R) (arrayType : LType) (store zeroIndex defaultV : Value) :
    ∀ (count i : Nat), GenM.Keeps R (initArray arrayType store zeroIndex defaultV count i) := by
  intro count
  induction count with
  | zero => intro i; unfold initArray; exact GenM.Keeps.pure S.toExprStable _
  | succ count ih =>
    intro i
    have h := ih (i + 1)
    unfold initArray
    repeat' first
      | with_reducible exact h
      | with_reducible exact GenM.Keeps.pure S.toExprStable _
      | with_reducible exact GenM.Keeps.throw S.toExprStable _
      | with_reducible exact keeps_get S.toExprStable
      | with_reducible exact keeps_getSymbol S.toExprStable _
      | with_reducible exact keeps_getFunction S.toExprStable _
      | with_reducible exact keeps_functionAt S.toExprStable _
      | with_reducible exact keeps_getInsertBlock S.toExprStable
      | with_reducible exact keeps_getInsertBlockParent S.toExprStable
      | with_reducible exact keeps_createBlock S.toExprStable _ _
      | with_reducible exact keeps_createFunction S.toExprStable _ _ _ _
      | with_reducible exact keeps_setInsertPoint S.toExprStable _
      | with_reducible exact keeps_visitExpr S.toExprStable _
      | with_reducible exact keeps_storeVisit S.toExprStable _
      | with_reducible exact keeps_expectValue S.toExprStable _
      | with_reducible exact keeps_getDefaultValueForType S.toExprStable _
      | with_reducible exact keeps_getArrayElementType S.toExprStable _
      | with_reducible exact keeps_getPointerElementType S.toExprStable _
      | with_reducible exact keeps_createSIToFP S.toExprStable _ _
      | with_reducible exact keeps_createAlloca S.toExprStable _ _
      | with_reducible exact keeps_createLoad S.toExprStable _ _ _
      | with_reducible exact keeps_createGEP S.toExprStable _ _ _ _
      | with_reducible exact keeps_createICmp S.toExprStable _ _ _ _
      | with_reducible exact keeps_createBinOp S.toExprStable _ _ _ _ (by simp)
      | with_reducible exact keeps_createBr S.toExprStable _
      | with_reducible exact keeps_createCondBr S.toExprStable _ _ _
      | with_reducible exact keeps_createRet S.toExprStable _
      | with_reducible exact keeps_createRetVoid S.toExprStable
      | with_reducible exact keeps_declareFunction S.toExprStable _ _ _ _ _
      | with_reducible exact keeps_createStore S _ _
      | with_reducible exact keeps_addSymbol S _ _
      | with_reducible exact keeps_setSymbolTable S _
      | with_reducible exact keeps_setArgumentNames S _ _
      | with_reducible apply GenM.Keeps.bind S.toExprStable
      | intro _
      | dsimp only
      | split

theorem keeps_localVarDecl (S : StmtStable R) (node : VarDecl) (h : node.global = false) :
    GenM.Keeps R (visitVarDecl false node) := by
  unfold visitVarDecl
  simp only [isGlobal, h, Bool.or_self, Bool.false_eq_true, if_false]
  repeat' first
    | with_reducible exact GenM.Keeps.pure S.toExprStable _
    | with_reducible exact GenM.Keeps.throw S.toExprStable _
    | with_reducible exact keeps_get S.toExprStable
    | with_reducible exact keeps_getSymbol S.toExprStable _
    | with_reducible exact keeps_getFunction S.toExprStable _
    | with_reducible exact keeps_functionAt S.toExprStable _
    | with_reducible exact keeps_getInsertBlock S.toExprStable
    | with_reducible exact keeps_getInsertBlockParent S.toExprStable
    | with_reducible exact keeps_createBlock S.toExprStable _ _
    | with_reducible exact keeps_createFunction S.toExprStable _ _ _ _
    | with_reducible exact keeps_setInsertPoint S.toExprStable _
    | with_reducible exact keeps_visitExpr S.toExprStable _
    | with_reducible exact keeps_storeVisit S.toExprStable _
    | with_reducible exact keeps_expectValue S.toExprStable _
    | with_reducible exact keeps_getDefaultValueForType S.toExprStable _
    | with_reducible exact keeps_getArrayElementType S.toExprStable _
    | with_reducible exact keeps_getPointerElementType S.toExprStable _
    | with_reducible exact keeps_createSIToFP S.toExprStable _ _
    | with_reducible exact keeps_createAlloca S.toExprStable _ _
    | with_reducible exact keeps_createLoad S.toExprStable _ _ _
    | with_reducible exact keeps_createGEP S.toExprStable _ _ _ _
    | with_reducible exact keeps_createICmp S.toExprStable _ _ _ _
    | with_reducible exact keeps_createBinOp S.toExprStable _ _ _ _ (by simp)
    | with_reducible exact keeps_createBr S.toExprStable _
    | with_reducible exact keeps_createCondBr S.toExprStable _ _ _
    | with_reducible exact keeps_createRet S.toExprStable _
    | with_reducible exact keeps_createRetVoid S.toExprStable
    | with_reducible exact keeps_declareFunction S.toExprStable _ _ _ _ _
    | with_reducible exact keeps_createStore S _ _
    | with_reducible exact keeps_addSymbol S _ _
    | with_reducible exact keeps_setSymbolTable S _
    | with_reducible exact keeps_setArgumentNames S _ _
    | with_reducible apply GenM.Keeps.bind S.toExprStable
    | intro _
    | dsimp only
    | split

theorem keeps_localArrayDecl (S : StmtStable R) (declName : String) (typeNode : ArrayType) :
    GenM.Keeps R (visitArrayDecl false declName false typeNode) := by
  unfold visitArrayDecl
  simp only [isGlobal, Bool.or_self, Bool.false_eq_true, if_false]
  repeat' first
    | with_reducible exact keeps_initArray S _ _ _ _ _ _
    | with_reducible exact GenM.Keeps.pure S.toExprStable _
    | with_reducible exact GenM.Keeps.throw S.toExprStable _
    | with_reducible exact keeps_get S.toExprStable
    | with_reducible exact keeps_getSymbol S.toExprStable _
    | with_reducible exact keeps_getFunction S.toExprStable _
    | with_reducible exact keeps_functionAt S.toExprStable _
    | with_reducible exact keeps_getInsertBlock S.toExprStable
    | with_reducible exact keeps_getInsertBlockParent S.toExprStable
    | with_reducible exact keeps_createBlock S.toExprStable _ _
    | with_reducible exact keeps_createFunction S.toExprStable _ _ _ _
    | with_reducible exact keeps_setInsertPoint S.toExprStable _
    | with_reducible exact keeps_visitExpr S.toExprStable _
    | with_reducible exact keeps_storeVisit S.toExprStable _
    | with_reducible exact keeps_expectValue S.toExprStable _
    | with_reducible exact keeps_getDefaultValueForType S.toExprStable _
    | with_reducible exact keeps_getArrayElementType S.toExprStable _
    | with_reducible exact keeps_getPointerElementType S.toExprStable _
    | with_reducible exact keeps_createSIToFP S.toExprStable _ _
    | with_reducible exact keeps_createAlloca S.toExprStable _ _
    | with_reducible exact keeps_createLoad S.toExprStable _ _ _
    | with_reducible exact keeps_createGEP S.toExprStable _ _ _ _
    | with_reducible exact keeps_createICmp S.toExprStable _ _ _ _
    | with_reducible exact keeps_createBinOp S.toExprStable _ _ _ _ (by simp)
    | with_reducible exact keeps_createBr S.toExprStable _
    | with_reducible exact keeps_createCondBr S.toExprStable _ _ _
    | with_reducible exact keeps_createRet S.toExprStable _
    | with_reducible exact keeps_createRetVoid S.toExprStable
    | with_reducible exact keeps_declareFunction S.toExprStable _ _ _ _ _
    | with_reducible exact keeps_createStore S _ _
    | with_reducible exact keeps_addSymbol S _ _
    | with_reducible exact keeps_setSymbolTable S _
    | with_reducible exact keeps_setArgumentNames S _ _
    | with_reducible apply GenM.Keeps.bind S.toExprStable
    | intro _
    | dsimp only
    | split

theorem keeps_localConstDef (S : StmtStable R) (declName : String) (exprNode : Expr) :
    GenM.Keeps R (visitConstDef false declName false exprNode) := by
  unfold visitConstDef
  simp only [isGlobal, Bool.or_self, Bool.false_eq_true, if_false]
  repeat' first
    | with_reducible exact GenM.Keeps.pure S.toExprStable _
    | with_reducible exact GenM.Keeps.throw S.toExprStable _
    | with_reducible exact keeps_get S.toExprStable
    | with_reducible exact keeps_getSymbol S.toExprStable _
    | with_reducible exact keeps_getFunction S.toExprStable _
    | with_reducible exact keeps_functionAt S.toExprStable _
    | with_reducible exact keeps_getInsertBlock S.toExprStable
    | with_reducible exact keeps_getInsertBlockParent S.toExprStable
    | with_reducible exact keeps_createBlock S.toExprStable _ _
    | with_reducible exact keeps_createFunction S.toExprStable _ _ _ _
    | with_reducible exact keeps_setInsertPoint S.toExprStable _
    | with_reducible exact keeps_visitExpr S.toExprStable _
    | with_reducible exact keeps_storeVisit S.toExprStable _
    | with_reducible exact keeps_expectValue S.toExprStable _
    | with_reducible exact keeps_getDefaultValueForType S.toExprStable _
    | with_reducible exact keeps_getArrayElementType S.toExprStable _
    | with_reducible exact keeps_getPointerElementType S.toExprStable _
    | with_reducible exact keeps_createSIToFP S.toExprStable _ _
    | with_reducible exact keeps_createAlloca S.toExprStable _ _
    | with_reducible exact keeps_createLoad S.toExprStable _ _ _
    | with_reducible exact keeps_createGEP S.toExprStable _ _ _ _
    | with_reducible exact keeps_createICmp S.toExprStable _ _ _ _
    | with_reducible exact keeps_createBinOp S.toExprStable _ _ _ _ (by simp)
    | with_reducible exact keeps_createBr S.toExprStable _
    | with_reducible exact keeps_createCondBr S.toExprStable _ _ _
    | with_reducible exact keeps_createRet S.toExprStable _
    | with_reducible exact keeps_createRetVoid S.toExprStable
    | with_reducible exact keeps_declareFunction S.toExprStable _ _ _ _ _
    | with_reducible exact keeps_createStore S _ _
    | with_reducible exact keeps_addSymbol S _ _
    | with_reducible exact keeps_setSymbolTable S _
    | with_reducible exact keeps_setArgumentNames S _ _
    | with_reducible apply GenM.Keeps.bind S.toExprStable
    | intro _
    | dsimp only
    | split

theorem keeps_storeArgumentsOf (S : StmtStable R) (func : Nat) :
    ∀ (types : List LType) (i : Nat) (names : List String) (paramNodes : List VarDecl),
      GenM.Keeps R (storeArguments func i types names paramNodes) := by
  intro types
  induction types with
  | nil =>
    intro i names paramNodes
    unfold storeArguments
    exact GenM.Keeps.pure S.toExprStable _
  | cons type types ih =>
    intro i names paramNodes
    cases names with
    | nil => unfold storeArguments; exact GenM.Keeps.pure S.toExprStable _
    | cons name names =>
      cases paramNodes with
      | nil => unfold storeArguments; exact GenM.Keeps.pure S.toExprStable _
      | cons param paramNodes =>
        have h := ih (i + 1) names paramNodes
        unfold storeArguments
        repeat' first
          | with_reducible exact h
          | with_reducible exact GenM.Keeps.pure S.toExprStable _
          | with_reducible exact GenM.Keeps.throw S.toExprStable _
          | with_reducible exact keeps_get S.toExprStable
          | with_reducible exact keeps_getSymbol S.toExprStable _
          | with_reducible exact keeps_getFunction S.toExprStable _
          | with_reducible exact keeps_functionAt S.toExprStable _
          | with_reducible exact keeps_getInsertBlock S.toExprStable
          | with_reducible exact keeps_getInsertBlockParent S.toExprStable
          | with_reducible exact keeps_createBlock S.toExprStable _ _
          | with_reducible exact keeps_createFunction S.toExprStable _ _ _ _
          | with_reducible exact keeps_setInsertPoint S.toExprStable _
          | with_reducible exact keeps_visitExpr S.toExprStable _
          | with_reducible exact keeps_storeVisit S.toExprStable _
          | with_reducible exact keeps_expectValue S.toExprStable _
          | with_reducible exact keeps_getDefaultValueForType S.toExprStable _
          | with_reducible exact keeps_getArrayElementType S.toExprStable _
          | with_reducible exact keeps_getPointerElementType S.toExprStable _
          | with_reducible exact keeps_createSIToFP S.toExprStable _ _
          | with_reducible exact keeps_createAlloca S.toExprStable _ _
          | with_reducible exact keeps_createLoad S.toExprStable _ _ _
          | with_reducible exact keeps_createGEP S.toExprStable _ _ _ _
          | with_reducible exact keeps_createICmp S.toExprStable _ _ _ _
          | with_reducible exact keeps_createBinOp S.toExprStable _ _ _ _ (by simp)
          | with_reducible exact keeps_createBr S.toExprStable _
          | with_reducible exact keeps_createCondBr S.toExprStable _ _ _
          | with_reducible exact keeps_createRet S.toExprStable _
          | with_reducible exact keeps_createRetVoid S.toExprStable
          | with_reducible exact keeps_declareFunction S.toExprStable _ _ _ _ _
          | with_reducible exact keeps_createStore S _ _
          | with_reducible exact keeps_addSymbol S _ _
          | with_reducible exact keeps_setSymbolTable S _
          | with_reducible exact keeps_setArgumentNames S _ _
          | with_reducible apply GenM.Keeps.bind S.toExprStable
          | intro _
          | dsimp only
          | split

theorem keeps_enterFunction (S : StmtStable R) (func : Nat) (paramNodes : List VarDecl) :
    GenM.Keeps R (enterFunction func paramNodes) := by
  unfold enterFunction
  repeat' first
    | with_reducible exact keeps_storeArgumentsOf S _ _ _ _ _
    | with_reducible exact GenM.Keeps.pure S.toExprStable _
    | with_reducible exact GenM.Keeps.throw S.toExprStable _
    | with_reducible exact keeps_get S.toExprStable
    | with_reducible exact keeps_getSymbol S.toExprStable _
    | with_reducible exact keeps_getFunction S.toExprStable _
    | with_reducible exact keeps_functionAt S.toExprStable _
    | with_reducible exact keeps_getInsertBlock S.toExprStable
    | with_reducible exact keeps_getInsertBlockParent S.toExprStable
    | with_reducible exact keeps_createBlock S.toExprStable _ _
    | with_reducible exact keeps_createFunction S.toExprStable _ _ _ _
    | with_reducible exact keeps_setInsertPoint S.toExprStable _
    | with_reducible exact keeps_visitExpr S.toExprStable _
    | with_reducible exact keeps_storeVisit S.toExprStable _
    | with_reducible exact keeps_expectValue S.toExprStable _
    | with_reducible exact keeps_getDefaultValueForType S.toExprStable _
    | with_reducible exact keeps_getArrayElementType S.toExprStable _
    | with_reducible exact keeps_getPointerElementType S.toExprStable _
    | with_reducible exact keeps_createSIToFP S.toExprStable _ _
    | with_reducible exact keeps_createAlloca S.toExprStable _ _
    | with_reducible exact keeps_createLoad S.toExprStable _ _ _
    | with_reducible exact keeps_createGEP S.toExprStable _ _ _ _
    | with_reducible exact keeps_createICmp S.toExprStable _ _ _ _
    | with_reducible exact keeps_createBinOp S.toExprStable _ _ _ _ (by simp)
    | with_reducible exact keeps_createBr S.toExprStable _
    | with_reducible exact keeps_createCondBr S.toExprStable _ _ _
    | with_reducible exact keeps_createRet S.toExprStable _
    | with_reducible exact keeps_createRetVoid S.toExprStable
    | with_reducible exact keeps_declareFunction S.toExprStable _ _ _ _ _
    | with_reducible exact keeps_createStore S _ _
    | with_reducible exact keeps_addSymbol S _ _
    | with_reducible exact keeps_setSymbolTable S _
    | with_reducible exact keeps_setArgumentNames S _ _
    | with_reducible apply GenM.Keeps.bind S.toExprStable
    | intro _
    | dsimp only
    | split

theorem keeps_createReturnSlot (S : StmtStable R) (declName : String)
    (retTypeNode : PrimitiveType) : GenM.Keeps R (createReturnSlot declName retTypeNode) := by
  unfold createReturnSlot
  repeat' first
    | with_reducible exact GenM.Keeps.pure S.toExprStable _
    | with_reducible exact GenM.Keeps.throw S.toExprStable _
    | with_reducible exact keeps_get S.toExprStable
    | with_reducible exact keeps_getSymbol S.toExprStable _
    | with_reducible exact keeps_getFunction S.toExprStable _
    | with_reducible exact keeps_functionAt S.toExprStable _
    | with_reducible exact keeps_getInsertBlock S.toExprStable
    | with_reducible exact keeps_getInsertBlockParent S.toExprStable
    | with_reducible exact keeps_createBlock S.toExprStable _ _
    | with_reducible exact keeps_createFunction S.toExprStable _ _ _ _
    | with_reducible exact keeps_setInsertPoint S.toExprStable _
    | with_reducible exact keeps_visitExpr S.toExprStable _
    | with_reducible exact keeps_storeVisit S.toExprStable _
    | with_reducible exact keeps_expectValue S.toExprStable _
    | with_reducible exact keeps_getDefaultValueForType S.toExprStable _
    | with_reducible exact keeps_getArrayElementType S.toExprStable _
    | with_reducible exact keeps_getPointerElementType S.toExprStable _
    | with_reducible exact keeps_createSIToFP S.toExprStable _ _
    | with_reducible exact keeps_createAlloca S.toExprStable _ _
    | with_reducible exact keeps_createLoad S.toExprStable _ _ _
    | with_reducible exact keeps_createGEP S.toExprStable _ _ _ _
    | with_reducible exact keeps_createICmp S.toExprStable _ _ _ _
    | with_reducible exact keeps_createBinOp S.toExprStable _ _ _ _ (by simp)
    | with_reducible exact keeps_createBr S.toExprStable _
    | with_reducible exact keeps_createCondBr S.toExprStable _ _ _
    | with_reducible exact keeps_createRet S.toExprStable _
    | with_reducible exact keeps_createRetVoid S.toExprStable
    | with_reducible exact keeps_declareFunction S.toExprStable _ _ _ _ _
    | with_reducible exact keeps_createStore S _ _
    | with_reducible exact keeps_addSymbol S _ _
    | with_reducible exact keeps_setSymbolTable S _
    | with_reducible exact keeps_setArgumentNames S _ _
    | with_reducible apply GenM.Keeps.bind S.toExprStable
    | intro _
    | dsimp only
    | split

theorem keeps_visitBreak (S : StmtStable R) (w : Wiring) : GenM.Keeps R (visitBreak w) := by
  unfold visitBreak
  repeat' first
    | with_reducible exact GenM.Keeps.pure S.toExprStable _
    | with_reducible exact GenM.Keeps.throw S.toExprStable _
    | with_reducible exact keeps_get S.toExprStable
    | with_reducible exact keeps_getSymbol S.toExprStable _
    | with_reducible exact keeps_getFunction S.toExprStable _
    | with_reducible exact keeps_functionAt S.toExprStable _
    | with_reducible exact keeps_getInsertBlock S.toExprStable
    | with_reducible exact keeps_getInsertBlockParent S.toExprStable
    | with_reducible exact keeps_createBlock S.toExprStable _ _
    | with_reducible exact keeps_createFunction S.toExprStable _ _ _ _
    | with_reducible exact keeps_setInsertPoint S.toExprStable _
    | with_reducible exact keeps_visitExpr S.toExprStable _
    | with_reducible exact keeps_storeVisit S.toExprStable _
    | with_reducible exact keeps_expectValue S.toExprStable _
    | with_reducible exact keeps_getDefaultValueForType S.toExprStable _
    | with_reducible exact keeps_getArrayElementType S.toExprStable _
    | with_reducible exact keeps_getPointerElementType S.toExprStable _
    | with_reducible exact keeps_createSIToFP S.toExprStable _ _
    | with_reducible exact keeps_createAlloca S.toExprStable _ _
    | with_reducible exact keeps_createLoad S.toExprStable _ _ _
    | with_reducible exact keeps_createGEP S.toExprStable _ _ _ _
    | with_reducible exact keeps_createICmp S.toExprStable _ _ _ _
    | with_reducible exact keeps_createBinOp S.toExprStable _ _ _ _ (by simp)
    | with_reducible exact keeps_createBr S.toExprStable _
    | with_reducible exact keeps_createCondBr S.toExprStable _ _ _
    | with_reducible exact keeps_createRet S.toExprStable _
    | with_reducible exact keeps_createRetVoid S.toExprStable
    | with_reducible exact keeps_declareFunction S.toExprStable _ _ _ _ _
    | with_reducible exact keeps_createStore S _ _
    | with_reducible exact keeps_addSymbol S _ _
    | with_reducible exact keeps_setSymbolTable S _
    | with_reducible exact keeps_setArgumentNames S _ _
    | with_reducible apply GenM.Keeps.bind S.toExprStable
    | intro _
    | dsimp only
    | split

theorem keeps_visitExit (S : StmtStable R) (w : Wiring) : GenM.Keeps R (visitExit w) := by
  unfold visitExit
  repeat' first
    | with_reducible exact GenM.Keeps.pure S.toExprStable _
    | with_reducible exact GenM.Keeps.throw S.toExprStable _
    | with_reducible exact keeps_get S.toExprStable
    | with_reducible exact keeps_getSymbol S.toExprStable _
    | with_reducible exact keeps_getFunction S.toExprStable _
    | with_reducible exact keeps_functionAt S.toExprStable _
    | with_reducible exact keeps_getInsertBlock S.toExprStable
    | with_reducible exact keeps_getInsertBlockParent S.toExprStable
    | with_reducible exact keeps_createBlock S.toExprStable _ _
    | with_reducible exact keeps_createFunction S.toExprStable _ _ _ _
    | with_reducible exact keeps_setInsertPoint S.toExprStable _
    | with_reducible exact keeps_visitExpr S.toExprStable _
    | with_reducible exact keeps_storeVisit S.toExprStable _
    | with_reducible exact keeps_expectValue S.toExprStable _
    | with_reducible exact keeps_getDefaultValueForType S.toExprStable _
    | with_reducible exact keeps_getArrayElementType S.toExprStable _
    | with_reducible exact keeps_getPointerElementType S.toExprStable _
    | with_reducible exact keeps_createSIToFP S.toExprStable _ _
    | with_reducible exact keeps_createAlloca S.toExprStable _ _
    | with_reducible exact keeps_createLoad S.toExprStable _ _ _
    | with_reducible exact keeps_createGEP S.toExprStable _ _ _ _
    | with_reducible exact keeps_createICmp S.toExprStable _ _ _ _
    | with_reducible exact keeps_createBinOp S.toExprStable _ _ _ _ (by simp)
    | with_reducible exact keeps_createBr S.toExprStable _
    | with_reducible exact keeps_createCondBr S.toExprStable _ _ _
    | with_reducible exact keeps_createRet S.toExprStable _
    | with_reducible exact keeps_createRetVoid S.toExprStable
    | with_reducible exact keeps_declareFunction S.toExprStable _ _ _ _ _
    | with_reducible exact keeps_createStore S _ _
    | with_reducible exact keeps_addSymbol S _ _
    | with_reducible exact keeps_setSymbolTable S _
    | with_reducible exact keeps_setArgumentNames S _ _
    | with_reducible apply GenM.Keeps.bind S.toExprStable
    | intro _
    | dsimp only
    | split

theorem keeps_visitStmts (S : StmtStable R) (setGlobal : Bool) :
    ∀ (statementNodes : List Stmt),
      (∀ s ∈ statementNodes, ∀ w, GenM.Keeps R (visitStmt w setGlobal s)) →
      ∀ w, GenM.Keeps R (visitStmts w setGlobal statementNodes) := by
  intro statementNodes
  induction statementNodes with
  | nil => intro _ w; rw [visitStmts_nil]; exact GenM.Keeps.pure S.toExprStable _
  | cons s rest ih =>
    intro h w
    rw [visitStmts_cons]
    exact GenM.Keeps.bind S.toExprStable (h s (List.mem_cons_self _ _) w)
      fun _ => ih (fun s hs => h s (List.mem_cons_of_mem _ hs)) w

end KeepsStatements

theorem unflaggedList_mem : ∀ (statementNodes : List Stmt),
    unflaggedList statementNodes = true → ∀ s ∈ statementNodes, s.unflagged = true := by
  intro statementNodes
  induction statementNodes with
  | nil => intro _ s hs; cases hs
  | cons head rest ih =>
    intro h s hs
    rw [unflaggedList, Bool.and_eq_true] at h
    rcases List.mem_cons.1 hs with rfl | hs
    · exact h.1
    · exact ih h.2 s hs

theorem unflagged_Block {main : Bool} {statementNodes : List Stmt}
    (h : (Stmt.Block main statementNodes).unflagged = true) :
    main = false ∧ ∀ s ∈ statementNodes, s.unflagged = true := by
  have e : (Stmt.Block main statementNodes).unflagged =
      (!main && unflaggedList statementNodes) := rfl
  rw [e, Bool.and_eq_true] at h
  exact ⟨by simpa using h.1, unflaggedList_mem _ h.2⟩

theorem unflagged_CompoundStmt {statementNodes : List Stmt}
    (h : (Stmt.CompoundStmt statementNodes).unflagged = true) :
    ∀ s ∈ statementNodes, s.unflagged = true :=
  unflaggedList_mem _ h

theorem unflagged_ProcDecl {declName : String} {global : Bool} {paramNodes : List VarDecl}
    {blockNode : Stmt}
    (h : (Stmt.ProcDecl declName global paramNodes (some blockNode)).unflagged = true) :
    blockNode.unflagged = true := by
  have e : (Stmt.ProcDecl declName global paramNodes (some blockNode)).unflagged =
      (!global && blockNode.unflagged) := rfl
  rw [e, Bool.and_eq_true] at h
  exact h.2

theorem unflagged_FunDecl {declName : String} {global : Bool} {paramNodes : List VarDecl}
    {blockNode : Stmt} {retTypeNode : PrimitiveType}
    (h : (Stmt.FunDecl declName global paramNodes (some blockNode) retTypeNode).unflagged =
      true) : blockNode.unflagged = true := by
  have e : (Stmt.FunDecl declName global paramNodes (some blockNode) retTypeNode).unflagged =
      (!global && blockNode.unflagged) := rfl
  rw [e, Bool.and_eq_true] at h
  exact h.2

theorem unflagged_If {condNode : Expr} {bodyNode : Stmt} {optElseBodyNode : Option Stmt}
    (h : (Stmt.If condNode bodyNode optElseBodyNode).unflagged = true) :
    bodyNode.unflagged = true ∧
      ∀ elseBodyNode, optElseBodyNode = some elseBodyNode → elseBodyNode.unflagged = true := by
  cases optElseBodyNode with
  | none =>
    have e : (Stmt.If condNode bodyNode none).unflagged = (bodyNode.unflagged && true) := rfl
    rw [e, Bool.and_eq_true] at h
    exact ⟨h.1, fun _ hn => by cases hn⟩
  | some elseBodyNode =>
    have e : (Stmt.If condNode bodyNode (some elseBodyNode)).unflagged =
        (bodyNode.unflagged && elseBodyNode.unflagged) := rfl
    rw [e, Bool.and_eq_true] at h
    exact ⟨h.1, fun _ hn => by cases hn; exact h.2⟩

theorem unflagged_While {condNode : Expr} {bodyNode : Stmt}
    (h : (Stmt.While condNode bodyNode).unflagged = true) : bodyNode.unflagged = true := h

theorem unflagged_For {initNode : Stmt} {toNode : Expr} {bodyNode : Stmt} {increasing : Bool}
    (h : (Stmt.For initNode toNode bodyNode increasing).unflagged = true) :
    initNode.unflagged = true ∧ bodyNode.unflagged = true := by
  have e : (Stmt.For initNode toNode bodyNode increasing).unflagged =
      (initNode.unflagged && bodyNode.unflagged) := rfl
  rw [e, Bool.and_eq_true] at h
  exact h

theorem visitStmt_flag (w : Wiring) (setGlobal : Bool) {s : Stmt}
    (h : s.isStorageDecl = false) : visitStmt w setGlobal s = visitStmt w false s := by
  cases s with
  | VarDeclStmt decl => cases h
  | ArrayDecl declName global typeNode => cases h
  | ConstDef declName global exprNode typeNode => cases h
  | Block main statementNodes => rw [visitStmt_Block, visitStmt_Block]
  | CompoundStmt statementNodes => rw [visitStmt_CompoundStmt, visitStmt_CompoundStmt]
  | ProcDecl declName global paramNodes optBlockNode =>
    rw [visitStmt_ProcDecl, visitStmt_ProcDecl]
  | FunDecl declName global paramNodes optBlockNode retTypeNode =>
    rw [visitStmt_FunDecl, visitStmt_FunDecl]
  | Assign varNode exprNode => rfl
  | If condNode bodyNode optElseBodyNode => rw [visitStmt_If, visitStmt_If]
  | While condNode bodyNode => rw [visitStmt_While, visitStmt_While]
  | For initNode toNode bodyNode increasing => rw [visitStmt_For, visitStmt_For]
  | ProcCall procName argNodes => rfl
  | EmptyStmt => rfl
  | Break => rfl
  | Exit => rfl

/-- The lowering of a statement whose tree is as the parser builds it, with no call of
`setGlobal(true)` on it, keeps every relation between states that is kept as long as no
global variable is created. -/
theorem keeps_visitStmt {R : GenContext → GenContext → Prop} (S : StmtStable R) :
    ∀ s : Stmt, s.unflagged = true → ∀ w, GenM.Keeps R (visitStmt w false s) := by
  intro s
  induction s using Stmt.induct with
  | hBlock main statementNodes ih =>
    intro hu w
    obtain ⟨hmain, hall⟩ := unflagged_Block hu
    subst hmain
    have hs := keeps_visitStmts S false statementNodes (fun s hs w => ih s hs (hall s hs) w)
    rw [visitStmt_Block]
    simp only [Bool.false_eq_true, if_false]
    repeat' first
      | with_reducible exact hs _
      | with_reducible exact GenM.Keeps.pure S.toExprStable _
      | with_reducible exact GenM.Keeps.throw S.toExprStable _
      | with_reducible exact keeps_get S.toExprStable
      | with_reducible exact keeps_getSymbol S.toExprStable _
      | with_reducible exact keeps_getFunction S.toExprStable _
      | with_reducible exact keeps_functionAt S.toExprStable _
      | with_reducible exact keeps_getInsertBlock S.toExprStable
      | with_reducible exact keeps_getInsertBlockParent S.toExprStable
      | with_reducible exact keeps_createBlock S.toExprStable _ _
      | with_reducible exact keeps_createFunction S.toExprStable _ _ _ _
      | with_reducible exact keeps_setInsertPoint S.toExprStable _
      | with_reducible exact keeps_visitExpr S.toExprStable _
      | with_reducible exact keeps_storeVisit S.toExprStable _
      | with_reducible exact keeps_expectValue S.toExprStable _
      | with_reducible exact keeps_getDefaultValueForType S.toExprStable _
      | with_reducible exact keeps_getArrayElementType S.toExprStable _
      | with_reducible exact keeps_getPointerElementType S.toExprStable _
      | with_reducible exact keeps_createSIToFP S.toExprStable _ _
      | with_reducible exact keeps_createAlloca S.toExprStable _ _
      | with_reducible exact keeps_createLoad S.toExprStable _ _ _
      | with_reducible exact keeps_createGEP S.toExprStable _ _ _ _
      | with_reducible exact keeps_createICmp S.toExprStable _ _ _ _
      | with_reducible exact keeps_createBinOp S.toExprStable _ _ _ _ (by simp)
      | with_reducible exact keeps_createBr S.toExprStable _
      | with_reducible exact keeps_createCondBr S.toExprStable _ _ _
      | with_reducible exact keeps_createRet S.toExprStable _
      | with_reducible exact keeps_createRetVoid S.toExprStable
      | with_reducible exact keeps_declareFunction S.toExprStable _ _ _ _ _
      | with_reducible exact keeps_createStore S _ _
      | with_reducible exact keeps_addSymbol S _ _
      | with_reducible exact keeps_setSymbolTable S _
      | with_reducible exact keeps_setArgumentNames S _ _
      | with_reducible apply GenM.Keeps.bind S.toExprStable
      | intro _
      | dsimp only
      | split
  | hCompoundStmt statementNodes ih =>
    intro hu w
    have hall := unflagged_CompoundStmt hu
    have hs := keeps_visitStmts S false statementNodes (fun s hs w => ih s hs (hall s hs) w)
    rw [visitStmt_CompoundStmt]
    repeat' first
      | with_reducible exact hs _
      | with_reducible exact GenM.Keeps.pure S.toExprStable _
      | with_reducible exact GenM.Keeps.throw S.toExprStable _
      | with_reducible exact keeps_get S.toExprStable
      | with_reducible exact keeps_getSymbol S.toExprStable _
      | with_reducible exact keeps_getFunction S.toExprStable _
      | with_reducible exact keeps_functionAt S.toExprStable _
      | with_reducible exact keeps_getInsertBlock S.toExprStable
      | with_reducible exact keeps_getInsertBlockParent S.toExprStable
      | with_reducible exact keeps_createBlock S.toExprStable _ _
      | with_reducible exact keeps_createFunction S.toExprStable _ _ _ _
      | with_reducible exact keeps_setInsertPoint S.toExprStable _
      | with_reducible exact keeps_visitExpr S.toExprStable _
      | with_reducible exact keeps_storeVisit S.toExprStable _
      | with_reducible exact keeps_expectValue S.toExprStable _
      | with_reducible exact keeps_getDefaultValueForType S.toExprStable _
      | with_reducible exact keeps_getArrayElementType S.toExprStable _
      | with_reducible exact keeps_getPointerElementType S.toExprStable _
      | with_reducible exact keeps_createSIToFP S.toExprStable _ _
      | with_reducible exact keeps_createAlloca S.toExprStable _ _
      | with_reducible exact keeps_createLoad S.toExprStable _ _ _
      | with_reducible exact keeps_createGEP S.toExprStable _ _ _ _
      | with_reducible exact keeps_createICmp S.toExprStable _ _ _ _
      | with_reducible exact keeps_createBinOp S.toExprStable _ _ _ _ (by simp)
      | with_reducible exact keeps_createBr S.toExprStable _
      | with_reducible exact keeps_createCondBr S.toExprStable _ _ _
      | with_reducible exact keeps_createRet S.toExprStable _
      | with_reducible exact keeps_createRetVoid S.toExprStable
      | with_reducible exact keeps_declareFunction S.toExprStable _ _ _ _ _
      | with_reducible exact keeps_createStore S _ _
      | with_reducible exact keeps_addSymbol S _ _
      | with_reducible exact keeps_setSymbolTable S _
      | with_reducible exact keeps_setArgumentNames S _ _
      | with_reducible apply GenM.Keeps.bind S.toExprStable
      | intro _
      | dsimp only
      | split
  | hVarDeclStmt decl =>
    intro hu w
    rw [visitStmt_VarDeclStmt]
    exact keeps_localVarDecl S decl (by simpa [Stmt.unflagged] using hu)
  | hArrayDecl declName global typeNode =>
    intro hu w
    have hg : global = false := by simpa [Stmt.unflagged] using hu
    subst hg
    rw [visitStmt_ArrayDecl]
    exact keeps_localArrayDecl S declName typeNode
  | hConstDef declName global exprNode typeNode =>
    intro hu w
    have hg : global = false := by simpa [Stmt.unflagged] using hu
    subst hg
    rw [visitStmt_ConstDef]
    exact keeps_localConstDef S declName exprNode
  | hProcDecl declName global paramNodes optBlockNode ih =>
    intro hu w
    rw [visitStmt_ProcDecl]
    refine GenM.Keeps.bind S.toExprStable
      (keeps_declareFunction S.toExprStable _ _ _ _ _) fun proc => ?_
    cases optBlockNode with
    | none => cases proc <;> exact GenM.Keeps.pure S.toExprStable _
    | some blockNode =>
      cases proc with
      | none => exact GenM.Keeps.pure S.toExprStable _
      | some proc =>
        have hb := ih blockNode rfl (unflagged_ProcDecl hu)
        dsimp only
        repeat' first
          | with_reducible exact hb _
          | with_reducible exact keeps_enterFunction S _ _
          | with_reducible exact GenM.Keeps.pure S.toExprStable _
          | with_reducible exact GenM.Keeps.throw S.toExprStable _
          | with_reducible exact keeps_get S.toExprStable
          | with_reducible exact keeps_getSymbol S.toExprStable _
          | with_reducible exact keeps_getFunction S.toExprStable _
          | with_reducible exact keeps_functionAt S.toExprStable _
          | with_reducible exact keeps_getInsertBlock S.toExprStable
          | with_reducible exact keeps_getInsertBlockParent S.toExprStable
          | with_reducible exact keeps_createBlock S.toExprStable _ _
          | with_reducible exact keeps_createFunction S.toExprStable _ _ _ _
          | with_reducible exact keeps_setInsertPoint S.toExprStable _
          | with_reducible exact keeps_visitExpr S.toExprStable _
          | with_reducible exact keeps_storeVisit S.toExprStable _
          | with_reducible exact keeps_expectValue S.toExprStable _
          | with_reducible exact keeps_getDefaultValueForType S.toExprStable _
          | with_reducible exact keeps_getArrayElementType S.toExprStable _
          | with_reducible exact keeps_getPointerElementType S.toExprStable _
          | with_reducible exact keeps_createSIToFP S.toExprStable _ _
          | with_reducible exact keeps_createAlloca S.toExprStable _ _
          | with_reducible exact keeps_createLoad S.toExprStable _ _ _
          | with_reducible exact keeps_createGEP S.toExprStable _ _ _ _
          | with_reducible exact keeps_createICmp S.toExprStable _ _ _ _
          | with_reducible exact keeps_createBinOp S.toExprStable _ _ _ _ (by simp)
          | with_reducible exact keeps_createBr S.toExprStable _
          | with_reducible exact keeps_createCondBr S.toExprStable _ _ _
          | with_reducible exact keeps_createRet S.toExprStable _
          | with_reducible exact keeps_createRetVoid S.toExprStable
          | with_reducible exact keeps_declareFunction S.toExprStable _ _ _ _ _
          | with_reducible exact keeps_createStore S _ _
          | with_reducible exact keeps_addSymbol S _ _
          | with_reducible exact keeps_setSymbolTable S _
          | with_reducible exact keeps_setArgumentNames S _ _
          | with_reducible apply GenM.Keeps.bind S.toExprStable
          | intro _
          | dsimp only
          | split
  | hFunDecl declName global paramNodes optBlockNode retTypeNode ih =>
    intro hu w
    rw [visitStmt_FunDecl]
    refine GenM.Keeps.bind S.toExprStable
      (keeps_declareFunction S.toExprStable _ _ _ _ _) fun func => ?_
    cases optBlockNode with
    | none => cases func <;> exact GenM.Keeps.pure S.toExprStable _
    | some blockNode =>
      cases func with
      | none => exact GenM.Keeps.pure S.toExprStable _
      | some func =>
        have hb := ih blockNode rfl (unflagged_FunDecl hu)
        dsimp only
        repeat' first
          | with_reducible exact hb _
          | with_reducible exact keeps_enterFunction S _ _
          | with_reducible exact keeps_createReturnSlot S _ _
          | with_reducible exact GenM.Keeps.pure S.toExprStable _
          | with_reducible exact GenM.Keeps.throw S.toExprStable _
          | with_reducible exact keeps_get S.toExprStable
          | with_reducible exact keeps_getSymbol S.toExprStable _
          | with_reducible exact keeps_getFunction S.toExprStable _
          | with_reducible exact keeps_functionAt S.toExprStable _
          | with_reducible exact keeps_getInsertBlock S.toExprStable
          | with_reducible exact keeps_getInsertBlockParent S.toExprStable
          | with_reducible exact keeps_createBlock S.toExprStable _ _
          | with_reducible exact keeps_createFunction S.toExprStable _ _ _ _
          | with_reducible exact keeps_setInsertPoint S.toExprStable _
          | with_reducible exact keeps_visitExpr S.toExprStable _
          | with_reducible exact keeps_storeVisit S.toExprStable _
          | with_reducible exact keeps_expectValue S.toExprStable _
          | with_reducible exact keeps_getDefaultValueForType S.toExprStable _
          | with_reducible exact keeps_getArrayElementType S.toExprStable _
          | with_reducible exact keeps_getPointerElementType S.toExprStable _
          | with_reducible exact keeps_createSIToFP S.toExprStable _ _
          | with_reducible exact keeps_createAlloca S.toExprStable _ _
          | with_reducible exact keeps_createLoad S.toExprStable _ _ _
          | with_reducible exact keeps_createGEP S.toExprStable _ _ _ _
          | with_reducible exact keeps_createICmp S.toExprStable _ _ _ _
          | with_reducible exact keeps_createBinOp S.toExprStable _ _ _ _ (by simp)
          | with_reducible exact keeps_createBr S.toExprStable _
          | with_reducible exact keeps_createCondBr S.toExprStable _ _ _
          | with_reducible exact keeps_createRet S.toExprStable _
          | with_reducible exact keeps_createRetVoid S.toExprStable
          | with_reducible exact keeps_declareFunction S.toExprStable _ _ _ _ _
          | with_reducible exact keeps_createStore S _ _
          | with_reducible exact keeps_addSymbol S _ _
          | with_reducible exact keeps_setSymbolTable S _
          | with_reducible exact keeps_setArgumentNames S _ _
          | with_reducible apply GenM.Keeps.bind S.toExprStable
          | intro _
          | dsimp only
          | split
  | hAssign varNode exprNode =>
    intro _ w
    rw [visitStmt_Assign]
    exact keeps_visitAssign S _ _
  | hIf condNode bodyNode optElseBodyNode ih1 ih2 =>
    intro hu w
    obtain ⟨h1, h2⟩ := unflagged_If hu
    have hb := ih1 h1
    rw [visitStmt_If]
    cases optElseBodyNode with
    | none =>
      repeat' first
        | with_reducible exact hb _
        | with_reducible exact GenM.Keeps.pure S.toExprStable _
        | with_reducible exact GenM.Keeps.throw S.toExprStable _
        | with_reducible exact keeps_get S.toExprStable
        | with_reducible exact keeps_getSymbol S.toExprStable _
        | with_reducible exact keeps_getFunction S.toExprStable _
        | with_reducible exact keeps_functionAt S.toExprStable _
        | with_reducible exact keeps_getInsertBlock S.toExprStable
        | with_reducible exact keeps_getInsertBlockParent S.toExprStable
        | with_reducible exact keeps_createBlock S.toExprStable _ _
        | with_reducible exact keeps_createFunction S.toExprStable _ _ _ _
        | with_reducible exact keeps_setInsertPoint S.toExprStable _
        | with_reducible exact keeps_visitExpr S.toExprStable _
        | with_reducible exact keeps_storeVisit S.toExprStable _
        | with_reducible exact keeps_expectValue S.toExprStable _
        | with_reducible exact keeps_getDefaultValueForType S.toExprStable _
        | with_reducible exact keeps_getArrayElementType S.toExprStable _
        | with_reducible exact keeps_getPointerElementType S.toExprStable _
        | with_reducible exact keeps_createSIToFP S.toExprStable _ _
        | with_reducible exact keeps_createAlloca S.toExprStable _ _
        | with_reducible exact keeps_createLoad S.toExprStable _ _ _
        | with_reducible exact keeps_createGEP S.toExprStable _ _ _ _
        | with_reducible exact keeps_createICmp S.toExprStable _ _ _ _
        | with_reducible exact keeps_createBinOp S.toExprStable _ _ _ _ (by simp)
        | with_reducible exact keeps_createBr S.toExprStable _
        | with_reducible exact keeps_createCondBr S.toExprStable _ _ _
        | with_reducible exact keeps_createRet S.toExprStable _
        | with_reducible exact keeps_createRetVoid S.toExprStable
        | with_reducible exact keeps_declareFunction S.toExprStable _ _ _ _ _
        | with_reducible exact keeps_createStore S _ _
        | with_reducible exact keeps_addSymbol S _ _
        | with_reducible exact keeps_setSymbolTable S _
        | with_reducible exact keeps_setArgumentNames S _ _
        | with_reducible apply GenM.Keeps.bind S.toExprStable
        | intro _
        | dsimp only
        | split
    | some elseBodyNode =>
      have he := ih2 elseBodyNode rfl (h2 elseBodyNode rfl)
      repeat' first
        | with_reducible exact hb _
        | with_reducible exact he _
        | with_reducible exact GenM.Keeps.pure S.toExprStable _
        | with_reducible exact GenM.Keeps.throw S.toExprStable _
        | with_reducible exact keeps_get S.toExprStable
        | with_reducible exact keeps_getSymbol S.toExprStable _
        | with_reducible exact keeps_getFunction S.toExprStable _
        | with_reducible exact keeps_functionAt S.toExprStable _
        | with_reducible exact keeps_getInsertBlock S.toExprStable
        | with_reducible exact keeps_getInsertBlockParent S.toExprStable
        | with_reducible exact keeps_createBlock S.toExprStable _ _
        | with_reducible exact keeps_createFunction S.toExprStable _ _ _ _
        | with_reducible exact keeps_setInsertPoint S.toExprStable _
        | with_reducible exact keeps_visitExpr S.toExprStable _
        | with_reducible exact keeps_storeVisit S.toExprStable _
        | with_reducible exact keeps_expectValue S.toExprStable _
        | with_reducible exact keeps_getDefaultValueForType S.toExprStable _
        | with_reducible exact keeps_getArrayElementType S.toExprStable _
        | with_reducible exact keeps_getPointerElementType S.toExprStable _
        | with_reducible exact keeps_createSIToFP S.toExprStable _ _
        | with_reducible exact keeps_createAlloca S.toExprStable _ _
        | with_reducible exact keeps_createLoad S.toExprStable _ _ _
        | with_reducible exact keeps_createGEP S.toExprStable _ _ _ _
        | with_reducible exact keeps_createICmp S.toExprStable _ _ _ _
        | with_reducible exact keeps_createBinOp S.toExprStable _ _ _ _ (by simp)
        | with_reducible exact keeps_createBr S.toExprStable _
        | with_reducible exact keeps_createCondBr S.toExprStable _ _ _
        | with_reducible exact keeps_createRet S.toExprStable _
        | with_reducible exact keeps_createRetVoid S.toExprStable
        | with_reducible exact keeps_declareFunction S.toExprStable _ _ _ _ _
        | with_reducible exact keeps_createStore S _ _
        | with_reducible exact keeps_addSymbol S _ _
        | with_reducible exact keeps_setSymbolTable S _
        | with_reducible exact keeps_setArgumentNames S _ _
        | with_reducible apply GenM.Keeps.bind S.toExprStable
        | intro _
        | dsimp only
        | split
  | hWhile condNode bodyNode ih =>
    intro hu w
    have hb := ih (unflagged_While hu)
    rw [visitStmt_While]
    repeat' first
      | with_reducible exact hb _
      | with_reducible exact GenM.Keeps.pure S.toExprStable _
      | with_reducible exact GenM.Keeps.throw S.toExprStable _
      | with_reducible exact keeps_get S.toExprStable
      | with_reducible exact keeps_getSymbol S.toExprStable _
      | with_reducible exact keeps_getFunction S.toExprStable _
      | with_reducible exact keeps_functionAt S.toExprStable _
      | with_reducible exact keeps_getInsertBlock S.toExprStable
      | with_reducible exact keeps_getInsertBlockParent S.toExprStable
      | with_reducible exact keeps_createBlock S.toExprStable _ _
      | with_reducible exact keeps_createFunction S.toExprStable _ _ _ _
      | with_reducible exact keeps_setInsertPoint S.toExprStable _
      | with_reducible exact keeps_visitExpr S.toExprStable _
      | with_reducible exact keeps_storeVisit S.toExprStable _
      | with_reducible exact keeps_expectValue S.toExprStable _
      | with_reducible exact keeps_getDefaultValueForType S.toExprStable _
      | with_reducible exact keeps_getArrayElementType S.toExprStable _
      | with_reducible exact keeps_getPointerElementType S.toExprStable _
      | with_reducible exact keeps_createSIToFP S.toExprStable _ _
      | with_reducible exact keeps_createAlloca S.toExprStable _ _
      | with_reducible exact keeps_createLoad S.toExprStable _ _ _
      | with_reducible exact keeps_createGEP S.toExprStable _ _ _ _
      | with_reducible exact keeps_createICmp S.toExprStable _ _ _ _
      | with_reducible exact keeps_createBinOp S.toExprStable _ _ _ _ (by simp)
      | with_reducible exact keeps_createBr S.toExprStable _
      | with_reducible exact keeps_createCondBr S.toExprStable _ _ _
      | with_reducible exact keeps_createRet S.toExprStable _
      | with_reducible exact keeps_createRetVoid S.toExprStable
      | with_reducible exact keeps_declareFunction S.toExprStable _ _ _ _ _
      | with_reducible exact keeps_createStore S _ _
      | with_reducible exact keeps_addSymbol S _ _
      | with_reducible exact keeps_setSymbolTable S _
      | with_reducible exact keeps_setArgumentNames S _ _
      | with_reducible apply GenM.Keeps.bind S.toExprStable
      | intro _
      | dsimp only
      | split
  | hFor initNode toNode bodyNode increasing ih1 ih2 =>
    intro hu w
    obtain ⟨h1, h2⟩ := unflagged_For hu
    have hi := ih1 h1
    have hb := ih2 h2
    rw [visitStmt_For]
    repeat' first
      | with_reducible exact hi _
      | with_reducible exact hb _
      | with_reducible exact GenM.Keeps.pure S.toExprStable _
      | with_reducible exact GenM.Keeps.throw S.toExprStable _
      | with_reducible exact keeps_get S.toExprStable
      | with_reducible exact keeps_getSymbol S.toExprStable _
      | with_reducible exact keeps_getFunction S.toExprStable _
      | with_reducible exact keeps_functionAt S.toExprStable _
      | with_reducible exact keeps_getInsertBlock S.toExprStable
      | with_reducible exact keeps_getInsertBlockParent S.toExprStable
      | with_reducible exact keeps_createBlock S.toExprStable _ _
      | with_reducible exact keeps_createFunction S.toExprStable _ _ _ _
      | with_reducible exact keeps_setInsertPoint S.toExprStable _
      | with_reducible exact keeps_visitExpr S.toExprStable _
      | with_reducible exact keeps_storeVisit S.toExprStable _
      | with_reducible exact keeps_expectValue S.toExprStable _
      | with_reducible exact keeps_getDefaultValueForType S.toExprStable _
      | with_reducible exact keeps_getArrayElementType S.toExprStable _
      | with_reducible exact keeps_getPointerElementType S.toExprStable _
      | with_reducible exact keeps_createSIToFP S.toExprStable _ _
      | with_reducible exact keeps_createAlloca S.toExprStable _ _
      | with_reducible exact keeps_createLoad S.toExprStable _ _ _
      | with_reducible exact keeps_createGEP S.toExprStable _ _ _ _
      | with_reducible exact keeps_createICmp S.toExprStable _ _ _ _
      | with_reducible exact keeps_createBinOp S.toExprStable _ _ _ _ (by simp)
      | with_reducible exact keeps_createBr S.toExprStable _
      | with_reducible exact keeps_createCondBr S.toExprStable _ _ _
      | with_reducible exact keeps_createRet S.toExprStable _
      | with_reducible exact keeps_createRetVoid S.toExprStable
      | with_reducible exact keeps_declareFunction S.toExprStable _ _ _ _ _
      | with_reducible exact keeps_createStore S _ _
      | with_reducible exact keeps_addSymbol S _ _
      | with_reducible exact keeps_setSymbolTable S _
      | with_reducible exact keeps_setArgumentNames S _ _
      | with_reducible apply GenM.Keeps.bind S.toExprStable
      | intro _
      | dsimp only
      | split
  | hProcCall procName argNodes =>
    intro _ w
    rw [visitStmt_ProcCall]
    repeat' first
      | with_reducible exact keeps_handle S _ _
      | with_reducible exact GenM.Keeps.pure S.toExprStable _
      | with_reducible exact GenM.Keeps.throw S.toExprStable _
      | with_reducible exact keeps_get S.toExprStable
      | with_reducible exact keeps_getSymbol S.toExprStable _
      | with_reducible exact keeps_getFunction S.toExprStable _
      | with_reducible exact keeps_functionAt S.toExprStable _
      | with_reducible exact keeps_getInsertBlock S.toExprStable
      | with_reducible exact keeps_getInsertBlockParent S.toExprStable
      | with_reducible exact keeps_createBlock S.toExprStable _ _
      | with_reducible exact keeps_createFunction S.toExprStable _ _ _ _
      | with_reducible exact keeps_setInsertPoint S.toExprStable _
      | with_reducible exact keeps_visitExpr S.toExprStable _
      | with_reducible exact keeps_storeVisit S.toExprStable _
      | with_reducible exact keeps_expectValue S.toExprStable _
      | with_reducible exact keeps_getDefaultValueForType S.toExprStable _
      | with_reducible exact keeps_getArrayElementType S.toExprStable _
      | with_reducible exact keeps_getPointerElementType S.toExprStable _
      | with_reducible exact keeps_createSIToFP S.toExprStable _ _
      | with_reducible exact keeps_createAlloca S.toExprStable _ _
      | with_reducible exact keeps_createLoad S.toExprStable _ _ _
      | with_reducible exact keeps_createGEP S.toExprStable _ _ _ _
      | with_reducible exact keeps_createICmp S.toExprStable _ _ _ _
      | with_reducible exact keeps_createBinOp S.toExprStable _ _ _ _ (by simp)
      | with_reducible exact keeps_createBr S.toExprStable _
      | with_reducible exact keeps_createCondBr S.toExprStable _ _ _
      | with_reducible exact keeps_createRet S.toExprStable _
      | with_reducible exact keeps_createRetVoid S.toExprStable
      | with_reducible exact keeps_declareFunction S.toExprStable _ _ _ _ _
      | with_reducible exact keeps_createStore S _ _
      | with_reducible exact keeps_addSymbol S _ _
      | with_reducible exact keeps_setSymbolTable S _
      | with_reducible exact keeps_setArgumentNames S _ _
      | with_reducible apply GenM.Keeps.bind S.toExprStable
      | intro _
      | dsimp only
      | split
  | hEmptyStmt =>
    intro _ w
    rw [visitStmt_EmptyStmt]
    exact GenM.Keeps.pure S.toExprStable _
  | hBreak =>
    intro _ w
    rw [visitStmt_Break]
    exact keeps_visitBreak S w
  | hExit =>
    intro _ w
    rw [visitStmt_Exit]
    exact keeps_visitExit S w

theorem noVariableSince_refl (g : GenContext) : NoVariableSince g g :=
  ⟨[], by simp, by simp⟩

theorem noVariableSince_of_globals {g g' : GenContext} (h : g'.globals = g.globals) :
    NoVariableSince g g' := ⟨[], by simp [h], by simp⟩

theorem noVariableSince_stable : StmtStable NoVariableSince where
  refl := noVariableSince_refl
  trans g1 g2 g3 := by
    rintro ⟨n1, h1, k1⟩ ⟨n2, h2, k2⟩
    refine ⟨n1 ++ n2, by rw [h2, h1, List.append_assoc], fun v hv => ?_⟩
    rcases List.mem_append.1 hv with h | h
    · exact k1 v h
    · exact k2 v h
  emit g opcode operands type name _ := noVariableSince_of_globals rfl
  addBlock g name func := noVariableSince_of_globals rfl
  setInsertBlock g block := noVariableSince_of_globals rfl
  addString g text := ⟨[_], rfl, fun v hv => by
    rw [List.mem_singleton] at hv
    exact ⟨text, by rw [hv]⟩⟩
  addFunction g returnType paramTypes isVarArg name := noVariableSince_of_globals rfl
  store g operands type name := noVariableSince_of_globals rfl
  setSymbolTable g table := noVariableSince_of_globals rfl
  setArgumentNames g func names := noVariableSince_of_globals rfl

theorem ensures_addSymbol_storage (name : String) (symbol : Symbol) (global : Bool)
    (h : symbol.isGlobal = global) :
    GenM.Ensures
      (fun g' => ∃ s, g'.symbolTable.lookup name = some s ∧ s.isGlobal = global)
      (addSymbol name symbol) :=
  ⟨fun g a g' hrun => ⟨symbol, (ensures_addSymbol name symbol).after g a g' hrun, h⟩⟩

theorem ensures_storage_visitVarDecl (setGlobal : Bool) (node : VarDecl) :
    GenM.Ensures
      (fun g' => ∃ s, g'.symbolTable.lookup node.declName = some s ∧
        s.isGlobal = isGlobal setGlobal node.global)
      (visitVarDecl setGlobal node) := by
  unfold visitVarDecl
  repeat' first
    | with_reducible exact ensures_throw _ _
    | exact ensures_addSymbol_storage _ _ _ (by simp [Symbol.isGlobal, *])
    | with_reducible apply ensures_bind
    | intro _
    | dsimp only
    | split

theorem ensures_storage_visitArrayDecl (setGlobal : Bool) (declName : String) (global : Bool)
    (typeNode : ArrayType) :
    GenM.Ensures
      (fun g' => ∃ s, g'.symbolTable.lookup declName = some s ∧
        s.isGlobal = isGlobal setGlobal global)
      (visitArrayDecl setGlobal declName global typeNode) := by
  unfold visitArrayDecl
  repeat' first
    | with_reducible exact ensures_throw _ _
    | exact ensures_addSymbol_storage _ _ _ (by simp [Symbol.isGlobal, *])
    | with_reducible apply ensures_bind
    | intro _
    | dsimp only
    | split

theorem ensures_storage_visitConstDef (setGlobal : Bool) (declName : String) (global : Bool)
    (exprNode : Expr) :
    GenM.Ensures
      (fun g' => ∃ s, g'.symbolTable.lookup declName = some s ∧
        s.isGlobal = isGlobal setGlobal global)
      (visitConstDef setGlobal declName global exprNode) := by
  unfold visitConstDef
  repeat' first
    | with_reducible exact ensures_throw _ _
    | exact ensures_addSymbol_storage _ _ _ (by simp [Symbol.isGlobal, *])
    | with_reducible apply ensures_bind
    | intro _
    | dsimp only
    | split

theorem noNewGlobalSymbols_refl (g : GenContext) : NoNewGlobalSymbols g g := fun _ _ h _ => h

theorem noNewGlobalSymbols_trans {g1 g2 g3 : GenContext} (h1 : NoNewGlobalSymbols g1 g2)
    (h2 : NoNewGlobalSymbols g2 g3) : NoNewGlobalSymbols g1 g3 :=
  fun n s h hs => h1 n s (h2 n s h hs) hs

theorem noNewGlobalSymbols_addSymbol (g : GenContext) (name : String) (symbol : Symbol)
    (h : symbol.isGlobal = false) :
    NoNewGlobalSymbols g ((addSymbol name symbol).run g).2 := by
  by_cases hc : g.symbolTable.contains name = true
  · simp only [addSymbol, GenM.run, hc, if_true]
    exact noNewGlobalSymbols_refl g
  · rw [addSymbol_run symbol (by simpa using hc)]
    intro n s hl hs
    simp only [setSymbolTable_symbolTable, List.lookup] at hl
    split at hl
    · simp only [Option.some.injEq] at hl
      rw [← hl, h] at hs
      exact absurd hs (by decide)
    · exact hl

theorem storeArguments_local (func : Nat) :
    ∀ (types : List LType) (i : Nat) (names : List String) (paramNodes : List VarDecl),
      GenM.Keeps NoNewGlobalSymbols (storeArguments func i types names paramNodes) := by
  intro types
  induction types with
  | nil =>
    intro i names paramNodes
    refine ⟨fun g => ?_⟩
    unfold storeArguments
    exact noNewGlobalSymbols_refl g
  | cons type types ih =>
    intro i names paramNodes
    refine ⟨fun g => ?_⟩
    cases names with
    | nil => unfold storeArguments; exact noNewGlobalSymbols_refl g
    | cons name names =>
      cases paramNodes with
      | nil => unfold storeArguments; exact noNewGlobalSymbols_refl g
      | cons param paramNodes =>
        unfold storeArguments
        simp only [CreateAlloca, CreateStore, GenM.bind_run, insert_run]
        have h1 := noNewGlobalSymbols_addSymbol
          ((g.emit (.alloca type) [] (.pointer type) name).emit .store
            [.argument func i type, .instruction g.code.length (.pointer type)] .void "")
          name ⟨name, .primitive param.typeNode,
            .allocaInst (.instruction g.code.length (.pointer type)), false⟩ rfl
        rcases h2 : (addSymbol name ⟨name, .primitive param.typeNode,
            .allocaInst (.instruction g.code.length (.pointer type)), false⟩).run
          ((g.emit (.alloca type) [] (.pointer type) name).emit .store
            [.argument func i type, .instruction g.code.length (.pointer type)] .void "")
          with ⟨r, g1⟩
        rw [h2] at h1
        have h0 : NoNewGlobalSymbols g g1 := fun n s hl hs => h1 n s hl hs
        cases r with
        | error e => exact h0
        | ok u => exact noNewGlobalSymbols_trans h0 ((ih (i + 1) names paramNodes).after g1)

/-- C36. Global and local storage. A variable, array or constant declaration that is
lowered binds its name to a symbol whose storage is global exactly if `setGlobal(true)` has
been called on the node (or the node was built with the flag). The visit of the program
lowers the statements of the main block, and only them, with that call made: its direct
children. A statement `s` whose tree is as the parser builds it and on which the call has
not been made is lowered without a global variable being added to the module, whatever
declarations its tree holds, and so is a direct child of the main block that is no
variable, array or constant declaration, a procedure or function with its body among
them. The stack slots of the parameters and of the result of a function add no global
variable and bind no symbol with global storage. In the lowering of the program of the test
`HandlesGlobalVariables` the named global variables are `K`, `y` and `arr` and the only
stack allocation is the result of `func`; in the lowering of a program with parameters and
local declarations they are all stack allocations. Every program that the parser returns
has a tree as required here: no flag is set in it. -/
theorem C36_global_or_local (w : Wiring) (s : Stmt) (hs : s.unflagged = true) :
    (∀ (g g' : GenContext) (setGlobal : Bool) (node : VarDecl),
      (visitVarDecl setGlobal node).run g = (.ok (), g') →
      ∃ symbol, g'.symbolTable.lookup node.declName = some symbol ∧
        symbol.isGlobal = isGlobal setGlobal node.global) ∧
    (∀ (g g' : GenContext) (setGlobal : Bool) (declName : String) (global : Bool)
      (typeNode : ArrayType),
      (visitArrayDecl setGlobal declName global typeNode).run g = (.ok (), g') →
      ∃ symbol, g'.symbolTable.lookup declName = some symbol ∧
        symbol.isGlobal = isGlobal setGlobal global) ∧
    (∀ (g g' : GenContext) (setGlobal : Bool) (declName : String) (global : Bool)
      (exprNode : Expr),
      (visitConstDef setGlobal declName global exprNode).run g = (.ok (), g') →
      ∃ symbol, g'.symbolTable.lookup declName = some symbol ∧
        symbol.isGlobal = isGlobal setGlobal global) ∧
    (∀ global, isGlobal true global = true ∧ isGlobal false global = global) ∧
    (∀ (g : GenContext) (programName : String) (main : Bool) (statementNodes : List Stmt),
      (visitProgram ⟨programName, .Block main statementNodes⟩).run g =
        (do
          visitStmts { Wiring.initial with retV := .value (.constantInt (.integer 32) 0) }
            true statementNodes
          let _ ← CreateRet (.constantInt (.integer 32) 0)).run
          (((g.addFunction (.integer 32) [] false "main").addBlock "entry"
            (some g.functions.length)).setInsertBlock g.blocks.length)) ∧
    (∀ g, NoVariableSince g ((visitStmt w false s).run g).2) ∧
    (s.isStorageDecl = false → ∀ g, NoVariableSince g ((visitStmt w true s).run g).2) ∧
    (∀ (g : GenContext) (func i : Nat) (types : List LType) (names : List String)
      (paramNodes : List VarDecl),
      NoVariableSince g ((storeArguments func i types names paramNodes).run g).2 ∧
      NoNewGlobalSymbols g ((storeArguments func i types names paramNodes).run g).2) ∧
    (∀ (g g' : GenContext) (declName : String) (retTypeNode : PrimitiveType) (slot : Value),
      (createReturnSlot declName retTypeNode).run g = (.ok slot, g') →
      NoVariableSince g g' ∧
      g'.symbolTable.lookup declName =
        some ⟨declName, .primitive retTypeNode, .allocaInst slot, false⟩) ∧
    ((parseSource 200 ("program test;\nconst K = 1 + 2;\nvar y : integer;\n" ++
        "var arr : array [0 .. 10] of integer;\n" ++
        "procedure proc(); begin arr[5] := 1; end;\n" ++
        "function func(): integer; begin y := 3; end;\nbegin\n arr[6] := 2;\n proc();\n" ++
        " func();\n write(arr[5]); write(arr[6]); write(K);\nend.\n").toList).map
      fun p => ((generate p).1,
        ((generate p).2.globals.map GlobalVariable.name).filter (· ≠ ""),
        ((generate p).2.code.filter fun i => i.2.opcode matches .alloca _).map
          fun i => i.2.name)) = .ok (.ok (), ["K", "y", "arr"], ["func"]) ∧
    ((parseSource 200 ("program t; var y: integer; procedure p(a: integer); " ++
        "var b: integer; const c = 2; begin b := a end; function f(a: integer): integer; " ++
        "var X: array [0 .. 1] of integer; begin f := a end; begin end.").toList).map
      fun p => ((generate p).1,
        ((generate p).2.globals.map GlobalVariable.name).filter (· ≠ ""),
        ((generate p).2.code.filter fun i => i.2.opcode matches .alloca _).map
          fun i => i.2.name)) = .ok (.ok (), ["y"], ["a", "b", "c", "a", "f", "X"]) ∧
    (∀ (fuel : Nat) (source : List Char) (program : Program),
      parseSource fuel source = .ok program →
      ∃ statementNodes, program.blockNode = .Block false statementNodes ∧
        unflaggedList statementNodes = true) := by
  refine ⟨fun g g' sg node h => (ensures_storage_visitVarDecl sg node).after g () g' h,
    fun g g' sg n gl t h => (ensures_storage_visitArrayDecl sg n gl t).after g () g' h,
    fun g g' sg n gl e h => (ensures_storage_visitConstDef sg n gl e).after g () g' h,
    fun global => ⟨rfl, by simp [isGlobal]⟩, fun g programName main statementNodes => ?_,
    fun g => (keeps_visitStmt noVariableSince_stable s hs w).after g,
    fun hd g => ?_,
    fun g func i types names params =>
      ⟨(keeps_storeArgumentsOf noVariableSince_stable func types i names params).after g,
        (storeArguments_local func types i names params).after g⟩,
    fun g g' declName t slot h => ?_, by decide!, by decide!,
    fun _ _ _ h => parseSource_unflagged h⟩
  · show (visitStmt Wiring.initial false (.Block true statementNodes)).run g = _
    rw [visitStmt_Block]
    simp only [if_true]
    rw [GenM.bind_ok (createFunction_run _ _ _ _ _), GenM.bind_ok (createBlock_run _ _ _),
      GenM.bind_ok (setInsertPoint_run _ _)]
    rfl
  · rw [visitStmt_flag w true hd]
    exact (keeps_visitStmt noVariableSince_stable s hs w).after g
  · have hk := (keeps_createReturnSlot noVariableSince_stable declName t).after g
    rw [h] at hk
    obtain ⟨defaultV, _, e2, e3⟩ := createReturnSlot_inv h
    refine ⟨hk, ?_⟩
    rw [e3]
    simp [List.lookup]

/-- Witness of C36: the body `var b: integer; begin b := 1 end` of a procedure, visited in
the state after `sampleProgram`, adds no global variable to the module. -/
theorem C36_global_or_local_witness :
    NoVariableSince sampleContext
      ((visitStmt Wiring.initial false
        (.Block false [.VarDeclStmt ⟨"b", false, .INTEGER⟩,
          .CompoundStmt [.Assign (.DeclVarRef "b") (.Literal (.int 1))]])).run
        sampleContext).2 :=
  (C36_global_or_local Wiring.initial
    (.Block false [.VarDeclStmt ⟨"b", false, .INTEGER⟩,
      .CompoundStmt [.Assign (.DeclVarRef "b") (.Literal (.int 1))]]) rfl).2.2.2.2.2.1
    sampleContext
/-! ## Well-formed blocks -/

theorem isTerminator_mk (id : Nat) (opcode : Opcode) (operands : List Value) (type : LType)
    (name : String) :
    Instruction.isTerminator ⟨id, opcode, operands, type, name⟩ = opcode.isTerminator := rfl

theorem instructionsOf_emit (g : GenContext) (opcode : Opcode) (operands : List Value)
    (type : LType) (name : String) (b : Nat) :
    (g.emit opcode operands type name).instructionsOf b =
      if g.insertBlock = some b then
        g.instructionsOf b ++ [⟨g.code.length, opcode, operands, type, name⟩]
      else g.instructionsOf b := by
  by_cases h : g.insertBlock = some b
  · simp [GenContext.instructionsOf, h]
  · simp [GenContext.instructionsOf, h]

theorem blockOpen_append (is : List Instruction) (i : Instruction) :
    blockOpen (is ++ [i]) = (blockOpen is && !i.isTerminator) := by
  simp [blockOpen]

theorem blockWellFormed_append (is : List Instruction) (i : Instruction) :
    blockWellFormed (is ++ [i]) = (i.isTerminator && blockOpen is) := by
  simp [blockWellFormed]

theorem Shape.congr {terminated : Bool} {P P' : Set Nat} {g : GenContext}
    (h : Shape terminated P g) (hP : P = P') : Shape terminated P' g := hP ▸ h

theorem Shape.below {terminated : Bool} {P : Set Nat} {g : GenContext}
    (h : Shape terminated P g) : ∀ b ∈ P, b < g.blocks.length := by
  intro b hb
  obtain ⟨⟨block, f, hblock, _⟩, _⟩ := h.pending b hb
  exact (List.getElem?_eq_some_iff.1 hblock).1

theorem Shape.emit {P : Set Nat} {g : GenContext} (h : Shape false P g) (opcode : Opcode)
    (operands : List Value) (type : LType) (name : String)
    (ho : opcode.isTerminator = false) : Shape false P (g.emit opcode operands type name) := by
  obtain ⟨c, block, f, hc, hblock, hf, hcP⟩ := h.current
  refine ⟨⟨c, block, f, hc, hblock, hf, hcP⟩, fun _ c' hc' => ?_, fun b hb => ?_,
    fun b hb hbP hcur => ?_, fun p hp => ?_, h.parents, h.entries⟩
  · have hc'' : g.insertBlock = some c' := hc'
    rw [instructionsOf_emit, if_pos hc'', blockOpen_append, isTerminator_mk, ho,
      h.opened rfl c' hc'']
    rfl
  · have hne : g.insertBlock ≠ some b := by
      rw [hc]
      intro e
      cases e
      exact hcP hb
    rw [instructionsOf_emit, if_neg hne]
    exact h.pending b hb
  · have hne : g.insertBlock ≠ some b := hcur rfl
    rw [instructionsOf_emit, if_neg hne]
    exact h.finished b hb hbP hcur
  · rw [emit_code, List.mem_append, List.mem_singleton] at hp
    rcases hp with hp | rfl
    · exact h.tagged p hp
    · exact ⟨c, hc, (List.getElem?_eq_some_iff.1 hblock).1⟩

theorem Shape.terminate {P : Set Nat} {g : GenContext} (h : Shape false P g) (opcode : Opcode)
    (operands : List Value) (type : LType) (name : String)
    (ho : opcode.isTerminator = true) : Shape true P (g.emit opcode operands type name) := by
  obtain ⟨c, block, f, hc, hblock, hf, hcP⟩ := h.current
  refine ⟨⟨c, block, f, hc, hblock, hf, hcP⟩, (fun ht => by cases ht), fun b hb => ?_,
    fun b hb hbP _ => ?_, fun p hp => ?_, h.parents, h.entries⟩
  · have hne : g.insertBlock ≠ some b := by
      rw [hc]
      intro e
      cases e
      exact hcP hb
    rw [instructionsOf_emit, if_neg hne]
    exact h.pending b hb
  · by_cases hcur : g.insertBlock = some b
    · rw [instructionsOf_emit, if_pos hcur, blockWellFormed_append, isTerminator_mk, ho,
        h.opened rfl b hcur]
      rfl
    · rw [instructionsOf_emit, if_neg hcur]
      exact h.finished b hb hbP fun _ => hcur
  · rw [emit_code, List.mem_append, List.mem_singleton] at hp
    rcases hp with hp | rfl
    · exact h.tagged p hp
    · exact ⟨c, hc, (List.getElem?_eq_some_iff.1 hblock).1⟩

theorem Shape.instructionsOf_new {terminated : Bool} {P : Set Nat} {g : GenContext}
    (h : Shape terminated P g) {b : Nat} (hb : g.blocks.length ≤ b) :
    g.instructionsOf b = [] := by
  simp only [GenContext.instructionsOf, List.map_eq_nil_iff, List.filter_eq_nil_iff]
  intro p hp hpb
  obtain ⟨b', h1, h2⟩ := h.tagged p hp
  rw [of_decide_eq_true hpb] at h1
  cases h1
  omega

theorem Shape.addBlock {terminated : Bool} {P : Set Nat} {g : GenContext}
    (h : Shape terminated P g) (name : String) (f : Nat)
    (hname : (name = "entry") ↔
      ∀ (b' : Nat) (block' : BasicBlock), g.blocks[b']? = some block' →
        block'.parent ≠ some f)
    (hfn : f < g.functions.length) :
    Shape terminated (P ∪ {g.blocks.length}) (g.addBlock name (some f)) := by
  obtain ⟨c, block, f0, hc, hblock, hf, hcP⟩ := h.current
  have hclt : c < g.blocks.length := (List.getElem?_eq_some_iff.1 hblock).1
  have hold : ∀ b, b < g.blocks.length →
      (g.addBlock name (some f)).blocks[b]? = g.blocks[b]? := fun b hb => by
    rw [addBlock_blocks, List.getElem?_append_left hb]
  have hnew : (g.addBlock name (some f)).blocks[g.blocks.length]? = some ⟨name, some f⟩ := by
    rw [addBlock_blocks, List.getElem?_append_right (Nat.le_refl _)]
    simp
  have hlen : (g.addBlock name (some f)).blocks.length = g.blocks.length + 1 := by simp
  refine ⟨⟨c, block, f0, hc, by rw [hold c hclt]; exact hblock, hf, ?_⟩, h.opened,
    fun b hb => ?_, fun b hb hbP hcur => ?_, fun p hp => ?_, fun b block' f' hb hf' => ?_,
    fun b block' f' hb hf' => ?_⟩
  · rintro (e | e)
    · exact hcP e
    · have e' : c = g.blocks.length := e
      omega
  · rcases hb with hb | hb
    · obtain ⟨⟨block', f', h1, h2⟩, h3⟩ := h.pending b hb
      exact ⟨⟨block', f', by rw [hold b (h.below b hb)]; exact h1, h2⟩, h3⟩
    · have e' : b = g.blocks.length := hb
      subst e'
      exact ⟨⟨_, f, hnew, rfl⟩, by
        show blockOpen (g.instructionsOf g.blocks.length) = true
        rw [h.instructionsOf_new (Nat.le_refl _)]
        rfl⟩
  · have hb' : b < g.blocks.length := by
      rw [hlen] at hb
      by_contra hge
      exact hbP (Or.inr (show b = g.blocks.length by omega))
    exact h.finished b hb' (fun hin => hbP (Or.inl hin)) hcur
  · obtain ⟨b, h1, h2⟩ := h.tagged p hp
    exact ⟨b, h1, by rw [hlen]; omega⟩
  · by_cases hlt : b < g.blocks.length
    · rw [hold b hlt] at hb
      exact h.parents b block' f' hb hf'
    · have hbe : b = g.blocks.length := by
        have := (List.getElem?_eq_some_iff.1 hb).1
        rw [hlen] at this
        omega
      subst hbe
      rw [hnew] at hb
      cases hb
      cases hf'
      exact hfn
  · by_cases hlt : b < g.blocks.length
    · rw [hold b hlt] at hb
      rw [h.entries b block' f' hb hf']
      constructor
      · intro hall b' block'' hb' hget
        rw [hold b' (by omega)] at hget
        exact hall b' block'' hb' hget
      · intro hall b' block'' hb' hget
        exact hall b' block'' hb' (by rw [hold b' (by omega)]; exact hget)
    · have hbe : b = g.blocks.length := by
        have := (List.getElem?_eq_some_iff.1 hb).1
        rw [hlen] at this
        omega
      subst hbe
      rw [hnew] at hb
      cases hb
      cases hf'
      show name = "entry" ↔ _
      rw [hname]
      constructor
      · intro hall b' block'' hb' hget
        rw [hold b' hb'] at hget
        exact hall b' block'' hget
      · intro hall b' block'' hget
        have hb' := (List.getElem?_eq_some_iff.1 hget).1
        exact hall b' block'' hb' (by rw [hold b' hb']; exact hget)

theorem Shape.resume {P : Set Nat} {g : GenContext} (h : Shape true P g) {b : Nat}
    (hb : b ∈ P) : Shape false (P \ {b}) (g.setInsertBlock b) := by
  obtain ⟨⟨block, f, hblock, hf⟩, hopen⟩ := h.pending b hb
  refine ⟨⟨b, block, f, rfl, hblock, hf, fun hin => hin.2 rfl⟩, fun _ c hc => ?_,
    fun x hx => h.pending x hx.1, fun x hx hxP hcur => ?_, h.tagged, h.parents, h.entries⟩
  · rw [setInsertBlock_insertBlock] at hc
    cases hc
    exact hopen
  · have hxb : x ≠ b := fun e => hcur rfl (by rw [e]; rfl)
    exact h.finished x hx (fun hin => hxP ⟨hin, hxb⟩) (fun ht => by cases ht)

theorem Shape.suspend {P : Set Nat} {g : GenContext} (h : Shape false P g) {b c : Nat}
    (hb : b ∈ P) (hc : g.insertBlock = some c) :
    Shape false ((P \ {b}) ∪ {c}) (g.setInsertBlock b) := by
  obtain ⟨⟨block, f, hblock, hf⟩, hopen⟩ := h.pending b hb
  obtain ⟨c', cblock, cf, hc', hcblock, hcf, hcP⟩ := h.current
  rw [hc] at hc'
  cases hc'
  refine ⟨⟨b, block, f, rfl, hblock, hf, ?_⟩, fun _ x hx => ?_, fun x hx => ?_,
    fun x hx hxP hcur => ?_, h.tagged, h.parents, h.entries⟩
  · rintro (e | e)
    · exact e.2 rfl
    · have e' : b = c := e
      exact hcP (e' ▸ hb)
  · rw [setInsertBlock_insertBlock] at hx
    cases hx
    exact hopen
  · rcases hx with hx | hx
    · exact h.pending x hx.1
    · have e' : x = c := hx
      subst e'
      exact ⟨⟨cblock, cf, hcblock, hcf⟩, h.opened rfl _ hc⟩
  · have hxb : x ≠ b := fun e => hcur rfl (by rw [e]; rfl)
    have hxc : x ≠ c := fun e => hxP (Or.inr e)
    exact h.finished x hx (fun hin => hxP (Or.inl ⟨hin, hxb⟩)) fun _ e => by
      rw [hc] at e
      cases e
      exact hxc rfl

theorem Shape.frame {terminated : Bool} {P : Set Nat} {g g' : GenContext}
    (h : Shape terminated P g) (hcode : g'.code = g.code) (hblocks : g'.blocks = g.blocks)
    (hinsert : g'.insertBlock = g.insertBlock)
    (hfun : g.functions.length ≤ g'.functions.length) : Shape terminated P g' := by
  have hi : ∀ b, g'.instructionsOf b = g.instructionsOf b := fun b => by
    simp only [GenContext.instructionsOf, hcode]
  refine ⟨?_, fun ht c hc => ?_, fun b hb => ?_, fun b hb hbP hcur => ?_, fun p hp => ?_,
    fun b block f hb hf => ?_, fun b block f hb hf => ?_⟩
  · rw [hinsert, hblocks]
    exact h.current
  · rw [hi]
    exact h.opened ht c (by rw [← hinsert]; exact hc)
  · rw [hi, hblocks]
    exact h.pending b hb
  · rw [hi]
    exact h.finished b (by rw [← hblocks]; exact hb) hbP (by rw [← hinsert]; exact hcur)
  · rw [hblocks]
    exact h.tagged p (by rw [← hcode]; exact hp)
  · rw [hblocks] at hb
    exact Nat.lt_of_lt_of_le (h.parents b block f hb hf) hfun
  · rw [hblocks] at hb ⊢
    exact h.entries b block f hb hf

/-! ## What the lowering of expressions and declarations preserves -/

section Preserves
variable {I : GenContext → Prop}

theorem preserves_pure {α : Type} (_ : Tame I) (a : α) :
    GenM.Preserves I (Pure.pure a : GenM α) :=
  ⟨fun g a' g' hI h => by cases h; exact hI⟩

theorem preserves_throw {α : Type} (_ : Tame I) (e : GenError) :
    GenM.Preserves I (GenM.throw e : GenM α) :=
  ⟨fun g a' g' _ h => by cases h⟩

theorem preserves_bind {α β : Type} (_ : Tame I) {m : GenM α} {f : α → GenM β}
    (hm : GenM.Preserves I m) (hf : ∀ a, GenM.Preserves I (f a)) :
    GenM.Preserves I (m >>= f) := by
  refine ⟨fun g b g' hI h => ?_⟩
  obtain ⟨a, g1, h1, h2⟩ := GenM.bind_ok_inv h
  exact (hf a).after g1 b g' (hm.after g a g1 hI h1) h2

theorem preserves_get (_ : Tame I) : GenM.Preserves I GenM.get :=
  ⟨fun g a' g' hI h => by cases h; exact hI⟩

theorem preserves_getSymbol (T : Tame I) (name : String) :
    GenM.Preserves I (getSymbol name) := by
  unfold getSymbol
  refine preserves_bind T (preserves_get T) fun g => ?_
  split
  · exact preserves_pure T _
  · exact preserves_throw T _

theorem preserves_insert (T : Tame I) (opcode : Opcode) (operands : List Value)
    (type : LType) (name : String) (h : opcode.isTerminator = false) :
    GenM.Preserves I (insert opcode operands type name) :=
  ⟨fun g a' g' hI hrun => by cases hrun; exact T.emit g _ _ _ _ h hI⟩

theorem preserves_createFunction (T : Tame I) (returnType : LType) (paramTypes : List LType)
    (isVarArg : Bool) (name : String) :
    GenM.Preserves I (Function.Create returnType paramTypes isVarArg name) :=
  ⟨fun g a' g' hI hrun => by
    cases hrun
    exact T.frame g _ rfl rfl rfl (by simp [GenContext.addFunction]) hI⟩

theorem preserves_getFunction (_ : Tame I) (name : String) :
    GenM.Preserves I (getFunction name) :=
  ⟨fun g a' g' hI h => by cases h; exact hI⟩

theorem preserves_functionAt (_ : Tame I) (func : Nat) :
    GenM.Preserves I (functionAt func) :=
  ⟨fun g a' g' hI h => by rw [(functionAt_inv h).2]; exact hI⟩

theorem preserves_functionEmpty (_ : Tame I) (func : Nat) :
    GenM.Preserves I (functionEmpty func) :=
  ⟨fun g a' g' hI h => by cases h; exact hI⟩

theorem preserves_getInsertBlock (_ : Tame I) : GenM.Preserves I GetInsertBlock :=
  ⟨fun g a' g' hI h => by cases h; exact hI⟩

theorem preserves_globalString (T : Tame I) (text : String) :
    GenM.Preserves I (CreateGlobalStringPtr text) :=
  ⟨fun g a' g' hI hrun => by
    cases hrun
    exact T.frame g _ rfl rfl rfl (Nat.le_refl _) hI⟩

theorem preserves_newGlobalVariable (T : Tame I) (type : LType) (initializer : Value)
    (name : String) : GenM.Preserves I (newGlobalVariable type initializer name) :=
  ⟨fun g a' g' hI hrun => by
    cases hrun
    exact T.frame g _ rfl rfl rfl (Nat.le_refl _) hI⟩

theorem preserves_setSymbolTable (T : Tame I) (table : SymbolTable) :
    GenM.Preserves I (setSymbolTable table) :=
  ⟨fun g a' g' hI hrun => by
    cases hrun
    exact T.frame g _ rfl rfl rfl (Nat.le_refl _) hI⟩

theorem preserves_setArgumentNames (T : Tame I) (func : Nat) (names : List String) :
    GenM.Preserves I (setArgumentNames func names) :=
  ⟨fun g a' g' hI hrun => by
    cases hrun
    exact T.frame g _ rfl rfl rfl (by simp [GenContext.setArgumentNames]) hI⟩

theorem preserves_addSymbol (T : Tame I) (name : String) (symbol : Symbol) :
    GenM.Preserves I (addSymbol name symbol) := by
  refine ⟨fun g a' g' hI hrun => ?_⟩
  unfold addSymbol GenM.run at hrun
  dsimp only at hrun
  split at hrun
  · cases hrun
  · cases hrun
    exact T.frame g _ rfl rfl rfl (Nat.le_refl _) hI

theorem preserves_createStore (T : Tame I) (val ptr : Value) :
    GenM.Preserves I (CreateStore val ptr) := by
  unfold CreateStore
  exact preserves_insert T _ _ _ _ rfl

theorem preserves_boundsCheck (T : Tame I) (arrayName : String) (indexV lo hi : Value) :
    GenM.Preserves I (generateIndexOutOfBoundsCheck arrayName indexV lo hi) :=
  T.check arrayName indexV lo hi

theorem preserves_createCall (T : Tame I) (func : Option Nat) (args : List Value) :
    GenM.Preserves I (CreateCall func args) := by
  unfold CreateCall
  split
  · exact preserves_throw T _
  · exact preserves_bind T (preserves_functionAt T _) fun _ => preserves_insert T _ _ _ _ rfl

theorem preserves_createCast (T : Tame I) (opcode : Opcode) (v : Value) (destTy : LType)
    (h : opcode.isTerminator = false) : GenM.Preserves I (CreateCast opcode v destTy) := by
  unfold CreateCast
  split
  · exact preserves_pure T _
  · split
    · exact preserves_pure T _
    · exact preserves_insert T _ _ _ _ h

theorem preserves_createBinOp (T : Tame I) (opcode : Opcode) (lhs rhs : Value) (name : String)
    (h : opcode.isTerminator = false) :
    GenM.Preserves I (CreateBinOp opcode lhs rhs name) := by
  unfold CreateBinOp
  split
  · exact preserves_pure T _
  · exact preserves_insert T _ _ _ _ h

theorem preserves_createICmp (T : Tame I) (p : Predicate) (lhs rhs : Value) (name : String) :
    GenM.Preserves I (CreateICmp p lhs rhs name) := by
  unfold CreateICmp
  split
  · exact preserves_pure T _
  · exact preserves_insert T _ _ _ _ rfl

theorem preserves_createFCmp (T : Tame I) (p : Predicate) (lhs rhs : Value) (name : String) :
    GenM.Preserves I (CreateFCmp p lhs rhs name) := by
  unfold CreateFCmp
  split
  · exact preserves_pure T _
  · exact preserves_insert T _ _ _ _ rfl

theorem preserves_createSIToFP (T : Tame I) (v : Value) (destTy : LType) :
    GenM.Preserves I (CreateSIToFP v destTy) := by
  unfold CreateSIToFP
  exact preserves_createCast T _ _ _ rfl

theorem preserves_createFPToSI (T : Tame I) (v : Value) (destTy : LType) :
    GenM.Preserves I (CreateFPToSI v destTy) := by
  unfold CreateFPToSI
  exact preserves_createCast T _ _ _ rfl

theorem preserves_createNeg (T : Tame I) (v : Value) (name : String) :
    GenM.Preserves I (CreateNeg v name) := by
  unfold CreateNeg
  exact preserves_createBinOp T _ _ _ _ rfl

theorem preserves_createFNeg (T : Tame I) (v : Value) (name : String) :
    GenM.Preserves I (CreateFNeg v name) := by
  unfold CreateFNeg
  split
  · exact preserves_pure T _
  · exact preserves_insert T _ _ _ _ rfl

theorem preserves_createLoad (T : Tame I) (type : LType) (ptr : Value) (name : String) :
    GenM.Preserves I (CreateLoad type ptr name) := by
  unfold CreateLoad
  exact preserves_insert T _ _ _ _ rfl

theorem preserves_createAlloca (T : Tame I) (type : LType) (name : String) :
    GenM.Preserves I (CreateAlloca type name) := by
  unfold CreateAlloca
  exact preserves_insert T _ _ _ _ rfl

theorem preserves_createGEP (T : Tame I) (type : LType) (ptr : Value) (idxList : List Value)
    (name : String) :
    GenM.Preserves I (CreateGEP type ptr idxList name) := by
  unfold CreateGEP
  split
  · split
    · exact preserves_pure T _
    · exact preserves_insert T _ _ _ _ rfl
  · exact preserves_throw T _

theorem preserves_getArrayElementType (T : Tame I) (type : LType) :
    GenM.Preserves I (getArrayElementType type) := by
  unfold getArrayElementType
  split
  · exact preserves_pure T _
  · exact preserves_throw T _

theorem preserves_getPointerElementType (T : Tame I) (type : LType) :
    GenM.Preserves I (getPointerElementType type) := by
  unfold getPointerElementType
  split
  · exact preserves_pure T _
  · exact preserves_throw T _

theorem preserves_getDefaultValueForType (T : Tame I) (type : LType) :
    GenM.Preserves I (getDefaultValueForType type) := by
  unfold getDefaultValueForType
  split
  · exact preserves_pure T _
  · exact preserves_pure T _
  · exact preserves_throw T _

theorem preserves_expectValue (T : Tame I) (v : Option Value) :
    GenM.Preserves I (expectValue v) := by
  unfold expectValue
  split
  · exact preserves_pure T _
  · exact preserves_throw T _

theorem preserves_maybeSIToFP (T : Tame I) (val : Value) :
    GenM.Preserves I (maybeSIToFP val) := by
  unfold maybeSIToFP
  repeat' first
    | with_reducible exact preserves_createSIToFP T _ _
    | with_reducible exact preserves_pure T _
    | with_reducible exact preserves_throw T _
    | with_reducible exact preserves_get T
    | with_reducible exact preserves_getSymbol T _
    | with_reducible exact preserves_getFunction T _
    | with_reducible exact preserves_functionAt T _
    | with_reducible exact preserves_createFunction T _ _ _ _
    | with_reducible exact preserves_globalString T _
    | with_reducible exact preserves_createCall T _ _
    | with_reducible apply preserves_bind T
    | intro _
    | dsimp only
    | split

theorem preserves_arithmetic (T : Tame I) (dblArith : Bool) (real : Opcode) (realName : String)
    (int : Opcode) (intName : String) (lhsV rhsV : Value) (h1 : real.isTerminator = false)
    (h2 : int.isTerminator = false) :
    GenM.Preserves I (arithmetic dblArith real realName int intName lhsV rhsV) := by
  unfold arithmetic
  repeat' first
    | with_reducible exact preserves_createBinOp T _ _ _ _ h1
    | with_reducible exact preserves_createBinOp T _ _ _ _ h2
    | with_reducible exact preserves_maybeSIToFP T _
    | with_reducible exact preserves_pure T _
    | with_reducible exact preserves_throw T _
    | with_reducible exact preserves_get T
    | with_reducible exact preserves_getSymbol T _
    | with_reducible exact preserves_getFunction T _
    | with_reducible exact preserves_functionAt T _
    | with_reducible exact preserves_createFunction T _ _ _ _
    | with_reducible exact preserves_globalString T _
    | with_reducible exact preserves_createCall T _ _
    | with_reducible apply preserves_bind T
    | intro _
    | dsimp only
    | split

theorem preserves_comparison (T : Tame I) (dblArith : Bool) (real : Predicate) (realName : String)
    (int : Predicate) (intName : String) (lhsV rhsV : Value) :
    GenM.Preserves I (comparison dblArith real realName int intName lhsV rhsV) := by
  unfold comparison
  repeat' first
    | with_reducible exact preserves_createICmp T _ _ _ _
    | with_reducible exact preserves_createFCmp T _ _ _ _
    | with_reducible exact preserves_maybeSIToFP T _
    | with_reducible exact preserves_pure T _
    | with_reducible exact preserves_throw T _
    | with_reducible exact preserves_get T
    | with_reducible exact preserves_getSymbol T _
    | with_reducible exact preserves_getFunction T _
    | with_reducible exact preserves_functionAt T _
    | with_reducible exact preserves_createFunction T _ _ _ _
    | with_reducible exact preserves_globalString T _
    | with_reducible exact preserves_createCall T _ _
    | with_reducible apply preserves_bind T
    | intro _
    | dsimp only
    | split

theorem preserves_visitBinOp (T : Tame I) (op : TokenType) (lhsV rhsV : Value) :
    GenM.Preserves I (visitBinOp op lhsV rhsV) := by
  unfold visitBinOp
  repeat' first
    | with_reducible exact preserves_createBinOp T _ _ _ _ (by decide)
    | with_reducible exact preserves_arithmetic T _ _ _ _ _ _ _ (by decide) (by decide)
    | with_reducible exact preserves_comparison T _ _ _ _ _ _ _
    | with_reducible exact preserves_pure T _
    | with_reducible exact preserves_throw T _
    | with_reducible exact preserves_get T
    | with_reducible exact preserves_getSymbol T _
    | with_reducible exact preserves_getFunction T _
    | with_reducible exact preserves_functionAt T _
    | with_reducible exact preserves_createFunction T _ _ _ _
    | with_reducible exact preserves_globalString T _
    | with_reducible exact preserves_createCall T _ _
    | with_reducible apply preserves_bind T
    | intro _
    | dsimp only
    | split

theorem preserves_visitUnaryOp (T : Tame I) (op : TokenType) (exprV : Value) :
    GenM.Preserves I (visitUnaryOp op exprV) := by
  unfold visitUnaryOp
  repeat' first
    | with_reducible exact preserves_createBinOp T _ _ _ _ (by decide)
    | with_reducible exact preserves_createNeg T _ _
    | with_reducible exact preserves_createFNeg T _ _
    | with_reducible exact preserves_pure T _
    | with_reducible exact preserves_throw T _
    | with_reducible exact preserves_get T
    | with_reducible exact preserves_getSymbol T _
    | with_reducible exact preserves_getFunction T _
    | with_reducible exact preserves_functionAt T _
    | with_reducible exact preserves_createFunction T _ _ _ _
    | with_reducible exact preserves_globalString T _
    | with_reducible exact preserves_createCall T _ _
    | with_reducible apply preserves_bind T
    | intro _
    | dsimp only
    | split

theorem preserves_visitLiteral (T : Tame I) (tokenValue : TokenValue) :
    GenM.Preserves I (visitLiteral tokenValue) := by
  unfold visitLiteral
  repeat' first
    | with_reducible exact preserves_pure T _
    | with_reducible exact preserves_throw T _
    | with_reducible exact preserves_get T
    | with_reducible exact preserves_getSymbol T _
    | with_reducible exact preserves_getFunction T _
    | with_reducible exact preserves_functionAt T _
    | with_reducible exact preserves_createFunction T _ _ _ _
    | with_reducible exact preserves_globalString T _
    | with_reducible exact preserves_createCall T _ _
    | with_reducible apply preserves_bind T
    | intro _
    | dsimp only
    | split

theorem preserves_visitDeclVarRef (T : Tame I) (refName : String) :
    GenM.Preserves I (visitDeclVarRef refName) := by
  unfold visitDeclVarRef
  repeat' first
    | with_reducible exact preserves_createLoad T _ _ _
    | with_reducible exact preserves_pure T _
    | with_reducible exact preserves_throw T _
    | with_reducible exact preserves_get T
    | with_reducible exact preserves_getSymbol T _
    | with_reducible exact preserves_getFunction T _
    | with_reducible exact preserves_functionAt T _
    | with_reducible exact preserves_createFunction T _ _ _ _
    | with_reducible exact preserves_globalString T _
    | with_reducible exact preserves_createCall T _ _
    | with_reducible apply preserves_bind T
    | intro _
    | dsimp only
    | split

theorem preserves_storeDeclVarRef (T : Tame I) (refName : String) :
    GenM.Preserves I (storeDeclVarRef refName) := by
  unfold storeDeclVarRef
  repeat' first
    | with_reducible exact preserves_pure T _
    | with_reducible exact preserves_throw T _
    | with_reducible exact preserves_get T
    | with_reducible exact preserves_getSymbol T _
    | with_reducible exact preserves_getFunction T _
    | with_reducible exact preserves_functionAt T _
    | with_reducible exact preserves_createFunction T _ _ _ _
    | with_reducible exact preserves_globalString T _
    | with_reducible exact preserves_createCall T _ _
    | with_reducible apply preserves_bind T
    | intro _
    | dsimp only
    | split

theorem preserves_handleWrite (T : Tame I) (procedure : String) (argV : Option Value) :
    GenM.Preserves I (handleWrite procedure argV) := by
  unfold handleWrite
  repeat' first
    | with_reducible exact preserves_pure T _
    | with_reducible exact preserves_throw T _
    | with_reducible exact preserves_get T
    | with_reducible exact preserves_getSymbol T _
    | with_reducible exact preserves_getFunction T _
    | with_reducible exact preserves_functionAt T _
    | with_reducible exact preserves_createFunction T _ _ _ _
    | with_reducible exact preserves_globalString T _
    | with_reducible exact preserves_createCall T _ _
    | with_reducible apply preserves_bind T
    | intro _
    | dsimp only
    | split

theorem preserves_handleReadln (T : Tame I) (argStore : Option Value) :
    GenM.Preserves I (handleReadln argStore) := by
  unfold handleReadln
  repeat' first
    | with_reducible exact preserves_pure T _
    | with_reducible exact preserves_throw T _
    | with_reducible exact preserves_get T
    | with_reducible exact preserves_getSymbol T _
    | with_reducible exact preserves_getFunction T _
    | with_reducible exact preserves_functionAt T _
    | with_reducible exact preserves_createFunction T _ _ _ _
    | with_reducible exact preserves_globalString T _
    | with_reducible exact preserves_createCall T _ _
    | with_reducible apply preserves_bind T
    | intro _
    | dsimp only
    | split

theorem preserves_handleToInteger (T : Tame I) (argV : Option Value) :
    GenM.Preserves I (handleToInteger argV) := by
  unfold handleToInteger
  repeat' first
    | with_reducible exact preserves_createFPToSI T _ _
    | with_reducible exact preserves_pure T _
    | with_reducible exact preserves_throw T _
    | with_reducible exact preserves_get T
    | with_reducible exact preserves_getSymbol T _
    | with_reducible exact preserves_getFunction T _
    | with_reducible exact preserves_functionAt T _
    | with_reducible exact preserves_createFunction T _ _ _ _
    | with_reducible exact preserves_globalString T _
    | with_reducible exact preserves_createCall T _ _
    | with_reducible apply preserves_bind T
    | intro _
    | dsimp only
    | split

theorem preserves_handleToReal (T : Tame I) (argV : Option Value) :
    GenM.Preserves I (handleToReal argV) := by
  unfold handleToReal
  repeat' first
    | with_reducible exact preserves_createSIToFP T _ _
    | with_reducible exact preserves_pure T _
    | with_reducible exact preserves_throw T _
    | with_reducible exact preserves_get T
    | with_reducible exact preserves_getSymbol T _
    | with_reducible exact preserves_getFunction T _
    | with_reducible exact preserves_functionAt T _
    | with_reducible exact preserves_createFunction T _ _ _ _
    | with_reducible exact preserves_globalString T _
    | with_reducible exact preserves_createCall T _ _
    | with_reducible apply preserves_bind T
    | intro _
    | dsimp only
    | split

theorem preserves_validateUserCall (T : Tame I) (funName : String) (argCount : Nat) :
    GenM.Preserves I (validateUserCall funName argCount) := by
  unfold validateUserCall
  repeat' first
    | with_reducible exact preserves_pure T _
    | with_reducible exact preserves_throw T _
    | with_reducible exact preserves_get T
    | with_reducible exact preserves_getSymbol T _
    | with_reducible exact preserves_getFunction T _
    | with_reducible exact preserves_functionAt T _
    | with_reducible exact preserves_createFunction T _ _ _ _
    | with_reducible exact preserves_globalString T _
    | with_reducible exact preserves_createCall T _ _
    | with_reducible apply preserves_bind T
    | intro _
    | dsimp only
    | split

theorem preserves_checkedIndex (T : Tame I) (refName : String) (symbol : Symbol)
    (indexV : Option Value) :
    GenM.Preserves I (checkedIndex refName symbol indexV) := by
  unfold checkedIndex
  repeat' first
    | with_reducible exact preserves_createBinOp T _ _ _ _ (by decide)
    | with_reducible exact preserves_boundsCheck T _ _ _ _
    | with_reducible exact preserves_pure T _
    | with_reducible exact preserves_throw T _
    | with_reducible exact preserves_get T
    | with_reducible exact preserves_getSymbol T _
    | with_reducible exact preserves_getFunction T _
    | with_reducible exact preserves_functionAt T _
    | with_reducible exact preserves_createFunction T _ _ _ _
    | with_reducible exact preserves_globalString T _
    | with_reducible exact preserves_createCall T _ _
    | with_reducible apply preserves_bind T
    | intro _
    | dsimp only
    | split

mutual
theorem preserves_visitExpr (T : Tame I) : ∀ e : Expr, GenM.Preserves I (visitExpr e)
  | .BinOp op lhs rhs => by
    have h1 := preserves_visitExpr T lhs
    have h2 := preserves_visitExpr T rhs
    unfold visitExpr
    repeat' first
      | with_reducible exact h1
      | with_reducible exact h2
      | with_reducible exact preserves_visitBinOp T _ _ _
      | with_reducible exact preserves_pure T _
      | with_reducible exact preserves_throw T _
      | with_reducible exact preserves_get T
      | with_reducible exact preserves_getSymbol T _
      | with_reducible exact preserves_getFunction T _
      | with_reducible exact preserves_functionAt T _
      | with_reducible exact preserves_createFunction T _ _ _ _
      | with_reducible exact preserves_globalString T _
      | with_reducible exact preserves_createCall T _ _
      | with_reducible apply preserves_bind T
      | intro _
      | dsimp only
      | split
  | .UnaryOp op e => by
    have h1 := preserves_visitExpr T e
    unfold visitExpr
    repeat' first
      | with_reducible exact h1
      | with_reducible exact preserves_visitUnaryOp T _ _
      | with_reducible exact preserves_pure T _
      | with_reducible exact preserves_throw T _
      | with_reducible exact preserves_get T
      | with_reducible exact preserves_getSymbol T _
      | with_reducible exact preserves_getFunction T _
      | with_reducible exact preserves_functionAt T _
      | with_reducible exact preserves_createFunction T _ _ _ _
      | with_reducible exact preserves_globalString T _
      | with_reducible exact preserves_createCall T _ _
      | with_reducible apply preserves_bind T
      | intro _
      | dsimp only
      | split
  | .Literal v => by
    unfold visitExpr
    exact preserves_visitLiteral T _
  | .DeclVarRef n => by
    unfold visitExpr
    exact preserves_visitDeclVarRef T _
  | .DeclArrayRef n idx => by
    have h1 := preserves_visitExpr T idx
    unfold visitExpr
    repeat' first
      | with_reducible exact h1
      | with_reducible exact preserves_checkedIndex T _ _ _
      | with_reducible exact preserves_getArrayElementType T _
      | with_reducible exact preserves_createGEP T _ _ _ _
      | with_reducible exact preserves_createLoad T _ _ _
      | with_reducible exact preserves_pure T _
      | with_reducible exact preserves_throw T _
      | with_reducible exact preserves_get T
      | with_reducible exact preserves_getSymbol T _
      | with_reducible exact preserves_getFunction T _
      | with_reducible exact preserves_functionAt T _
      | with_reducible exact preserves_createFunction T _ _ _ _
      | with_reducible exact preserves_globalString T _
      | with_reducible exact preserves_createCall T _ _
      | with_reducible apply preserves_bind T
      | intro _
      | dsimp only
      | split
  | .FunCall f [] => by
    have h1 := preserves_visitArgs T f []
    unfold visitExpr
    repeat' first
      | with_reducible exact h1
      | with_reducible exact preserves_visitBinOp T _ _ _
      | with_reducible exact preserves_visitUnaryOp T _ _
      | with_reducible exact preserves_visitLiteral T _
      | with_reducible exact preserves_visitDeclVarRef T _
      | with_reducible exact preserves_storeDeclVarRef T _
      | with_reducible exact preserves_handleWrite T _ _
      | with_reducible exact preserves_handleReadln T _
      | with_reducible exact preserves_handleToInteger T _
      | with_reducible exact preserves_handleToReal T _
      | with_reducible exact preserves_validateUserCall T _ _
      | with_reducible exact preserves_checkedIndex T _ _ _
      | with_reducible exact preserves_pure T _
      | with_reducible exact preserves_throw T _
      | with_reducible exact preserves_get T
      | with_reducible exact preserves_getSymbol T _
      | with_reducible exact preserves_getFunction T _
      | with_reducible exact preserves_functionAt T _
      | with_reducible exact preserves_createFunction T _ _ _ _
      | with_reducible exact preserves_globalString T _
      | with_reducible exact preserves_createCall T _ _
      | with_reducible apply preserves_bind T
      | intro _
      | dsimp only
      | split
  | .FunCall f [.DeclArrayRef n idx] => by
    have h1 := preserves_visitArgs T f [.DeclArrayRef n idx]
    have h2 := preserves_visitExpr T (.DeclArrayRef n idx)
    have h3 := preserves_storeVisit T (.DeclArrayRef n idx)
    have h4 := preserves_visitExpr T idx
    unfold visitExpr
    repeat' first
      | with_reducible exact h1
      | with_reducible exact h2
      | with_reducible exact h3
      | with_reducible exact h4
      | with_reducible exact preserves_createGEP T _ _ _ _
      | with_reducible exact preserves_visitBinOp T _ _ _
      | with_reducible exact preserves_visitUnaryOp T _ _
      | with_reducible exact preserves_visitLiteral T _
      | with_reducible exact preserves_visitDeclVarRef T _
      | with_reducible exact preserves_storeDeclVarRef T _
      | with_reducible exact preserves_handleWrite T _ _
      | with_reducible exact preserves_handleReadln T _
      | with_reducible exact preserves_handleToInteger T _
      | with_reducible exact preserves_handleToReal T _
      | with_reducible exact preserves_validateUserCall T _ _
      | with_reducible exact preserves_checkedIndex T _ _ _
      | with_reducible exact preserves_pure T _
      | with_reducible exact preserves_throw T _
      | with_reducible exact preserves_get T
      | with_reducible exact preserves_getSymbol T _
      | with_reducible exact preserves_getFunction T _
      | with_reducible exact preserves_functionAt T _
      | with_reducible exact preserves_createFunction T _ _ _ _
      | with_reducible exact preserves_globalString T _
      | with_reducible exact preserves_createCall T _ _
      | with_reducible apply preserves_bind T
      | intro _
      | dsimp only
      | split
  | .FunCall f [.DeclVarRef n] => by
    have h1 := preserves_visitArgs T f [.DeclVarRef n]
    have h2 := preserves_visitExpr T (.DeclVarRef n)
    have h3 := preserves_storeVisit T (.DeclVarRef n)
    unfold visitExpr
    repeat' first
      | with_reducible exact h1
      | with_reducible exact h2
      | with_reducible exact h3
      | with_reducible exact preserves_visitBinOp T _ _ _
      | with_reducible exact preserves_visitUnaryOp T _ _
      | with_reducible exact preserves_visitLiteral T _
      | with_reducible exact preserves_visitDeclVarRef T _
      | with_reducible exact preserves_storeDeclVarRef T _
      | with_reducible exact preserves_handleWrite T _ _
      | with_reducible exact preserves_handleReadln T _
      | with_reducible exact preserves_handleToInteger T _
      | with_reducible exact preserves_handleToReal T _
      | with_reducible exact preserves_validateUserCall T _ _
      | with_reducible exact preserves_checkedIndex T _ _ _
      | with_reducible exact preserves_pure T _
      | with_reducible exact preserves_throw T _
      | with_reducible exact preserves_get T
      | with_reducible exact preserves_getSymbol T _
      | with_reducible exact preserves_getFunction T _
      | with_reducible exact preserves_functionAt T _
      | with_reducible exact preserves_createFunction T _ _ _ _
      | with_reducible exact preserves_globalString T _
      | with_reducible exact preserves_createCall T _ _
      | with_reducible apply preserves_bind T
      | intro _
      | dsimp only
      | split
  | .FunCall f [.BinOp op l r] => by
    have h1 := preserves_visitArgs T f [.BinOp op l r]
    have h2 := preserves_visitExpr T (.BinOp op l r)
    have h3 := preserves_storeVisit T (.BinOp op l r)
    unfold visitExpr
    repeat' first
      | with_reducible exact h1
      | with_reducible exact h2
      | with_reducible exact h3
      | with_reducible exact preserves_visitBinOp T _ _ _
      | with_reducible exact preserves_visitUnaryOp T _ _
      | with_reducible exact preserves_visitLiteral T _
      | with_reducible exact preserves_visitDeclVarRef T _
      | with_reducible exact preserves_storeDeclVarRef T _
      | with_reducible exact preserves_handleWrite T _ _
      | with_reducible exact preserves_handleReadln T _
      | with_reducible exact preserves_handleToInteger T _
      | with_reducible exact preserves_handleToReal T _
      | with_reducible exact preserves_validateUserCall T _ _
      | with_reducible exact preserves_checkedIndex T _ _ _
      | with_reducible exact preserves_pure T _
      | with_reducible exact preserves_throw T _
      | with_reducible exact preserves_get T
      | with_reducible exact preserves_getSymbol T _
      | with_reducible exact preserves_getFunction T _
      | with_reducible exact preserves_functionAt T _
      | with_reducible exact preserves_createFunction T _ _ _ _
      | with_reducible exact preserves_globalString T _
      | with_reducible exact preserves_createCall T _ _
      | with_reducible apply preserves_bind T
      | intro _
      | dsimp only
      | split
  | .FunCall f [.UnaryOp op e] => by
    have h1 := preserves_visitArgs T f [.UnaryOp op e]
    have h2 := preserves_visitExpr T (.UnaryOp op e)
    have h3 := preserves_storeVisit T (.UnaryOp op e)
    unfold visitExpr
    repeat' first
      | with_reducible exact h1
      | with_reducible exact h2
      | with_reducible exact h3
      | with_reducible exact preserves_visitBinOp T _ _ _
      | with_reducible exact preserves_visitUnaryOp T _ _
      | with_reducible exact preserves_visitLiteral T _
      | with_reducible exact preserves_visitDeclVarRef T _
      | with_reducible exact preserves_storeDeclVarRef T _
      | with_reducible exact preserves_handleWrite T _ _
      | with_reducible exact preserves_handleReadln T _
      | with_reducible exact preserves_handleToInteger T _
      | with_reducible exact preserves_handleToReal T _
      | with_reducible exact preserves_validateUserCall T _ _
      | with_reducible exact preserves_checkedIndex T _ _ _
      | with_reducible exact preserves_pure T _
      | with_reducible exact preserves_throw T _
      | with_reducible exact preserves_get T
      | with_reducible exact preserves_getSymbol T _
      | with_reducible exact preserves_getFunction T _
      | with_reducible exact preserves_functionAt T _
      | with_reducible exact preserves_createFunction T _ _ _ _
      | with_reducible exact preserves_globalString T _
      | with_reducible exact preserves_createCall T _ _
      | with_reducible apply preserves_bind T
      | intro _
      | dsimp only
      | split
  | .FunCall f [.Literal v] => by
    have h1 := preserves_visitArgs T f [.Literal v]
    have h2 := preserves_visitExpr T (.Literal v)
    have h3 := preserves_storeVisit T (.Literal v)
    unfold visitExpr
    repeat' first
      | with_reducible exact h1
      | with_reducible exact h2
      | with_reducible exact h3
      | with_reducible exact preserves_visitBinOp T _ _ _
      | with_reducible exact preserves_visitUnaryOp T _ _
      | with_reducible exact preserves_visitLiteral T _
      | with_reducible exact preserves_visitDeclVarRef T _
      | with_reducible exact preserves_storeDeclVarRef T _
      | with_reducible exact preserves_handleWrite T _ _
      | with_reducible exact preserves_handleReadln T _
      | with_reducible exact preserves_handleToInteger T _
      | with_reducible exact preserves_handleToReal T _
      | with_reducible exact preserves_validateUserCall T _ _
      | with_reducible exact preserves_checkedIndex T _ _ _
      | with_reducible exact preserves_pure T _
      | with_reducible exact preserves_throw T _
      | with_reducible exact preserves_get T
      | with_reducible exact preserves_getSymbol T _
      | with_reducible exact preserves_getFunction T _
      | with_reducible exact preserves_functionAt T _
      | with_reducible exact preserves_createFunction T _ _ _ _
      | with_reducible exact preserves_globalString T _
      | with_reducible exact preserves_createCall T _ _
      | with_reducible apply preserves_bind T
      | intro _
      | dsimp only
      | split
  | .FunCall f [.FunCall f2 args2] => by
    have h1 := preserves_visitArgs T f [.FunCall f2 args2]
    have h2 := preserves_visitExpr T (.FunCall f2 args2)
    have h3 := preserves_storeVisit T (.FunCall f2 args2)
    unfold visitExpr
    repeat' first
      | with_reducible exact h1
      | with_reducible exact h2
      | with_reducible exact h3
      | with_reducible exact preserves_visitBinOp T _ _ _
      | with_reducible exact preserves_visitUnaryOp T _ _
      | with_reducible exact preserves_visitLiteral T _
      | with_reducible exact preserves_visitDeclVarRef T _
      | with_reducible exact preserves_storeDeclVarRef T _
      | with_reducible exact preserves_handleWrite T _ _
      | with_reducible exact preserves_handleReadln T _
      | with_reducible exact preserves_handleToInteger T _
      | with_reducible exact preserves_handleToReal T _
      | with_reducible exact preserves_validateUserCall T _ _
      | with_reducible exact preserves_checkedIndex T _ _ _
      | with_reducible exact preserves_pure T _
      | with_reducible exact preserves_throw T _
      | with_reducible exact preserves_get T
      | with_reducible exact preserves_getSymbol T _
      | with_reducible exact preserves_getFunction T _
      | with_reducible exact preserves_functionAt T _
      | with_reducible exact preserves_createFunction T _ _ _ _
      | with_reducible exact preserves_globalString T _
      | with_reducible exact preserves_createCall T _ _
      | with_reducible apply preserves_bind T
      | intro _
      | dsimp only
      | split
  | .FunCall f (a :: b :: rest) => by
    have h1 := preserves_visitArgs T f (a :: b :: rest)
    unfold visitExpr
    repeat' first
      | with_reducible exact h1
      | with_reducible exact preserves_visitBinOp T _ _ _
      | with_reducible exact preserves_visitUnaryOp T _ _
      | with_reducible exact preserves_visitLiteral T _
      | with_reducible exact preserves_visitDeclVarRef T _
      | with_reducible exact preserves_storeDeclVarRef T _
      | with_reducible exact preserves_handleWrite T _ _
      | with_reducible exact preserves_handleReadln T _
      | with_reducible exact preserves_handleToInteger T _
      | with_reducible exact preserves_handleToReal T _
      | with_reducible exact preserves_validateUserCall T _ _
      | with_reducible exact preserves_checkedIndex T _ _ _
      | with_reducible exact preserves_pure T _
      | with_reducible exact preserves_throw T _
      | with_reducible exact preserves_get T
      | with_reducible exact preserves_getSymbol T _
      | with_reducible exact preserves_getFunction T _
      | with_reducible exact preserves_functionAt T _
      | with_reducible exact preserves_createFunction T _ _ _ _
      | with_reducible exact preserves_globalString T _
      | with_reducible exact preserves_createCall T _ _
      | with_reducible apply preserves_bind T
      | intro _
      | dsimp only
      | split
theorem preserves_storeVisit (T : Tame I) : ∀ e : Expr, GenM.Preserves I (storeVisit e)
  | .DeclVarRef n => by
    unfold storeVisit
    exact preserves_storeDeclVarRef T _
  | .DeclArrayRef n idx => by
    have h1 := preserves_visitExpr T idx
    unfold storeVisit
    repeat' first
      | with_reducible exact h1
      | with_reducible exact preserves_checkedIndex T _ _ _
      | with_reducible exact preserves_createGEP T _ _ _ _
      | with_reducible exact preserves_pure T _
      | with_reducible exact preserves_throw T _
      | with_reducible exact preserves_get T
      | with_reducible exact preserves_getSymbol T _
      | with_reducible exact preserves_getFunction T _
      | with_reducible exact preserves_functionAt T _
      | with_reducible exact preserves_createFunction T _ _ _ _
      | with_reducible exact preserves_globalString T _
      | with_reducible exact preserves_createCall T _ _
      | with_reducible apply preserves_bind T
      | intro _
      | dsimp only
      | split
  | .BinOp _ _ _ | .UnaryOp _ _ | .Literal _ | .FunCall _ _ => by
    unfold storeVisit
    exact preserves_throw T _
theorem preserves_visitArgs (T : Tame I) (funName : String) :
    ∀ args : List Expr, GenM.Preserves I (visitArgs funName args)
  | [] => by
    unfold visitArgs
    exact preserves_pure T _
  | a :: rest => by
    have h1 := preserves_visitExpr T a
    have h2 := preserves_visitArgs T funName rest
    unfold visitArgs
    repeat' first
      | with_reducible exact h1
      | with_reducible exact h2
      | with_reducible exact preserves_pure T _
      | with_reducible exact preserves_throw T _
      | with_reducible exact preserves_get T
      | with_reducible exact preserves_getSymbol T _
      | with_reducible exact preserves_getFunction T _
      | with_reducible exact preserves_functionAt T _
      | with_reducible exact preserves_createFunction T _ _ _ _
      | with_reducible exact preserves_globalString T _
      | with_reducible exact preserves_createCall T _ _
      | with_reducible apply preserves_bind T
      | intro _
      | dsimp only
      | split
end


end Preserves

section PreservesStatements
variable {I : GenContext → Prop}

theorem preserves_assignTo (T : Tame I) (refName : String) (store : Option Value)
    (exprNode : Expr) : GenM.Preserves I (assignTo refName store exprNode) := by
  unfold assignTo
  repeat' first
    | with_reducible exact preserves_pure T _
    | with_reducible exact preserves_throw T _
    | with_reducible exact preserves_get T
    | with_reducible exact preserves_getSymbol T _
    | with_reducible exact preserves_getFunction T _
    | with_reducible exact preserves_functionAt T _
    | with_reducible exact preserves_functionEmpty T _
    | with_reducible exact preserves_getInsertBlock T
    | with_reducible exact preserves_createFunction T _ _ _ _
    | with_reducible exact preserves_newGlobalVariable T _ _ _
    | with_reducible exact preserves_visitExpr T _
    | with_reducible exact preserves_storeVisit T _
    | with_reducible exact preserves_expectValue T _
    | with_reducible exact preserves_getDefaultValueForType T _
    | with_reducible exact preserves_getArrayElementType T _
    | with_reducible exact preserves_getPointerElementType T _
    | with_reducible exact preserves_createSIToFP T _ _
    | with_reducible exact preserves_createAlloca T _ _
    | with_reducible exact preserves_createLoad T _ _ _
    | with_reducible exact preserves_createGEP T _ _ _ _
    | with_reducible exact preserves_createICmp T _ _ _ _
    | with_reducible exact preserves_createBinOp T _ _ _ _ (by decide)
    | with_reducible exact preserves_createStore T _ _
    | with_reducible exact preserves_addSymbol T _ _
    | with_reducible exact preserves_setSymbolTable T _
    | with_reducible exact preserves_setArgumentNames T _ _
    | with_reducible apply preserves_bind T
    | intro _
    | dsimp only
    | split

theorem preserves_visitAssign (T : Tame I) (varNode exprNode : Expr) :
    GenM.Preserves I (visitAssign varNode exprNode) := by
  unfold visitAssign
  repeat' first
    | with_reducible exact preserves_assignTo T _ _ _
    | with_reducible exact preserves_pure T _
    | with_reducible exact preserves_throw T _
    | with_reducible exact preserves_get T
    | with_reducible exact preserves_getSymbol T _
    | with_reducible exact preserves_getFunction T _
    | with_reducible exact preserves_functionAt T _
    | with_reducible exact preserves_functionEmpty T _
    | with_reducible exact preserves_getInsertBlock T
    | with_reducible exact preserves_createFunction T _ _ _ _
    | with_reducible exact preserves_newGlobalVariable T _ _ _
    | with_reducible exact preserves_visitExpr T _
    | with_reducible exact preserves_storeVisit T _
    | with_reducible exact preserves_expectValue T _
    | with_reducible exact preserves_getDefaultValueForType T _
    | with_reducible exact preserves_getArrayElementType T _
    | with_reducible exact preserves_getPointerElementType T _
    | with_reducible exact preserves_createSIToFP T _ _
    | with_reducible exact preserves_createAlloca T _ _
    | with_reducible exact preserves_createLoad T _ _ _
    | with_reducible exact preserves_createGEP T _ _ _ _
    | with_reducible exact preserves_createICmp T _ _ _ _
    | with_reducible exact preserves_createBinOp T _ _ _ _ (by decide)
    | with_reducible exact preserves_createStore T _ _
    | with_reducible exact preserves_addSymbol T _ _
    | with_reducible exact preserves_setSymbolTable T _
    | with_reducible exact preserves_setArgumentNames T _ _
    | with_reducible apply preserves_bind T
    | intro _
    | dsimp only
    | split

theorem preserves_handle (T : Tame I) (funName : String) (argNodes : List Expr) :
    GenM.Preserves I (handle funName argNodes) := by
  unfold handle
  exact preserves_visitExpr T _

theorem preserves_initArray (T : Tame I) (arrayType : LType) (store zeroIndex defaultV : Value) :
    ∀ (count i : Nat), GenM.Preserves I (initArray arrayType store zeroIndex defaultV count i) := by
  intro count
  induction count with
  | zero => intro i; unfold initArray; exact preserves_pure T _
  | succ count ih =>
    intro i
    have h := ih (i + 1)
    unfold initArray
    repeat' first
      | with_reducible exact h
      | with_reducible exact preserves_pure T _
      | with_reducible exact preserves_throw T _
      | with_reducible exact preserves_get T
      | with_reducible exact preserves_getSymbol T _
      | with_reducible exact preserves_getFunction T _
      | with_reducible exact preserves_functionAt T _
      | with_reducible exact preserves_functionEmpty T _
      | with_reducible exact preserves_getInsertBlock T
      | with_reducible exact preserves_createFunction T _ _ _ _
      | with_reducible exact preserves_newGlobalVariable T _ _ _
      | with_reducible exact preserves_visitExpr T _
      | with_reducible exact preserves_storeVisit T _
      | with_reducible exact preserves_expectValue T _
      | with_reducible exact preserves_getDefaultValueForType T _
      | with_reducible exact preserves_getArrayElementType T _
      | with_reducible exact preserves_getPointerElementType T _
      | with_reducible exact preserves_createSIToFP T _ _
      | with_reducible exact preserves_createAlloca T _ _
      | with_reducible exact preserves_createLoad T _ _ _
      | with_reducible exact preserves_createGEP T _ _ _ _
      | with_reducible exact preserves_createICmp T _ _ _ _
      | with_reducible exact preserves_createBinOp T _ _ _ _ (by decide)
      | with_reducible exact preserves_createStore T _ _
      | with_reducible exact preserves_addSymbol T _ _
      | with_reducible exact preserves_setSymbolTable T _
      | with_reducible exact preserves_setArgumentNames T _ _
      | with_reducible apply preserves_bind T
      | intro _
      | dsimp only
      | split

theorem preserves_visitVarDecl (T : Tame I) (setGlobal : Bool) (node : VarDecl) :
    GenM.Preserves I (visitVarDecl setGlobal node) := by
  unfold visitVarDecl
  repeat' first
    | with_reducible exact preserves_pure T _
    | with_reducible exact preserves_throw T _
    | with_reducible exact preserves_get T
    | with_reducible exact preserves_getSymbol T _
    | with_reducible exact preserves_getFunction T _
    | with_reducible exact preserves_functionAt T _
    | with_reducible exact preserves_functionEmpty T _
    | with_reducible exact preserves_getInsertBlock T
    | with_reducible exact preserves_createFunction T _ _ _ _
    | with_reducible exact preserves_newGlobalVariable T _ _ _
    | with_reducible exact preserves_visitExpr T _
    | with_reducible exact preserves_storeVisit T _
    | with_reducible exact preserves_expectValue T _
    | with_reducible exact preserves_getDefaultValueForType T _
    | with_reducible exact preserves_getArrayElementType T _
    | with_reducible exact preserves_getPointerElementType T _
    | with_reducible exact preserves_createSIToFP T _ _
    | with_reducible exact preserves_createAlloca T _ _
    | with_reducible exact preserves_createLoad T _ _ _
    | with_reducible exact preserves_createGEP T _ _ _ _
    | with_reducible exact preserves_createICmp T _ _ _ _
    | with_reducible exact preserves_createBinOp T _ _ _ _ (by decide)
    | with_reducible exact preserves_createStore T _ _
    | with_reducible exact preserves_addSymbol T _ _
    | with_reducible exact preserves_setSymbolTable T _
    | with_reducible exact preserves_setArgumentNames T _ _
    | with_reducible apply preserves_bind T
    | intro _
    | dsimp only
    | split

theorem preserves_visitArrayDecl (T : Tame I) (setGlobal : Bool) (declName : String)
    (global : Bool) (typeNode : ArrayType) :
    GenM.Preserves I (visitArrayDecl setGlobal declName global typeNode) := by
  unfold visitArrayDecl
  repeat' first
    | with_reducible exact preserves_initArray T _ _ _ _ _ _
    | with_reducible exact preserves_pure T _
    | with_reducible exact preserves_throw T _
    | with_reducible exact preserves_get T
    | with_reducible exact preserves_getSymbol T _
    | with_reducible exact preserves_getFunction T _
    | with_reducible exact preserves_functionAt T _
    | with_reducible exact preserves_functionEmpty T _
    | with_reducible exact preserves_getInsertBlock T
    | with_reducible exact preserves_createFunction T _ _ _ _
    | with_reducible exact preserves_newGlobalVariable T _ _ _
    | with_reducible exact preserves_visitExpr T _
    | with_reducible exact preserves_storeVisit T _
    | with_reducible exact preserves_expectValue T _
    | with_reducible exact preserves_getDefaultValueForType T _
    | with_reducible exact preserves_getArrayElementType T _
    | with_reducible exact preserves_getPointerElementType T _
    | with_reducible exact preserves_createSIToFP T _ _
    | with_reducible exact preserves_createAlloca T _ _
    | with_reducible exact preserves_createLoad T _ _ _
    | with_reducible exact preserves_createGEP T _ _ _ _
    | with_reducible exact preserves_createICmp T _ _ _ _
    | with_reducible exact preserves_createBinOp T _ _ _ _ (by decide)
    | with_reducible exact preserves_createStore T _ _
    | with_reducible exact preserves_addSymbol T _ _
    | with_reducible exact preserves_setSymbolTable T _
    | with_reducible exact preserves_setArgumentNames T _ _
    | with_reducible apply preserves_bind T
    | intro _
    | dsimp only
    | split

theorem preserves_visitConstDef (T : Tame I) (setGlobal : Bool) (declName : String)
    (global : Bool) (exprNode : Expr) :
    GenM.Preserves I (visitConstDef setGlobal declName global exprNode) := by
  unfold visitConstDef
  repeat' first
    | with_reducible exact preserves_pure T _
    | with_reducible exact preserves_throw T _
    | with_reducible exact preserves_get T
    | with_reducible exact preserves_getSymbol T _
    | with_reducible exact preserves_getFunction T _
    | with_reducible exact preserves_functionAt T _
    | with_reducible exact preserves_functionEmpty T _
    | with_reducible exact preserves_getInsertBlock T
    | with_reducible exact preserves_createFunction T _ _ _ _
    | with_reducible exact preserves_newGlobalVariable T _ _ _
    | with_reducible exact preserves_visitExpr T _
    | with_reducible exact preserves_storeVisit T _
    | with_reducible exact preserves_expectValue T _
    | with_reducible exact preserves_getDefaultValueForType T _
    | with_reducible exact preserves_getArrayElementType T _
    | with_reducible exact preserves_getPointerElementType T _
    | with_reducible exact preserves_createSIToFP T _ _
    | with_reducible exact preserves_createAlloca T _ _
    | with_reducible exact preserves_createLoad T _ _ _
    | with_reducible exact preserves_createGEP T _ _ _ _
    | with_reducible exact preserves_createICmp T _ _ _ _
    | with_reducible exact preserves_createBinOp T _ _ _ _ (by decide)
    | with_reducible exact preserves_createStore T _ _
    | with_reducible exact preserves_addSymbol T _ _
    | with_reducible exact preserves_setSymbolTable T _
    | with_reducible exact preserves_setArgumentNames T _ _
    | with_reducible apply preserves_bind T
    | intro _
    | dsimp only
    | split

theorem preserves_storeArguments (T : Tame I) (func : Nat) :
    ∀ (types : List LType) (i : Nat) (names : List String) (paramNodes : List VarDecl),
      GenM.Preserves I (storeArguments func i types names paramNodes) := by
  intro types
  induction types with
  | nil =>
    intro i names paramNodes
    unfold storeArguments
    exact preserves_pure T _
  | cons type types ih =>
    intro i names paramNodes
    cases names with
    | nil => unfold storeArguments; exact preserves_pure T _
    | cons name names =>
      cases paramNodes with
      | nil => unfold storeArguments; exact preserves_pure T _
      | cons param paramNodes =>
        have h := ih (i + 1) names paramNodes
        unfold storeArguments
        repeat' first
          | with_reducible exact h
          | with_reducible exact preserves_pure T _
          | with_reducible exact preserves_throw T _
          | with_reducible exact preserves_get T
          | with_reducible exact preserves_getSymbol T _
          | with_reducible exact preserves_getFunction T _
          | with_reducible exact preserves_functionAt T _
          | with_reducible exact preserves_functionEmpty T _
          | with_reducible exact preserves_getInsertBlock T
          | with_reducible exact preserves_createFunction T _ _ _ _
          | with_reducible exact preserves_newGlobalVariable T _ _ _
          | with_reducible exact preserves_visitExpr T _
          | with_reducible exact preserves_storeVisit T _
          | with_reducible exact preserves_expectValue T _
          | with_reducible exact preserves_getDefaultValueForType T _
          | with_reducible exact preserves_getArrayElementType T _
          | with_reducible exact preserves_getPointerElementType T _
          | with_reducible exact preserves_createSIToFP T _ _
          | with_reducible exact preserves_createAlloca T _ _
          | with_reducible exact preserves_createLoad T _ _ _
          | with_reducible exact preserves_createGEP T _ _ _ _
          | with_reducible exact preserves_createICmp T _ _ _ _
          | with_reducible exact preserves_createBinOp T _ _ _ _ (by decide)
          | with_reducible exact preserves_createStore T _ _
          | with_reducible exact preserves_addSymbol T _ _
          | with_reducible exact preserves_setSymbolTable T _
          | with_reducible exact preserves_setArgumentNames T _ _
          | with_reducible apply preserves_bind T
          | intro _
          | dsimp only
          | split

theorem preserves_createReturnSlot (T : Tame I) (declName : String)
    (retTypeNode : PrimitiveType) :
    GenM.Preserves I (createReturnSlot declName retTypeNode) := by
  unfold createReturnSlot
  repeat' first
    | with_reducible exact preserves_pure T _
    | with_reducible exact preserves_throw T _
    | with_reducible exact preserves_get T
    | with_reducible exact preserves_getSymbol T _
    | with_reducible exact preserves_getFunction T _
    | with_reducible exact preserves_functionAt T _
    | with_reducible exact preserves_functionEmpty T _
    | with_reducible exact preserves_getInsertBlock T
    | with_reducible exact preserves_createFunction T _ _ _ _
    | with_reducible exact preserves_newGlobalVariable T _ _ _
    | with_reducible exact preserves_visitExpr T _
    | with_reducible exact preserves_storeVisit T _
    | with_reducible exact preserves_expectValue T _
    | with_reducible exact preserves_getDefaultValueForType T _
    | with_reducible exact preserves_getArrayElementType T _
    | with_reducible exact preserves_getPointerElementType T _
    | with_reducible exact preserves_createSIToFP T _ _
    | with_reducible exact preserves_createAlloca T _ _
    | with_reducible exact preserves_createLoad T _ _ _
    | with_reducible exact preserves_createGEP T _ _ _ _
    | with_reducible exact preserves_createICmp T _ _ _ _
    | with_reducible exact preserves_createBinOp T _ _ _ _ (by decide)
    | with_reducible exact preserves_createStore T _ _
    | with_reducible exact preserves_addSymbol T _ _
    | with_reducible exact preserves_setSymbolTable T _
    | with_reducible exact preserves_setArgumentNames T _ _
    | with_reducible apply preserves_bind T
    | intro _
    | dsimp only
    | split

theorem preserves_checkArgumentTypes (T : Tame I) (what declName : String) :
    ∀ (types : List LType) (argNo : Nat) (paramNodes : List VarDecl),
      GenM.Preserves I (checkArgumentTypes what declName argNo types paramNodes) := by
  intro types
  induction types with
  | nil => intro argNo paramNodes; unfold checkArgumentTypes; exact preserves_pure T _
  | cons type types ih =>
    intro argNo paramNodes
    cases paramNodes with
    | nil => unfold checkArgumentTypes; exact preserves_pure T _
    | cons param paramNodes =>
      unfold checkArgumentTypes
      split
      · exact preserves_throw T _
      · exact ih _ _

theorem preserves_declareFunction (T : Tame I) (what declName : String)
    (paramNodes : List VarDecl) (hasBlock : Bool) (retType : Option PrimitiveType) :
    GenM.Preserves I (declareFunction what declName paramNodes hasBlock retType) := by
  unfold declareFunction
  repeat' first
    | with_reducible exact preserves_checkArgumentTypes T _ _ _ _ _
    | with_reducible exact preserves_pure T _
    | with_reducible exact preserves_throw T _
    | with_reducible exact preserves_get T
    | with_reducible exact preserves_getSymbol T _
    | with_reducible exact preserves_getFunction T _
    | with_reducible exact preserves_functionAt T _
    | with_reducible exact preserves_functionEmpty T _
    | with_reducible exact preserves_getInsertBlock T
    | with_reducible exact preserves_createFunction T _ _ _ _
    | with_reducible exact preserves_newGlobalVariable T _ _ _
    | with_reducible exact preserves_visitExpr T _
    | with_reducible exact preserves_storeVisit T _
    | with_reducible exact preserves_expectValue T _
    | with_reducible exact preserves_getDefaultValueForType T _
    | with_reducible exact preserves_getArrayElementType T _
    | with_reducible exact preserves_getPointerElementType T _
    | with_reducible exact preserves_createSIToFP T _ _
    | with_reducible exact preserves_createAlloca T _ _
    | with_reducible exact preserves_createLoad T _ _ _
    | with_reducible exact preserves_createGEP T _ _ _ _
    | with_reducible exact preserves_createICmp T _ _ _ _
    | with_reducible exact preserves_createBinOp T _ _ _ _ (by decide)
    | with_reducible exact preserves_createStore T _ _
    | with_reducible exact preserves_addSymbol T _ _
    | with_reducible exact preserves_setSymbolTable T _
    | with_reducible exact preserves_setArgumentNames T _ _
    | with_reducible apply preserves_bind T
    | intro _
    | dsimp only
    | split

end PreservesStatements

/-! ## How the visit of a statement runs when it returns -/

theorem getInsertBlockParent_inv {g g1 : GenContext} {func : Option Nat}
    (h : GetInsertBlockParent.run g = (.ok func, g1)) :
    ∃ c block, g.insertBlock = some c ∧ g.blocks[c]? = some block ∧ func = block.parent ∧
      g1 = g := by
  unfold GetInsertBlockParent GenM.run at h
  dsimp only at h
  split at h
  · cases h
  · rename_i c hc
    split at h
    · rename_i block hblock
      cases h
      exact ⟨c, block, hc, hblock, rfl, rfl⟩
    · cases h

theorem expectValue_inv {g g1 : GenContext} {v : Option Value} {a : Value}
    (h : (expectValue v).run g = (.ok a, g1)) : v = some a ∧ g1 = g := by
  cases v with
  | none => cases h
  | some x =>
    cases h
    exact ⟨rfl, rfl⟩

theorem setInsertPoint_inv {g g1 : GenContext} {b : Option Nat}
    (h : (SetInsertPoint b).run g = (.ok (), g1)) : ∃ c, b = some c ∧ g1 = g.setInsertBlock c := by
  cases b with
  | none => cases h
  | some c =>
    cases h
    exact ⟨c, rfl, rfl⟩

theorem parent_inv {α : Type} {g g' : GenContext} {a : α} {m : Option Nat → GenM α}
    {e : GenError}
    (h : (GetInsertBlockParent >>= fun func =>
      if func.isNone = true then GenM.throw e else m func).run g = (.ok a, g')) :
    ∃ c block f, g.insertBlock = some c ∧ g.blocks[c]? = some block ∧
      block.parent = some f ∧ (m (some f)).run g = (.ok a, g') := by
  obtain ⟨func, g1, h1, h2⟩ := GenM.bind_ok_inv h
  obtain ⟨c, block, hc, hblock, rfl, rfl⟩ := getInsertBlockParent_inv h1
  cases hp : block.parent with
  | none =>
    rw [hp] at h2
    cases h2
  | some f =>
    rw [hp] at h2
    exact ⟨c, block, f, hc, hblock, hp, h2⟩

theorem visitStmt_Block_inv {w : Wiring} {setGlobal : Bool} {statementNodes : List Stmt}
    {g g' : GenContext}
    (h : (visitStmt w setGlobal (.Block false statementNodes)).run g = (.ok (), g')) :
    ∃ c block f g1, g.insertBlock = some c ∧ g.blocks[c]? = some block ∧
      block.parent = some f ∧
      (visitStmts w false statementNodes).run
        (((g.addBlock "block" (some f)).emit (.br g.blocks.length) [] .void
          "").setInsertBlock g.blocks.length) = (.ok (), g1) ∧
      g' = g1.setSymbolTable g.symbolTable := by
  rw [visitStmt_Block] at h
  simp only [Bool.false_eq_true, if_false] at h
  obtain ⟨c, block, f, hc, hblock, hf, h⟩ := parent_inv h
  simp only [CreateBr] at h
  rw [GenM.bind_ok (createBlock_run _ _ _), GenM.bind_ok (insert_run _ _ _ _ _),
    GenM.bind_ok (setInsertPoint_run _ _), GenM.bind_ok (GenM.get_run _)] at h
  obtain ⟨_, g1, h1, h2⟩ := GenM.bind_ok_inv h
  cases h2
  exact ⟨c, block, f, g1, hc, hblock, hf, h1, rfl⟩

theorem visitStmt_CompoundStmt_inv {w : Wiring} {setGlobal : Bool}
    {statementNodes : List Stmt} {g g' : GenContext}
    (h : (visitStmt w setGlobal (.CompoundStmt statementNodes)).run g = (.ok (), g')) :
    (visitStmts w false statementNodes).run g = (.ok (), g') := by
  rw [visitStmt_CompoundStmt] at h
  obtain ⟨c, block, f, hc, hblock, hf, h⟩ := parent_inv h
  exact h

theorem visitStmts_cons_inv {w : Wiring} {setGlobal : Bool} {s : Stmt} {rest : List Stmt}
    {g g' : GenContext}
    (h : (visitStmts w setGlobal (s :: rest)).run g = (.ok (), g')) :
    ∃ g1, (visitStmt w setGlobal s).run g = (.ok (), g1) ∧
      (visitStmts w setGlobal rest).run g1 = (.ok (), g') := by
  rw [visitStmts_cons] at h
  obtain ⟨_, g1, h1, h2⟩ := GenM.bind_ok_inv h
  exact ⟨g1, h1, h2⟩

theorem visitStmt_While_inv {w : Wiring} {setGlobal : Bool} {condNode : Expr}
    {bodyNode : Stmt} {g g' : GenContext}
    (h : (visitStmt w setGlobal (.While condNode bodyNode)).run g = (.ok (), g')) :
    ∃ c block f condV g1 g2, g.insertBlock = some c ∧ g.blocks[c]? = some block ∧
      block.parent = some f ∧
      (visitExpr condNode).run
        (((((g.addBlock "cond" (some f)).addBlock "body" (some f)).addBlock "after"
          (some f)).emit (.br g.blocks.length) [] .void "").setInsertBlock
          g.blocks.length) = (.ok (some condV), g1) ∧
      (visitStmt { w with breakBlock := some (g.blocks.length + 2) } false bodyNode).run
        ((g1.emit (.condBr (g.blocks.length + 1) (g.blocks.length + 2)) [condV] .void
          "").setInsertBlock (g.blocks.length + 1)) = (.ok (), g2) ∧
      g' = (g2.emit (.br g.blocks.length) [] .void "").setInsertBlock
        (g.blocks.length + 2) := by
  rw [visitStmt_While] at h
  obtain ⟨c, block, f, hc, hblock, hf, h⟩ := parent_inv h
  rw [GenM.bind_ok (createBlock_run _ _ _), GenM.bind_ok (createBlock_run _ _ _),
    GenM.bind_ok (createBlock_run _ _ _)] at h
  have e1 : (g.addBlock "cond" (some f)).blocks.length = g.blocks.length + 1 := by simp
  have e2 : ((g.addBlock "cond" (some f)).addBlock "body" (some f)).blocks.length =
      g.blocks.length + 2 := by simp
  simp only [e1, e2, CreateBr, CreateCondBr] at h
  rw [GenM.bind_ok (insert_run _ _ _ _ _), GenM.bind_ok (setInsertPoint_run _ _)] at h
  obtain ⟨condVal, g1, h1, k1⟩ := GenM.bind_ok_inv h
  obtain ⟨condV, gx, hx, k2⟩ := GenM.bind_ok_inv k1
  obtain ⟨rfl, rfl⟩ := expectValue_inv hx
  rw [GenM.bind_ok (insert_run _ _ _ _ _), GenM.bind_ok (setInsertPoint_run _ _)] at k2
  obtain ⟨_, g2, h2, k3⟩ := GenM.bind_ok_inv k2
  rw [GenM.bind_ok (insert_run _ _ _ _ _)] at k3
  cases k3
  exact ⟨c, block, f, condV, _, g2, hc, hblock, hf, h1, h2, rfl⟩

theorem visitStmt_If_inv {w : Wiring} {setGlobal : Bool} {condNode : Expr}
    {bodyNode : Stmt} {optElseBodyNode : Option Stmt} {g g' : GenContext}
    (h : (visitStmt w setGlobal (.If condNode bodyNode optElseBodyNode)).run g =
      (.ok (), g')) :
    ∃ c block f condV g1 g2 g3, g.insertBlock = some c ∧ g.blocks[c]? = some block ∧
      block.parent = some f ∧
      (visitExpr condNode).run
        (((g.addBlock "body" (some f)).addBlock "elseBody" (some f)).addBlock "after"
          (some f)) = (.ok (some condV), g1) ∧
      (visitStmt w false bodyNode).run
        ((g1.emit (.condBr g.blocks.length (g.blocks.length + 1)) [condV] .void
          "").setInsertBlock g.blocks.length) = (.ok (), g2) ∧
      (match optElseBodyNode with
        | some elseBodyNode =>
          (visitStmt w false elseBodyNode).run
            ((g2.emit (.br (g.blocks.length + 2)) [] .void "").setInsertBlock
              (g.blocks.length + 1)) = (.ok (), g3)
        | none =>
          g3 = (g2.emit (.br (g.blocks.length + 2)) [] .void "").setInsertBlock
            (g.blocks.length + 1)) ∧
      g' = (g3.emit (.br (g.blocks.length + 2)) [] .void "").setInsertBlock
        (g.blocks.length + 2) := by
  rw [visitStmt_If] at h
  obtain ⟨c, block, f, hc, hblock, hf, h⟩ := parent_inv h
  rw [GenM.bind_ok (createBlock_run _ _ _), GenM.bind_ok (createBlock_run _ _ _),
    GenM.bind_ok (createBlock_run _ _ _)] at h
  have e1 : (g.addBlock "body" (some f)).blocks.length = g.blocks.length + 1 := by simp
  have e2 : ((g.addBlock "body" (some f)).addBlock "elseBody" (some f)).blocks.length =
      g.blocks.length + 2 := by simp
  simp only [e1, e2, CreateBr, CreateCondBr] at h
  obtain ⟨condVal, g1, h1, k1⟩ := GenM.bind_ok_inv h
  obtain ⟨condV, gx, hx, k2⟩ := GenM.bind_ok_inv k1
  obtain ⟨rfl, rfl⟩ := expectValue_inv hx
  rw [GenM.bind_ok (insert_run _ _ _ _ _), GenM.bind_ok (setInsertPoint_run _ _)] at k2
  obtain ⟨_, g2, h2, k3⟩ := GenM.bind_ok_inv k2
  rw [GenM.bind_ok (insert_run _ _ _ _ _), GenM.bind_ok (setInsertPoint_run _ _)] at k3
  cases optElseBodyNode with
  | none =>
    dsimp only at k3
    rw [GenM.bind_ok (GenM.pure_run _ _), GenM.bind_ok (insert_run _ _ _ _ _)] at k3
    cases k3
    exact ⟨c, block, f, condV, _, g2, _, hc, hblock, hf, h1, h2, rfl, rfl⟩
  | some elseBodyNode =>
    dsimp only at k3
    obtain ⟨_, g3, h3, k4⟩ := GenM.bind_ok_inv k3
    rw [GenM.bind_ok (insert_run _ _ _ _ _)] at k4
    cases k4
    exact ⟨c, block, f, condV, _, g2, g3, hc, hblock, hf, h1, h2, h3, rfl⟩

/-- The value of a declaration reference is a load: where the store visitor accepts a node,
the value that the node lowers to is an instruction, no constant. -/
theorem reference_loaded {e : Expr} {g1 g2 g3 g4 : GenContext} {store : Option Value}
    {v : Option Value} {a : Value} (hs : (storeVisit e).run g1 = (.ok store, g2))
    (hv : (visitExpr e).run g3 = (.ok v, g4)) (ha : v = some a) : a.isConstant = false := by
  subst ha
  cases e with
  | DeclVarRef refName =>
    rw [visitExpr] at hv
    unfold visitDeclVarRef at hv
    obtain ⟨gg, _, -, hv⟩ := GenM.bind_ok_inv hv
    split at hv
    · cases hv
    · obtain ⟨symbol, _, -, hv⟩ := GenM.bind_ok_inv hv
      obtain ⟨loaded, _, hload, hv⟩ := GenM.bind_ok_inv hv
      cases hload
      cases hv
      rfl
  | DeclArrayRef refName indexNode =>
    rw [visitExpr] at hv
    obtain ⟨gg, _, -, hv⟩ := GenM.bind_ok_inv hv
    split at hv
    · cases hv
    · obtain ⟨symbol, _, -, hv⟩ := GenM.bind_ok_inv hv
      split at hv
      · cases hv
      · obtain ⟨indexV, _, -, hv⟩ := GenM.bind_ok_inv hv
        obtain ⟨adjusted, _, -, hv⟩ := GenM.bind_ok_inv hv
        obtain ⟨elementType, _, -, hv⟩ := GenM.bind_ok_inv hv
        obtain ⟨elementPtr, _, -, hv⟩ := GenM.bind_ok_inv hv
        obtain ⟨loaded, _, hload, hv⟩ := GenM.bind_ok_inv hv
        cases hload
        cases hv
        rfl
  | _ =>
    rw [storeVisit] at hs <;> cases hs

theorem visitStmt_For_inv {w : Wiring} {setGlobal : Bool} {initNode : Stmt} {toNode : Expr}
    {bodyNode : Stmt} {increasing : Bool} {g g' : GenContext}
    (h : (visitStmt w setGlobal (.For initNode toNode bodyNode increasing)).run g =
      (.ok (), g')) :
    ∃ c block f g1 fromStore toV fromV g2 g3 g4 g5 fromV2 g6,
      g.insertBlock = some c ∧ g.blocks[c]? = some block ∧ block.parent = some f ∧
      (visitStmt w false initNode).run
        ((((((g.addBlock "init" (some f)).addBlock "cond" (some f)).addBlock "body"
          (some f)).addBlock "after" (some f)).emit (.br g.blocks.length) [] .void
          "").setInsertBlock g.blocks.length) = (.ok (), g1) ∧
      (storeVisit initNode.getVarNode).run
        ((g1.emit (.br (g.blocks.length + 1)) [] .void "").setInsertBlock
          (g.blocks.length + 1)) = (.ok (some fromStore), g2) ∧
      (visitExpr toNode).run g2 = (.ok (some toV), g3) ∧
      (visitExpr initNode.getVarNode).run g3 = (.ok (some fromV), g4) ∧
      (visitStmt { w with breakBlock := some (g.blocks.length + 3) } false bodyNode).run
        (((g4.emit (.icmp (if increasing then .SLE else .SGE)) [fromV, toV] (.integer 1)
          (if increasing then "le" else "ge")).emit
          (.condBr (g.blocks.length + 2) (g.blocks.length + 3))
          [.instruction g4.code.length (.integer 1)] .void "").setInsertBlock
          (g.blocks.length + 2)) = (.ok (), g5) ∧
      (visitExpr initNode.getVarNode).run g5 = (.ok (some fromV2), g6) ∧
      g' = (((g6.emit .add
          [fromV2, .constantInt (.integer 32) (if increasing then 1 else -1)] fromV2.getType
          "").emit .store [.instruction g6.code.length fromV2.getType, fromStore] .void
          "").emit (.br (g.blocks.length + 1)) [] .void "").setInsertBlock
          (g.blocks.length + 3) := by
  rw [visitStmt_For] at h
  obtain ⟨c, block, f, hc, hblock, hf, h⟩ := parent_inv h
  rw [GenM.bind_ok (createBlock_run _ _ _), GenM.bind_ok (createBlock_run _ _ _),
    GenM.bind_ok (createBlock_run _ _ _), GenM.bind_ok (createBlock_run _ _ _)] at h
  have e1 : (g.addBlock "init" (some f)).blocks.length = g.blocks.length + 1 := by simp
  have e2 : ((g.addBlock "init" (some f)).addBlock "cond" (some f)).blocks.length =
      g.blocks.length + 2 := by simp
  have e3 : (((g.addBlock "init" (some f)).addBlock "cond" (some f)).addBlock "body"
      (some f)).blocks.length = g.blocks.length + 3 := by simp
  simp only [e1, e2, e3, CreateBr, CreateCondBr, CreateStore] at h
  rw [GenM.bind_ok (insert_run _ _ _ _ _), GenM.bind_ok (setInsertPoint_run _ _)] at h
  obtain ⟨_, g1, h1, k1⟩ := GenM.bind_ok_inv h
  rw [GenM.bind_ok (insert_run _ _ _ _ _), GenM.bind_ok (setInsertPoint_run _ _)] at k1
  obtain ⟨fromStore, g2, h2, k2⟩ := GenM.bind_ok_inv k1
  obtain ⟨toVal, g3, h3, k3⟩ := GenM.bind_ok_inv k2
  obtain ⟨fromVal, g4, h4, k4⟩ := GenM.bind_ok_inv k3
  cases increasing with
  | true =>
    simp only [if_true] at k4
    obtain ⟨fromV, gx, hx, k5⟩ := GenM.bind_ok_inv k4
    obtain ⟨rfl, rfl⟩ := expectValue_inv hx
    obtain ⟨toV, gy, hy, k6⟩ := GenM.bind_ok_inv k5
    obtain ⟨rfl, rfl⟩ := expectValue_inv hy
    have hfrom := reference_loaded h2 h4 rfl
    rw [GenM.bind_ok (createICmp_inserted _ _ _ (by rw [hfrom]; rfl)),
      GenM.bind_ok (insert_run _ _ _ _ _), GenM.bind_ok (setInsertPoint_run _ _)] at k6
    obtain ⟨_, g5, h5, k8⟩ := GenM.bind_ok_inv k6
    obtain ⟨fromVal2, g6, h6, k9⟩ := GenM.bind_ok_inv k8
    obtain ⟨fromV2, gz, hz, k10⟩ := GenM.bind_ok_inv k9
    obtain ⟨rfl, rfl⟩ := expectValue_inv hz
    have hfrom2 := reference_loaded h2 h6 rfl
    rw [GenM.bind_ok (createBinOp_inserted _ _ _ (by rw [hfrom2]; rfl))] at k10
    obtain ⟨store, gs, hs, k11⟩ := GenM.bind_ok_inv k10
    obtain ⟨rfl, rfl⟩ := expectValue_inv hs
    rw [GenM.bind_ok (insert_run _ _ _ _ _), GenM.bind_ok (insert_run _ _ _ _ _)] at k11
    cases k11
    exact ⟨c, block, f, g1, store, toV, fromV, g2, g3, _, g5, fromV2, _, hc, hblock, hf, h1,
      h2, h3, h4, h5, h6, rfl⟩
  | false =>
    simp only [Bool.false_eq_true, if_false] at k4
    obtain ⟨fromV, gx, hx, k5⟩ := GenM.bind_ok_inv k4
    obtain ⟨rfl, rfl⟩ := expectValue_inv hx
    obtain ⟨toV, gy, hy, k6⟩ := GenM.bind_ok_inv k5
    obtain ⟨rfl, rfl⟩ := expectValue_inv hy
    have hfrom := reference_loaded h2 h4 rfl
    rw [GenM.bind_ok (createICmp_inserted _ _ _ (by rw [hfrom]; rfl)),
      GenM.bind_ok (insert_run _ _ _ _ _), GenM.bind_ok (setInsertPoint_run _ _)] at k6
    obtain ⟨_, g5, h5, k8⟩ := GenM.bind_ok_inv k6
    obtain ⟨fromVal2, g6, h6, k9⟩ := GenM.bind_ok_inv k8
    obtain ⟨fromV2, gz, hz, k10⟩ := GenM.bind_ok_inv k9
    obtain ⟨rfl, rfl⟩ := expectValue_inv hz
    have hfrom2 := reference_loaded h2 h6 rfl
    rw [GenM.bind_ok (createBinOp_inserted _ _ _ (by rw [hfrom2]; rfl))] at k10
    obtain ⟨store, gs, hs, k11⟩ := GenM.bind_ok_inv k10
    obtain ⟨rfl, rfl⟩ := expectValue_inv hs
    rw [GenM.bind_ok (insert_run _ _ _ _ _), GenM.bind_ok (insert_run _ _ _ _ _)] at k11
    cases k11
    exact ⟨c, block, f, g1, store, toV, fromV, g2, g3, _, g5, fromV2, _, hc, hblock, hf, h1,
      h2, h3, h4, h5, h6, rfl⟩

theorem visitBreak_inv {w : Wiring} {g g' : GenContext}
    (h : (visitBreak w).run g = (.ok (), g')) :
    (w.breakBlock = none ∧ g' = g) ∨
    ∃ breakBlock c block, w.breakBlock = some breakBlock ∧ g.insertBlock = some c ∧
      g.blocks[c]? = some block ∧
      g' = (((g.emit (.br breakBlock) [] .void "").addBlock "afterBreak"
        block.parent).setInsertBlock g.blocks.length) := by
  unfold visitBreak at h
  cases hw : w.breakBlock with
  | none =>
    rw [hw] at h
    cases h
    exact Or.inl ⟨rfl, rfl⟩
  | some breakBlock =>
    rw [hw] at h
    simp only [CreateBr] at h
    rw [GenM.bind_ok (insert_run _ _ _ _ _)] at h
    obtain ⟨func, g1, h1, k1⟩ := GenM.bind_ok_inv h
    obtain ⟨c, block, hc, hblock, rfl, rfl⟩ := getInsertBlockParent_inv h1
    rw [GenM.bind_ok (createBlock_run _ _ _)] at k1
    cases k1
    exact Or.inr ⟨breakBlock, c, block, rfl, hc, hblock, rfl⟩

theorem visitExit_inv {w : Wiring} {g g' : GenContext}
    (h : (visitExit w).run g = (.ok (), g')) :
    ∃ (c : Nat) (block : BasicBlock) (opcode : Opcode) (operands : List Value)
      (g1 : GenContext), g.insertBlock = some c ∧
      g.blocks[c]? = some block ∧ opcode.isTerminator = true ∧
      (opcode = .ret ∨ opcode = .retVoid) ∧
      (g1 = g ∨ ∃ retType retValStore declName,
        g1 = g.emit .load [retValStore] retType declName) ∧
      g' = (((g1.emit opcode operands .void "").addBlock "afterExit"
        block.parent).setInsertBlock g.blocks.length) := by
  unfold visitExit at h
  cases hr : w.retV with
  | monostate =>
    rw [hr] at h
    simp only [CreateRetVoid] at h
    rw [GenM.bind_ok (insert_run _ _ _ _ _), GenM.bind_ok (GenM.pure_run _ _)] at h
    obtain ⟨func, g2, h2, k2⟩ := GenM.bind_ok_inv h
    obtain ⟨c, block, hc, hblock, rfl, rfl⟩ := getInsertBlockParent_inv h2
    rw [GenM.bind_ok (createBlock_run _ _ _)] at k2
    cases k2
    exact ⟨c, block, .retVoid, [], g, hc, hblock, rfl, Or.inr rfl, Or.inl rfl, rfl⟩
  | value v =>
    rw [hr] at h
    simp only [CreateRet] at h
    rw [GenM.bind_ok (insert_run _ _ _ _ _), GenM.bind_ok (GenM.pure_run _ _)] at h
    obtain ⟨func, g2, h2, k2⟩ := GenM.bind_ok_inv h
    obtain ⟨c, block, hc, hblock, rfl, rfl⟩ := getInsertBlockParent_inv h2
    rw [GenM.bind_ok (createBlock_run _ _ _)] at k2
    cases k2
    exact ⟨c, block, .ret, [v], g, hc, hblock, rfl, Or.inl rfl, Or.inl rfl, rfl⟩
  | loadReturnV retType retValStore declName =>
    rw [hr] at h
    simp only [CreateRet, CreateLoad] at h
    rw [GenM.bind_ok (insert_run _ _ _ _ _), GenM.bind_ok (insert_run _ _ _ _ _),
      GenM.bind_ok (GenM.pure_run _ _)] at h
    obtain ⟨func, g2, h2, k2⟩ := GenM.bind_ok_inv h
    obtain ⟨c, block, hc, hblock, rfl, rfl⟩ := getInsertBlockParent_inv h2
    rw [GenM.bind_ok (createBlock_run _ _ _)] at k2
    cases k2
    exact ⟨c, block, .ret, [.instruction g.code.length retType], _, hc, hblock, rfl,
      Or.inl rfl, Or.inr ⟨retType, retValStore, declName, rfl⟩, rfl⟩

theorem enterFunction_steps {g g' : GenContext} {func : Nat} {paramNodes : List VarDecl}
    (h : (enterFunction func paramNodes).run g = (.ok (), g')) :
    ∃ callee, g.functions[func]? = some callee ∧
      (storeArguments func 0 callee.paramTypes
        (argumentNames ["entry"] 0 (paramNodes.map VarDecl.declName)) paramNodes).run
        (((g.addBlock "entry" (some func)).setInsertBlock g.blocks.length).setArgumentNames
          func (argumentNames ["entry"] 0 (paramNodes.map VarDecl.declName))) =
        (.ok (), g') := by
  unfold enterFunction at h
  rw [GenM.bind_ok (createBlock_run _ _ _), GenM.bind_ok (setInsertPoint_run _ _)] at h
  obtain ⟨callee, g1, h1, h2⟩ := GenM.bind_ok_inv h
  obtain ⟨hf, rfl⟩ := functionAt_inv h1
  have h3 : (setArgumentNames func
      (argumentNames ["entry"] 0 (paramNodes.map VarDecl.declName))).run
      ((g.addBlock "entry" (some func)).setInsertBlock g.blocks.length) =
      (.ok (), ((g.addBlock "entry" (some func)).setInsertBlock
        g.blocks.length).setArgumentNames func
        (argumentNames ["entry"] 0 (paramNodes.map VarDecl.declName))) := rfl
  rw [GenM.bind_ok h3] at h2
  exact ⟨callee, hf, h2⟩

theorem checkArgumentTypes_state (what declName : String) :
    ∀ (types : List LType) (argNo : Nat) (paramNodes : List VarDecl) (g g' : GenContext),
      (checkArgumentTypes what declName argNo types paramNodes).run g = (.ok (), g') →
      g' = g := by
  intro types
  induction types with
  | nil =>
    intro argNo paramNodes g g' h
    unfold checkArgumentTypes at h
    cases h
    rfl
  | cons type types ih =>
    intro argNo paramNodes g g' h
    cases paramNodes with
    | nil =>
      unfold checkArgumentTypes at h
      cases h
      rfl
    | cons param paramNodes =>
      unfold checkArgumentTypes at h
      split at h
      · cases h
      · exact ih _ _ _ _ h

theorem blocksOf_empty {g : GenContext} {func : Nat}
    (h : (g.blocksOf func).isEmpty = true) :
    ∀ (b : Nat) (block : BasicBlock), g.blocks[b]? = some block →
      block.parent ≠ some func := by
  intro b block hb hp
  have hlt := (List.getElem?_eq_some_iff.1 hb).1
  have hmem : b ∈ g.blocksOf func := by
    unfold GenContext.blocksOf
    rw [List.mem_filter]
    refine ⟨List.mem_range.2 hlt, ?_⟩
    rw [hb]
    simpa using hp
  rw [List.isEmpty_iff] at h
  rw [h] at hmem
  cases hmem

/-- What `declareFunction` leaves when it returns a function whose body is to be emitted:
the function exists, and it is either the one just declared or one that has no block
yet. -/
theorem declareFunction_some {what declName : String} {paramNodes : List VarDecl}
    {hasBlock : Bool} {retType : Option PrimitiveType} {g g0 : GenContext} {func : Nat}
    (h : (declareFunction what declName paramNodes hasBlock retType).run g =
      (.ok (some func), g0)) :
    g0.blocks = g.blocks ∧ g0.code = g.code ∧ g0.insertBlock = g.insertBlock ∧
    g.functions.length ≤ g0.functions.length ∧ func < g0.functions.length ∧
    (func = g.functions.length ∨
      ∀ (b : Nat) (block : BasicBlock), g.blocks[b]? = some block →
        block.parent ≠ some func) := by
  unfold declareFunction at h
  rw [GenM.bind_ok (getFunction_run _ _)] at h
  generalize (if declName = "" then none
    else g.functions.findIdx? fun f => f.name = declName) = declared at h
  cases declared with
  | some f =>
    dsimp only at h
    cases hasBlock with
    | false => cases h
    | true =>
      simp only [Bool.not_true, Bool.false_eq_true, if_false] at h
      rw [GenM.bind_ok (show (functionEmpty f).run g = (.ok (g.blocksOf f).isEmpty, g)
        from rfl)] at h
      cases hempty : (g.blocksOf f).isEmpty with
      | false =>
        rw [hempty] at h
        cases h
      | true =>
        rw [hempty] at h
        simp only [Bool.not_true, Bool.false_eq_true, if_false] at h
        obtain ⟨callee, g1, h1, h2⟩ := GenM.bind_ok_inv h
        obtain ⟨hf, rfl⟩ := functionAt_inv h1
        split at h2
        · cases h2
        · obtain ⟨_, g2, h3, h4⟩ := GenM.bind_ok_inv h2
          have := checkArgumentTypes_state _ _ _ _ _ _ _ h3
          subst this
          cases h4
          exact ⟨rfl, rfl, rfl, Nat.le_refl _, (List.getElem?_eq_some_iff.1 hf).1,
            Or.inr (blocksOf_empty hempty)⟩
  | none =>
    dsimp only at h
    split at h
    · cases h
    · rw [GenM.bind_ok (createFunction_run _ _ _ _ _)] at h
      cases hasBlock with
      | false => cases h
      | true =>
        cases h
        refine ⟨rfl, rfl, rfl, by simp [GenContext.addFunction], by
          simp [GenContext.addFunction], Or.inl rfl⟩

theorem visitStmt_ProcDecl_inv {w : Wiring} {setGlobal : Bool} {declName : String}
    {global : Bool} {paramNodes : List VarDecl} {optBlockNode : Option Stmt}
    {g g' : GenContext}
    (h : (visitStmt w setGlobal (.ProcDecl declName global paramNodes optBlockNode)).run g =
      (.ok (), g')) :
    (∃ proc, (declareFunction "Procedure" declName paramNodes optBlockNode.isSome none).run
      g = (.ok proc, g')) ∨
    ∃ proc blockNode prevBB g0 g1 g2, optBlockNode = some blockNode ∧
      (declareFunction "Procedure" declName paramNodes true none).run g =
        (.ok (some proc), g0) ∧
      g0.insertBlock = some prevBB ∧
      (enterFunction proc paramNodes).run g0 = (.ok (), g1) ∧
      (visitStmt { w with retV := .monostate } false blockNode).run g1 = (.ok (), g2) ∧
      g' = ((g2.emit .retVoid [] .void "").setInsertBlock prevBB).setSymbolTable
        g0.symbolTable := by
  rw [visitStmt_ProcDecl] at h
  obtain ⟨proc, g0, h0, k0⟩ := GenM.bind_ok_inv h
  cases optBlockNode with
  | none =>
    cases proc <;>
    · cases k0
      exact Or.inl ⟨_, h0⟩
  | some blockNode =>
    cases proc with
    | none =>
      cases k0
      exact Or.inl ⟨_, h0⟩
    | some proc =>
      dsimp only at k0
      simp only [CreateRetVoid] at k0
      rw [GenM.bind_ok (getInsertBlock_run _), GenM.bind_ok (GenM.get_run _)] at k0
      obtain ⟨_, g1, h1, k1⟩ := GenM.bind_ok_inv k0
      obtain ⟨_, g2, h2, k2⟩ := GenM.bind_ok_inv k1
      rw [GenM.bind_ok (insert_run _ _ _ _ _)] at k2
      obtain ⟨_, g3, h3, k3⟩ := GenM.bind_ok_inv k2
      obtain ⟨prevBB, hprev, rfl⟩ := setInsertPoint_inv h3
      cases k3
      exact Or.inr ⟨proc, blockNode, prevBB, g0, g1, g2, rfl, h0, hprev, h1, h2, rfl⟩

theorem visitStmt_FunDecl_inv {w : Wiring} {setGlobal : Bool} {declName : String}
    {global : Bool} {paramNodes : List VarDecl} {optBlockNode : Option Stmt}
    {retTypeNode : PrimitiveType} {g g' : GenContext}
    (h : (visitStmt w setGlobal
      (.FunDecl declName global paramNodes optBlockNode retTypeNode)).run g = (.ok (), g')) :
    (∃ func, (declareFunction "Function" declName paramNodes optBlockNode.isSome
      (some retTypeNode)).run g = (.ok func, g')) ∨
    ∃ func blockNode prevBB g0 g1 slot g2 g3, optBlockNode = some blockNode ∧
      (declareFunction "Function" declName paramNodes true (some retTypeNode)).run g =
        (.ok (some func), g0) ∧
      g0.insertBlock = some prevBB ∧
      (enterFunction func paramNodes).run g0 = (.ok (), g1) ∧
      (createReturnSlot declName retTypeNode).run g1 = (.ok slot, g2) ∧
      (visitStmt { w with retV := .loadReturnV (genPrimitiveType retTypeNode) slot declName }
        false blockNode).run g2 = (.ok (), g3) ∧
      g' = (((g3.emit .load [slot] (genPrimitiveType retTypeNode) declName).emit .ret
        [.instruction g3.code.length (genPrimitiveType retTypeNode)] .void
        "").setInsertBlock prevBB).setSymbolTable g0.symbolTable := by
  rw [visitStmt_FunDecl] at h
  obtain ⟨func, g0, h0, k0⟩ := GenM.bind_ok_inv h
  cases optBlockNode with
  | none =>
    cases func <;>
    · cases k0
      exact Or.inl ⟨_, h0⟩
  | some blockNode =>
    cases func with
    | none =>
      cases k0
      exact Or.inl ⟨_, h0⟩
    | some func =>
      dsimp only at k0
      simp only [CreateRet, CreateLoad] at k0
      rw [GenM.bind_ok (getInsertBlock_run _), GenM.bind_ok (GenM.get_run _)] at k0
      obtain ⟨_, g1, h1, k1⟩ := GenM.bind_ok_inv k0
      obtain ⟨slot, g2, h2, k2⟩ := GenM.bind_ok_inv k1
      obtain ⟨_, g3, h3, k3⟩ := GenM.bind_ok_inv k2
      rw [GenM.bind_ok (insert_run _ _ _ _ _), GenM.bind_ok (insert_run _ _ _ _ _)] at k3
      obtain ⟨_, g4, h4, k4⟩ := GenM.bind_ok_inv k3
      obtain ⟨prevBB, hprev, rfl⟩ := setInsertPoint_inv h4
      cases k4
      exact Or.inr ⟨func, blockNode, prevBB, g0, g1, slot, g2, g3, rfl, h0, hprev, h1, h2,
        h3, rfl⟩

theorem createICmp_inv {predicate : Predicate} {lhs rhs : Value} {name : String}
    {g g' : GenContext} {v : Value}
    (h : (CreateICmp predicate lhs rhs name).run g = (.ok v, g')) :
    g' = g ∨ g' = g.emit (.icmp predicate) [lhs, rhs] (.integer 1) name := by
  unfold CreateICmp at h
  split at h
  · cases h
    exact Or.inl rfl
  · cases h
    exact Or.inr rfl

theorem createBinOp_inv {opcode : Opcode} {lhs rhs : Value} {name : String}
    {g g' : GenContext} {v : Value}
    (h : (CreateBinOp opcode lhs rhs name).run g = (.ok v, g')) :
    g' = g ∨ g' = g.emit opcode [lhs, rhs] lhs.getType name := by
  unfold CreateBinOp at h
  split at h
  · cases h
    exact Or.inl rfl
  · cases h
    exact Or.inr rfl

/-- The state that a bounds check leaves when it returns, step by step: `gT` is the state
after the test of the index, which differs from the state before by the instructions of the
test that the builder has not folded, none of them a terminator. -/
theorem boundsCheck_inv {g g' : GenContext} {arrayName : String}
    {indexV lowerBoundV upperBoundV : Value}
    (h : (generateIndexOutOfBoundsCheck arrayName indexV lowerBoundV upperBoundV).run g =
      (.ok (), g')) :
    ∃ (gT : GenContext) (c : Nat) (block : BasicBlock) (f : Nat) (ops4 ops5 : List Value)
      (t5 : LType) (gE : GenContext) (errorFunc : Nat),
      (∀ I : GenContext → Prop,
        (∀ g opcode operands type name, opcode.isTerminator = false → I g →
          I (g.emit opcode operands type name)) → I g → I gT) ∧
      gT.insertBlock = some c ∧ gT.blocks[c]? = some block ∧ block.parent = some f ∧
      (gE = (((((((gT.addBlock "check" (some f)).addBlock "throw_exception"
          (some f)).addBlock "continue" (some f)).emit (.br gT.blocks.length) [] .void
          "").setInsertBlock gT.blocks.length).emit
          (.condBr (gT.blocks.length + 1) (gT.blocks.length + 2)) ops4 .void
          "").setInsertBlock (gT.blocks.length + 1)).addString (outOfBoundsMessage arrayName) ∨
        gE = ((((((((gT.addBlock "check" (some f)).addBlock "throw_exception"
          (some f)).addBlock "continue" (some f)).emit (.br gT.blocks.length) [] .void
          "").setInsertBlock gT.blocks.length).emit
          (.condBr (gT.blocks.length + 1) (gT.blocks.length + 2)) ops4 .void
          "").setInsertBlock (gT.blocks.length + 1)).addString
          (outOfBoundsMessage arrayName)).addFunction
          (.integer 32) [.pointer (.integer 8)] true "error") ∧
      g' = ((gE.emit (.call errorFunc) ops5 t5 "").emit .unreachable [] .void
        "").setInsertBlock (gT.blocks.length + 2) := by
  unfold generateIndexOutOfBoundsCheck at h
  obtain ⟨below, ga, ha, h⟩ := GenM.bind_ok_inv h
  obtain ⟨above, gb, hb, h⟩ := GenM.bind_ok_inv h
  obtain ⟨cond, gT, hT, h⟩ := GenM.bind_ok_inv h
  have hI : ∀ I : GenContext → Prop,
      (∀ g opcode operands type name, opcode.isTerminator = false → I g →
        I (g.emit opcode operands type name)) → I g → I gT := by
    intro I hemit h0
    have h1 : I ga := by
      rcases createICmp_inv ha with rfl | rfl
      · exact h0
      · exact hemit _ _ _ _ _ rfl h0
    have h2 : I gb := by
      rcases createICmp_inv hb with rfl | rfl
      · exact h1
      · exact hemit _ _ _ _ _ rfl h1
    rcases createBinOp_inv hT with rfl | rfl
    · exact h2
    · exact hemit _ _ _ _ _ rfl h2
  simp only [CreateBr, CreateCondBr, CreateUnreachable] at h
  obtain ⟨c, block, f, hc, hblock, hf, k1⟩ := parent_inv h
  rw [GenM.bind_ok (createBlock_run _ _ _), GenM.bind_ok (createBlock_run _ _ _),
    GenM.bind_ok (createBlock_run _ _ _), GenM.bind_ok (insert_run _ _ _ _ _),
    GenM.bind_ok (setInsertPoint_run _ _), GenM.bind_ok (insert_run _ _ _ _ _),
    GenM.bind_ok (setInsertPoint_run _ _), GenM.bind_ok (globalString_run _ _),
    GenM.bind_ok (getFunction_run _ _)] at k1
  simp only [emit_blocks, addBlock_blocks, List.length_append, List.length_singleton] at k1
  have hne : ¬("error" = "") := by decide
  rw [if_neg hne] at k1
  simp only [CreateCall] at k1
  split at k1
  · rw [GenM.bind_ok (GenM.pure_run _ _)] at k1
    obtain ⟨v, g3, h3, k3⟩ := GenM.bind_ok_inv k1
    obtain ⟨callee, g4, h4, k4⟩ := GenM.bind_ok_inv h3
    obtain ⟨_, rfl⟩ := functionAt_inv h4
    rw [insert_run] at k4
    cases k4
    rw [GenM.bind_ok (insert_run _ _ _ _ _)] at k3
    cases k3
    exact ⟨gT, c, block, f, _, _, _, _, _, hI, hc, hblock, hf, Or.inl rfl, rfl⟩
  · rw [GenM.bind_ok (createFunction_run _ _ _ _ _)] at k1
    obtain ⟨v, g3, h3, k3⟩ := GenM.bind_ok_inv k1
    obtain ⟨callee, g4, h4, k4⟩ := GenM.bind_ok_inv h3
    obtain ⟨_, rfl⟩ := functionAt_inv h4
    rw [insert_run] at k4
    cases k4
    rw [GenM.bind_ok (insert_run _ _ _ _ _)] at k3
    cases k3
    exact ⟨gT, c, block, f, _, _, _, _, _, hI, hc, hblock, hf, Or.inr rfl, rfl⟩

theorem diff_new1 {P : Set Nat} {n : Nat} (hP : ∀ b ∈ P, b < n) : (P ∪ {n}) \ {n} = P := by
  ext x
  simp only [Set.mem_diff, Set.mem_union, Set.mem_singleton_iff]
  constructor
  · rintro ⟨h | h, h1⟩
    · exact h
    · exact absurd h h1
  · intro h
    have := hP x h
    exact ⟨Or.inl h, by omega⟩

theorem diff_new3 {P : Set Nat} {n : Nat} (hP : ∀ b ∈ P, b < n) :
    (((((P ∪ {n}) ∪ {n + 1}) ∪ {n + 2}) \ {n}) \ {n + 1}) \ {n + 2} = P := by
  ext x
  simp only [Set.mem_diff, Set.mem_union, Set.mem_singleton_iff]
  constructor
  · rintro ⟨⟨⟨((h | h) | h) | h, h1⟩, h2⟩, h3⟩
    · exact h
    · exact absurd h h1
    · exact absurd h h2
    · exact absurd h h3
  · intro h
    have := hP x h
    exact ⟨⟨⟨Or.inl (Or.inl (Or.inl h)), by omega⟩, by omega⟩, by omega⟩

theorem diff_new4 {P : Set Nat} {n : Nat} (hP : ∀ b ∈ P, b < n) :
    (((((((P ∪ {n}) ∪ {n + 1}) ∪ {n + 2}) ∪ {n + 3}) \ {n}) \ {n + 1}) \ {n + 2}) \
      {n + 3} = P := by
  ext x
  simp only [Set.mem_diff, Set.mem_union, Set.mem_singleton_iff]
  constructor
  · rintro ⟨⟨⟨⟨(((h | h) | h) | h) | h, h1⟩, h2⟩, h3⟩, h4⟩
    · exact h
    · exact absurd h h1
    · exact absurd h h2
    · exact absurd h h3
    · exact absurd h h4
  · intro h
    have := hP x h
    exact ⟨⟨⟨⟨Or.inl (Or.inl (Or.inl (Or.inl h))), by omega⟩, by omega⟩, by omega⟩, by omega⟩

theorem diff_suspend {P : Set Nat} {n c : Nat} (hP : ∀ b ∈ P, b < n) (hc : c ∉ P) :
    ((((P ∪ {n}) \ {n}) ∪ {c}) \ {c}) = P := by
  ext x
  simp only [Set.mem_diff, Set.mem_union, Set.mem_singleton_iff]
  constructor
  · rintro ⟨⟨h | h, h1⟩ | h, h2⟩
    · exact h
    · exact absurd h h1
    · exact absurd h h2
  · intro h
    have := hP x h
    exact ⟨Or.inl ⟨Or.inl h, by omega⟩, fun e => hc (e ▸ h)⟩

/-- A block is added to the function of a block that exists, under a name other than
`entry`; `n` is its index. -/
theorem Shape.addInner {terminated : Bool} {P : Set Nat} {g : GenContext}
    (h : Shape terminated P g) (name : String) {f : Nat} (n : Nat)
    (hn : n = g.blocks.length) (hname : name ≠ "entry")
    (hpar : ∃ (b : Nat) (block : BasicBlock), g.blocks[b]? = some block ∧
      block.parent = some f) :
    Shape terminated (P ∪ {n}) (g.addBlock name (some f)) := by
  obtain ⟨b, block, hb, hf⟩ := hpar
  subst hn
  refine h.addBlock name f ⟨fun e => absurd e hname, fun hall => absurd hf (hall b block hb)⟩
    (h.parents b block f hb hf)

theorem hasBlock_addBlock {g : GenContext} {f : Nat} (name : String) (func : Option Nat)
    (hpar : ∃ (b : Nat) (block : BasicBlock), g.blocks[b]? = some block ∧
      block.parent = some f) :
    ∃ (b : Nat) (block : BasicBlock), (g.addBlock name func).blocks[b]? = some block ∧
      block.parent = some f := by
  obtain ⟨b, block, hb, hf⟩ := hpar
  refine ⟨b, block, ?_, hf⟩
  rw [addBlock_blocks, List.getElem?_append_left (List.getElem?_eq_some_iff.1 hb).1]
  exact hb

theorem Shape.addString {terminated : Bool} {P : Set Nat} {g : GenContext}
    (h : Shape terminated P g) (text : String) : Shape terminated P (g.addString text) :=
  h.frame rfl rfl rfl (Nat.le_refl _)

theorem Shape.addFunction {terminated : Bool} {P : Set Nat} {g : GenContext}
    (h : Shape terminated P g) (returnType : LType) (paramTypes : List LType)
    (isVarArg : Bool) (name : String) :
    Shape terminated P (g.addFunction returnType paramTypes isVarArg name) :=
  h.frame rfl rfl rfl (by simp [GenContext.addFunction])

theorem Shape.setSymbolTable {terminated : Bool} {P : Set Nat} {g : GenContext}
    (h : Shape terminated P g) (table : SymbolTable) :
    Shape terminated P (g.setSymbolTable table) :=
  h.frame rfl rfl rfl (Nat.le_refl _)

theorem Shape.setArgumentNames {terminated : Bool} {P : Set Nat} {g : GenContext}
    (h : Shape terminated P g) (func : Nat) (names : List String) :
    Shape terminated P (g.setArgumentNames func names) :=
  h.frame rfl rfl rfl (by simp [GenContext.setArgumentNames])

theorem shape_tame (P : Set Nat) : Tame (Shape false P) where
  emit g opcode operands type name ho h := h.emit opcode operands type name ho
  frame g g' hcode hblocks hinsert hfun h := h.frame hcode hblocks hinsert hfun
  check arrayName indexV lowerBoundV upperBoundV := by
    refine ⟨fun g a g' h hrun => ?_⟩
    obtain ⟨gT, c, block, f, ops4, ops5, t5, gE, errorFunc, hT, hc, hblock, hf, hE, rfl⟩ :=
      boundsCheck_inv hrun
    have hpar : ∃ (b : Nat) (block : BasicBlock), gT.blocks[b]? = some block ∧
        block.parent = some f := ⟨c, block, hblock, hf⟩
    have s1 : Shape false P gT := hT (Shape false P)
      (fun g opcode operands type name ho hg => hg.emit opcode operands type name ho) h
    have s2 := s1.addInner "check" gT.blocks.length rfl (by decide) hpar
    have s3 := s2.addInner "throw_exception" (gT.blocks.length + 1) (by simp) (by decide)
      (hasBlock_addBlock _ _ hpar)
    have s4 := s3.addInner "continue" (gT.blocks.length + 2) (by simp) (by decide)
      (hasBlock_addBlock _ _ (hasBlock_addBlock _ _ hpar))
    have s5 := (s4.terminate (.br gT.blocks.length) [] .void "" rfl).resume
      (b := gT.blocks.length) (Or.inl (Or.inl (Or.inr rfl)))
    have s6 := (s5.terminate (.condBr (gT.blocks.length + 1) (gT.blocks.length + 2)) ops4
      .void "" rfl).resume (b := gT.blocks.length + 1)
      ⟨Or.inl (Or.inr rfl), by simp⟩
    have s7 := s6.addString (outOfBoundsMessage arrayName)
    have s8 : Shape false
        (((((P ∪ {gT.blocks.length}) ∪ {gT.blocks.length + 1}) ∪ {gT.blocks.length + 2}) \
          {gT.blocks.length}) \ {gT.blocks.length + 1}) gE := by
      rcases hE with rfl | rfl
      · exact s7
      · exact s7.addFunction _ _ _ _
    have s9 := ((s8.emit (.call errorFunc) ops5 t5 "" rfl).terminate .unreachable [] .void ""
      rfl).resume (b := gT.blocks.length + 2) ⟨⟨Or.inr rfl, by simp⟩, by simp⟩
    exact s9.congr (diff_new3 s1.below)

theorem shape_visitStmts (w : Wiring) (setGlobal : Bool) :
    ∀ (statementNodes : List Stmt),
      (∀ s ∈ statementNodes, ∀ (w : Wiring) (setGlobal : Bool) (P : Set Nat)
        (g g' : GenContext), Shape false P g →
        (visitStmt w setGlobal s).run g = (.ok (), g') → Shape false P g') →
      ∀ (P : Set Nat) (g g' : GenContext), Shape false P g →
        (visitStmts w setGlobal statementNodes).run g = (.ok (), g') → Shape false P g' := by
  intro statementNodes
  induction statementNodes with
  | nil =>
    intro _ P g g' h hrun
    rw [visitStmts_nil] at hrun
    cases hrun
    exact h
  | cons s rest ih =>
    intro hall P g g' h hrun
    obtain ⟨g1, h1, h2⟩ := visitStmts_cons_inv hrun
    exact ih (fun s hs => hall s (List.mem_cons_of_mem _ hs)) P g1 g'
      (hall s (List.mem_cons_self _ _) w setGlobal P g g1 h h1) h2

theorem Shape.currentParent {terminated : Bool} {P : Set Nat} {g : GenContext}
    (h : Shape terminated P g) {c : Nat} {block : BasicBlock}
    (hc : g.insertBlock = some c) (hblock : g.blocks[c]? = some block) :
    ∃ f, block.parent = some f ∧ c ∉ P := by
  obtain ⟨c', block', f, hc', hblock', hf, hcP⟩ := h.current
  rw [hc] at hc'
  cases hc'
  rw [hblock] at hblock'
  cases hblock'
  exact ⟨f, hf, hcP⟩

/-- The lowering of a statement whose tree is as the parser builds it leaves the blocks in
shape: it ends at an insertion point in a block without terminator, the pending blocks are
as before, and every other block, those it has created among them, is well formed. -/
theorem shape_visitStmt : ∀ s : Stmt, s.unflagged = true →
    ∀ (w : Wiring) (setGlobal : Bool) (P : Set Nat) (g g' : GenContext), Shape false P g →
      (visitStmt w setGlobal s).run g = (.ok (), g') → Shape false P g' := by
  intro s
  induction s using Stmt.induct with
  | hBlock main statementNodes ih =>
    intro hu w setGlobal P g g' h hrun
    obtain ⟨hmain, hall⟩ := unflagged_Block hu
    subst hmain
    obtain ⟨c, block, f, g1, hc, hblock, hf, h1, rfl⟩ := visitStmt_Block_inv hrun
    have s1 := h.addInner "block" g.blocks.length rfl (by decide) ⟨c, block, hblock, hf⟩
    have s2 := ((s1.terminate (.br g.blocks.length) [] .void "" rfl).resume
      (b := g.blocks.length) (Or.inr rfl)).congr (diff_new1 h.below)
    exact (shape_visitStmts w false statementNodes
      (fun s hs => ih s hs (hall s hs)) P _ g1 s2 h1).setSymbolTable _
  | hCompoundStmt statementNodes ih =>
    intro hu w setGlobal P g g' h hrun
    have hall := unflagged_CompoundStmt hu
    exact shape_visitStmts w false statementNodes (fun s hs => ih s hs (hall s hs)) P g g' h
      (visitStmt_CompoundStmt_inv hrun)
  | hVarDeclStmt decl =>
    intro _ w setGlobal P g g' h hrun
    rw [visitStmt_VarDeclStmt] at hrun
    exact (preserves_visitVarDecl (shape_tame P) setGlobal decl).after g () g' h hrun
  | hArrayDecl declName global typeNode =>
    intro _ w setGlobal P g g' h hrun
    rw [visitStmt_ArrayDecl] at hrun
    exact (preserves_visitArrayDecl (shape_tame P) setGlobal declName global typeNode).after
      g () g' h hrun
  | hConstDef declName global exprNode typeNode =>
    intro _ w setGlobal P g g' h hrun
    rw [visitStmt_ConstDef] at hrun
    exact (preserves_visitConstDef (shape_tame P) setGlobal declName global exprNode).after
      g () g' h hrun
  | hProcDecl declName global paramNodes optBlockNode ih =>
    intro hu w setGlobal P g g' h hrun
    rcases visitStmt_ProcDecl_inv hrun with ⟨proc, hd⟩ |
      ⟨proc, blockNode, prevBB, g0, g1, g2, rfl, hd, hprev, henter, hbody, rfl⟩
    · exact (preserves_declareFunction (shape_tame P) _ _ _ _ _).after g proc g' h hd
    · have s0 := (preserves_declareFunction (shape_tame P) _ _ _ _ _).after g _ g0 h hd
      obtain ⟨d1, d2, d3, d4, d5, d6⟩ := declareFunction_some hd
      have hempty : ∀ (b : Nat) (block : BasicBlock), g0.blocks[b]? = some block →
          block.parent ≠ some proc := by
        intro b block hb hp
        rw [d1] at hb
        rcases d6 with rfl | hno
        · exact absurd (h.parents b block _ hb hp) (Nat.lt_irrefl _)
        · exact hno b block hb hp
      obtain ⟨callee, hcallee, hargs⟩ := enterFunction_steps henter
      obtain ⟨pblock, pf, hpblock, hpf, hpP⟩ : ∃ (pblock : BasicBlock) (pf : Nat),
          g0.blocks[prevBB]? = some pblock ∧ pblock.parent = some pf ∧ prevBB ∉ P := by
        obtain ⟨c', block', f, hc', hblock', hf, hcP⟩ := s0.current
        rw [hprev] at hc'
        cases hc'
        exact ⟨block', f, hblock', hf, hcP⟩
      have s1 := s0.addBlock "entry" proc
        ⟨fun _ b block hb => hempty b block hb, fun _ => rfl⟩ d5
      have s2 := ((s1.suspend (b := g0.blocks.length) (Or.inr rfl) hprev).setArgumentNames
        proc (argumentNames ["entry"] 0 (paramNodes.map VarDecl.declName)))
      have s3 := (preserves_storeArguments (shape_tame _) proc _ _ _ _).after _ () g1 s2 hargs
      have s4 := ih blockNode rfl (unflagged_ProcDecl hu) _ false _ g1 g2 s3 hbody
      have s5 := (s4.terminate .retVoid [] .void "" rfl).resume (b := prevBB) (Or.inr rfl)
      exact (s5.congr (diff_suspend s0.below hpP)).setSymbolTable _
  | hFunDecl declName global paramNodes optBlockNode retTypeNode ih =>
    intro hu w setGlobal P g g' h hrun
    rcases visitStmt_FunDecl_inv hrun with ⟨func, hd⟩ |
      ⟨func, blockNode, prevBB, g0, g1, slot, g2, g3, rfl, hd, hprev, henter, hslot, hbody,
        rfl⟩
    · exact (preserves_declareFunction (shape_tame P) _ _ _ _ _).after g func g' h hd
    · have s0 := (preserves_declareFunction (shape_tame P) _ _ _ _ _).after g _ g0 h hd
      obtain ⟨d1, d2, d3, d4, d5, d6⟩ := declareFunction_some hd
      have hempty : ∀ (b : Nat) (block : BasicBlock), g0.blocks[b]? = some block →
          block.parent ≠ some func := by
        intro b block hb hp
        rw [d1] at hb
        rcases d6 with rfl | hno
        · exact absurd (h.parents b block _ hb hp) (Nat.lt_irrefl _)
        · exact hno b block hb hp
      obtain ⟨callee, hcallee, hargs⟩ := enterFunction_steps henter
      obtain ⟨pblock, pf, hpblock, hpf, hpP⟩ : ∃ (pblock : BasicBlock) (pf : Nat),
          g0.blocks[prevBB]? = some pblock ∧ pblock.parent = some pf ∧ prevBB ∉ P := by
        obtain ⟨c', block', f, hc', hblock', hf, hcP⟩ := s0.current
        rw [hprev] at hc'
        cases hc'
        exact ⟨block', f, hblock', hf, hcP⟩
      have s1 := s0.addBlock "entry" func
        ⟨fun _ b block hb => hempty b block hb, fun _ => rfl⟩ d5
      have s2 := ((s1.suspend (b := g0.blocks.length) (Or.inr rfl) hprev).setArgumentNames
        func (argumentNames ["entry"] 0 (paramNodes.map VarDecl.declName)))
      have s3 := (preserves_storeArguments (shape_tame _) func _ _ _ _).after _ () g1 s2 hargs
      have s3' := (preserves_createReturnSlot (shape_tame _) declName retTypeNode).after g1
        slot g2 s3 hslot
      have s4 := ih blockNode rfl (unflagged_FunDecl hu) _ false _ g2 g3 s3' hbody
      have s5 := ((s4.emit .load [slot] (genPrimitiveType retTypeNode) declName rfl).terminate
        .ret [.instruction g3.code.length (genPrimitiveType retTypeNode)] .void "" rfl).resume
        (b := prevBB) (Or.inr rfl)
      exact (s5.congr (diff_suspend s0.below hpP)).setSymbolTable _
  | hAssign varNode exprNode =>
    intro _ w setGlobal P g g' h hrun
    rw [visitStmt_Assign] at hrun
    exact (preserves_visitAssign (shape_tame P) varNode exprNode).after g () g' h hrun
  | hIf condNode bodyNode optElseBodyNode ih1 ih2 =>
    intro hu w setGlobal P g g' h hrun
    obtain ⟨hu1, hu2⟩ := unflagged_If hu
    obtain ⟨c, block, f, condV, g1, g2, g3, hc, hblock, hf, hcond, hbody, helse, rfl⟩ :=
      visitStmt_If_inv hrun
    have hpar : ∃ (b : Nat) (block : BasicBlock), g.blocks[b]? = some block ∧
        block.parent = some f := ⟨c, block, hblock, hf⟩
    have s1 := h.addInner "body" g.blocks.length rfl (by decide) hpar
    have s2 := s1.addInner "elseBody" (g.blocks.length + 1) (by simp) (by decide)
      (hasBlock_addBlock _ _ hpar)
    have s3 := s2.addInner "after" (g.blocks.length + 2) (by simp) (by decide)
      (hasBlock_addBlock _ _ (hasBlock_addBlock _ _ hpar))
    have s4 := (preserves_visitExpr (shape_tame _) condNode).after _ _ g1 s3 hcond
    have s5 := (s4.terminate (.condBr g.blocks.length (g.blocks.length + 1)) [condV] .void ""
      rfl).resume (b := g.blocks.length) (Or.inl (Or.inl (Or.inr rfl)))
    have s6 := ih1 hu1 w false _ _ g2 s5 hbody
    have s7 := (s6.terminate (.br (g.blocks.length + 2)) [] .void "" rfl).resume
      (b := g.blocks.length + 1) ⟨Or.inl (Or.inr rfl), by simp⟩
    have s8 : Shape false
        (((((P ∪ {g.blocks.length}) ∪ {g.blocks.length + 1}) ∪ {g.blocks.length + 2}) \
          {g.blocks.length}) \ {g.blocks.length + 1}) g3 := by
      cases optElseBodyNode with
      | none =>
        dsimp only at helse
        rw [helse]
        exact s7
      | some elseBodyNode => exact ih2 elseBodyNode rfl (hu2 elseBodyNode rfl) w false _ _ g3 s7 helse
    have s9 := (s8.terminate (.br (g.blocks.length + 2)) [] .void "" rfl).resume
      (b := g.blocks.length + 2) ⟨⟨Or.inr rfl, by simp⟩, by simp⟩
    exact s9.congr (diff_new3 h.below)
  | hWhile condNode bodyNode ih =>
    intro hu w setGlobal P g g' h hrun
    obtain ⟨c, block, f, condV, g1, g2, hc, hblock, hf, hcond, hbody, rfl⟩ :=
      visitStmt_While_inv hrun
    have hpar : ∃ (b : Nat) (block : BasicBlock), g.blocks[b]? = some block ∧
        block.parent = some f := ⟨c, block, hblock, hf⟩
    have s1 := h.addInner "cond" g.blocks.length rfl (by decide) hpar
    have s2 := s1.addInner "body" (g.blocks.length + 1) (by simp) (by decide)
      (hasBlock_addBlock _ _ hpar)
    have s3 := s2.addInner "after" (g.blocks.length + 2) (by simp) (by decide)
      (hasBlock_addBlock _ _ (hasBlock_addBlock _ _ hpar))
    have s4 := (s3.terminate (.br g.blocks.length) [] .void "" rfl).resume
      (b := g.blocks.length) (Or.inl (Or.inl (Or.inr rfl)))
    have s5 := (preserves_visitExpr (shape_tame _) condNode).after _ _ g1 s4 hcond
    have s6 := (s5.terminate (.condBr (g.blocks.length + 1) (g.blocks.length + 2)) [condV]
      .void "" rfl).resume (b := g.blocks.length + 1) ⟨Or.inl (Or.inr rfl), by simp⟩
    have s7 := ih (unflagged_While hu) _ false _ _ g2 s6 hbody
    have s8 := (s7.terminate (.br g.blocks.length) [] .void "" rfl).resume
      (b := g.blocks.length + 2) ⟨⟨Or.inr rfl, by simp⟩, by simp⟩
    exact s8.congr (diff_new3 h.below)
  | hFor initNode toNode bodyNode increasing ih1 ih2 =>
    intro hu w setGlobal P g g' h hrun
    obtain ⟨hu1, hu2⟩ := unflagged_For hu
    obtain ⟨c, block, f, g1, fromStore, toV, fromV, g2, g3, g4, g5, fromV2, g6, hc, hblock,
      hf, hinit, hstore, hto, hfrom, hbody, hfrom2, rfl⟩ := visitStmt_For_inv hrun
    have hpar : ∃ (b : Nat) (block : BasicBlock), g.blocks[b]? = some block ∧
        block.parent = some f := ⟨c, block, hblock, hf⟩
    have s1 := h.addInner "init" g.blocks.length rfl (by decide) hpar
    have s2 := s1.addInner "cond" (g.blocks.length + 1) (by simp) (by decide)
      (hasBlock_addBlock _ _ hpar)
    have s3 := s2.addInner "body" (g.blocks.length + 2) (by simp) (by decide)
      (hasBlock_addBlock _ _ (hasBlock_addBlock _ _ hpar))
    have s4 := s3.addInner "after" (g.blocks.length + 3) (by simp) (by decide)
      (hasBlock_addBlock _ _ (hasBlock_addBlock _ _ (hasBlock_addBlock _ _ hpar)))
    have s5 := (s4.terminate (.br g.blocks.length) [] .void "" rfl).resume
      (b := g.blocks.length) (Or.inl (Or.inl (Or.inl (Or.inr rfl))))
    have s6 := ih1 hu1 w false _ _ g1 s5 hinit
    have s7 := (s6.terminate (.br (g.blocks.length + 1)) [] .void "" rfl).resume
      (b := g.blocks.length + 1) ⟨Or.inl (Or.inl (Or.inr rfl)), by simp⟩
    have s8 := (preserves_storeVisit (shape_tame _) _).after _ _ g2 s7 hstore
    have s9 := (preserves_visitExpr (shape_tame _) toNode).after _ _ g3 s8 hto
    have s10 := (preserves_visitExpr (shape_tame _) _).after _ _ g4 s9 hfrom
    have s11 := ((s10.emit (.icmp (if increasing then .SLE else .SGE)) [fromV, toV]
      (.integer 1) (if increasing then "le" else "ge") (by cases increasing <;> rfl)).terminate
      (.condBr (g.blocks.length + 2) (g.blocks.length + 3))
      [.instruction g4.code.length (.integer 1)] .void "" rfl).resume
      (b := g.blocks.length + 2) ⟨⟨Or.inl (Or.inr rfl), by simp⟩, by simp⟩
    have s12 := ih2 hu2 _ false _ _ g5 s11 hbody
    have s13 := (preserves_visitExpr (shape_tame _) _).after _ _ g6 s12 hfrom2
    have s14 := (((s13.emit .add
      [fromV2, .constantInt (.integer 32) (if increasing then 1 else -1)] fromV2.getType ""
      rfl).emit .store [.instruction g6.code.length fromV2.getType, fromStore] .void ""
      rfl).terminate (.br (g.blocks.length + 1)) [] .void "" rfl).resume
      (b := g.blocks.length + 3) ⟨⟨⟨Or.inr rfl, by simp⟩, by simp⟩, by simp⟩
    exact s14.congr (diff_new4 h.below)
  | hProcCall procName argNodes =>
    intro _ w setGlobal P g g' h hrun
    rw [visitStmt_ProcCall] at hrun
    obtain ⟨v, g1, h1, h2⟩ := GenM.bind_ok_inv hrun
    cases h2
    exact (preserves_handle (shape_tame P) procName argNodes).after g v _ h h1
  | hEmptyStmt =>
    intro _ w setGlobal P g g' h hrun
    rw [visitStmt_EmptyStmt] at hrun
    cases hrun
    exact h
  | hBreak =>
    intro _ w setGlobal P g g' h hrun
    rw [visitStmt_Break] at hrun
    rcases visitBreak_inv hrun with ⟨_, rfl⟩ | ⟨breakBlock, c, block, _, hc, hblock, rfl⟩
    · exact h
    · obtain ⟨f, hf, _⟩ := h.currentParent hc hblock
      rw [hf]
      have s1 := (h.terminate (.br breakBlock) [] .void "" rfl).addInner "afterBreak"
        g.blocks.length rfl (by decide) ⟨c, block, hblock, hf⟩
      exact (s1.resume (b := g.blocks.length) (Or.inr rfl)).congr (diff_new1 h.below)
  | hExit =>
    intro _ w setGlobal P g g' h hrun
    rw [visitStmt_Exit] at hrun
    obtain ⟨c, block, opcode, operands, g1, hc, hblock, hterm, _, hg1, rfl⟩ :=
      visitExit_inv hrun
    obtain ⟨f, hf, _⟩ := h.currentParent hc hblock
    rw [hf]
    have s0 : Shape false P g1 ∧ g1.blocks = g.blocks := by
      rcases hg1 with rfl | ⟨retType, retValStore, declName, rfl⟩
      · exact ⟨h, rfl⟩
      · exact ⟨h.emit .load _ _ _ rfl, rfl⟩
    have s1 := (s0.1.terminate opcode operands .void "" hterm).addInner "afterExit"
      g.blocks.length (by rw [emit_blocks, s0.2]) (by decide)
      ⟨c, block, by rw [emit_blocks, s0.2]; exact hblock, hf⟩
    exact (s1.resume (b := g.blocks.length) (Or.inr rfl)).congr (diff_new1 h.below)

theorem blocksOf_cons {g : GenContext} {f e : Nat} {rest : List Nat}
    (h : g.blocksOf f = e :: rest) :
    (∃ block, g.blocks[e]? = some block ∧ block.parent = some f ∧
      ∀ (b' : Nat) (block' : BasicBlock), b' < e → g.blocks[b']? = some block' →
        block'.parent ≠ some f) ∧
    ∀ b ∈ rest, ∃ block, g.blocks[b]? = some block ∧ block.parent = some f ∧ e < b := by
  have hmem : ∀ b, b ∈ g.blocksOf f ↔
      b < g.blocks.length ∧ ∃ block, g.blocks[b]? = some block ∧ block.parent = some f := by
    intro b
    unfold GenContext.blocksOf
    rw [List.mem_filter, List.mem_range]
    constructor
    · rintro ⟨hlt, hp⟩
      refine ⟨hlt, ?_⟩
      cases hb : g.blocks[b]? with
      | none => rw [hb] at hp; cases hp
      | some block =>
        rw [hb] at hp
        exact ⟨block, rfl, by simpa using hp⟩
    · rintro ⟨hlt, block, hb, hp⟩
      refine ⟨hlt, ?_⟩
      rw [hb]
      simpa using hp
  have hsorted : List.Pairwise (· < ·) (g.blocksOf f) := by
    unfold GenContext.blocksOf
    exact List.Pairwise.sublist (List.filter_sublist _) (List.pairwise_lt_range _)
  rw [h] at hsorted hmem
  obtain ⟨hfirst, -⟩ := List.pairwise_cons.1 hsorted
  obtain ⟨-, block, hb, hp⟩ := (hmem e).1 (List.mem_cons_self _ _)
  refine ⟨⟨block, hb, hp, fun b' block' hlt hb' hp' => ?_⟩, fun b hbr => ?_⟩
  · have := (hmem b').2 ⟨(List.getElem?_eq_some_iff.1 hb').1, block', hb', hp'⟩
    rcases List.mem_cons.1 this with e1 | e1
    · omega
    · have := hfirst b' e1
      omega
  · obtain ⟨-, block', hb', hp'⟩ := (hmem b).1 (List.mem_cons_of_mem _ hbr)
    exact ⟨block', hb', hp', hfirst b hbr⟩

theorem shape_main : Shape false ∅
    (((GenContext.new.addFunction (.integer 32) [] false "main").addBlock "entry"
      (some GenContext.new.functions.length)).setInsertBlock GenContext.new.blocks.length) := by
  refine ⟨⟨0, ⟨"entry", some 6⟩, 6, rfl, rfl, rfl, fun h => h⟩, fun _ c hc => ?_,
    fun b hb => absurd hb (fun h => h), fun b hb _ hcur => ?_, fun p hp => ?_,
    fun b block f hb hf => ?_, fun b block f hb hf => ?_⟩
  · cases hc
    rfl
  · have hb0 : b = 0 := by
      have : b < 1 := hb
      omega
    subst hb0
    exact absurd rfl (hcur rfl)
  · cases hp
  · have hb0 : b = 0 := by
      have := (List.getElem?_eq_some_iff.1 hb).1
      have : b < 1 := this
      omega
    subst hb0
    cases hb
    cases hf
    decide
  · have hb0 : b = 0 := by
      have := (List.getElem?_eq_some_iff.1 hb).1
      have : b < 1 := this
      omega
    subst hb0
    cases hb
    exact ⟨fun _ b' block' hlt => absurd hlt (Nat.not_lt_zero _), fun _ => rfl⟩

/-- C32. Well-formed blocks. Let the tree of the program be as the parser builds it: its
block and no flag set below. When the program is lowered without error, every basic block
of the module holds exactly one terminator, its last instruction, and every instruction is
in a block; the blocks of a function start with a block named `entry`, and no other block
of the function has this name. This holds whatever the statements are: the lowering of
every statement `s` keeps the blocks in shape (`Shape`) from every state. The blocks of
a program that combines `if`, `while`, `for`, `break`, `exit`, a nested block and bounds
checks are evaluated as well. Every program that the parser returns has a tree as required
here. -/
theorem C32_well_formed_blocks (program : Program) (statementNodes : List Stmt)
    (hblock : program.blockNode = .Block false statementNodes)
    (hbuilt : unflaggedList statementNodes = true)
    (hok : (generate program).1 = .ok ()) :
    (∀ b, b < (generate program).2.blocks.length →
      blockWellFormed ((generate program).2.instructionsOf b) = true) ∧
    (∀ p ∈ (generate program).2.code,
      ∃ b, p.1 = some b ∧ b < (generate program).2.blocks.length) ∧
    (∀ (f e : Nat) (rest : List Nat), (generate program).2.blocksOf f = e :: rest →
      (generate program).2.blocks[e]?.map BasicBlock.name = some "entry" ∧
      ∀ b ∈ rest, (generate program).2.blocks[b]?.map BasicBlock.name ≠ some "entry") ∧
    (∀ (s : Stmt), s.unflagged = true → ∀ (w : Wiring) (setGlobal : Bool) (P : Set Nat)
      (g g' : GenContext), Shape false P g →
      (visitStmt w setGlobal s).run g = (.ok (), g') → Shape false P g') ∧
    ((parseSource 300 ("program t; var i, n: integer; X: array [0 .. 3] of integer; " ++
        "function f(a: integer): integer; var b: integer; begin " ++
        "if a > 0 then begin f := X[a]; exit end else f := 0; b := 1 end; " ++
        "begin n := 3; for i := 0 to n do begin while i < X[i] do begin " ++
        "if i = 2 then break; X[i] := f(i) end; if n = 0 then exit end end.").toList).map
      fun p => ((generate p).1, (generate p).2.blocks.length,
        (List.range (generate p).2.blocks.length).all fun b =>
          blockWellFormed ((generate p).2.instructionsOf b))) = .ok (.ok (), 31, true) ∧
    (∀ (fuel : Nat) (source : List Char) (parsed : Program),
      parseSource fuel source = .ok parsed →
      ∃ nodes, parsed.blockNode = .Block false nodes ∧ unflaggedList nodes = true) := by
  have hshape : ∃ g', (generate program) = (.ok (), g') ∧ Shape true ∅ g' := by
    have hgen : generate program =
        (visitStmt Wiring.initial false (.Block true statementNodes)).run GenContext.new := by
      unfold generate visitProgram
      rw [hblock]
    rw [hgen] at hok ⊢
    rcases hrun : (visitStmt Wiring.initial false (.Block true statementNodes)).run
      GenContext.new with ⟨r, g'⟩
    rw [hrun] at hok
    dsimp only at hok
    subst hok
    refine ⟨g', rfl, ?_⟩
    rw [visitStmt_Block] at hrun
    simp only [if_true, CreateRet] at hrun
    rw [GenM.bind_ok (createFunction_run _ _ _ _ _), GenM.bind_ok (createBlock_run _ _ _),
      GenM.bind_ok (setInsertPoint_run _ _)] at hrun
    obtain ⟨_, g1, h1, h2⟩ := GenM.bind_ok_inv hrun
    rw [GenM.bind_ok (insert_run _ _ _ _ _)] at h2
    cases h2
    have s1 := shape_visitStmts _ true statementNodes
      (fun s hs => shape_visitStmt s (unflaggedList_mem _ hbuilt s hs)) ∅ _ g1 shape_main h1
    exact s1.terminate .ret _ .void "" rfl
  obtain ⟨g', hg, hs⟩ := hshape
  rw [hg]
  refine ⟨fun b hb => hs.finished b hb (fun h => h) (fun ht => by cases ht), hs.tagged,
    fun f e rest hbl => ?_, shape_visitStmt, by decide!,
    fun _ _ _ h => parseSource_unflagged h⟩
  obtain ⟨⟨block, hb, hp, hfirst⟩, hrest⟩ := blocksOf_cons hbl
  refine ⟨?_, fun b hbr => ?_⟩
  · rw [hb]
    exact congrArg some ((hs.entries e block f hb hp).2 hfirst)
  · obtain ⟨block', hb', hp', hlt⟩ := hrest b hbr
    rw [hb']
    intro hname
    have hn : block'.name = "entry" := by simpa using hname
    exact (hs.entries b block' f hb' hp').1 hn e block hlt hb hp

/-- Witness of C32: the program `program t; var i: integer; begin while i < 1 do break
end.` is lowered without error, and all its blocks are well formed. -/
theorem C32_well_formed_blocks_witness :
    ((List.range (generate ⟨"t", .Block false [.VarDeclStmt ⟨"i", false, .INTEGER⟩,
        .CompoundStmt [.While (.BinOp ⟨.LESS, ⟨1, 1⟩, .none⟩ (.DeclVarRef "i")
          (.Literal (.int 1))) .Break]]⟩).2.blocks.length).all fun b =>
      blockWellFormed ((generate ⟨"t", .Block false [.VarDeclStmt ⟨"i", false, .INTEGER⟩,
        .CompoundStmt [.While (.BinOp ⟨.LESS, ⟨1, 1⟩, .none⟩ (.DeclVarRef "i")
          (.Literal (.int 1))) .Break]]⟩).2.instructionsOf b)) = true :=
  List.all_eq_true.2 fun b hb =>
    (C32_well_formed_blocks ⟨"t", .Block false [.VarDeclStmt ⟨"i", false, .INTEGER⟩,
        .CompoundStmt [.While (.BinOp ⟨.LESS, ⟨1, 1⟩, .none⟩ (.DeclVarRef "i")
          (.Literal (.int 1))) .Break]]⟩
      [.VarDeclStmt ⟨"i", false, .INTEGER⟩,
        .CompoundStmt [.While (.BinOp ⟨.LESS, ⟨1, 1⟩, .none⟩ (.DeclVarRef "i")
          (.Literal (.int 1))) .Break]] rfl rfl (by decide!)).1 b (List.mem_range.1 hb)
/-! ## The test of a for loop -/

theorem successors_plain (id : Nat) {opcode : Opcode} (operands : List Value) (type : LType)
    (name : String) (h : opcode.isTerminator = false) :
    Instruction.successors ⟨id, opcode, operands, type, name⟩ = [] := by
  cases opcode <;> first | rfl | cases h

theorem BranchesInside.refl (g : GenContext) (allowed : Option Nat) :
    BranchesInside g.blocks.length allowed g.code g :=
  ⟨⟨[], by simp, fun p hp => by cases hp⟩, Nat.le_refl _⟩

theorem BranchesInside.step {n : Nat} {allowed : Option Nat}
    {base : List (Option Nat × Instruction)} {g : GenContext}
    (h : BranchesInside n allowed base g) (opcode : Opcode) (operands : List Value)
    (type : LType) (name : String)
    (hs : ∀ t ∈ Instruction.successors ⟨g.code.length, opcode, operands, type, name⟩,
      n ≤ t ∨ some t = allowed) :
    BranchesInside n allowed base (g.emit opcode operands type name) := by
  obtain ⟨⟨new, h1, h2⟩, h3⟩ := h
  refine ⟨⟨new ++ [(g.insertBlock, ⟨g.code.length, opcode, operands, type, name⟩)], ?_,
    fun p hp => ?_⟩, h3⟩
  · rw [emit_code, h1, List.append_assoc]
  · rcases List.mem_append.1 hp with hp | hp
    · exact h2 p hp
    · rw [List.mem_singleton] at hp
      subst hp
      exact hs

theorem BranchesInside.plain {n : Nat} {allowed : Option Nat}
    {base : List (Option Nat × Instruction)} {g : GenContext}
    (h : BranchesInside n allowed base g) (opcode : Opcode) (operands : List Value)
    (type : LType) (name : String) (ho : opcode.isTerminator = false) :
    BranchesInside n allowed base (g.emit opcode operands type name) :=
  h.step opcode operands type name fun t ht => by
    rw [successors_plain _ _ _ _ ho] at ht
    cases ht

theorem BranchesInside.same {n : Nat} {allowed : Option Nat}
    {base : List (Option Nat × Instruction)} {g g' : GenContext}
    (h : BranchesInside n allowed base g) (hcode : g'.code = g.code)
    (hblocks : g.blocks.length ≤ g'.blocks.length) : BranchesInside n allowed base g' := by
  obtain ⟨⟨new, h1, h2⟩, h3⟩ := h
  exact ⟨⟨new, by rw [hcode, h1], h2⟩, Nat.le_trans h3 hblocks⟩

theorem BranchesInside.newBlock {n : Nat} {allowed : Option Nat}
    {base : List (Option Nat × Instruction)} {g : GenContext}
    (h : BranchesInside n allowed base g) (name : String) (func : Option Nat) :
    BranchesInside n allowed base (g.addBlock name func) :=
  h.same rfl (by simp)

theorem BranchesInside.setInsertBlock {n : Nat} {allowed : Option Nat}
    {base : List (Option Nat × Instruction)} {g : GenContext}
    (h : BranchesInside n allowed base g) (block : Nat) :
    BranchesInside n allowed base (g.setInsertBlock block) :=
  h.same rfl (Nat.le_refl _)

/-- The branches of a part stay inside the whole: what was emitted from the state `g` on
keeps to the blocks created from `g` on, which are blocks created from `n` on. -/
theorem BranchesInside.sub {n : Nat} {allowed allowed' : Option Nat}
    {base : List (Option Nat × Instruction)} {g g' : GenContext}
    (h : BranchesInside n allowed base g)
    (k : BranchesInside g.blocks.length allowed' g.code g')
    (ha : ∀ t, allowed' = some t → n ≤ t ∨ allowed' = allowed) :
    BranchesInside n allowed base g' := by
  obtain ⟨⟨new, h1, h2⟩, h3⟩ := h
  obtain ⟨⟨new', k1, k2⟩, k3⟩ := k
  refine ⟨⟨new ++ new', by rw [k1, h1, List.append_assoc], fun p hp t ht => ?_⟩,
    Nat.le_trans h3 k3⟩
  rcases List.mem_append.1 hp with hp | hp
  · exact h2 p hp t ht
  · rcases k2 p hp t ht with hge | heq
    · exact Or.inl (Nat.le_trans h3 hge)
    · rcases ha t heq.symm with hge | heq'
      · exact Or.inl hge
      · exact Or.inr (heq.trans heq')

theorem branches_tame (n : Nat) (allowed : Option Nat)
    (base : List (Option Nat × Instruction)) : Tame (BranchesInside n allowed base) where
  emit g opcode operands type name ho h := h.plain opcode operands type name ho
  frame g g' hcode hblocks _ _ h := h.same hcode (by rw [hblocks])
  check arrayName indexV lowerBoundV upperBoundV := by
    refine ⟨fun g a g' h hrun => ?_⟩
    obtain ⟨gT, c, block, f, ops4, ops5, t5, gE, errorFunc, hT, hc, hblock, hf, hE, rfl⟩ :=
      boundsCheck_inv hrun
    have s1 : BranchesInside n allowed base gT := hT (BranchesInside n allowed base)
      (fun g opcode operands type name ho hg => hg.plain opcode operands type name ho) h
    have hn : n ≤ gT.blocks.length := s1.2
    have s2 := ((s1.newBlock "check" (some f)).newBlock "throw_exception"
      (some f)).newBlock "continue" (some f)
    have s3 := (s2.step (.br gT.blocks.length) [] .void "" (fun t ht => by
      have : t = gT.blocks.length := by simpa [Instruction.successors] using ht
      exact Or.inl (by omega))).setInsertBlock gT.blocks.length
    have s4 := (s3.step (.condBr (gT.blocks.length + 1) (gT.blocks.length + 2)) ops4 .void ""
      (fun t ht => by
        have : t = gT.blocks.length + 1 ∨ t = gT.blocks.length + 2 := by
          simpa [Instruction.successors] using ht
        exact Or.inl (by omega))).setInsertBlock (gT.blocks.length + 1)
    have s5 : BranchesInside n allowed base gE := by
      rcases hE with rfl | rfl
      · exact s4.same rfl (Nat.le_refl _)
      · exact s4.same rfl (Nat.le_refl _)
    exact ((s5.plain (.call errorFunc) ops5 t5 "" rfl).step .unreachable [] .void ""
      (fun t ht => by cases ht)).setInsertBlock _

theorem BranchesInside.moved {n : Nat} {allowed : Option Nat}
    {base : List (Option Nat × Instruction)} {g : GenContext}
    (h : BranchesInside n allowed base g) (g' : GenContext) (hcode : g'.code = g.code)
    (hblocks : g.blocks.length ≤ g'.blocks.length) : BranchesInside n allowed base g' :=
  h.same hcode hblocks

theorem BranchesInside.br {n : Nat} {allowed : Option Nat}
    {base : List (Option Nat × Instruction)} {g : GenContext}
    (h : BranchesInside n allowed base g) (dest : Nat) (hd : n ≤ dest ∨ some dest = allowed) :
    BranchesInside n allowed base (g.emit (.br dest) [] .void "") :=
  h.step (.br dest) [] .void "" fun t ht => by
    have : t = dest := by simpa [Instruction.successors] using ht
    rw [this]
    exact hd

theorem BranchesInside.condBr {n : Nat} {allowed : Option Nat}
    {base : List (Option Nat × Instruction)} {g : GenContext}
    (h : BranchesInside n allowed base g) (ifTrue ifFalse : Nat) (operands : List Value)
    (h1 : n ≤ ifTrue) (h2 : n ≤ ifFalse) :
    BranchesInside n allowed base (g.emit (.condBr ifTrue ifFalse) operands .void "") :=
  h.step (.condBr ifTrue ifFalse) operands .void "" fun t ht => by
    have : t = ifTrue ∨ t = ifFalse := by simpa [Instruction.successors] using ht
    rcases this with rfl | rfl
    · exact Or.inl h1
    · exact Or.inl h2

theorem BranchesInside.ret {n : Nat} {allowed : Option Nat}
    {base : List (Option Nat × Instruction)} {g : GenContext}
    (h : BranchesInside n allowed base g) {opcode : Opcode} (operands : List Value)
    (ho : opcode = .ret ∨ opcode = .retVoid) :
    BranchesInside n allowed base (g.emit opcode operands .void "") :=
  h.step opcode operands .void "" fun t ht => by
    rcases ho with rfl | rfl <;> cases ht

theorem branches_visitStmts (w : Wiring) (setGlobal : Bool) :
    ∀ (statementNodes : List Stmt),
      (∀ s ∈ statementNodes, ∀ (w : Wiring) (setGlobal : Bool) (g g' : GenContext),
        (visitStmt w setGlobal s).run g = (.ok (), g') →
        BranchesInside g.blocks.length w.breakBlock g.code g') →
      ∀ (g g' : GenContext), (visitStmts w setGlobal statementNodes).run g = (.ok (), g') →
        BranchesInside g.blocks.length w.breakBlock g.code g' := by
  intro statementNodes
  induction statementNodes with
  | nil =>
    intro _ g g' hrun
    rw [visitStmts_nil] at hrun
    cases hrun
    exact BranchesInside.refl g _
  | cons s rest ih =>
    intro hall g g' hrun
    obtain ⟨g1, h1, h2⟩ := visitStmts_cons_inv hrun
    exact (hall s (List.mem_cons_self _ _) w setGlobal g g1 h1).sub
      (ih (fun s hs => hall s (List.mem_cons_of_mem _ hs)) g1 g' h2) fun _ _ => Or.inr rfl

/-- The branches that the lowering of a statement emits go to blocks that it creates, or
to the block that the `Break` statements in it hold. -/
theorem branches_visitStmt : ∀ (s : Stmt) (w : Wiring) (setGlobal : Bool)
    (g g' : GenContext), (visitStmt w setGlobal s).run g = (.ok (), g') →
    BranchesInside g.blocks.length w.breakBlock g.code g' := by
  intro s
  induction s using Stmt.induct with
  | hBlock main statementNodes ih =>
    intro w setGlobal g g' hrun
    cases main with
    | false =>
      obtain ⟨c, block, f, g1, hc, hblock, hf, h1, rfl⟩ := visitStmt_Block_inv hrun
      have s1 := (((BranchesInside.refl g w.breakBlock).newBlock "block" (some f)).br
        g.blocks.length (Or.inl (Nat.le_refl _))).setInsertBlock g.blocks.length
      exact (s1.sub (branches_visitStmts w false statementNodes (fun s hs => ih s hs) _ g1 h1)
        fun _ _ => Or.inr rfl).same rfl (Nat.le_refl _)
    | true =>
      rw [visitStmt_Block] at hrun
      simp only [if_true, CreateRet] at hrun
      rw [GenM.bind_ok (createFunction_run _ _ _ _ _), GenM.bind_ok (createBlock_run _ _ _),
        GenM.bind_ok (setInsertPoint_run _ _)] at hrun
      obtain ⟨_, g1, h1, h2⟩ := GenM.bind_ok_inv hrun
      rw [GenM.bind_ok (insert_run _ _ _ _ _)] at h2
      cases h2
      have s1 : BranchesInside g.blocks.length w.breakBlock g.code
          (((g.addFunction (.integer 32) [] false "main").addBlock "entry"
            (some g.functions.length)).setInsertBlock g.blocks.length) :=
        (((BranchesInside.refl g w.breakBlock).moved (g.addFunction (.integer 32) []
          false "main") rfl (Nat.le_refl _)).newBlock "entry" _).setInsertBlock _
      exact (s1.sub (branches_visitStmts _ true statementNodes (fun s hs => ih s hs) _ g1 h1)
        fun _ _ => Or.inr rfl).ret _ (Or.inl rfl)
  | hCompoundStmt statementNodes ih =>
    intro w setGlobal g g' hrun
    exact branches_visitStmts w false statementNodes (fun s hs => ih s hs) g g'
      (visitStmt_CompoundStmt_inv hrun)
  | hVarDeclStmt decl =>
    intro w setGlobal g g' hrun
    rw [visitStmt_VarDeclStmt] at hrun
    exact (preserves_visitVarDecl (branches_tame _ _ _) setGlobal decl).after g () g'
      (BranchesInside.refl g _) hrun
  | hArrayDecl declName global typeNode =>
    intro w setGlobal g g' hrun
    rw [visitStmt_ArrayDecl] at hrun
    exact (preserves_visitArrayDecl (branches_tame _ _ _) setGlobal declName global
      typeNode).after g () g' (BranchesInside.refl g _) hrun
  | hConstDef declName global exprNode typeNode =>
    intro w setGlobal g g' hrun
    rw [visitStmt_ConstDef] at hrun
    exact (preserves_visitConstDef (branches_tame _ _ _) setGlobal declName global
      exprNode).after g () g' (BranchesInside.refl g _) hrun
  | hProcDecl declName global paramNodes optBlockNode ih =>
    intro w setGlobal g g' hrun
    rcases visitStmt_ProcDecl_inv hrun with ⟨proc, hd⟩ |
      ⟨proc, blockNode, prevBB, g0, g1, g2, rfl, hd, hprev, henter, hbody, rfl⟩
    · exact (preserves_declareFunction (branches_tame _ _ _) _ _ _ _ _).after g proc g'
        (BranchesInside.refl g _) hd
    · have s0 := (preserves_declareFunction (branches_tame _ _ _) _ _ _ _ _).after g _ g0
        (BranchesInside.refl g w.breakBlock) hd
      obtain ⟨callee, hcallee, hargs⟩ := enterFunction_steps henter
      have s1 := ((s0.newBlock "entry" (some proc)).setInsertBlock g0.blocks.length).moved
        (((g0.addBlock "entry" (some proc)).setInsertBlock
          g0.blocks.length).setArgumentNames proc
          (argumentNames ["entry"] 0 (paramNodes.map VarDecl.declName))) rfl (Nat.le_refl _)
      have s2 := (preserves_storeArguments (branches_tame _ _ _) proc _ _ _ _).after _ () g1
        s1 hargs
      have s3 := s2.sub (ih blockNode rfl _ false g1 g2 hbody) fun _ _ => Or.inr rfl
      exact (((s3.ret [] (Or.inr rfl)).setInsertBlock prevBB).same rfl (Nat.le_refl _))
  | hFunDecl declName global paramNodes optBlockNode retTypeNode ih =>
    intro w setGlobal g g' hrun
    rcases visitStmt_FunDecl_inv hrun with ⟨func, hd⟩ |
      ⟨func, blockNode, prevBB, g0, g1, slot, g2, g3, rfl, hd, hprev, henter, hslot, hbody,
        rfl⟩
    · exact (preserves_declareFunction (branches_tame _ _ _) _ _ _ _ _).after g func g'
        (BranchesInside.refl g _) hd
    · have s0 := (preserves_declareFunction (branches_tame _ _ _) _ _ _ _ _).after g _ g0
        (BranchesInside.refl g w.breakBlock) hd
      obtain ⟨callee, hcallee, hargs⟩ := enterFunction_steps henter
      have s1 := ((s0.newBlock "entry" (some func)).setInsertBlock g0.blocks.length).moved
        (((g0.addBlock "entry" (some func)).setInsertBlock
          g0.blocks.length).setArgumentNames func
          (argumentNames ["entry"] 0 (paramNodes.map VarDecl.declName))) rfl (Nat.le_refl _)
      have s2 := (preserves_storeArguments (branches_tame _ _ _) func _ _ _ _).after _ () g1
        s1 hargs
      have s2' := (preserves_createReturnSlot (branches_tame _ _ _) declName
        retTypeNode).after g1 slot g2 s2 hslot
      have s3 := s2'.sub (ih blockNode rfl _ false g2 g3 hbody) fun _ _ => Or.inr rfl
      exact ((((s3.plain .load [slot] (genPrimitiveType retTypeNode) declName rfl).ret _
        (Or.inl rfl)).setInsertBlock prevBB).same rfl (Nat.le_refl _))
  | hAssign varNode exprNode =>
    intro w setGlobal g g' hrun
    rw [visitStmt_Assign] at hrun
    exact (preserves_visitAssign (branches_tame _ _ _) varNode exprNode).after g () g'
      (BranchesInside.refl g _) hrun
  | hIf condNode bodyNode optElseBodyNode ih1 ih2 =>
    intro w setGlobal g g' hrun
    obtain ⟨c, block, f, condV, g1, g2, g3, hc, hblock, hf, hcond, hbody, helse, rfl⟩ :=
      visitStmt_If_inv hrun
    have s1 := (((BranchesInside.refl g w.breakBlock).newBlock "body" (some f)).newBlock
      "elseBody" (some f)).newBlock "after" (some f)
    have s2 := (preserves_visitExpr (branches_tame _ _ _) condNode).after _ _ g1 s1 hcond
    have s3 := (s2.condBr g.blocks.length (g.blocks.length + 1) [condV] (Nat.le_refl _)
      (by omega)).setInsertBlock g.blocks.length
    have s4 := s3.sub (ih1 w false _ g2 hbody) fun _ _ => Or.inr rfl
    have s5 := (s4.br (g.blocks.length + 2) (Or.inl (by omega))).setInsertBlock
      (g.blocks.length + 1)
    have s6 : BranchesInside g.blocks.length w.breakBlock g.code g3 := by
      cases optElseBodyNode with
      | none =>
        dsimp only at helse
        rw [helse]
        exact s5
      | some elseBodyNode =>
        exact s5.sub (ih2 elseBodyNode rfl w false _ g3 helse) fun _ _ => Or.inr rfl
    exact (s6.br (g.blocks.length + 2) (Or.inl (by omega))).setInsertBlock _
  | hWhile condNode bodyNode ih =>
    intro w setGlobal g g' hrun
    obtain ⟨c, block, f, condV, g1, g2, hc, hblock, hf, hcond, hbody, rfl⟩ :=
      visitStmt_While_inv hrun
    have s1 := ((((BranchesInside.refl g w.breakBlock).newBlock "cond" (some f)).newBlock
      "body" (some f)).newBlock "after" (some f))
    have s2 := (s1.br g.blocks.length (Or.inl (Nat.le_refl _))).setInsertBlock
      g.blocks.length
    have s3 := (preserves_visitExpr (branches_tame _ _ _) condNode).after _ _ g1 s2 hcond
    have s4 := (s3.condBr (g.blocks.length + 1) (g.blocks.length + 2) [condV] (by omega)
      (by omega)).setInsertBlock (g.blocks.length + 1)
    have s5 := s4.sub (ih _ false _ g2 hbody) fun t ht => Or.inl (by
      have : t = g.blocks.length + 2 := by
        have e : some (g.blocks.length + 2) = some t := ht
        cases e
        rfl
      omega)
    exact (s5.br g.blocks.length (Or.inl (Nat.le_refl _))).setInsertBlock _
  | hFor initNode toNode bodyNode increasing ih1 ih2 =>
    intro w setGlobal g g' hrun
    obtain ⟨c, block, f, g1, fromStore, toV, fromV, g2, g3, g4, g5, fromV2, g6, hc, hblock,
      hf, hinit, hstore, hto, hfrom, hbody, hfrom2, rfl⟩ := visitStmt_For_inv hrun
    have s1 := (((((BranchesInside.refl g w.breakBlock).newBlock "init" (some f)).newBlock
      "cond" (some f)).newBlock "body" (some f)).newBlock "after" (some f))
    have s2 := (s1.br g.blocks.length (Or.inl (Nat.le_refl _))).setInsertBlock
      g.blocks.length
    have s3 := s2.sub (ih1 w false _ g1 hinit) fun _ _ => Or.inr rfl
    have s4 := (s3.br (g.blocks.length + 1) (Or.inl (by omega))).setInsertBlock
      (g.blocks.length + 1)
    have s5 := (preserves_storeVisit (branches_tame _ _ _) _).after _ _ g2 s4 hstore
    have s6 := (preserves_visitExpr (branches_tame _ _ _) toNode).after _ _ g3 s5 hto
    have s7 := (preserves_visitExpr (branches_tame _ _ _) _).after _ _ g4 s6 hfrom
    have s8 := ((s7.plain (.icmp (if increasing then .SLE else .SGE)) [fromV, toV]
      (.integer 1) (if increasing then "le" else "ge") (by cases increasing <;> rfl)).condBr
      (g.blocks.length + 2) (g.blocks.length + 3) [.instruction g4.code.length (.integer 1)]
      (by omega) (by omega)).setInsertBlock (g.blocks.length + 2)
    have s9 := s8.sub (ih2 _ false _ g5 hbody) fun t ht => Or.inl (by
      have : t = g.blocks.length + 3 := by
        have e : some (g.blocks.length + 3) = some t := ht
        cases e
        rfl
      omega)
    have s10 := (preserves_visitExpr (branches_tame _ _ _) _).after _ _ g6 s9 hfrom2
    exact ((((s10.plain .add
      [fromV2, .constantInt (.integer 32) (if increasing then 1 else -1)] fromV2.getType ""
      rfl).plain .store [.instruction g6.code.length fromV2.getType, fromStore] .void ""
      rfl).br (g.blocks.length + 1) (Or.inl (by omega))).setInsertBlock _)
  | hProcCall procName argNodes =>
    intro w setGlobal g g' hrun
    rw [visitStmt_ProcCall] at hrun
    obtain ⟨v, g1, h1, h2⟩ := GenM.bind_ok_inv hrun
    cases h2
    exact (preserves_handle (branches_tame _ _ _) procName argNodes).after g v _
      (BranchesInside.refl g _) h1
  | hEmptyStmt =>
    intro w setGlobal g g' hrun
    rw [visitStmt_EmptyStmt] at hrun
    cases hrun
    exact BranchesInside.refl g _
  | hBreak =>
    intro w setGlobal g g' hrun
    rw [visitStmt_Break] at hrun
    rcases visitBreak_inv hrun with ⟨_, rfl⟩ | ⟨breakBlock, c, block, hw, hc, hblock, rfl⟩
    · exact BranchesInside.refl _ _
    · exact ((((BranchesInside.refl g w.breakBlock).br breakBlock
        (Or.inr hw.symm)).newBlock "afterBreak" _).setInsertBlock _)
  | hExit =>
    intro w setGlobal g g' hrun
    rw [visitStmt_Exit] at hrun
    obtain ⟨c, block, opcode, operands, g1, hc, hblock, hterm, hop, hg1, rfl⟩ :=
      visitExit_inv hrun
    have s0 : BranchesInside g.blocks.length w.breakBlock g.code g1 := by
      rcases hg1 with rfl | ⟨retType, retValStore, declName, rfl⟩
      · exact BranchesInside.refl _ _
      · exact (BranchesInside.refl g _).plain .load _ _ _ rfl
    exact (((s0.ret operands hop).newBlock "afterExit" _).setInsertBlock _)

theorem avoids_of_exist {g : GenContext} (h : g.branchesExist = true) {t : Nat}
    (ht : g.blocks.length ≤ t) : ∀ p ∈ g.code, t ∉ p.2.successors := by
  intro p hp hmem
  unfold GenContext.branchesExist at h
  rw [List.all_eq_true] at h
  have h1 := h p hp
  rw [List.all_eq_true] at h1
  have h2 := of_decide_eq_true (h1 t hmem)
  omega

theorem BranchesInside.avoids {m : Nat} {allowed : Option Nat}
    {base : List (Option Nat × Instruction)} {g : GenContext}
    (h : BranchesInside m allowed base g) {t : Nat} (ht : t < m) (ha : allowed ≠ some t)
    (hb : ∀ p ∈ base, t ∉ p.2.successors) : ∀ p ∈ g.code, t ∉ p.2.successors := by
  obtain ⟨⟨new, h1, h2⟩, _⟩ := h
  intro p hp hmem
  rw [h1] at hp
  rcases List.mem_append.1 hp with hp | hp
  · exact hb p hp hmem
  · rcases h2 p hp t hmem with k | k
    · omega
    · exact ha k.symm

theorem avoids_emit {g : GenContext} {t : Nat} (h : ∀ p ∈ g.code, t ∉ p.2.successors)
    (opcode : Opcode) (operands : List Value) (type : LType) (name : String)
    (hs : t ∉ Instruction.successors ⟨g.code.length, opcode, operands, type, name⟩) :
    ∀ p ∈ (g.emit opcode operands type name).code, t ∉ p.2.successors := by
  intro p hp
  rw [emit_code, List.mem_append, List.mem_singleton] at hp
  rcases hp with hp | rfl
  · exact h p hp
  · exact hs

/-- C31 (for-loop test before the first iteration): a successful lowering of a `for` loop in
a module whose branches go to existing blocks creates the blocks `init`, `cond`, `body` and
`after` (numbers `n` to `n + 3`); the code of `cond` ends with the signed comparison of the
loaded loop variable with the bound, `<=` for TO and `>=` for DOWNTO, and the conditional
branch on it to `body` or `after`; that conditional branch is the only instruction of the
module that branches to `body`; the code after the body adds 1 (TO) or -1 (DOWNTO) to the
loaded variable, stores the sum in the variable and branches back to `cond`. Run with the
variable `a` and the bound `b`, the test continues in `body` exactly when `a <= b` (TO),
`a >= b` (DOWNTO); hence with `a > b` in a TO loop and `a < b` in a DOWNTO loop it continues
in `after`, before any run of the body. In the module of the test `HandlesDummyForLoop` the
only branch to `body` is the instruction 5, and the test, run with 10 for the variable
against the bound -5, a constant that the builder has folded, continues in `after`. -/
theorem C31_for_test_first (w : Wiring) (setGlobal : Bool) (initNode : Stmt) (toNode : Expr)
    (bodyNode : Stmt) (increasing : Bool) (g g' : GenContext)
    (hrun : (visitStmt w setGlobal (.For initNode toNode bodyNode increasing)).run g =
      (.ok (), g'))
    (hexist : g.branchesExist = true)
    (hbreak : ∀ b, w.breakBlock = some b → b < g.blocks.length) :
    (∃ (f : Nat) (g1 g2 g3 g4 g5 g6 : GenContext) (fromStore toV fromV fromV2 : Value)
      (rest : List (Option Nat × Instruction)),
      (visitStmt w false initNode).run
        ((((((g.addBlock "init" (some f)).addBlock "cond" (some f)).addBlock "body"
          (some f)).addBlock "after" (some f)).emit (.br g.blocks.length) [] .void
          "").setInsertBlock g.blocks.length) = (.ok (), g1) ∧
      (storeVisit initNode.getVarNode).run
        ((g1.emit (.br (g.blocks.length + 1)) [] .void "").setInsertBlock
          (g.blocks.length + 1)) = (.ok (some fromStore), g2) ∧
      (visitExpr toNode).run g2 = (.ok (some toV), g3) ∧
      (visitExpr initNode.getVarNode).run g3 = (.ok (some fromV), g4) ∧
      (visitStmt { w with breakBlock := some (g.blocks.length + 3) } false bodyNode).run
        (((g4.emit (.icmp (if increasing then .SLE else .SGE)) [fromV, toV] (.integer 1)
          (if increasing then "le" else "ge")).emit
          (.condBr (g.blocks.length + 2) (g.blocks.length + 3))
          [.instruction g4.code.length (.integer 1)] .void "").setInsertBlock
          (g.blocks.length + 2)) = (.ok (), g5) ∧
      (visitExpr initNode.getVarNode).run g5 = (.ok (some fromV2), g6) ∧
      g' = (((g6.emit .add
          [fromV2, .constantInt (.integer 32) (if increasing then 1 else -1)] fromV2.getType
          "").emit .store [.instruction g6.code.length fromV2.getType, fromStore] .void
          "").emit (.br (g.blocks.length + 1)) [] .void "").setInsertBlock
          (g.blocks.length + 3) ∧
      g'.code = g4.code ++
        (g4.insertBlock, ⟨g4.code.length, .icmp (if increasing then .SLE else .SGE),
          [fromV, toV], .integer 1, if increasing then "le" else "ge"⟩) ::
        (g4.insertBlock, ⟨g4.code.length + 1,
          .condBr (g.blocks.length + 2) (g.blocks.length + 3),
          [.instruction g4.code.length (.integer 1)], .void, ""⟩) :: rest ∧
      (∀ p ∈ g'.code, (g.blocks.length + 2) ∈ p.2.successors →
        p = (g4.insertBlock, ⟨g4.code.length + 1,
          .condBr (g.blocks.length + 2) (g.blocks.length + 3),
          [.instruction g4.code.length (.integer 1)], .void, ""⟩)) ∧
      (∀ (regs : Registers) (a b : Int), fromV.eval regs = some a → toV.eval regs = some b →
        ((runBlock regs
          [⟨g4.code.length, .icmp (if increasing then .SLE else .SGE), [fromV, toV],
              .integer 1, if increasing then "le" else "ge"⟩,
            ⟨g4.code.length + 1, .condBr (g.blocks.length + 2) (g.blocks.length + 3),
              [.instruction g4.code.length (.integer 1)], .void, ""⟩]).map Prod.snd =
          some (if (if increasing then decide (a ≤ b) else decide (a ≥ b)) then
            g.blocks.length + 2 else g.blocks.length + 3)) ∧
        ((increasing = true ∧ b < a ∨ increasing = false ∧ a < b) →
          (runBlock regs
            [⟨g4.code.length, .icmp (if increasing then .SLE else .SGE), [fromV, toV],
                .integer 1, if increasing then "le" else "ge"⟩,
              ⟨g4.code.length + 1, .condBr (g.blocks.length + 2) (g.blocks.length + 3),
                [.instruction g4.code.length (.integer 1)], .void, ""⟩]).map Prod.snd =
            some (g.blocks.length + 3)))) ∧
    ((parseSource 200 ("program test;\nvar I : integer;\nbegin\n for I := 10 to -5 do\n" ++
        "  write(I)\nend.\n").toList).map
      fun p => ((generate p).1, (generate p).2.blocks.map BasicBlock.name,
        ((generate p).2.code.filter fun (q : Option Nat × Instruction) =>
          q.2.successors.contains 3).map (fun (q : Option Nat × Instruction) => q.2.id),
        (runBlock (fun j => if j = 3 then some 10 else none)
          ((((generate p).2.code.drop 4).take 2).map Prod.snd)).map Prod.snd)) =
      .ok (.ok (), ["entry", "init", "cond", "body", "after"], [5], some 4) ∧
    ((parseSource 200 ("program test;\nvar I : integer;\nbegin\n for I := 10 to -5 do\n" ++
        "  write(I)\nend.\n").toList).map
      fun p => (((generate p).2.code.drop 3).take 3).map
        (fun (q : Option Nat × Instruction) => (q.1, q.2.opcode, q.2.operands))) =
      .ok [(some 2, .load, [.globalVariable 0 (.integer 32)]),
        (some 2, .icmp .SLE, [.instruction 3 (.integer 32),
          .folded .sub (.constantInt (.integer 32) 0) (.constantInt (.integer 32) 5)
            (.integer 32)]),
        (some 2, .condBr 3 4, [.instruction 4 (.integer 1)])] := by
  refine ⟨?_, by decide!, by decide!⟩
  obtain ⟨c, block, f, g1, fromStore, toV, fromV, g2, g3, g4, g5, fromV2, g6, hc, hblock,
    hf, hinit, hstore, hto, hfrom, hbody, hfrom2, rfl⟩ := visitStmt_For_inv hrun
  have a0 := avoids_of_exist hexist (t := g.blocks.length + 2) (by omega)
  have aE : ∀ p ∈ ((((((g.addBlock "init" (some f)).addBlock "cond" (some f)).addBlock "body"
      (some f)).addBlock "after" (some f)).emit (.br g.blocks.length) [] .void
      "").setInsertBlock g.blocks.length).code, (g.blocks.length + 2) ∉ p.2.successors :=
    avoids_emit (g := (((g.addBlock "init" (some f)).addBlock "cond" (some f)).addBlock "body"
      (some f)).addBlock "after" (some f)) a0 _ _ _ _ (by simp [Instruction.successors])
  have sI := branches_visitStmt initNode w false _ g1 hinit
  have eE : ((((((g.addBlock "init" (some f)).addBlock "cond" (some f)).addBlock "body"
      (some f)).addBlock "after" (some f)).emit (.br g.blocks.length) [] .void
      "").setInsertBlock g.blocks.length).blocks.length = g.blocks.length + 4 := by simp
  rw [eE] at sI
  have a1 := sI.avoids (t := g.blocks.length + 2) (by omega)
    (fun e => by have := hbreak _ e; omega) aE
  have l1 : g.blocks.length + 4 ≤ g1.blocks.length := sI.2
  have aC : ∀ p ∈ ((g1.emit (.br (g.blocks.length + 1)) [] .void "").setInsertBlock
      (g.blocks.length + 1)).code, (g.blocks.length + 2) ∉ p.2.successors :=
    avoids_emit a1 _ _ _ _ (by simp [Instruction.successors])
  have d1 := (preserves_storeVisit (branches_tame _ _ _) _).after _ _ g2
    (BranchesInside.refl ((g1.emit (.br (g.blocks.length + 1)) [] .void "").setInsertBlock
      (g.blocks.length + 1)) none) hstore
  have d2 := (preserves_visitExpr (branches_tame _ _ _) toNode).after _ _ g3 d1 hto
  have d3 := (preserves_visitExpr (branches_tame _ _ _) _).after _ _ g4 d2 hfrom
  have eC : ((g1.emit (.br (g.blocks.length + 1)) [] .void "").setInsertBlock
      (g.blocks.length + 1)).blocks.length = g1.blocks.length := rfl
  rw [eC] at d3
  have a4 := d3.avoids (t := g.blocks.length + 2) (by omega) (by simp) aC
  have l4 : g.blocks.length + 4 ≤ g4.blocks.length := Nat.le_trans l1 d3.2
  have e1 := branches_visitStmt bodyNode _ false _ g5 hbody
  have e2 := (preserves_visitExpr (branches_tame _ _ _) _).after _ _ g6 e1 hfrom2
  have e3 := (e2.plain .add
    [fromV2, .constantInt (.integer 32) (if increasing then 1 else -1)] fromV2.getType ""
    rfl).plain .store [.instruction g6.code.length fromV2.getType, fromStore] .void "" rfl
  obtain ⟨⟨new, hnew, hsucc⟩, _⟩ := e3
  have eS : (((g4.emit (.icmp (if increasing then .SLE else .SGE)) [fromV, toV] (.integer 1)
      (if increasing then "le" else "ge")).emit
      (.condBr (g.blocks.length + 2) (g.blocks.length + 3))
      [.instruction g4.code.length (.integer 1)] .void "").setInsertBlock
      (g.blocks.length + 2)).blocks.length = g4.blocks.length := rfl
  rw [eS] at hsucc
  have hcode : ((((g6.emit .add
      [fromV2, .constantInt (.integer 32) (if increasing then 1 else -1)] fromV2.getType
      "").emit .store [.instruction g6.code.length fromV2.getType, fromStore] .void
      "").emit (.br (g.blocks.length + 1)) [] .void "").setInsertBlock
      (g.blocks.length + 3)).code = g4.code ++
        (g4.insertBlock, ⟨g4.code.length, .icmp (if increasing then .SLE else .SGE),
          [fromV, toV], .integer 1, if increasing then "le" else "ge"⟩) ::
        (g4.insertBlock, ⟨g4.code.length + 1,
          .condBr (g.blocks.length + 2) (g.blocks.length + 3),
          [.instruction g4.code.length (.integer 1)], .void, ""⟩) ::
        (new ++ [(g6.insertBlock, ⟨g6.code.length + 1 + 1, .br (g.blocks.length + 1), [],
          .void, ""⟩)]) := by
    show ((g6.emit .add
      [fromV2, .constantInt (.integer 32) (if increasing then 1 else -1)] fromV2.getType
      "").emit .store [.instruction g6.code.length fromV2.getType, fromStore] .void
      "").code ++ [_] = _
    rw [hnew]
    have hlen := congrArg List.length hnew
    simp at hlen
    simp
    omega
  refine ⟨f, g1, g2, g3, g4, g5, g6, fromStore, toV, fromV, fromV2, _, hinit, hstore, hto,
    hfrom, hbody, hfrom2, rfl, hcode, ?_, ?_⟩
  · intro p hp hmem
    rw [hcode, List.mem_append, List.mem_cons, List.mem_cons, List.mem_append,
      List.mem_singleton] at hp
    rcases hp with hp | rfl | rfl | hp | rfl
    · exact absurd hmem (a4 p hp)
    · cases increasing <;> cases hmem
    · rfl
    · rcases hsucc p hp _ hmem with k | k
      · omega
      · have := Option.some.inj k
        omega
    · simp [Instruction.successors] at hmem
  · intro regs a b ha hb
    have key : (runBlock regs
        [⟨g4.code.length, .icmp (if increasing then .SLE else .SGE), [fromV, toV],
            .integer 1, if increasing then "le" else "ge"⟩,
          ⟨g4.code.length + 1, .condBr (g.blocks.length + 2) (g.blocks.length + 3),
            [.instruction g4.code.length (.integer 1)], .void, ""⟩]).map Prod.snd =
        some (if (if increasing then decide (a ≤ b) else decide (a ≥ b)) then
          g.blocks.length + 2 else g.blocks.length + 3) := by
      cases increasing
      · by_cases hab : a ≥ b
        · simp only [runBlock, Instruction.eval, ha, hb]
          simp [Value.eval, Registers.set, Opcode.apply, Predicate.holds, hab]
        · simp only [runBlock, Instruction.eval, ha, hb]
          simp [Value.eval, Registers.set, Opcode.apply, Predicate.holds, hab]
      · by_cases hab : a ≤ b
        · simp only [runBlock, Instruction.eval, ha, hb]
          simp [Value.eval, Registers.set, Opcode.apply, Predicate.holds, hab]
        · simp only [runBlock, Instruction.eval, ha, hb]
          simp [Value.eval, Registers.set, Opcode.apply, Predicate.holds, hab]
    refine ⟨key, fun h => ?_⟩
    rw [key]
    rcases h with ⟨rfl, h⟩ | ⟨rfl, h⟩
    · have : ¬ a ≤ b := by omega
      simp [this]
    · have : ¬ a ≥ b := by omega
      simp [this]

/-- Witness of C31: in the lowering of `for i := 10 to 1 do ;` after the declarations of
`sampleProgram` every instruction that branches to the block `body`, the block 3, is a
conditional branch to the blocks 3 and 4. -/
theorem C31_for_test_first_witness :
    (((visitStmt Wiring.initial false (.For (.Assign (.DeclVarRef "i")
        (.Literal (.int 10))) (.Literal (.int 1)) .EmptyStmt true)).run
        sampleContext).2.code.all fun (p : Option Nat × Instruction) =>
      !(p.2.successors.contains (sampleContext.blocks.length + 2)) ||
        decide (p.2.opcode = .condBr (sampleContext.blocks.length + 2)
          (sampleContext.blocks.length + 3))) = true := by
  obtain ⟨f, g1, g2, g3, g4, g5, g6, fromStore, toV, fromV, fromV2, rest, _, _, _, _, _, _,
    _, _, honly, _⟩ := (C31_for_test_first Wiring.initial false
      (.Assign (.DeclVarRef "i") (.Literal (.int 10))) (.Literal (.int 1)) .EmptyStmt true
      sampleContext
      ((visitStmt Wiring.initial false (.For (.Assign (.DeclVarRef "i")
        (.Literal (.int 10))) (.Literal (.int 1)) .EmptyStmt true)).run sampleContext).2
      (Prod.ext (by decide!) rfl) (by decide!) (fun b h => by cases h)).1
  rw [List.all_eq_true]
  intro p hp
  by_cases h : (sampleContext.blocks.length + 2) ∈ p.2.successors
  · rw [honly p hp h]
    simp
  · simp [h]
/-! ## Termination of the front end -/

theorem qLess_length {is : List Char} {cur ts : Position} {tok : Token} {s : Cursor}
    (h : qLess is cur ts = .ok (tok, s)) : s.is.length ≤ is.length := by
  unfold qLess at h
  split at h
  · cases h; simp
  · split_ifs at h <;> cases h <;> simp

theorem qGreater_length {is : List Char} {cur ts : Position} {tok : Token} {s : Cursor}
    (h : qGreater is cur ts = .ok (tok, s)) : s.is.length ≤ is.length := by
  unfold qGreater at h
  split at h
  · cases h; simp
  · split_ifs at h <;> cases h <;> simp

theorem qColon_length {is : List Char} {cur ts : Position} {tok : Token} {s : Cursor}
    (h : qColon is cur ts = .ok (tok, s)) : s.is.length ≤ is.length := by
  unfold qColon at h
  split at h
  · cases h; simp
  · split_ifs at h <;> cases h <;> simp

theorem qDot_length {is : List Char} {cur ts : Position} {tok : Token} {s : Cursor}
    (h : qDot is cur ts = .ok (tok, s)) : s.is.length ≤ is.length := by
  unfold qDot at h
  split at h
  · cases h; simp
  · split_ifs at h <;> cases h <;> simp

theorem qIdentifier_length : ∀ (is : List Char) (cur ts : Position) (buffer : String)
    (tok : Token) (s : Cursor), qIdentifier is cur ts buffer = .ok (tok, s) →
    s.is.length ≤ is.length := by
  intro is
  induction is with
  | nil =>
    intro cur ts buffer tok s h
    rw [qIdentifier] at h
    cases h
    simp
  | cons c cs ih =>
    intro cur ts buffer tok s h
    rw [qIdentifier] at h
    split_ifs at h
    · exact Nat.le_succ_of_le (ih _ _ _ _ _ h)
    · cases h
      simp

theorem qDouble_length : ∀ (is : List Char) (cur ts : Position) (buffer : ℚ) (divider : Int)
    (tok : Token) (s : Cursor), qDouble is cur ts buffer divider = .ok (tok, s) →
    s.is.length ≤ is.length := by
  intro is
  induction is with
  | nil =>
    intro cur ts buffer divider tok s h
    rw [qDouble] at h
    cases h
    simp
  | cons c cs ih =>
    intro cur ts buffer divider tok s h
    rw [qDouble] at h
    split_ifs at h
    · exact Nat.le_succ_of_le (ih _ _ _ _ _ _ h)
    · cases h
      simp

theorem qInt10_length : ∀ (is : List Char) (cur ts : Position) (buffer : Int)
    (tok : Token) (s : Cursor), qInt10 is cur ts buffer = .ok (tok, s) →
    s.is.length ≤ is.length := by
  intro is
  induction is with
  | nil =>
    intro cur ts buffer tok s h
    rw [qInt10] at h
    cases h
    simp
  | cons c cs ih =>
    intro cur ts buffer tok s h
    rcases cs with _ | ⟨d, ds⟩ <;> rw [qInt10] at h <;> split_ifs at h <;>
      first
      | exact Nat.le_succ_of_le (ih _ _ _ _ _ h)
      | exact Nat.le_succ_of_le (qDouble_length _ _ _ _ _ _ _ h)
      | (cases h; simp)
      | cases h

theorem qInt8_length : ∀ (is : List Char) (cur ts : Position) (buffer : Int)
    (tok : Token) (s : Cursor), qInt8 is cur ts buffer = .ok (tok, s) →
    s.is.length ≤ is.length := by
  intro is
  induction is with
  | nil =>
    intro cur ts buffer tok s h
    rw [qInt8] at h
    cases h
    simp
  | cons c cs ih =>
    intro cur ts buffer tok s h
    rw [qInt8] at h
    split_ifs at h <;>
      first
      | exact Nat.le_succ_of_le (ih _ _ _ _ _ h)
      | (cases h; simp)
      | cases h

theorem qInt16_length : ∀ (is : List Char) (cur ts : Position) (buffer : Int)
    (tok : Token) (s : Cursor), qInt16 is cur ts buffer = .ok (tok, s) →
    s.is.length ≤ is.length := by
  intro is
  induction is with
  | nil =>
    intro cur ts buffer tok s h
    rw [qInt16] at h
    cases h
    simp
  | cons c cs ih =>
    intro cur ts buffer tok s h
    rw [qInt16] at h
    split_ifs at h <;>
      first
      | exact Nat.le_succ_of_le (ih _ _ _ _ _ h)
      | (cases h; simp)
      | cases h

theorem single_length {t : TokenType} {cs : List Char} {cur : Position} {tok : Token}
    {s : Cursor} (h : single t cs cur = .ok (tok, s)) : s.is.length ≤ cs.length := by
  unfold single at h
  cases h
  simp

theorem ite_cases {α : Type} {c : Prop} [Decidable c] {a b r : α}
    (h : (if c then a else b) = r) : a = r ∨ b = r := by
  split_ifs at h
  · exact Or.inl h
  · exact Or.inr h

/-- Every state of the lexer consumes a character or returns: a run of `qStart` on the end
of the input returns the token `EOI`, and every other run, like every run of `qComment`,
that returns a token leaves fewer characters than it found. -/
theorem qStart_length : ∀ (is : List Char) (cur ts : Position) (tok : Token) (s : Cursor),
    (qStart is cur ts = .ok (tok, s) →
      (is = [] ∧ tok.type = .EOI ∧ s.is = []) ∨ s.is.length < is.length) ∧
    (qComment is cur ts = .ok (tok, s) → s.is.length < is.length) := by
  intro is
  induction is with
  | nil =>
    intro cur ts tok s
    refine ⟨fun h => ?_, fun h => ?_⟩
    · rw [qStart] at h
      cases h
      exact Or.inl ⟨rfl, rfl, rfl⟩
    · rw [qComment] at h
      cases h
  | cons c cs ih =>
    intro cur ts tok s
    have key : ∀ {k : Nat}, k ≤ cs.length → k < (c :: cs).length := fun hk => by
      simp only [List.length_cons]
      omega
    refine ⟨fun h => Or.inr ?_, fun h => ?_⟩
    · rw [qStart] at h
      refine (ite_cases h).elim (fun h => ?_) (fun h => ?_)
      · rcases (ih _ _ _ _).1 h with ⟨h1, _, h3⟩ | h1
        · exact key (by rw [h3]; exact Nat.zero_le _)
        · exact key (Nat.le_of_lt h1)
      refine (ite_cases h).elim (fun h => ?_) (fun h => ?_)
      · exact key (Nat.le_of_lt ((ih _ _ _ _).2 h))
      iterate 19
        refine (ite_cases h).elim (fun h => key ?_) (fun h => ?_)
        · first
          | exact single_length h
          | exact qLess_length h
          | exact qGreater_length h
          | exact qColon_length h
          | exact qDot_length h
          | exact qInt8_length _ _ _ _ _ _ h
          | exact qInt16_length _ _ _ _ _ _ h
          | exact qIdentifier_length _ _ _ _ _ _ h
          | exact qInt10_length _ _ _ _ _ _ h
      cases h
    · rw [qComment] at h
      split_ifs at h
      · rcases (ih _ _ _ _).1 h with ⟨h1, _, h3⟩ | h1
        · exact key (by rw [h3]; exact Nat.zero_le _)
        · exact key (Nat.le_of_lt h1)
      · exact key (Nat.le_of_lt ((ih _ _ _ _).2 h))

theorem readNextToken_length {c : Cursor} {tok : Token} {s : Cursor}
    (h : readNextToken c = .ok (tok, s)) :
    (c.is = [] ∧ tok.type = .EOI ∧ s.is = []) ∨ s.is.length < c.is.length :=
  (qStart_length _ _ _ _ _).1 h

/-- A token that is matched and is not the end of the input leaves a smaller lexer. -/
theorem matchToken_measure {l l' : Lexer} {t : TokenType} {tok : Token} (ht : t ≠ .EOI)
    (h : l.matchToken t = .ok (some tok, l')) : l'.measure < l.measure := by
  unfold Lexer.matchToken at h
  split_ifs at h with hp
  · split at h
    · rename_i tok' s hr
      cases h
      have hne : l.nextToken.type ≠ .EOI := by
        intro e
        exact ht (by rw [← hp]; exact e)
      unfold Lexer.measure
      simp only [hne, if_false]
      rcases readNextToken_length hr with ⟨h1, h2, h3⟩ | h1
      · simp [h1, h2, h3]
      · split_ifs <;> omega
    · cases h
  · cases h

theorem ite_ne {α : Type} {c : Prop} [Decidable c] {a b r : α} (ha : a ≠ r) (hb : b ≠ r) :
    (if c then a else b) ≠ r := by
  split_ifs
  · exact ha
  · exact hb

theorem qLess_fuel (is : List Char) (cur ts : Position) :
    qLess is cur ts ≠ .error .outOfFuel := by
  unfold qLess
  split
  · simp
  · split_ifs <;> simp

theorem qGreater_fuel (is : List Char) (cur ts : Position) :
    qGreater is cur ts ≠ .error .outOfFuel := by
  unfold qGreater
  split
  · simp
  · split_ifs <;> simp

theorem qColon_fuel (is : List Char) (cur ts : Position) :
    qColon is cur ts ≠ .error .outOfFuel := by
  unfold qColon
  split
  · simp
  · split_ifs <;> simp

theorem qDot_fuel (is : List Char) (cur ts : Position) :
    qDot is cur ts ≠ .error .outOfFuel := by
  unfold qDot
  split
  · simp
  · split_ifs <;> simp

theorem qIdentifier_fuel : ∀ (is : List Char) (cur ts : Position) (buffer : String),
    qIdentifier is cur ts buffer ≠ .error .outOfFuel := by
  intro is
  induction is with
  | nil =>
    intro cur ts buffer
    rw [qIdentifier]
    simp
  | cons c cs ih =>
    intro cur ts buffer
    rw [qIdentifier]
    exact ite_ne (ih _ _ _) (by simp)

theorem qDouble_fuel : ∀ (is : List Char) (cur ts : Position) (buffer : ℚ) (divider : Int),
    qDouble is cur ts buffer divider ≠ .error .outOfFuel := by
  intro is
  induction is with
  | nil =>
    intro cur ts buffer divider
    rw [qDouble]
    simp
  | cons c cs ih =>
    intro cur ts buffer divider
    rw [qDouble]
    exact ite_ne (ih _ _ _ _) (by simp)

theorem qInt10_fuel : ∀ (is : List Char) (cur ts : Position) (buffer : Int),
    qInt10 is cur ts buffer ≠ .error .outOfFuel := by
  intro is
  induction is with
  | nil =>
    intro cur ts buffer
    rw [qInt10]
    simp
  | cons c cs ih =>
    intro cur ts buffer
    rcases cs with _ | ⟨d, ds⟩ <;> rw [qInt10]
    · exact ite_ne (ih _ _ _) (ite_ne (by simp) (by simp))
    · exact ite_ne (ih _ _ _) (ite_ne (ite_ne (qDouble_fuel _ _ _ _ _) (by simp)) (by simp))

theorem qInt8_fuel : ∀ (is : List Char) (cur ts : Position) (buffer : Int),
    qInt8 is cur ts buffer ≠ .error .outOfFuel := by
  intro is
  induction is with
  | nil =>
    intro cur ts buffer
    rw [qInt8]
    simp
  | cons c cs ih =>
    intro cur ts buffer
    rw [qInt8]
    exact ite_ne (ite_ne (by simp) (ih _ _ _)) (by simp)

theorem qInt16_fuel : ∀ (is : List Char) (cur ts : Position) (buffer : Int),
    qInt16 is cur ts buffer ≠ .error .outOfFuel := by
  intro is
  induction is with
  | nil =>
    intro cur ts buffer
    rw [qInt16]
    simp
  | cons c cs ih =>
    intro cur ts buffer
    rw [qInt16]
    exact ite_ne (ite_ne (by simp) (ih _ _ _)) (by simp)

/-- The lexer raises `LexerException` only: no run of `qStart` or of `qComment` ends with
the exhaustion of fuel, which the lexer does not use. -/
theorem qStart_fuel : ∀ (is : List Char) (cur ts : Position),
    qStart is cur ts ≠ .error .outOfFuel ∧ qComment is cur ts ≠ .error .outOfFuel := by
  intro is
  induction is with
  | nil =>
    intro cur ts
    rw [qStart, qComment]
    exact ⟨by simp, by simp⟩
  | cons c cs ih =>
    intro cur ts
    refine ⟨?_, ?_⟩
    · rw [qStart]
      refine ite_ne (ih _ _).1 (ite_ne (ih _ _).2 ?_)
      iterate 19
        refine ite_ne ?_ ?_
        · first
          | (unfold single; simp)
          | exact qLess_fuel _ _ _
          | exact qGreater_fuel _ _ _
          | exact qColon_fuel _ _ _
          | exact qDot_fuel _ _ _
          | exact qInt8_fuel _ _ _ _
          | exact qInt16_fuel _ _ _ _
          | exact qIdentifier_fuel _ _ _ _
          | exact qInt10_fuel _ _ _ _
      simp
    · rw [qComment]
      exact ite_ne (ih _ _).1 (ih _ _).2

theorem readNextToken_fuel (c : Cursor) : readNextToken c ≠ .error .outOfFuel :=
  (qStart_fuel _ _ _).1

theorem Settles.imp {α : Type} {P Q : Lexer → Prop} {r : Except FrontError (α × Lexer)}
    (h : Settles P r) (hpq : ∀ l, P l → Q l) : Settles Q r := by
  unfold Settles at h ⊢
  split
  · rename_i x
    exact hpq _ h
  · exact h

/-- The match of a token other than the end of the input: a lexer or parser exception, or
a smaller lexer. -/
theorem settles_matchType (l : Lexer) (t : TokenType) (rule : String) (ht : t ≠ .EOI) :
    Settles (fun l' => l'.measure < l.measure) (matchType l t rule) := by
  unfold matchType matchTypes
  split
  · rename_i e he
    unfold Settles
    dsimp only
    intro e1
    rw [e1] at he
    unfold Lexer.matchToken at he
    split_ifs at he
    split at he
    · cases he
    · rename_i e2 hr
      cases he
      exact readNextToken_fuel _ hr
  · rename_i token lexer1 he
    exact matchToken_measure ht he
  · rw [matchTypes]
    unfold Settles
    simp

theorem Done.mono {α : Type} {n : Nat} {P Q : Lexer → Prop}
    {f : Nat → Except FrontError (α × Lexer)} (h : Done n P f) (hpq : ∀ l, P l → Q l) :
    Done n Q f :=
  ⟨h.1, h.2.imp hpq⟩

theorem Done.const {α : Type} (n : Nat) {P : Lexer → Prop} {r : Except FrontError (α × Lexer)}
    (h : Settles P r) : Done n P (fun _ => r) :=
  ⟨fun _ _ => rfl, h⟩

theorem Done.ok {α : Type} (n : Nat) {P : Lexer → Prop} (a : α) {l : Lexer} (h : P l) :
    Done n P (fun _ => (pure (a, l) : Except FrontError (α × Lexer))) :=
  ⟨fun _ _ => rfl, h⟩

theorem Done.parserError {α : Type} (n : Nat) (P : Lexer → Prop) (rule : String)
    (actual : Token) (expected : List TokenType) :
    Done n P (fun _ => (.error (.parser rule actual expected) : Except FrontError (α × Lexer))) :=
  ⟨fun _ _ => rfl, fun h => by cases h⟩

theorem Done.matchType {n : Nat} (l : Lexer) (t : TokenType) (rule : String)
    (ht : t ≠ .EOI) :
    Done n (fun l' => l'.measure < l.measure) (fun _ => Mila.matchType l t rule) :=
  Done.const n (settles_matchType l t rule ht)

theorem Done.seq {α β : Type} {n : Nat} {P Q : Lexer → Prop}
    {f : Nat → Except FrontError (α × Lexer)}
    {k : Nat → α × Lexer → Except FrontError (β × Lexer)} (hf : Done n P f)
    (hk : ∀ x, P x.2 → Done n Q (fun j => k j x)) : Done n Q (fun j => f j >>= k j) := by
  obtain ⟨h1, h2⟩ := hf
  cases hfn : f n with
  | error e =>
    rw [hfn] at h2
    refine ⟨fun j hj => ?_, ?_⟩
    · show f j >>= k j = f n >>= k n
      rw [h1 j hj, hfn]
      rfl
    · show Settles Q (f n >>= k n)
      rw [hfn]
      exact h2
  | ok x =>
    rw [hfn] at h2
    obtain ⟨k1, k2⟩ := hk x h2
    refine ⟨fun j hj => ?_, ?_⟩
    · show f j >>= k j = f n >>= k n
      rw [h1 j hj, hfn]
      exact k1 j hj
    · show Settles Q (f n >>= k n)
      rw [hfn]
      exact k2

theorem Done.succ {α : Type} {n : Nat} {P : Lexer → Prop}
    {F body : Nat → Except FrontError (α × Lexer)} (h : ∀ j, F (j + 1) = body j)
    (hb : Done n P body) : Done (n + 1) P F := by
  obtain ⟨h1, h2⟩ := hb
  refine ⟨fun j hj => ?_, ?_⟩
  · obtain ⟨i, rfl⟩ : ∃ i, j = i + 1 := ⟨j - 1, by omega⟩
    rw [h i, h n]
    exact h1 i (by omega)
  · rw [h n]
    exact h2

theorem Settles.andThen {α β : Type} {P Q : Lexer → Prop} {r : Except FrontError (α × Lexer)}
    {k : α × Lexer → Except FrontError (β × Lexer)} (h : Settles P r)
    (hk : ∀ x, P x.2 → Settles Q (k x)) : Settles Q (r >>= k) := by
  cases r with
  | error e => exact h
  | ok x => exact hk x h

theorem Settles.returned {α : Type} {P : Lexer → Prop} (a : α) {l : Lexer} (h : P l) :
    Settles P (pure (a, l) : Except FrontError (α × Lexer)) := h

theorem Settles.rejected {α : Type} (P : Lexer → Prop) (rule : String)
    (actual : Token) (expected : List TokenType) :
    Settles P (.error (.parser rule actual expected) : Except FrontError (α × Lexer)) :=
  fun h => by cases h

theorem settles_parseUnsignedNumber (l : Lexer) :
    Settles (fun l' => l'.measure < l.measure) (parseUnsignedNumber l) := by
  unfold parseUnsignedNumber
  split <;> first
    | exact settles_matchType _ _ _ (by decide)
    | exact Settles.rejected _ _ _ _

theorem settles_parseTo (l : Lexer) :
    Settles (fun l' => l'.measure < l.measure) (parseTo l) := by
  unfold parseTo
  split <;> first
    | exact settles_matchType _ _ _ (by decide)
    | exact Settles.rejected _ _ _ _

theorem settles_parseEqualityOperator (l : Lexer) :
    Settles (fun l' => l'.measure < l.measure) (parseEqualityOperator l) := by
  unfold parseEqualityOperator
  split <;> first
    | exact settles_matchType _ _ _ (by decide)
    | exact Settles.rejected _ _ _ _

theorem settles_parseRelationalOperator (l : Lexer) :
    Settles (fun l' => l'.measure < l.measure) (parseRelationalOperator l) := by
  unfold parseRelationalOperator
  split <;> first
    | exact settles_matchType _ _ _ (by decide)
    | exact Settles.rejected _ _ _ _

theorem settles_parseAdditiveOperator (l : Lexer) :
    Settles (fun l' => l'.measure < l.measure) (parseAdditiveOperator l) := by
  unfold parseAdditiveOperator
  split <;> first
    | exact settles_matchType _ _ _ (by decide)
    | exact Settles.rejected _ _ _ _

theorem settles_parseMultiplicativeOperator (l : Lexer) :
    Settles (fun l' => l'.measure < l.measure) (parseMultiplicativeOperator l) := by
  unfold parseMultiplicativeOperator
  split <;> first
    | exact settles_matchType _ _ _ (by decide)
    | exact Settles.rejected _ _ _ _

theorem settles_parseUnaryOperator (l : Lexer) :
    Settles (fun l' => l'.measure < l.measure) (parseUnaryOperator l) := by
  unfold parseUnaryOperator
  split <;> first
    | exact settles_matchType _ _ _ (by decide)
    | exact Settles.rejected _ _ _ _

theorem settles_parsePrimitiveType (l : Lexer) :
    Settles (fun l' => l'.measure < l.measure) (parsePrimitiveType l) := by
  unfold parsePrimitiveType
  split <;> first
    | exact (settles_matchType _ _ _ (by decide)).andThen fun x h => Settles.returned _ h
    | exact Settles.rejected _ _ _ _

theorem settles_parseSignedInteger (l : Lexer) :
    Settles (fun l' => l'.measure < l.measure) (parseSignedInteger l) := by
  unfold parseSignedInteger
  split
  · exact (settles_matchType _ _ _ (by decide)).andThen fun x h => Settles.returned _ h
  · exact (settles_matchType _ _ _ (by decide)).andThen fun x h =>
      ((settles_matchType x.2 _ _ (by decide)).imp fun l' h' =>
        Nat.lt_trans h' h).andThen fun y hy => Settles.returned _ hy
  · exact Settles.rejected _ _ _ _

theorem settles_parseArrayType (l : Lexer) :
    Settles (fun l' => l'.measure < l.measure) (parseArrayType l) := by
  unfold parseArrayType
  split
  · refine (settles_matchType _ _ _ (by decide)).andThen fun x1 h1 => ?_
    refine ((settles_matchType x1.2 _ _ (by decide)).imp fun l' h' =>
      Nat.lt_trans h' h1).andThen fun x2 h2 => ?_
    refine ((settles_parseSignedInteger x2.2).imp fun l' h' =>
      Nat.lt_trans h' h2).andThen fun x3 h3 => ?_
    refine ((settles_matchType x3.2 _ _ (by decide)).imp fun l' h' =>
      Nat.lt_trans h' h3).andThen fun x4 h4 => ?_
    refine ((settles_parseSignedInteger x4.2).imp fun l' h' =>
      Nat.lt_trans h' h4).andThen fun x5 h5 => ?_
    refine ((settles_matchType x5.2 _ _ (by decide)).imp fun l' h' =>
      Nat.lt_trans h' h5).andThen fun x6 h6 => ?_
    refine ((settles_matchType x6.2 _ _ (by decide)).imp fun l' h' =>
      Nat.lt_trans h' h6).andThen fun x7 h7 => ?_
    refine ((settles_parsePrimitiveType x7.2).imp fun l' h' =>
      Nat.lt_trans h' h7).andThen fun x8 h8 => ?_
    exact Settles.returned _ h8
  · exact Settles.rejected _ _ _ _

theorem settles_parseType (l : Lexer) :
    Settles (fun l' => l'.measure < l.measure) (parseType l) := by
  unfold parseType
  split
  · exact (settles_parsePrimitiveType l).andThen fun x h => Settles.returned _ h
  · exact (settles_parsePrimitiveType l).andThen fun x h => Settles.returned _ h
  · exact (settles_parseArrayType l).andThen fun x h => Settles.returned _ h
  · exact Settles.rejected _ _ _ _

theorem settles_parseEmptyStatement (l : Lexer) :
    Settles (fun l' => l'.measure ≤ l.measure) (parseEmptyStatement l) := by
  unfold parseEmptyStatement
  split <;> first
    | exact Settles.returned _ (Nat.le_refl _)
    | exact Settles.rejected _ _ _ _
theorem done_expressions : ∀ n : Nat,
    (∀ (m : Nat) (l : Lexer), l.measure ≤ m → 100 * m + 9 ≤ n →
      Done n (fun l' => l'.measure < m) (fun j => parseExpression j l)) ∧
    (∀ (m : Nat) (l : Lexer), l.measure ≤ m → 100 * m + 8 ≤ n →
      Done n (fun l' => l'.measure < m) (fun j => parseLogicalOrExpression j l)) ∧
    (∀ (m : Nat) (lhsExprNode : Expr) (l : Lexer), l.measure ≤ m → 100 * m + 1 ≤ n →
      Done n (fun l' => l'.measure ≤ m) (fun j => parseLogicalOrExpressionR j lhsExprNode l)) ∧
    (∀ (m : Nat) (l : Lexer), l.measure ≤ m → 100 * m + 7 ≤ n →
      Done n (fun l' => l'.measure < m) (fun j => parseLogicalAndExpression j l)) ∧
    (∀ (m : Nat) (lhsExprNode : Expr) (l : Lexer), l.measure ≤ m → 100 * m + 1 ≤ n →
      Done n (fun l' => l'.measure ≤ m) (fun j => parseLogicalAndExpressionR j lhsExprNode l)) ∧
    (∀ (m : Nat) (l : Lexer), l.measure ≤ m → 100 * m + 6 ≤ n →
      Done n (fun l' => l'.measure < m) (fun j => parseEqualityExpression j l)) ∧
    (∀ (m : Nat) (lhsExprNode : Expr) (l : Lexer), l.measure ≤ m → 100 * m + 1 ≤ n →
      Done n (fun l' => l'.measure ≤ m) (fun j => parseEqualityExpressionR j lhsExprNode l)) ∧
    (∀ (m : Nat) (l : Lexer), l.measure ≤ m → 100 * m + 5 ≤ n →
      Done n (fun l' => l'.measure < m) (fun j => parseRelationalExpression j l)) ∧
    (∀ (m : Nat) (lhsExprNode : Expr) (l : Lexer), l.measure ≤ m → 100 * m + 1 ≤ n →
      Done n (fun l' => l'.measure ≤ m) (fun j => parseRelationalExpressionR j lhsExprNode l)) ∧
    (∀ (m : Nat) (l : Lexer), l.measure ≤ m → 100 * m + 4 ≤ n →
      Done n (fun l' => l'.measure < m) (fun j => parseAdditiveExpression j l)) ∧
    (∀ (m : Nat) (lhsExprNode : Expr) (l : Lexer), l.measure ≤ m → 100 * m + 1 ≤ n →
      Done n (fun l' => l'.measure ≤ m) (fun j => parseAdditiveExpressionR j lhsExprNode l)) ∧
    (∀ (m : Nat) (l : Lexer), l.measure ≤ m → 100 * m + 3 ≤ n →
      Done n (fun l' => l'.measure < m) (fun j => parseMultiplicativeExpression j l)) ∧
    (∀ (m : Nat) (lhsExprNode : Expr) (l : Lexer), l.measure ≤ m → 100 * m + 1 ≤ n →
      Done n (fun l' => l'.measure ≤ m) (fun j => parseMultiplicativeExpressionR j lhsExprNode l)) ∧
    (∀ (m : Nat) (l : Lexer), l.measure ≤ m → 100 * m + 2 ≤ n →
      Done n (fun l' => l'.measure < m) (fun j => parseUnaryExpression j l)) ∧
    (∀ (m : Nat) (l : Lexer), l.measure ≤ m → 100 * m + 1 ≤ n →
      Done n (fun l' => l'.measure < m) (fun j => parsePrimaryExpression j l)) ∧
    (∀ (m : Nat) (identifier : String) (l : Lexer), l.measure ≤ m → 100 * m + 2 ≤ n →
      Done n (fun l' => l'.measure ≤ m) (fun j => parsePrimaryExpressionIdentifierContinuation j
          identifier l)) ∧
    (∀ (m : Nat) (identifier : String) (l : Lexer), l.measure ≤ m → 100 * m + 1 ≤ n →
      Done n (fun l' => l'.measure < m) (fun j => parseArrayAccess j identifier l)) ∧
    (∀ (m : Nat) (l : Lexer), l.measure ≤ m → 100 * m + 1 ≤ n →
      Done n (fun l' => l'.measure < m) (fun j => parseFunctionArgs j l)) ∧
    (∀ (m : Nat) (l : Lexer), l.measure ≤ m → 100 * m + 10 ≤ n →
      Done n (fun l' => l'.measure ≤ m) (fun j => parseArgumentList j l)) ∧
    (∀ (m : Nat) (argNodes : List Expr) (l : Lexer), l.measure ≤ m → 100 * m + 1 ≤ n →
      Done n (fun l' => l'.measure ≤ m) (fun j => parseArgumentListR j argNodes l)) := by
  intro n
  induction n with
  | zero =>
    refine ⟨?_, ?_, ?_, ?_, ?_, ?_, ?_, ?_, ?_, ?_, ?_, ?_, ?_, ?_, ?_, ?_, ?_, ?_, ?_, ?_⟩ <;>
        intros <;> omega
  | succ n ih =>
    obtain ⟨ih_parseExpression, ih_parseLogicalOrExpression, ih_parseLogicalOrExpressionR,
        ih_parseLogicalAndExpression, ih_parseLogicalAndExpressionR, ih_parseEqualityExpression,
        ih_parseEqualityExpressionR, ih_parseRelationalExpression, ih_parseRelationalExpressionR,
        ih_parseAdditiveExpression, ih_parseAdditiveExpressionR, ih_parseMultiplicativeExpression,
        ih_parseMultiplicativeExpressionR, ih_parseUnaryExpression, ih_parsePrimaryExpression,
        ih_parsePrimaryExpressionIdentifierContinuation, ih_parseArrayAccess, ih_parseFunctionArgs,
        ih_parseArgumentList, ih_parseArgumentListR⟩ := ih
    refine ⟨?_, ?_, ?_, ?_, ?_, ?_, ?_, ?_, ?_, ?_, ?_, ?_, ?_, ?_, ?_, ?_, ?_, ?_, ?_, ?_⟩
    · intro m l hm hn
      refine Done.succ (fun j => by rw [parseExpression]) ?_
      split
      · exact (ih_parseLogicalOrExpression m l (by omega) (by omega)).mono fun l' h' => by omega
      · exact (ih_parseLogicalOrExpression m l (by omega) (by omega)).mono fun l' h' => by omega
      · exact (ih_parseLogicalOrExpression m l (by omega) (by omega)).mono fun l' h' => by omega
      · exact (ih_parseLogicalOrExpression m l (by omega) (by omega)).mono fun l' h' => by omega
      · exact (ih_parseLogicalOrExpression m l (by omega) (by omega)).mono fun l' h' => by omega
      · exact (ih_parseLogicalOrExpression m l (by omega) (by omega)).mono fun l' h' => by omega
      · exact Done.parserError _ _ _ _ _
    · intro m l hm hn
      refine Done.succ (fun j => by rw [parseLogicalOrExpression]) ?_
      split
      · refine (ih_parseLogicalAndExpression m l (by omega) (by omega)).seq fun x1 h1 => ?_
        exact (ih_parseLogicalOrExpressionR (m - 1) _ x1.2 (by omega) (by omega)).mono fun l' h' =>
            by omega
      · refine (ih_parseLogicalAndExpression m l (by omega) (by omega)).seq fun x1 h1 => ?_
        exact (ih_parseLogicalOrExpressionR (m - 1) _ x1.2 (by omega) (by omega)).mono fun l' h' =>
            by omega
      · refine (ih_parseLogicalAndExpression m l (by omega) (by omega)).seq fun x1 h1 => ?_
        exact (ih_parseLogicalOrExpressionR (m - 1) _ x1.2 (by omega) (by omega)).mono fun l' h' =>
            by omega
      · refine (ih_parseLogicalAndExpression m l (by omega) (by omega)).seq fun x1 h1 => ?_
        exact (ih_parseLogicalOrExpressionR (m - 1) _ x1.2 (by omega) (by omega)).mono fun l' h' =>
            by omega
      · refine (ih_parseLogicalAndExpression m l (by omega) (by omega)).seq fun x1 h1 => ?_
        exact (ih_parseLogicalOrExpressionR (m - 1) _ x1.2 (by omega) (by omega)).mono fun l' h' =>
            by omega
      · refine (ih_parseLogicalAndExpression m l (by omega) (by omega)).seq fun x1 h1 => ?_
        exact (ih_parseLogicalOrExpressionR (m - 1) _ x1.2 (by omega) (by omega)).mono fun l' h' =>
            by omega
      · exact Done.parserError _ _ _ _ _
    · intro m lhsExprNode l hm hn
      refine Done.succ (fun j => by rw [parseLogicalOrExpressionR]) ?_
      split
      · refine (Done.matchType l _ _ (by decide)).seq fun x1 h1 => ?_
        refine (ih_parseLogicalAndExpression (m - 1) x1.2 (by omega) (by omega)).seq fun x2 h2 => ?_
        exact (ih_parseLogicalOrExpressionR (m - 1) _ x2.2 (by omega) (by omega)).mono fun l' h' =>
            by omega
      · exact Done.ok _ _ (by omega)
      · exact Done.ok _ _ (by omega)
      · exact Done.ok _ _ (by omega)
      · exact Done.ok _ _ (by omega)
      · exact Done.ok _ _ (by omega)
      · exact Done.ok _ _ (by omega)
      · exact Done.ok _ _ (by omega)
      · exact Done.ok _ _ (by omega)
      · exact Done.ok _ _ (by omega)
      · exact Done.ok _ _ (by omega)
      · exact Done.parserError _ _ _ _ _
    · intro m l hm hn
      refine Done.succ (fun j => by rw [parseLogicalAndExpression]) ?_
      split
      · refine (ih_parseEqualityExpression m l (by omega) (by omega)).seq fun x1 h1 => ?_
        exact (ih_parseLogicalAndExpressionR (m - 1) _ x1.2 (by omega) (by omega)).mono fun l' h'
            => by omega
      · refine (ih_parseEqualityExpression m l (by omega) (by omega)).seq fun x1 h1 => ?_
        exact (ih_parseLogicalAndExpressionR (m - 1) _ x1.2 (by omega) (by omega)).mono fun l' h'
            => by omega
      · refine (ih_parseEqualityExpression m l (by omega) (by omega)).seq fun x1 h1 => ?_
        exact (ih_parseLogicalAndExpressionR (m - 1) _ x1.2 (by omega) (by omega)).mono fun l' h'
            => by omega
      · refine (ih_parseEqualityExpression m l (by omega) (by omega)).seq fun x1 h1 => ?_
        exact (ih_parseLogicalAndExpressionR (m - 1) _ x1.2 (by omega) (by omega)).mono fun l' h'
            => by omega
      · refine (ih_parseEqualityExpression m l (by omega) (by omega)).seq fun x1 h1 => ?_
        exact (ih_parseLogicalAndExpressionR (m - 1) _ x1.2 (by omega) (by omega)).mono fun l' h'
            => by omega
      · refine (ih_parseEqualityExpression m l (by omega) (by omega)).seq fun x1 h1 => ?_
        exact (ih_parseLogicalAndExpressionR (m - 1) _ x1.2 (by omega) (by omega)).mono fun l' h'
            => by omega
      · exact Done.parserError _ _ _ _ _
    · intro m lhsExprNode l hm hn
      refine Done.succ (fun j => by rw [parseLogicalAndExpressionR]) ?_
      split
      · refine (Done.matchType l _ _ (by decide)).seq fun x1 h1 => ?_
        refine (ih_parseEqualityExpression (m - 1) x1.2 (by omega) (by omega)).seq fun x2 h2 => ?_
        exact (ih_parseLogicalAndExpressionR (m - 1) _ x2.2 (by omega) (by omega)).mono fun l' h'
            => by omega
      · exact Done.ok _ _ (by omega)
      · exact Done.ok _ _ (by omega)
      · exact Done.ok _ _ (by omega)
      · exact Done.ok _ _ (by omega)
      · exact Done.ok _ _ (by omega)
      · exact Done.ok _ _ (by omega)
      · exact Done.ok _ _ (by omega)
      · exact Done.ok _ _ (by omega)
      · exact Done.ok _ _ (by omega)
      · exact Done.ok _ _ (by omega)
      · exact Done.ok _ _ (by omega)
      · exact Done.parserError _ _ _ _ _
    · intro m l hm hn
      refine Done.succ (fun j => by rw [parseEqualityExpression]) ?_
      split
      · refine (ih_parseRelationalExpression m l (by omega) (by omega)).seq fun x1 h1 => ?_
        exact (ih_parseEqualityExpressionR (m - 1) _ x1.2 (by omega) (by omega)).mono fun l' h' =>
            by omega
      · refine (ih_parseRelationalExpression m l (by omega) (by omega)).seq fun x1 h1 => ?_
        exact (ih_parseEqualityExpressionR (m - 1) _ x1.2 (by omega) (by omega)).mono fun l' h' =>
            by omega
      · refine (ih_parseRelationalExpression m l (by omega) (by omega)).seq fun x1 h1 => ?_
        exact (ih_parseEqualityExpressionR (m - 1) _ x1.2 (by omega) (by omega)).mono fun l' h' =>
            by omega
      · refine (ih_parseRelationalExpression m l (by omega) (by omega)).seq fun x1 h1 => ?_
        exact (ih_parseEqualityExpressionR (m - 1) _ x1.2 (by omega) (by omega)).mono fun l' h' =>
            by omega
      · refine (ih_parseRelationalExpression m l (by omega) (by omega)).seq fun x1 h1 => ?_
        exact (ih_parseEqualityExpressionR (m - 1) _ x1.2 (by omega) (by omega)).mono fun l' h' =>
            by omega
      · refine (ih_parseRelationalExpression m l (by omega) (by omega)).seq fun x1 h1 => ?_
        exact (ih_parseEqualityExpressionR (m - 1) _ x1.2 (by omega) (by omega)).mono fun l' h' =>
            by omega
      · exact Done.parserError _ _ _ _ _
    · intro m lhsExprNode l hm hn
      refine Done.succ (fun j => by rw [parseEqualityExpressionR]) ?_
      split
      · refine (Done.const _ (settles_parseEqualityOperator l)).seq fun x1 h1 => ?_
        refine (ih_parseRelationalExpression (m - 1) x1.2 (by omega) (by omega)).seq fun x2 h2 => ?_
        exact (ih_parseEqualityExpressionR (m - 1) _ x2.2 (by omega) (by omega)).mono fun l' h' =>
            by omega
      · refine (Done.const _ (settles_parseEqualityOperator l)).seq fun x1 h1 => ?_
        refine (ih_parseRelationalExpression (m - 1) x1.2 (by omega) (by omega)).seq fun x2 h2 => ?_
        exact (ih_parseEqualityExpressionR (m - 1) _ x2.2 (by omega) (by omega)).mono fun l' h' =>
            by omega
      · exact Done.ok _ _ (by omega)
      · exact Done.ok _ _ (by omega)
      · exact Done.ok _ _ (by omega)
      · exact Done.ok _ _ (by omega)
      · exact Done.ok _ _ (by omega)
      · exact Done.ok _ _ (by omega)
      · exact Done.ok _ _ (by omega)
      · exact Done.ok _ _ (by omega)
      · exact Done.ok _ _ (by omega)
      · exact Done.ok _ _ (by omega)
      · exact Done.ok _ _ (by omega)
      · exact Done.ok _ _ (by omega)
      · exact Done.parserError _ _ _ _ _
    · intro m l hm hn
      refine Done.succ (fun j => by rw [parseRelationalExpression]) ?_
      split
      · refine (ih_parseAdditiveExpression m l (by omega) (by omega)).seq fun x1 h1 => ?_
        exact (ih_parseRelationalExpressionR (m - 1) _ x1.2 (by omega) (by omega)).mono fun l' h'
            => by omega
      · refine (ih_parseAdditiveExpression m l (by omega) (by omega)).seq fun x1 h1 => ?_
        exact (ih_parseRelationalExpressionR (m - 1) _ x1.2 (by omega) (by omega)).mono fun l' h'
            => by omega
      · refine (ih_parseAdditiveExpression m l (by omega) (by omega)).seq fun x1 h1 => ?_
        exact (ih_parseRelationalExpressionR (m - 1) _ x1.2 (by omega) (by omega)).mono fun l' h'
            => by omega
      · refine (ih_parseAdditiveExpression m l (by omega) (by omega)).seq fun x1 h1 => ?_
        exact (ih_parseRelationalExpressionR (m - 1) _ x1.2 (by omega) (by omega)).mono fun l' h'
            => by omega
      · refine (ih_parseAdditiveExpression m l (by omega) (by omega)).seq fun x1 h1 => ?_
        exact (ih_parseRelationalExpressionR (m - 1) _ x1.2 (by omega) (by omega)).mono fun l' h'
            => by omega
      · refine (ih_parseAdditiveExpression m l (by omega) (by omega)).seq fun x1 h1 => ?_
        exact (ih_parseRelationalExpressionR (m - 1) _ x1.2 (by omega) (by omega)).mono fun l' h'
            => by omega
      · exact Done.parserError _ _ _ _ _
    · intro m lhsExprNode l hm hn
      refine Done.succ (fun j => by rw [parseRelationalExpressionR]) ?_
      split
      · refine (Done.const _ (settles_parseRelationalOperator l)).seq fun x1 h1 => ?_
        refine (ih_parseAdditiveExpression (m - 1) x1.2 (by omega) (by omega)).seq fun x2 h2 => ?_
        exact (ih_parseRelationalExpressionR (m - 1) _ x2.2 (by omega) (by omega)).mono fun l' h'
            => by omega
      · refine (Done.const _ (settles_parseRelationalOperator l)).seq fun x1 h1 => ?_
        refine (ih_parseAdditiveExpression (m - 1) x1.2 (by omega) (by omega)).seq fun x2 h2 => ?_
        exact (ih_parseRelationalExpressionR (m - 1) _ x2.2 (by omega) (by omega)).mono fun l' h'
            => by omega
      · refine (Done.const _ (settles_parseRelationalOperator l)).seq fun x1 h1 => ?_
        refine (ih_parseAdditiveExpression (m - 1) x1.2 (by omega) (by omega)).seq fun x2 h2 => ?_
        exact (ih_parseRelationalExpressionR (m - 1) _ x2.2 (by omega) (by omega)).mono fun l' h'
            => by omega
      · refine (Done.const _ (settles_parseRelationalOperator l)).seq fun x1 h1 => ?_
        refine (ih_parseAdditiveExpression (m - 1) x1.2 (by omega) (by omega)).seq fun x2 h2 => ?_
        exact (ih_parseRelationalExpressionR (m - 1) _ x2.2 (by omega) (by omega)).mono fun l' h'
            => by omega
      · exact Done.ok _ _ (by omega)
      · exact Done.ok _ _ (by omega)
      · exact Done.ok _ _ (by omega)
      · exact Done.ok _ _ (by omega)
      · exact Done.ok _ _ (by omega)
      · exact Done.ok _ _ (by omega)
      · exact Done.ok _ _ (by omega)
      · exact Done.ok _ _ (by omega)
      · exact Done.ok _ _ (by omega)
      · exact Done.ok _ _ (by omega)
      · exact Done.ok _ _ (by omega)
      · exact Done.ok _ _ (by omega)
      · exact Done.ok _ _ (by omega)
      · exact Done.ok _ _ (by omega)
      · exact Done.parserError _ _ _ _ _
    · intro m l hm hn
      refine Done.succ (fun j => by rw [parseAdditiveExpression]) ?_
      split
      · refine (ih_parseMultiplicativeExpression m l (by omega) (by omega)).seq fun x1 h1 => ?_
        exact (ih_parseAdditiveExpressionR (m - 1) _ x1.2 (by omega) (by omega)).mono fun l' h' =>
            by omega
      · refine (ih_parseMultiplicativeExpression m l (by omega) (by omega)).seq fun x1 h1 => ?_
        exact (ih_parseAdditiveExpressionR (m - 1) _ x1.2 (by omega) (by omega)).mono fun l' h' =>
            by omega
      · refine (ih_parseMultiplicativeExpression m l (by omega) (by omega)).seq fun x1 h1 => ?_
        exact (ih_parseAdditiveExpressionR (m - 1) _ x1.2 (by omega) (by omega)).mono fun l' h' =>
            by omega
      · refine (ih_parseMultiplicativeExpression m l (by omega) (by omega)).seq fun x1 h1 => ?_
        exact (ih_parseAdditiveExpressionR (m - 1) _ x1.2 (by omega) (by omega)).mono fun l' h' =>
            by omega
      · refine (ih_parseMultiplicativeExpression m l (by omega) (by omega)).seq fun x1 h1 => ?_
        exact (ih_parseAdditiveExpressionR (m - 1) _ x1.2 (by omega) (by omega)).mono fun l' h' =>
            by omega
      · refine (ih_parseMultiplicativeExpression m l (by omega) (by omega)).seq fun x1 h1 => ?_
        exact (ih_parseAdditiveExpressionR (m - 1) _ x1.2 (by omega) (by omega)).mono fun l' h' =>
            by omega
      · exact Done.parserError _ _ _ _ _
    · intro m lhsExprNode l hm hn
      refine Done.succ (fun j => by rw [parseAdditiveExpressionR]) ?_
      split
      · refine (Done.const _ (settles_parseAdditiveOperator l)).seq fun x1 h1 => ?_
        refine (ih_parseMultiplicativeExpression (m - 1) x1.2 (by omega) (by omega)).seq fun x2 h2
            => ?_
        exact (ih_parseAdditiveExpressionR (m - 1) _ x2.2 (by omega) (by omega)).mono fun l' h' =>
            by omega
      · refine (Done.const _ (settles_parseAdditiveOperator l)).seq fun x1 h1 => ?_
        refine (ih_parseMultiplicativeExpression (m - 1) x1.2 (by omega) (by omega)).seq fun x2 h2
            => ?_
        exact (ih_parseAdditiveExpressionR (m - 1) _ x2.2 (by omega) (by omega)).mono fun l' h' =>
            by omega
      · exact Done.ok _ _ (by omega)
      · exact Done.ok _ _ (by omega)
      · exact Done.ok _ _ (by omega)
      · exact Done.ok _ _ (by omega)
      · exact Done.ok _ _ (by omega)
      · exact Done.ok _ _ (by omega)
      · exact Done.ok _ _ (by omega)
      · exact Done.ok _ _ (by omega)
      · exact Done.ok _ _ (by omega)
      · exact Done.ok _ _ (by omega)
      · exact Done.ok _ _ (by omega)
      · exact Done.ok _ _ (by omega)
      · exact Done.ok _ _ (by omega)
      · exact Done.ok _ _ (by omega)
      · exact Done.ok _ _ (by omega)
      · exact Done.ok _ _ (by omega)
      · exact Done.ok _ _ (by omega)
      · exact Done.ok _ _ (by omega)
      · exact Done.parserError _ _ _ _ _
    · intro m l hm hn
      refine Done.succ (fun j => by rw [parseMultiplicativeExpression]) ?_
      split
      · refine (ih_parseUnaryExpression m l (by omega) (by omega)).seq fun x1 h1 => ?_
        exact (ih_parseMultiplicativeExpressionR (m - 1) _ x1.2 (by omega) (by omega)).mono fun l'
            h' => by omega
      · refine (ih_parseUnaryExpression m l (by omega) (by omega)).seq fun x1 h1 => ?_
        exact (ih_parseMultiplicativeExpressionR (m - 1) _ x1.2 (by omega) (by omega)).mono fun l'
            h' => by omega
      · refine (ih_parseUnaryExpression m l (by omega) (by omega)).seq fun x1 h1 => ?_
        exact (ih_parseMultiplicativeExpressionR (m - 1) _ x1.2 (by omega) (by omega)).mono fun l'
            h' => by omega
      · refine (ih_parseUnaryExpression m l (by omega) (by omega)).seq fun x1 h1 => ?_
        exact (ih_parseMultiplicativeExpressionR (m - 1) _ x1.2 (by omega) (by omega)).mono fun l'
            h' => by omega
      · refine (ih_parseUnaryExpression m l (by omega) (by omega)).seq fun x1 h1 => ?_
        exact (ih_parseMultiplicativeExpressionR (m - 1) _ x1.2 (by omega) (by omega)).mono fun l'
            h' => by omega
      · refine (ih_parseUnaryExpression m l (by omega) (by omega)).seq fun x1 h1 => ?_
        exact (ih_parseMultiplicativeExpressionR (m - 1) _ x1.2 (by omega) (by omega)).mono fun l'
            h' => by omega
      · exact Done.parserError _ _ _ _ _
    · intro m lhsExprNode l hm hn
      refine Done.succ (fun j => by rw [parseMultiplicativeExpressionR]) ?_
      split
      · refine (Done.const _ (settles_parseMultiplicativeOperator l)).seq fun x1 h1 => ?_
        refine (ih_parseUnaryExpression (m - 1) x1.2 (by omega) (by omega)).seq fun x2 h2 => ?_
        exact (ih_parseMultiplicativeExpressionR (m - 1) _ x2.2 (by omega) (by omega)).mono fun l'
            h' => by omega
      · refine (Done.const _ (settles_parseMultiplicativeOperator l)).seq fun x1 h1 => ?_
        refine (ih_parseUnaryExpression (m - 1) x1.2 (by omega) (by omega)).seq fun x2 h2 => ?_
        exact (ih_parseMultiplicativeExpressionR (m - 1) _ x2.2 (by omega) (by omega)).mono fun l'
            h' => by omega
      · refine (Done.const _ (settles_parseMultiplicativeOperator l)).seq fun x1 h1 => ?_
        refine (ih_parseUnaryExpression (m - 1) x1.2 (by omega) (by omega)).seq fun x2 h2 => ?_
        exact (ih_parseMultiplicativeExpressionR (m - 1) _ x2.2 (by omega) (by omega)).mono fun l'
            h' => by omega
      · refine (Done.const _ (settles_parseMultiplicativeOperator l)).seq fun x1 h1 => ?_
        refine (ih_parseUnaryExpression (m - 1) x1.2 (by omega) (by omega)).seq fun x2 h2 => ?_
        exact (ih_parseMultiplicativeExpressionR (m - 1) _ x2.2 (by omega) (by omega)).mono fun l'
            h' => by omega
      · exact Done.ok _ _ (by omega)
      · exact Done.ok _ _ (by omega)
      · exact Done.ok _ _ (by omega)
      · exact Done.ok _ _ (by omega)
      · exact Done.ok _ _ (by omega)
      · exact Done.ok _ _ (by omega)
      · exact Done.ok _ _ (by omega)
      · exact Done.ok _ _ (by omega)
      · exact Done.ok _ _ (by omega)
      · exact Done.ok _ _ (by omega)
      · exact Done.ok _ _ (by omega)
      · exact Done.ok _ _ (by omega)
      · exact Done.ok _ _ (by omega)
      · exact Done.ok _ _ (by omega)
      · exact Done.ok _ _ (by omega)
      · exact Done.ok _ _ (by omega)
      · exact Done.ok _ _ (by omega)
      · exact Done.ok _ _ (by omega)
      · exact Done.ok _ _ (by omega)
      · exact Done.ok _ _ (by omega)
      · exact Done.parserError _ _ _ _ _
    · intro m l hm hn
      refine Done.succ (fun j => by rw [parseUnaryExpression]) ?_
      split
      · refine (Done.const _ (settles_parseUnaryOperator l)).seq fun x1 h1 => ?_
        refine (ih_parseUnaryExpression (m - 1) x1.2 (by omega) (by omega)).seq fun x2 h2 => ?_
        exact Done.ok _ _ (by omega)
      · refine (Done.const _ (settles_parseUnaryOperator l)).seq fun x1 h1 => ?_
        refine (ih_parseUnaryExpression (m - 1) x1.2 (by omega) (by omega)).seq fun x2 h2 => ?_
        exact Done.ok _ _ (by omega)
      · exact (ih_parsePrimaryExpression m l (by omega) (by omega)).mono fun l' h' => by omega
      · exact (ih_parsePrimaryExpression m l (by omega) (by omega)).mono fun l' h' => by omega
      · exact (ih_parsePrimaryExpression m l (by omega) (by omega)).mono fun l' h' => by omega
      · exact (ih_parsePrimaryExpression m l (by omega) (by omega)).mono fun l' h' => by omega
      · exact Done.parserError _ _ _ _ _
    · intro m l hm hn
      refine Done.succ (fun j => by rw [parsePrimaryExpression]) ?_
      split
      · refine (Done.matchType l _ _ (by decide)).seq fun x1 h1 => ?_
        exact (ih_parsePrimaryExpressionIdentifierContinuation (m - 1) _ x1.2 (by omega) (by
            omega)).mono fun l' h' => by omega
      · refine (Done.matchType l _ _ (by decide)).seq fun x1 h1 => ?_
        refine (ih_parseExpression (m - 1) x1.2 (by omega) (by omega)).seq fun x2 h2 => ?_
        refine (Done.matchType x2.2 _ _ (by decide)).seq fun x3 h3 => ?_
        exact Done.ok _ _ (by omega)
      · refine (Done.const _ (settles_parseUnsignedNumber l)).seq fun x1 h1 => ?_
        exact Done.ok _ _ (by omega)
      · refine (Done.const _ (settles_parseUnsignedNumber l)).seq fun x1 h1 => ?_
        exact Done.ok _ _ (by omega)
      · exact Done.parserError _ _ _ _ _
    · intro m identifier l hm hn
      refine Done.succ (fun j => by rw [parsePrimaryExpressionIdentifierContinuation]) ?_
      split
      · refine (ih_parseFunctionArgs m l (by omega) (by omega)).seq fun x1 h1 => ?_
        exact Done.ok _ _ (by omega)
      · exact (ih_parseArrayAccess m _ l (by omega) (by omega)).mono fun l' h' => by omega
      · exact Done.ok _ _ (by omega)
      · exact Done.ok _ _ (by omega)
      · exact Done.ok _ _ (by omega)
      · exact Done.ok _ _ (by omega)
      · exact Done.ok _ _ (by omega)
      · exact Done.ok _ _ (by omega)
      · exact Done.ok _ _ (by omega)
      · exact Done.ok _ _ (by omega)
      · exact Done.ok _ _ (by omega)
      · exact Done.ok _ _ (by omega)
      · exact Done.ok _ _ (by omega)
      · exact Done.ok _ _ (by omega)
      · exact Done.ok _ _ (by omega)
      · exact Done.ok _ _ (by omega)
      · exact Done.ok _ _ (by omega)
      · exact Done.ok _ _ (by omega)
      · exact Done.ok _ _ (by omega)
      · exact Done.ok _ _ (by omega)
      · exact Done.ok _ _ (by omega)
      · exact Done.ok _ _ (by omega)
      · exact Done.ok _ _ (by omega)
      · exact Done.ok _ _ (by omega)
      · exact Done.ok _ _ (by omega)
      · exact Done.ok _ _ (by omega)
      · exact Done.parserError _ _ _ _ _
    · intro m identifier l hm hn
      refine Done.succ (fun j => by rw [parseArrayAccess]) ?_
      split
      · refine (Done.matchType l _ _ (by decide)).seq fun x1 h1 => ?_
        refine (ih_parseExpression (m - 1) x1.2 (by omega) (by omega)).seq fun x2 h2 => ?_
        refine (Done.matchType x2.2 _ _ (by decide)).seq fun x3 h3 => ?_
        exact Done.ok _ _ (by omega)
      · exact Done.parserError _ _ _ _ _
    · intro m l hm hn
      refine Done.succ (fun j => by rw [parseFunctionArgs]) ?_
      split
      · refine (Done.matchType l _ _ (by decide)).seq fun x1 h1 => ?_
        refine (ih_parseArgumentList (m - 1) x1.2 (by omega) (by omega)).seq fun x2 h2 => ?_
        refine (Done.matchType x2.2 _ _ (by decide)).seq fun x3 h3 => ?_
        exact Done.ok _ _ (by omega)
      · exact Done.parserError _ _ _ _ _
    · intro m l hm hn
      refine Done.succ (fun j => by rw [parseArgumentList]) ?_
      split
      · refine (ih_parseExpression m l (by omega) (by omega)).seq fun x1 h1 => ?_
        exact (ih_parseArgumentListR (m - 1) _ x1.2 (by omega) (by omega)).mono fun l' h' => by
            omega
      · refine (ih_parseExpression m l (by omega) (by omega)).seq fun x1 h1 => ?_
        exact (ih_parseArgumentListR (m - 1) _ x1.2 (by omega) (by omega)).mono fun l' h' => by
            omega
      · refine (ih_parseExpression m l (by omega) (by omega)).seq fun x1 h1 => ?_
        exact (ih_parseArgumentListR (m - 1) _ x1.2 (by omega) (by omega)).mono fun l' h' => by
            omega
      · refine (ih_parseExpression m l (by omega) (by omega)).seq fun x1 h1 => ?_
        exact (ih_parseArgumentListR (m - 1) _ x1.2 (by omega) (by omega)).mono fun l' h' => by
            omega
      · refine (ih_parseExpression m l (by omega) (by omega)).seq fun x1 h1 => ?_
        exact (ih_parseArgumentListR (m - 1) _ x1.2 (by omega) (by omega)).mono fun l' h' => by
            omega
      · refine (ih_parseExpression m l (by omega) (by omega)).seq fun x1 h1 => ?_
        exact (ih_parseArgumentListR (m - 1) _ x1.2 (by omega) (by omega)).mono fun l' h' => by
            omega
      · exact Done.ok _ _ (by omega)
      · exact Done.parserError _ _ _ _ _
    · intro m argNodes l hm hn
      refine Done.succ (fun j => by rw [parseArgumentListR]) ?_
      split
      · refine (Done.matchType l _ _ (by decide)).seq fun x1 h1 => ?_
        refine (ih_parseExpression (m - 1) x1.2 (by omega) (by omega)).seq fun x2 h2 => ?_
        exact (ih_parseArgumentListR (m - 1) _ x2.2 (by omega) (by omega)).mono fun l' h' => by
            omega
      · exact Done.ok _ _ (by omega)
      · exact Done.parserError _ _ _ _ _

theorem done_parseExpression (n m : Nat) (l : Lexer) (hm : l.measure ≤ m)
    (hn : 100 * m + 9 ≤ n) :
    Done n (fun l' => l'.measure < m) (fun j => parseExpression j l) :=
  (done_expressions n).1 m l hm hn

theorem done_parseLogicalOrExpression (n m : Nat) (l : Lexer) (hm : l.measure ≤ m)
    (hn : 100 * m + 8 ≤ n) :
    Done n (fun l' => l'.measure < m) (fun j => parseLogicalOrExpression j l) :=
  (done_expressions n).2.1 m l hm hn

theorem done_parseLogicalOrExpressionR (n m : Nat) (lhsExprNode : Expr) (l : Lexer) (hm : l.measure
    ≤ m)
    (hn : 100 * m + 1 ≤ n) :
    Done n (fun l' => l'.measure ≤ m) (fun j => parseLogicalOrExpressionR j lhsExprNode l) :=
  (done_expressions n).2.2.1 m lhsExprNode l hm hn

theorem done_parseLogicalAndExpression (n m : Nat) (l : Lexer) (hm : l.measure ≤ m)
    (hn : 100 * m + 7 ≤ n) :
    Done n (fun l' => l'.measure < m) (fun j => parseLogicalAndExpression j l) :=
  (done_expressions n).2.2.2.1 m l hm hn

theorem done_parseLogicalAndExpressionR (n m : Nat) (lhsExprNode : Expr) (l : Lexer) (hm :
    l.measure ≤ m)
    (hn : 100 * m + 1 ≤ n) :
    Done n (fun l' => l'.measure ≤ m) (fun j => parseLogicalAndExpressionR j lhsExprNode l) :=
  (done_expressions n).2.2.2.2.1 m lhsExprNode l hm hn

theorem done_parseEqualityExpression (n m : Nat) (l : Lexer) (hm : l.measure ≤ m)
    (hn : 100 * m + 6 ≤ n) :
    Done n (fun l' => l'.measure < m) (fun j => parseEqualityExpression j l) :=
  (done_expressions n).2.2.2.2.2.1 m l hm hn

theorem done_parseEqualityExpressionR (n m : Nat) (lhsExprNode : Expr) (l : Lexer) (hm : l.measure
    ≤ m)
    (hn : 100 * m + 1 ≤ n) :
    Done n (fun l' => l'.measure ≤ m) (fun j => parseEqualityExpressionR j lhsExprNode l) :=
  (done_expressions n).2.2.2.2.2.2.1 m lhsExprNode l hm hn

theorem done_parseRelationalExpression (n m : Nat) (l : Lexer) (hm : l.measure ≤ m)
    (hn : 100 * m + 5 ≤ n) :
    Done n (fun l' => l'.measure < m) (fun j => parseRelationalExpression j l) :=
  (done_expressions n).2.2.2.2.2.2.2.1 m l hm hn

theorem done_parseRelationalExpressionR (n m : Nat) (lhsExprNode : Expr) (l : Lexer) (hm :
    l.measure ≤ m)
    (hn : 100 * m + 1 ≤ n) :
    Done n (fun l' => l'.measure ≤ m) (fun j => parseRelationalExpressionR j lhsExprNode l) :=
  (done_expressions n).2.2.2.2.2.2.2.2.1 m lhsExprNode l hm hn

theorem done_parseAdditiveExpression (n m : Nat) (l : Lexer) (hm : l.measure ≤ m)
    (hn : 100 * m + 4 ≤ n) :
    Done n (fun l' => l'.measure < m) (fun j => parseAdditiveExpression j l) :=
  (done_expressions n).2.2.2.2.2.2.2.2.2.1 m l hm hn

theorem done_parseAdditiveExpressionR (n m : Nat) (lhsExprNode : Expr) (l : Lexer) (hm : l.measure
    ≤ m)
    (hn : 100 * m + 1 ≤ n) :
    Done n (fun l' => l'.measure ≤ m) (fun j => parseAdditiveExpressionR j lhsExprNode l) :=
  (done_expressions n).2.2.2.2.2.2.2.2.2.2.1 m lhsExprNode l hm hn

theorem done_parseMultiplicativeExpression (n m : Nat) (l : Lexer) (hm : l.measure ≤ m)
    (hn : 100 * m + 3 ≤ n) :
    Done n (fun l' => l'.measure < m) (fun j => parseMultiplicativeExpression j l) :=
  (done_expressions n).2.2.2.2.2.2.2.2.2.2.2.1 m l hm hn

theorem done_parseMultiplicativeExpressionR (n m : Nat) (lhsExprNode : Expr) (l : Lexer) (hm :
    l.measure ≤ m)
    (hn : 100 * m + 1 ≤ n) :
    Done n (fun l' => l'.measure ≤ m) (fun j => parseMultiplicativeExpressionR j lhsExprNode l) :=
  (done_expressions n).2.2.2.2.2.2.2.2.2.2.2.2.1 m lhsExprNode l hm hn

theorem done_parseUnaryExpression (n m : Nat) (l : Lexer) (hm : l.measure ≤ m)
    (hn : 100 * m + 2 ≤ n) :
    Done n (fun l' => l'.measure < m) (fun j => parseUnaryExpression j l) :=
  (done_expressions n).2.2.2.2.2.2.2.2.2.2.2.2.2.1 m l hm hn

theorem done_parsePrimaryExpression (n m : Nat) (l : Lexer) (hm : l.measure ≤ m)
    (hn : 100 * m + 1 ≤ n) :
    Done n (fun l' => l'.measure < m) (fun j => parsePrimaryExpression j l) :=
  (done_expressions n).2.2.2.2.2.2.2.2.2.2.2.2.2.2.1 m l hm hn

theorem done_parsePrimaryExpressionIdentifierContinuation (n m : Nat) (identifier : String) (l :
    Lexer) (hm : l.measure ≤ m)
    (hn : 100 * m + 2 ≤ n) :
    Done n (fun l' => l'.measure ≤ m) (fun j => parsePrimaryExpressionIdentifierContinuation j
        identifier l) :=
  (done_expressions n).2.2.2.2.2.2.2.2.2.2.2.2.2.2.2.1 m identifier l hm hn

theorem done_parseArrayAccess (n m : Nat) (identifier : String) (l : Lexer) (hm : l.measure ≤ m)
    (hn : 100 * m + 1 ≤ n) :
    Done n (fun l' => l'.measure < m) (fun j => parseArrayAccess j identifier l) :=
  (done_expressions n).2.2.2.2.2.2.2.2.2.2.2.2.2.2.2.2.1 m identifier l hm hn

theorem done_parseFunctionArgs (n m : Nat) (l : Lexer) (hm : l.measure ≤ m)
    (hn : 100 * m + 1 ≤ n) :
    Done n (fun l' => l'.measure < m) (fun j => parseFunctionArgs j l) :=
  (done_expressions n).2.2.2.2.2.2.2.2.2.2.2.2.2.2.2.2.2.1 m l hm hn

theorem done_parseArgumentList (n m : Nat) (l : Lexer) (hm : l.measure ≤ m)
    (hn : 100 * m + 10 ≤ n) :
    Done n (fun l' => l'.measure ≤ m) (fun j => parseArgumentList j l) :=
  (done_expressions n).2.2.2.2.2.2.2.2.2.2.2.2.2.2.2.2.2.2.1 m l hm hn

theorem done_parseArgumentListR (n m : Nat) (argNodes : List Expr) (l : Lexer) (hm : l.measure ≤ m)
    (hn : 100 * m + 1 ≤ n) :
    Done n (fun l' => l'.measure ≤ m) (fun j => parseArgumentListR j argNodes l) :=
  (done_expressions n).2.2.2.2.2.2.2.2.2.2.2.2.2.2.2.2.2.2.2 m argNodes l hm hn

theorem done_parseOptionalArrayAccess : ∀ (n m : Nat) (identifier : String) (l : Lexer), l.measure
    ≤ m →
    100 * m + 1 ≤ n →
    Done n (fun l' => l'.measure ≤ m) (fun j => parseOptionalArrayAccess j identifier l) := by
  intro n m identifier l hm hn
  unfold parseOptionalArrayAccess
  split
  · refine (done_parseArrayAccess n m _ l (by omega) (by omega)).seq fun x1 h1 => ?_
    exact Done.ok _ _ (by omega)
  · exact Done.ok _ _ (by omega)
  · exact Done.parserError _ _ _ _ _

theorem done_parseSimpleStatementIdentifierContinuation : ∀ (n m : Nat) (identifier : String) (l :
    Lexer), l.measure ≤ m →
    100 * m + 1 ≤ n →
    Done n (fun l' => l'.measure < m) (fun j => parseSimpleStatementIdentifierContinuation j
        identifier l) := by
  intro n m identifier l hm hn
  unfold parseSimpleStatementIdentifierContinuation
  split
  · refine (done_parseFunctionArgs n m l (by omega) (by omega)).seq fun x1 h1 => ?_
    exact Done.ok _ _ (by omega)
  · refine (done_parseOptionalArrayAccess n m _ l (by omega) (by omega)).seq fun x1 h1 => ?_
    refine (Done.matchType x1.2 _ _ (by decide)).seq fun x2 h2 => ?_
    refine (done_parseExpression n (m - 1) x2.2 (by omega) (by omega)).seq fun x3 h3 => ?_
    rcases x1 with ⟨_ | node, l1⟩ <;> exact Done.ok _ _ (by omega)
  · refine (done_parseOptionalArrayAccess n m _ l (by omega) (by omega)).seq fun x1 h1 => ?_
    refine (Done.matchType x1.2 _ _ (by decide)).seq fun x2 h2 => ?_
    refine (done_parseExpression n (m - 1) x2.2 (by omega) (by omega)).seq fun x3 h3 => ?_
    rcases x1 with ⟨_ | node, l1⟩ <;> exact Done.ok _ _ (by omega)
  · exact Done.parserError _ _ _ _ _

theorem done_parseSimpleStatement : ∀ (n m : Nat) (l : Lexer), l.measure ≤ m →
    100 * m + 1 ≤ n →
    Done n (fun l' => l'.measure ≤ m) (fun j => parseSimpleStatement j l) := by
  intro n m l hm hn
  unfold parseSimpleStatement
  split
  · exact (Done.const _ (settles_parseEmptyStatement l)).mono fun l' h' => by omega
  · exact (Done.const _ (settles_parseEmptyStatement l)).mono fun l' h' => by omega
  · exact (Done.const _ (settles_parseEmptyStatement l)).mono fun l' h' => by omega
  · refine (Done.matchType l _ _ (by decide)).seq fun x1 h1 => ?_
    exact Done.ok _ _ (by omega)
  · refine (Done.matchType l _ _ (by decide)).seq fun x1 h1 => ?_
    exact Done.ok _ _ (by omega)
  · refine (Done.matchType l _ _ (by decide)).seq fun x1 h1 => ?_
    exact (done_parseSimpleStatementIdentifierContinuation n (m - 1) _ x1.2 (by omega) (by
        omega)).mono fun l' h' => by omega
  · exact Done.parserError _ _ _ _ _

theorem done_statements : ∀ n : Nat,
    (∀ (m : Nat) (l : Lexer), l.measure ≤ m → 100 * m + 3 ≤ n →
      Done n (fun l' => l'.measure ≤ m) (fun j => parseStatement j l)) ∧
    (∀ (m : Nat) (l : Lexer), l.measure ≤ m → 100 * m + 2 ≤ n →
      Done n (fun l' => l'.measure < m) (fun j => parseComplexStatement j l)) ∧
    (∀ (m : Nat) (l : Lexer), l.measure ≤ m → 100 * m + 1 ≤ n →
      Done n (fun l' => l'.measure < m) (fun j => parseCompoundStatement j l)) ∧
    (∀ (m : Nat) (statementNodes : List Stmt) (l : Lexer), l.measure ≤ m → 100 * m + 1 ≤ n →
      Done n (fun l' => l'.measure ≤ m) (fun j => parseCompoundStatementR j statementNodes l)) ∧
    (∀ (m : Nat) (l : Lexer), l.measure ≤ m → 100 * m + 1 ≤ n →
      Done n (fun l' => l'.measure < m) (fun j => parseIfStatement j l)) ∧
    (∀ (m : Nat) (l : Lexer), l.measure ≤ m → 100 * m + 1 ≤ n →
      Done n (fun l' => l'.measure ≤ m) (fun j => parseElseStatement j l)) ∧
    (∀ (m : Nat) (l : Lexer), l.measure ≤ m → 100 * m + 1 ≤ n →
      Done n (fun l' => l'.measure < m) (fun j => parseWhileStatement j l)) ∧
    (∀ (m : Nat) (l : Lexer), l.measure ≤ m → 100 * m + 1 ≤ n →
      Done n (fun l' => l'.measure < m) (fun j => parseForStatement j l)) := by
  intro n
  induction n with
  | zero =>
    refine ⟨?_, ?_, ?_, ?_, ?_, ?_, ?_, ?_⟩ <;> intros <;> omega
  | succ n ih =>
    obtain ⟨ih_parseStatement, ih_parseComplexStatement, ih_parseCompoundStatement,
        ih_parseCompoundStatementR, ih_parseIfStatement, ih_parseElseStatement,
        ih_parseWhileStatement, ih_parseForStatement⟩ := ih
    refine ⟨?_, ?_, ?_, ?_, ?_, ?_, ?_, ?_⟩
    · intro m l hm hn
      refine Done.succ (fun j => by rw [parseStatement]) ?_
      split
      · exact (done_parseSimpleStatement n m l (by omega) (by omega)).mono fun l' h' => by omega
      · exact (done_parseSimpleStatement n m l (by omega) (by omega)).mono fun l' h' => by omega
      · exact (done_parseSimpleStatement n m l (by omega) (by omega)).mono fun l' h' => by omega
      · exact (done_parseSimpleStatement n m l (by omega) (by omega)).mono fun l' h' => by omega
      · exact (done_parseSimpleStatement n m l (by omega) (by omega)).mono fun l' h' => by omega
      · exact (done_parseSimpleStatement n m l (by omega) (by omega)).mono fun l' h' => by omega
      · exact (ih_parseComplexStatement m l (by omega) (by omega)).mono fun l' h' => by omega
      · exact (ih_parseComplexStatement m l (by omega) (by omega)).mono fun l' h' => by omega
      · exact (ih_parseComplexStatement m l (by omega) (by omega)).mono fun l' h' => by omega
      · exact (ih_parseComplexStatement m l (by omega) (by omega)).mono fun l' h' => by omega
      · exact Done.parserError _ _ _ _ _
    · intro m l hm hn
      refine Done.succ (fun j => by rw [parseComplexStatement]) ?_
      split
      · exact (ih_parseCompoundStatement m l (by omega) (by omega)).mono fun l' h' => by omega
      · exact (ih_parseIfStatement m l (by omega) (by omega)).mono fun l' h' => by omega
      · exact (ih_parseWhileStatement m l (by omega) (by omega)).mono fun l' h' => by omega
      · exact (ih_parseForStatement m l (by omega) (by omega)).mono fun l' h' => by omega
      · exact Done.parserError _ _ _ _ _
    · intro m l hm hn
      refine Done.succ (fun j => by rw [parseCompoundStatement]) ?_
      split
      · refine (Done.matchType l _ _ (by decide)).seq fun x1 h1 => ?_
        refine (ih_parseStatement (m - 1) x1.2 (by omega) (by omega)).seq fun x2 h2 => ?_
        refine (ih_parseCompoundStatementR (m - 1) _ x2.2 (by omega) (by omega)).seq fun x3 h3 => ?_
        refine (Done.matchType x3.2 _ _ (by decide)).seq fun x4 h4 => ?_
        exact Done.ok _ _ (by omega)
      · exact Done.parserError _ _ _ _ _
    · intro m statementNodes l hm hn
      refine Done.succ (fun j => by rw [parseCompoundStatementR]) ?_
      split
      · refine (Done.matchType l _ _ (by decide)).seq fun x1 h1 => ?_
        refine (ih_parseStatement (m - 1) x1.2 (by omega) (by omega)).seq fun x2 h2 => ?_
        exact (ih_parseCompoundStatementR (m - 1) _ x2.2 (by omega) (by omega)).mono fun l' h' =>
            by omega
      · exact Done.ok _ _ (by omega)
      · exact Done.parserError _ _ _ _ _
    · intro m l hm hn
      refine Done.succ (fun j => by rw [parseIfStatement]) ?_
      split
      · refine (Done.matchType l _ _ (by decide)).seq fun x1 h1 => ?_
        refine (done_parseExpression n (m - 1) x1.2 (by omega) (by omega)).seq fun x2 h2 => ?_
        refine (Done.matchType x2.2 _ _ (by decide)).seq fun x3 h3 => ?_
        refine (ih_parseStatement (m - 1) x3.2 (by omega) (by omega)).seq fun x4 h4 => ?_
        refine (ih_parseElseStatement (m - 1) x4.2 (by omega) (by omega)).seq fun x5 h5 => ?_
        exact Done.ok _ _ (by omega)
      · exact Done.parserError _ _ _ _ _
    · intro m l hm hn
      refine Done.succ (fun j => by rw [parseElseStatement]) ?_
      split
      · refine (Done.matchType l _ _ (by decide)).seq fun x1 h1 => ?_
        refine (ih_parseStatement (m - 1) x1.2 (by omega) (by omega)).seq fun x2 h2 => ?_
        exact Done.ok _ _ (by omega)
      · exact Done.ok _ _ (by omega)
      · exact Done.ok _ _ (by omega)
      · exact Done.parserError _ _ _ _ _
    · intro m l hm hn
      refine Done.succ (fun j => by rw [parseWhileStatement]) ?_
      split
      · refine (Done.matchType l _ _ (by decide)).seq fun x1 h1 => ?_
        refine (done_parseExpression n (m - 1) x1.2 (by omega) (by omega)).seq fun x2 h2 => ?_
        refine (Done.matchType x2.2 _ _ (by decide)).seq fun x3 h3 => ?_
        refine (ih_parseStatement (m - 1) x3.2 (by omega) (by omega)).seq fun x4 h4 => ?_
        exact Done.ok _ _ (by omega)
      · exact Done.parserError _ _ _ _ _
    · intro m l hm hn
      refine Done.succ (fun j => by rw [parseForStatement]) ?_
      split
      · refine (Done.matchType l _ _ (by decide)).seq fun x1 h1 => ?_
        refine (Done.matchType x1.2 _ _ (by decide)).seq fun x2 h2 => ?_
        refine (Done.matchType x2.2 _ _ (by decide)).seq fun x3 h3 => ?_
        refine (done_parseExpression n (m - 1) x3.2 (by omega) (by omega)).seq fun x4 h4 => ?_
        refine (Done.const _ (settles_parseTo x4.2)).seq fun x5 h5 => ?_
        refine (done_parseExpression n (m - 1) x5.2 (by omega) (by omega)).seq fun x6 h6 => ?_
        refine (Done.matchType x6.2 _ _ (by decide)).seq fun x7 h7 => ?_
        refine (ih_parseStatement (m - 1) x7.2 (by omega) (by omega)).seq fun x8 h8 => ?_
        exact Done.ok _ _ (by omega)
      · exact Done.parserError _ _ _ _ _

theorem done_parseStatement (n m : Nat) (l : Lexer) (hm : l.measure ≤ m)
    (hn : 100 * m + 3 ≤ n) :
    Done n (fun l' => l'.measure ≤ m) (fun j => parseStatement j l) :=
  (done_statements n).1 m l hm hn

theorem done_parseComplexStatement (n m : Nat) (l : Lexer) (hm : l.measure ≤ m)
    (hn : 100 * m + 2 ≤ n) :
    Done n (fun l' => l'.measure < m) (fun j => parseComplexStatement j l) :=
  (done_statements n).2.1 m l hm hn

theorem done_parseCompoundStatement (n m : Nat) (l : Lexer) (hm : l.measure ≤ m)
    (hn : 100 * m + 1 ≤ n) :
    Done n (fun l' => l'.measure < m) (fun j => parseCompoundStatement j l) :=
  (done_statements n).2.2.1 m l hm hn

theorem done_parseCompoundStatementR (n m : Nat) (statementNodes : List Stmt) (l : Lexer) (hm :
    l.measure ≤ m)
    (hn : 100 * m + 1 ≤ n) :
    Done n (fun l' => l'.measure ≤ m) (fun j => parseCompoundStatementR j statementNodes l) :=
  (done_statements n).2.2.2.1 m statementNodes l hm hn

theorem done_parseIfStatement (n m : Nat) (l : Lexer) (hm : l.measure ≤ m)
    (hn : 100 * m + 1 ≤ n) :
    Done n (fun l' => l'.measure < m) (fun j => parseIfStatement j l) :=
  (done_statements n).2.2.2.2.1 m l hm hn

theorem done_parseElseStatement (n m : Nat) (l : Lexer) (hm : l.measure ≤ m)
    (hn : 100 * m + 1 ≤ n) :
    Done n (fun l' => l'.measure ≤ m) (fun j => parseElseStatement j l) :=
  (done_statements n).2.2.2.2.2.1 m l hm hn

theorem done_parseWhileStatement (n m : Nat) (l : Lexer) (hm : l.measure ≤ m)
    (hn : 100 * m + 1 ≤ n) :
    Done n (fun l' => l'.measure < m) (fun j => parseWhileStatement j l) :=
  (done_statements n).2.2.2.2.2.2.1 m l hm hn

theorem done_parseForStatement (n m : Nat) (l : Lexer) (hm : l.measure ≤ m)
    (hn : 100 * m + 1 ≤ n) :
    Done n (fun l' => l'.measure < m) (fun j => parseForStatement j l) :=
  (done_statements n).2.2.2.2.2.2.2 m l hm hn

theorem done_parseConstantDefinition : ∀ (n m : Nat) (statementNodes : List Stmt) (l : Lexer),
    l.measure ≤ m →
    100 * m + 1 ≤ n →
    Done n (fun l' => l'.measure < m) (fun j => parseConstantDefinition j statementNodes l) := by
  intro n m statementNodes l hm hn
  unfold parseConstantDefinition
  split
  · refine (Done.matchType l _ _ (by decide)).seq fun x1 h1 => ?_
    refine (Done.matchType x1.2 _ _ (by decide)).seq fun x2 h2 => ?_
    refine (done_parseExpression n (m - 1) x2.2 (by omega) (by omega)).seq fun x3 h3 => ?_
    refine (Done.matchType x3.2 _ _ (by decide)).seq fun x4 h4 => ?_
    exact Done.ok _ _ (by omega)
  · exact Done.parserError _ _ _ _ _

theorem done_parseConstantDefinitionListR : ∀ (n m : Nat) (statementNodes : List Stmt) (l : Lexer),
    l.measure ≤ m →
    100 * m + 2 ≤ n →
    Done n (fun l' => l'.measure ≤ m) (fun j => parseConstantDefinitionListR j statementNodes l) :=
        by
  intro n
  induction n with
  | zero =>
    intro m statementNodes l hm hn
    omega
  | succ n ih_parseConstantDefinitionListR =>
    intro m statementNodes l hm hn
    refine Done.succ (fun j => by rw [parseConstantDefinitionListR]) ?_
    split
    · refine (done_parseConstantDefinition n m _ l (by omega) (by omega)).seq fun x1 h1 => ?_
      exact (ih_parseConstantDefinitionListR (m - 1) _ x1.2 (by omega) (by omega)).mono fun l' h'
          => by omega
    · exact Done.ok _ _ (by omega)
    · exact Done.ok _ _ (by omega)
    · exact Done.ok _ _ (by omega)
    · exact Done.ok _ _ (by omega)
    · exact Done.ok _ _ (by omega)
    · exact Done.parserError _ _ _ _ _

theorem done_parseConstantDefinitionList : ∀ (n m : Nat) (statementNodes : List Stmt) (l : Lexer),
    l.measure ≤ m →
    100 * m + 1 ≤ n →
    Done n (fun l' => l'.measure < m) (fun j => parseConstantDefinitionList j statementNodes l) :=
        by
  intro n m statementNodes l hm hn
  unfold parseConstantDefinitionList
  split
  · refine (Done.matchType l _ _ (by decide)).seq fun x1 h1 => ?_
    refine (done_parseConstantDefinition n (m - 1) _ x1.2 (by omega) (by omega)).seq fun x2 h2 => ?_
    exact (done_parseConstantDefinitionListR n (m - 1) _ x2.2 (by omega) (by omega)).mono fun l' h'
        => by omega
  · exact Done.parserError _ _ _ _ _

theorem done_parseIdentifierListR : ∀ (n m : Nat) (identifiers : List String) (l : Lexer),
    l.measure ≤ m →
    100 * m + 1 ≤ n →
    Done n (fun l' => l'.measure ≤ m) (fun j => parseIdentifierListR j identifiers l) := by
  intro n
  induction n with
  | zero =>
    intro m identifiers l hm hn
    omega
  | succ n ih_parseIdentifierListR =>
    intro m identifiers l hm hn
    refine Done.succ (fun j => by rw [parseIdentifierListR]) ?_
    split
    · refine (Done.matchType l _ _ (by decide)).seq fun x1 h1 => ?_
      refine (Done.matchType x1.2 _ _ (by decide)).seq fun x2 h2 => ?_
      exact (ih_parseIdentifierListR (m - 1) _ x2.2 (by omega) (by omega)).mono fun l' h' => by
          omega
    · exact Done.ok _ _ (by omega)
    · exact Done.parserError _ _ _ _ _

theorem done_parseIdentifierList : ∀ (n m : Nat) (l : Lexer), l.measure ≤ m →
    100 * m + 1 ≤ n →
    Done n (fun l' => l'.measure < m) (fun j => parseIdentifierList j l) := by
  intro n m l hm hn
  unfold parseIdentifierList
  split
  · refine (Done.matchType l _ _ (by decide)).seq fun x1 h1 => ?_
    exact (done_parseIdentifierListR n (m - 1) _ x1.2 (by omega) (by omega)).mono fun l' h' => by
        omega
  · exact Done.parserError _ _ _ _ _

theorem done_parseVariableDeclarationGroup : ∀ (n m : Nat) (statementNodes : List Stmt) (l :
    Lexer), l.measure ≤ m →
    100 * m + 1 ≤ n →
    Done n (fun l' => l'.measure < m) (fun j => parseVariableDeclarationGroup j statementNodes l)
        := by
  intro n m statementNodes l hm hn
  unfold parseVariableDeclarationGroup
  split
  · refine (done_parseIdentifierList n m l (by omega) (by omega)).seq fun x1 h1 => ?_
    refine (Done.matchType x1.2 _ _ (by decide)).seq fun x2 h2 => ?_
    refine (Done.const _ (settles_parseType x2.2)).seq fun x3 h3 => ?_
    refine (Done.matchType x3.2 _ _ (by decide)).seq fun x4 h4 => ?_
    exact Done.ok _ _ (by omega)
  · exact Done.parserError _ _ _ _ _

theorem done_parseVariableDeclarationListR : ∀ (n m : Nat) (statementNodes : List Stmt) (l :
    Lexer), l.measure ≤ m →
    100 * m + 2 ≤ n →
    Done n (fun l' => l'.measure ≤ m) (fun j => parseVariableDeclarationListR j statementNodes l)
        := by
  intro n
  induction n with
  | zero =>
    intro m statementNodes l hm hn
    omega
  | succ n ih_parseVariableDeclarationListR =>
    intro m statementNodes l hm hn
    refine Done.succ (fun j => by rw [parseVariableDeclarationListR]) ?_
    split
    · refine (done_parseVariableDeclarationGroup n m _ l (by omega) (by omega)).seq fun x1 h1 => ?_
      exact (ih_parseVariableDeclarationListR (m - 1) _ x1.2 (by omega) (by omega)).mono fun l' h'
          => by omega
    · exact Done.ok _ _ (by omega)
    · exact Done.ok _ _ (by omega)
    · exact Done.ok _ _ (by omega)
    · exact Done.ok _ _ (by omega)
    · exact Done.ok _ _ (by omega)
    · exact Done.parserError _ _ _ _ _

theorem done_parseVariableDeclarationList : ∀ (n m : Nat) (statementNodes : List Stmt) (l : Lexer),
    l.measure ≤ m →
    100 * m + 1 ≤ n →
    Done n (fun l' => l'.measure < m) (fun j => parseVariableDeclarationList j statementNodes l) :=
        by
  intro n m statementNodes l hm hn
  unfold parseVariableDeclarationList
  split
  · refine (Done.matchType l _ _ (by decide)).seq fun x1 h1 => ?_
    refine (done_parseVariableDeclarationGroup n (m - 1) _ x1.2 (by omega) (by omega)).seq fun x2
        h2 => ?_
    exact (done_parseVariableDeclarationListR n (m - 1) _ x2.2 (by omega) (by omega)).mono fun l'
        h' => by omega
  · exact Done.parserError _ _ _ _ _

theorem done_parseParameterGroup : ∀ (n m : Nat) (parameterNodes : List VarDecl) (l : Lexer),
    l.measure ≤ m →
    100 * m + 1 ≤ n →
    Done n (fun l' => l'.measure < m) (fun j => parseParameterGroup j parameterNodes l) := by
  intro n m parameterNodes l hm hn
  unfold parseParameterGroup
  split
  · refine (done_parseIdentifierList n m l (by omega) (by omega)).seq fun x1 h1 => ?_
    refine (Done.matchType x1.2 _ _ (by decide)).seq fun x2 h2 => ?_
    refine (Done.const _ (settles_parsePrimitiveType x2.2)).seq fun x3 h3 => ?_
    exact Done.ok _ _ (by omega)
  · exact Done.parserError _ _ _ _ _

theorem done_parseFormalParameterListR : ∀ (n m : Nat) (parameterNodes : List VarDecl) (l : Lexer),
    l.measure ≤ m →
    100 * m + 1 ≤ n →
    Done n (fun l' => l'.measure ≤ m) (fun j => parseFormalParameterListR j parameterNodes l) := by
  intro n
  induction n with
  | zero =>
    intro m parameterNodes l hm hn
    omega
  | succ n ih_parseFormalParameterListR =>
    intro m parameterNodes l hm hn
    refine Done.succ (fun j => by rw [parseFormalParameterListR]) ?_
    split
    · refine (Done.matchType l _ _ (by decide)).seq fun x1 h1 => ?_
      refine (done_parseParameterGroup n (m - 1) _ x1.2 (by omega) (by omega)).seq fun x2 h2 => ?_
      exact (ih_parseFormalParameterListR (m - 1) _ x2.2 (by omega) (by omega)).mono fun l' h' =>
          by omega
    · exact Done.ok _ _ (by omega)
    · exact Done.parserError _ _ _ _ _

theorem done_parseFormalParameterList : ∀ (n m : Nat) (l : Lexer), l.measure ≤ m →
    100 * m + 1 ≤ n →
    Done n (fun l' => l'.measure ≤ m) (fun j => parseFormalParameterList j l) := by
  intro n m l hm hn
  unfold parseFormalParameterList
  split
  · refine (done_parseParameterGroup n m _ l (by omega) (by omega)).seq fun x1 h1 => ?_
    exact (done_parseFormalParameterListR n (m - 1) _ x1.2 (by omega) (by omega)).mono fun l' h' =>
        by omega
  · exact Done.ok _ _ (by omega)
  · exact Done.parserError _ _ _ _ _

theorem done_parseFunctionParameters : ∀ (n m : Nat) (l : Lexer), l.measure ≤ m →
    100 * m + 1 ≤ n →
    Done n (fun l' => l'.measure < m) (fun j => parseFunctionParameters j l) := by
  intro n m l hm hn
  unfold parseFunctionParameters
  split
  · refine (Done.matchType l _ _ (by decide)).seq fun x1 h1 => ?_
    refine (done_parseFormalParameterList n (m - 1) x1.2 (by omega) (by omega)).seq fun x2 h2 => ?_
    refine (Done.matchType x2.2 _ _ (by decide)).seq fun x3 h3 => ?_
    exact Done.ok _ _ (by omega)
  · exact Done.parserError _ _ _ _ _

theorem done_parseBodyDecl : ∀ (n m : Nat) (statementNodes : List Stmt) (l : Lexer), l.measure ≤ m →
    100 * m + 2 ≤ n →
    Done n (fun l' => l'.measure ≤ m) (fun j => parseBodyDecl j statementNodes l) := by
  intro n
  induction n with
  | zero =>
    intro m statementNodes l hm hn
    omega
  | succ n ih_parseBodyDecl =>
    intro m statementNodes l hm hn
    refine Done.succ (fun j => by rw [parseBodyDecl]) ?_
    split
    · refine (done_parseConstantDefinitionList n m _ l (by omega) (by omega)).seq fun x1 h1 => ?_
      exact (ih_parseBodyDecl (m - 1) _ x1.2 (by omega) (by omega)).mono fun l' h' => by omega
    · refine (done_parseVariableDeclarationList n m _ l (by omega) (by omega)).seq fun x1 h1 => ?_
      exact (ih_parseBodyDecl (m - 1) _ x1.2 (by omega) (by omega)).mono fun l' h' => by omega
    · exact Done.ok _ _ (by omega)
    · exact Done.parserError _ _ _ _ _

theorem done_parseBody : ∀ (n m : Nat) (l : Lexer), l.measure ≤ m →
    100 * m + 2 ≤ n →
    Done n (fun l' => l'.measure < m) (fun j => parseBody j l) := by
  intro n m l hm hn
  unfold parseBody
  split
  · refine (done_parseBodyDecl n m _ l (by omega) (by omega)).seq fun x1 h1 => ?_
    refine (done_parseCompoundStatement n m x1.2 (by omega) (by omega)).seq fun x2 h2 => ?_
    exact Done.ok _ _ (by omega)
  · refine (done_parseBodyDecl n m _ l (by omega) (by omega)).seq fun x1 h1 => ?_
    refine (done_parseCompoundStatement n m x1.2 (by omega) (by omega)).seq fun x2 h2 => ?_
    exact Done.ok _ _ (by omega)
  · refine (done_parseBodyDecl n m _ l (by omega) (by omega)).seq fun x1 h1 => ?_
    refine (done_parseCompoundStatement n m x1.2 (by omega) (by omega)).seq fun x2 h2 => ?_
    exact Done.ok _ _ (by omega)
  · exact Done.parserError _ _ _ _ _

theorem done_parseBodyOrForward : ∀ (n m : Nat) (l : Lexer), l.measure ≤ m →
    100 * m + 2 ≤ n →
    Done n (fun l' => l'.measure < m) (fun j => parseBodyOrForward j l) := by
  intro n m l hm hn
  unfold parseBodyOrForward
  split
  · refine (Done.matchType l _ _ (by decide)).seq fun x1 h1 => ?_
    exact Done.ok _ _ (by omega)
  · refine (done_parseBody n m l (by omega) (by omega)).seq fun x1 h1 => ?_
    exact Done.ok _ _ (by omega)
  · refine (done_parseBody n m l (by omega) (by omega)).seq fun x1 h1 => ?_
    exact Done.ok _ _ (by omega)
  · refine (done_parseBody n m l (by omega) (by omega)).seq fun x1 h1 => ?_
    exact Done.ok _ _ (by omega)
  · exact Done.parserError _ _ _ _ _

theorem done_parseProcedureDeclaration : ∀ (n m : Nat) (statementNodes : List Stmt) (l : Lexer),
    l.measure ≤ m →
    100 * m + 1 ≤ n →
    Done n (fun l' => l'.measure < m) (fun j => parseProcedureDeclaration j statementNodes l) := by
  intro n m statementNodes l hm hn
  unfold parseProcedureDeclaration
  split
  · refine (Done.matchType l _ _ (by decide)).seq fun x1 h1 => ?_
    refine (Done.matchType x1.2 _ _ (by decide)).seq fun x2 h2 => ?_
    refine (done_parseFunctionParameters n (m - 1) x2.2 (by omega) (by omega)).seq fun x3 h3 => ?_
    refine (Done.matchType x3.2 _ _ (by decide)).seq fun x4 h4 => ?_
    refine (done_parseBodyOrForward n (m - 1) x4.2 (by omega) (by omega)).seq fun x5 h5 => ?_
    refine (Done.matchType x5.2 _ _ (by decide)).seq fun x6 h6 => ?_
    exact Done.ok _ _ (by omega)
  · exact Done.parserError _ _ _ _ _

theorem done_parseFunctionDeclaration : ∀ (n m : Nat) (statementNodes : List Stmt) (l : Lexer),
    l.measure ≤ m →
    100 * m + 1 ≤ n →
    Done n (fun l' => l'.measure < m) (fun j => parseFunctionDeclaration j statementNodes l) := by
  intro n m statementNodes l hm hn
  unfold parseFunctionDeclaration
  split
  · refine (Done.matchType l _ _ (by decide)).seq fun x1 h1 => ?_
    refine (Done.matchType x1.2 _ _ (by decide)).seq fun x2 h2 => ?_
    refine (done_parseFunctionParameters n (m - 1) x2.2 (by omega) (by omega)).seq fun x3 h3 => ?_
    refine (Done.matchType x3.2 _ _ (by decide)).seq fun x4 h4 => ?_
    refine (Done.const _ (settles_parsePrimitiveType x4.2)).seq fun x5 h5 => ?_
    refine (Done.matchType x5.2 _ _ (by decide)).seq fun x6 h6 => ?_
    refine (done_parseBodyOrForward n (m - 1) x6.2 (by omega) (by omega)).seq fun x7 h7 => ?_
    refine (Done.matchType x7.2 _ _ (by decide)).seq fun x8 h8 => ?_
    exact Done.ok _ _ (by omega)
  · exact Done.parserError _ _ _ _ _

theorem done_parseBlockDecl : ∀ (n m : Nat) (statementNodes : List Stmt) (l : Lexer), l.measure ≤ m
    →
    100 * m + 2 ≤ n →
    Done n (fun l' => l'.measure ≤ m) (fun j => parseBlockDecl j statementNodes l) := by
  intro n
  induction n with
  | zero =>
    intro m statementNodes l hm hn
    omega
  | succ n ih_parseBlockDecl =>
    intro m statementNodes l hm hn
    refine Done.succ (fun j => by rw [parseBlockDecl]) ?_
    split
    · refine (done_parseConstantDefinitionList n m _ l (by omega) (by omega)).seq fun x1 h1 => ?_
      exact (ih_parseBlockDecl (m - 1) _ x1.2 (by omega) (by omega)).mono fun l' h' => by omega
    · refine (done_parseVariableDeclarationList n m _ l (by omega) (by omega)).seq fun x1 h1 => ?_
      exact (ih_parseBlockDecl (m - 1) _ x1.2 (by omega) (by omega)).mono fun l' h' => by omega
    · refine (done_parseProcedureDeclaration n m _ l (by omega) (by omega)).seq fun x1 h1 => ?_
      exact (ih_parseBlockDecl (m - 1) _ x1.2 (by omega) (by omega)).mono fun l' h' => by omega
    · refine (done_parseFunctionDeclaration n m _ l (by omega) (by omega)).seq fun x1 h1 => ?_
      exact (ih_parseBlockDecl (m - 1) _ x1.2 (by omega) (by omega)).mono fun l' h' => by omega
    · exact Done.ok _ _ (by omega)
    · exact Done.parserError _ _ _ _ _

theorem done_parseBlock : ∀ (n m : Nat) (l : Lexer), l.measure ≤ m →
    100 * m + 2 ≤ n →
    Done n (fun l' => l'.measure < m) (fun j => parseBlock j l) := by
  intro n m l hm hn
  unfold parseBlock
  split
  · refine (done_parseBlockDecl n m _ l (by omega) (by omega)).seq fun x1 h1 => ?_
    refine (done_parseCompoundStatement n m x1.2 (by omega) (by omega)).seq fun x2 h2 => ?_
    exact Done.ok _ _ (by omega)
  · refine (done_parseBlockDecl n m _ l (by omega) (by omega)).seq fun x1 h1 => ?_
    refine (done_parseCompoundStatement n m x1.2 (by omega) (by omega)).seq fun x2 h2 => ?_
    exact Done.ok _ _ (by omega)
  · refine (done_parseBlockDecl n m _ l (by omega) (by omega)).seq fun x1 h1 => ?_
    refine (done_parseCompoundStatement n m x1.2 (by omega) (by omega)).seq fun x2 h2 => ?_
    exact Done.ok _ _ (by omega)
  · refine (done_parseBlockDecl n m _ l (by omega) (by omega)).seq fun x1 h1 => ?_
    refine (done_parseCompoundStatement n m x1.2 (by omega) (by omega)).seq fun x2 h2 => ?_
    exact Done.ok _ _ (by omega)
  · refine (done_parseBlockDecl n m _ l (by omega) (by omega)).seq fun x1 h1 => ?_
    refine (done_parseCompoundStatement n m x1.2 (by omega) (by omega)).seq fun x2 h2 => ?_
    exact Done.ok _ _ (by omega)
  · exact Done.parserError _ _ _ _ _

theorem done_parseProgram : ∀ (n m : Nat) (l : Lexer), l.measure ≤ m →
    100 * m + 1 ≤ n →
    Done n (fun l' => l'.measure < m) (fun j => parseProgram j l) := by
  intro n m l hm hn
  unfold parseProgram
  split
  · refine (Done.matchType l _ _ (by decide)).seq fun x1 h1 => ?_
    refine (Done.matchType x1.2 _ _ (by decide)).seq fun x2 h2 => ?_
    refine (Done.matchType x2.2 _ _ (by decide)).seq fun x3 h3 => ?_
    refine (done_parseBlock n (m - 1) x3.2 (by omega) (by omega)).seq fun x4 h4 => ?_
    refine (Done.matchType x4.2 _ _ (by decide)).seq fun x5 h5 => ?_
    exact Done.ok _ _ (by omega)
  · exact Done.parserError _ _ _ _ _


theorem measure_new {source : List Char} {lexer : Lexer} (h : Lexer.new source = .ok lexer) :
    lexer.measure ≤ source.length + 1 := by
  unfold Lexer.new at h
  split at h
  · rename_i tok s hr
    cases h
    unfold Lexer.measure
    rcases readNextToken_length hr with ⟨h1, h2, h3⟩ | h1
    · simp [h3]
      split_ifs <;> omega
    · dsimp only at h1 ⊢
      split_ifs <;> omega
  · cases h

theorem new_fuel (source : List Char) : Lexer.new source ≠ .error .outOfFuel := by
  unfold Lexer.new
  split
  · simp
  · rename_i e hr
    intro h
    cases h
    exact readNextToken_fuel _ hr

theorem parseSource_settles (source : List Char) :
    parseSource (100 * (source.length + 1) + 1) source ≠ .error .outOfFuel ∧
    ∀ fuel, 100 * (source.length + 1) + 1 ≤ fuel →
      parseSource fuel source = parseSource (100 * (source.length + 1) + 1) source := by
  unfold parseSource
  cases hnew : Lexer.new source with
  | error e =>
    refine ⟨?_, fun fuel _ => rfl⟩
    intro h
    cases h
    exact new_fuel source hnew
  | ok lexer =>
    obtain ⟨h1, h2⟩ := done_parseProgram (100 * (source.length + 1) + 1) (source.length + 1)
      lexer (measure_new hnew) (Nat.le_refl _)
    dsimp only at h1 h2 ⊢
    refine ⟨?_, fun fuel hf => by rw [h1 fuel hf]⟩
    cases hp : parseProgram (100 * (source.length + 1) + 1) lexer with
    | error e =>
      rw [hp] at h2
      intro h
      cases h
      exact h2 rfl
    | ok x =>
      obtain ⟨program, l'⟩ := x
      simp

/-- C40 (the front end terminates). For every source text, the construction of the lexer
and `parseProgram` with the fuel `100 * (length + 1) + 1` or more give one result, which
does not depend on the fuel and is a program, a `LexerException` or a `ParserException`,
never the exhaustion of the fuel. The lexer uses no fuel: a run of `readNextToken` returns
the token `EOI` at the end of the input and otherwise leaves fewer characters than it
found, and it never ends with the exhaustion of fuel. A matched token leaves a smaller
lexer, and the rules of the parser settle within `100 * m + rank` calls on a lexer of the
measure `m`, where `rank` is the grammar level of the rule: a rule calls a rule of a lower
level, or it has matched a token before the call. This is stated here for the rules
`parseExpression` (level 9), `parseStatement` (level 3), `parseBlockDecl` (level 2) and
`parseProgram` (level 1). -/
theorem C40_front_end_terminates (source : List Char) :
    (∃ r : Except FrontError Program, r ≠ .error .outOfFuel ∧
      ∀ fuel, 100 * (source.length + 1) + 1 ≤ fuel → parseSource fuel source = r) ∧
    (∀ fuel, 100 * (source.length + 1) + 1 ≤ fuel →
      (∃ program, parseSource fuel source = .ok program) ∨
      (∃ message position, parseSource fuel source = .error (.lexer message position)) ∨
      (∃ rule actual expected,
        parseSource fuel source = .error (.parser rule actual expected))) ∧
    (∀ (c : Cursor) (tok : Token) (s : Cursor), readNextToken c = .ok (tok, s) →
      (c.is = [] ∧ tok.type = .EOI ∧ s.is = []) ∨ s.is.length < c.is.length) ∧
    (∀ c : Cursor, readNextToken c ≠ .error .outOfFuel) ∧
    (∀ (l l' : Lexer) (t : TokenType) (tok : Token), t ≠ .EOI →
      l.matchToken t = .ok (some tok, l') → l'.measure < l.measure) ∧
    (∀ (n m : Nat) (l : Lexer), l.measure ≤ m → 100 * m + 9 ≤ n →
      Done n (fun l' => l'.measure < m) (fun j => parseExpression j l)) ∧
    (∀ (n m : Nat) (l : Lexer), l.measure ≤ m → 100 * m + 3 ≤ n →
      Done n (fun l' => l'.measure ≤ m) (fun j => parseStatement j l)) ∧
    (∀ (n m : Nat) (statementNodes : List Stmt) (l : Lexer), l.measure ≤ m →
      100 * m + 2 ≤ n →
      Done n (fun l' => l'.measure ≤ m) (fun j => parseBlockDecl j statementNodes l)) ∧
    (∀ (n m : Nat) (l : Lexer), l.measure ≤ m → 100 * m + 1 ≤ n →
      Done n (fun l' => l'.measure < m) (fun j => parseProgram j l)) := by
  obtain ⟨h1, h2⟩ := parseSource_settles source
  refine ⟨⟨_, h1, h2⟩, fun fuel hf => ?_, fun c tok s h => readNextToken_length h,
    readNextToken_fuel, fun l l' t tok ht h => matchToken_measure ht h,
    done_parseExpression, done_parseStatement, done_parseBlockDecl, done_parseProgram⟩
  rw [h2 fuel hf]
  cases hr : parseSource (100 * (source.length + 1) + 1) source with
  | ok program => exact Or.inl ⟨program, rfl⟩
  | error e =>
    cases e with
    | lexer message position => exact Or.inr (Or.inl ⟨message, position, rfl⟩)
    | parser rule actual expected => exact Or.inr (Or.inr ⟨rule, actual, expected, rfl⟩)
    | outOfFuel => exact absurd hr h1

/-- Witness of C40: the source `program t; begin end.` of 21 characters: from the fuel 2201
on, lexing and parsing it give one result, which is not the exhaustion of the fuel. -/
theorem C40_front_end_terminates_witness :
    ∃ r : Except FrontError Program, r ≠ .error .outOfFuel ∧
      ∀ fuel, 100 * ("program t; begin end.".toList.length + 1) + 1 ≤ fuel →
        parseSource fuel "program t; begin end.".toList = r :=
  (C40_front_end_terminates "program t; begin end.".toList).1
end Mila
